import Mathlib

/-!
# Mineways voxel pipeline: grouping, topology repair, hollowing and faces

A shallow embedding of the group analysis and repair passes of
`MinewaysMap/ObjFileManip.c` (`findGroups`, `checkAndRemoveBubbles`,
`fixTouchingEdges`, `connectCornerTips`, `deleteFloatingGroups` and the loop of
`filterBox` that drives them), of the hollowing passes (`hollowBottomOfModel`,
`hollowSeed`), of the face generation (`generateBlockDataAndStatistics`,
`checkMakeFace`, `saveVertices`, `saveFaceLoop`), of `getCompositeSwatch` and
`saveTextureUVs`, of the loading of the grid (`initializeWorldData`, `populateBox`,
`extractChunk`, `boxIndexToLoc`) and of the order of the phases in `SaveVolume`,
followed by theorems about them.

Conventions of the embedding.

* The C globals (`gBoxData`, `gGroupList`, `gSolidGroups`, ...) are the fields of
  one record, `ExportState`, which every function takes and returns.
* `gBoxData` is addressed by the grid coordinate `(x, y, z)` instead of the
  linear index `BOX_INDEX(x,y,z) = x*gBoxSizeYZ + z*gBoxSize[Y] + y`; adding
  `gFaceOffset[d]` to an index is the step `gFaceDirectionVector[d]` on the
  coordinate. Directions are numbered as in `gFaceOffset`:
  0 = -X, 1 = -Y, 2 = -Z, 3 = +X, 4 = +Y, 5 = +Z.
* C `int` is `Int`, `unsigned char` is `Nat`; indices into `gGroupList` are `Nat`.
* `for` loops over a box are folds over the list of its cells in the loop's
  order; the `while` loop over the seed stack and the `do/while` loop of
  `filterBox` carry an explicit bound on their number of iterations.
* The headers that declare the block ids, the block definition table and the
  export flags are not among the sources: the ids and the table are the
  parameter `BlockInfo`, each export flag is a boolean field of `Options`.
-/

namespace Mineways

/-! ## Data model -/

/-- Modelled from the spec: the block-id header is not among the sources; the grid
is "zero-initialized (= air)", so the air block id is 0. -/
def BLOCK_AIR : Nat := 0

def NO_GROUP_SET : Nat := 0

def SURROUND_AIR_GROUP : Nat := 1

def DEBUG_CORNER_TOUCH_TYPE : Nat := 129

/-- Declarations of the block header used by the embedded functions, taken as
parameters: four block ids and three capability flags of `gBlockDefinitions`
(`flag t` stands for `gBlockDefinitions[t].flags & flag`). -/
structure BlockInfo where
  BLOCK_GLASS : Nat
  BLOCK_LEAVES : Nat
  BLOCK_LAVA : Nat
  BLOCK_VINES : Nat
  BLF_ENTRANCE : Nat → Bool
  BLF_LEAF_PART : Nat → Bool
  BLF_TREE_PART : Nat → Bool

/-- The bits of `gOptions->exportFlags` read by the embedded functions, and
`gOptions->pEFD->floaterCountVal`. -/
structure Options where
  EXPT_FILL_BUBBLES : Bool
  EXPT_SEAL_ENTRANCES : Bool
  EXPT_SEAL_SIDE_TUNNELS : Bool
  EXPT_CONNECT_PARTS : Bool
  EXPT_CONNECT_ALL_EDGES : Bool
  EXPT_CONNECT_CORNER_TIPS : Bool
  EXPT_DELETE_FLOATING_OBJECTS : Bool
  EXPT_DEBUG_SHOW_WELDS : Bool
  floaterCountVal : Int
deriving DecidableEq

structure IPoint where
  x : Int
  y : Int
  z : Int
deriving DecidableEq

structure IBox where
  min : IPoint
  max : IPoint
deriving DecidableEq

structure BoxCell where
  type : Nat
  origType : Nat
  flatFlags : Nat
  data : Nat
  group : Nat
deriving DecidableEq

structure BoxGroup where
  groupID : Nat
  population : Int
  solid : Bool
  bounds : IBox
deriving DecidableEq

/-- The counters of `gStats` written by the embedded passes. -/
structure ExportStatistics where
  bubblesFound : Int
  solidGroupsMerged : Int
  nonManifoldEdgesFound : Int
  blocksManifoldWelded : Int
  blocksCornertipWelded : Int
  numberManifoldPasses : Int
  blocksFloaterDeleted : Int
  floaterGroupsDeleted : Int
deriving DecidableEq

structure TouchCell where
  obscurity : Int
  count : Int
  connections : Nat
deriving DecidableEq

/-- A record of `touchList`; `boxIndex` is the coordinate of the cell, `distance`
the exact value of the squared distance that the C code holds in a `float`. -/
structure TouchRecord where
  boxIndex : IPoint
  obscurity : Int
  count : Int
  distance : Rat
deriving DecidableEq

structure ExportState where
  gBoxData : IPoint → BoxCell
  gBoxSize : IPoint
  gSolidBox : IBox
  gAirBox : IBox
  gGroupList : Nat → BoxGroup
  gGroupCount : Nat
  gSolidGroups : Int
  gAirGroups : Int
  gStats : ExportStatistics
  gOptions : Options
  gTouchGrid : IPoint → TouchCell
  gTouchSize : Int

/-- The test `type > BLOCK_AIR`. -/
def BoxCell.isSolid (c : BoxCell) : Bool := decide (BLOCK_AIR < c.type)

def setCell (d : IPoint → BoxCell) (p : IPoint) (c : BoxCell) : IPoint → BoxCell :=
  fun q => if q = p then c else d q

def setGroup (l : Nat → BoxGroup) (g : Nat) (r : BoxGroup) : Nat → BoxGroup :=
  fun i => if i = g then r else l i

/-- The integers `lo, lo+1, ..., hi` (empty when `hi < lo`). -/
def intRange (lo hi : Int) : List Int :=
  (List.range (hi + 1 - lo).toNat).map (fun (i : Nat) => lo + (i : Int))

/-- The cells visited by `for x .. for z .. for y` (all ascending) over a box. -/
def boxCells (b : IBox) : List IPoint :=
  (intRange b.min.x b.max.x).flatMap fun x =>
    (intRange b.min.z b.max.z).flatMap fun z =>
      (intRange b.min.y b.max.y).map fun y => IPoint.mk x y z

/-- The cells visited by the scan of `findGroups`: x and z ascending, y descending. -/
def scanCells (b : IBox) : List IPoint :=
  (intRange b.min.x b.max.x).flatMap fun x =>
    (intRange b.min.z b.max.z).flatMap fun z =>
      (intRange b.min.y b.max.y).reverse.map fun y => IPoint.mk x y z

def IBox.contains (b : IBox) (p : IPoint) : Bool :=
  decide (b.min.x ≤ p.x) && decide (p.x ≤ b.max.x) &&
  decide (b.min.y ≤ p.y) && decide (p.y ≤ b.max.y) &&
  decide (b.min.z ≤ p.z) && decide (p.z ≤ b.max.z)

/-- The whole array: coordinates `0 .. gBoxSize-1` on each axis. -/
def arrayBox (s : ExportState) : IBox :=
  ⟨⟨0, 0, 0⟩, ⟨s.gBoxSize.x - 1, s.gBoxSize.y - 1, s.gBoxSize.z - 1⟩⟩

/-- The step `gFaceDirectionVector[faceDirection]` (`getNeighborUnsafe`). -/
def getNeighborUnsafe (faceDirection : Nat) (p : IPoint) : IPoint :=
  match faceDirection with
  | 0 => { p with x := p.x - 1 }
  | 1 => { p with y := p.y - 1 }
  | 2 => { p with z := p.z - 1 }
  | 3 => { p with x := p.x + 1 }
  | 4 => { p with y := p.y + 1 }
  | 5 => { p with z := p.z + 1 }
  | _ => p

/-- The function `getNeighbor`: `none` stands for the return value 0. -/
def getNeighbor (airBox : IBox) (faceDirection : Nat) (p : IPoint) : Option IPoint :=
  match faceDirection with
  | 0 => if p.x - 1 < airBox.min.x then none else some { p with x := p.x - 1 }
  | 1 => if p.y - 1 < airBox.min.y then none else some { p with y := p.y - 1 }
  | 2 => if p.z - 1 < airBox.min.z then none else some { p with z := p.z - 1 }
  | 3 => if p.x + 1 > airBox.max.x then none else some { p with x := p.x + 1 }
  | 4 => if p.y + 1 > airBox.max.y then none else some { p with y := p.y + 1 }
  | 5 => if p.z + 1 > airBox.max.z then none else some { p with z := p.z + 1 }
  | _ => some p

def addBounds (loc : IPoint) (b : IBox) : IBox :=
  ⟨⟨if loc.x < b.min.x then loc.x else b.min.x,
    if loc.y < b.min.y then loc.y else b.min.y,
    if loc.z < b.min.z then loc.z else b.min.z⟩,
   ⟨if loc.x > b.max.x then loc.x else b.max.x,
    if loc.y > b.max.y then loc.y else b.max.y,
    if loc.z > b.max.z then loc.z else b.max.z⟩⟩

def addBoundsToBounds (inBounds : IBox) (b : IBox) : IBox :=
  ⟨⟨if inBounds.min.x < b.min.x then inBounds.min.x else b.min.x,
    if inBounds.min.y < b.min.y then inBounds.min.y else b.min.y,
    if inBounds.min.z < b.min.z then inBounds.min.z else b.min.z⟩,
   ⟨if inBounds.max.x > b.max.x then inBounds.max.x else b.max.x,
    if inBounds.max.y > b.max.y then inBounds.max.y else b.max.y,
    if inBounds.max.z > b.max.z then inBounds.max.z else b.max.z⟩⟩

/-! ## findGroups -/

/-- One iteration of the innermost loop of `addVolumeToGroup`. -/
def addVolumeCell (groupID : Nat) (s : ExportState) (loc : IPoint) : ExportState :=
  let pGroup := s.gGroupList groupID
  { s with
    gGroupList := setGroup s.gGroupList groupID { pGroup with population := pGroup.population + 1 }
    gBoxData := setCell s.gBoxData loc { s.gBoxData loc with group := groupID } }

def addVolumeToGroup (s : ExportState) (groupID : Nat) (minx miny minz maxx maxy maxz : Int) :
    ExportState :=
  (boxCells ⟨⟨minx, miny, minz⟩, ⟨maxx, maxy, maxz⟩⟩).foldl (addVolumeCell groupID) s

/-- The update made in `propagateSeed` when the cell `newPt` joins the group of
index `g`: the cell takes the group id, the population grows by one and the
bounds take in the cell. -/
def absorb (s : ExportState) (g : Nat) (newPt : IPoint) : ExportState :=
  let pGroup := s.gGroupList g
  { s with
    gBoxData := setCell s.gBoxData newPt { s.gBoxData newPt with group := pGroup.groupID }
    gGroupList := setGroup s.gGroupList g
      { pGroup with population := pGroup.population + 1,
                    bounds := addBounds newPt pGroup.bounds } }

/-- The body of the loop over `faceDirection` in `propagateSeed`; `g` is the index
of `pGroup` in `gGroupList`, the head of `seedStack` is its top. -/
def propagateDir (point : IPoint) (g : Nat) (acc : ExportState × List IPoint)
    (faceDirection : Nat) : ExportState × List IPoint :=
  match getNeighbor acc.1.gAirBox faceDirection point with
  | none => acc
  | some newPt =>
    if (acc.1.gBoxData newPt).group = NO_GROUP_SET ∧
        (acc.1.gBoxData newPt).isSolid = (acc.1.gGroupList g).solid then
      (absorb acc.1 g newPt, newPt :: acc.2)
    else acc

def propagateSeed (bi : BlockInfo) (s : ExportState) (point : IPoint) (g : Nat)
    (seedStack : List IPoint) : ExportState × List IPoint :=
  if s.gOptions.EXPT_SEAL_ENTRANCES ∧ (s.gGroupList g).solid = false ∧
      bi.BLF_ENTRANCE (s.gBoxData point).origType = true then
    (s, seedStack)
  else
    (List.range 6).foldl (propagateDir point g) (s, seedStack)

/-- The loop `while ( seedCount > 0 )` of `findGroups`, run for at most `fuel`
iterations. -/
def seedLoop (bi : BlockInfo) (g : Nat) : Nat → ExportState → List IPoint → ExportState
  | 0, s, _ => s
  | _ + 1, s, [] => s
  | fuel + 1, s, seedLoc :: seedStack =>
    let r := propagateSeed bi s seedLoc g seedStack
    seedLoop bi g fuel r.1 r.2

/-- The start of a new group at the cell `loc` in the scan of `findGroups`, up to
the first call of `propagateSeed`. -/
def newGroup (s : ExportState) (loc : IPoint) : ExportState :=
  let gGroupCount := s.gGroupCount + 1
  let old := s.gGroupList gGroupCount
  let solid := (s.gBoxData loc).isSolid
  let pGroup : BoxGroup :=
    { groupID := gGroupCount
      population := if gGroupCount = SURROUND_AIR_GROUP then old.population + 1 else 1
      bounds := ⟨loc, loc⟩
      solid := solid }
  { s with
    gGroupCount := gGroupCount
    gGroupList := setGroup s.gGroupList gGroupCount pGroup
    gBoxData := setCell s.gBoxData loc { s.gBoxData loc with group := gGroupCount }
    gSolidGroups := if solid then s.gSolidGroups + 1 else s.gSolidGroups
    gAirGroups := if solid then s.gAirGroups else s.gAirGroups + 1 }

/-- The body of the scan of `findGroups` at one cell. The seed loop is given as
many iterations as the air box has cells. -/
def findGroupsCell (bi : BlockInfo) (s : ExportState) (loc : IPoint) : ExportState :=
  if (s.gBoxData loc).group = NO_GROUP_SET then
    let s1 := newGroup s loc
    let r := propagateSeed bi s1 loc s1.gGroupCount []
    seedLoop bi s1.gGroupCount (boxCells s.gAirBox).length r.1 r.2
  else s

/-- The five calls of `addVolumeToGroup` made when side tunnels are sealed. -/
def sealSides (s : ExportState) : ExportState :=
  let sx := s.gBoxSize.x
  let sy := s.gBoxSize.y
  let sz := s.gBoxSize.z
  let s := addVolumeToGroup s SURROUND_AIR_GROUP 0 0 0 (sx - 1) 0 (sz - 1)
  let s := addVolumeToGroup s SURROUND_AIR_GROUP 0 1 0 (sx - 1) (sy - 1) 0
  let s := addVolumeToGroup s SURROUND_AIR_GROUP 0 1 (sz - 1) (sx - 1) (sy - 1) (sz - 1)
  let s := addVolumeToGroup s SURROUND_AIR_GROUP 0 1 1 0 (sy - 1) (sz - 2)
  addVolumeToGroup s SURROUND_AIR_GROUP (sx - 1) 1 1 (sx - 1) (sy - 1) (sz - 2)

def findGroups (bi : BlockInfo) (s : ExportState) : ExportState :=
  let g1 := s.gGroupList SURROUND_AIR_GROUP
  let g1 : BoxGroup := { g1 with population := 0 }
  let s : ExportState := { s with gGroupList := setGroup s.gGroupList SURROUND_AIR_GROUP g1 }
  let s := if s.gOptions.EXPT_SEAL_SIDE_TUNNELS then sealSides s else s
  let s := (scanCells s.gAirBox).foldl (findGroupsCell bi) s
  if s.gOptions.EXPT_SEAL_SIDE_TUNNELS then
    let g1 := s.gGroupList SURROUND_AIR_GROUP
    let g1 : BoxGroup := { g1 with bounds := addBoundsToBounds s.gAirBox g1.bounds }
    { s with gGroupList := setGroup s.gGroupList SURROUND_AIR_GROUP g1 }
  else s

/-! ## checkAndRemoveBubbles -/

def setFlag (a : Nat → Int) (i : Nat) (v : Int) : Nat → Int :=
  fun j => if j = i then v else a j

/-- The body of the loops of `findNeighboringGroups` at one cell. -/
def findNeighboringCell (s : ExportState) (groupID : Nat) (neighborGroups : Nat → Int)
    (loc : IPoint) : Nat → Int :=
  if (s.gBoxData loc).group = groupID then
    (List.range 6).foldl
      (fun ng faceDirection => setFlag ng (s.gBoxData (getNeighborUnsafe faceDirection loc)).group 1)
      neighborGroups
  else neighborGroups

def findNeighboringGroups (s : ExportState) (bounds : IBox) (groupID : Nat)
    (neighborGroups : Nat → Int) : Nat → Int :=
  (boxCells bounds).foldl (findNeighboringCell s groupID) neighborGroups

/-- The locals `leafFound`, `woodSearch`, `leafData` of the leaf test in `fillGroups`. -/
structure LeafSearch where
  leafFound : Bool
  woodSearch : Bool
  leafData : Nat

def leafSearchStep (bi : BlockInfo) (s : ExportState) (loc : IPoint) (a : LeafSearch)
    (i : Nat) : LeafSearch :=
  if a.woodSearch then
    let c := s.gBoxData (getNeighborUnsafe i loc)
    if bi.BLF_LEAF_PART c.type then { a with leafFound := true, leafData := c.data }
    else if !(bi.BLF_TREE_PART c.type) && decide (c.type ≠ BLOCK_AIR) then { a with woodSearch := false }
    else a
  else a

/-- The type and data that `fillGroups` writes into a cell whose group differs in
solidity from the master group (`(unsigned char)fillType` is `fillType % 256`). -/
def fillCellContent (bi : BlockInfo) (s : ExportState) (loc : IPoint) (solid : Bool)
    (fillType : Nat) : BoxCell :=
  let c := s.gBoxData loc
  let c1 : BoxCell :=
    if solid && decide (fillType = bi.BLOCK_GLASS) then
      let r := (List.range 6).foldl (leafSearchStep bi s loc) ⟨false, true, 0⟩
      if r.woodSearch && r.leafFound then { c with type := bi.BLOCK_LEAVES, data := r.leafData }
      else { c with type := fillType % 256 }
    else { c with type := fillType % 256 }
  { c1 with data := 0 }

/-- The body of the loops of `fillGroups` at one cell. -/
def fillGroupsCell (bi : BlockInfo) (masterGroupID : Nat) (solid : Bool) (fillType : Nat)
    (targetGroupIDs : Nat → Int) (s : ExportState) (loc : IPoint) : ExportState :=
  if targetGroupIDs (s.gBoxData loc).group > 0 then
    let gi := (s.gBoxData loc).group
    let c := if (s.gGroupList gi).solid ≠ solid then fillCellContent bi s loc solid fillType
             else s.gBoxData loc
    let pGroup := s.gGroupList gi
    let l1 := setGroup s.gGroupList gi { pGroup with population := pGroup.population - 1 }
    let pMaster := l1 masterGroupID
    let l2 := setGroup l1 masterGroupID
      { pMaster with population := pMaster.population + 1, bounds := addBounds loc pMaster.bounds }
    { s with
      gBoxData := setCell s.gBoxData loc { c with group := masterGroupID }
      gGroupList := l2 }
  else s

def fillGroups (bi : BlockInfo) (s : ExportState) (bounds : IBox) (masterGroupID : Nat)
    (solid : Bool) (fillType : Nat) (targetGroupIDs : Nat → Int) : ExportState :=
  (boxCells bounds).foldl (fillGroupsCell bi masterGroupID solid fillType targetGroupIDs) s

/-- The locals of the loop of `checkAndRemoveBubbles` that looks for the master
group, with the two counters it changes. -/
structure MasterSearch where
  maxPop : Int
  masterGroupID : Int
  neighborGroups : Nat → Int
  solidGroupsMerged : Int
  gSolidGroups : Int

def masterSearchStep (l : Nat → BoxGroup) (a : MasterSearch) (groupID : Nat) : MasterSearch :=
  if a.neighborGroups groupID > 0 then
    if (l groupID).solid then
      let a1 := if (l groupID).population > a.maxPop then
          { a with maxPop := (l groupID).population, masterGroupID := (groupID : Int) }
        else a
      { a1 with solidGroupsMerged := a1.solidGroupsMerged + 1, gSolidGroups := a1.gSolidGroups - 1 }
    else { a with neighborGroups := setFlag a.neighborGroups groupID 0 }
  else a

/-- The groups `first, first+1, ..., gGroupCount` of a loop over the group list. -/
def groupRange (first gGroupCount : Nat) : List Nat :=
  List.range' first (gGroupCount + 1 - first)

def unionBoundsStep (l : Nat → BoxGroup) (neighborGroups : Nat → Int) (b : IBox)
    (groupID : Nat) : IBox :=
  if neighborGroups groupID > 0 then addBoundsToBounds (l groupID).bounds b else b

def emptyBounds : IBox := ⟨⟨999999, 999999, 999999⟩, ⟨-999999, -999999, -999999⟩⟩

/-- The flags of `neighborGroups` after the call of `findNeighboringGroups` for the
bubble `i`. -/
def bubbleNeighbors (s : ExportState) (i : Nat) : Nat → Int :=
  findNeighboringGroups s (s.gGroupList i).bounds (s.gGroupList i).groupID
    (setFlag (fun _ => 0) (s.gGroupList i).groupID 1)

/-- The loop of `checkAndRemoveBubbles` that looks for the master group of the
bubble `i`. -/
def bubbleMaster (s : ExportState) (i : Nat) : MasterSearch :=
  (groupRange SURROUND_AIR_GROUP s.gGroupCount).foldl (masterSearchStep s.gGroupList)
    ⟨0, -1, bubbleNeighbors s i, s.gStats.solidGroupsMerged, s.gSolidGroups⟩

/-- The state after the search for the master group, with "one added back in for
the master solid group". -/
def bubbleCounted (s : ExportState) (m : MasterSearch) : ExportState :=
  { s with
    gStats := { s.gStats with solidGroupsMerged := m.solidGroupsMerged - 1 }
    gSolidGroups := m.gSolidGroups + 1 }

/-- The union of the bounds of the groups flagged in `neighborGroups`. -/
def unionBounds (s : ExportState) (neighborGroups : Nat → Int) : IBox :=
  (groupRange (SURROUND_AIR_GROUP + 1) s.gGroupCount).foldl
    (unionBoundsStep s.gGroupList neighborGroups) emptyBounds

/-- The end of either branch of `checkAndRemoveBubbles`: the air group is taken off
the count. -/
def bubbleDone (s : ExportState) : ExportState :=
  { s with
    gStats := { s.gStats with bubblesFound := s.gStats.bubblesFound + 1 }
    gAirGroups := s.gAirGroups - 1 }

/-- The body of the loop of `checkAndRemoveBubbles` for group `i`. -/
def removeBubble (bi : BlockInfo) (fillType : Nat) (s : ExportState) (i : Nat) : ExportState :=
  if (s.gGroupList i).solid = false then
    let m := bubbleMaster s i
    let s1 := bubbleCounted s m
    if m.masterGroupID ≥ 0 then
      let ng := setFlag (setFlag m.neighborGroups m.masterGroupID.toNat 0) i 1
      bubbleDone (fillGroups bi s1 (unionBounds s1 ng) m.masterGroupID.toNat true fillType ng)
    else
      let ng := setFlag m.neighborGroups i 1
      bubbleDone (fillGroups bi s1 (s1.gGroupList i).bounds i true fillType ng)
  else s

def checkAndRemoveBubbles (bi : BlockInfo) (s : ExportState) : ExportState :=
  let fillType := if s.gOptions.EXPT_FILL_BUBBLES then bi.BLOCK_GLASS else BLOCK_AIR
  (groupRange (SURROUND_AIR_GROUP + 1) s.gGroupCount).foldl (removeBubble bi fillType) s

/-! ## connectCornerTips -/

def IPoint.offset (p : IPoint) (dx dy dz : Int) : IPoint := ⟨p.x + dx, p.y + dy, p.z + dz⟩

def checkForCorner (s : ExportState) (boxIndex : IPoint) (offx offz : Int) : Bool :=
  let tipCornerIndex := boxIndex.offset offx (-1) offz
  if (s.gBoxData tipCornerIndex).type ≠ BLOCK_AIR ∧
      (s.gBoxData tipCornerIndex).group ≠ (s.gBoxData boxIndex).group then
    ((List.range' 1 6).all fun i =>
      let x : Int := if i ≥ 4 then 1 else 0
      let y : Int := if i % 4 ≥ 2 then 1 else 0
      let z : Int := ((i % 2 : Nat) : Int)
      decide ((s.gBoxData (boxIndex.offset (x * offx) (-y) (z * offz))).type = BLOCK_AIR))
  else false

/-- The body of the loops of `connectCornerTips` at one cell; the first component
is `filledTip`. -/
def connectCornerCell (acc : Bool × ExportState) (boxIndex : IPoint) : Bool × ExportState :=
  let s := acc.2
  if (s.gBoxData boxIndex).isSolid then
    if (s.gBoxData (boxIndex.offset 0 (-1) 0)).type = BLOCK_AIR then
      let hasCorner := checkForCorner s boxIndex (-1) (-1) || checkForCorner s boxIndex (-1) 1 ||
        checkForCorner s boxIndex 1 (-1) || checkForCorner s boxIndex 1 1
      if hasCorner then
        let airBoxIndex := boxIndex.offset 0 (-1) 0
        let a := s.gBoxData airBoxIndex
        let a1 : BoxCell :=
          if s.gOptions.EXPT_DEBUG_SHOW_WELDS then { a with type := DEBUG_CORNER_TOUCH_TYPE }
          else { a with type := (s.gBoxData boxIndex).type, data := (s.gBoxData boxIndex).data }
        let g := (s.gBoxData boxIndex).group
        let r := s.gGroupList g
        (true,
          { s with
            gBoxData := setCell s.gBoxData airBoxIndex { a1 with group := g }
            gStats := { s.gStats with blocksCornertipWelded := s.gStats.blocksCornertipWelded + 1 }
            gGroupList := setGroup s.gGroupList g
              { r with population := r.population + 1, bounds := addBounds airBoxIndex r.bounds } })
      else acc
    else acc
  else acc

/-- The cells visited by `connectCornerTips`: y from `min.y + 1` outermost, then x, then z. -/
def cornerCells (b : IBox) : List IPoint :=
  (intRange (b.min.y + 1) b.max.y).flatMap fun y =>
    (intRange b.min.x b.max.x).flatMap fun x =>
      (intRange b.min.z b.max.z).map fun z => IPoint.mk x y z

def connectCornerTips (s : ExportState) : Bool × ExportState :=
  (cornerCells s.gSolidBox).foldl connectCornerCell (false, s)

/-! ## fixTouchingEdges -/

def TOUCH_MX_MY : Nat := 0x001
def TOUCH_MX_MZ : Nat := 0x002
def TOUCH_MX_PY : Nat := 0x004
def TOUCH_MX_PZ : Nat := 0x008
def TOUCH_MY_MZ : Nat := 0x010
def TOUCH_MY_PZ : Nat := 0x020
def TOUCH_PX_MY : Nat := 0x040
def TOUCH_PX_MZ : Nat := 0x080
def TOUCH_PX_PY : Nat := 0x100
def TOUCH_PX_PZ : Nat := 0x200
def TOUCH_PY_MZ : Nat := 0x400
def TOUCH_PY_PZ : Nat := 0x800

def setTouch (t : IPoint → TouchCell) (p : IPoint) (c : TouchCell) : IPoint → TouchCell :=
  fun q => if q = p then c else t q

/-- The inner loop of `computeObscurity` for one direction: does the ray from `loc`
meet a solid cell before it leaves the solid box. -/
def rayHit (s : ExportState) (loc : IPoint) (faceDirection : Nat) : Bool :=
  let axis := faceDirection % 3
  let locAxis := if axis = 0 then loc.x else if axis = 1 then loc.y else loc.z
  let minAxis := if axis = 0 then s.gSolidBox.min.x else if axis = 1 then s.gSolidBox.min.y
    else s.gSolidBox.min.z
  let maxAxis := if axis = 0 then s.gSolidBox.max.x else if axis = 1 then s.gSolidBox.max.y
    else s.gSolidBox.max.z
  let sign : Int := if faceDirection < 3 then -1 else 1
  let cellsToLoop : Int := if faceDirection < 3 then locAxis - minAxis else maxAxis - locAxis
  (List.range cellsToLoop.toNat).any fun i =>
    let k : Int := sign * ((i : Int) + 1)
    (s.gBoxData (if axis = 0 then loc.offset k 0 0 else if axis = 1 then loc.offset 0 k 0
      else loc.offset 0 0 k)).isSolid

def computeObscurity (s : ExportState) (boxIndex : IPoint) : Int :=
  let obscurity := (s.gTouchGrid boxIndex).obscurity
  if obscurity = 0 then
    (List.range 6).foldl (fun o faceDirection => o + (if rayHit s boxIndex faceDirection then 1 else 0))
      obscurity
  else obscurity

/-- The two air cells and the two connection bits that `checkForTouchingEdge`
selects, `none` when `foundPair` stays 0. -/
def touchPair (s : ExportState) (boxIndex : IPoint) (offx offy offz : Int) :
    Option (IPoint × IPoint × Nat × Nat) :=
  if offx = 1 then
    if (s.gBoxData (boxIndex.offset 0 offy offz)).type = BLOCK_AIR then
      let n1index := boxIndex.offset 1 0 0
      if offy > 0 then some (n1index, boxIndex.offset 0 1 0, TOUCH_MX_PY, TOUCH_PX_MY)
      else if offy < 0 then some (n1index, boxIndex.offset 0 (-1) 0, TOUCH_MX_MY, TOUCH_PX_PY)
      else if offz > 0 then some (n1index, boxIndex.offset 0 0 1, TOUCH_MX_PZ, TOUCH_PX_MZ)
      else some (n1index, boxIndex.offset 0 0 (-1), TOUCH_MX_MZ, TOUCH_PX_PZ)
    else none
  else
    if (s.gBoxData (boxIndex.offset 0 offy 0)).type = BLOCK_AIR then
      let n1index := boxIndex.offset 0 0 1
      if offy > 0 then some (n1index, boxIndex.offset 0 1 0, TOUCH_PY_MZ, TOUCH_MY_PZ)
      else some (n1index, boxIndex.offset 0 (-1) 0, TOUCH_MY_MZ, TOUCH_PY_PZ)
    else none

/-- The update of one touch-grid cell at the end of `checkForTouchingEdge`. -/
def touchMark (s : ExportState) (nindex : IPoint) (bits : Nat) : ExportState :=
  let c := s.gTouchGrid nindex
  { s with
    gTouchSize := if c.count = 0 then s.gTouchSize + 1 else s.gTouchSize
    gTouchGrid := setTouch s.gTouchGrid nindex
      { c with count := c.count + 1, connections := c.connections ||| bits } }

def checkForTouchingEdge (s : ExportState) (boxIndex : IPoint) (offx offy offz : Int) :
    ExportState :=
  let otherSolidIndex := boxIndex.offset offx offy offz
  if (s.gBoxData otherSolidIndex).isSolid then
    if s.gOptions.EXPT_CONNECT_ALL_EDGES ∨
        (s.gBoxData boxIndex).group ≠ (s.gBoxData otherSolidIndex).group then
      match touchPair s boxIndex offx offy offz with
      | none => s
      | some (n1index, n2index, n1neighbor, n2neighbor) =>
        let s : ExportState :=
          { s with gStats := { s.gStats with
              nonManifoldEdgesFound := s.gStats.nonManifoldEdgesFound + 1 } }
        let n1obscurity := computeObscurity s n1index
        let n2obscurity := computeObscurity s n2index
        let obscurityMatches := decide (n1obscurity = n2obscurity)
        let s := if n1obscurity ≥ n2obscurity then
            touchMark s n1index (if obscurityMatches then n1neighbor else 0)
          else s
        if n2obscurity ≥ n1obscurity then
          touchMark s n2index (if obscurityMatches then n2neighbor else 0)
        else s
    else s
  else s

/-- The body of the first loops of `fixTouchingEdges` at one cell (the sums for
`avgLoc` and `solidBlocks` are computed by `solidSum`). -/
def touchScanCell (s : ExportState) (boxIndex : IPoint) : ExportState :=
  if (s.gBoxData boxIndex).isSolid then
    let s := if (s.gBoxData (boxIndex.offset 1 0 0)).type = BLOCK_AIR then
        let s := checkForTouchingEdge s boxIndex 1 (-1) 0
        let s := checkForTouchingEdge s boxIndex 1 0 (-1)
        let s := checkForTouchingEdge s boxIndex 1 1 0
        checkForTouchingEdge s boxIndex 1 0 1
      else s
    if (s.gBoxData (boxIndex.offset 0 0 1)).type = BLOCK_AIR then
      let s := checkForTouchingEdge s boxIndex 0 (-1) 1
      checkForTouchingEdge s boxIndex 0 1 1
    else s
  else s

/-- The table behind the twelve blocks of `decrementNeighbors`, in their order:
the bit tested, the offset of the neighbour, the bit cleared there. -/
def touchTable : List (Nat × (Int × Int × Int) × Nat) :=
  [ (TOUCH_MX_MY, (-1, -1, 0), TOUCH_PX_PY), (TOUCH_MX_MZ, (-1, 0, -1), TOUCH_PX_PZ),
    (TOUCH_MY_MZ, (0, -1, -1), TOUCH_PY_PZ), (TOUCH_MX_PY, (-1, 1, 0), TOUCH_PX_MY),
    (TOUCH_MX_PZ, (-1, 0, 1), TOUCH_PX_MZ), (TOUCH_MY_PZ, (0, -1, 1), TOUCH_PY_MZ),
    (TOUCH_PX_MY, (1, -1, 0), TOUCH_MX_PY), (TOUCH_PX_MZ, (1, 0, -1), TOUCH_MX_PZ),
    (TOUCH_PY_MZ, (0, 1, -1), TOUCH_MY_PZ), (TOUCH_PX_PY, (1, 1, 0), TOUCH_MX_MY),
    (TOUCH_PX_PZ, (1, 0, 1), TOUCH_MX_MZ), (TOUCH_PY_PZ, (0, 1, 1), TOUCH_MY_MZ) ]

/-- The mask `~m` of a 32-bit `int`, as a natural number. -/
def bitNot32 (m : Nat) : Nat := 4294967295 - m

def decrementNeighbor (boxIndex : IPoint) (connections : Nat) (t : IPoint → TouchCell)
    (e : Nat × (Int × Int × Int) × Nat) : IPoint → TouchCell :=
  if connections &&& e.1 ≠ 0 then
    let offset := boxIndex.offset e.2.1.1 e.2.1.2.1 e.2.1.2.2
    let c := t offset
    setTouch t offset { c with count := c.count - 1, connections := c.connections &&& bitNot32 e.2.2 }
  else t

def decrementNeighbors (s : ExportState) (boxIndex : IPoint) : ExportState :=
  let connections := (s.gTouchGrid boxIndex).connections
  let t := touchTable.foldl (decrementNeighbor boxIndex connections) s.gTouchGrid
  { s with gTouchGrid := setTouch t boxIndex { t boxIndex with connections := 0, count := 0 } }

/-- The locals `boxMtlIndex`, `faceGroupID`, `faceGroupIDCount` of the loop over
the six neighbours in `fixTouchingEdges` (`none` is the initial -999). -/
structure FaceSearch where
  boxMtlIndex : Option IPoint
  faceGroupID : List Nat

def faceSearchStep (s : ExportState) (boxIndex : IPoint) (a : FaceSearch) (i : Nat) : FaceSearch :=
  let index := getNeighborUnsafe i boxIndex
  if (s.gBoxData index).isSolid then
    let groupID := (s.gBoxData index).group
    let a1 : FaceSearch := if a.boxMtlIndex.isNone then { a with boxMtlIndex := some index } else a
    if a1.faceGroupID.contains groupID then a1
    else { a1 with faceGroupID := a1.faceGroupID ++ [groupID] }
  else a

def masterPickStep (l : Nat → BoxGroup) (a : Nat × Int) (groupID : Nat) : Nat × Int :=
  if (l groupID).population > a.2 then (groupID, (l groupID).population) else a

def mergeBoundsStep (l : Nat → BoxGroup) (masterGroupID : Nat) (a : (Nat → Int) × IBox)
    (groupID : Nat) : (Nat → Int) × IBox :=
  if groupID ≠ masterGroupID then (setFlag a.1 groupID 1, addBoundsToBounds (l groupID).bounds a.2)
  else a

/-- The body of the loop over the sorted `touchList` in `fixTouchingEdges`. When
the cell has no solid neighbour the C code reads `gBoxData[-999]` and
`faceGroupID[0]` unset; the embedding then reads an air cell and group 0. -/
def fillTouchCell (bi : BlockInfo) (s : ExportState) (boxIndex : IPoint) : ExportState :=
  if (s.gTouchGrid boxIndex).count > 0 then
    let s := decrementNeighbors s boxIndex
    let f := (List.range 6).foldl (faceSearchStep s boxIndex) ⟨none, []⟩
    let first := f.faceGroupID.headD 0
    let m := f.faceGroupID.tail.foldl (masterPickStep s.gGroupList)
      (first, (s.gGroupList first).population)
    let masterGroupID := m.1
    let mtl : BoxCell := match f.boxMtlIndex with
      | some index => s.gBoxData index
      | none => ⟨BLOCK_AIR, 0, 0, 0, 0⟩
    let c := s.gBoxData boxIndex
    let c1 : BoxCell :=
      if s.gOptions.EXPT_DEBUG_SHOW_WELDS then { c with type := bi.BLOCK_LAVA % 256 }
      else { c with type := mtl.type, data := mtl.data }
    let r := s.gGroupList masterGroupID
    let s : ExportState :=
      { s with
        gBoxData := setCell s.gBoxData boxIndex { c1 with group := masterGroupID }
        gStats := { s.gStats with blocksManifoldWelded := s.gStats.blocksManifoldWelded + 1 }
        gGroupList := setGroup s.gGroupList masterGroupID
          { r with population := r.population + 1, bounds := addBounds boxIndex r.bounds } }
    if f.faceGroupID.length > 1 then
      let s : ExportState :=
        { s with
          gStats := { s.gStats with
            solidGroupsMerged := s.gStats.solidGroupsMerged + ((f.faceGroupID.length : Int) - 1) }
          gSolidGroups := s.gSolidGroups - ((f.faceGroupID.length : Int) - 1) }
      let nb := f.faceGroupID.foldl (mergeBoundsStep s.gGroupList masterGroupID)
        (fun _ => 0, emptyBounds)
      fillGroups bi s nb.2 masterGroupID true bi.BLOCK_LAVA nb.1
    else s
  else s

/-- The sums accumulated in `avgLoc` and `solidBlocks` by the first loops of
`fixTouchingEdges`. -/
def solidSum (s : ExportState) : Int × Int × Int × Int :=
  (boxCells s.gSolidBox).foldl
    (fun a p => if (s.gBoxData p).isSolid then (a.1 + p.x, a.2.1 + p.y, a.2.2.1 + p.z, a.2.2.2 + 1)
      else a)
    (0, 0, 0, 0)

/-- The bias point `avgLoc` after the division and the shift of its Y. -/
def avgLoc (s : ExportState) : Rat × Rat × Rat :=
  let a := solidSum s
  let b := s.gSolidBox
  let maxVal : Int := if b.max.x - b.min.x > b.max.z - b.min.z then b.max.x - b.min.x + 1
    else b.max.z - b.min.z + 1
  let maxVal : Int := if maxVal > b.max.y - b.min.y then maxVal else b.max.y - b.min.y + 1
  ((a.1 : Rat) / a.2.2.2, (a.2.1 : Rat) / a.2.2.2 - maxVal, (a.2.2.1 : Rat) / a.2.2.2)

def getDistanceSquared (p : IPoint) (q : Rat × Rat × Rat) : Rat :=
  (p.x - q.1) * (p.x - q.1) + (p.y - q.2.1) * (p.y - q.2.1) + (p.z - q.2.2) * (p.z - q.2.2)

/-- The second loops of `fixTouchingEdges`: the records of the touched cells. -/
def touchList (s : ExportState) : List TouchRecord :=
  ((boxCells s.gSolidBox).filter fun p => decide ((s.gTouchGrid p).count > 0)).map fun p =>
    { boxIndex := p
      obscurity := (s.gTouchGrid p).obscurity
      count := (s.gTouchGrid p).count
      distance := getDistanceSquared p (avgLoc s) }

def touchRecordCompare (s : ExportState) (t1 t2 : TouchRecord) : Int :=
  if (s.gBoxData t1.boxIndex).origType = (s.gBoxData t2.boxIndex).origType then
    if t1.obscurity = t2.obscurity then
      if t1.count = t2.count then
        if t1.distance < t2.distance then -1 else if t1.distance = t2.distance then 0 else 1
      else if t1.count > t2.count then -1 else 1
    else if t1.obscurity > t2.obscurity then -1 else 1
  else if (s.gBoxData t1.boxIndex).origType < (s.gBoxData t2.boxIndex).origType then -1 else 1

/-- The library routine `qsort_s`, a parameter: it takes the comparison function
and the list and returns the list in sorted order. -/
abbrev Qsort := (TouchRecord → TouchRecord → Int) → List TouchRecord → List TouchRecord

/-- The function `fixTouchingEdges`; the first component is its return value. -/
def fixTouchingEdges (bi : BlockInfo) (qsort_s : Qsort) (s : ExportState) : Int × ExportState :=
  let s : ExportState :=
    { s with gTouchGrid := fun _ => ⟨0, 0, 0⟩, gTouchSize := 0 }
  let s := (boxCells s.gSolidBox).foldl touchScanCell s
  if s.gTouchSize = 0 then (0, s)
  else
    let l := touchList s
    let sorted := qsort_s (touchRecordCompare s) l
    let s := (sorted.map fun r => r.boxIndex).foldl (fillTouchCell bi) s
    let s : ExportState :=
      { s with gStats := { s.gStats with numberManifoldPasses := s.gStats.numberManifoldPasses + 1 } }
    (if l.length ≠ 0 then 1 else 0, s)

/-! ## The repair loop of filterBox -/

/-- One pass through the body of the `do ... while ( foundTouching )` loop of
`filterBox`; `foundTouching` is carried from pass to pass. -/
def repairPass (bi : BlockInfo) (qsort_s : Qsort) (foundTouching : Int) (s : ExportState) :
    Int × ExportState :=
  let r := if s.gOptions.EXPT_CONNECT_PARTS then fixTouchingEdges bi qsort_s s
    else (foundTouching, s)
  if r.2.gOptions.EXPT_CONNECT_CORNER_TIPS then
    if r.2.gSolidGroups > 1 then
      let c := connectCornerTips r.2
      (Int.lor r.1 (if c.1 then 1 else 0), c.2)
    else r
  else r

/-- The loop `do ... while ( foundTouching )` of `filterBox`, run for at most `fuel`
passes: `none` when the loop has not ended by then, else the final state and
the number of passes made. -/
def repairLoop (bi : BlockInfo) (qsort_s : Qsort) : Nat → Int → ExportState → Option (ExportState × Nat)
  | 0, _, _ => none
  | fuel + 1, foundTouching, s =>
    let r := repairPass bi qsort_s foundTouching s
    if r.1 ≠ 0 then (repairLoop bi qsort_s fuel r.1 r.2).map fun q => (q.1, q.2 + 1)
    else some (r.2, 1)

/-! ## deleteFloatingGroups -/

/-- The locals `survivorGroup`, `maxPop`, `minY` of the first loop of
`deleteFloatingGroups`. -/
structure SurvivorSearch where
  survivorGroup : Int
  maxPop : Int
  minY : Int

def survivorStep (l : Nat → BoxGroup) (a : SurvivorSearch) (i : Nat) : SurvivorSearch :=
  if (l i).solid then
    if (l i).population > a.maxPop ∨ ((l i).population = a.maxPop ∧ (l i).bounds.min.y < a.minY) then
      ⟨(i : Int), (l i).population, (l i).bounds.min.y⟩
    else a
  else a

def findSurvivor (s : ExportState) : SurvivorSearch :=
  (groupRange (SURROUND_AIR_GROUP + 1) s.gGroupCount).foldl (survivorStep s.gGroupList)
    ⟨-999, -999, 999⟩

/-- The body of the loops of the tree test at one cell: `deleteGroup` and `treeParts`
(kept as its two bits that matter, the leaf bit being the second component). -/
def treeTestCell (bi : BlockInfo) (s : ExportState) (i : Nat) (a : Bool × Bool) (loc : IPoint) :
    Bool × Bool :=
  if a.1 then
    if (s.gBoxData loc).group = i then
      if bi.BLF_TREE_PART (s.gBoxData loc).type ∨ (s.gBoxData loc).origType = BLOCK_AIR ∨
          (s.gBoxData loc).origType = bi.BLOCK_VINES then
        (a.1, a.2 || bi.BLF_LEAF_PART (s.gBoxData loc).type)
      else (false, a.2)
    else a
  else a

/-- The value of `deleteGroup` for group `i` after the tests. -/
def deleteGroupTest (bi : BlockInfo) (s : ExportState) (i : Nat) : Bool :=
  if (s.gGroupList i).population < s.gOptions.floaterCountVal then true
  else
    let r := (boxCells (s.gGroupList i).bounds).foldl (treeTestCell bi s i) (true, false)
    r.1 && r.2

/-- The body of the second loop of `deleteFloatingGroups` for group `i`. -/
def deleteFloatingStep (bi : BlockInfo) (survivorGroup : Int) (s : ExportState) (i : Nat) :
    ExportState :=
  if (s.gGroupList i).solid ∧ (s.gGroupList i).population > 0 ∧ (i : Int) ≠ survivorGroup then
    if deleteGroupTest bi s i then
      let s1 : ExportState :=
        { s with gStats := { s.gStats with
            blocksFloaterDeleted := s.gStats.blocksFloaterDeleted + (s.gGroupList i).population } }
      let s2 := fillGroups bi s1 (s.gGroupList i).bounds SURROUND_AIR_GROUP false BLOCK_AIR
        (setFlag (fun _ => 0) i 1)
      { s2 with
        gStats := { s2.gStats with floaterGroupsDeleted := s2.gStats.floaterGroupsDeleted + 1 }
        gSolidGroups := s2.gSolidGroups - 1 }
    else s
  else s

def deleteFloatingGroups (bi : BlockInfo) (s : ExportState) : ExportState :=
  (groupRange (SURROUND_AIR_GROUP + 1) s.gGroupCount).foldl
    (deleteFloatingStep bi (findSurvivor s).survivorGroup) s

/-! ## Notions used in the statements -/

/-- The state that `populateBox` and `filterBox` hand to `findGroups`: the solid
box lies inside the array with a border of one cell, the air box is the solid
box plus one cell on every side, no cell has a group yet, every non-air cell
lies inside the solid box, and the group counters are zero. -/
def WellFormed (s : ExportState) : Prop :=
  (1 ≤ s.gSolidBox.min.x ∧ s.gSolidBox.min.x ≤ s.gSolidBox.max.x ∧
    s.gSolidBox.max.x ≤ s.gBoxSize.x - 2) ∧
  (1 ≤ s.gSolidBox.min.y ∧ s.gSolidBox.min.y ≤ s.gSolidBox.max.y ∧
    s.gSolidBox.max.y ≤ s.gBoxSize.y - 2) ∧
  (1 ≤ s.gSolidBox.min.z ∧ s.gSolidBox.min.z ≤ s.gSolidBox.max.z ∧
    s.gSolidBox.max.z ≤ s.gBoxSize.z - 2) ∧
  s.gAirBox = ⟨⟨s.gSolidBox.min.x - 1, s.gSolidBox.min.y - 1, s.gSolidBox.min.z - 1⟩,
    ⟨s.gSolidBox.max.x + 1, s.gSolidBox.max.y + 1, s.gSolidBox.max.z + 1⟩⟩ ∧
  (∀ p ∈ boxCells (arrayBox s), (s.gBoxData p).group = NO_GROUP_SET) ∧
  (∀ p ∈ boxCells (arrayBox s), (s.gBoxData p).isSolid = true → s.gSolidBox.contains p = true) ∧
  s.gGroupCount = 0 ∧ s.gSolidGroups = 0 ∧ s.gAirGroups = 0

instance (s : ExportState) : Decidable (WellFormed s) := by
  unfold WellFormed
  infer_instance

/-- The number of cells of the array whose group field is `g`. -/
def groupCells (s : ExportState) (g : Nat) : Nat :=
  (boxCells (arrayBox s)).countP fun p => decide ((s.gBoxData p).group = g)

/-- The number of cells of the array that have a group (group field not 0). -/
def labelledCells (s : ExportState) : Nat :=
  (boxCells (arrayBox s)).countP fun p => decide ((s.gBoxData p).group ≠ NO_GROUP_SET)

/-- Two cells share a face: they differ by one step along exactly one axis. -/
def faceAdjacent (p q : IPoint) : Prop :=
  (p.x - q.x).natAbs + (p.y - q.y).natAbs + (p.z - q.z).natAbs = 1

instance (p q : IPoint) : Decidable (faceAdjacent p q) := by
  unfold faceAdjacent
  infer_instance

/-- Two cells share exactly an edge: they differ by one step along exactly two axes. -/
def edgeDiagonal (p q : IPoint) : Prop :=
  (p.x - q.x).natAbs ≤ 1 ∧ (p.y - q.y).natAbs ≤ 1 ∧ (p.z - q.z).natAbs ≤ 1 ∧
    (p.x - q.x).natAbs + (p.y - q.y).natAbs + (p.z - q.z).natAbs = 2

instance (p q : IPoint) : Decidable (edgeDiagonal p q) := by
  unfold edgeDiagonal
  infer_instance

/-- One step of a path inside group `g`: two face-adjacent cells of the air box
that both carry group `g`. -/
def groupStep (s : ExportState) (g : Nat) (p q : IPoint) : Prop :=
  faceAdjacent p q ∧ s.gAirBox.contains p = true ∧ s.gAirBox.contains q = true ∧
    (s.gBoxData p).group = g ∧ (s.gBoxData q).group = g

/-- The number of cells of the air box without a group. -/
def unlabelled (s : ExportState) : Nat :=
  (boxCells s.gAirBox).countP fun p => decide ((s.gBoxData p).group = NO_GROUP_SET)

/-- What the labelling passes keep of a state: the boxes, the options and every
field of a cell other than its group. -/
structure Frame (s t : ExportState) : Prop where
  airBox : t.gAirBox = s.gAirBox
  solidBox : t.gSolidBox = s.gSolidBox
  boxSize : t.gBoxSize = s.gBoxSize
  options : t.gOptions = s.gOptions
  type : ∀ p, (t.gBoxData p).type = (s.gBoxData p).type
  origType : ∀ p, (t.gBoxData p).origType = (s.gBoxData p).origType

/-- The bookkeeping of the group list: cells carry only groups that exist (or
group 1, which the sealing of side tunnels hands out before it exists), each
population is the number of cells of the group, and each record's `groupID` is
its index. -/
structure Booked (s : ExportState) : Prop where
  air_in_array : ∀ p, s.gAirBox.contains p = true → (arrayBox s).contains p = true
  group_le : ∀ p, (arrayBox s).contains p = true →
    (s.gBoxData p).group ≤ s.gGroupCount ∨ (s.gBoxData p).group = 1
  pop : ∀ g, 1 ≤ g → (g ≤ s.gGroupCount ∨ g = 1) →
    (s.gGroupList g).population = (groupCells s g : Int)
  gid : ∀ g, 1 ≤ g → g ≤ s.gGroupCount → (s.gGroupList g).groupID = g

/-- The state of the seed loop while group `g` is grown: the books are kept, `g`
is the newest group, and the cells on the stack lie in the air box and carry
group `g`. -/
structure Seeding (s : ExportState) (g : Nat) (st : List IPoint) : Prop where
  booked : Booked s
  newest : g = s.gGroupCount
  pos : 1 ≤ g
  stack : ∀ q ∈ st, s.gAirBox.contains q = true ∧ (s.gBoxData q).group = g

/-- What growing group `g` changes: nothing but the group field of cells of the
air box that had no group, which now carry `g` and have the solidity of the
group, and the population and bounds of the record of `g`. -/
structure Grows (g : Nat) (s t : ExportState) : Prop where
  frame : Frame s t
  count : t.gGroupCount = s.gGroupCount
  solidGroups : t.gSolidGroups = s.gSolidGroups
  airGroups : t.gAirGroups = s.gAirGroups
  stats : t.gStats = s.gStats
  changed : ∀ q, t.gBoxData q ≠ s.gBoxData q →
    (s.gBoxData q).group = 0 ∧ (t.gBoxData q).group = g ∧
      (s.gBoxData q).isSolid = (s.gGroupList g).solid ∧ s.gAirBox.contains q = true
  flags : ∀ i, (t.gGroupList i).solid = (s.gGroupList i).solid
  others : ∀ i, i ≠ g → t.gGroupList i = s.gGroupList i

/-- The number of air groups among the groups `1 .. gGroupCount`. -/
def airGroupCount (s : ExportState) : Nat :=
  (groupRange 1 s.gGroupCount).countP fun i => !(s.gGroupList i).solid

/-- The number of solid groups among the groups `1 .. gGroupCount`. -/
def solidGroupCount (s : ExportState) : Nat :=
  (groupRange 1 s.gGroupCount).countP fun i => (s.gGroupList i).solid

/-- The state between two steps of the scan of `findGroups`: the books are kept
and the two counters count the groups made so far. -/
structure Scanned (s : ExportState) : Prop where
  booked : Booked s
  air : s.gAirGroups = (airGroupCount s : Int)
  solid : s.gSolidGroups = (solidGroupCount s : Int)

/-- The order of the scan of `findGroups`: x ascending, then z ascending, then y descending. -/
def scanBefore (p q : IPoint) : Prop :=
  p.x < q.x ∨ (p.x = q.x ∧ (p.z < q.z ∨ (p.z = q.z ∧ q.y < p.y)))

/-- The state in which the scan of `findGroups` starts, with or without the
sealing of side tunnels: no group exists yet, the cells that already carry a
group carry group 1 and are air, and the cell on top of every column of the
solid box has no group. -/
structure ScanStart (s : ExportState) : Prop where
  scanned : Scanned s
  count : s.gGroupCount = 0
  geo_x : 1 ≤ s.gSolidBox.min.x ∧ s.gSolidBox.min.x ≤ s.gSolidBox.max.x ∧
    s.gSolidBox.max.x ≤ s.gBoxSize.x - 2
  geo_y : 1 ≤ s.gSolidBox.min.y ∧ s.gSolidBox.min.y ≤ s.gSolidBox.max.y ∧
    s.gSolidBox.max.y ≤ s.gBoxSize.y - 2
  geo_z : 1 ≤ s.gSolidBox.min.z ∧ s.gSolidBox.min.z ≤ s.gSolidBox.max.z ∧
    s.gSolidBox.max.z ≤ s.gBoxSize.z - 2
  air_box : s.gAirBox = ⟨⟨s.gSolidBox.min.x - 1, s.gSolidBox.min.y - 1, s.gSolidBox.min.z - 1⟩,
    ⟨s.gSolidBox.max.x + 1, s.gSolidBox.max.y + 1, s.gSolidBox.max.z + 1⟩⟩
  solid_in_box : ∀ p, (arrayBox s).contains p = true → (s.gBoxData p).isSolid = true →
    s.gSolidBox.contains p = true
  pre_air : ∀ p, (arrayBox s).contains p = true → (s.gBoxData p).group ≠ 0 →
    (s.gBoxData p).group = 1 ∧ (s.gBoxData p).isSolid = false
  top_free : ∀ p, s.gSolidBox.contains p = true →
    (s.gBoxData ⟨p.x, s.gAirBox.max.y, p.z⟩).group = 0

/-- The state during the scan of `findGroups` that started in `s`, after the
cells `pre` have been visited. -/
structure ScanInv (s : ExportState) (pre : List IPoint) (t : ExportState) : Prop where
  scanned : Scanned t
  frame : Frame s t
  keep : ∀ q, (s.gBoxData q).group ≠ 0 → t.gBoxData q = s.gBoxData q
  done : ∀ q ∈ pre, (t.gBoxData q).group ≠ 0
  idle : t.gGroupCount = 0 → t.gBoxData = s.gBoxData
  solidity : ∀ p, (arrayBox t).contains p = true → (t.gBoxData p).group ≠ 0 →
    (t.gBoxData p).group ≤ t.gGroupCount →
    (t.gGroupList (t.gBoxData p).group).solid = (t.gBoxData p).isSolid
  first_air : 1 ≤ t.gGroupCount → (t.gGroupList 1).solid = false
  inside : ∀ q, t.gBoxData q ≠ s.gBoxData q → s.gAirBox.contains q = true
  stats : t.gStats = s.gStats

/-- The cells that the sealing of side tunnels puts into group 1: the bottom face
and the four side faces of the array. -/
def sealedCells (s : ExportState) : List IPoint :=
  boxCells ⟨⟨0, 0, 0⟩, ⟨s.gBoxSize.x - 1, 0, s.gBoxSize.z - 1⟩⟩ ++
  (boxCells ⟨⟨0, 1, 0⟩, ⟨s.gBoxSize.x - 1, s.gBoxSize.y - 1, 0⟩⟩ ++
  (boxCells ⟨⟨0, 1, s.gBoxSize.z - 1⟩, ⟨s.gBoxSize.x - 1, s.gBoxSize.y - 1, s.gBoxSize.z - 1⟩⟩ ++
  (boxCells ⟨⟨0, 1, 1⟩, ⟨0, s.gBoxSize.y - 1, s.gBoxSize.z - 2⟩⟩ ++
  boxCells ⟨⟨s.gBoxSize.x - 1, 1, 1⟩,
    ⟨s.gBoxSize.x - 1, s.gBoxSize.y - 1, s.gBoxSize.z - 2⟩⟩)))

/-- The state while the side tunnels are sealed, after the cells `pre` have been
put into group 1. -/
structure SealInv (s : ExportState) (pre : List IPoint) (t : ExportState) : Prop where
  frame : Frame s t
  count : t.gGroupCount = s.gGroupCount
  solidGroups : t.gSolidGroups = s.gSolidGroups
  airGroups : t.gAirGroups = s.gAirGroups
  cells : ∀ p, (t.gBoxData p).group = if p ∈ pre then 1 else (s.gBoxData p).group
  others : ∀ i, i ≠ 1 → t.gGroupList i = s.gGroupList i
  flag : (t.gGroupList 1).solid = (s.gGroupList 1).solid
  pop : (t.gGroupList 1).population = (groupCells t 1 : Int)

/-- The state of `findGroups` when its scan starts: the population of group 1
is reset and, if asked for, the side tunnels are sealed. -/
def scanStart (s : ExportState) : ExportState :=
  let g1 := s.gGroupList SURROUND_AIR_GROUP
  let g1 : BoxGroup := { g1 with population := 0 }
  let s : ExportState := { s with gGroupList := setGroup s.gGroupList SURROUND_AIR_GROUP g1 }
  if s.gOptions.EXPT_SEAL_SIDE_TUNNELS then sealSides s else s

/-- What `findGroups` establishes on a well-formed state `s`: every cell of the air
box has a group, the books of the group list are kept, every cell with a group
has the solidity of its group, group 1 is an air group, and outside the air box
only sealed air cells of group 1 carry a group. -/
structure Grouped (s t : ExportState) : Prop where
  frame : Frame s t
  scanned : Scanned t
  labelled : ∀ p, t.gAirBox.contains p = true → (t.gBoxData p).group ≠ 0
  solidity : ∀ p, (arrayBox t).contains p = true → (t.gBoxData p).group ≠ 0 →
    (t.gGroupList (t.gBoxData p).group).solid = (t.gBoxData p).isSolid
  first_air : (t.gGroupList 1).solid = false
  count_pos : 1 ≤ t.gGroupCount
  group_le : ∀ p, (arrayBox t).contains p = true → (t.gBoxData p).group ≤ t.gGroupCount
  stats : t.gStats = s.gStats
  outside : ∀ p, (arrayBox t).contains p = true → t.gAirBox.contains p = false →
    (t.gBoxData p).group ≤ 1 ∧ (t.gBoxData p).isSolid = false

/-- A cell hands its group on to its neighbours: `propagateSeed` does not return
early at it, as it does at an air cell whose original block is an entrance when
entrances are sealed. -/
def propagates (bi : BlockInfo) (s : ExportState) (p : IPoint) : Prop :=
  ¬ (s.gOptions.EXPT_SEAL_ENTRANCES = true ∧ (s.gBoxData p).isSolid = false ∧
    bi.BLF_ENTRANCE (s.gBoxData p).origType = true)

/-- All neighbours of `p` in the air box that have the solidity of `p` have a group,
and the group of `p` if they hand their group on. -/
def Closed (bi : BlockInfo) (s : ExportState) (p : IPoint) : Prop :=
  ∀ q, faceAdjacent p q → s.gAirBox.contains q = true →
    (s.gBoxData q).isSolid = (s.gBoxData p).isSolid →
    (s.gBoxData q).group ≠ 0 ∧ (propagates bi s q → (s.gBoxData q).group = (s.gBoxData p).group)

/-- The state of the seed loop for group `g` as far as the closure of groups goes:
every cell with a group that hands its group on and is not waiting on the stack
is closed, and the cells on the stack have the solidity of the group. -/
structure Flooding (bi : BlockInfo) (s : ExportState) (g : Nat) (st : List IPoint) : Prop where
  seeding : Seeding s g st
  closed : ∀ c, s.gAirBox.contains c = true → (s.gBoxData c).group ≠ 0 → c ∉ st →
    propagates bi s c → Closed bi s c
  stack_solid : ∀ q ∈ st, (s.gBoxData q).isSolid = (s.gGroupList g).solid

/-- Every cell of the air box that has a group and hands it on is closed. -/
def AllClosed (bi : BlockInfo) (t : ExportState) : Prop :=
  ∀ c, t.gAirBox.contains c = true → (t.gBoxData c).group ≠ 0 → propagates bi t c →
    Closed bi t c

/-- Every cell of group `g` in the air box is joined to the cell `r` by a path of
face-adjacent cells of group `g`. -/
def Rooted (t : ExportState) (g : Nat) (r : IPoint) : Prop :=
  ∀ p, t.gAirBox.contains p = true → (t.gBoxData p).group = g →
    Relation.ReflTransGen (groupStep t g) r p

/-- Every group made so far is joined up around one of its cells, and the cells of
the air box carry only groups made so far. -/
structure AllRooted (t : ExportState) : Prop where
  rooted : ∀ g, 1 ≤ g → g ≤ t.gGroupCount → ∃ r, Rooted t g r
  tight : ∀ p, t.gAirBox.contains p = true → (t.gBoxData p).group ≤ t.gGroupCount

/-- The fringe: the cells of the air box that lie outside the solid box. -/
def inFringe (s : ExportState) (p : IPoint) : Prop :=
  s.gAirBox.contains p = true ∧ s.gSolidBox.contains p = false

instance (s : ExportState) (p : IPoint) : Decidable (inFringe s p) := by
  unfold inFringe
  infer_instance

/-- One group is at least as good a survivor as another: it has the larger
population, or the same population and the lower `bounds.min[Y]`, or both are the
same and its id is not the greater one. -/
def survivesOver (l : Nat → BoxGroup) (k j : Nat) : Prop :=
  (l j).population < (l k).population ∨
  ((l j).population = (l k).population ∧
    ((l k).bounds.min.y < (l j).bounds.min.y ∨
      ((l k).bounds.min.y = (l j).bounds.min.y ∧ k ≤ j)))

/-- What `fillGroups` and the passes built on it keep of a state: the boxes, the
options, the number of groups and the `solid` flag and `groupID` of every
record. -/
structure Refilled (s t : ExportState) : Prop where
  airBox : t.gAirBox = s.gAirBox
  solidBox : t.gSolidBox = s.gSolidBox
  boxSize : t.gBoxSize = s.gBoxSize
  options : t.gOptions = s.gOptions
  count : t.gGroupCount = s.gGroupCount
  flags : ∀ i, (t.gGroupList i).solid = (s.gGroupList i).solid

/-- The number of bubbles: the air groups among the groups `2 .. gGroupCount`. -/
def bubbleCount (s : ExportState) : Nat :=
  (groupRange 2 s.gGroupCount).countP fun i => !(s.gGroupList i).solid

/-- Every cell of the array whose group is one of the groups `2, 3, ...` lies inside
the bounds of the record of its group. -/
def Bounded (s : ExportState) : Prop :=
  ∀ p, (arrayBox s).contains p = true → 2 ≤ (s.gBoxData p).group →
    (s.gGroupList (s.gBoxData p).group).bounds.contains p = true

/-- What a call of `fillGroups` with master group `m` keeps of the group list: the
`groupID` of every record, the bounds of every record but that of `m`, and the
cells that the bounds of `m` hold. -/
structure Kept (m : Nat) (s t : ExportState) : Prop where
  refilled : Refilled s t
  gid : ∀ g, (t.gGroupList g).groupID = (s.gGroupList g).groupID
  bounds : ∀ g, g ≠ m → (t.gGroupList g).bounds = (s.gGroupList g).bounds
  grow : ∀ p, (s.gGroupList m).bounds.contains p = true →
    (t.gGroupList m).bounds.contains p = true

/-- What `fillGroups` with master group `m`, solidity `solid` and fill type
`fillType` has done to the cell `p`, that was `c` before and is `d` now, if the
group of `c` was a target: the cell has moved to group `m`, and its type is
rewritten exactly when the solidity of its group differed from `solid`. -/
def Filled (bi : BlockInfo) (m : Nat) (solid : Bool) (fillType : Nat) (s : ExportState)
    (c d : BoxCell) : Prop :=
  d.group = m ∧ d.origType = c.origType ∧
  ((s.gGroupList c.group).solid = solid → d.type = c.type) ∧
  ((s.gGroupList c.group).solid ≠ solid →
    d.type = bi.BLOCK_LEAVES ∨ d.type = fillType % 256)

/-- The state of `fillGroups` after the cells `pre` of its bounds have been visited:
the cells not yet visited and the cells whose group is no target are as they
were, and the visited cells of the target groups are filled and lie in the bounds
of the master group. -/
structure FillInv (bi : BlockInfo) (m : Nat) (solid : Bool) (fillType : Nat) (tg : Nat → Int)
    (s : ExportState) (pre : List IPoint) (t : ExportState) : Prop where
  kept : Kept m s t
  rest : ∀ p, p ∉ pre → t.gBoxData p = s.gBoxData p
  idle : ∀ p, ¬ tg (s.gBoxData p).group > 0 → t.gBoxData p = s.gBoxData p
  moved : ∀ p ∈ pre, tg (s.gBoxData p).group > 0 →
    Filled bi m solid fillType s (s.gBoxData p) (t.gBoxData p) ∧
      (t.gGroupList m).bounds.contains p = true

/-- The state of the search for the master group in `checkAndRemoveBubbles` after
the groups `pre` have been looked at, for the flags `ng` that
`findNeighboringGroups` has set: the flags of the air groups seen are cleared,
and the master, if one is chosen, is the first of the flagged solid groups seen
that has the largest population. -/
structure SearchInv (l : Nat → BoxGroup) (ng : Nat → Int) (pre : List Nat)
    (a : MasterSearch) : Prop where
  flags : ∀ g, a.neighborGroups g =
    if g ∈ pre ∧ ng g > 0 ∧ (l g).solid = false then 0 else ng g
  unset : a.masterGroupID < 0 → a.masterGroupID = -1 ∧ a.maxPop = 0 ∧
    ∀ g ∈ pre, ng g > 0 → (l g).solid = true → (l g).population ≤ 0
  chosen : 0 ≤ a.masterGroupID →
    a.masterGroupID.toNat ∈ pre ∧ ng a.masterGroupID.toNat > 0 ∧
    (l a.masterGroupID.toNat).solid = true ∧
    a.maxPop = (l a.masterGroupID.toNat).population ∧
    0 < (l a.masterGroupID.toNat).population ∧
    ∀ g ∈ pre, ng g > 0 → (l g).solid = true →
      (l g).population ≤ (l a.masterGroupID.toNat).population ∧
      (g < a.masterGroupID.toNat → (l g).population < (l a.masterGroupID.toNat).population)

/-- The state of `checkAndRemoveBubbles`, started in `t`, after the groups `pre`
have been looked at: the air groups not yet looked at have their cells and
their bounds as in `t`, the cells of the air groups looked at are solid, and
no cell that was solid in `t` is air. -/
structure BubbleInv (t : ExportState) (pre : List Nat) (v : ExportState) : Prop where
  refilled : Refilled t v
  waiting : ∀ g, 1 ≤ g → g ≤ t.gGroupCount → (t.gGroupList g).solid = false → g ∉ pre →
    (v.gGroupList g).bounds = (t.gGroupList g).bounds ∧
    ∀ p, (t.gBoxData p).group = g → v.gBoxData p = t.gBoxData p
  filled : ∀ p, (arrayBox t).contains p = true → (t.gBoxData p).group ∈ pre →
    (t.gGroupList (t.gBoxData p).group).solid = false → (v.gBoxData p).isSolid = true
  solid : ∀ p, (t.gBoxData p).isSolid = true → (v.gBoxData p).isSolid = true

/-- The number of solid cells of the array. -/
def solidCells (s : ExportState) : Nat :=
  (boxCells (arrayBox s)).countP fun p => (s.gBoxData p).isSolid

/-- Group `g` touches group `i`: a cell of the array that is in group `i` has a face
neighbour in group `g`. -/
def touches (s : ExportState) (i g : Nat) : Prop :=
  ∃ p q, (arrayBox s).contains p = true ∧ (s.gBoxData p).group = i ∧ faceAdjacent p q ∧
    (s.gBoxData q).group = g

/-- Group `g` is a solid group, one of the groups `1 .. gGroupCount`, that is
face-adjacent to the group `i`. -/
def solidNeighbor (s : ExportState) (i g : Nat) : Prop :=
  1 ≤ g ∧ g ≤ s.gGroupCount ∧ (s.gGroupList g).solid = true ∧ touches s i g

/-- The box `b` lies inside the box `a`, bound by bound. -/
def IBox.inside (a b : IBox) : Prop :=
  a.min.x ≤ b.min.x ∧ b.max.x ≤ a.max.x ∧ a.min.y ≤ b.min.y ∧ b.max.y ≤ a.max.y ∧
    a.min.z ≤ b.min.z ∧ b.max.z ≤ a.max.z

instance (a b : IBox) : Decidable (a.inside b) := by
  unfold IBox.inside
  infer_instance

/-- The bounds of the groups `2 .. gGroupCount` lie inside the array. -/
def Hulled (s : ExportState) : Prop :=
  ∀ g ∈ groupRange (SURROUND_AIR_GROUP + 1) s.gGroupCount,
    (arrayBox s).inside (s.gGroupList g).bounds

instance (s : ExportState) : Decidable (Hulled s) := by
  unfold Hulled
  infer_instance

/-- The six asserts of `findNeighboringGroups` on the bounds it is given: they lie
strictly inside the array. -/
def neighborAsserts (s : ExportState) (bounds : IBox) : Prop :=
  bounds.min.x > 0 ∧ bounds.min.y > 0 ∧ bounds.min.z > 0 ∧
  bounds.max.x < s.gBoxSize.x - 1 ∧ bounds.max.y < s.gBoxSize.y - 1 ∧
  bounds.max.z < s.gBoxSize.z - 1

instance (s : ExportState) (bounds : IBox) : Decidable (neighborAsserts s bounds) := by
  unfold neighborAsserts
  infer_instance

/-- The state of `fixTouchingEdges` after its first loops, which mark the air
cells next to touching edges in the touch grid. -/
def touchScan (s : ExportState) : ExportState :=
  (boxCells s.gSolidBox).foldl touchScanCell
    { s with gTouchGrid := fun _ => ⟨0, 0, 0⟩, gTouchSize := 0 }

/-- The six of the twelve edge directions that the scan of `fixTouchingEdges`
looks at from a solid cell. -/
def scanOffsets : List (Int × Int × Int) :=
  [(1, -1, 0), (1, 0, -1), (1, 1, 0), (1, 0, 1), (0, -1, 1), (0, 1, 1)]

/-- The first air cell of the pair that `checkForTouchingEdge` looks at for the
edge direction `o`, as an offset from the solid cell. -/
def firstAir (o : Int × Int × Int) : Int × Int × Int :=
  if o.1 = 1 then (1, 0, 0) else (0, 0, 1)

/-- The second air cell of the pair that `checkForTouchingEdge` looks at for the
edge direction `o`, as an offset from the solid cell. -/
def secondAir (o : Int × Int × Int) : Int × Int × Int :=
  if o.1 = 1 then (0, o.2.1, o.2.2) else (0, o.2.1, 0)

/-- The cell at the offset `o` from `p`. -/
def IPoint.shift (p : IPoint) (o : Int × Int × Int) : IPoint := p.offset o.1 o.2.1 o.2.2

/-- The cell `p` is one of the two cells between a solid cell `b` of the solid box
and a solid cell in one of the six edge directions of the scan from `b`. -/
def touchOrigin (s : ExportState) (p : IPoint) : Prop :=
  ∃ b o, o ∈ scanOffsets ∧ s.gSolidBox.contains b = true ∧ (s.gBoxData b).isSolid = true ∧
    (s.gBoxData (b.shift o)).isSolid = true ∧
    (p = b.shift (firstAir o) ∨ p = b.shift (secondAir o))

/-- The cell `p` is one of the two air cells of a touching edge of the grid of `s`:
an edge between two solid cells in one of the six directions of the scan whose
two other cells are air. -/
def touchEdge (s : ExportState) (p : IPoint) : Prop :=
  ∃ b o, o ∈ scanOffsets ∧ (s.gBoxData b).isSolid = true ∧
    (s.gBoxData (b.shift o)).isSolid = true ∧
    (s.gBoxData (b.shift (firstAir o))).type = BLOCK_AIR ∧
    (s.gBoxData (b.shift (secondAir o))).type = BLOCK_AIR ∧
    (p = b.shift (firstAir o) ∨ p = b.shift (secondAir o))

/-- What the scan of `fixTouchingEdges`, started on the grid of `s`, keeps true of
the touch grid: the grid, the options, the boxes and the groups are those of `s`,
no count is negative, `gTouchSize` is positive exactly if a cell is marked,
and every marked cell is an air cell between two solid cells that share an edge. -/
structure TouchInv (s t : ExportState) : Prop where
  data : t.gBoxData = s.gBoxData
  options : t.gOptions = s.gOptions
  solidBox : t.gSolidBox = s.gSolidBox
  groupList : t.gGroupList = s.gGroupList
  solidGroups : t.gSolidGroups = s.gSolidGroups
  nonneg : ∀ p, 0 ≤ (t.gTouchGrid p).count
  size_nonneg : 0 ≤ t.gTouchSize
  sized : ∀ p, 0 < (t.gTouchGrid p).count → 0 < t.gTouchSize
  air : ∀ p, 0 < (t.gTouchGrid p).count → (s.gBoxData p).type = BLOCK_AIR
  origin : ∀ p, 0 < (t.gTouchGrid p).count → touchOrigin s p
  edge : ∀ p, 0 < (t.gTouchGrid p).count → touchEdge s p
  witness : 0 < t.gTouchSize → ∃ p, 0 < (t.gTouchGrid p).count
  welded : t.gStats.blocksManifoldWelded = s.gStats.blocksManifoldWelded

/-- The touching edge from the cell `b` in the direction `o`, if it is one that
the scan looks for in the grid of `s`, has one of its two air cells marked in the
touch grid of `u`. -/
def edgeMarked (s u : ExportState) (b : IPoint) (o : Int × Int × Int) : Prop :=
  (s.gBoxData b).isSolid = true → (s.gBoxData (b.shift o)).isSolid = true →
  (s.gOptions.EXPT_CONNECT_ALL_EDGES = true ∨
    (s.gBoxData b).group ≠ (s.gBoxData (b.shift o)).group) →
  (s.gBoxData (b.shift (firstAir o))).type = BLOCK_AIR →
  (s.gBoxData (b.shift (secondAir o))).type = BLOCK_AIR →
  0 < (u.gTouchGrid (b.shift (firstAir o))).count ∨
    0 < (u.gTouchGrid (b.shift (secondAir o))).count

/-- The number of air cells in the solid box. -/
def airCells (s : ExportState) : Nat :=
  (boxCells s.gSolidBox).countP fun p => !(s.gBoxData p).isSolid

/-- What a pass of the repair loop keeps: the solid box and the options stay, and
no solid cell becomes air. -/
structure Repaired (s t : ExportState) : Prop where
  solidBox : t.gSolidBox = s.gSolidBox
  options : t.gOptions = s.gOptions
  solid : ∀ p, (s.gBoxData p).isSolid = true → (t.gBoxData p).isSolid = true

/-- An air cell of the solid box of `s` is a solid cell in `t`. -/
def gained (s t : ExportState) : Prop :=
  ∃ p, s.gSolidBox.contains p = true ∧ (s.gBoxData p).isSolid = false ∧
    (t.gBoxData p).isSolid = true

/-- The state of the loop over the sorted `touchList` in `fixTouchingEdges`, started
on the grid of `s`: no solid cell has become air, and every cell that is still
marked lies between two cells that were solid in `s`. -/
structure Welding (s t : ExportState) : Prop where
  repaired : Repaired s t
  origin : ∀ p, 0 < (t.gTouchGrid p).count → touchOrigin s p

/-- The result of the loop over the six neighbours in `fixTouchingEdges` for the
cell `boxIndex`. -/
def touchFaces (s : ExportState) (boxIndex : IPoint) : FaceSearch :=
  (List.range 6).foldl (faceSearchStep s boxIndex) ⟨none, []⟩

/-- The group that `fixTouchingEdges` picks as `masterGroupID` for the cell
`boxIndex`. -/
def touchMaster (s : ExportState) (boxIndex : IPoint) : Nat :=
  ((touchFaces s boxIndex).faceGroupID.tail.foldl (masterPickStep s.gGroupList)
    ((touchFaces s boxIndex).faceGroupID.headD 0,
      (s.gGroupList ((touchFaces s boxIndex).faceGroupID.headD 0)).population)).1

/-- The block that `fixTouchingEdges` copies into the cell `boxIndex`. -/
def touchMaterial (s : ExportState) (boxIndex : IPoint) : BoxCell :=
  match (touchFaces s boxIndex).boxMtlIndex with
  | some index => s.gBoxData index
  | none => ⟨BLOCK_AIR, 0, 0, 0, 0⟩

/-- The state of `fixTouchingEdges` after the cell `boxIndex` is filled and put
into the master group, before groups are merged. -/
def weldCell (bi : BlockInfo) (s : ExportState) (boxIndex : IPoint) : ExportState :=
  { s with
    gBoxData := setCell s.gBoxData boxIndex
      { (if s.gOptions.EXPT_DEBUG_SHOW_WELDS then
          { s.gBoxData boxIndex with type := bi.BLOCK_LAVA % 256 }
        else
          { s.gBoxData boxIndex with
            type := (touchMaterial s boxIndex).type, data := (touchMaterial s boxIndex).data }) with
        group := touchMaster s boxIndex }
    gStats := { s.gStats with blocksManifoldWelded := s.gStats.blocksManifoldWelded + 1 }
    gGroupList := setGroup s.gGroupList (touchMaster s boxIndex)
      { s.gGroupList (touchMaster s boxIndex) with
        population := (s.gGroupList (touchMaster s boxIndex)).population + 1,
        bounds := addBounds boxIndex (s.gGroupList (touchMaster s boxIndex)).bounds } }

/-- The state of `fixTouchingEdges` in which the groups around the filled cell
`boxIndex` are merged: the two counters are changed already. -/
def weldCounted (bi : BlockInfo) (s : ExportState) (boxIndex : IPoint) : ExportState :=
  { weldCell bi s boxIndex with
    gStats := { (weldCell bi s boxIndex).gStats with
      solidGroupsMerged := (weldCell bi s boxIndex).gStats.solidGroupsMerged +
        (((touchFaces s boxIndex).faceGroupID.length : Int) - 1) }
    gSolidGroups := (weldCell bi s boxIndex).gSolidGroups -
      (((touchFaces s boxIndex).faceGroupID.length : Int) - 1) }

/-- The flags and the bounds of the groups that `fixTouchingEdges` merges into the
master group around the filled cell `boxIndex`. -/
def weldTargets (bi : BlockInfo) (s : ExportState) (boxIndex : IPoint) : (Nat → Int) × IBox :=
  (touchFaces s boxIndex).faceGroupID.foldl
    (mergeBoundsStep (weldCounted bi s boxIndex).gGroupList (touchMaster s boxIndex))
    (fun _ => 0, emptyBounds)

/-! ## Concrete states -/

/-- A block table for the concrete states: glass 20, leaves 18, lava 10, vines 106,
ladders (65) as entrances, leaves as leaf parts, logs (17) and leaves as tree parts. -/
def sampleBlocks : BlockInfo :=
  { BLOCK_GLASS := 20
    BLOCK_LEAVES := 18
    BLOCK_LAVA := 10
    BLOCK_VINES := 106
    BLF_ENTRANCE := fun t => t == 65
    BLF_LEAF_PART := fun t => t == 18
    BLF_TREE_PART := fun t => t == 17 || t == 18 }

def noOptions : Options :=
  { EXPT_FILL_BUBBLES := false
    EXPT_SEAL_ENTRANCES := false
    EXPT_SEAL_SIDE_TUNNELS := false
    EXPT_CONNECT_PARTS := false
    EXPT_CONNECT_ALL_EDGES := false
    EXPT_CONNECT_CORNER_TIPS := false
    EXPT_DELETE_FLOATING_OBJECTS := false
    EXPT_DEBUG_SHOW_WELDS := false
    floaterCountVal := 16 }

def airCell : BoxCell := ⟨BLOCK_AIR, BLOCK_AIR, 0, 0, NO_GROUP_SET⟩

/-- A stone block (block id 1) as `populateBox` stores it. -/
def stoneCell : BoxCell := ⟨1, 1, 0, 0, NO_GROUP_SET⟩

/-- The state after `populateBox` and the first part of `filterBox` for an array of
the given size whose cells are stone where `stone` holds and air elsewhere. -/
def stoneWorld (stone : IPoint → Bool) (size : IPoint) (solidBox : IBox) (o : Options) :
    ExportState :=
  { gBoxData := fun p => if stone p then stoneCell else airCell
    gBoxSize := size
    gSolidBox := solidBox
    gAirBox := ⟨⟨solidBox.min.x - 1, solidBox.min.y - 1, solidBox.min.z - 1⟩,
      ⟨solidBox.max.x + 1, solidBox.max.y + 1, solidBox.max.z + 1⟩⟩
    gGroupList := fun _ => ⟨0, 0, false, ⟨⟨0, 0, 0⟩, ⟨0, 0, 0⟩⟩⟩
    gGroupCount := 0
    gSolidGroups := 0
    gAirGroups := 0
    gStats := ⟨0, 0, 0, 0, 0, 0, 0, 0⟩
    gOptions := o
    gTouchGrid := fun _ => ⟨0, 0, 0⟩
    gTouchSize := 0 }

/-- The 3×3×3 stone cube with its centre cell empty, in an array of 5×5×5 cells. -/
def hollowCube (o : Options) : ExportState :=
  stoneWorld
    (fun p => decide (1 ≤ p.x ∧ p.x ≤ 3 ∧ 1 ≤ p.y ∧ p.y ≤ 3 ∧ 1 ≤ p.z ∧ p.z ≤ 3 ∧ p ≠ ⟨2, 2, 2⟩))
    ⟨5, 5, 5⟩ ⟨⟨1, 1, 1⟩, ⟨3, 3, 3⟩⟩ o

/-- One stone block in the middle of an array of 3×4×3 cells whose lowest layer is
outside the air box. -/
def hangingBlock (o : Options) : ExportState :=
  stoneWorld (fun p => decide (p = ⟨1, 2, 1⟩)) ⟨3, 4, 3⟩ ⟨⟨1, 2, 1⟩, ⟨1, 2, 1⟩⟩ o

/-- Two stone blocks that share one vertical edge, in an array of 4×3×4 cells. -/
def twoBlocks (o : Options) : ExportState :=
  stoneWorld (fun p => decide (p = ⟨1, 1, 1⟩ ∨ p = ⟨2, 1, 2⟩)) ⟨4, 3, 4⟩ ⟨⟨1, 1, 1⟩, ⟨2, 1, 2⟩⟩ o

/-- One stone block in an array of 3×3×3 cells. -/
def oneBlock (o : Options) : ExportState :=
  stoneWorld (fun p => decide (p = ⟨1, 1, 1⟩)) ⟨3, 3, 3⟩ ⟨⟨1, 1, 1⟩, ⟨1, 1, 1⟩⟩ o

def sealTunnels : Options := { noOptions with EXPT_SEAL_SIDE_TUNNELS := true }

def sealEntrances : Options := { noOptions with EXPT_SEAL_ENTRANCES := true }

def fillBubbles : Options := { noOptions with EXPT_FILL_BUBBLES := true }

def connectParts : Options := { noOptions with EXPT_CONNECT_PARTS := true }

def deleteFloaters : Options := { noOptions with EXPT_DELETE_FLOATING_OBJECTS := true }

/-- The two blocks that share an edge after `findGroups`: two solid groups of one
block each. -/
def twoGroups : ExportState := findGroups sampleBlocks (twoBlocks deleteFloaters)

/-- The groups of the hollow cube: group 1 is the air around the cube, group 2 the
stone, group 3 the empty centre cell. -/
def cubeGroups : ExportState := findGroups sampleBlocks (hollowCube fillBubbles)

def connectAll : Options :=
  { noOptions with EXPT_CONNECT_PARTS := true, EXPT_CONNECT_ALL_EDGES := true }

/-- Three stone blocks in an L: two that share a vertical edge and one between
them, in an array of 4×3×4 cells. -/
def elbow (o : Options) : ExportState :=
  stoneWorld (fun p => decide (p = ⟨1, 1, 1⟩ ∨ p = ⟨2, 1, 2⟩ ∨ p = ⟨2, 1, 1⟩)) ⟨4, 3, 4⟩
    ⟨⟨1, 1, 1⟩, ⟨2, 1, 2⟩⟩ o

/-- A sorting routine to stand for `qsort_s` in the concrete states: insertion
sort by the comparison function. -/
def sampleSort : Qsort := fun cmp l => l.insertionSort fun a b => cmp a b ≤ 0

/-- The two blocks that share an edge, with connect-parts on, after `findGroups`. -/
def twoParts : ExportState := findGroups sampleBlocks (twoBlocks connectParts)

/-- The single block, with connect-parts on, after `findGroups`. -/
def onePart : ExportState := findGroups sampleBlocks (oneBlock connectParts)

/-! ## Face generation

The part of `gModel` written by `initializeModelData`, `checkAndCreateFaces`,
`saveVertices` and `saveFaceLoop`, and its list of composite swatches. The arrays
`vertexIndices`, `vertices` and `faceList` are functions of the C index;
`vertexIndices` is indexed by the linear index `BOX_INDEX`, as in the source. A
vertex is kept as the integer point whose coordinates `saveVertices` converts to
`float`. The texture image and the tables of texture coordinates are left out:
`saveFaceLoop` is embedded without its call of `getSwatch`, which writes only
`face->uvIndex` and those tables. -/

/-- The value `0xffffffff` of `NO_INDEX_SET` as the `int` that `vertexIndices` holds. -/
def NO_INDEX_SET : Int := -1

def HOLLOW_AIR_GROUP : Nat := 0

def FLAT_FACE_LO_X : Nat := 0x01

def FLAT_FACE_HI_X : Nat := 0x02

def FLAT_FACE_LO_Z : Nat := 0x04

def FLAT_FACE_HI_Z : Nat := 0x08

def FLAT_FACE_ABOVE : Nat := 0x10

def FLAT_FACE_BELOW : Nat := 0x20

/-- Modelled from the source's use of the direction names, their header not being
among the sources: `DIRECTION_BLOCK_BOTTOM` is the direction -Y of `gFaceOffset`
(the bottom-up pass of hollowing skips it as "down", and `saveFaceLoop` reads
`boxIndex-1` for it). -/
def DIRECTION_BLOCK_BOTTOM : Nat := 1

/-- The block header for face generation: `BlockInfo` with two more block ids, the
number of block ids, and the `alpha` and the cutout flag of `gBlockDefinitions`. -/
structure BlockTable extends BlockInfo where
  BLOCK_GLASS_PANE : Nat
  BLOCK_IRON_BARS : Nat
  NUM_BLOCKS : Int
  alpha : Nat → Rat
  BLF_CUTOUTS : Nat → Bool

/-- The bits of `gOptions->exportFlags` read by face generation. -/
structure FaceOptions where
  EXPT_3DPRINT : Bool
  EXPT_OUTPUT_MATERIALS : Bool
  EXPT_OUTPUT_TEXTURE : Bool
  EXPT_OUTPUT_TEXTURE_IMAGES : Bool
  EXPT_DEBUG_SHOW_GROUPS : Bool
deriving DecidableEq

/-- A face record without its `uvIndex`; `type` is `none` as long as the field has
not been written (no material is output). -/
structure FaceRecord where
  type : Option Int
  faceIndex : Int
  vertexIndex : List Int
  normalIndex : Nat
deriving DecidableEq

/-- A record of the list of composite swatches, without its `next` pointer. -/
structure SwatchComposite where
  swatchLoc : Int
  backgroundSwatchLoc : Int
  angle : Int
  compositeSwatchLoc : Int
deriving DecidableEq

/-- The fields of `gModel` used by the embedded functions; the linked list
`swatchCompositeList` is the list of its records from first to last. -/
structure Model where
  vertices : Int → IPoint
  vertexIndices : Int → Int
  vertexCount : Int
  vertexListSize : Int
  faceList : Int → FaceRecord
  faceCount : Int
  faceSize : Int
  swatchCount : Int
  swatchListSize : Int
  swatchCompositeList : List SwatchComposite

def setAt {α : Type} (a : Int → α) (i : Int) (v : α) : Int → α :=
  fun j => if j = i then v else a j

def gBoxSizeYZ (s : ExportState) : Int := s.gBoxSize.y * s.gBoxSize.z

def gBoxSizeXYZ (s : ExportState) : Int := s.gBoxSize.x * gBoxSizeYZ s

def BOX_INDEX (s : ExportState) (x y z : Int) : Int :=
  x * gBoxSizeYZ s + z * s.gBoxSize.y + y

def BOX_INDEXV (s : ExportState) (pt : IPoint) : Int := BOX_INDEX s pt.x pt.y pt.z

/-- The table `gFaceToVertexOffset[faceDirection][i]`; an index outside the table
reads the point 0. -/
def gFaceToVertexOffset (faceDirection i : Nat) : IPoint :=
  (([[⟨0, 0, 0⟩, ⟨0, 0, 1⟩, ⟨0, 1, 1⟩, ⟨0, 1, 0⟩],
     [⟨1, 0, 1⟩, ⟨0, 0, 1⟩, ⟨0, 0, 0⟩, ⟨1, 0, 0⟩],
     [⟨1, 0, 0⟩, ⟨0, 0, 0⟩, ⟨0, 1, 0⟩, ⟨1, 1, 0⟩],
     [⟨1, 0, 1⟩, ⟨1, 0, 0⟩, ⟨1, 1, 0⟩, ⟨1, 1, 1⟩],
     [⟨0, 1, 1⟩, ⟨1, 1, 1⟩, ⟨1, 1, 0⟩, ⟨0, 1, 0⟩],
     [⟨0, 0, 1⟩, ⟨1, 0, 1⟩, ⟨1, 1, 1⟩, ⟨0, 1, 1⟩]] : List (List IPoint)).getD
    faceDirection []).getD i ⟨0, 0, 0⟩

/-- The state of `gModel` after `memset(&gModel,0,sizeof(Model))`. -/
def zeroModel : Model :=
  { vertices := fun _ => ⟨0, 0, 0⟩
    vertexIndices := fun _ => 0
    vertexCount := 0
    vertexListSize := 0
    faceList := fun _ => ⟨none, 0, [], 0⟩
    faceCount := 0
    faceSize := 0
    swatchCount := 0
    swatchListSize := 0
    swatchCompositeList := [] }

/-- The loop of `initializeModelData` that counts the faces towards air. -/
def countFaces (s : ExportState) (faceSize : Int) : Int :=
  (boxCells s.gSolidBox).foldl
    (fun n loc => (List.range 6).foldl
      (fun n faceDirection =>
        if (s.gBoxData loc).type > BLOCK_AIR then
          if (s.gBoxData (getNeighborUnsafe faceDirection loc)).type ≤ BLOCK_AIR then n + 1 else n
        else n) n)
    faceSize

/-- The function `initializeModelData`, without its billboard bounds and texture
tables. -/
def initializeModelData (s : ExportState) (m : Model) : Model :=
  { m with
    vertexIndices := fun i => if 0 ≤ i ∧ i < gBoxSizeXYZ s then NO_INDEX_SET else m.vertexIndices i
    vertexListSize := gBoxSizeXYZ s
    faceSize := countFaces s m.faceSize * 2 + 1 }

def checkVertexListSize (m : Model) : Model :=
  if m.vertexCount = m.vertexListSize then { m with vertexListSize := m.vertexListSize * 2 } else m

def checkFaceListSize (m : Model) : Model :=
  if m.faceCount = m.faceSize then { m with faceSize := m.faceSize * 2 } else m

/-- The function `checkMakeFace`; the block ids are those of two cells of `gBoxData`. -/
def checkMakeFace (bt : BlockTable) (o : FaceOptions) (type neighborType : Nat) (view3D : Int) :
    Int :=
  if neighborType ≤ BLOCK_AIR then 1
  else if view3D ≠ 0 then
    let makeFace : Int :=
      if bt.alpha neighborType < 1 then (if neighborType ≠ type then 1 else 0) else 0
    if o.EXPT_OUTPUT_TEXTURE_IMAGES ∧ bt.BLF_CUTOUTS neighborType then
      if ¬ (neighborType = bt.BLOCK_GLASS ∧ type = bt.BLOCK_GLASS) ∧
          ¬ (neighborType = bt.BLOCK_GLASS_PANE ∧ type = bt.BLOCK_GLASS_PANE) ∧
          ¬ (neighborType = bt.BLOCK_VINES ∧ type = bt.BLOCK_VINES) ∧
          ¬ (neighborType = bt.BLOCK_IRON_BARS ∧ type = bt.BLOCK_IRON_BARS) then 1
      else makeFace
    else makeFace
  else 0

/-- The index `boxIndex + offset[X]*gBoxSizeYZ + offset[Y] + offset[Z]*gBoxSize[Y]` of
corner `i` of face `faceDirection` of the cell at `boxIndex`. -/
def cornerIndex (s : ExportState) (boxIndex : Int) (faceDirection i : Nat) : Int :=
  boxIndex + (gFaceToVertexOffset faceDirection i).x * gBoxSizeYZ s +
    (gFaceToVertexOffset faceDirection i).y + (gFaceToVertexOffset faceDirection i).z * s.gBoxSize.y

/-- The loop of `saveVertices` over the corners in the list; the `return` of
the range test ends it. -/
def saveVerticesFrom (s : ExportState) (boxIndex : Int) (faceDirection : Nat) (loc : IPoint) :
    List Nat → Model → Model
  | [], m => m
  | i :: rest, m =>
    let offset := gFaceToVertexOffset faceDirection i
    let vertexIndex := cornerIndex s boxIndex faceDirection i
    if vertexIndex < 0 ∨ vertexIndex > gBoxSizeXYZ s then m
    else if m.vertexIndices vertexIndex = NO_INDEX_SET then
      let m := checkVertexListSize m
      saveVerticesFrom s boxIndex faceDirection loc rest
        { m with
          vertexIndices := setAt m.vertexIndices vertexIndex m.vertexCount
          vertices := setAt m.vertices m.vertexCount
            ⟨loc.x + offset.x, loc.y + offset.y, loc.z + offset.z⟩
          vertexCount := m.vertexCount + 1 }
    else saveVerticesFrom s boxIndex faceDirection loc rest m

def saveVertices (s : ExportState) (boxIndex : Int) (faceDirection : Nat) (loc : IPoint)
    (m : Model) : Model :=
  saveVerticesFrom s boxIndex faceDirection loc [0, 1, 2, 3] m

def getMaterialUsingGroup (bt : BlockTable) (groupID : Int) : Int :=
  let type := Int.tmod (bt.NUM_BLOCKS - groupID) bt.NUM_BLOCKS
  if type ≤ BLOCK_AIR then type + (bt.NUM_BLOCKS - 1) else type

/-- The flag of `flatFlags` that the `switch` of `saveFaceLoop` tests for a face
direction. -/
def flatFaceFlag : Nat → Nat
  | 0 => FLAT_FACE_LO_X
  | 1 => FLAT_FACE_BELOW
  | 2 => FLAT_FACE_LO_Z
  | 3 => FLAT_FACE_HI_X
  | 4 => FLAT_FACE_ABOVE
  | 5 => FLAT_FACE_HI_Z
  | _ => 0

/-- The value of `face->type` at the end of the material block of `saveFaceLoop`;
`none` stands for the `return` that drops the face. The cell at `boxIndex` is
addressed by its coordinate `loc`. -/
def faceType (bt : BlockTable) (o : FaceOptions) (s : ExportState) (loc : IPoint)
    (faceDirection : Nat) : Option (Option Int) :=
  if o.EXPT_OUTPUT_MATERIALS ∨ o.EXPT_OUTPUT_TEXTURE then
    if o.EXPT_DEBUG_SHOW_GROUPS then
      some (some (getMaterialUsingGroup bt (s.gBoxData loc).group))
    else if (s.gBoxData loc).flatFlags ≠ 0 ∧
        (s.gBoxData loc).flatFlags &&& flatFaceFlag faceDirection ≠ 0 then
      if (s.gBoxData (getNeighborUnsafe faceDirection loc)).origType = BLOCK_AIR then none
      else some (some ((s.gBoxData (getNeighborUnsafe faceDirection loc)).origType : Int))
    else some (some ((s.gBoxData loc).type : Int))
  else some none

/-- The function `saveFaceLoop` for the cell at `loc`, whose index is `boxIndex`. -/
def saveFaceLoop (bt : BlockTable) (o : FaceOptions) (s : ExportState) (boxIndex : Int)
    (loc : IPoint) (faceDirection : Nat) (m : Model) : Model :=
  match faceType bt o s loc faceDirection with
  | none => m
  | some type =>
    let face : FaceRecord :=
      { type := type
        faceIndex := m.faceCount
        vertexIndex := [0, 1, 2, 3].map fun i => m.vertexIndices (cornerIndex s boxIndex faceDirection i)
        normalIndex := faceDirection }
    let m := checkFaceListSize m
    { m with faceList := setAt m.faceList m.faceCount face, faceCount := m.faceCount + 1 }

/-- The function `checkAndCreateFaces`. -/
def checkAndCreateFaces (bt : BlockTable) (o : FaceOptions) (s : ExportState) (boxIndex : Int)
    (loc : IPoint) (m : Model) : Model :=
  let type := (s.gBoxData loc).type
  let view3D : Int := if o.EXPT_3DPRINT then 0 else 1
  (List.range 6).foldl
    (fun m faceDirection =>
      let neighborType := (s.gBoxData (getNeighborUnsafe faceDirection loc)).type
      if checkMakeFace bt o type neighborType view3D ≠ 0 then
        saveFaceLoop bt o s boxIndex loc faceDirection (saveVertices s boxIndex faceDirection loc m)
      else m)
    m

/-- The loops of `generateBlockDataAndStatistics` that create the faces (the
normals, the centre and the final transform of the vertices are left out). -/
def generateBlockDataAndStatistics (bt : BlockTable) (o : FaceOptions) (s : ExportState)
    (m : Model) : Model :=
  (boxCells s.gSolidBox).foldl
    (fun m loc =>
      if (s.gBoxData loc).type > BLOCK_AIR then checkAndCreateFaces bt o s (BOX_INDEXV s loc) loc m
      else m)
    m

/-! ## The second part of filterBox -/

/-- The two return codes of the second part of `filterBox`; their values are in a
header that is not among the sources. -/
inductive ReturnCode where
  | MW_NO_ERROR
  | MW_ALL_BLOCKS_DELETED
deriving DecidableEq

/-- The function `filterBox` from `gSolidGroups = gAirGroups = 0` on (the first
part, which filters the blocks, is left out, and so is the choice of the debug
material); the repair loop is given `fuel` passes, and `none` is returned when it
has not ended by then. -/
def filterBox (bi : BlockInfo) (qsort_s : Qsort) (fuel : Nat) (s : ExportState) :
    Option (ReturnCode × ExportState) :=
  let s : ExportState := { s with gSolidGroups := 0, gAirGroups := 0 }
  if s.gOptions.EXPT_FILL_BUBBLES ∨ s.gOptions.EXPT_CONNECT_PARTS ∨
      s.gOptions.EXPT_DELETE_FLOATING_OBJECTS then
    let s : ExportState :=
      { s with gGroupList := fun _ => ⟨0, 0, false, ⟨⟨0, 0, 0⟩, ⟨0, 0, 0⟩⟩⟩, gGroupCount := 0 }
    let s := findGroups bi s
    let s :=
      if s.gOptions.EXPT_FILL_BUBBLES ∨ s.gOptions.EXPT_DELETE_FLOATING_OBJECTS then
        if s.gAirGroups > 1 then checkAndRemoveBubbles bi s else s
      else s
    match repairLoop bi qsort_s fuel 0 s with
    | none => none
    | some r =>
      let s := r.1
      if s.gOptions.EXPT_DELETE_FLOATING_OBJECTS then
        let s := if s.gSolidGroups > 1 then deleteFloatingGroups bi s else s
        if s.gSolidGroups = 0 then some (ReturnCode.MW_ALL_BLOCKS_DELETED, s)
        else some (ReturnCode.MW_NO_ERROR, s)
      else some (ReturnCode.MW_NO_ERROR, s)
  else some (ReturnCode.MW_NO_ERROR, s)

/-! ## Hollowing -/

/-- The state of `hollowBottomOfModel`: the globals in `s`, its locals `hollowDone`
(indexed by `x*gBoxSize[Z]+z`, an `unsigned char` each) and `listFound`, and the
counters `gBlockCount`, `gStats.blocksHollowed` and `gStats.blocksSuperHollowed`. -/
structure Hollowing where
  s : ExportState
  hollowDone : Int → Nat
  listFound : Int
  gBlockCount : Int
  blocksHollowed : Int
  blocksSuperHollowed : Int

def addPost (s : ExportState) (gHollowBlockThickness : Int) : Bool :=
  decide (s.gSolidBox.max.x > s.gSolidBox.min.x + 8 + 2 * gHollowBlockThickness) ||
  decide (s.gSolidBox.max.z > s.gSolidBox.min.z + 8 + 2 * gHollowBlockThickness)

/-- The cells of the brute force test of `hollowBottomOfModel` that must not be air,
after the cell itself, in the order of the test. -/
def hollowStencil (p : IPoint) : List IPoint :=
  [p.offset 0 1 0, p.offset (-1) 0 0, p.offset 1 0 0, p.offset 0 0 (-1), p.offset 0 0 1,
   p.offset (-1) 0 (-1), p.offset 1 0 (-1), p.offset (-1) 0 1, p.offset 1 0 1,
   p.offset (-1) 1 0, p.offset 1 1 0, p.offset 0 1 (-1), p.offset 0 1 1,
   p.offset (-1) 1 (-1), p.offset 1 1 (-1), p.offset (-1) 1 1, p.offset 1 1 1]

/-- The brute force test of `hollowBottomOfModel` at the cell `p`. -/
def hollowTest (s : ExportState) (p : IPoint) : Bool :=
  decide ((s.gBoxData (p.offset 0 (-1) 0)).type = BLOCK_AIR) &&
  decide ((s.gBoxData p).type ≠ BLOCK_AIR) &&
  (hollowStencil p).all fun q => decide ((s.gBoxData q).type ≠ BLOCK_AIR)

/-- The loop `while ( survived && getNeighbor( dir, loc ) && neighborCount > 0 )` of
`hollowBottomOfModel`, for the value of `neighborCount` and of `loc` at its
start: the value of `survived` at its end. -/
def wallSurvives (s : ExportState) (dir : Nat) : Nat → IPoint → Bool
  | 0, _ => true
  | neighborCount + 1, loc =>
    match getNeighbor s.gAirBox dir loc with
    | none => true
    | some q =>
      if (s.gBoxData q).type = BLOCK_AIR then false else wallSurvives s dir neighborCount q

/-- The loop over the directions of `hollowBottomOfModel`: the value of `survived`. -/
def survived (s : ExportState) (gHollowBlockThickness : Int) (p : IPoint) : Bool :=
  (List.range 6).all fun dir =>
    decide (dir = DIRECTION_BLOCK_BOTTOM) ||
      wallSurvives s dir (gHollowBlockThickness - 1).toNat (getNeighborUnsafe dir p)

/-- The body of the loops over `x` and `z` of `hollowBottomOfModel` for the layer `y`;
the second component is `listToChange`, a list of cells. -/
def hollowCell (gHollowBlockThickness : Int) (y : Int) (a : Hollowing × List IPoint)
    (xz : Int × Int) : Hollowing × List IPoint :=
  let h := a.1
  let x := xz.1
  let z := xz.2
  let b := h.s.gSolidBox
  let loc : IPoint := ⟨x, y, z⟩
  let i := x * h.s.gBoxSize.z + z
  if h.hollowDone i = 0 then
    if ¬ addPost h.s gHollowBlockThickness ∨
        (x > b.min.x + gHollowBlockThickness ∧ x < b.max.x - gHollowBlockThickness) ∨
        (z > b.min.z + gHollowBlockThickness ∧ z < b.max.z - gHollowBlockThickness) then
      if hollowTest h.s loc then
        if gHollowBlockThickness > 1 then
          if survived h.s gHollowBlockThickness loc then (h, a.2 ++ [loc]) else a
        else (h, a.2 ++ [loc])
      else ({ h with hollowDone := setAt h.hollowDone i (y % 256).toNat }, a.2)
    else if (h.s.gBoxData loc).type > BLOCK_AIR then
      ({ h with s := { h.s with
          gBoxData := setCell h.s.gBoxData loc { h.s.gBoxData loc with group := HOLLOW_AIR_GROUP } } },
        a.2)
    else ({ h with hollowDone := setAt h.hollowDone i (y % 256).toNat }, a.2)
  else a

/-- The columns visited by the loops over `x` and `z` of `hollowBottomOfModel`. -/
def hollowColumns (s : ExportState) (gHollowBlockThickness : Int) : List (Int × Int) :=
  (intRange (s.gSolidBox.min.x + gHollowBlockThickness)
      (s.gSolidBox.max.x - gHollowBlockThickness)).flatMap fun x =>
    (intRange (s.gSolidBox.min.z + gHollowBlockThickness)
      (s.gSolidBox.max.z - gHollowBlockThickness)).map fun z => (x, z)

/-- The scan of the layer `y`: the state and `listToChange` after the loops over `x`
and `z`. -/
def hollowScan (gHollowBlockThickness : Int) (y : Int) (h : Hollowing) : Hollowing × List IPoint :=
  (hollowColumns h.s gHollowBlockThickness).foldl (hollowCell gHollowBlockThickness y) (h, [])

/-- The body of the loop that deletes the cells of `listToChange`. -/
def hollowDelete (h : Hollowing) (p : IPoint) : Hollowing :=
  { h with
    s := { h.s with
      gBoxData := setCell h.s.gBoxData p
        { h.s.gBoxData p with type := BLOCK_AIR, group := HOLLOW_AIR_GROUP } }
    gBlockCount := h.gBlockCount - 1
    blocksHollowed := h.blocksHollowed + 1 }

/-- The body of the loop over `y` of `hollowBottomOfModel`: the scan of the layer,
then the deletion of the cells found, last one first. -/
def hollowLayer (gHollowBlockThickness : Int) (y : Int) (h : Hollowing) : Hollowing :=
  let r := hollowScan gHollowBlockThickness y h
  let h1 : Hollowing := { r.1 with listFound := r.2.length }
  r.2.reverse.foldl hollowDelete h1

/-- The loop `for ( y = ...; (y < gSolidBox.max[Y]) && listFound; y++ )` over the
layers in the list. -/
def hollowSweep (gHollowBlockThickness : Int) : List Int → Hollowing → Hollowing
  | [], h => h
  | y :: rest, h =>
    if h.listFound ≠ 0 then hollowSweep gHollowBlockThickness rest (hollowLayer gHollowBlockThickness y h)
    else h

/-- The bottom-up pass of `hollowBottomOfModel` (the function up to its test of
`EXPT_SUPER_HOLLOW_BOTTOM`). -/
def hollowBottomOfModel (gHollowBlockThickness : Int) (h : Hollowing) : Hollowing :=
  hollowSweep gHollowBlockThickness (intRange h.s.gSolidBox.min.y (h.s.gSolidBox.max.y - 1))
    { h with hollowDone := fun _ => 0, listFound := 1 }

/-- The 27 cells visited by the first test of `hollowSeed`, in its order. -/
def seedStencil (p : IPoint) : List IPoint :=
  boxCells ⟨p.offset (-1) (-1) (-1), p.offset 1 1 1⟩

/-- A cell that stops `hollowSeed`: air that is not marked as hollow. -/
def outsideAir (s : ExportState) (q : IPoint) : Bool :=
  decide ((s.gBoxData q).type = BLOCK_AIR) && decide ((s.gBoxData q).group ≠ HOLLOW_AIR_GROUP)

/-- The loop `while ( ok && getNeighbor( dir, loc ) && neighborCount > 0 )` of
`hollowSeed`: the value of `ok` at its end. -/
def seedSurvives (s : ExportState) (dir : Nat) : Nat → IPoint → Bool
  | 0, _ => true
  | neighborCount + 1, loc =>
    match getNeighbor s.gAirBox dir loc with
    | none => true
    | some q => if outsideAir s q then false else seedSurvives s dir neighborCount q

/-- The value of `ok` after the two tests of `hollowSeed`. -/
def seedOk (s : ExportState) (gHollowBlockThickness : Int) (p : IPoint) : Bool :=
  ((seedStencil p).all fun q => !outsideAir s q) &&
  (decide (¬ gHollowBlockThickness > 1) ||
    (List.range 6).all fun dir =>
      seedSurvives s dir (gHollowBlockThickness - 1).toNat (getNeighborUnsafe dir p))

/-- The function `hollowSeed`; the seed stack is a list whose head is its top. -/
def hollowSeed (gHollowBlockThickness : Int) (h : Hollowing) (x y z : Int)
    (seedList : List IPoint) : Hollowing × List IPoint :=
  let p : IPoint := ⟨x, y, z⟩
  if (h.s.gBoxData p).type ≠ BLOCK_AIR ∧ (h.s.gBoxData p).group ≠ HOLLOW_AIR_GROUP then
    if seedOk h.s gHollowBlockThickness p then
      ({ h with
          s := { h.s with
            gBoxData := setCell h.s.gBoxData p
              { h.s.gBoxData p with type := BLOCK_AIR, group := HOLLOW_AIR_GROUP } }
          blocksSuperHollowed := h.blocksSuperHollowed + 1
          gBlockCount := h.gBlockCount - 1 },
        (List.range 6).foldl (fun l dir => getNeighborUnsafe dir p :: l) seedList)
    else (h, seedList)
  else (h, seedList)

/-! ## Composite swatches -/

/-- The function `getSwatch`, a parameter: it is given the state, the block type,
the data value, the face direction and the background index, and returns the
swatch location and the new `gModel`. -/
abbrev GetSwatch := ExportState → Model → Nat → Nat → Nat → Int → Int × Model

/-- The function `createCompositeSwatch`, without the work on the texture image. -/
def createCompositeSwatch (m : Model) (swatchLoc backgroundSwatchLoc angle : Int) : Int × Model :=
  (m.swatchCount,
    { m with
      swatchCount := m.swatchCount + 1
      swatchCompositeList := m.swatchCompositeList ++
        [⟨swatchLoc, backgroundSwatchLoc, angle, m.swatchCount⟩] })

/-- The function `getCompositeSwatch`; the background cell is addressed by its
coordinate. The first search starts at the head of the list as it was before the
call of `getSwatch`: it sees nothing if the list was empty then, and else the
list as it is after that call. -/
def getCompositeSwatch (getSwatch : GetSwatch) (s : ExportState) (m : Model) (swatchLoc : Int)
    (backgroundIndex : IPoint) (faceDirection : Nat) (angle : Int) : Int × Model :=
  let r := getSwatch s m (s.gBoxData backgroundIndex).type (s.gBoxData backgroundIndex).data
    faceDirection 0
  let backgroundSwatchLoc := r.1
  let m1 := r.2
  let searched := if m.swatchCompositeList = [] then [] else m1.swatchCompositeList
  match searched.find? fun c =>
      decide (c.swatchLoc = swatchLoc ∧ c.angle = angle ∧ c.backgroundSwatchLoc = backgroundSwatchLoc) with
  | some c => (c.compositeSwatchLoc, m1)
  | none =>
    if m1.swatchCount ≥ m1.swatchListSize then
      match m1.swatchCompositeList.find? fun c => decide (c.swatchLoc = swatchLoc) with
      | some c => (c.compositeSwatchLoc, m1)
      | none => (0, m1)
    else createCompositeSwatch m1 swatchLoc backgroundSwatchLoc angle

/-! ## Notions used in the statements on face generation, hollowing and swatches -/

/-- The value of `view3D` in `checkAndCreateFaces`. -/
def view3D (o : FaceOptions) : Int := if o.EXPT_3DPRINT then 0 else 1

/-- The faces that `generateBlockDataAndStatistics` asks for: the pairs of a
non-air cell of the solid box and a face direction for which `checkMakeFace`
answers yes, in the order of the loops. -/
def emitted (bt : BlockTable) (o : FaceOptions) (s : ExportState) : List (IPoint × Nat) :=
  (boxCells s.gSolidBox).flatMap fun loc =>
    if (s.gBoxData loc).type > BLOCK_AIR then
      ((List.range 6).filter fun faceDirection =>
        decide (checkMakeFace bt o (s.gBoxData loc).type
          (s.gBoxData (getNeighborUnsafe faceDirection loc)).type (view3D o) ≠ 0)).map
        fun faceDirection => (loc, faceDirection)
    else []

/-- What `checkAndCreateFaces` does for one face it has decided to create. -/
def emitFace (bt : BlockTable) (o : FaceOptions) (s : ExportState) (m : Model)
    (e : IPoint × Nat) : Model :=
  saveFaceLoop bt o s (BOX_INDEXV s e.1) e.1 e.2 (saveVertices s (BOX_INDEXV s e.1) e.2 e.1 m)

/-- The grid corner `i` of the face `e`: the cell plus `gFaceToVertexOffset`. -/
def gridCorner (e : IPoint × Nat) (i : Nat) : IPoint :=
  ⟨e.1.x + (gFaceToVertexOffset e.2 i).x, e.1.y + (gFaceToVertexOffset e.2 i).y,
    e.1.z + (gFaceToVertexOffset e.2 i).z⟩

/-- The grid corners of a list of faces, four for each face. -/
def gridCorners (l : List (IPoint × Nat)) : List IPoint :=
  l.flatMap fun e => (List.range 4).map (gridCorner e)

/-- The call of `getSwatch` that `getCompositeSwatch` makes for the background cell
is plain: whatever `gModel` is, it leaves the list of composites, `swatchCount`
and `swatchListSize` as they are, and the swatch it returns does not depend on
`gModel`. -/
def PlainBackground (getSwatch : GetSwatch) (s : ExportState) (backgroundIndex : IPoint)
    (faceDirection : Nat) : Prop :=
  ∀ m : Model,
    (getSwatch s m (s.gBoxData backgroundIndex).type (s.gBoxData backgroundIndex).data
      faceDirection 0).2.swatchCompositeList = m.swatchCompositeList ∧
    (getSwatch s m (s.gBoxData backgroundIndex).type (s.gBoxData backgroundIndex).data
      faceDirection 0).2.swatchCount = m.swatchCount ∧
    (getSwatch s m (s.gBoxData backgroundIndex).type (s.gBoxData backgroundIndex).data
      faceDirection 0).2.swatchListSize = m.swatchListSize ∧
    ∀ m' : Model,
      (getSwatch s m (s.gBoxData backgroundIndex).type (s.gBoxData backgroundIndex).data
        faceDirection 0).1 =
      (getSwatch s m' (s.gBoxData backgroundIndex).type (s.gBoxData backgroundIndex).data
        faceDirection 0).1

/-- Two states of `gModel` hold the same vertices: the same `vertices`,
`vertexIndices`, `vertexCount` and `vertexListSize`. -/
def SameVertices (m n : Model) : Prop :=
  m.vertices = n.vertices ∧ m.vertexIndices = n.vertexIndices ∧
    m.vertexCount = n.vertexCount ∧ m.vertexListSize = n.vertexListSize

/-- The state of the vertex tables after the grid corners `cs` have been asked for:
a corner of the array has an index exactly when it is among `cs`, the indices
are below `vertexCount` and differ from corner to corner, the vertex stored at the
index of a corner is the corner, and `vertexCount` is the number of the corners. -/
structure Indexed (s : ExportState) (cs : List IPoint) (m : Model) : Prop where
  grid : ∀ c ∈ cs, (arrayBox s).contains c = true
  set : ∀ c, (arrayBox s).contains c = true →
    (m.vertexIndices (BOX_INDEXV s c) ≠ NO_INDEX_SET ↔ c ∈ cs)
  below : ∀ c ∈ cs,
    0 ≤ m.vertexIndices (BOX_INDEXV s c) ∧ m.vertexIndices (BOX_INDEXV s c) < m.vertexCount
  inj : ∀ c ∈ cs, ∀ d ∈ cs,
    m.vertexIndices (BOX_INDEXV s c) = m.vertexIndices (BOX_INDEXV s d) → c = d
  stored : ∀ c ∈ cs, m.vertices (m.vertexIndices (BOX_INDEXV s c)) = c
  count : m.vertexCount = (cs.toFinset.card : Int)

/-- The faces of `faceList` come from the faces `l` asked for: each holds the indices
of the four grid corners of one of them, in the order of `gFaceToVertexOffset`,
and its direction as the normal. -/
def Faced (s : ExportState) (l : List (IPoint × Nat)) (m : Model) : Prop :=
  ∀ k, 0 ≤ k → k < m.faceCount → ∃ e ∈ l,
    (m.faceList k).vertexIndex =
      (List.range 4).map (fun i => m.vertexIndices (BOX_INDEXV s (gridCorner e i))) ∧
    (m.faceList k).normalIndex = e.2

/-- The cell `k` steps from `p` in the face direction `dir`. -/
def IPoint.along (p : IPoint) (dir : Nat) (k : Int) : IPoint :=
  match dir with
  | 0 => p.offset (-k) 0 0
  | 1 => p.offset 0 (-k) 0
  | 2 => p.offset 0 0 (-k)
  | 3 => p.offset k 0 0
  | 4 => p.offset 0 k 0
  | 5 => p.offset 0 0 k
  | _ => p

/-- The cell `p` may be hollowed out from below in the grid `d` for the wall
thickness `T`: the cell below it is air, its 8 neighbours on its level and the 9
cells of the level above are not air, and in each of the five directions other
than straight down the `T` nearest cells are not air. -/
def Hollowable (d : IPoint → BoxCell) (T : Int) (p : IPoint) : Prop :=
  (d (p.offset 0 (-1) 0)).type = BLOCK_AIR ∧
  (∀ dx dz : Int, -1 ≤ dx → dx ≤ 1 → -1 ≤ dz → dz ≤ 1 →
    (d (p.offset dx 1 dz)).type ≠ BLOCK_AIR ∧
    (dx ≠ 0 ∨ dz ≠ 0 → (d (p.offset dx 0 dz)).type ≠ BLOCK_AIR)) ∧
  ∀ dir, dir < 6 → dir ≠ DIRECTION_BLOCK_BOTTOM → ∀ k : Int, 1 ≤ k → k ≤ T →
    (d (p.along dir k)).type ≠ BLOCK_AIR

/-- The border of air: every cell that is not air lies strictly inside the air box. -/
def Bordered (s : ExportState) : Prop :=
  ∀ q, (s.gBoxData q).type ≠ BLOCK_AIR →
    s.gAirBox.min.x < q.x ∧ q.x < s.gAirBox.max.x ∧ s.gAirBox.min.y < q.y ∧
      q.y < s.gAirBox.max.y ∧ s.gAirBox.min.z < q.z ∧ q.z < s.gAirBox.max.z

/-- Hollowing after group labelling, for the grid `d0` before hollowing and a box
`b`: every cell that was air in `d0` is still as it was, and inside `b` every such
cell carries a group other than `HOLLOW_AIR_GROUP`. The air that is not produced
by hollowing is the air of `d0`. -/
def Tagged (d0 : IPoint → BoxCell) (b : IBox) (s : ExportState) : Prop :=
  (∀ q, (d0 q).type = BLOCK_AIR → s.gBoxData q = d0 q) ∧
  ∀ q, b.contains q = true → (d0 q).type = BLOCK_AIR → (d0 q).group ≠ HOLLOW_AIR_GROUP

/-- Hollowing without group labelling: no cell has a group, so that every group
field is 0, which is `HOLLOW_AIR_GROUP`. -/
def Unlabelled (s : ExportState) : Prop :=
  ∀ q, (s.gBoxData q).group = HOLLOW_AIR_GROUP

/-- The state in which `filterBox` calls `findGroups`: the counters of the groups
are 0 and the group list is zeroed. -/
def groupStart (s : ExportState) : ExportState :=
  { s with
    gSolidGroups := 0
    gAirGroups := 0
    gGroupList := fun _ => ⟨0, 0, false, ⟨⟨0, 0, 0⟩, ⟨0, 0, 0⟩⟩⟩
    gGroupCount := 0 }

/-- The test of the second loop of `deleteFloatingGroups` for group `i`, in the state
`s`: the group is solid, has cells, is not the survivor, and `deleteGroup` is set
after the tests. -/
def floats (bi : BlockInfo) (s : ExportState) (survivorGroup : Int) (i : Nat) : Bool :=
  (s.gGroupList i).solid && decide ((s.gGroupList i).population > 0) &&
    decide ((i : Int) ≠ survivorGroup) && deleteGroupTest bi s i

/-- The state of `deleteFloatingGroups`, started in `s`, after the groups `pre` have
been looked at: the records of the other groups from 2 on are as in `s`; a cell
is as in `s`, or it belonged to a group of `pre` that floats and is air of group
1 now, which holds for every cell of such a group inside the bounds of the group;
and the two counters have moved by the number of the groups of `pre` that float
and by the sum of their populations. -/
structure Floating (bi : BlockInfo) (s : ExportState) (sv : Int) (pre : List Nat)
    (t : ExportState) : Prop where
  refilled : Refilled s t
  records : ∀ j, 2 ≤ j → j ∉ pre → t.gGroupList j = s.gGroupList j
  cells : ∀ p, t.gBoxData p = s.gBoxData p ∨
    ((s.gBoxData p).group ∈ pre ∧ floats bi s sv (s.gBoxData p).group = true ∧
      (t.gBoxData p).type = BLOCK_AIR ∧ (t.gBoxData p).group = SURROUND_AIR_GROUP)
  deleted : ∀ p, (s.gBoxData p).group ∈ pre → floats bi s sv (s.gBoxData p).group = true →
    (s.gGroupList (s.gBoxData p).group).bounds.contains p = true →
    (t.gBoxData p).type = BLOCK_AIR ∧ (t.gBoxData p).group = SURROUND_AIR_GROUP
  solidGroups : t.gSolidGroups = s.gSolidGroups - ((pre.filter (floats bi s sv)).length : Int)
  blocks : t.gStats.blocksFloaterDeleted = s.gStats.blocksFloaterDeleted +
    ((pre.filter (floats bi s sv)).map fun i => (s.gGroupList i).population).sum

/-! ## Two parts joined at an edge -/

/-- The two connection bits that `checkForTouchingEdge` gives the two air cells
of the edge direction `o`. -/
def edgeBits (o : Int × Int × Int) : Nat × Nat :=
  if o.1 = 1 then
    if o.2.1 > 0 then (TOUCH_MX_PY, TOUCH_PX_MY)
    else if o.2.1 < 0 then (TOUCH_MX_MY, TOUCH_PX_PY)
    else if o.2.2 > 0 then (TOUCH_MX_PZ, TOUCH_PX_MZ)
    else (TOUCH_MX_MZ, TOUCH_PX_PZ)
  else if o.2.1 > 0 then (TOUCH_PY_MZ, TOUCH_MY_PZ) else (TOUCH_MY_MZ, TOUCH_PY_PZ)

/-- The grid of `s` as `findGroups` leaves it when its only solid cells are the
two cells `a` and `b`, which share exactly one edge: the two cells lie in the
solid box and in two different solid groups whose bounds hold them, two solid
groups are counted, nothing is welded yet, and connect-parts is on. -/
structure TwoParts (s : ExportState) (a b : IPoint) : Prop where
  diagonal : edgeDiagonal a b
  only : ∀ p, (s.gBoxData p).isSolid = true ↔ p = a ∨ p = b
  groups : (s.gBoxData a).group ≠ (s.gBoxData b).group
  boxA : s.gSolidBox.contains a = true
  boxB : s.gSolidBox.contains b = true
  solidA : (s.gGroupList (s.gBoxData a).group).solid = true
  solidB : (s.gGroupList (s.gBoxData b).group).solid = true
  boundsA : (s.gGroupList (s.gBoxData a).group).bounds.contains a = true
  boundsB : (s.gGroupList (s.gBoxData b).group).bounds.contains b = true
  parts : s.gOptions.EXPT_CONNECT_PARTS = true
  two : s.gSolidGroups = 2
  welded : s.gStats.blocksManifoldWelded = 0

/-- The touch grid `g` holds the marks of one touching edge only, whose air cells
are `n1` and `n2` and whose connection bits are `c`: either both cells are
marked once and point at each other, or one of them is marked once and has no
connection bit. -/
def Marks (g : IPoint → TouchCell) (n1 n2 : IPoint) (c : Nat × Nat) : Prop :=
  (∀ p, p ≠ n1 → p ≠ n2 → (g p).count = 0) ∧
  (((g n1).count = 1 ∧ (g n2).count = 1 ∧ (g n1).connections = c.1 ∧ (g n2).connections = c.2) ∨
   ((g n1).count = 1 ∧ (g n2).count = 0 ∧ (g n1).connections = 0) ∨
   ((g n1).count = 0 ∧ (g n2).count = 1 ∧ (g n2).connections = 0))

/-- The grid of `u` after the two parts `a` and `b` are joined by the cell `n`:
the three cells are the solid cells, they lie in one group, one block is
welded and one solid group is left. -/
structure Joined (u : ExportState) (a b n : IPoint) : Prop where
  solid : ∀ p, (u.gBoxData p).isSolid = true ↔ p = a ∨ p = b ∨ p = n
  welded : u.gStats.blocksManifoldWelded = 1
  solidGroups : u.gSolidGroups = 1
  groupA : (u.gBoxData a).group = (u.gBoxData n).group
  groupB : (u.gBoxData b).group = (u.gBoxData n).group

/-! ## More concrete states -/

/-- The block table of the concrete states with what face generation reads: glass
panes 102, iron bars 101, 256 block ids, glass, panes, water (8, 9) and ice (79)
half transparent, and leaves, glass, panes, bars and vines with cutouts. -/
def sampleTable : BlockTable :=
  { sampleBlocks with
    BLOCK_GLASS_PANE := 102
    BLOCK_IRON_BARS := 101
    NUM_BLOCKS := 256
    alpha := fun t => if t = 20 ∨ t = 102 ∨ t = 8 ∨ t = 9 ∨ t = 79 then 1 / 2 else 1
    BLF_CUTOUTS := fun t => t == 18 || t == 20 || t == 101 || t == 102 || t == 106 }

/-- Export for rendering, with materials and full textures. -/
def render : FaceOptions := ⟨false, true, true, true, false⟩

/-- Export for 3D printing, with materials and full textures. -/
def printing : FaceOptions := ⟨true, true, true, true, false⟩

def inCube (p : IPoint) : Bool :=
  decide (1 ≤ p.x) && decide (p.x ≤ 2) && decide (1 ≤ p.y) && decide (p.y ≤ 2) &&
  decide (1 ≤ p.z) && decide (p.z ≤ 2)

/-- A 2×2×2 cube of the block `t` with air on all sides, in its array of 4×4×4
cells. -/
def solidCube (t : Nat) : ExportState :=
  { stoneWorld (fun _ => false) ⟨4, 4, 4⟩ ⟨⟨1, 1, 1⟩, ⟨2, 2, 2⟩⟩ noOptions with
    gBoxData := fun p => if inCube p then ⟨t, t, 0, 0, NO_GROUP_SET⟩ else airCell }

/-- The faces asked for on the cube: all faces if the block asks for a face
against itself (`c`), else the faces towards the air. -/
def cubeEmitted (c : Bool) : List (IPoint × Nat) :=
  (boxCells ⟨⟨1, 1, 1⟩, ⟨2, 2, 2⟩⟩).flatMap fun loc =>
    ((List.range 6).filter fun faceDirection =>
      c || !inCube (getNeighborUnsafe faceDirection loc)).map fun faceDirection =>
        (loc, faceDirection)

/-- A tree of 8 blocks, two logs (17) with six leaves (18) around them, alone in
an array of 4×4×4 cells. -/
def floatingTree (o : Options) : ExportState :=
  { stoneWorld (fun _ => false) ⟨4, 4, 4⟩ ⟨⟨1, 1, 1⟩, ⟨2, 2, 2⟩⟩ o with
    gBoxData := fun p =>
      if inCube p then
        (if p.x = 1 ∧ p.z = 1 then ⟨17, 17, 0, 0, NO_GROUP_SET⟩ else ⟨18, 18, 0, 0, NO_GROUP_SET⟩)
      else airCell }

/-- A stone cube of 3×3×3 blocks in an array of 5×5×5 cells. -/
def stoneCube (o : Options) : ExportState :=
  stoneWorld (fun p => decide (1 ≤ p.x ∧ p.x ≤ 3 ∧ 1 ≤ p.y ∧ p.y ≤ 3 ∧ 1 ≤ p.z ∧ p.z ≤ 3))
    ⟨5, 5, 5⟩ ⟨⟨1, 1, 1⟩, ⟨3, 3, 3⟩⟩ o

/-- The state in which `hollowBottomOfModel` starts on the globals `s`. -/
def hollowStart (s : ExportState) : Hollowing := ⟨s, fun _ => 0, 1, 0, 0, 0⟩

/-- A `getSwatch` for the concrete states: the swatch of a block is its type, and
`gModel` is left as it is. -/
def sampleSwatch : GetSwatch := fun _ m type _ _ _ => ((type : Int), m)

/-- A full atlas (4 swatches of 4) with two composites of the cutout swatch 300. -/
def fullAtlas : Model :=
  { zeroModel with
    swatchCount := 4
    swatchListSize := 4
    swatchCompositeList := [⟨300, 2, 0, 2⟩, ⟨300, 3, 0, 3⟩] }

/-- An atlas with room for more swatches (4 of 16) and the same two composites. -/
def roomyAtlas : Model := { fullAtlas with swatchListSize := 16 }

/-! ## The linear index of a cell -/

/-- The function `boxIndexToLoc`; the `/` and `%` of C on `int` are `Int.tdiv` and
`Int.tmod`. -/
def boxIndexToLoc (s : ExportState) (boxIndex : Int) : IPoint :=
  let yzLeft := Int.tmod boxIndex (gBoxSizeYZ s)
  ⟨Int.tdiv boxIndex (gBoxSizeYZ s), Int.tmod yzLeft s.gBoxSize.y, Int.tdiv yzLeft s.gBoxSize.y⟩

/-- The array `gFaceOffset` as `initializeWorldData` fills it from `gBoxSize`; an
index outside the array reads 0. -/
def gFaceOffset (s : ExportState) (faceDirection : Nat) : Int :=
  ([-(gBoxSizeYZ s), -1, -s.gBoxSize.y, gBoxSizeYZ s, 1, s.gBoxSize.y] : List Int).getD
    faceDirection 0

/-- The table `gFaceDirectionVector`; an index outside the table reads the point 0. -/
def gFaceDirectionVector (faceDirection : Nat) : IPoint :=
  ([⟨-1, 0, 0⟩, ⟨0, -1, 0⟩, ⟨0, 0, -1⟩, ⟨1, 0, 0⟩, ⟨0, 1, 0⟩, ⟨0, 0, 1⟩] : List IPoint).getD
    faceDirection ⟨0, 0, 0⟩

/-- The cell `p` is an interior cell of the array: it is not on the outer layer. -/
def interior (s : ExportState) (p : IPoint) : Prop :=
  1 ≤ p.x ∧ p.x ≤ s.gBoxSize.x - 2 ∧ 1 ≤ p.y ∧ p.y ≤ s.gBoxSize.y - 2 ∧
    1 ≤ p.z ∧ p.z ≤ s.gBoxSize.z - 2

instance (s : ExportState) (p : IPoint) : Decidable (interior s p) := by
  unfold interior
  infer_instance

/-! ## The table of used swatches -/

/-- The fields `uvIndexToSwatch`, `uvSwatchToIndex`, `uvSwatchToType` and
`textureUsedCount` of `gModel`; the arrays are functions of the C index. -/
structure TextureUVs where
  uvIndexToSwatch : Int → Int
  uvSwatchToIndex : Int → Int
  uvSwatchToType : Int → Int
  textureUsedCount : Int

/-- The four fields after `memset(&gModel,0,sizeof(Model))`. -/
def zeroTextureUVs : TextureUVs :=
  { uvIndexToSwatch := fun _ => 0
    uvSwatchToIndex := fun _ => 0
    uvSwatchToType := fun _ => 0
    textureUsedCount := 0 }

/-- The last loop of `initializeModelData`, which `initializeModelData` above
leaves out; `NUM_MAX_SWATCHES` is a constant of a header that is not among the
sources. -/
def initializeTextureUVs (NUM_MAX_SWATCHES : Int) (EXPT_OUTPUT_TEXTURE : Bool)
    (m : TextureUVs) : TextureUVs :=
  if EXPT_OUTPUT_TEXTURE then
    { m with uvSwatchToIndex := fun i =>
        if 0 ≤ i ∧ i < NUM_MAX_SWATCHES then -1 else m.uvSwatchToIndex i }
  else m

def saveTextureUVs (m : TextureUVs) (swatchLoc type : Int) : TextureUVs :=
  if m.uvSwatchToIndex swatchLoc < 0 then
    { uvIndexToSwatch := setAt m.uvIndexToSwatch m.textureUsedCount swatchLoc
      uvSwatchToIndex := setAt m.uvSwatchToIndex swatchLoc m.textureUsedCount
      uvSwatchToType := setAt m.uvSwatchToType swatchLoc type
      textureUsedCount := m.textureUsedCount + 1 }
  else m

/-- The table after the requests `l`, each a swatch location and a block type,
made in this order on the table `m`. -/
def savedUVs (m : TextureUVs) (l : List (Int × Int)) : TextureUVs :=
  l.foldl (fun m r => saveTextureUVs m r.1 r.2) m

/-- The table after `initializeModelData`, with texture output on, and the requests
`l` that follow it; `n` is `NUM_MAX_SWATCHES`. -/
def requestedUVs (n : Int) (l : List (Int × Int)) : TextureUVs :=
  savedUVs (initializeTextureUVs n true zeroTextureUVs) l

/-- What the requests for the swatches `req` leave in the table `m`, for the
swatch locations `0 .. n-1`: the slots `0 .. textureUsedCount-1` are those of the
requested swatches, one for each, and the two arrays are inverse to each other on
them. -/
structure UVTable (n : Int) (req : List Int) (m : TextureUVs) : Prop where
  count : m.textureUsedCount = (req.toFinset.card : Int)
  unused : ∀ sw, 0 ≤ sw → sw < n → sw ∉ req → m.uvSwatchToIndex sw = -1
  used : ∀ sw, 0 ≤ sw → sw < n → sw ∈ req →
    0 ≤ m.uvSwatchToIndex sw ∧ m.uvSwatchToIndex sw < m.textureUsedCount ∧
      m.uvIndexToSwatch (m.uvSwatchToIndex sw) = sw
  slots : ∀ i, 0 ≤ i → i < m.textureUsedCount →
    m.uvIndexToSwatch i ∈ req ∧ m.uvSwatchToIndex (m.uvIndexToSwatch i) = i

/-! ## More concrete states -/

/-- An air cell that held a ladder (block id 65) before `filterBox` removed it. -/
def ladderCell : BoxCell := ⟨BLOCK_AIR, 65, 0, 0, NO_GROUP_SET⟩

/-- One stone block with the place of a removed ladder beside it, in an array of
4×3×3 cells. -/
def doorway (o : Options) : ExportState :=
  { stoneWorld (fun p => decide (p = ⟨1, 1, 1⟩)) ⟨4, 3, 3⟩ ⟨⟨1, 1, 1⟩, ⟨2, 1, 1⟩⟩ o with
    gBoxData := fun p =>
      if p = ⟨1, 1, 1⟩ then stoneCell else if p = ⟨2, 1, 1⟩ then ladderCell else airCell }

/-- Two pairs of stone blocks that share an edge, the first pair high with a fifth
block in line with one of its air cells, the second pair low, in an array of
8×5×4 cells. -/
def twoWeldsGrid (o : Options) : ExportState :=
  stoneWorld
    (fun p => decide (p = ⟨1, 3, 1⟩ ∨ p = ⟨2, 3, 2⟩ ∨ p = ⟨4, 3, 1⟩ ∨ p = ⟨5, 1, 1⟩ ∨ p = ⟨6, 1, 2⟩))
    ⟨8, 5, 4⟩ ⟨⟨1, 1, 1⟩, ⟨6, 3, 2⟩⟩ o

/-- The two pairs of blocks, with connect-parts on, after `findGroups`. -/
def twoWelds : ExportState := findGroups sampleBlocks (twoWeldsGrid connectParts)

/-! ## SaveVolume: the order of the phases and the code returned -/

/-- The return codes that `SaveVolume` and `finalModelChecks` name. The header that
defines them is not among the sources, so their values are parameters. -/
structure ReturnCodes where
  MW_NO_ERROR : Int
  MW_WALLS_MIGHT_BE_THIN : Int
  MW_SUM_OF_DIMENSIONS_IS_LOW : Int
  MW_TOO_MANY_POLYGONS : Int
  MW_MULTIPLE_GROUPS_FOUND : Int
  MW_AT_LEAST_ONE_DIMENSION_TOO_HIGH : Int
  MW_BEGIN_ERRORS : Int
  MW_NO_BLOCKS_FOUND : Int
  MW_CANNOT_CREATE_FILE : Int

/-- The file types of the `switch` of `SaveVolume`; `other` is any value that the
`switch` has no case for. -/
inductive FileType where
  | WAVEFRONT_REL_OBJ
  | WAVEFRONT_ABS_OBJ
  | BINARY_MAGICS_STL
  | BINARY_VISCAM_STL
  | ASCII_STL
  | VRML2
  | other
deriving DecidableEq

/-- The calls of `SaveVolume` that return a code or write a file, and face
generation. The last four are the texture writes after the label `Exit`:
`writeTexture` is the single file of the `else` branch, written by
`convertRGBAtoRGBandWrite` or by `writepng`. -/
inductive Phase where
  | readTerrainPNG
  | createBaseMaterialTexture
  | populateBox
  | filterBox
  | determineScaleAndHollowAndMelt
  | generateBlockDataAndStatistics
  | writeOBJBox
  | writeBinarySTLBox
  | writeAsciiSTLBox
  | writeVRML2Box
  | finalModelChecks
  | writeTextureRGBA
  | writeTextureRGB
  | writeTextureAlpha
  | writeTexture
deriving DecidableEq

/-- What the calls of one run of `SaveVolume` return, and the three flags of the
model that face generation sets. The fields `rcRGBA`, `rcRGB`, `rcAlpha` and `rc`
are the values of the local `rc` after the four texture writes. -/
structure Outcomes where
  readTerrainPNG : Int
  populateBox : Int
  filterBox : Int
  determineScaleAndHollowAndMelt : Int
  writeOBJBox : Int
  writeBinarySTLBox : Int
  writeAsciiSTLBox : Int
  writeVRML2Box : Int
  finalModelChecks : Int
  usesRGBA : Bool
  usesRGB : Bool
  usesAlpha : Bool
  rcRGBA : Int
  rcRGB : Int
  rcAlpha : Int
  rc : Int

/-- The operand `rc ? MW_CANNOT_CREATE_FILE : MW_NO_ERROR`. -/
def textureCode (c : ReturnCodes) (rc : Int) : Int :=
  if rc ≠ 0 then c.MW_CANNOT_CREATE_FILE else c.MW_NO_ERROR

/-- The part of `SaveVolume` after the label `Exit`: when the texture exists it is
written, as three files or as one, and each write does `retCode |= ...`. The run so
far is `trace`; the result is the code returned and the whole run. -/
def saveVolumeExit (c : ReturnCodes) (o : Outcomes) (pPNGtexture needDifferentTextures : Bool)
    (retCode : Int) (trace : List Phase) : Int × List Phase :=
  if pPNGtexture then
    if needDifferentTextures then
      let r1 := if o.usesRGBA then Int.lor retCode (textureCode c o.rcRGBA) else retCode
      let t1 := if o.usesRGBA then trace ++ [Phase.writeTextureRGBA] else trace
      let r2 := if o.usesRGB then Int.lor r1 (textureCode c o.rcRGB) else r1
      let t2 := if o.usesRGB then t1 ++ [Phase.writeTextureRGB] else t1
      let r3 := if o.usesAlpha then Int.lor r2 (textureCode c o.rcAlpha) else r2
      let t3 := if o.usesAlpha then t2 ++ [Phase.writeTextureAlpha] else t2
      (r3, t3)
    else
      (Int.lor retCode (textureCode c o.rc), trace ++ [Phase.writeTexture])
  else
    (retCode, trace)

/-- The value of `newRetCode` after the `switch` on the file type. -/
def writerCode (o : Outcomes) (newRetCode : Int) : FileType → Int
  | FileType.WAVEFRONT_REL_OBJ => o.writeOBJBox
  | FileType.WAVEFRONT_ABS_OBJ => o.writeOBJBox
  | FileType.BINARY_MAGICS_STL => o.writeBinarySTLBox
  | FileType.BINARY_VISCAM_STL => o.writeBinarySTLBox
  | FileType.ASCII_STL => o.writeAsciiSTLBox
  | FileType.VRML2 => o.writeVRML2Box
  | FileType.other => newRetCode

/-- The writer that the `switch` on the file type calls. -/
def writerPhase : FileType → List Phase
  | FileType.WAVEFRONT_REL_OBJ => [Phase.writeOBJBox]
  | FileType.WAVEFRONT_ABS_OBJ => [Phase.writeOBJBox]
  | FileType.BINARY_MAGICS_STL => [Phase.writeBinarySTLBox]
  | FileType.BINARY_VISCAM_STL => [Phase.writeBinarySTLBox]
  | FileType.ASCII_STL => [Phase.writeAsciiSTLBox]
  | FileType.VRML2 => [Phase.writeVRML2Box]
  | FileType.other => []

/-- The control flow of `SaveVolume`: the code it returns and the calls it made, in
order. `createBaseMaterialTexture` has the one `return MW_NO_ERROR` and sets
`gModel.pPNGtexture`; `needDifferentTextures` is set in the two OBJ cases of the
`switch`. -/
def SaveVolume (c : ReturnCodes) (EXPT_OUTPUT_TEXTURE_IMAGES EXPT_OUTPUT_TEXTURE : Bool)
    (fileType : FileType) (o : Outcomes) : Int × List Phase :=
  let retCode0 := c.MW_NO_ERROR
  let retCode1 := if EXPT_OUTPUT_TEXTURE_IMAGES then o.readTerrainPNG else retCode0
  let trace1 := if EXPT_OUTPUT_TEXTURE_IMAGES then [Phase.readTerrainPNG] else []
  if EXPT_OUTPUT_TEXTURE_IMAGES = true ∧ c.MW_BEGIN_ERRORS ≤ retCode1 then
    saveVolumeExit c o false false retCode1 trace1
  else
    let trace2 :=
      if EXPT_OUTPUT_TEXTURE then trace1 ++ [Phase.createBaseMaterialTexture] else trace1
    let retCode3 := o.populateBox
    let trace3 := trace2 ++ [Phase.populateBox]
    if c.MW_BEGIN_ERRORS ≤ retCode3 then
      saveVolumeExit c o EXPT_OUTPUT_TEXTURE false retCode3 trace3
    else
      let retCode4 := max o.filterBox retCode3
      let trace4 := trace3 ++ [Phase.filterBox]
      if c.MW_BEGIN_ERRORS ≤ retCode4 then
        saveVolumeExit c o EXPT_OUTPUT_TEXTURE false retCode4 trace4
      else
        let retCode5 := max o.determineScaleAndHollowAndMelt retCode4
        let trace5 := trace4 ++ [Phase.determineScaleAndHollowAndMelt]
        if c.MW_BEGIN_ERRORS ≤ retCode5 then
          saveVolumeExit c o EXPT_OUTPUT_TEXTURE false retCode5 trace5
        else
          let trace6 := trace5 ++ [Phase.generateBlockDataAndStatistics]
          let needDifferentTextures :=
            decide (fileType = FileType.WAVEFRONT_REL_OBJ ∨ fileType = FileType.WAVEFRONT_ABS_OBJ)
          let newRetCode := writerCode o o.determineScaleAndHollowAndMelt fileType
          let trace7 := trace6 ++ writerPhase fileType
          let retCode7 := max newRetCode retCode5
          if c.MW_BEGIN_ERRORS ≤ retCode7 then
            saveVolumeExit c o EXPT_OUTPUT_TEXTURE needDifferentTextures retCode7 trace7
          else
            saveVolumeExit c o EXPT_OUTPUT_TEXTURE needDifferentTextures o.finalModelChecks
              (trace7 ++ [Phase.finalModelChecks])

/-- The function `finalModelChecks`: the warnings are gathered with `|=`. The three
comparisons of the scaled size with the limits of the material are inputs. -/
def finalModelChecks (c : ReturnCodes) (EXPT_3DPRINT : Bool) (gSolidGroups : Int)
    (dimensionTooHigh sumOfDimensionsLow wallsThin : Bool) (faceCount : Int) : Int :=
  let r0 := c.MW_NO_ERROR
  let r1 := if gSolidGroups > 1 ∧ EXPT_3DPRINT = true then Int.lor r0 c.MW_MULTIPLE_GROUPS_FOUND else r0
  if EXPT_3DPRINT then
    let r2 := if dimensionTooHigh then Int.lor r1 c.MW_AT_LEAST_ONE_DIMENSION_TOO_HIGH else r1
    let r3 := if sumOfDimensionsLow then Int.lor r2 c.MW_SUM_OF_DIMENSIONS_IS_LOW else r2
    let r4 := if wallsThin then Int.lor r3 c.MW_WALLS_MIGHT_BE_THIN else r3
    if faceCount * 2 > 1000000 then Int.lor r4 c.MW_TOO_MANY_POLYGONS else r4
  else
    r1

/-- The code that a call returned in the run `o`; face generation returns none, and
a texture write counts with the code that is or-ed into the result. -/
def returnedCode (c : ReturnCodes) (o : Outcomes) : Phase → Option Int
  | Phase.readTerrainPNG => some o.readTerrainPNG
  | Phase.createBaseMaterialTexture => some c.MW_NO_ERROR
  | Phase.populateBox => some o.populateBox
  | Phase.filterBox => some o.filterBox
  | Phase.determineScaleAndHollowAndMelt => some o.determineScaleAndHollowAndMelt
  | Phase.generateBlockDataAndStatistics => none
  | Phase.writeOBJBox => some o.writeOBJBox
  | Phase.writeBinarySTLBox => some o.writeBinarySTLBox
  | Phase.writeAsciiSTLBox => some o.writeAsciiSTLBox
  | Phase.writeVRML2Box => some o.writeVRML2Box
  | Phase.finalModelChecks => some o.finalModelChecks
  | Phase.writeTextureRGBA => some (textureCode c o.rcRGBA)
  | Phase.writeTextureRGB => some (textureCode c o.rcRGB)
  | Phase.writeTextureAlpha => some (textureCode c o.rcAlpha)
  | Phase.writeTexture => some (textureCode c o.rc)

/-- The texture writes after the label `Exit`. -/
def isTextureWrite : Phase → Bool
  | Phase.writeTextureRGBA => true
  | Phase.writeTextureRGB => true
  | Phase.writeTextureAlpha => true
  | Phase.writeTexture => true
  | _ => false

/-- The calls that create a file: the four writers of the model and the texture
writes. -/
def writesFile : Phase → Bool
  | Phase.writeOBJBox => true
  | Phase.writeBinarySTLBox => true
  | Phase.writeAsciiSTLBox => true
  | Phase.writeVRML2Box => true
  | p => isTextureWrite p

/-- The greatest of the codes that the calls of `l` returned, and of `MW_NO_ERROR`,
the first value of `retCode`. -/
def maxCode (c : ReturnCodes) (o : Outcomes) (l : List Phase) : Int :=
  (l.filterMap (returnedCode c o)).foldl max c.MW_NO_ERROR

/-- Sample values of the return codes: the warnings are distinct bits, as the `|=`
of `finalModelChecks` and of the texture writes supposes, and the errors start at
`MW_BEGIN_ERRORS`. -/
def sampleCodes : ReturnCodes := ⟨0, 1, 2, 4, 8, 16, 32, 32, 128⟩

/-- A run of `SaveVolume` for printing in which every call succeeds, the final
checks find two groups, and the write of the texture fails (`writepng` returns 1). -/
def failedWrite : Outcomes :=
  { readTerrainPNG := 0, populateBox := 0, filterBox := 0, determineScaleAndHollowAndMelt := 0,
    writeOBJBox := 0, writeBinarySTLBox := 0, writeAsciiSTLBox := 0, writeVRML2Box := 0,
    finalModelChecks := finalModelChecks sampleCodes true 2 false false false 12,
    usesRGBA := false, usesRGB := false, usesAlpha := false,
    rcRGBA := 0, rcRGB := 0, rcAlpha := 0, rc := 1 }

/-- A run of `SaveVolume` on a region with no block: `populateBox` returns
`MW_NO_BLOCKS_FOUND`, and every write succeeds. -/
def emptyRegion : Outcomes :=
  { readTerrainPNG := 0, populateBox := sampleCodes.MW_NO_BLOCKS_FOUND, filterBox := 0,
    determineScaleAndHollowAndMelt := 0,
    writeOBJBox := 0, writeBinarySTLBox := 0, writeAsciiSTLBox := 0, writeVRML2Box := 0,
    finalModelChecks := 0,
    usesRGBA := false, usesRGB := false, usesAlpha := false,
    rcRGBA := 0, rcRGB := 0, rcAlpha := 0, rc := 0 }

/-! ## initializeWorldData and populateBox -/

/-- Modelled from the spec: the macro `clamp` is not among the sources; Y is limited
to the range `lo .. hi`. -/
def clamp (a lo hi : Int) : Int := if a < lo then lo else if a > hi then hi else a

/-- The function `initializeWorldData`: the state with the size of the array, then
`gWorld2BoxOffset`, then the world box. `gBoxSizeYZ` and `gFaceOffset` are
functions of the size in this development. -/
def initializeWorldData (s : ExportState) (xmin ymin zmin xmax ymax zmax : Int) :
    ExportState × IPoint × IBox :=
  let ymin := clamp ymin 0 127
  let ymax := clamp ymax 0 127
  let x0 := if xmin > xmax then xmax else xmin
  let x1 := if xmin > xmax then xmin else xmax
  let y0 := if ymin > ymax then ymax else ymin
  let y1 := if ymin > ymax then ymin else ymax
  let z0 := if zmin > zmax then zmax else zmin
  let z1 := if zmin > zmax then zmin else zmax
  ({ s with gBoxSize := ⟨x1 - x0 + 3, y1 - y0 + 3, z1 - z0 + 3⟩ },
    ⟨1 - x0, 1 - y0, 1 - z0⟩, ⟨⟨x0, y0, z0⟩, ⟨x1, y1, z1⟩⟩)

/-- A chunk of the world: the byte arrays `grid` (block ids) and `data` (two
4-bit values per byte). -/
structure WorldBlock where
  grid : Int → Nat
  data : Int → Nat

def CHUNK_INDEX (bx bz x y z : Int) : Int := y + ((z - bz * 16) + (x - bx * 16) * 16) * 128

def WORLD_TO_BOX_INDEX (s : ExportState) (gWorld2BoxOffset : IPoint) (x y z : Int) : Int :=
  (x + gWorld2BoxOffset.x) * gBoxSizeYZ s + (z + gWorld2BoxOffset.z) * s.gBoxSize.y + y +
    gWorld2BoxOffset.y

/-- The cell of the array that `WORLD_TO_BOX_INDEX` addresses for a world location. -/
def worldToBox (gWorld2BoxOffset : IPoint) (loc : IPoint) : IPoint :=
  ⟨loc.x + gWorld2BoxOffset.x, loc.y + gWorld2BoxOffset.y, loc.z + gWorld2BoxOffset.z⟩

/-- The body of the inner loop of `extractChunk` for the world location `loc`. The
source steps `boxIndex` and `chunkIndex` by one with `y`; here both are taken from
the location. The state is the array and `gSolidWorldBox`. -/
def extractCell (BLOCK_REDSTONE_WIRE : Nat) (block : WorldBlock) (gWorld2BoxOffset : IPoint)
    (bx bz : Int) (st : (IPoint → BoxCell) × IBox) (loc : IPoint) : (IPoint → BoxCell) × IBox :=
  let chunkIndex := CHUNK_INDEX bx bz loc.x loc.y loc.z
  let byte := block.data (Int.tdiv chunkIndex 2) % 256
  let dataVal := if chunkIndex % 2 = 1 then byte / 16 else byte % 16
  let blockID := block.grid chunkIndex % 256
  let boxIndex := worldToBox gWorld2BoxOffset loc
  let cell := st.1 boxIndex
  if blockID > BLOCK_AIR then
    (setCell st.1 boxIndex
      { cell with data := if blockID = BLOCK_REDSTONE_WIRE then 0 else dataVal,
                  origType := blockID, type := blockID },
      addBounds loc st.2)
  else
    (setCell st.1 boxIndex { cell with data := dataVal, origType := blockID, type := blockID },
      st.2)

/-- The function `extractChunk`; `world bx bz` is the chunk that the cache or
`LoadBlock` gives, if any. -/
def extractChunk (BLOCK_REDSTONE_WIRE : Nat) (world : Int → Int → Option WorldBlock)
    (gWorld2BoxOffset : IPoint) (bx bz : Int) (worldBox : IBox)
    (st : (IPoint → BoxCell) × IBox) : (IPoint → BoxCell) × IBox :=
  match world bx bz with
  | none => st
  | some block =>
    let chunkX := bx * 16
    let chunkZ := bz * 16
    let loopXmin := max worldBox.min.x chunkX
    let loopZmin := max worldBox.min.z chunkZ
    let loopXmax := min worldBox.max.x (chunkX + 15)
    let loopZmax := min worldBox.max.z (chunkZ + 15)
    (boxCells ⟨⟨loopXmin, worldBox.min.y, loopZmin⟩, ⟨loopXmax, worldBox.max.y, loopZmax⟩⟩).foldl
      (extractCell BLOCK_REDSTONE_WIRE block gWorld2BoxOffset bx bz) st

/-- The array after `memset` and the first value of `gSolidWorldBox`. -/
def emptyBox : (IPoint → BoxCell) × IBox :=
  (fun _ => ⟨0, 0, 0, 0, 0⟩, ⟨⟨999999, 999999, 999999⟩, ⟨-999999, -999999, -999999⟩⟩)

/-- The two loops of `populateBox` over the chunks. The chunk of a coordinate is
`floor(x / 16)`, which the source computes in `float` (exact below 2^24). -/
def extractChunks (BLOCK_REDSTONE_WIRE : Nat) (world : Int → Int → Option WorldBlock)
    (gWorld2BoxOffset : IPoint) (worldBox : IBox) : (IPoint → BoxCell) × IBox :=
  let startxblock := worldBox.min.x / 16
  let startzblock := worldBox.min.z / 16
  let endxblock := worldBox.max.x / 16
  let endzblock := worldBox.max.z / 16
  (intRange startxblock endxblock).foldl
    (fun st blockX => (intRange startzblock endzblock).foldl
      (fun st blockZ => extractChunk BLOCK_REDSTONE_WIRE world gWorld2BoxOffset blockX blockZ
        worldBox st) st)
    emptyBox

/-- The function `populateBox`: the code returned, `gSolidWorldBox`, and the state.
The solid box and the air box are set only when a block was found. The macros
`Vec3Op` and `Vec2Op` are not among the sources; they are taken to act on the
three components, as the `assert` on `gAirBox.min[Y]` after them supposes. -/
def populateBox (c : ReturnCodes) (BLOCK_REDSTONE_WIRE : Nat)
    (world : Int → Int → Option WorldBlock) (gWorld2BoxOffset : IPoint) (worldBox : IBox)
    (s : ExportState) : Int × IBox × ExportState :=
  let st := extractChunks BLOCK_REDSTONE_WIRE world gWorld2BoxOffset worldBox
  if st.2.min.y > st.2.max.y then
    (c.MW_NO_BLOCKS_FOUND, st.2, { s with gBoxData := st.1 })
  else
    let gSolidBox : IBox := ⟨worldToBox gWorld2BoxOffset st.2.min, worldToBox gWorld2BoxOffset st.2.max⟩
    (c.MW_NO_ERROR, st.2,
      { s with
        gBoxData := st.1
        gSolidBox := gSolidBox
        gAirBox := ⟨⟨-1 + gSolidBox.min.x, -1 + gSolidBox.min.y, -1 + gSolidBox.min.z⟩,
          ⟨1 + gSolidBox.max.x, 1 + gSolidBox.max.y, 1 + gSolidBox.max.z⟩⟩ })

/-- A world whose one chunk (62500, 0) has a stone block at the world location
(1000000, 0, 0) and air elsewhere. -/
def farWorld (bx bz : Int) : Option WorldBlock :=
  if bx = 62500 ∧ bz = 0 then some ⟨fun i => if i = 0 then 1 else 0, fun _ => 0⟩ else none

/-- The calls `initializeWorldData( &worldBox, ... )` and `populateBox(world, &worldBox)`
of `SaveVolume`, one after the other. -/
def populateWorldBox (c : ReturnCodes) (BLOCK_REDSTONE_WIRE : Nat)
    (world : Int → Int → Option WorldBlock) (s : ExportState)
    (xmin ymin zmin xmax ymax zmax : Int) : Int × IBox × ExportState :=
  populateBox c BLOCK_REDSTONE_WIRE world
    (initializeWorldData s xmin ymin zmin xmax ymax zmax).2.1
    (initializeWorldData s xmin ymin zmin xmax ymax zmax).2.2
    (initializeWorldData s xmin ymin zmin xmax ymax zmax).1

/-! ## Touching edges: what the scan of fixTouchingEdges counts -/

/-- The cells between two cells `a` and `b` that share exactly an edge: `a` with
one coordinate taken from `b`, where that moves it. -/
def commonNeighbours (a b : IPoint) : List IPoint :=
  ([⟨b.x, a.y, a.z⟩, ⟨a.x, b.y, a.z⟩, ⟨a.x, a.y, b.z⟩] : List IPoint).filter
    fun c => decide (c ≠ a)

/-- A touching edge: two solid cells that share exactly an edge, and the two cells
between them are not solid. -/
def touchingEdge (s : ExportState) (a b : IPoint) : Prop :=
  edgeDiagonal a b ∧ (s.gBoxData a).isSolid = true ∧ (s.gBoxData b).isSolid = true ∧
    ∀ c ∈ commonNeighbours a b, (s.gBoxData c).isSolid = false

instance (s : ExportState) (a b : IPoint) : Decidable (touchingEdge s a b) := by
  unfold touchingEdge
  infer_instance

/-- The ordered pairs of cells of the solid box that form a touching edge; each
unordered pair is there twice. -/
def touchingEdges (s : ExportState) : Finset (IPoint × IPoint) :=
  ((boxCells s.gSolidBox).toFinset ×ˢ (boxCells s.gSolidBox).toFinset).filter
    fun ab => touchingEdge s ab.1 ab.2

/-- The test that the scan of `fixTouchingEdges` and `checkForTouchingEdge` make
from the cell `b` in the direction `o`, one of the six of the scan: `b` is solid,
the first cell between is air, the cell at `o` is solid, all edges are connected or
the groups differ, and the second cell between is air. -/
def defectAt (s : ExportState) (b : IPoint) (o : Int × Int × Int) : Bool :=
  (s.gBoxData b).isSolid && decide ((s.gBoxData (b.shift (firstAir o))).type = BLOCK_AIR) &&
    (s.gBoxData (b.shift o)).isSolid &&
    (s.gOptions.EXPT_CONNECT_ALL_EDGES ||
      decide ((s.gBoxData b).group ≠ (s.gBoxData (b.shift o)).group)) &&
    decide ((s.gBoxData (b.shift (secondAir o))).type = BLOCK_AIR)

/-- The pairs (cell, direction) of the cells of `l` at which the scan finds a
touching edge. -/
def defectsFound (s : ExportState) (l : List IPoint) : List (IPoint × (Int × Int × Int)) :=
  l.flatMap fun b => (scanOffsets.filter (defectAt s b)).map fun o => (b, o)

/-! ## The edges of the emitted faces -/

/-- The four edges of the quad of the face `e`: the pairs of grid corners that
follow each other in the order of `gFaceToVertexOffset`. -/
def faceEdges (e : IPoint × Nat) : List (IPoint × IPoint) :=
  (List.range 4).map fun i => (gridCorner e i, gridCorner e ((i + 1) % 4))

/-- The face `e` has the edge between the grid points `p` and `q`. -/
def onEdge (e : IPoint × Nat) (p q : IPoint) : Bool :=
  decide ((p, q) ∈ faceEdges e ∨ (q, p) ∈ faceEdges e)

/-- The number of emitted faces that have the edge between the grid points `p`
and `q`. -/
def edgeFaces (bt : BlockTable) (o : FaceOptions) (s : ExportState) (p q : IPoint) : Nat :=
  (emitted bt o s).countP fun e => onEdge e p q

/-- The ends of the three unit edges of the grid that start at the point `p`. -/
def unitEdges (p : IPoint) : List IPoint :=
  [⟨p.x + 1, p.y, p.z⟩, ⟨p.x, p.y + 1, p.z⟩, ⟨p.x, p.y, p.z + 1⟩]

/-- The eight faces around a unit edge that starts at a grid point, for the edge
along X, Y and Z: the offset of the cell from the point, and the face direction.
Each two faces that follow each other lie between the same two cells. -/
def aroundEdge : List (List ((Int × Int × Int) × Nat)) :=
  [[((0, 0, 0), 1), ((0, -1, 0), 4), ((0, 0, 0), 2), ((0, 0, -1), 5),
    ((0, -1, 0), 2), ((0, -1, -1), 5), ((0, 0, -1), 1), ((0, -1, -1), 4)],
   [((0, 0, 0), 2), ((0, 0, -1), 5), ((0, 0, 0), 0), ((-1, 0, 0), 3),
    ((0, 0, -1), 0), ((-1, 0, -1), 3), ((-1, 0, 0), 2), ((-1, 0, -1), 5)],
   [((0, 0, 0), 1), ((0, -1, 0), 4), ((0, 0, 0), 0), ((-1, 0, 0), 3),
    ((0, -1, 0), 0), ((-1, -1, 0), 3), ((-1, 0, 0), 1), ((-1, -1, 0), 4)]]

/-! ## The order of the touch records -/

/-- The order that the claim on `touchRecordCompare` describes: `a` comes before `b`
when it has the smaller `origType`, or the same `origType` and the higher
obscurity, or these the same and the higher count, or these the same and the
smaller squared distance. -/
def touchBefore (s : ExportState) (a b : TouchRecord) : Prop :=
  (s.gBoxData a.boxIndex).origType < (s.gBoxData b.boxIndex).origType ∨
  ((s.gBoxData a.boxIndex).origType = (s.gBoxData b.boxIndex).origType ∧
    (a.obscurity > b.obscurity ∨
      (a.obscurity = b.obscurity ∧
        (a.count > b.count ∨ (a.count = b.count ∧ a.distance < b.distance)))))

/-- The four sort keys of two touch records are the same. -/
def touchSame (s : ExportState) (a b : TouchRecord) : Prop :=
  (s.gBoxData a.boxIndex).origType = (s.gBoxData b.boxIndex).origType ∧
  a.obscurity = b.obscurity ∧ a.count = b.count ∧ a.distance = b.distance

/-! ## Vectors of the face tables -/

/-- The difference of two points. -/
def vsub (a b : IPoint) : IPoint := ⟨a.x - b.x, a.y - b.y, a.z - b.z⟩

/-- The cross product of two vectors. -/
def vcross (a b : IPoint) : IPoint :=
  ⟨a.y * b.z - a.z * b.y, a.z * b.x - a.x * b.z, a.x * b.y - a.y * b.x⟩

/-- The dot product of two vectors. -/
def vdot (a b : IPoint) : Int := a.x * b.x + a.y * b.y + a.z * b.z

/-! ## Compositing of swatches

A texel of the texture is the value of an `unsigned int`, a natural number below
`2^32`; the image data is a function of the index of the texel in
`(unsigned int *)image_data`. -/

/-- The four channels `r`, `g`, `b`, `a` read by `GET_PNG_TEXEL`. -/
structure Texel where
  r : Nat
  g : Nat
  b : Nat
  a : Nat
deriving DecidableEq

/-- The macro `GET_PNG_TEXEL`. -/
def GET_PNG_TEXEL (ip : Nat) : Texel :=
  ⟨(ip &&& 0xff) % 256, ((ip >>> 8) &&& 0xff) % 256, ((ip >>> 16) &&& 0xff) % 256,
    ((ip >>> 24) &&& 0xff) % 256⟩

/-- The macro `SET_PNG_TEXEL`, whose value is stored in an `unsigned int`. -/
def SET_PNG_TEXEL (r g b a : Nat) : Nat :=
  ((a <<< 24) ||| (b <<< 16) ||| (g <<< 8) ||| r) % 4294967296

/-- The channel `(unsigned char)((o*oa*255 + u*ua*oma)/(255*255))` of the full blend. -/
def blendChannel (o oa u ua oma : Nat) : Nat :=
  ((o * oa * 255 + u * ua * oma) / (255 * 255)) % 256

/-- The alpha `(unsigned char)((oa*255 + ua*oma)/255)` of the full blend. -/
def blendAlpha (oa ua oma : Nat) : Nat :=
  ((oa * 255 + ua * oma) / 255) % 256

/-- The body of the inner loop of `compositePNGSwatches`: the texel written to the
destination for the texels `over` and `under` read from the two sources. -/
def compositeTexel (forceSolid : Int) (over under : Nat) : Nat :=
  let o := GET_PNG_TEXEL over
  let u := GET_PNG_TEXEL under
  let oma := (255 - o.a) % 256
  let ua := if forceSolid ≠ 0 then 255 else u.a
  if o.a = 0 then under
  else if oma = 0 then over
  else
    SET_PNG_TEXEL (blendChannel o.r o.a u.r ua oma) (blendChannel o.g o.a u.g ua oma)
      (blendChannel o.b o.a u.b ua oma) (blendAlpha o.a ua oma)

/-- The image `dst` of `compositePNGSwatches`: its width and its texels. -/
structure PngImage where
  width : Int
  image_data : Int → Nat

/-- One pass through the body of the inner loop of `compositePNGSwatches` at the
offset `off` from the three upper left corners. -/
def compositeStep (forceSolid : Int) (overi underi dsti : Int) (img : Int → Nat) (off : Int) :
    Int → Nat :=
  setAt img (dsti + off) (compositeTexel forceSolid (img (overi + off)) (img (underi + off)))

/-- The function `compositePNGSwatches` (`/` and `%` of C are `Int.tdiv` and
`Int.tmod`). -/
def compositePNGSwatches (dst : PngImage) (dstSwatch overSwatch underSwatch swatchSize
    swatchesPerRow forceSolid : Int) : PngImage :=
  let ocol := Int.tmod overSwatch swatchesPerRow
  let orow := Int.tdiv overSwatch swatchesPerRow
  let ucol := Int.tmod underSwatch swatchesPerRow
  let urow := Int.tdiv underSwatch swatchesPerRow
  let dcol := Int.tmod dstSwatch swatchesPerRow
  let drow := Int.tdiv dstSwatch swatchesPerRow
  let overi := orow * swatchSize * dst.width + ocol * swatchSize
  let underi := urow * swatchSize * dst.width + ucol * swatchSize
  let dsti := drow * swatchSize * dst.width + dcol * swatchSize
  { dst with
    image_data :=
      (intRange 0 (swatchSize - 1)).foldl
        (fun img row =>
          (intRange 0 (swatchSize - 1)).foldl
            (fun img col => compositeStep forceSolid overi underi dsti img (row * dst.width + col))
            img)
        dst.image_data }

/-! ## The size of the texture atlas -/

/-- The three return codes of `readTerrainPNG`; their values are in a header that is
not among the sources. -/
inductive TerrainCode where
  | MW_NO_ERROR
  | MW_CANNOT_READ_IMAGE_FILE
  | MW_IMAGE_WRONG_SIZE
deriving DecidableEq

/-- The loop `for ( i = 4; i < 16 && !foundPower; i++ )` of `readTerrainPNG`: the
final value of `foundPower`. -/
def foundPower (width : Int) : Bool :=
  (List.range' 4 12).foldl
    (fun found i => if found then found else decide (width = (2 : Int) ^ i)) false

/-- The function `readTerrainPNG` for the return code `rc` of `readpng` and the
width and height of the image that it has read. -/
def readTerrainPNG (rc width height : Int) : TerrainCode :=
  if rc ≠ 0 then TerrainCode.MW_CANNOT_READ_IMAGE_FILE
  else if width ≠ height then TerrainCode.MW_IMAGE_WRONG_SIZE
  else if ¬ foundPower width then TerrainCode.MW_IMAGE_WRONG_SIZE
  else TerrainCode.MW_NO_ERROR

/-- The fields of `gModel` that `SaveVolume` sets before it calls
`createBaseMaterialTexture`. -/
structure AtlasSize where
  textureResolution : Int
  tileSize : Int
  swatchSize : Int
  swatchesPerRow : Int
  swatchListSize : Int
deriving DecidableEq

/-- The block `if (gOptions->exportFlags & EXPT_OUTPUT_TEXTURE)` of `SaveVolume` up to
the call of `createBaseMaterialTexture`, for the width of the terrain image. -/
def sizeAtlas (EXPT_OUTPUT_TEXTURE_IMAGES : Bool) (width : Int) : AtlasSize :=
  let textureResolution := if EXPT_OUTPUT_TEXTURE_IMAGES then 2 * width else 256
  let width := if EXPT_OUTPUT_TEXTURE_IMAGES then width else 256
  let tileSize := Int.tdiv width 16
  let swatchSize := 2 + tileSize
  let swatchesPerRow := Int.tdiv textureResolution swatchSize
  ⟨textureResolution, tileSize, swatchSize, swatchesPerRow, swatchesPerRow * swatchesPerRow⟩

/-- The macro `SWATCH_INDEX`; `NUM_BLOCKS` is in a header that is not among the
sources. -/
def SWATCH_INDEX (NUM_BLOCKS col row : Int) : Int := NUM_BLOCKS + col + row * 16

/-- The table `compositeTable` of `createBaseMaterialTexture`: the cutout swatch and
the background swatch of each preset. -/
def compositeTable (n : Int) : List (Int × Int) :=
  [ (SWATCH_INDEX n 5 10, SWATCH_INDEX n 1 0), (SWATCH_INDEX n 0 8, SWATCH_INDEX n 1 0),
    (SWATCH_INDEX n 0 7, SWATCH_INDEX n 1 0), (SWATCH_INDEX n 0 5, SWATCH_INDEX n 1 0),
    (SWATCH_INDEX n 0 15, SWATCH_INDEX n 1 0), (SWATCH_INDEX n 4 10, SWATCH_INDEX n 1 0),
    (SWATCH_INDEX n 5 10, SWATCH_INDEX n 1 0), (SWATCH_INDEX n 4 11, SWATCH_INDEX n 1 0),
    (SWATCH_INDEX n 3 15, SWATCH_INDEX n 1 0), (SWATCH_INDEX n 4 15, SWATCH_INDEX n 1 0),
    (SWATCH_INDEX n 3 5, SWATCH_INDEX n 1 0), (SWATCH_INDEX n 3 11, SWATCH_INDEX n 1 0),
    (SWATCH_INDEX n 3 10, SWATCH_INDEX n 1 0), (SWATCH_INDEX n 3 12, SWATCH_INDEX n 1 0),
    (SWATCH_INDEX n 3 6, SWATCH_INDEX n 1 0), (SWATCH_INDEX n 1 15, SWATCH_INDEX n 1 0),
    (SWATCH_INDEX n 3 7, SWATCH_INDEX n 1 0), (SWATCH_INDEX n 2 15, SWATCH_INDEX n 1 0),
    (SWATCH_INDEX n 0 6, SWATCH_INDEX n 1 0), (SWATCH_INDEX n 12 4, SWATCH_INDEX n 15 13),
    (SWATCH_INDEX n 4 5, SWATCH_INDEX n 1 0), (SWATCH_INDEX n 15 8, SWATCH_INDEX n 1 0) ]

/-- The body of the loops of `createBaseMaterialTexture` that fill the first swatches
with solid colours: the pair is `gModel.swatchCount` and `keepGoing`, and a pass
is made only while `keepGoing` is set. -/
def solidSwatchStep (NUM_BLOCKS : Int) (a : Int × Bool) (_ : Int × Int) : Int × Bool :=
  if a.2 then (a.1 + 1, decide (a.1 + 1 < NUM_BLOCKS)) else a

/-- The rows and columns `0 .. swatchesPerRow-1` of the loops over the atlas. -/
def atlasCells (swatchesPerRow : Int) : List (Int × Int) :=
  (intRange 0 (swatchesPerRow - 1)).flatMap fun row =>
    (intRange 0 (swatchesPerRow - 1)).map fun col => (row, col)

/-- The body of the loop of `createBaseMaterialTexture` over `compositeTable`. -/
def presetStep (a : Model × Nat) (e : Int × Int) : Model × Nat :=
  ((createCompositeSwatch a.1 e.1 e.2 (if a.2 = 0 then 90 else 0)).2, a.2 + 1)

/-- The function `createBaseMaterialTexture`, without the work on the texture image:
what it does to `gModel.swatchCount` and to the list of composite swatches. -/
def createBaseMaterialTexture (NUM_BLOCKS : Int) (useTextureImage : Bool) (swatchesPerRow : Int)
    (m : Model) : Model :=
  let m : Model := { m with swatchCount := 0 }
  let r := (atlasCells swatchesPerRow).foldl (solidSwatchStep NUM_BLOCKS) (m.swatchCount, true)
  let m : Model := { m with swatchCount := r.1 }
  if useTextureImage then
    let m := (atlasCells 16).foldl (fun (m : Model) _ => { m with swatchCount := m.swatchCount + 1 }) m
    ((compositeTable NUM_BLOCKS).foldl presetStep (m, 0)).1
  else m

/-- The start of `SaveVolume` when both `EXPT_OUTPUT_TEXTURE_IMAGES` and
`EXPT_OUTPUT_TEXTURE` are set, for a terrain image of the given width and height
that `readpng` has read: the code of `readTerrainPNG` and, when it is
`MW_NO_ERROR`, `gModel` after the sizing of the atlas and
`createBaseMaterialTexture` (the two other codes are taken to be errors, which
end `SaveVolume`). -/
def textureStart (NUM_BLOCKS width height : Int) (m : Model) : TerrainCode × Model :=
  match readTerrainPNG 0 width height with
  | TerrainCode.MW_NO_ERROR =>
    let a := sizeAtlas true width
    (TerrainCode.MW_NO_ERROR,
      createBaseMaterialTexture NUM_BLOCKS true a.swatchesPerRow
        { m with swatchListSize := a.swatchListSize })
  | c => (c, m)

/-! ## The block count, super-hollowing and melting -/

/-- The options read by `determineScaleAndHollowAndMelt` and `hollowBottomOfModel`:
two bits of `gOptions->exportFlags` and `gOptions->pEFD->chkMeltSnow`. -/
structure HollowOptions where
  EXPT_HOLLOW_BOTTOM : Bool
  EXPT_SUPER_HOLLOW_BOTTOM : Bool
  chkMeltSnow : Bool
deriving DecidableEq

/-- What `getDimensionsAndCount` and `determineScaleAndHollowAndMelt` read of the
billboards: `gExportBillboards`, `gModel.billboardBounds` and
`gModel.billboardCount`. -/
structure Billboards where
  gExportBillboards : Bool
  billboardBounds : IBox
  billboardCount : Int

/-- The body of the loops of `getDimensionsAndCount`: the pair is `bounds` and
`count`. -/
def countCell (s : ExportState) (a : IBox × Int) (loc : IPoint) : IBox × Int :=
  if (s.gBoxData loc).type > BLOCK_AIR then (addBounds loc a.1, a.2 + 1) else a

/-- The function `getDimensionsAndCount`, without the dimensions that it stores. -/
def getDimensionsAndCount (s : ExportState) (bb : Billboards) : Int :=
  let r := (boxCells s.gAirBox).foldl (countCell s) (emptyBounds, 0)
  let bounds := if bb.gExportBillboards then addBoundsToBounds bb.billboardBounds r.1 else r.1
  if bounds.min.x > bounds.max.x then 0 else r.2

/-- The loop `while ( seedCount > 0 )` of the super-hollowing in
`hollowBottomOfModel`, run for at most `fuel` iterations. -/
def hollowSeedLoop (gHollowBlockThickness : Int) : Nat → Hollowing → List IPoint → Hollowing
  | 0, h, _ => h
  | _ + 1, h, [] => h
  | fuel + 1, h, seed :: seedStack =>
    let r := hollowSeed gHollowBlockThickness h seed.x seed.y seed.z seedStack
    hollowSeedLoop gHollowBlockThickness fuel r.1 r.2

/-- The loop over `y` of the super-hollowing in `hollowBottomOfModel` for the column
`(x, z)`: a seed at each height of the list, followed by the loop over the seed
stack. -/
def superHollowColumn (gHollowBlockThickness : Int) (fuel : Nat) (x z : Int) (h : Hollowing)
    (ys : List Int) : Hollowing :=
  ys.foldl
    (fun h y =>
      let r := hollowSeed gHollowBlockThickness h x y z []
      hollowSeedLoop gHollowBlockThickness fuel r.1 r.2)
    h

/-- The value of `maxNeighborHeight` in the super-hollowing of `hollowBottomOfModel`
(the three tests of `nextNeighborHeight` all read the column at `x+1`, as in the
source). -/
def maxNeighborHeight (h : Hollowing) (x z : Int) : Int :=
  let maxNeighborHeight : Int := h.hollowDone ((x - 1) * h.s.gBoxSize.z + z)
  let nextNeighborHeight : Int := h.hollowDone ((x + 1) * h.s.gBoxSize.z + z)
  let maxNeighborHeight := if nextNeighborHeight > maxNeighborHeight then nextNeighborHeight
    else maxNeighborHeight
  let nextNeighborHeight : Int := h.hollowDone ((x + 1) * h.s.gBoxSize.z + z)
  let maxNeighborHeight := if nextNeighborHeight > maxNeighborHeight then nextNeighborHeight
    else maxNeighborHeight
  let nextNeighborHeight : Int := h.hollowDone ((x + 1) * h.s.gBoxSize.z + z)
  if nextNeighborHeight > maxNeighborHeight then nextNeighborHeight else maxNeighborHeight

/-- The body of the loops over `x` and `z` of the super-hollowing in
`hollowBottomOfModel`. -/
def superHollowCell (gHollowBlockThickness : Int) (fuel : Nat) (h : Hollowing) (xz : Int × Int) :
    Hollowing :=
  let hollowHeight : Int := h.hollowDone (xz.1 * h.s.gBoxSize.z + xz.2)
  if maxNeighborHeight h xz.1 xz.2 > hollowHeight then
    superHollowColumn gHollowBlockThickness fuel xz.1 xz.2 h
      (intRange hollowHeight (maxNeighborHeight h xz.1 xz.2 - 1))
  else h

/-- The function `hollowBottomOfModel` with its super-hollowing; each run of the loop
over the seed stack is given `fuel` iterations. -/
def hollowAll (o : HollowOptions) (gHollowBlockThickness : Int) (fuel : Nat) (h : Hollowing) :
    Hollowing :=
  let h := hollowBottomOfModel gHollowBlockThickness h
  if o.EXPT_SUPER_HOLLOW_BOTTOM then
    (hollowColumns h.s gHollowBlockThickness).foldl (superHollowCell gHollowBlockThickness fuel)
      { h with blocksSuperHollowed := 0 }
  else h

/-- The body of the loops of `meltSnow`. -/
def meltSnowCell (BLOCK_SNOW_BLOCK : Nat) (h : Hollowing) (loc : IPoint) : Hollowing :=
  if (h.s.gBoxData loc).type = BLOCK_SNOW_BLOCK then
    { h with
      s := { h.s with
        gBoxData := setCell h.s.gBoxData loc
          { h.s.gBoxData loc with type := BLOCK_AIR, group := SURROUND_AIR_GROUP } }
      blocksHollowed := h.blocksHollowed + 1 }
  else h

/-- The function `meltSnow`; the id `BLOCK_SNOW_BLOCK` is in a header that is not
among the sources. -/
def meltSnow (BLOCK_SNOW_BLOCK : Nat) (h : Hollowing) : Hollowing :=
  (boxCells h.s.gSolidBox).foldl (meltSnowCell BLOCK_SNOW_BLOCK) h

/-- The function `determineScaleAndHollowAndMelt` up to its call of `meltSnow`, without
the statistics and the scale: the count of the blocks and the hollowing. The
thickness `gHollowBlockThickness`, which the source computes from the scale, is
a parameter. `none` stands for the return of `MW_NO_BLOCKS_FOUND`. -/
def countAndHollow (o : HollowOptions) (bb : Billboards) (gHollowBlockThickness : Int)
    (fuel : Nat) (h : Hollowing) : Option Hollowing :=
  let h : Hollowing := { h with gBlockCount := getDimensionsAndCount h.s bb }
  if h.gBlockCount + bb.billboardCount = 0 then none
  else some (if o.EXPT_HOLLOW_BOTTOM then hollowAll o gHollowBlockThickness fuel h else h)

/-- The function `determineScaleAndHollowAndMelt`, without the statistics and the
scale; the first component is its return value. -/
def determineScaleAndHollowAndMelt (rc : ReturnCodes) (o : HollowOptions) (bb : Billboards)
    (BLOCK_SNOW_BLOCK : Nat) (gHollowBlockThickness : Int) (fuel : Nat) (h : Hollowing) :
    Int × Hollowing :=
  match countAndHollow o bb gHollowBlockThickness fuel h with
  | none => (rc.MW_NO_BLOCKS_FOUND, { h with gBlockCount := getDimensionsAndCount h.s bb })
  | some h =>
    (rc.MW_NO_ERROR, if o.chkMeltSnow then meltSnow BLOCK_SNOW_BLOCK h else h)

/-- The number of cells of the air box that are not air. -/
def nonAirCount (s : ExportState) : Int :=
  (boxCells s.gAirBox).countP fun p => decide ((s.gBoxData p).type ≠ BLOCK_AIR)

/-- The number of cells of the solid box that hold the block `t`. -/
def blockCount (s : ExportState) (t : Nat) : Int :=
  (boxCells s.gSolidBox).countP fun p => decide ((s.gBoxData p).type = t)

/-- One stone block with a snow block (block id 80) on top of it, in an array of
3×4×3 cells. -/
def snowCapped : ExportState :=
  { stoneWorld (fun p => decide (p = ⟨1, 1, 1⟩)) ⟨3, 4, 3⟩ ⟨⟨1, 1, 1⟩, ⟨1, 2, 1⟩⟩ noOptions with
    gBoxData := fun p =>
      if p = ⟨1, 1, 1⟩ then stoneCell
      else if p = ⟨1, 2, 1⟩ then ⟨80, 80, 0, 0, NO_GROUP_SET⟩ else airCell }

/-- The options of an export that melts the snow and does not hollow. -/
def meltOnly : HollowOptions := ⟨false, false, true⟩

def noBillboards : Billboards := ⟨false, ⟨⟨0, 0, 0⟩, ⟨0, 0, 0⟩⟩, 0⟩

/-! ## Flattening of flat blocks onto their neighbours -/

/-- The block header for `computeFlatFlags`: `BlockTable` with the ids of the blocks
that are flattened, and `flatBase t` for
`gBlockDefinitions[t].flags & (BLF_WHOLE|BLF_ALMOST_WHOLE|BLF_STAIRS|BLF_HALF)`. -/
structure FlatBlocks extends BlockTable where
  BLOCK_RAIL : Nat
  BLOCK_POWERED_RAIL : Nat
  BLOCK_DETECTOR_RAIL : Nat
  BLOCK_STONE_PRESSURE_PLATE : Nat
  BLOCK_WOODEN_PRESSURE_PLATE : Nat
  BLOCK_SNOW : Nat
  BLOCK_REDSTONE_REPEATER_OFF : Nat
  BLOCK_REDSTONE_REPEATER_ON : Nat
  BLOCK_LILY_PAD : Nat
  BLOCK_TORCH : Nat
  BLOCK_REDSTONE_TORCH_OFF : Nat
  BLOCK_REDSTONE_TORCH_ON : Nat
  BLOCK_REDSTONE_WIRE : Nat
  BLOCK_LADDER : Nat
  BLOCK_WALL_SIGN : Nat
  BLOCK_LEVER : Nat
  BLOCK_STONE_BUTTON : Nat
  BLOCK_TRAPDOOR : Nat
  flatBase : Nat → Bool

/-- The statement `gBoxData[p].flatFlags |= bit`. -/
def orFlat (s : ExportState) (p : IPoint) (bit : Nat) : ExportState :=
  { s with
    gBoxData := setCell s.gBoxData p
      { s.gBoxData p with flatFlags := (s.gBoxData p).flatFlags ||| bit } }

/-- The statement `gBoxData[p].data |= bit`. -/
def orData (s : ExportState) (p : IPoint) (bit : Nat) : ExportState :=
  { s with
    gBoxData := setCell s.gBoxData p
      { s.gBoxData p with data := (s.gBoxData p).data ||| bit } }

/-- The `switch` of `computeFlatFlags` on the data of a sloped rail, followed by the
mark on the block below. -/
def flatRail (s : ExportState) (b : IPoint) : ExportState :=
  let d := (s.gBoxData b).data &&& 0x7
  let s :=
    if d = 2 then orFlat s (b.offset 1 0 0) FLAT_FACE_LO_X
    else if d = 3 then orFlat s (b.offset (-1) 0 0) FLAT_FACE_HI_X
    else if d = 4 then orFlat s (b.offset 0 0 (-1)) FLAT_FACE_HI_Z
    else if d = 5 then orFlat s (b.offset 0 0 1) FLAT_FACE_LO_Z
    else s
  orFlat s (b.offset 0 (-1) 0) FLAT_FACE_ABOVE

/-- The case of the torches in `computeFlatFlags`. -/
def flatTorch (s : ExportState) (b : IPoint) : ExportState :=
  let d := (s.gBoxData b).data
  if d = 1 then orFlat s (b.offset (-1) 0 0) FLAT_FACE_HI_X
  else if d = 2 then orFlat s (b.offset 1 0 0) FLAT_FACE_LO_X
  else if d = 3 then orFlat s (b.offset 0 0 (-1)) FLAT_FACE_HI_Z
  else if d = 4 then orFlat s (b.offset 0 0 1) FLAT_FACE_LO_Z
  else if d = 5 then orFlat s (b.offset 0 (-1) 0) FLAT_FACE_ABOVE
  else s

/-- One of the four tests of `computeFlatFlags` for a wire one level up at the side
`(dx, dz)`: the wire runs up the side of the neighbour. -/
def wireUp (fb : FlatBlocks) (b : IPoint) (dx dz : Int) (near far : Nat) (s : ExportState) :
    ExportState :=
  if (s.gBoxData (b.offset dx 1 dz)).origType = fb.BLOCK_REDSTONE_WIRE then
    let s := orFlat s (b.offset dx 0 dz) near
    let s := orData s (b.offset dx 1 dz) near
    orData s b far
  else s

/-- The blocks that a wire connects to at its +X and +Z side. -/
def wireJoins (fb : FlatBlocks) (t : Nat) : Bool :=
  decide (t = fb.BLOCK_REDSTONE_WIRE) || decide (t = fb.BLOCK_WOODEN_PRESSURE_PLATE) ||
  decide (t = fb.BLOCK_STONE_PRESSURE_PLATE) || decide (t = fb.BLOCK_LEVER) ||
  decide (t = fb.BLOCK_REDSTONE_REPEATER_OFF) || decide (t = fb.BLOCK_REDSTONE_REPEATER_ON) ||
  decide (t = fb.BLOCK_DETECTOR_RAIL) || decide (t = fb.BLOCK_REDSTONE_TORCH_ON) ||
  decide (t = fb.BLOCK_REDSTONE_TORCH_OFF)

/-- The blocks that a wire connects to at its -X and -Z side. -/
def wireCatches (fb : FlatBlocks) (t : Nat) : Bool :=
  decide (t = fb.BLOCK_REDSTONE_TORCH_ON) || decide (t = fb.BLOCK_REDSTONE_TORCH_OFF) ||
  decide (t = fb.BLOCK_WOODEN_PRESSURE_PLATE) || decide (t = fb.BLOCK_STONE_PRESSURE_PLATE) ||
  decide (t = fb.BLOCK_LEVER) || decide (t = fb.BLOCK_REDSTONE_REPEATER_OFF) ||
  decide (t = fb.BLOCK_REDSTONE_REPEATER_ON) || decide (t = fb.BLOCK_DETECTOR_RAIL)

/-- One of the two tests of `computeFlatFlags` for the neighbour of a wire at +X or
+Z on the same level. -/
def wireLevel (fb : FlatBlocks) (b : IPoint) (dx dz : Int) (near far : Nat) (s : ExportState) :
    ExportState :=
  if wireJoins fb (s.gBoxData (b.offset dx 0 dz)).origType then
    let s :=
      if (s.gBoxData (b.offset dx 0 dz)).origType = fb.BLOCK_REDSTONE_WIRE then
        orData s (b.offset dx 0 dz) near
      else s
    orData s b far
  else s

/-- The block of `computeFlatFlags` that runs a wire up the sides of its neighbours
when the block above the wire is air, glass or a glass pane. -/
def wireUps (fb : FlatBlocks) (b : IPoint) (s : ExportState) : ExportState :=
  if (s.gBoxData (b.offset 0 1 0)).origType = BLOCK_AIR ∨
      (s.gBoxData (b.offset 0 1 0)).origType = fb.BLOCK_GLASS ∨
      (s.gBoxData (b.offset 0 1 0)).origType = fb.BLOCK_GLASS_PANE then
    let s := wireUp fb b 1 0 FLAT_FACE_LO_X FLAT_FACE_HI_X s
    let s := wireUp fb b (-1) 0 FLAT_FACE_HI_X FLAT_FACE_LO_X s
    let s := wireUp fb b 0 1 FLAT_FACE_LO_Z FLAT_FACE_HI_Z s
    wireUp fb b 0 (-1) FLAT_FACE_HI_Z FLAT_FACE_LO_Z s
  else s

/-- One of the two tests of `computeFlatFlags` for the neighbour of a wire at -X or
-Z on the same level. -/
def wireCatch (fb : FlatBlocks) (b : IPoint) (dx dz : Int) (bit : Nat) (s : ExportState) :
    ExportState :=
  if wireCatches fb (s.gBoxData (b.offset dx 0 dz)).origType then orData s b bit else s

/-- The case `BLOCK_REDSTONE_WIRE` of `computeFlatFlags`. -/
def flatWire (fb : FlatBlocks) (s : ExportState) (b : IPoint) : ExportState :=
  let s := orFlat s (b.offset 0 (-1) 0) FLAT_FACE_ABOVE
  let s := wireUps fb b s
  let s := wireLevel fb b 1 0 FLAT_FACE_LO_X FLAT_FACE_HI_X s
  let s := wireLevel fb b 0 1 FLAT_FACE_LO_Z FLAT_FACE_HI_Z s
  let s := wireCatch fb b (-1) 0 FLAT_FACE_LO_X s
  wireCatch fb b 0 (-1) FLAT_FACE_LO_Z s

/-- The test of `computeFlatFlags` on a neighbour of a vine: a block large enough to
composite the vine onto, and not leaves. -/
def vineBase (fb : FlatBlocks) (s : ExportState) (p : IPoint) : Bool :=
  fb.flatBase (s.gBoxData p).type && decide ((s.gBoxData p).type ≠ fb.BLOCK_LEAVES)

/-- The four tests of the sides of a vine in `computeFlatFlags`, from the test of
the bit `0x1` on; each is a triple of the bit of the data, the neighbour and the
flag. The first side that cannot take the vine ends the function with 0. -/
def flatVineSides (fb : FlatBlocks) (b : IPoint) :
    List (Nat × IPoint × Nat) → ExportState → Int × ExportState
  | [], s => (1, s)
  | (bit, p, flag) :: rest, s =>
    if (s.gBoxData b).data &&& bit ≠ 0 then
      if vineBase fb s p then flatVineSides fb b rest (orFlat s p flag) else (0, s)
    else flatVineSides fb b rest s

/-- The case of the ladder and the wall sign in `computeFlatFlags`. -/
def flatLadder (s : ExportState) (b : IPoint) : Int × ExportState :=
  if (s.gBoxData b).data = 2 then (1, orFlat s (b.offset 0 0 1) FLAT_FACE_LO_Z)
  else if (s.gBoxData b).data = 3 then (1, orFlat s (b.offset 0 0 (-1)) FLAT_FACE_HI_Z)
  else if (s.gBoxData b).data = 4 then (1, orFlat s (b.offset 1 0 0) FLAT_FACE_LO_X)
  else if (s.gBoxData b).data = 5 then (1, orFlat s (b.offset (-1) 0 0) FLAT_FACE_HI_X)
  else (0, s)

/-- The case `BLOCK_LEVER` of `computeFlatFlags`. -/
def flatLever (s : ExportState) (b : IPoint) : Int × ExportState :=
  if (s.gBoxData b).data &&& 0x7 = 1 then (1, orFlat s (b.offset (-1) 0 0) FLAT_FACE_HI_X)
  else if (s.gBoxData b).data &&& 0x7 = 2 then (1, orFlat s (b.offset 1 0 0) FLAT_FACE_LO_X)
  else if (s.gBoxData b).data &&& 0x7 = 3 then (1, orFlat s (b.offset 0 0 (-1)) FLAT_FACE_HI_Z)
  else if (s.gBoxData b).data &&& 0x7 = 4 then (1, orFlat s (b.offset 0 0 1) FLAT_FACE_LO_Z)
  else if (s.gBoxData b).data &&& 0x7 = 5 ∨ (s.gBoxData b).data &&& 0x7 = 6 then
    (1, orFlat s (b.offset 0 (-1) 0) FLAT_FACE_ABOVE)
  else (0, s)

/-- The case `BLOCK_STONE_BUTTON` of `computeFlatFlags`. -/
def flatButton (s : ExportState) (b : IPoint) : Int × ExportState :=
  if (s.gBoxData b).data &&& 0x7 = 4 then (1, orFlat s (b.offset 0 0 1) FLAT_FACE_LO_Z)
  else if (s.gBoxData b).data &&& 0x7 = 3 then (1, orFlat s (b.offset 0 0 (-1)) FLAT_FACE_HI_Z)
  else if (s.gBoxData b).data &&& 0x7 = 2 then (1, orFlat s (b.offset 1 0 0) FLAT_FACE_LO_X)
  else if (s.gBoxData b).data &&& 0x7 = 1 then (1, orFlat s (b.offset (-1) 0 0) FLAT_FACE_HI_X)
  else (0, s)

/-- The `switch` of `computeFlatFlags` on the side of an open trapdoor. -/
def flatTrapdoorOpen (s : ExportState) (b : IPoint) : Int × ExportState :=
  if (s.gBoxData b).data &&& 0x3 = 0 then (1, orFlat s (b.offset 0 0 1) FLAT_FACE_LO_Z)
  else if (s.gBoxData b).data &&& 0x3 = 1 then (1, orFlat s (b.offset 0 0 (-1)) FLAT_FACE_HI_Z)
  else if (s.gBoxData b).data &&& 0x3 = 2 then (1, orFlat s (b.offset 1 0 0) FLAT_FACE_LO_X)
  else if (s.gBoxData b).data &&& 0x3 = 3 then (1, orFlat s (b.offset (-1) 0 0) FLAT_FACE_HI_X)
  else (0, s)

/-- The case `BLOCK_TRAPDOOR` of `computeFlatFlags`; `loc[Y]` of `boxIndexToLoc` is the
`y` of the coordinate. -/
def flatTrapdoor (fb : FlatBlocks) (s : ExportState) (b : IPoint) : Int × ExportState :=
  if (s.gBoxData b).data &&& 0x4 ≠ 0 then flatTrapdoorOpen s b
  else if (s.gBoxData (b.offset 0 (-1) 0)).origType = BLOCK_AIR then
    if b.y > s.gSolidBox.min.y then
      (1, { s with
        gBoxData := setCell s.gBoxData (b.offset 0 (-1) 0)
          { s.gBoxData (b.offset 0 (-1) 0) with origType := fb.BLOCK_TRAPDOOR } })
    else (1, s)
  else (1, orFlat s (b.offset 0 (-1) 0) FLAT_FACE_ABOVE)

/-- The case `BLOCK_VINES` of `computeFlatFlags`. -/
def flatVines (fb : FlatBlocks) (s : ExportState) (b : IPoint) : Int × ExportState :=
  if (s.gBoxData b).origType ≠ fb.BLOCK_VINES then (0, s)
  else if (s.gBoxData b).data = 0 then
    if (s.gBoxData (b.offset 0 1 0)).origType ≠ BLOCK_AIR then
      (1, orFlat s (b.offset 0 1 0) FLAT_FACE_BELOW)
    else (0, s)
  else
    flatVineSides fb b
      [(0x1, b.offset 0 0 1, FLAT_FACE_LO_Z), (0x2, b.offset (-1) 0 0, FLAT_FACE_HI_X),
        (0x4, b.offset 0 0 (-1), FLAT_FACE_HI_Z), (0x8, b.offset 1 0 0, FLAT_FACE_LO_X)]
      s

/-- The function `computeFlatFlags`; the first component is its return value. The
`switch` on the block type is a chain of tests in the order of its cases (the
case `BLOCK_RAIL` falls through to the case of the other rails when the rail is
not curved). -/
def computeFlatFlags (fb : FlatBlocks) (s : ExportState) (boxIndex : IPoint) :
    Int × ExportState :=
  if (s.gBoxData boxIndex).type = fb.BLOCK_RAIL ∧ (s.gBoxData boxIndex).data ≥ 6 then
    (1, orFlat s (boxIndex.offset 0 (-1) 0) FLAT_FACE_ABOVE)
  else if (s.gBoxData boxIndex).type = fb.BLOCK_RAIL ∨
      (s.gBoxData boxIndex).type = fb.BLOCK_POWERED_RAIL ∨
      (s.gBoxData boxIndex).type = fb.BLOCK_DETECTOR_RAIL then
    (1, flatRail s boxIndex)
  else if (s.gBoxData boxIndex).type = fb.BLOCK_STONE_PRESSURE_PLATE ∨
      (s.gBoxData boxIndex).type = fb.BLOCK_WOODEN_PRESSURE_PLATE ∨
      (s.gBoxData boxIndex).type = fb.BLOCK_SNOW ∨
      (s.gBoxData boxIndex).type = fb.BLOCK_REDSTONE_REPEATER_OFF ∨
      (s.gBoxData boxIndex).type = fb.BLOCK_REDSTONE_REPEATER_ON ∨
      (s.gBoxData boxIndex).type = fb.BLOCK_LILY_PAD then
    (1, orFlat s (boxIndex.offset 0 (-1) 0) FLAT_FACE_ABOVE)
  else if (s.gBoxData boxIndex).type = fb.BLOCK_TORCH ∨
      (s.gBoxData boxIndex).type = fb.BLOCK_REDSTONE_TORCH_OFF ∨
      (s.gBoxData boxIndex).type = fb.BLOCK_REDSTONE_TORCH_ON then
    (1, flatTorch s boxIndex)
  else if (s.gBoxData boxIndex).type = fb.BLOCK_REDSTONE_WIRE then (1, flatWire fb s boxIndex)
  else if (s.gBoxData boxIndex).type = fb.BLOCK_LADDER ∨
      (s.gBoxData boxIndex).type = fb.BLOCK_WALL_SIGN then
    flatLadder s boxIndex
  else if (s.gBoxData boxIndex).type = fb.BLOCK_LEVER then flatLever s boxIndex
  else if (s.gBoxData boxIndex).type = fb.BLOCK_STONE_BUTTON then flatButton s boxIndex
  else if (s.gBoxData boxIndex).type = fb.BLOCK_TRAPDOOR then flatTrapdoor fb s boxIndex
  else if (s.gBoxData boxIndex).type = fb.BLOCK_VINES then flatVines fb s boxIndex
  else (0, s)

/-- The neighbour whose `origType` and `data` the `switch` of `saveFaceLoop` reads
for the face `faceDirection` of the cell at `loc` in place of those of the cell
itself; `none` when the flag of that direction is not set in `flatFlags`. -/
def faceSource (s : ExportState) (loc : IPoint) (faceDirection : Nat) : Option IPoint :=
  if (s.gBoxData loc).flatFlags ≠ 0 then
    match faceDirection with
    | 4 => if (s.gBoxData loc).flatFlags &&& FLAT_FACE_ABOVE ≠ 0 then some (loc.offset 0 1 0)
      else none
    | 1 => if (s.gBoxData loc).flatFlags &&& FLAT_FACE_BELOW ≠ 0 then some (loc.offset 0 (-1) 0)
      else none
    | 0 => if (s.gBoxData loc).flatFlags &&& FLAT_FACE_LO_X ≠ 0 then some (loc.offset (-1) 0 0)
      else none
    | 3 => if (s.gBoxData loc).flatFlags &&& FLAT_FACE_HI_X ≠ 0 then some (loc.offset 1 0 0)
      else none
    | 2 => if (s.gBoxData loc).flatFlags &&& FLAT_FACE_LO_Z ≠ 0 then some (loc.offset 0 0 (-1))
      else none
    | 5 => if (s.gBoxData loc).flatFlags &&& FLAT_FACE_HI_Z ≠ 0 then some (loc.offset 0 0 1)
      else none
    | _ => none
  else none

/-- The value of `dataVal` at the end of the material block of `saveFaceLoop`, when
the face is not dropped. -/
def faceDataVal (s : ExportState) (loc : IPoint) (faceDirection : Nat) : Nat :=
  match faceSource s loc faceDirection with
  | some p => (s.gBoxData p).data
  | none => (s.gBoxData loc).data

/-- From the state `s` to the state `t` the `flatFlags` of every cell have only gained
bits, and a cell that has gained the bit of a face direction has the cell `S` as
its neighbour in that direction. -/
def FlatOnto (S : IPoint) (s t : ExportState) : Prop :=
  ∀ N, ∃ m, (t.gBoxData N).flatFlags = (s.gBoxData N).flatFlags ||| m ∧
    ∀ d, d < 6 → m &&& flatFaceFlag d ≠ 0 → getNeighborUnsafe d N = S

/-! ## Corner tips -/

/-- Two stone blocks that touch only at a corner tip, the upper one at `(1,2,1)` and
the lower one at `(2,1,2)`, in an array of 4×4×4 cells, after `findGroups`. -/
def cornerTips (o : Options) : ExportState :=
  findGroups sampleBlocks
    (stoneWorld (fun p => decide (p = ⟨1, 2, 1⟩ ∨ p = ⟨2, 1, 2⟩)) ⟨4, 4, 4⟩
      ⟨⟨1, 1, 1⟩, ⟨2, 2, 2⟩⟩ o)

/-- The options of an export that welds corner tips. -/
def connectTips : Options :=
  { noOptions with EXPT_CONNECT_PARTS := true, EXPT_CONNECT_CORNER_TIPS := true }

/-- The options of an export that welds corner tips and shows the welds. -/
def showWelds : Options := { connectTips with EXPT_DEBUG_SHOW_WELDS := true }

/-! ## The seed stack of findGroups

The functions of `findGroups` once more, with a record of what happens to the
seed stack: the cells pushed on it, and whether every
`assert((*seedCount)<gBoxSizeXYZ)` has held. -/

/-- The record kept of the seed stack: the cells pushed so far, the last one first,
and whether the assertion of `propagateSeed` has held at every push. -/
structure SeedLog where
  pushed : List IPoint
  asserted : Bool
deriving DecidableEq

/-- The body of the loop over `faceDirection` in `propagateSeed`, with the record of
the push and of the assertion that follows it. -/
def propagateDirLog (point : IPoint) (g : Nat) (acc : (ExportState × List IPoint) × SeedLog)
    (faceDirection : Nat) : (ExportState × List IPoint) × SeedLog :=
  match getNeighbor acc.1.1.gAirBox faceDirection point with
  | none => acc
  | some newPt =>
    if (acc.1.1.gBoxData newPt).group = NO_GROUP_SET ∧
        (acc.1.1.gBoxData newPt).isSolid = (acc.1.1.gGroupList g).solid then
      ((absorb acc.1.1 g newPt, newPt :: acc.1.2),
        ⟨newPt :: acc.2.pushed,
          acc.2.asserted && decide (((newPt :: acc.1.2).length : Int) < gBoxSizeXYZ acc.1.1)⟩)
    else acc

def propagateSeedLog (bi : BlockInfo) (s : ExportState) (point : IPoint) (g : Nat)
    (seedStack : List IPoint) (log : SeedLog) : (ExportState × List IPoint) × SeedLog :=
  if s.gOptions.EXPT_SEAL_ENTRANCES ∧ (s.gGroupList g).solid = false ∧
      bi.BLF_ENTRANCE (s.gBoxData point).origType = true then
    ((s, seedStack), log)
  else
    (List.range 6).foldl (propagateDirLog point g) ((s, seedStack), log)

/-- The loop `while ( seedCount > 0 )` of `findGroups` with the record, run for at
most `fuel` iterations; the stack that is left is returned as well. -/
def seedLoopLog (bi : BlockInfo) (g : Nat) :
    Nat → ExportState → List IPoint → SeedLog → (ExportState × List IPoint) × SeedLog
  | 0, s, st, log => ((s, st), log)
  | _ + 1, s, [], log => ((s, []), log)
  | fuel + 1, s, seedLoc :: seedStack, log =>
    let r := propagateSeedLog bi s seedLoc g seedStack log
    seedLoopLog bi g fuel r.1.1 r.1.2 r.2

/-- The body of the scan of `findGroups` at one cell, with the record; the seed
loop is given `fuel` iterations. -/
def findGroupsCellLog (bi : BlockInfo) (fuel : Nat) (a : ExportState × SeedLog) (loc : IPoint) :
    ExportState × SeedLog :=
  if (a.1.gBoxData loc).group = NO_GROUP_SET then
    let s1 := newGroup a.1 loc
    let r := propagateSeedLog bi s1 loc s1.gGroupCount [] a.2
    let q := seedLoopLog bi s1.gGroupCount fuel r.1.1 r.1.2 r.2
    (q.1.1, q.2)
  else a

/-- The function `findGroups` with the record of its seed stack; every run of the
seed loop is given `fuel` iterations. -/
def findGroupsLog (bi : BlockInfo) (fuel : Nat) (s : ExportState) : ExportState × SeedLog :=
  let g1 := s.gGroupList SURROUND_AIR_GROUP
  let g1 : BoxGroup := { g1 with population := 0 }
  let s : ExportState := { s with gGroupList := setGroup s.gGroupList SURROUND_AIR_GROUP g1 }
  let s := if s.gOptions.EXPT_SEAL_SIDE_TUNNELS then sealSides s else s
  let r := (scanCells s.gAirBox).foldl (findGroupsCellLog bi fuel) (s, ⟨[], true⟩)
  let s := r.1
  if s.gOptions.EXPT_SEAL_SIDE_TUNNELS then
    let g1 := s.gGroupList SURROUND_AIR_GROUP
    let g1 : BoxGroup := { g1 with bounds := addBoundsToBounds s.gAirBox g1.bounds }
    ({ s with gGroupList := setGroup s.gGroupList SURROUND_AIR_GROUP g1 }, r.2)
  else (s, r.2)

/-- The state of the seed loop for group `g` with its record: the cells pushed so far
all carry a group and are distinct, every assertion has held, and the cells of
the air box without a group together with the cells on the stack are fewer than
the cells of the array. -/
structure Stacked (s : ExportState) (g : Nat) (st : List IPoint) (log : SeedLog) : Prop where
  seeding : Seeding s g st
  logged : ∀ p ∈ log.pushed, (s.gBoxData p).group ≠ 0 ∧ s.gAirBox.contains p = true
  nodup : log.pushed.Nodup
  asserted : log.asserted = true
  room : ((unlabelled s + st.length : Nat) : Int) < gBoxSizeXYZ s

/-- The state of the scan of `findGroups` with its record, between two cells: the
books are kept, the cells pushed so far all carry a group and are distinct, every
assertion has held, and the air box has no more cells than the array. -/
structure Logged (s : ExportState) (log : SeedLog) : Prop where
  scanned : Scanned s
  logged : ∀ p ∈ log.pushed, (s.gBoxData p).group ≠ 0 ∧ s.gAirBox.contains p = true
  nodup : log.pushed.Nodup
  asserted : log.asserted = true
  room : ((boxCells s.gAirBox).length : Int) ≤ gBoxSizeXYZ s

/-! ## The bounds of the groups

What it means that the bounds stored for a group are the tight bounding box of
its cells. -/

/-- Some cell of the array that is in group `g` has the coordinate `v`, the
coordinate being read by `f`. -/
def attains (s : ExportState) (g : Nat) (f : IPoint → Int) (v : Int) : Prop :=
  ∃ p, (arrayBox s).contains p = true ∧ (s.gBoxData p).group = g ∧ f p = v

/-- Each of the six bounds stored for group `g` is the coordinate of a cell of the
group. -/
structure Attained (s : ExportState) (g : Nat) : Prop where
  min_x : attains s g IPoint.x (s.gGroupList g).bounds.min.x
  min_y : attains s g IPoint.y (s.gGroupList g).bounds.min.y
  min_z : attains s g IPoint.z (s.gGroupList g).bounds.min.z
  max_x : attains s g IPoint.x (s.gGroupList g).bounds.max.x
  max_y : attains s g IPoint.y (s.gGroupList g).bounds.max.y
  max_z : attains s g IPoint.z (s.gGroupList g).bounds.max.z

/-- The bounds of every group `2, 3, ..., gGroupCount` are attained by cells of the
group. -/
def Tight (s : ExportState) : Prop :=
  ∀ g, 2 ≤ g → g ≤ s.gGroupCount → Attained s g

/-- The box `b` is the tight bounding box of the cells of group `g`: it holds every
cell of the array that is in the group, and it lies inside every box that
does. -/
def tightBox (s : ExportState) (g : Nat) (b : IBox) : Prop :=
  (∀ p, (arrayBox s).contains p = true → (s.gBoxData p).group = g → b.contains p = true) ∧
  ∀ c : IBox,
    (∀ p, (arrayBox s).contains p = true → (s.gBoxData p).group = g → c.contains p = true) →
    c.inside b

/-! ## The links of the touch grid

What `fixTouchingEdges` keeps true of the connection bits and the counts of its
touch grid. -/

/-- The entry of `touchTable` for the opposite direction: the two bits change
places and the offset is negated. -/
def reverseEntry (e : Nat × (Int × Int × Int) × Nat) : Nat × (Int × Int × Int) × Nat :=
  (e.2.2, (-e.2.1.1, -e.2.1.2.1, -e.2.1.2.2), e.1)

/-- The cell `c` of the touch grid has the connection bit `b` set. -/
def hasConnection (c : TouchCell) (b : Nat) : Prop := c.connections &&& b ≠ 0

instance (c : TouchCell) (b : Nat) : Decidable (hasConnection c b) := by
  unfold hasConnection
  infer_instance

/-- The number of connection bits set in the cell `c` of the touch grid. -/
def connectionCount (c : TouchCell) : Nat :=
  touchTable.countP fun e => decide (hasConnection c e.1)

/-- The touch grid `t` is linked: a cell has the connection bit of a direction set
exactly when the cell at the offset of that direction has the opposite bit
set, no cell has a bit set other than the twelve connection bits, and the
count of each cell is at least the number of its connection bits. -/
structure TouchLinked (t : IPoint → TouchCell) : Prop where
  paired : ∀ e ∈ touchTable, ∀ p,
    hasConnection (t p) e.1 ↔ hasConnection (t (p.shift e.2.1)) e.2.2
  bits : ∀ p, (t p).connections < 4096
  counted : ∀ p, (connectionCount (t p) : Int) ≤ (t p).count

/-! ## The texels of a swatch -/

/-- The index in `image_data` of the texel in row `row` and column `col` of the swatch
`swatch`: the pointer to the upper left corner of the swatch, as
`compositePNGSwatches` computes it, moved on by `row*dst->width` and then by `col`. -/
def swatchTexel (width swatch swatchSize swatchesPerRow row col : Int) : Int :=
  Int.tdiv swatch swatchesPerRow * swatchSize * width +
    Int.tmod swatch swatchesPerRow * swatchSize + (row * width + col)

/-! ## The loop of checkAndRemoveBubbles -/

/-- The value of `fillType` in `checkAndRemoveBubbles` started in the state `t`. -/
def bubbleFill (bi : BlockInfo) (t : ExportState) : Nat :=
  if t.gOptions.EXPT_FILL_BUBBLES then bi.BLOCK_GLASS else BLOCK_AIR

/-- The state of the loop of `checkAndRemoveBubbles`, started in the state `t`, when
the groups `pre` have been looked at. -/
def bubblesDone (bi : BlockInfo) (t : ExportState) (pre : List Nat) : ExportState :=
  pre.foldl (removeBubble bi (bubbleFill bi t)) t

/-- What the loop of `checkAndRemoveBubbles` keeps true of the state: the books are
kept, every cell of a group lies inside the bounds of the group, the bounds of
the groups `2 .. gGroupCount` lie inside the array and those of the air groups
among them strictly inside (the asserts of `findNeighboringGroups`), and group 1
is air. -/
structure Merging (s : ExportState) : Prop where
  booked : Booked s
  bounded : Bounded s
  hulled : Hulled s
  airHull : ∀ g, 2 ≤ g → g ≤ s.gGroupCount → (s.gGroupList g).solid = false →
    neighborAsserts s (s.gGroupList g).bounds
  first_air : (s.gGroupList SURROUND_AIR_GROUP).solid = false
  room : (arrayBox s).inside emptyBounds

/-- Two air cells, `(2,2,2)` and `(4,2,2)`, each enclosed by six stone blocks, the block
`(3,2,2)` being common to both, and a slab of 3×3 stone blocks at `x = 5` that
holds one of the six blocks around the second cell and joins four others, in an
array of 7×5×5 cells. -/
def twoBubbles (o : Options) : ExportState :=
  stoneWorld
    (fun p => decide (faceAdjacent p ⟨2, 2, 2⟩ ∨ faceAdjacent p ⟨4, 2, 2⟩ ∨
      (p.x = 5 ∧ 1 ≤ p.y ∧ p.y ≤ 3 ∧ 1 ≤ p.z ∧ p.z ≤ 3)))
    ⟨7, 5, 5⟩ ⟨⟨1, 1, 1⟩, ⟨5, 3, 3⟩⟩ o

/-- The groups of the two enclosed air cells: group 1 is the air around the blocks,
group 5 the air cell `(2,2,2)`, group 10 the air cell `(4,2,2)`, group 9 the slab
with the four blocks joined to it, and the groups 2, 3, 4, 6, 7 and 8 are the six
blocks around the cell `(2,2,2)`, one block each. -/
def bubbleGroups : ExportState := findGroups sampleBlocks (twoBubbles fillBubbles)


/-! ## Lists of cells -/

theorem mem_intRange {lo hi x : Int} : x ∈ intRange lo hi ↔ lo ≤ x ∧ x ≤ hi := by
  unfold intRange
  simp only [List.mem_map, List.mem_range]
  constructor
  · rintro ⟨i, hi', rfl⟩
    omega
  · rintro ⟨h1, h2⟩
    exact ⟨(x - lo).toNat, by omega, by omega⟩

theorem nodup_intRange (lo hi : Int) : (intRange lo hi).Nodup := by
  unfold intRange
  refine (List.nodup_range _).map ?_
  intro a b h
  simpa using h

theorem contains_iff {b : IBox} {p : IPoint} :
    b.contains p = true ↔
      b.min.x ≤ p.x ∧ p.x ≤ b.max.x ∧ b.min.y ≤ p.y ∧ p.y ≤ b.max.y ∧
        b.min.z ≤ p.z ∧ p.z ≤ b.max.z := by
  simp [IBox.contains, and_assoc]

theorem mem_boxCells {b : IBox} {p : IPoint} : p ∈ boxCells b ↔ b.contains p = true := by
  rw [contains_iff]
  simp only [boxCells, List.mem_flatMap, List.mem_map, mem_intRange]
  constructor
  · rintro ⟨x, hx, z, hz, y, hy, rfl⟩
    simp_all
  · intro h
    exact ⟨p.x, ⟨h.1, h.2.1⟩, p.z, ⟨h.2.2.2.2.1, h.2.2.2.2.2⟩, p.y, ⟨h.2.2.1, h.2.2.2.1⟩, rfl⟩

theorem mem_scanCells {b : IBox} {p : IPoint} : p ∈ scanCells b ↔ b.contains p = true := by
  rw [contains_iff]
  simp only [scanCells, List.mem_flatMap, List.mem_map, List.mem_reverse, mem_intRange]
  constructor
  · rintro ⟨x, hx, z, hz, y, hy, rfl⟩
    simp_all
  · intro h
    exact ⟨p.x, ⟨h.1, h.2.1⟩, p.z, ⟨h.2.2.2.2.1, h.2.2.2.2.2⟩, p.y, ⟨h.2.2.1, h.2.2.2.1⟩, rfl⟩

theorem nodup_boxCells (b : IBox) : (boxCells b).Nodup := by
  unfold boxCells
  rw [List.nodup_flatMap]
  refine ⟨fun x _ => ?_, ?_⟩
  · rw [List.nodup_flatMap]
    refine ⟨fun z _ => ?_, ?_⟩
    · refine (nodup_intRange _ _).map ?_
      intro a c h
      simpa using h
    · refine (nodup_intRange _ _).pairwise_of_forall_ne ?_
      intro z1 _ z2 _ hne
      simp only [Function.onFun, List.disjoint_left, List.mem_map]
      rintro p ⟨y1, _, rfl⟩ ⟨y2, _, h⟩
      simp at h
      exact hne h.2.symm
  · refine (nodup_intRange _ _).pairwise_of_forall_ne ?_
    intro x1 _ x2 _ hne
    simp only [Function.onFun, List.disjoint_left, List.mem_flatMap, List.mem_map]
    rintro p ⟨z1, _, y1, _, rfl⟩ ⟨z2, _, y2, _, h⟩
    simp at h
    exact hne h.1.symm

/-- Induction over a loop: a property that holds before the loop and is kept by
every iteration holds after it. -/
theorem foldl_inv {α β : Type} (P : β → Prop) (f : β → α → β) (l : List α) (b : β)
    (h0 : P b) (hstep : ∀ s x, x ∈ l → P s → P (f s x)) : P (l.foldl f b) := by
  induction l generalizing b with
  | nil => exact h0
  | cons a l ih =>
    simp only [List.foldl_cons]
    apply ih
    · exact hstep b a (List.mem_cons_self _ _) h0
    · intro s x hx hs
      exact hstep s x (List.mem_cons_of_mem _ hx) hs

theorem setCell_same (d : IPoint → BoxCell) (p : IPoint) (c : BoxCell) : setCell d p c p = c := by
  simp [setCell]

theorem setCell_other (d : IPoint → BoxCell) {p q : IPoint} (c : BoxCell) (h : q ≠ p) :
    setCell d p c q = d q := by
  simp [setCell, h]

theorem setGroup_same (l : Nat → BoxGroup) (g : Nat) (r : BoxGroup) : setGroup l g r g = r := by
  simp [setGroup]

theorem setGroup_other (l : Nat → BoxGroup) {g i : Nat} (r : BoxGroup) (h : i ≠ g) :
    setGroup l g r i = l i := by
  simp [setGroup, h]

/-- Changing one cell does not change a count when the cell counts the same before and after. -/
theorem countP_setCell_same (l : List IPoint) (d : IPoint → BoxCell) (p : IPoint) (c : BoxCell)
    (f : BoxCell → Bool) (h : f c = f (d p)) :
    l.countP (fun q => f (setCell d p c q)) = l.countP (fun q => f (d q)) := by
  congr 1
  funext q
  by_cases hq : q = p
  · subst hq
    rw [setCell_same, h]
  · rw [setCell_other _ _ hq]

/-- Changing one cell of a duplicate-free list from not counted to counted adds one. -/
theorem countP_setCell_add (l : List IPoint) (hl : l.Nodup) (d : IPoint → BoxCell) (p : IPoint)
    (c : BoxCell) (f : BoxCell → Bool) (hp : p ∈ l) (h0 : f (d p) = false) (h1 : f c = true) :
    l.countP (fun q => f (setCell d p c q)) = l.countP (fun q => f (d q)) + 1 := by
  induction l with
  | nil => simp at hp
  | cons a l ih =>
    rw [List.nodup_cons] at hl
    rw [List.countP_cons, List.countP_cons]
    by_cases ha : a = p
    · subst ha
      have hnot : l.countP (fun q => f (setCell d a c q)) = l.countP (fun q => f (d q)) := by
        apply List.countP_congr
        intro q hq
        have : q ≠ a := fun h => hl.1 (h ▸ hq)
        simp [setCell_other _ _ this]
      rw [hnot]
      simp [setCell_same, h0, h1]
    · have hp' : p ∈ l := by
        rcases List.mem_cons.1 hp with h | h
        · exact absurd h.symm ha
        · exact h
      rw [ih hl.2 hp', setCell_other _ _ ha]
      omega

/-- Changing one cell of a duplicate-free list from counted to not counted removes one. -/
theorem countP_setCell_sub (l : List IPoint) (hl : l.Nodup) (d : IPoint → BoxCell) (p : IPoint)
    (c : BoxCell) (f : BoxCell → Bool) (hp : p ∈ l) (h0 : f (d p) = true) (h1 : f c = false) :
    l.countP (fun q => f (setCell d p c q)) + 1 = l.countP (fun q => f (d q)) := by
  have h := countP_setCell_add l hl (setCell d p c) p (d p) f hp (by rw [setCell_same]; exact h1) h0
  have e : (fun q => f (setCell (setCell d p c) p (d p) q)) = fun q => f (d q) := by
    funext q
    by_cases hq : q = p
    · subst hq
      rw [setCell_same]
    · rw [setCell_other _ _ hq, setCell_other _ _ hq]
  rw [e] at h
  omega
theorem foldl_range_inv {β : Type} (P : Nat → β → Prop) (f : β → Nat → β) (n : Nat) (b : β)
    (h0 : P 0 b) (hstep : ∀ k s, k < n → P k s → P (k + 1) (f s k)) :
    P n ((List.range n).foldl f b) := by
  induction n with
  | zero => simpa using h0
  | succ n ih =>
    rw [List.range_succ, List.foldl_append]
    simp only [List.foldl_cons, List.foldl_nil]
    exact hstep n _ (Nat.lt_succ_self n) (ih (fun k s hk hs => hstep k s (Nat.lt_succ_of_lt hk) hs))

theorem Frame.frame_refl (s : ExportState) : Frame s s :=
  ⟨rfl, rfl, rfl, rfl, fun _ => rfl, fun _ => rfl⟩

theorem Frame.frame_trans {s t u : ExportState} (h1 : Frame s t) (h2 : Frame t u) : Frame s u :=
  ⟨h2.airBox.trans h1.airBox, h2.solidBox.trans h1.solidBox, h2.boxSize.trans h1.boxSize,
    h2.options.trans h1.options, fun p => (h2.type p).trans (h1.type p),
    fun p => (h2.origType p).trans (h1.origType p)⟩

theorem Frame.isSolid {s t : ExportState} (h : Frame s t) (p : IPoint) :
    (t.gBoxData p).isSolid = (s.gBoxData p).isSolid := by
  simp [BoxCell.isSolid, h.type p]

theorem absorb_frame (s : ExportState) (g : Nat) (q : IPoint) : Frame s (absorb s g q) := by
  refine ⟨rfl, rfl, rfl, rfl, fun p => ?_, fun p => ?_⟩ <;>
  · simp only [absorb]
    by_cases hp : p = q
    · subst hp
      simp [setCell_same]
    · simp [setCell_other _ _ hp]

theorem absorb_cell_new (s : ExportState) (g : Nat) (q : IPoint) :
    ((absorb s g q).gBoxData q).group = (s.gGroupList g).groupID := by
  simp [absorb, setCell_same]

theorem absorb_cell_other (s : ExportState) (g : Nat) {p q : IPoint} (h : p ≠ q) :
    (absorb s g q).gBoxData p = s.gBoxData p := by
  simp [absorb, setCell_other _ _ h]

/-- The effect of writing one cell on the number of cells of a group. -/
theorem groupCells_set {s t : ExportState} {q : IPoint} {c : BoxCell}
    (hsize : t.gBoxSize = s.gBoxSize) (hd : t.gBoxData = setCell s.gBoxData q c) (g : Nat) :
    ((s.gBoxData q).group ≠ g → c.group ≠ g → groupCells t g = groupCells s g) ∧
    ((s.gBoxData q).group = g → c.group = g → groupCells t g = groupCells s g) ∧
    ((arrayBox s).contains q = true → (s.gBoxData q).group ≠ g → c.group = g →
      groupCells t g = groupCells s g + 1) ∧
    ((arrayBox s).contains q = true → (s.gBoxData q).group = g → c.group ≠ g →
      groupCells t g + 1 = groupCells s g) := by
  have hA : arrayBox t = arrayBox s := by simp [arrayBox, hsize]
  have e : groupCells t g = (boxCells (arrayBox s)).countP
      (fun p => (fun c : BoxCell => decide (c.group = g)) (setCell s.gBoxData q c p)) := by
    simp [groupCells, hA, hd]
  rw [e]
  refine ⟨fun h0 h1 => ?_, fun h0 h1 => ?_, fun hq h0 h1 => ?_, fun hq h0 h1 => ?_⟩
  · exact countP_setCell_same _ _ _ _ (fun c : BoxCell => decide (c.group = g)) (by simp [h0, h1])
  · exact countP_setCell_same _ _ _ _ (fun c : BoxCell => decide (c.group = g)) (by simp [h0, h1])
  · exact countP_setCell_add _ (nodup_boxCells _) _ _ _ (fun c : BoxCell => decide (c.group = g))
      (mem_boxCells.2 hq) (by simp [h0]) (by simp [h1])
  · exact countP_setCell_sub _ (nodup_boxCells _) _ _ _ (fun c : BoxCell => decide (c.group = g))
      (mem_boxCells.2 hq) (by simp [h0]) (by simp [h1])

/-- Absorbing an unlabelled cell of the air box keeps the books of the group list. -/
theorem absorb_booked {s : ExportState} {g : Nat} {q : IPoint} (hb : Booked s)
    (hg : g = s.gGroupCount) (hg1 : 1 ≤ g) (hq : s.gAirBox.contains q = true)
    (h0 : (s.gBoxData q).group = 0) : Booked (absorb s g q) := by
  have hid : (s.gGroupList g).groupID = g := hb.gid g hg1 (by omega)
  have hqa := hb.air_in_array q hq
  have hset := fun g' => groupCells_set (s := s) (t := absorb s g q) (q := q)
    (c := { s.gBoxData q with group := (s.gGroupList g).groupID }) rfl rfl g'
  refine ⟨hb.air_in_array, ?_, ?_, ?_⟩
  · intro p hp
    by_cases hpq : p = q
    · subst hpq
      left
      rw [absorb_cell_new, hid]
      exact hg.le
    · rw [absorb_cell_other s g hpq]
      exact hb.group_le p hp
  · intro g' hg' hle
    by_cases hgg : g' = g
    · subst hgg
      rw [(hset g').2.2.1 hqa (by omega) hid]
      have := hb.pop g' hg' hle
      simp only [absorb, setGroup_same]
      rw [this]
      push_cast
      rfl
    · rw [(hset g').1 (by omega) (by simp only [hid]; omega)]
      have := hb.pop g' hg' hle
      simp only [absorb, setGroup_other _ _ hgg]
      exact this
  · intro g' hg' hle
    by_cases hgg : g' = g
    · subst hgg
      simpa [absorb, setGroup_same] using hid
    · simp only [absorb, setGroup_other _ _ hgg]
      exact hb.gid g' hg' hle

theorem absorb_unlabelled {s : ExportState} {g : Nat} {q : IPoint}
    (hid : (s.gGroupList g).groupID ≠ 0) (hq : s.gAirBox.contains q = true)
    (h0 : (s.gBoxData q).group = 0) : unlabelled (absorb s g q) + 1 = unlabelled s :=
  countP_setCell_sub _ (nodup_boxCells _) _ _ _ (fun c : BoxCell => decide (c.group = NO_GROUP_SET))
    (mem_boxCells.2 hq) (by simp [h0, NO_GROUP_SET]) (by simp [NO_GROUP_SET, hid])
theorem getNeighbor_some {b : IBox} {d : Nat} {p q : IPoint} (hd : d < 6)
    (hp : b.contains p = true) (h : getNeighbor b d p = some q) :
    b.contains q = true ∧ faceAdjacent p q ∧ q = getNeighborUnsafe d p := by
  rw [contains_iff] at hp
  rw [contains_iff]
  unfold faceAdjacent
  have h6 : d = 0 ∨ d = 1 ∨ d = 2 ∨ d = 3 ∨ d = 4 ∨ d = 5 := by omega
  rcases h6 with rfl | rfl | rfl | rfl | rfl | rfl <;>
  · simp only [getNeighbor] at h
    split at h
    · simp at h
    · simp only [Option.some.injEq] at h
      subst h
      simp only [getNeighborUnsafe]
      refine ⟨?_, ?_, trivial⟩
      · omega
      · omega

theorem getNeighbor_of_adjacent {b : IBox} {p q : IPoint} (hq : b.contains q = true)
    (h : faceAdjacent p q) : ∃ d, d < 6 ∧ getNeighbor b d p = some q := by
  rw [contains_iff] at hq
  unfold faceAdjacent at h
  obtain ⟨px, py, pz⟩ := p
  obtain ⟨qx, qy, qz⟩ := q
  simp only at h hq
  have hx : px = qx ∨ px = qx + 1 ∨ px + 1 = qx := by omega
  have hy : py = qy ∨ py = qy + 1 ∨ py + 1 = qy := by omega
  have hz : pz = qz ∨ pz = qz + 1 ∨ pz + 1 = qz := by omega
  rcases hx with rfl | rfl | rfl <;> rcases hy with rfl | rfl | rfl <;>
    rcases hz with rfl | rfl | rfl <;> simp at h
  · exact ⟨2, by omega, by simp [getNeighbor]; omega⟩
  · exact ⟨5, by omega, by simp [getNeighbor]; omega⟩
  · exact ⟨1, by omega, by simp [getNeighbor]; omega⟩
  · exact ⟨4, by omega, by simp [getNeighbor]; omega⟩
  · exact ⟨0, by omega, by simp [getNeighbor]; omega⟩
  · exact ⟨3, by omega, by simp [getNeighbor]; omega⟩

theorem faceAdjacent_symm {p q : IPoint} (h : faceAdjacent p q) : faceAdjacent q p := by
  unfold faceAdjacent at *
  omega

theorem Grows.grows_refl (g : Nat) (s : ExportState) : Grows g s s :=
  ⟨Frame.frame_refl s, rfl, rfl, rfl, rfl, fun _ h => absurd rfl h, fun _ => rfl, fun _ _ => rfl⟩

theorem Grows.grows_trans {g : Nat} {s t u : ExportState} (h1 : Grows g s t) (h2 : Grows g t u) :
    Grows g s u := by
  refine ⟨h1.frame.frame_trans h2.frame, h2.count.trans h1.count, h2.solidGroups.trans h1.solidGroups,
    h2.airGroups.trans h1.airGroups, h2.stats.trans h1.stats, ?_,
    fun i => (h2.flags i).trans (h1.flags i), fun i hi => (h2.others i hi).trans (h1.others i hi)⟩
  intro q hq
  by_cases h : t.gBoxData q = s.gBoxData q
  · have h' : u.gBoxData q ≠ t.gBoxData q := fun e => hq (e.trans h)
    obtain ⟨a, b, c, d⟩ := h2.changed q h'
    rw [h] at a
    rw [h1.frame.isSolid, h1.flags] at c
    rw [h1.frame.airBox] at d
    exact ⟨a, b, c, d⟩
  · obtain ⟨a, b, c, d⟩ := h1.changed q h
    refine ⟨a, ?_, c, d⟩
    by_cases h' : u.gBoxData q = t.gBoxData q
    · rw [h', b]
    · exact (h2.changed q h').2.1

theorem absorb_grows {s : ExportState} {g : Nat} {q : IPoint}
    (hid : (s.gGroupList g).groupID = g) (hq : s.gAirBox.contains q = true)
    (h0 : (s.gBoxData q).group = 0) (hs : (s.gBoxData q).isSolid = (s.gGroupList g).solid) :
    Grows g s (absorb s g q) := by
  refine ⟨absorb_frame s g q, rfl, rfl, rfl, rfl, ?_, ?_, ?_⟩
  · intro p hp
    by_cases hpq : p = q
    · subst hpq
      exact ⟨h0, by rw [absorb_cell_new, hid], hs, hq⟩
    · exact absurd (absorb_cell_other s g hpq) hp
  · intro i
    by_cases hi : i = g
    · subst hi
      simp [absorb, setGroup_same]
    · simp [absorb, setGroup_other _ _ hi]
  · intro i hi
    simp [absorb, setGroup_other _ _ hi]

theorem Seeding.absorb {s : ExportState} {g : Nat} {st : List IPoint} {q : IPoint}
    (h : Seeding s g st) (hq : s.gAirBox.contains q = true) (h0 : (s.gBoxData q).group = 0) :
    Seeding (absorb s g q) g (q :: st) := by
  have hid : (s.gGroupList g).groupID = g := h.booked.gid g h.pos (by rw [h.newest])
  refine ⟨absorb_booked h.booked h.newest h.pos hq h0, h.newest, h.pos, ?_⟩
  intro p hp
  rcases List.mem_cons.1 hp with hpq | hp'
  · rw [hpq]
    exact ⟨hq, by rw [absorb_cell_new, hid]⟩
  · have hne : p ≠ q := by
      intro e
      have h1 := (h.stack p hp').2
      rw [e, h0] at h1
      have := h.pos
      omega
    rw [absorb_cell_other s g hne]
    exact h.stack p hp'

/-- One direction of `propagateSeed`: either nothing happens or the neighbour is absorbed. -/
theorem propagateDir_cases (point : IPoint) (g : Nat) (s : ExportState) (st : List IPoint)
    (d : Nat) :
    propagateDir point g (s, st) d = (s, st) ∨
    ∃ q, getNeighbor s.gAirBox d point = some q ∧ (s.gBoxData q).group = 0 ∧
      (s.gBoxData q).isSolid = (s.gGroupList g).solid ∧
      propagateDir point g (s, st) d = (absorb s g q, q :: st) := by
  unfold propagateDir
  cases hn : getNeighbor s.gAirBox d point with
  | none => left; simp [hn]
  | some q =>
    by_cases hc : (s.gBoxData q).group = NO_GROUP_SET ∧ (s.gBoxData q).isSolid = (s.gGroupList g).solid
    · right
      exact ⟨q, rfl, hc.1, hc.2, by simp [hn, hc]⟩
    · left
      simp [hn, hc]

theorem propagateDir_grows {point : IPoint} {g : Nat} {s : ExportState} {st : List IPoint}
    {d : Nat} (hd : d < 6) (h : Seeding s g st) (hp : s.gAirBox.contains point = true) :
    Seeding (propagateDir point g (s, st) d).1 g (propagateDir point g (s, st) d).2 ∧
    Grows g s (propagateDir point g (s, st) d).1 ∧
    unlabelled (propagateDir point g (s, st) d).1 + (propagateDir point g (s, st) d).2.length =
      unlabelled s + st.length := by
  rcases propagateDir_cases point g s st d with e | ⟨q, hn, h0, hs, e⟩
  · rw [e]
    exact ⟨h, Grows.grows_refl g s, rfl⟩
  · rw [e]
    have hq := (getNeighbor_some hd hp hn).1
    have hid : (s.gGroupList g).groupID = g := h.booked.gid g h.pos (by rw [h.newest])
    refine ⟨h.absorb hq h0, absorb_grows hid hq h0 hs, ?_⟩
    have := absorb_unlabelled (s := s) (g := g) (q := q) (by rw [hid]; have := h.pos; omega) hq h0
    simp only [List.length_cons]
    omega
theorem Grows.keep {g : Nat} {s t : ExportState} (h : Grows g s t) {q : IPoint}
    (hq : (s.gBoxData q).group ≠ 0) : t.gBoxData q = s.gBoxData q := by
  by_contra hne
  exact hq (h.changed q hne).1

theorem propagateSeed_grows (bi : BlockInfo) {point : IPoint} {g : Nat} {s : ExportState}
    {st : List IPoint} (h : Seeding s g st) (hp : s.gAirBox.contains point = true) :
    Seeding (propagateSeed bi s point g st).1 g (propagateSeed bi s point g st).2 ∧
    Grows g s (propagateSeed bi s point g st).1 ∧
    unlabelled (propagateSeed bi s point g st).1 + (propagateSeed bi s point g st).2.length =
      unlabelled s + st.length := by
  unfold propagateSeed
  split
  · exact ⟨h, Grows.grows_refl g s, rfl⟩
  · refine foldl_range_inv
      (fun _ (r : ExportState × List IPoint) => Seeding r.1 g r.2 ∧ Grows g s r.1 ∧
        unlabelled r.1 + r.2.length = unlabelled s + st.length)
      (propagateDir point g) 6 (s, st) ⟨h, Grows.grows_refl g s, rfl⟩ ?_
    rintro k ⟨s', st'⟩ hk ⟨h1, h2, h3⟩
    have hp' : s'.gAirBox.contains point = true := by rw [h2.frame.airBox]; exact hp
    obtain ⟨a, b, c⟩ := propagateDir_grows (d := k) hk h1 hp'
    exact ⟨a, h2.grows_trans b, by rw [c, h3]⟩

theorem seedLoop_grows (bi : BlockInfo) (g : Nat) (fuel : Nat) :
    ∀ (s : ExportState) (st : List IPoint), Seeding s g st →
      Seeding (seedLoop bi g fuel s st) g [] ∧ Grows g s (seedLoop bi g fuel s st) := by
  induction fuel with
  | zero =>
    intro s st h
    exact ⟨⟨h.booked, h.newest, h.pos, fun q hq => by simp at hq⟩, Grows.grows_refl g s⟩
  | succ n ih =>
    intro s st h
    cases st with
    | nil => exact ⟨h, Grows.grows_refl g s⟩
    | cons p st =>
      simp only [seedLoop]
      have hp := (h.stack p (List.mem_cons_self _ _)).1
      have h' : Seeding s g st :=
        ⟨h.booked, h.newest, h.pos, fun q hq => h.stack q (List.mem_cons_of_mem _ hq)⟩
      obtain ⟨a, b, _⟩ := propagateSeed_grows bi h' hp
      obtain ⟨c, d⟩ := ih _ _ a
      exact ⟨c, b.grows_trans d⟩

theorem groupCells_eq_zero {s : ExportState} {g : Nat}
    (h : ∀ p, (arrayBox s).contains p = true → (s.gBoxData p).group ≠ g) : groupCells s g = 0 := by
  unfold groupCells
  rw [List.countP_eq_zero]
  intro p hp
  simpa using h p (mem_boxCells.1 hp)

theorem groupRange_succ (n : Nat) : groupRange 1 (n + 1) = groupRange 1 n ++ [n + 1] := by
  unfold groupRange
  have : n + 1 + 1 - 1 = (n + 1 - 1) + 1 := by omega
  rw [this, List.range'_concat]
  simp
  omega

theorem mem_groupRange {a n i : Nat} : i ∈ groupRange a n ↔ a ≤ i ∧ i ≤ n := by
  unfold groupRange
  rw [List.mem_range'_1]
  omega
theorem newGroup_frame (s : ExportState) (loc : IPoint) : Frame s (newGroup s loc) := by
  refine ⟨rfl, rfl, rfl, rfl, fun p => ?_, fun p => ?_⟩ <;>
  · simp only [newGroup]
    by_cases hp : p = loc
    · subst hp
      simp [setCell_same]
    · simp [setCell_other _ _ hp]

theorem newGroup_cell_other (s : ExportState) {p loc : IPoint} (h : p ≠ loc) :
    (newGroup s loc).gBoxData p = s.gBoxData p := by
  simp [newGroup, setCell_other _ _ h]

theorem newGroup_cell (s : ExportState) (loc : IPoint) :
    ((newGroup s loc).gBoxData loc).group = s.gGroupCount + 1 := by
  simp [newGroup, setCell_same]

theorem newGroup_count (s : ExportState) (loc : IPoint) :
    (newGroup s loc).gGroupCount = s.gGroupCount + 1 := rfl

theorem newGroup_record_other (s : ExportState) (loc : IPoint) {i : Nat}
    (h : i ≠ s.gGroupCount + 1) : (newGroup s loc).gGroupList i = s.gGroupList i := by
  simp [newGroup, setGroup_other _ _ h]

theorem newGroup_solid (s : ExportState) (loc : IPoint) :
    ((newGroup s loc).gGroupList (s.gGroupCount + 1)).solid = (s.gBoxData loc).isSolid := by
  simp [newGroup, setGroup_same]

/-- Starting a group at an unlabelled cell of the air box keeps the books. -/
theorem newGroup_seeding {s : ExportState} {loc : IPoint} (hb : Booked s)
    (hl : s.gAirBox.contains loc = true) (h0 : (s.gBoxData loc).group = 0) :
    Seeding (newGroup s loc) (s.gGroupCount + 1) [loc] := by
  have hla := hb.air_in_array loc hl
  have hset := fun g' => groupCells_set (s := s) (t := newGroup s loc) (q := loc)
    (c := { s.gBoxData loc with group := s.gGroupCount + 1 }) rfl rfl g'
  refine ⟨⟨hb.air_in_array, ?_, ?_, ?_⟩, rfl, by omega, ?_⟩
  · intro p hp
    by_cases hpl : p = loc
    · subst hpl
      left
      rw [newGroup_cell, newGroup_count]
    · rw [newGroup_cell_other s hpl, newGroup_count]
      rcases hb.group_le p hp with h | h
      · left; omega
      · right; exact h
  · intro g' hg' hle
    rw [newGroup_count] at hle
    by_cases hgn : g' = s.gGroupCount + 1
    · subst hgn
      rw [(hset (s.gGroupCount + 1)).2.2.1 hla (by omega) rfl]
      simp only [newGroup, setGroup_same, SURROUND_AIR_GROUP]
      by_cases h1 : s.gGroupCount + 1 = 1
      · rw [if_pos h1, h1, hb.pop 1 (le_refl 1) (Or.inr rfl)]
        push_cast
        rfl
      · rw [if_neg h1]
        have hz : groupCells s (s.gGroupCount + 1) = 0 := by
          apply groupCells_eq_zero
          intro p hp
          rcases hb.group_le p hp with h | h <;> omega
        rw [hz]
        rfl
    · rw [(hset g').1 (by omega) (by simp only []; omega), newGroup_record_other s loc hgn]
      exact hb.pop g' hg' (by omega)
  · intro g' hg' hle
    rw [newGroup_count] at hle
    by_cases hgn : g' = s.gGroupCount + 1
    · subst hgn
      simp [newGroup, setGroup_same]
    · rw [newGroup_record_other s loc hgn]
      exact hb.gid g' hg' (by omega)
  · intro q hq
    simp only [List.mem_singleton] at hq
    subst hq
    exact ⟨hl, newGroup_cell s q⟩

theorem countP_groupRange_congr {n : Nat} {f f2 : Nat → Bool}
    (h : ∀ i, 1 ≤ i → i ≤ n → f i = f2 i) :
    (groupRange 1 n).countP f = (groupRange 1 n).countP f2 := by
  apply List.countP_congr
  intro i hi
  rw [mem_groupRange] at hi
  rw [h i hi.1 hi.2]

theorem newGroup_airGroupCount (s : ExportState) (loc : IPoint) :
    airGroupCount (newGroup s loc) =
      airGroupCount s + (if (s.gBoxData loc).isSolid then 0 else 1) := by
  unfold airGroupCount
  rw [newGroup_count, groupRange_succ, List.countP_append]
  congr 1
  · apply countP_groupRange_congr
    intro i _ hi
    rw [newGroup_record_other s loc (by omega)]
  · simp only [List.countP_cons, List.countP_nil, newGroup_solid]
    cases (s.gBoxData loc).isSolid <;> simp

theorem newGroup_solidGroupCount (s : ExportState) (loc : IPoint) :
    solidGroupCount (newGroup s loc) =
      solidGroupCount s + (if (s.gBoxData loc).isSolid then 1 else 0) := by
  unfold solidGroupCount
  rw [newGroup_count, groupRange_succ, List.countP_append]
  congr 1
  · apply countP_groupRange_congr
    intro i _ hi
    rw [newGroup_record_other s loc (by omega)]
  · simp [List.countP_cons, newGroup_solid]

theorem Grows.airGroupCount {g : Nat} {s t : ExportState} (h : Grows g s t) :
    airGroupCount t = airGroupCount s := by
  unfold Mineways.airGroupCount
  rw [h.count]
  exact countP_groupRange_congr (fun i _ _ => by rw [h.flags])

theorem Grows.solidGroupCount {g : Nat} {s t : ExportState} (h : Grows g s t) :
    solidGroupCount t = solidGroupCount s := by
  unfold Mineways.solidGroupCount
  rw [h.count]
  exact countP_groupRange_congr (fun i _ _ => by rw [h.flags])

/-- What one step of the scan of `findGroups` does at a cell of the air box. -/
theorem findGroupsCell_scanned (bi : BlockInfo) {s : ExportState} {loc : IPoint} (h : Scanned s)
    (hl : s.gAirBox.contains loc = true) :
    Scanned (findGroupsCell bi s loc) ∧ Frame s (findGroupsCell bi s loc) ∧
    (∀ q, (s.gBoxData q).group ≠ 0 → (findGroupsCell bi s loc).gBoxData q = s.gBoxData q) ∧
    ((findGroupsCell bi s loc).gBoxData loc).group ≠ 0 := by
  unfold findGroupsCell
  by_cases h0 : (s.gBoxData loc).group = NO_GROUP_SET
  · rw [if_pos h0]
    simp only []
    have hs := newGroup_seeding h.booked hl h0
    have hs' : Seeding (newGroup s loc) (s.gGroupCount + 1) [] :=
      ⟨hs.booked, hs.newest, hs.pos, fun q hq => by simp at hq⟩
    obtain ⟨a, b, _⟩ := propagateSeed_grows bi hs' hl
    obtain ⟨c, d⟩ := seedLoop_grows bi (s.gGroupCount + 1) (boxCells s.gAirBox).length _ _ a
    have hg := b.grows_trans d
    rw [newGroup_count]
    refine ⟨⟨c.booked, ?_, ?_⟩, (newGroup_frame s loc).frame_trans hg.frame, ?_, ?_⟩
    · rw [hg.airGroups, hg.airGroupCount, newGroup_airGroupCount]
      simp only [newGroup]
      split <;> simp [h.air]
    · rw [hg.solidGroups, hg.solidGroupCount, newGroup_solidGroupCount]
      simp only [newGroup]
      split <;> simp [h.solid]
    · intro q hq
      have hne : q ≠ loc := by
        rintro rfl
        exact hq h0
      rw [hg.keep (by rw [newGroup_cell_other s hne]; exact hq), newGroup_cell_other s hne]
    · rw [hg.keep (by rw [newGroup_cell]; omega), newGroup_cell]
      omega
  · rw [if_neg h0]
    exact ⟨h, Frame.frame_refl s, fun _ _ => rfl, h0⟩
/-- Induction over a loop that remembers which iterations have been made. -/
theorem foldl_prefix_inv {α β : Type} (f : β → α → β) (P : List α → β → Prop) (l : List α) (b : β)
    (h0 : P [] b)
    (hstep : ∀ pre x post s, l = pre ++ x :: post → P pre s → P (pre ++ [x]) (f s x)) :
    P l (l.foldl f b) := by
  suffices H : ∀ (post pre : List α) (s : β), l = pre ++ post → P pre s →
      P (pre ++ post) (post.foldl f s) by
    simpa using H l [] b (by simp) h0
  intro post
  induction post with
  | nil =>
    intro pre s _ hs
    simpa using hs
  | cons x post ih =>
    intro pre s hl hs
    have := ih (pre ++ [x]) (f s x) (by simpa using hl) (hstep pre x post s hl hs)
    simpa using this

theorem pairwise_intRange (lo hi : Int) : (intRange lo hi).Pairwise (· < ·) := by
  unfold intRange
  rw [List.pairwise_map]
  exact (List.pairwise_lt_range _).imp (fun h => by omega)

theorem pairwise_scanCells (b : IBox) : (scanCells b).Pairwise scanBefore := by
  unfold scanCells
  rw [List.pairwise_flatMap]
  refine ⟨fun x _ => ?_, ?_⟩
  · rw [List.pairwise_flatMap]
    refine ⟨fun z _ => ?_, ?_⟩
    · rw [List.pairwise_map, List.pairwise_reverse]
      exact (pairwise_intRange _ _).imp (fun h => by
        right
        exact ⟨rfl, Or.inr ⟨rfl, h⟩⟩)
    · refine (pairwise_intRange _ _).imp ?_
      intro z1 z2 hz p hp q hq
      simp only [List.mem_map] at hp hq
      obtain ⟨_, _, rfl⟩ := hp
      obtain ⟨_, _, rfl⟩ := hq
      right
      exact ⟨rfl, Or.inl hz⟩
  · refine (pairwise_intRange _ _).imp ?_
    intro x1 x2 hx p hp q hq
    simp only [List.mem_flatMap, List.mem_map] at hp hq
    obtain ⟨_, _, _, _, rfl⟩ := hp
    obtain ⟨_, _, _, _, rfl⟩ := hq
    left
    exact hx

/-- In the scan, a cell higher up in the same column has been visited before. -/
theorem scan_above_before {b : IBox} {pre post : List IPoint} {p : IPoint}
    (h : scanCells b = pre ++ p :: post) {y : Int} (hy : p.y < y) (hy2 : y ≤ b.max.y) :
    (IPoint.mk p.x y p.z) ∈ pre := by
  have hp : p ∈ scanCells b := by rw [h]; simp
  have hpc := contains_iff.1 (mem_scanCells.1 hp)
  have hq : (IPoint.mk p.x y p.z) ∈ scanCells b :=
    mem_scanCells.2 (contains_iff.2 ⟨hpc.1, hpc.2.1, by simp only []; omega, hy2, hpc.2.2.2.2⟩)
  rw [h, List.mem_append, List.mem_cons] at hq
  rcases hq with hq | hq | hq
  · exact hq
  · rw [← hq] at hy
    simp only [] at hy
    omega
  · have hpw := pairwise_scanCells b
    rw [h, List.pairwise_append] at hpw
    have := (List.pairwise_cons.1 hpw.2.1).1 _ hq
    unfold scanBefore at this
    simp only [] at this
    omega
/-- One step of the scan of `findGroups`: either the cell has a group and nothing
happens, or a new group is started there and grown. -/
theorem findGroupsCell_cases (bi : BlockInfo) {s : ExportState} {loc : IPoint}
    (h : Booked s) (hl : s.gAirBox.contains loc = true) :
    ((s.gBoxData loc).group ≠ 0 ∧ findGroupsCell bi s loc = s) ∨
    ((s.gBoxData loc).group = 0 ∧
      Grows (s.gGroupCount + 1) (newGroup s loc) (findGroupsCell bi s loc) ∧
      Seeding (findGroupsCell bi s loc) (s.gGroupCount + 1) []) := by
  unfold findGroupsCell
  by_cases h0 : (s.gBoxData loc).group = NO_GROUP_SET
  · right
    rw [if_pos h0]
    simp only []
    have hs := newGroup_seeding h hl h0
    have hs' : Seeding (newGroup s loc) (s.gGroupCount + 1) [] :=
      ⟨hs.booked, hs.newest, hs.pos, fun q hq => by simp at hq⟩
    obtain ⟨a, b, _⟩ := propagateSeed_grows bi hs' hl
    obtain ⟨c, d⟩ := seedLoop_grows bi (s.gGroupCount + 1) (boxCells s.gAirBox).length _ _ a
    rw [newGroup_count]
    exact ⟨h0, b.grows_trans d, c⟩
  · left
    rw [if_neg h0]
    exact ⟨h0, rfl⟩

theorem Frame.arrayBox {s t : ExportState} (h : Frame s t) : arrayBox t = arrayBox s := by
  simp [Mineways.arrayBox, h.boxSize]

/-- The step of the scan keeps the invariant of the scan. -/
theorem scanInv_step (bi : BlockInfo) {s t : ExportState} {pre post : List IPoint} {x : IPoint}
    (hs : ScanStart s) (hl : scanCells s.gAirBox = pre ++ x :: post) (ht : ScanInv s pre t) :
    ScanInv s (pre ++ [x]) (findGroupsCell bi t x) := by
  have hx : s.gAirBox.contains x = true := mem_scanCells.1 (by rw [hl]; simp)
  have hxt : t.gAirBox.contains x = true := by rw [ht.frame.airBox]; exact hx
  obtain ⟨hsc, hfr, hkeep, hlab⟩ := findGroupsCell_scanned bi ht.scanned hxt
  rcases findGroupsCell_cases bi ht.scanned.booked hxt with ⟨h0, e⟩ | ⟨h0, hg, hsd⟩
  · rw [e]
    refine ⟨ht.scanned, ht.frame, ht.keep, ?_, ht.idle, ht.solidity, ht.first_air, ht.inside,
      ht.stats⟩
    intro q hq
    rcases List.mem_append.1 hq with hq | hq
    · exact ht.done q hq
    · simp only [List.mem_singleton] at hq
      rw [hq]
      exact h0
  · have hcount : (findGroupsCell bi t x).gGroupCount = t.gGroupCount + 1 := by
      rw [hg.count, newGroup_count]
    -- the seed is air when it starts group 1
    have hseed : t.gGroupCount = 0 → (t.gBoxData x).isSolid = false := by
      intro hc
      by_contra hsol
      have hsol' : (s.gBoxData x).isSolid = true := by
        rw [← ht.frame.isSolid]
        simpa using hsol
      have hxa : (arrayBox s).contains x = true := by
        rw [← ht.frame.arrayBox, ← ht.frame.airBox] at *
        exact ht.scanned.booked.air_in_array x hx
      have hxs := hs.solid_in_box x hxa hsol'
      have hfree := hs.top_free x hxs
      have hxs' := contains_iff.1 hxs
      have hmem : (IPoint.mk x.x s.gAirBox.max.y x.z) ∈ pre := by
        apply scan_above_before hl
        · rw [hs.air_box]
          simp only []
          omega
        · exact le_refl _
      have := ht.done _ hmem
      rw [ht.idle hc] at this
      exact this hfree
    refine ⟨hsc, ht.frame.frame_trans hfr, ?_, ?_, ?_, ?_, ?_, ?_, ?_⟩
    · intro q hq
      rw [hkeep q (by rw [ht.keep q hq]; exact hq), ht.keep q hq]
    · intro q hq
      rcases List.mem_append.1 hq with hq | hq
      · rw [hkeep q (ht.done q hq)]
        exact ht.done q hq
      · simp only [List.mem_singleton] at hq
        rw [hq]
        exact hlab
    · intro hc
      rw [hcount] at hc
      omega
    · intro p hp hp0 hple
      rw [hfr.arrayBox] at hp
      rw [hfr.isSolid]
      by_cases hpn : ((findGroupsCell bi t x).gBoxData p).group = t.gGroupCount + 1
      · rw [hpn, hg.flags, newGroup_solid]
        by_cases hpx : p = x
        · rw [hpx]
        · by_cases hch : (findGroupsCell bi t x).gBoxData p = (newGroup t x).gBoxData p
          · rw [hch, newGroup_cell_other t hpx] at hpn
            -- the cell carried the new id before: it is a sealed cell of group 1
            have hc0 : t.gGroupCount = 0 := by
              rcases ht.scanned.booked.group_le p hp with h | h <;> omega
            rw [hseed hc0]
            have hd := ht.idle hc0
            have hp1 : (s.gBoxData p).group ≠ 0 := by
              rw [← hd, hpn]
              omega
            have := (hs.pre_air p (by rw [← ht.frame.arrayBox]; exact hp) hp1).2
            rw [← ht.frame.isSolid] at this
            exact this.symm
          · have := (hg.changed p hch).2.2.1
            rw [newGroup_solid, (newGroup_frame t x).isSolid] at this
            exact this.symm
      · have hpx : p ≠ x := by
          intro e
          rw [e, hg.keep (by rw [newGroup_cell]; omega), newGroup_cell] at hpn
          exact hpn rfl
        have hsame : (findGroupsCell bi t x).gBoxData p = t.gBoxData p := by
          by_contra hch
          have hch' : (findGroupsCell bi t x).gBoxData p ≠ (newGroup t x).gBoxData p := by
            rw [newGroup_cell_other t hpx]
            exact hch
          exact hpn (hg.changed p hch').2.1
        rw [hsame] at hp0 hple hpn ⊢
        rw [hcount] at hple
        rw [hg.others _ hpn, newGroup_record_other t x hpn]
        exact ht.solidity p hp hp0 (by omega)
    · intro _
      by_cases hc0 : t.gGroupCount = 0
      · rw [hg.flags]
        have := newGroup_solid t x
        rw [hc0] at this
        rw [this, hseed hc0]
      · rw [hg.others 1 (by omega), newGroup_record_other t x (by omega)]
        exact ht.first_air (by omega)
    · intro q hq
      by_cases hqt : t.gBoxData q = s.gBoxData q
      · by_cases hqx : q = x
        · rw [hqx]
          exact hx
        · have hch : (findGroupsCell bi t x).gBoxData q ≠ (newGroup t x).gBoxData q := by
            rw [newGroup_cell_other t hqx, hqt]
            exact hq
          have := (hg.changed q hch).2.2.2
          rw [← ht.frame.airBox]
          exact this
      · exact ht.inside q hqt
    · rw [hg.stats]
      exact ht.stats
theorem sealSides_eq (s : ExportState) :
    sealSides s = (sealedCells s).foldl (addVolumeCell SURROUND_AIR_GROUP) s := by
  have hsz : ∀ (l : List IPoint) (t : ExportState),
      (l.foldl (addVolumeCell SURROUND_AIR_GROUP) t).gBoxSize = t.gBoxSize := by
    intro l
    induction l with
    | nil => intro t; rfl
    | cons a l ih => intro t; rw [List.foldl_cons, ih]; rfl
  simp only [sealSides, addVolumeToGroup, sealedCells, List.foldl_append, hsz]

theorem mem_sealedCells {s : ExportState} {p : IPoint} (hx : 2 ≤ s.gBoxSize.x)
    (hy : 1 ≤ s.gBoxSize.y) (hz : 2 ≤ s.gBoxSize.z) :
    p ∈ sealedCells s ↔ (arrayBox s).contains p = true ∧
      (p.y = 0 ∨ p.z = 0 ∨ p.z = s.gBoxSize.z - 1 ∨ p.x = 0 ∨ p.x = s.gBoxSize.x - 1) := by
  simp only [sealedCells, List.mem_append, mem_boxCells, contains_iff, arrayBox]
  constructor
  · intro h
    rcases h with h | h | h | h | h <;> refine ⟨?_, ?_⟩ <;> omega
  · rintro ⟨h, h' | h' | h' | h' | h'⟩
    · left; omega
    · by_cases hy : p.y = 0
      · left; omega
      · right; left; omega
    · by_cases hy : p.y = 0
      · left; omega
      · right; right; left; omega
    · by_cases hy : p.y = 0
      · left; omega
      · by_cases hz0 : p.z = 0
        · right; left; omega
        · by_cases hz1 : p.z = s.gBoxSize.z - 1
          · right; right; left; omega
          · right; right; right; left; omega
    · by_cases hy : p.y = 0
      · left; omega
      · by_cases hz0 : p.z = 0
        · right; left; omega
        · by_cases hz1 : p.z = s.gBoxSize.z - 1
          · right; right; left; omega
          · right; right; right; right; omega

theorem nodup_sealedCells (s : ExportState) (hz : 2 ≤ s.gBoxSize.z) (hx : 2 ≤ s.gBoxSize.x) :
    (sealedCells s).Nodup := by
  simp only [sealedCells, List.nodup_append, nodup_boxCells, List.disjoint_left, List.mem_append,
    mem_boxCells, contains_iff, true_and]
  repeat' apply And.intro
  all_goals
    intro p h1 h2
    omega

theorem addVolumeCell_frame (g : Nat) (s : ExportState) (q : IPoint) :
    Frame s (addVolumeCell g s q) := by
  refine ⟨rfl, rfl, rfl, rfl, fun p => ?_, fun p => ?_⟩ <;>
  · simp only [addVolumeCell]
    by_cases hp : p = q
    · subst hp
      simp [setCell_same]
    · simp [setCell_other _ _ hp]

/-- The sealing of side tunnels puts exactly the cells of the five faces into group 1
and counts them in the population of group 1. -/
theorem sealSides_inv {s : ExportState} (hz : 2 ≤ s.gBoxSize.z) (hx : 2 ≤ s.gBoxSize.x)
    (hy : 1 ≤ s.gBoxSize.y)
    (h0 : ∀ p, (arrayBox s).contains p = true → (s.gBoxData p).group = 0)
    (hpop : (s.gGroupList 1).population = (groupCells s 1 : Int)) :
    SealInv s (sealedCells s) (sealSides s) := by
  rw [sealSides_eq]
  refine foldl_prefix_inv (addVolumeCell SURROUND_AIR_GROUP) (SealInv s) (sealedCells s) s
    ⟨Frame.frame_refl s, rfl, rfl, rfl, fun p => by simp, fun _ _ => rfl, rfl, hpop⟩ ?_
  intro pre x post t hl ht
  have hnd := nodup_sealedCells s hz hx
  rw [hl] at hnd
  have hxpre : x ∉ pre := by
    intro hmem
    have := (List.nodup_append.1 hnd).2.2
    exact this hmem (List.mem_cons_self _ _)
  have hxa : (arrayBox s).contains x = true :=
    ((mem_sealedCells hx hy hz).1 (by rw [hl]; simp)).1
  have hx0 : (t.gBoxData x).group = 0 := by
    rw [ht.cells, if_neg hxpre]
    exact h0 x hxa
  have hset := (groupCells_set (s := t) (t := addVolumeCell SURROUND_AIR_GROUP t x) (q := x)
    (c := { t.gBoxData x with group := SURROUND_AIR_GROUP }) rfl rfl 1).2.2.1
    (by rw [ht.frame.arrayBox]; exact hxa) (by omega) rfl
  refine ⟨ht.frame.frame_trans (addVolumeCell_frame _ t x), ht.count, ht.solidGroups, ht.airGroups,
    ?_, ?_, ?_, ?_⟩
  · intro p
    by_cases hp : p = x
    · subst hp
      simp [addVolumeCell, setCell_same, SURROUND_AIR_GROUP]
    · have : (addVolumeCell SURROUND_AIR_GROUP t x).gBoxData p = t.gBoxData p := by
        simp [addVolumeCell, setCell_other _ _ hp]
      rw [this, ht.cells]
      simp [hp]
  · intro i hi
    have : (addVolumeCell SURROUND_AIR_GROUP t x).gGroupList i = t.gGroupList i := by
      simp [addVolumeCell, SURROUND_AIR_GROUP, setGroup_other _ _ hi]
    rw [this, ht.others i hi]
  · simp only [addVolumeCell, SURROUND_AIR_GROUP, setGroup_same]
    exact ht.flag
  · rw [hset]
    simp only [addVolumeCell, SURROUND_AIR_GROUP, setGroup_same]
    rw [ht.pop]
    push_cast
    rfl
theorem wellFormed_iff {s : ExportState} (h : WellFormed s) :
    (1 ≤ s.gSolidBox.min.x ∧ s.gSolidBox.min.x ≤ s.gSolidBox.max.x ∧
      s.gSolidBox.max.x ≤ s.gBoxSize.x - 2) ∧
    (1 ≤ s.gSolidBox.min.y ∧ s.gSolidBox.min.y ≤ s.gSolidBox.max.y ∧
      s.gSolidBox.max.y ≤ s.gBoxSize.y - 2) ∧
    (1 ≤ s.gSolidBox.min.z ∧ s.gSolidBox.min.z ≤ s.gSolidBox.max.z ∧
      s.gSolidBox.max.z ≤ s.gBoxSize.z - 2) ∧
    s.gAirBox = ⟨⟨s.gSolidBox.min.x - 1, s.gSolidBox.min.y - 1, s.gSolidBox.min.z - 1⟩,
      ⟨s.gSolidBox.max.x + 1, s.gSolidBox.max.y + 1, s.gSolidBox.max.z + 1⟩⟩ ∧
    (∀ p, (arrayBox s).contains p = true → (s.gBoxData p).group = 0) ∧
    (∀ p, (arrayBox s).contains p = true → (s.gBoxData p).isSolid = true →
      s.gSolidBox.contains p = true) ∧
    s.gGroupCount = 0 ∧ s.gSolidGroups = 0 ∧ s.gAirGroups = 0 := by
  obtain ⟨a, b, c, d, e, f, g⟩ := h
  exact ⟨a, b, c, d, fun p hp => e p (mem_boxCells.2 hp), fun p hp => f p (mem_boxCells.2 hp), g⟩

theorem airGroupCount_zero {s : ExportState} (h : s.gGroupCount = 0) : airGroupCount s = 0 := by
  simp [airGroupCount, groupRange, h]

theorem solidGroupCount_zero {s : ExportState} (h : s.gGroupCount = 0) : solidGroupCount s = 0 := by
  simp [solidGroupCount, groupRange, h]

/-- The scan of `findGroups` starts in a state that meets `ScanStart`. -/
theorem scanStart_spec {s : ExportState} (h : WellFormed s) :
    ScanStart (scanStart s) ∧ Frame s (scanStart s) ∧ (scanStart s).gStats = s.gStats := by
  obtain ⟨gx, gy, gz, hab, h0, hsol, hc, hsg, hag⟩ := wellFormed_iff h
  -- the state after the population of group 1 is reset
  let s1 : ExportState :=
    { s with gGroupList := (setGroup s.gGroupList SURROUND_AIR_GROUP
        { s.gGroupList SURROUND_AIR_GROUP with population := 0 }) }
  have hs1 : scanStart s = if s.gOptions.EXPT_SEAL_SIDE_TUNNELS then sealSides s1 else s1 := rfl
  have hf1 : Frame s s1 := ⟨rfl, rfl, rfl, rfl, fun _ => rfl, fun _ => rfl⟩
  have hz1 : groupCells s1 1 = 0 := groupCells_eq_zero (fun p hp => by
    have : (s1.gBoxData p).group = 0 := h0 p hp
    omega)
  have hpop1 : (s1.gGroupList 1).population = (groupCells s1 1 : Int) := by
    rw [hz1]
    simp [s1, SURROUND_AIR_GROUP, setGroup_same]
  have hair : ∀ p, s.gAirBox.contains p = true → (arrayBox s).contains p = true := by
    intro p hp
    rw [hab] at hp
    rw [contains_iff] at hp ⊢
    simp only [arrayBox] at hp ⊢
    omega
  by_cases hseal : s.gOptions.EXPT_SEAL_SIDE_TUNNELS = true
  · rw [hs1, if_pos hseal]
    have hinv := sealSides_inv (s := s1) (by show 2 ≤ s.gBoxSize.z; omega)
      (by show 2 ≤ s.gBoxSize.x; omega) (by show 1 ≤ s.gBoxSize.y; omega) h0 hpop1
    have hfr : Frame s (sealSides s1) := hf1.frame_trans hinv.frame
    have hA : arrayBox (sealSides s1) = arrayBox s := hfr.arrayBox
    have hmem := fun p => mem_sealedCells (s := s1) (p := p) (by show 2 ≤ s.gBoxSize.x; omega)
      (by show 1 ≤ s.gBoxSize.y; omega) (by show 2 ≤ s.gBoxSize.z; omega)
    have hcnt : (sealSides s1).gGroupCount = 0 := by rw [hinv.count]; exact hc
    refine ⟨⟨⟨⟨?_, ?_, ?_, ?_⟩, ?_, ?_⟩, hcnt, ?_, ?_, ?_, ?_, ?_, ?_, ?_⟩, hfr, ?_⟩
    · rw [hfr.airBox, hA]; exact hair
    · intro p hp
      rw [hinv.cells]
      split
      · right; rfl
      · left
        rw [hA] at hp
        have : (s1.gBoxData p).group = 0 := h0 p hp
        omega
    · intro g hg hle
      rw [hcnt] at hle
      have : g = 1 := by omega
      subst this
      exact hinv.pop
    · intro g hg hle
      rw [hcnt] at hle
      omega
    · rw [hinv.airGroups, airGroupCount_zero hcnt]
      simpa using hag
    · rw [hinv.solidGroups, solidGroupCount_zero hcnt]
      simpa using hsg
    · rw [hfr.solidBox, hfr.boxSize]; exact gx
    · rw [hfr.solidBox, hfr.boxSize]; exact gy
    · rw [hfr.solidBox, hfr.boxSize]; exact gz
    · rw [hfr.solidBox, hfr.airBox]; exact hab
    · intro p hp hs
      rw [hA] at hp
      rw [hfr.isSolid] at hs
      rw [hfr.solidBox]
      exact hsol p hp hs
    · intro p hp hg
      rw [hA] at hp
      rw [hinv.cells] at hg ⊢
      split at hg
      · rename_i hm
        rw [if_pos hm]
        refine ⟨rfl, ?_⟩
        rw [hfr.isSolid]
        by_contra hs
        have hsb := contains_iff.1 (hsol p hp (by simpa using hs))
        have := ((hmem p).1 hm).2
        change (p.y = 0 ∨ p.z = 0 ∨ p.z = s.gBoxSize.z - 1 ∨ p.x = 0 ∨ p.x = s.gBoxSize.x - 1) at this
        omega
      · exact absurd (h0 p hp) hg
    · intro p hp
      rw [hfr.solidBox] at hp
      rw [hfr.airBox, hab, hinv.cells]
      have hsb := contains_iff.1 hp
      have hnm : (IPoint.mk p.x (s.gSolidBox.max.y + 1) p.z) ∉ sealedCells s1 := by
        intro hm
        have := ((hmem _).1 hm).2
        change (s.gSolidBox.max.y + 1 = 0 ∨ p.z = 0 ∨ p.z = s.gBoxSize.z - 1 ∨ p.x = 0 ∨
          p.x = s.gBoxSize.x - 1) at this
        omega
      simp only []
      rw [if_neg hnm]
      apply h0
      rw [contains_iff]
      simp only [arrayBox]
      omega
    · show (sealSides s1).gStats = s1.gStats
      rw [sealSides_eq]
      exact foldl_inv (fun t : ExportState => t.gStats = s1.gStats) _ _ _ rfl
        (fun t x _ ht => ht)
  · rw [hs1, if_neg hseal]
    refine ⟨⟨⟨⟨hair, ?_, ?_, ?_⟩, ?_, ?_⟩, hc, gx, gy, gz, hab, hsol, ?_, ?_⟩, hf1, rfl⟩
    · intro p hp
      left
      have : (s1.gBoxData p).group = 0 := h0 p hp
      omega
    · intro g hg hle
      have hcs : s1.gGroupCount = 0 := hc
      rw [hcs] at hle
      have : g = 1 := by omega
      subst this
      exact hpop1
    · intro g hg hle
      have hcs : s1.gGroupCount = 0 := hc
      rw [hcs] at hle
      omega
    · rw [airGroupCount_zero (s := s1) hc]
      simpa using hag
    · rw [solidGroupCount_zero (s := s1) hc]
      simpa using hsg
    · intro p hp hg
      exact absurd (h0 p hp) hg
    · intro p hp
      show (s.gBoxData ⟨p.x, s.gAirBox.max.y, p.z⟩).group = 0
      apply h0
      have hsb : s.gSolidBox.min.x ≤ p.x ∧ p.x ≤ s.gSolidBox.max.x ∧ s.gSolidBox.min.y ≤ p.y ∧
          p.y ≤ s.gSolidBox.max.y ∧ s.gSolidBox.min.z ≤ p.z ∧ p.z ≤ s.gSolidBox.max.z :=
        contains_iff.1 hp
      rw [contains_iff, hab]
      simp only [arrayBox]
      omega
theorem findGroups_eq (bi : BlockInfo) (s : ExportState) :
    findGroups bi s =
      (let t := (scanCells (scanStart s).gAirBox).foldl (findGroupsCell bi) (scanStart s)
       if t.gOptions.EXPT_SEAL_SIDE_TUNNELS then
         { t with gGroupList := (setGroup t.gGroupList SURROUND_AIR_GROUP
             { t.gGroupList SURROUND_AIR_GROUP with
               bounds := addBoundsToBounds t.gAirBox (t.gGroupList SURROUND_AIR_GROUP).bounds }) }
       else t) := rfl

/-- The scan of `findGroups` keeps its invariant to the end. -/
theorem scan_inv (bi : BlockInfo) {s : ExportState} (hs : ScanStart s) :
    ScanInv s (scanCells s.gAirBox) ((scanCells s.gAirBox).foldl (findGroupsCell bi) s) := by
  refine foldl_prefix_inv (findGroupsCell bi) (ScanInv s) (scanCells s.gAirBox) s ?_ ?_
  · refine ⟨hs.scanned, Frame.frame_refl s, fun _ _ => rfl, fun q hq => by simp at hq, fun _ => rfl,
      ?_, ?_, fun q hq => absurd rfl hq, rfl⟩
    · intro p hp h0 hle
      rw [hs.count] at hle
      omega
    · intro h
      rw [hs.count] at h
      omega
  · intro pre x post t hl ht
    exact scanInv_step bi hs hl ht

/-- The state after the scan of `findGroups`. -/
theorem scan_grouped (bi : BlockInfo) {s : ExportState} (hs : ScanStart s) :
    Grouped s ((scanCells s.gAirBox).foldl (findGroupsCell bi) s) := by
  have hi := scan_inv bi hs
  set t := (scanCells s.gAirBox).foldl (findGroupsCell bi) s with ht
  have hlab : ∀ p, t.gAirBox.contains p = true → (t.gBoxData p).group ≠ 0 := by
    intro p hp
    rw [hi.frame.airBox] at hp
    exact hi.done p (mem_scanCells.2 hp)
  -- a cell on top of a column of the solid box shows that a group was made
  have hpos : 1 ≤ t.gGroupCount := by
    by_contra hc
    have hc0 : t.gGroupCount = 0 := by omega
    have hmin : s.gSolidBox.contains s.gSolidBox.min = true := by
      rw [contains_iff]
      have := hs.geo_x
      have := hs.geo_y
      have := hs.geo_z
      omega
    have hfree := hs.top_free _ hmin
    have hin : s.gAirBox.contains ⟨s.gSolidBox.min.x, s.gAirBox.max.y, s.gSolidBox.min.z⟩ = true := by
      rw [hs.air_box, contains_iff]
      have := hs.geo_x
      have := hs.geo_y
      have := hs.geo_z
      simp only []
      omega
    have := hlab _ (by rw [hi.frame.airBox]; exact hin)
    rw [hi.idle hc0] at this
    exact this hfree
  have hle : ∀ p, (arrayBox t).contains p = true → (t.gBoxData p).group ≤ t.gGroupCount := by
    intro p hp
    rcases hi.scanned.booked.group_le p hp with h | h <;> omega
  refine ⟨hi.frame, hi.scanned, hlab, ?_, hi.first_air hpos, hpos, hle, hi.stats, ?_⟩
  · intro p hp h0
    exact hi.solidity p hp h0 (hle p hp)
  · intro p hp hout
    have hsame : t.gBoxData p = s.gBoxData p := by
      by_contra hne
      have := hi.inside p hne
      rw [← hi.frame.airBox, hout] at this
      exact absurd this (by simp)
    rw [hsame]
    rw [hi.frame.arrayBox] at hp
    by_cases h0 : (s.gBoxData p).group = 0
    · refine ⟨by omega, ?_⟩
      by_contra hsol
      have hsb := contains_iff.1 (hs.solid_in_box p hp (by simpa using hsol))
      rw [hi.frame.airBox, hs.air_box] at hout
      have hno : ¬ ((IBox.mk ⟨s.gSolidBox.min.x - 1, s.gSolidBox.min.y - 1, s.gSolidBox.min.z - 1⟩
          ⟨s.gSolidBox.max.x + 1, s.gSolidBox.max.y + 1, s.gSolidBox.max.z + 1⟩).contains p
            = true) := by
        rw [hout]
        simp
      apply hno
      rw [contains_iff]
      simp only []
      omega
    · have := hs.pre_air p hp h0
      exact ⟨by omega, this.2⟩

/-- The state after `findGroups` on a well-formed state. -/
theorem findGroups_grouped (bi : BlockInfo) {s : ExportState} (h : WellFormed s) :
    Grouped s (findGroups bi s) := by
  obtain ⟨hs, hf, hst⟩ := scanStart_spec h
  have hg := scan_grouped bi hs
  rw [findGroups_eq]
  simp only []
  set t := (scanCells (scanStart s).gAirBox).foldl (findGroupsCell bi) (scanStart s) with ht
  have hgs : Grouped s t :=
    ⟨hf.frame_trans hg.frame, hg.scanned, hg.labelled, hg.solidity, hg.first_air, hg.count_pos,
      hg.group_le, hg.stats.trans hst, hg.outside⟩
  split
  · refine ⟨⟨hgs.frame.airBox, hgs.frame.solidBox, hgs.frame.boxSize, hgs.frame.options,
      hgs.frame.type, hgs.frame.origType⟩, ⟨⟨hgs.scanned.booked.air_in_array,
      hgs.scanned.booked.group_le, ?_, ?_⟩, ?_, ?_⟩, hgs.labelled, ?_, ?_, hgs.count_pos,
      hgs.group_le, hgs.stats, hgs.outside⟩
    · intro g hg1 hle
      have := hgs.scanned.booked.pop g hg1 hle
      by_cases hg : g = SURROUND_AIR_GROUP
      · rw [hg] at this ⊢
        simpa [setGroup_same] using this
      · simpa [setGroup_other _ _ hg] using this
    · intro g hg1 hle
      have := hgs.scanned.booked.gid g hg1 hle
      by_cases hg : g = SURROUND_AIR_GROUP
      · rw [hg] at this ⊢
        simpa [setGroup_same] using this
      · simpa [setGroup_other _ _ hg] using this
    · have := hgs.scanned.air
      rw [this]
      congr 1
      unfold airGroupCount
      apply countP_groupRange_congr
      intro i _ _
      by_cases hg : i = SURROUND_AIR_GROUP
      · rw [hg]
        simp [setGroup_same]
      · simp [setGroup_other _ _ hg]
    · have := hgs.scanned.solid
      rw [this]
      congr 1
      unfold solidGroupCount
      apply countP_groupRange_congr
      intro i _ _
      by_cases hg : i = SURROUND_AIR_GROUP
      · rw [hg]
        simp [setGroup_same]
      · simp [setGroup_other _ _ hg]
    · intro p hp h0
      have := hgs.solidity p hp h0
      by_cases hg : (t.gBoxData p).group = SURROUND_AIR_GROUP
      · rw [hg] at this
        simp only [hg, setGroup_same]
        exact this
      · simp only [setGroup_other _ _ hg]
        exact this
    · simpa [SURROUND_AIR_GROUP, setGroup_same] using hgs.first_air
  · exact hgs
theorem sum_indicator_groupRange (k n : Nat) :
    ((groupRange 1 n).map (fun g => if k = g then 1 else 0)).sum =
      if 1 ≤ k ∧ k ≤ n then 1 else 0 := by
  induction n with
  | zero =>
    have : ¬ (1 ≤ k ∧ k = 0) := by omega
    simp [groupRange, this]
  | succ n ih =>
    rw [groupRange_succ, List.map_append, List.sum_append, ih]
    simp only [List.map_cons, List.map_nil, List.sum_cons, List.sum_nil]
    by_cases h1 : 1 ≤ k ∧ k ≤ n
    · have h2 : 1 ≤ k ∧ k ≤ n + 1 := by omega
      have h3 : k ≠ n + 1 := by omega
      simp [h1, h2, h3]
    · by_cases h3 : k = n + 1
      · have h2 : 1 ≤ k ∧ k ≤ n + 1 := by omega
        simp [h1, h2, h3]
      · have h2 : ¬ (1 ≤ k ∧ k ≤ n + 1) := by omega
        simp [h1, h2, h3]

theorem sum_countP_group (d : IPoint → BoxCell) (n : Nat) (l : List IPoint)
    (hle : ∀ p ∈ l, (d p).group ≤ n) :
    ((groupRange 1 n).map (fun g => l.countP fun p => decide ((d p).group = g))).sum =
      l.countP fun p => decide ((d p).group ≠ NO_GROUP_SET) := by
  induction l with
  | nil => simp
  | cons a l ih =>
    have e : (fun g => (a :: l).countP fun p => decide ((d p).group = g)) =
        fun g => (l.countP fun p => decide ((d p).group = g)) +
          (if (d a).group = g then 1 else 0) := by
      funext g
      rw [List.countP_cons]
      simp
    rw [e, List.sum_map_add, ih (fun p hp => hle p (List.mem_cons_of_mem _ hp)),
      sum_indicator_groupRange, List.countP_cons]
    have := hle a (List.mem_cons_self _ _)
    by_cases h0 : (d a).group = 0
    · simp [h0, NO_GROUP_SET]
    · have h1 : 1 ≤ (d a).group ∧ (d a).group ≤ n := by omega
      simp [h0, h1, NO_GROUP_SET]

/-- The populations of the groups add up to the number of cells that have a group. -/
theorem Grouped.sum_population {s t : ExportState} (h : Grouped s t) :
    ((groupRange 1 t.gGroupCount).map fun g => (t.gGroupList g).population).sum =
      (labelledCells t : Int) := by
  have e : ((groupRange 1 t.gGroupCount).map fun g => (t.gGroupList g).population) =
      ((groupRange 1 t.gGroupCount).map fun g => ((groupCells t g : Nat) : Int)) := by
    apply List.map_congr_left
    intro g hg
    rw [mem_groupRange] at hg
    exact h.scanned.booked.pop g hg.1 (Or.inl hg.2)
  rw [e]
  have := sum_countP_group t.gBoxData t.gGroupCount (boxCells (arrayBox t))
    (fun p hp => h.group_le p (mem_boxCells.1 hp))
  unfold labelledCells
  rw [← this]
  unfold groupCells
  generalize groupRange 1 t.gGroupCount = r
  induction r with
  | nil => simp
  | cons a l ih => simp [ih]
theorem propagates_frame (bi : BlockInfo) {s t : ExportState} (h : Frame s t) (p : IPoint) :
    propagates bi t p ↔ propagates bi s p := by
  unfold propagates
  rw [h.options, h.isSolid, h.origType]

/-- Giving a group to a cell without one keeps every other cell closed. -/
theorem closed_of_relabel (bi : BlockInfo) {s t : ExportState} {x c : IPoint} (hf : Frame s t)
    (hx0 : (s.gBoxData x).group = 0) (hx : s.gAirBox.contains x = true)
    (hother : ∀ q, q ≠ x → t.gBoxData q = s.gBoxData q) (hcx : c ≠ x) (hc : Closed bi s c) :
    Closed bi t c := by
  intro q hadj hq hsol
  rw [hf.airBox] at hq
  rw [hf.isSolid, hf.isSolid] at hsol
  have hcl := hc q hadj hq hsol
  have hqx : q ≠ x := by
    rintro rfl
    exact hcl.1 hx0
  rw [hother q hqx, hother c hcx, propagates_frame bi hf]
  exact hcl

theorem absorb_other (s : ExportState) (g : Nat) (x : IPoint) :
    ∀ q, q ≠ x → (absorb s g x).gBoxData q = s.gBoxData q :=
  fun _ h => absorb_cell_other s g h

/-- One direction of `propagateSeed` at the cell `pt` of group `g`: the cells closed
so far stay closed, and the neighbour in this direction is dealt with. -/
theorem propagateDir_flooding (bi : BlockInfo) {pt : IPoint} {g : Nat} {s : ExportState}
    {st : List IPoint} {k : Nat} (hk : k < 6) (hsd : Seeding s g st)
    (hpt : s.gAirBox.contains pt = true) (hptg : (s.gBoxData pt).group = g)
    (hpts : (s.gBoxData pt).isSolid = (s.gGroupList g).solid) (hprop : propagates bi s pt)
    (hss : ∀ q ∈ st, (s.gBoxData q).isSolid = (s.gGroupList g).solid)
    (hcl : ∀ c, s.gAirBox.contains c = true → (s.gBoxData c).group ≠ 0 → c ∉ st → c ≠ pt →
      propagates bi s c → Closed bi s c) :
    let r := propagateDir pt g (s, st) k
    (∀ q ∈ r.2, (r.1.gBoxData q).isSolid = (r.1.gGroupList g).solid) ∧
    (∀ c, r.1.gAirBox.contains c = true → (r.1.gBoxData c).group ≠ 0 → c ∉ r.2 → c ≠ pt →
      propagates bi r.1 c → Closed bi r.1 c) ∧
    (∀ q, getNeighbor s.gAirBox k pt = some q → (s.gBoxData q).isSolid = (s.gBoxData pt).isSolid →
      (r.1.gBoxData q).group ≠ 0 ∧ (propagates bi s q → (r.1.gBoxData q).group = g)) := by
  intro r
  have hg1 := hsd.pos
  have hid : (s.gGroupList g).groupID = g := hsd.booked.gid g hsd.pos (by rw [hsd.newest])
  rcases propagateDir_cases pt g s st k with e | ⟨x, hn, h0, hs, e⟩
  · have hr : r = (s, st) := e
    rw [hr]
    refine ⟨hss, hcl, ?_⟩
    intro q hq hsol
    obtain ⟨hqin, hadj, _⟩ := getNeighbor_some hk hpt hq
    have hq0 : (s.gBoxData q).group ≠ 0 := by
      intro hq0
      -- the neighbour would have been absorbed
      have : propagateDir pt g (s, st) k = (absorb s g q, q :: st) := by
        unfold propagateDir
        simp only [hq]
        rw [if_pos ⟨hq0, by rw [hsol, hpts]⟩]
      rw [e] at this
      have := congrArg (fun r => r.2.length) this
      simp at this
    refine ⟨hq0, fun hqp => ?_⟩
    by_cases hqst : q ∈ st
    · exact (hsd.stack q hqst).2
    · have hqpt : q ≠ pt := by
        rintro rfl
        unfold faceAdjacent at hadj
        simp at hadj
      have := hcl q hqin hq0 hqst hqpt hqp pt (faceAdjacent_symm hadj) hpt hsol.symm
      rw [hptg] at this
      exact (this.2 hprop).symm
  · have hr : r = (absorb s g x, x :: st) := e
    rw [hr]
    obtain ⟨hxin, hadjx, _⟩ := getNeighbor_some hk hpt hn
    have hf := absorb_frame s g x
    have hflag : ((absorb s g x).gGroupList g).solid = (s.gGroupList g).solid :=
      (absorb_grows hid hxin h0 hs).flags g
    refine ⟨?_, ?_, ?_⟩
    · intro q hq
      show ((absorb s g x).gBoxData q).isSolid = ((absorb s g x).gGroupList g).solid
      rw [hf.isSolid, hflag]
      rcases List.mem_cons.1 hq with hq | hq
      · rw [hq]; exact hs
      · exact hss q hq
    · intro c hc hc0 hcst hcpt hcp
      have hcx : c ≠ x := fun e => hcst (by rw [e]; exact List.mem_cons_self _ _)
      have hcst' : c ∉ st := fun h => hcst (List.mem_cons_of_mem _ h)
      have hc0' : (s.gBoxData c).group ≠ 0 := by
        have : (absorb s g x).gBoxData c = s.gBoxData c := absorb_cell_other s g hcx
        rw [← this]
        exact hc0
      exact closed_of_relabel bi hf h0 hxin (absorb_other s g x) hcx
        (hcl c hc hc0' hcst' hcpt ((propagates_frame bi hf c).1 hcp))
    · intro q hq _
      rw [hn] at hq
      simp only [Option.some.injEq] at hq
      subst hq
      show ((absorb s g x).gBoxData x).group ≠ 0 ∧ _
      rw [absorb_cell_new, hid]
      exact ⟨by omega, fun _ => rfl⟩
/-- The call of `propagateSeed` at the cell on top of the stack keeps the invariant of
the flood fill. -/
theorem propagateSeed_flooding (bi : BlockInfo) {pt : IPoint} {g : Nat} {s : ExportState}
    {st : List IPoint} (h : Flooding bi s g (pt :: st)) :
    Flooding bi (propagateSeed bi s pt g st).1 g (propagateSeed bi s pt g st).2 := by
  have hpt := (h.seeding.stack pt (List.mem_cons_self _ _)).1
  have hptg := (h.seeding.stack pt (List.mem_cons_self _ _)).2
  have hpts := h.stack_solid pt (List.mem_cons_self _ _)
  have hsd : Seeding s g st :=
    ⟨h.seeding.booked, h.seeding.newest, h.seeding.pos,
      fun q hq => h.seeding.stack q (List.mem_cons_of_mem _ hq)⟩
  have hss : ∀ q ∈ st, (s.gBoxData q).isSolid = (s.gGroupList g).solid :=
    fun q hq => h.stack_solid q (List.mem_cons_of_mem _ hq)
  have hcl : ∀ c, s.gAirBox.contains c = true → (s.gBoxData c).group ≠ 0 → c ∉ st → c ≠ pt →
      propagates bi s c → Closed bi s c := by
    intro c hc hc0 hcst hcpt hcp
    refine h.closed c hc hc0 ?_ hcp
    intro hmem
    rcases List.mem_cons.1 hmem with e | e
    · exact hcpt e
    · exact hcst e
  by_cases hprop : propagates bi s pt
  · have hcond : ¬ (s.gOptions.EXPT_SEAL_ENTRANCES = true ∧ (s.gGroupList g).solid = false ∧
        bi.BLF_ENTRANCE (s.gBoxData pt).origType = true) := by
      rw [← hpts]
      exact hprop
    unfold propagateSeed
    rw [if_neg hcond]
    have key := foldl_range_inv
      (fun k (r : ExportState × List IPoint) =>
        Seeding r.1 g r.2 ∧ Grows g s r.1 ∧
        (∀ q ∈ r.2, (r.1.gBoxData q).isSolid = (r.1.gGroupList g).solid) ∧
        (∀ c, r.1.gAirBox.contains c = true → (r.1.gBoxData c).group ≠ 0 → c ∉ r.2 → c ≠ pt →
          propagates bi r.1 c → Closed bi r.1 c) ∧
        (∀ d, d < k → ∀ q, getNeighbor s.gAirBox d pt = some q →
          (s.gBoxData q).isSolid = (s.gBoxData pt).isSolid →
          (r.1.gBoxData q).group ≠ 0 ∧ (propagates bi s q → (r.1.gBoxData q).group = g)))
      (propagateDir pt g) 6 (s, st)
      ⟨hsd, Grows.grows_refl g s, hss, hcl, fun d hd => absurd hd (Nat.not_lt_zero d)⟩ ?_
    · obtain ⟨k1, k2, k3, k4, k5⟩ := key
      refine ⟨k1, ?_, k3⟩
      intro c hc hc0 hcst hcp
      by_cases hcpt : c = pt
      · subst hcpt
        intro q hadj hq hsol
        rw [k2.frame.airBox] at hq
        rw [k2.frame.isSolid, k2.frame.isSolid] at hsol
        obtain ⟨d, hd, hn⟩ := getNeighbor_of_adjacent (b := s.gAirBox) hq hadj
        have := k5 d hd q hn hsol
        have hkc := k2.keep (q := c) (by rw [hptg]; have := h.seeding.pos; omega)
        rw [hkc, hptg, propagates_frame bi k2.frame]
        exact this
      · exact k4 c hc hc0 hcst hcpt hcp
    · rintro k ⟨s', st'⟩ hk ⟨a1, a2, a3, a4, a5⟩
      have hpt' : s'.gAirBox.contains pt = true := by rw [a2.frame.airBox]; exact hpt
      have hg0 : (s.gBoxData pt).group ≠ 0 := by rw [hptg]; have := h.seeding.pos; omega
      have hptg' : (s'.gBoxData pt).group = g := by rw [a2.keep hg0]; exact hptg
      have hpts' : (s'.gBoxData pt).isSolid = (s'.gGroupList g).solid := by
        rw [a2.frame.isSolid, a2.flags]; exact hpts
      obtain ⟨b1, b2, _⟩ := propagateDir_grows (d := k) hk a1 hpt'
      obtain ⟨c1, c2, c3⟩ := propagateDir_flooding bi hk a1 hpt' hptg' hpts'
        ((propagates_frame bi a2.frame pt).2 hprop) a3 a4
      refine ⟨b1, a2.grows_trans b2, c1, c2, ?_⟩
      intro d hd q hn hsol
      by_cases hdk : d = k
      · subst hdk
        have := c3 q (by rw [a2.frame.airBox]; exact hn)
          (by rw [a2.frame.isSolid, a2.frame.isSolid]; exact hsol)
        rw [propagates_frame bi a2.frame] at this
        exact this
      · have hprev := a5 d (by omega) q hn hsol
        rw [b2.keep hprev.1]
        exact hprev
  · have hcond : s.gOptions.EXPT_SEAL_ENTRANCES = true ∧ (s.gGroupList g).solid = false ∧
        bi.BLF_ENTRANCE (s.gBoxData pt).origType = true := by
      rw [← hpts]
      unfold propagates at hprop
      exact not_not.1 hprop
    unfold propagateSeed
    rw [if_pos hcond]
    refine ⟨hsd, ?_, hss⟩
    intro c hc hc0 hcst hcp
    by_cases hcpt : c = pt
    · rw [hcpt] at hcp
      exact absurd hcp hprop
    · exact hcl c hc hc0 hcst hcpt hcp

/-- With enough iterations the seed loop ends with an empty stack and every cell
that has a group and hands it on is closed. -/
theorem seedLoop_flooding (bi : BlockInfo) (g : Nat) (fuel : Nat) :
    ∀ (s : ExportState) (st : List IPoint), Flooding bi s g st →
      unlabelled s + st.length ≤ fuel → Flooding bi (seedLoop bi g fuel s st) g [] := by
  induction fuel with
  | zero =>
    intro s st h hm
    have : st = [] := List.length_eq_zero.1 (by omega)
    subst this
    exact h
  | succ n ih =>
    intro s st h hm
    cases st with
    | nil => exact h
    | cons p st =>
      simp only [seedLoop]
      have hp := (h.seeding.stack p (List.mem_cons_self _ _)).1
      have hsd : Seeding s g st :=
        ⟨h.seeding.booked, h.seeding.newest, h.seeding.pos,
          fun q hq => h.seeding.stack q (List.mem_cons_of_mem _ hq)⟩
      obtain ⟨_, _, hmeas⟩ := propagateSeed_grows bi hsd hp
      apply ih _ _ (propagateSeed_flooding bi h)
      simp only [List.length_cons] at hm
      omega
theorem newGroup_unlabelled {s : ExportState} {loc : IPoint} (hl : s.gAirBox.contains loc = true)
    (h0 : (s.gBoxData loc).group = 0) : unlabelled (newGroup s loc) + 1 = unlabelled s :=
  countP_setCell_sub _ (nodup_boxCells _) _ _ _ (fun c : BoxCell => decide (c.group = NO_GROUP_SET))
    (mem_boxCells.2 hl) (by simp [h0, NO_GROUP_SET]) (by simp [NO_GROUP_SET])

theorem unlabelled_le (s : ExportState) : unlabelled s ≤ (boxCells s.gAirBox).length :=
  List.countP_le_length _

/-- One step of the scan of `findGroups` keeps every cell that has a group and hands
it on closed. -/
theorem findGroupsCell_closed (bi : BlockInfo) {t : ExportState} {x : IPoint} (hb : Booked t)
    (hx : t.gAirBox.contains x = true) (hcl : AllClosed bi t) :
    AllClosed bi (findGroupsCell bi t x) := by
  unfold findGroupsCell
  by_cases h0 : (t.gBoxData x).group = NO_GROUP_SET
  · rw [if_pos h0]
    simp only []
    rw [newGroup_count]
    have hfl : Flooding bi (newGroup t x) (t.gGroupCount + 1) [x] := by
      refine ⟨newGroup_seeding hb hx h0, ?_, ?_⟩
      · intro c hc hc0 hcst hcp
        have hcx : c ≠ x := by simpa using hcst
        rw [newGroup_cell_other t hcx] at hc0
        exact closed_of_relabel bi (newGroup_frame t x) h0 hx
          (fun q hq => newGroup_cell_other t hq) hcx
          (hcl c hc hc0 ((propagates_frame bi (newGroup_frame t x) c).1 hcp))
      · intro q hq
        simp only [List.mem_singleton] at hq
        subst hq
        rw [newGroup_solid, (newGroup_frame t q).isSolid]
    have h1 := propagateSeed_flooding bi hfl
    have hsd : Seeding (newGroup t x) (t.gGroupCount + 1) [] :=
      ⟨hfl.seeding.booked, hfl.seeding.newest, hfl.seeding.pos, fun q hq => by simp at hq⟩
    obtain ⟨_, _, hmeas⟩ := propagateSeed_grows bi hsd hx
    have hu := newGroup_unlabelled hx h0
    have hle := unlabelled_le t
    have h2 := seedLoop_flooding bi (t.gGroupCount + 1) (boxCells t.gAirBox).length _ _ h1
      (by simp only [List.length_nil] at hmeas; omega)
    intro c hc hc0 hcp
    exact h2.closed c hc hc0 (by simp) hcp
  · rw [if_neg h0]
    exact hcl

/-- Without the sealing of side tunnels, after the scan of `findGroups` every cell of
the air box that hands its group on is closed. -/
theorem scan_closed (bi : BlockInfo) {s : ExportState} (hs : ScanStart s)
    (h0 : ∀ p, s.gAirBox.contains p = true → (s.gBoxData p).group = 0) :
    AllClosed bi ((scanCells s.gAirBox).foldl (findGroupsCell bi) s) := by
  have key := foldl_inv
    (fun t : ExportState => Scanned t ∧ t.gAirBox = s.gAirBox ∧ AllClosed bi t)
    (findGroupsCell bi) (scanCells s.gAirBox) s
    ⟨hs.scanned, rfl, fun c hc hc0 _ => absurd (h0 c hc) hc0⟩ ?_
  · exact key.2.2
  · rintro t x hx ⟨a, b, c⟩
    have hxt : t.gAirBox.contains x = true := by rw [b]; exact mem_scanCells.1 hx
    obtain ⟨a', f', _, _⟩ := findGroupsCell_scanned bi a hxt
    exact ⟨a', f'.airBox.trans b, findGroupsCell_closed bi a.booked hxt c⟩

/-- Without the sealing of side tunnels, after `findGroups` on a well-formed state
every cell of the air box that hands its group on is closed. -/
theorem findGroups_closed (bi : BlockInfo) {s : ExportState} (h : WellFormed s)
    (hseal : s.gOptions.EXPT_SEAL_SIDE_TUNNELS = false) : AllClosed bi (findGroups bi s) := by
  obtain ⟨hs, hf, _⟩ := scanStart_spec h
  have hstart : scanStart s = { s with gGroupList := (setGroup s.gGroupList SURROUND_AIR_GROUP
      { s.gGroupList SURROUND_AIR_GROUP with population := 0 }) } := by
    unfold scanStart
    simp [hseal]
  have h0 : ∀ p, (scanStart s).gAirBox.contains p = true → ((scanStart s).gBoxData p).group = 0 := by
    intro p hp
    have hpa := hs.scanned.booked.air_in_array p hp
    rw [hf.arrayBox] at hpa
    rw [hstart]
    exact (wellFormed_iff h).2.2.2.2.1 p hpa
  have hc := scan_closed bi hs h0
  rw [findGroups_eq]
  simp only []
  have hopt : ((scanCells (scanStart s).gAirBox).foldl (findGroupsCell bi)
      (scanStart s)).gOptions.EXPT_SEAL_SIDE_TUNNELS = false := by
    rw [(scan_grouped bi hs).frame.options, hf.options]
    exact hseal
  rw [hopt]
  exact hc
theorem groupStep_mono {s t : ExportState} {g : Nat} (hg : g ≠ 0) (hbox : t.gAirBox = s.gAirBox)
    (hkeep : ∀ q, (s.gBoxData q).group ≠ 0 → t.gBoxData q = s.gBoxData q) {p q : IPoint}
    (h : groupStep s g p q) : groupStep t g p q := by
  obtain ⟨a, b, c, d, e⟩ := h
  refine ⟨a, by rw [hbox]; exact b, by rw [hbox]; exact c, ?_, ?_⟩
  · rw [hkeep p (by rw [d]; exact hg)]; exact d
  · rw [hkeep q (by rw [e]; exact hg)]; exact e

theorem path_mono {s t : ExportState} {g : Nat} (hg : g ≠ 0) (hbox : t.gAirBox = s.gAirBox)
    (hkeep : ∀ q, (s.gBoxData q).group ≠ 0 → t.gBoxData q = s.gBoxData q) {p q : IPoint}
    (h : Relation.ReflTransGen (groupStep s g) p q) : Relation.ReflTransGen (groupStep t g) p q :=
  Relation.ReflTransGen.mono (fun _ _ hs => groupStep_mono hg hbox hkeep hs) h

/-- One direction of `propagateSeed` keeps the group joined to its seed. -/
theorem propagateDir_rooted {pt x : IPoint} {g : Nat} {s : ExportState} {st : List IPoint}
    {k : Nat} (hk : k < 6) (hsd : Seeding s g st) (hpt : s.gAirBox.contains pt = true)
    (hptg : (s.gBoxData pt).group = g) (hr : Rooted s g x) :
    Rooted (propagateDir pt g (s, st) k).1 g x := by
  have hg0 : g ≠ 0 := by have := hsd.pos; omega
  have hid : (s.gGroupList g).groupID = g := hsd.booked.gid g hsd.pos (by rw [hsd.newest])
  rcases propagateDir_cases pt g s st k with e | ⟨q, hn, h0, hs, e⟩
  · rw [e]; exact hr
  · rw [e]
    obtain ⟨hqin, hadj, _⟩ := getNeighbor_some hk hpt hn
    have hgr := absorb_grows hid hqin h0 hs
    have hkeep : ∀ c, (s.gBoxData c).group ≠ 0 → (absorb s g q).gBoxData c = s.gBoxData c :=
      fun c hc => hgr.keep hc
    intro p hp hpg
    show Relation.ReflTransGen (groupStep (absorb s g q) g) x p
    by_cases hpq : p = q
    · subst hpq
      have hpath := path_mono hg0 hgr.frame.airBox hkeep (hr pt hpt hptg)
      refine hpath.tail ⟨hadj, hpt, hqin, ?_, hpg⟩
      rw [hkeep pt (by rw [hptg]; exact hg0)]
      exact hptg
    · have hpg' : (s.gBoxData p).group = g := by
        have : (absorb s g q).gBoxData p = s.gBoxData p := absorb_cell_other s g hpq
        rw [← this]
        exact hpg
      exact path_mono hg0 hgr.frame.airBox hkeep (hr p hp hpg')

theorem propagateSeed_rooted (bi : BlockInfo) {pt x : IPoint} {g : Nat} {s : ExportState}
    {st : List IPoint} (hsd : Seeding s g st) (hpt : s.gAirBox.contains pt = true)
    (hptg : (s.gBoxData pt).group = g) (hr : Rooted s g x) :
    Rooted (propagateSeed bi s pt g st).1 g x := by
  unfold propagateSeed
  split
  · exact hr
  · have key := foldl_range_inv
      (fun _ (r : ExportState × List IPoint) => Seeding r.1 g r.2 ∧ Grows g s r.1 ∧ Rooted r.1 g x)
      (propagateDir pt g) 6 (s, st) ⟨hsd, Grows.grows_refl g s, hr⟩ ?_
    · exact key.2.2
    · rintro k ⟨s', st'⟩ hk ⟨a1, a2, a3⟩
      have hpt' : s'.gAirBox.contains pt = true := by rw [a2.frame.airBox]; exact hpt
      have hg0 : (s.gBoxData pt).group ≠ 0 := by rw [hptg]; have := hsd.pos; omega
      have hptg' : (s'.gBoxData pt).group = g := by rw [a2.keep hg0]; exact hptg
      obtain ⟨b1, b2, _⟩ := propagateDir_grows (d := k) hk a1 hpt'
      exact ⟨b1, a2.grows_trans b2, propagateDir_rooted hk a1 hpt' hptg' a3⟩

theorem seedLoop_rooted (bi : BlockInfo) (g : Nat) (x : IPoint) (fuel : Nat) :
    ∀ (s : ExportState) (st : List IPoint), Seeding s g st → Rooted s g x →
      Rooted (seedLoop bi g fuel s st) g x := by
  induction fuel with
  | zero => intro s st _ hr; exact hr
  | succ n ih =>
    intro s st h hr
    cases st with
    | nil => exact hr
    | cons p st =>
      simp only [seedLoop]
      have hp := h.stack p (List.mem_cons_self _ _)
      have hsd : Seeding s g st :=
        ⟨h.booked, h.newest, h.pos, fun q hq => h.stack q (List.mem_cons_of_mem _ hq)⟩
      obtain ⟨a, _, _⟩ := propagateSeed_grows bi hsd hp.1
      exact ih _ _ a (propagateSeed_rooted bi hsd hp.1 hp.2 hr)

/-- One step of the scan of `findGroups` keeps every group joined up. -/
theorem findGroupsCell_rooted (bi : BlockInfo) {t : ExportState} {x : IPoint} (hb : Booked t)
    (hx : t.gAirBox.contains x = true) (hr : AllRooted t) :
    AllRooted (findGroupsCell bi t x) := by
  rcases findGroupsCell_cases bi hb hx with ⟨_, e⟩ | ⟨h0, hg, hsd⟩
  · rw [e]; exact hr
  · have hcount : (findGroupsCell bi t x).gGroupCount = t.gGroupCount + 1 := by
      rw [hg.count, newGroup_count]
    have hbox : (findGroupsCell bi t x).gAirBox = t.gAirBox := by
      rw [hg.frame.airBox]; rfl
    have hkeep : ∀ q, (t.gBoxData q).group ≠ 0 →
        (findGroupsCell bi t x).gBoxData q = t.gBoxData q := by
      intro q hq
      have hqx : q ≠ x := by
        rintro rfl
        exact hq h0
      rw [hg.keep (by rw [newGroup_cell_other t hqx]; exact hq), newGroup_cell_other t hqx]
    have hcell : ∀ q, (findGroupsCell bi t x).gBoxData q = t.gBoxData q ∨
        ((findGroupsCell bi t x).gBoxData q).group = t.gGroupCount + 1 := by
      intro q
      by_cases hqx : q = x
      · right
        rw [hqx, hg.keep (by rw [newGroup_cell]; omega), newGroup_cell]
      · by_cases hch : (findGroupsCell bi t x).gBoxData q = (newGroup t x).gBoxData q
        · left
          rw [hch, newGroup_cell_other t hqx]
        · right
          exact (hg.changed q hch).2.1
    refine ⟨?_, ?_⟩
    · intro g hg1 hgle
      rw [hcount] at hgle
      by_cases hgn : g = t.gGroupCount + 1
      · subst hgn
        refine ⟨x, ?_⟩
        -- the new group: unfold the step to the seed loop
        have hs1 := newGroup_seeding hb hx h0
        have hs0 : Seeding (newGroup t x) (t.gGroupCount + 1) [] :=
          ⟨hs1.booked, hs1.newest, hs1.pos, fun q hq => by simp at hq⟩
        have hroot : Rooted (newGroup t x) (t.gGroupCount + 1) x := by
          intro p hp hpg
          by_cases hpx : p = x
          · rw [hpx]
          · rw [newGroup_cell_other t hpx] at hpg
            have := hr.tight p hp
            omega
        have h1 := propagateSeed_rooted bi hs0 hx (newGroup_cell t x) hroot
        obtain ⟨a, _, _⟩ := propagateSeed_grows bi hs0 hx
        have h2 := seedLoop_rooted bi (t.gGroupCount + 1) x (boxCells t.gAirBox).length _ _ a h1
        have e : findGroupsCell bi t x = seedLoop bi (t.gGroupCount + 1) (boxCells t.gAirBox).length
            (propagateSeed bi (newGroup t x) x (t.gGroupCount + 1) []).1
            (propagateSeed bi (newGroup t x) x (t.gGroupCount + 1) []).2 := by
          unfold findGroupsCell
          have h0' : (t.gBoxData x).group = NO_GROUP_SET := h0
          rw [if_pos h0']
          rfl
        rw [e]
        exact h2
      · obtain ⟨r, hroot⟩ := hr.rooted g hg1 (by omega)
        refine ⟨r, ?_⟩
        intro p hp hpg
        rw [hbox] at hp
        have hpg' : (t.gBoxData p).group = g := by
          rcases hcell p with h | h
          · rw [← h]; exact hpg
          · omega
        exact path_mono (by omega) hbox hkeep (hroot p hp hpg')
    · intro p hp
      rw [hbox] at hp
      rw [hcount]
      rcases hcell p with h | h
      · rw [h]
        have := hr.tight p hp
        omega
      · omega

/-- Without the sealing of side tunnels, after `findGroups` on a well-formed state
every group is joined up around one of its cells. -/
theorem findGroups_rooted (bi : BlockInfo) {s : ExportState} (h : WellFormed s)
    (hseal : s.gOptions.EXPT_SEAL_SIDE_TUNNELS = false) : AllRooted (findGroups bi s) := by
  obtain ⟨hs, hf, _⟩ := scanStart_spec h
  have hstart : scanStart s = { s with gGroupList := (setGroup s.gGroupList SURROUND_AIR_GROUP
      { s.gGroupList SURROUND_AIR_GROUP with population := 0 }) } := by
    unfold scanStart
    simp [hseal]
  have h0 : ∀ p, (scanStart s).gAirBox.contains p = true → ((scanStart s).gBoxData p).group = 0 := by
    intro p hp
    have hpa := hs.scanned.booked.air_in_array p hp
    rw [hf.arrayBox] at hpa
    rw [hstart]
    exact (wellFormed_iff h).2.2.2.2.1 p hpa
  have key := foldl_inv
    (fun t : ExportState => Scanned t ∧ t.gAirBox = (scanStart s).gAirBox ∧ AllRooted t)
    (findGroupsCell bi) (scanCells (scanStart s).gAirBox) (scanStart s)
    ⟨hs.scanned, rfl, ⟨fun g h1 h2 => by rw [hs.count] at h2; omega,
      fun p hp => by rw [h0 p hp]; exact Nat.zero_le _⟩⟩ ?_
  · rw [findGroups_eq]
    simp only []
    have hopt : ((scanCells (scanStart s).gAirBox).foldl (findGroupsCell bi)
        (scanStart s)).gOptions.EXPT_SEAL_SIDE_TUNNELS = false := by
      rw [(scan_grouped bi hs).frame.options, hf.options]
      exact hseal
    rw [hopt]
    exact key.2.2
  · rintro t x hx ⟨a, b, c⟩
    have hxt : t.gAirBox.contains x = true := by rw [b]; exact mem_scanCells.1 hx
    obtain ⟨a', f', _, _⟩ := findGroupsCell_scanned bi a hxt
    exact ⟨a', f'.airBox.trans b, findGroupsCell_rooted bi a.booked hxt c⟩
theorem groupStep_symm {t : ExportState} {g : Nat} : Symmetric (groupStep t g) := by
  intro p q h
  exact ⟨faceAdjacent_symm h.1, h.2.2.1, h.2.1, h.2.2.2.2, h.2.2.2.1⟩

theorem intRange_cons {lo hi : Int} (h : lo ≤ hi) : intRange lo hi = lo :: intRange (lo + 1) hi := by
  unfold intRange
  have e : (hi + 1 - lo).toNat = (hi + 1 - (lo + 1)).toNat + 1 := by omega
  rw [e, List.range_succ_eq_map, List.map_cons, List.map_map]
  congr 1
  · simp
  · apply List.map_congr_left
    intro i _
    simp only [Function.comp, Nat.succ_eq_add_one]
    push_cast
    ring

theorem intRange_reverse_head {lo hi : Int} (h : lo ≤ hi) :
    ∃ l, (intRange lo hi).reverse = hi :: l := by
  unfold intRange
  have e : (hi + 1 - lo).toNat = (hi - lo).toNat + 1 := by omega
  rw [e, List.range_succ, List.map_append, List.reverse_append]
  refine ⟨(List.map (fun (i : Nat) => lo + (i : Int)) (List.range (hi - lo).toNat)).reverse, ?_⟩
  simp only [List.map_cons, List.map_nil, List.reverse_cons, List.reverse_nil, List.nil_append,
    List.singleton_append]
  congr 1
  omega

/-- The scan of `findGroups` starts at the corner of the air box with the least x,
the greatest y and the least z. -/
theorem scanCells_head {b : IBox} (hx : b.min.x ≤ b.max.x) (hy : b.min.y ≤ b.max.y)
    (hz : b.min.z ≤ b.max.z) : ∃ l, scanCells b = ⟨b.min.x, b.max.y, b.min.z⟩ :: l := by
  obtain ⟨ly, hly⟩ := intRange_reverse_head hy
  unfold scanCells
  rw [intRange_cons hx, List.flatMap_cons, intRange_cons hz, List.flatMap_cons, hly, List.map_cons]
  simp only [List.cons_append]
  exact ⟨_, rfl⟩

/-- A property that is handed on between neighbours along a line of integers holds
all along the line. -/
theorem int_line (f : Int → Prop) (lo hi : Int)
    (hstep : ∀ x, lo ≤ x → x < hi → (f x ↔ f (x + 1))) :
    ∀ a b, lo ≤ a → a ≤ hi → lo ≤ b → b ≤ hi → f a → f b := by
  have key : ∀ n : Nat, lo + n ≤ hi → (f (lo + n) ↔ f lo) := by
    intro n
    induction n with
    | zero => intro _; simp
    | succ n ih =>
      intro hn
      have h1 := hstep (lo + n) (by omega) (by push_cast at hn; omega)
      have h2 := ih (by push_cast at hn; omega)
      have e : lo + ((n + 1 : Nat) : Int) = lo + n + 1 := by push_cast; ring
      rw [e, ← h1, h2]
  intro a b ha1 ha2 hb1 hb2 hfa
  have ea : a = lo + ((a - lo).toNat : Int) := by omega
  have eb : b = lo + ((b - lo).toNat : Int) := by omega
  rw [eb, key _ (by omega)]
  rw [ea, key _ (by omega)] at hfa
  exact hfa
theorem inFringe_iff {s : ExportState}
    (hab : s.gAirBox = ⟨⟨s.gSolidBox.min.x - 1, s.gSolidBox.min.y - 1, s.gSolidBox.min.z - 1⟩,
      ⟨s.gSolidBox.max.x + 1, s.gSolidBox.max.y + 1, s.gSolidBox.max.z + 1⟩⟩) (p : IPoint) :
    inFringe s p ↔
      (s.gSolidBox.min.x - 1 ≤ p.x ∧ p.x ≤ s.gSolidBox.max.x + 1 ∧
       s.gSolidBox.min.y - 1 ≤ p.y ∧ p.y ≤ s.gSolidBox.max.y + 1 ∧
       s.gSolidBox.min.z - 1 ≤ p.z ∧ p.z ≤ s.gSolidBox.max.z + 1) ∧
      (p.x = s.gSolidBox.min.x - 1 ∨ p.x = s.gSolidBox.max.x + 1 ∨
       p.y = s.gSolidBox.min.y - 1 ∨ p.y = s.gSolidBox.max.y + 1 ∨
       p.z = s.gSolidBox.min.z - 1 ∨ p.z = s.gSolidBox.max.z + 1) := by
  unfold inFringe
  rw [hab, contains_iff, Bool.eq_false_iff, Ne, contains_iff]
  simp only []
  omega

/-- The fringe of the air box is connected: a property that neighbouring cells of the
fringe share and that holds at one corner holds on the whole fringe. -/
theorem fringe_induction {s : ExportState} (Q : IPoint → Prop)
    (hab : s.gAirBox = ⟨⟨s.gSolidBox.min.x - 1, s.gSolidBox.min.y - 1, s.gSolidBox.min.z - 1⟩,
      ⟨s.gSolidBox.max.x + 1, s.gSolidBox.max.y + 1, s.gSolidBox.max.z + 1⟩⟩)
    (gx : s.gSolidBox.min.x ≤ s.gSolidBox.max.x) (gy : s.gSolidBox.min.y ≤ s.gSolidBox.max.y)
    (gz : s.gSolidBox.min.z ≤ s.gSolidBox.max.z)
    (hstep : ∀ p q, inFringe s p → inFringe s q → faceAdjacent p q → (Q p ↔ Q q))
    (h0 : Q ⟨s.gAirBox.min.x, s.gAirBox.max.y, s.gAirBox.min.z⟩) :
    ∀ p, inFringe s p → Q p := by
  have hfr := inFringe_iff hab
  have lineX : ∀ y z, s.gSolidBox.min.y - 1 ≤ y → y ≤ s.gSolidBox.max.y + 1 →
      s.gSolidBox.min.z - 1 ≤ z → z ≤ s.gSolidBox.max.z + 1 →
      (y = s.gSolidBox.min.y - 1 ∨ y = s.gSolidBox.max.y + 1 ∨
        z = s.gSolidBox.min.z - 1 ∨ z = s.gSolidBox.max.z + 1) →
      ∀ a b, s.gSolidBox.min.x - 1 ≤ a → a ≤ s.gSolidBox.max.x + 1 →
        s.gSolidBox.min.x - 1 ≤ b → b ≤ s.gSolidBox.max.x + 1 →
        Q ⟨a, y, z⟩ → Q ⟨b, y, z⟩ := by
    intro y z hy1 hy2 hz1 hz2 hext
    apply int_line (fun x => Q ⟨x, y, z⟩)
    intro x hx1 hx2
    apply hstep
    · rw [hfr]; simp only []; omega
    · rw [hfr]; simp only []; omega
    · unfold faceAdjacent; simp only []; omega
  have lineY : ∀ x z, s.gSolidBox.min.x - 1 ≤ x → x ≤ s.gSolidBox.max.x + 1 →
      s.gSolidBox.min.z - 1 ≤ z → z ≤ s.gSolidBox.max.z + 1 →
      (x = s.gSolidBox.min.x - 1 ∨ x = s.gSolidBox.max.x + 1 ∨
        z = s.gSolidBox.min.z - 1 ∨ z = s.gSolidBox.max.z + 1) →
      ∀ a b, s.gSolidBox.min.y - 1 ≤ a → a ≤ s.gSolidBox.max.y + 1 →
        s.gSolidBox.min.y - 1 ≤ b → b ≤ s.gSolidBox.max.y + 1 →
        Q ⟨x, a, z⟩ → Q ⟨x, b, z⟩ := by
    intro x z hx1 hx2 hz1 hz2 hext
    apply int_line (fun y => Q ⟨x, y, z⟩)
    intro y hy1 hy2
    apply hstep
    · rw [hfr]; simp only []; omega
    · rw [hfr]; simp only []; omega
    · unfold faceAdjacent; simp only []; omega
  have lineZ : ∀ x y, s.gSolidBox.min.x - 1 ≤ x → x ≤ s.gSolidBox.max.x + 1 →
      s.gSolidBox.min.y - 1 ≤ y → y ≤ s.gSolidBox.max.y + 1 →
      (x = s.gSolidBox.min.x - 1 ∨ x = s.gSolidBox.max.x + 1 ∨
        y = s.gSolidBox.min.y - 1 ∨ y = s.gSolidBox.max.y + 1) →
      ∀ a b, s.gSolidBox.min.z - 1 ≤ a → a ≤ s.gSolidBox.max.z + 1 →
        s.gSolidBox.min.z - 1 ≤ b → b ≤ s.gSolidBox.max.z + 1 →
        Q ⟨x, y, a⟩ → Q ⟨x, y, b⟩ := by
    intro x y hx1 hx2 hy1 hy2 hext
    apply int_line (fun z => Q ⟨x, y, z⟩)
    intro z hz1 hz2
    apply hstep
    · rw [hfr]; simp only []; omega
    · rw [hfr]; simp only []; omega
    · unfold faceAdjacent; simp only []; omega
  rw [hab] at h0
  simp only [] at h0
  -- the face with the least x
  have hface : ∀ y z, s.gSolidBox.min.y - 1 ≤ y → y ≤ s.gSolidBox.max.y + 1 →
      s.gSolidBox.min.z - 1 ≤ z → z ≤ s.gSolidBox.max.z + 1 →
      Q ⟨s.gSolidBox.min.x - 1, y, z⟩ := by
    intro y z hy1 hy2 hz1 hz2
    have h1 := lineY (s.gSolidBox.min.x - 1) (s.gSolidBox.min.z - 1) (by omega) (by omega)
      (by omega) (by omega) (Or.inl rfl) (s.gSolidBox.max.y + 1) y (by omega) (by omega) hy1 hy2 h0
    exact lineZ (s.gSolidBox.min.x - 1) y (by omega) (by omega) hy1 hy2 (Or.inl rfl)
      (s.gSolidBox.min.z - 1) z (by omega) (by omega) hz1 hz2 h1
  intro p hp
  obtain ⟨⟨hx1, hx2, hy1, hy2, hz1, hz2⟩, hext⟩ := (hfr p).1 hp
  obtain ⟨px, py, pz⟩ := p
  simp only [] at hx1 hx2 hy1 hy2 hz1 hz2 hext
  by_cases hyz : py = s.gSolidBox.min.y - 1 ∨ py = s.gSolidBox.max.y + 1 ∨
      pz = s.gSolidBox.min.z - 1 ∨ pz = s.gSolidBox.max.z + 1
  · exact lineX py pz hy1 hy2 hz1 hz2 hyz (s.gSolidBox.min.x - 1) px (by omega) (by omega)
      hx1 hx2 (hface py pz hy1 hy2 hz1 hz2)
  · have hx : px = s.gSolidBox.min.x - 1 ∨ px = s.gSolidBox.max.x + 1 := by omega
    rcases hx with hx | hx
    · rw [hx]
      exact hface py pz hy1 hy2 hz1 hz2
    · have h1 := lineX (s.gSolidBox.max.y + 1) pz (by omega) (by omega) hz1 hz2
        (Or.inr (Or.inl rfl)) (s.gSolidBox.min.x - 1) px (by omega) (by omega) hx1 hx2
        (hface _ pz (by omega) (by omega) hz1 hz2)
      exact lineY px pz hx1 hx2 hz1 hz2 (Or.inr (Or.inl hx)) (s.gSolidBox.max.y + 1) py
        (by omega) (by omega) hy1 hy2 h1
/-- Without the sealing of side tunnels the first cell of the scan gets group 1. -/
theorem findGroups_corner (bi : BlockInfo) {s : ExportState} (h : WellFormed s)
    (hseal : s.gOptions.EXPT_SEAL_SIDE_TUNNELS = false) :
    ((findGroups bi s).gBoxData ⟨s.gAirBox.min.x, s.gAirBox.max.y, s.gAirBox.min.z⟩).group = 1 := by
  obtain ⟨hs, hf, _⟩ := scanStart_spec h
  obtain ⟨gx, gy, gz, hab, h0, _⟩ := wellFormed_iff h
  have hstart : scanStart s = { s with gGroupList := (setGroup s.gGroupList SURROUND_AIR_GROUP
      { s.gGroupList SURROUND_AIR_GROUP with population := 0 }) } := by
    unfold scanStart
    simp [hseal]
  obtain ⟨l, hl⟩ := scanCells_head (b := (scanStart s).gAirBox)
    (by rw [hf.airBox, hab]; simp only []; omega) (by rw [hf.airBox, hab]; simp only []; omega)
    (by rw [hf.airBox, hab]; simp only []; omega)
  rw [hf.airBox] at hl
  set c0 : IPoint := ⟨s.gAirBox.min.x, s.gAirBox.max.y, s.gAirBox.min.z⟩ with hc0
  have hc0in : (scanStart s).gAirBox.contains c0 = true := by
    rw [hf.airBox, hab, contains_iff]
    simp only [hc0, hab]
    omega
  have hc00 : ((scanStart s).gBoxData c0).group = 0 := by
    have hpa := hs.scanned.booked.air_in_array c0 hc0in
    rw [hf.arrayBox] at hpa
    rw [hstart]
    exact h0 c0 hpa
  have hfirst : ((findGroupsCell bi (scanStart s) c0).gBoxData c0).group = 1 := by
    rcases findGroupsCell_cases bi hs.scanned.booked hc0in with ⟨hne, _⟩ | ⟨_, hg, _⟩
    · exact absurd hc00 hne
    · rw [hg.keep (by rw [newGroup_cell]; omega), newGroup_cell, hs.count]
  have hfirst' := findGroupsCell_scanned bi hs.scanned hc0in
  have key := foldl_inv
    (fun t : ExportState => Scanned t ∧ t.gAirBox = (scanStart s).gAirBox ∧
      (t.gBoxData c0).group = 1)
    (findGroupsCell bi) l (findGroupsCell bi (scanStart s) c0)
    ⟨hfirst'.1, hfirst'.2.1.airBox, hfirst⟩ ?_
  · rw [findGroups_eq]
    simp only []
    have hopt : ((scanCells (scanStart s).gAirBox).foldl (findGroupsCell bi)
        (scanStart s)).gOptions.EXPT_SEAL_SIDE_TUNNELS = false := by
      rw [(scan_grouped bi hs).frame.options, hf.options]
      exact hseal
    rw [hopt, hf.airBox, hl, List.foldl_cons]
    exact key.2.2
  · rintro t x hx ⟨a, b, c⟩
    have hxin : (scanStart s).gAirBox.contains x = true := by
      apply mem_scanCells.1
      rw [hf.airBox, hl]
      exact List.mem_cons_of_mem _ hx
    have hxt : t.gAirBox.contains x = true := by rw [b]; exact hxin
    obtain ⟨a', f', k', _⟩ := findGroupsCell_scanned bi a hxt
    refine ⟨a', f'.airBox.trans b, ?_⟩
    rw [k' c0 (by rw [c]; omega)]
    exact c

theorem fillGroupsCell_other (bi : BlockInfo) (m : Nat) (solid : Bool) (fillType : Nat)
    (tg : Nat → Int) (s : ExportState) (loc p : IPoint) (h : p ≠ loc) :
    (fillGroupsCell bi m solid fillType tg s loc).gBoxData p = s.gBoxData p := by
  unfold fillGroupsCell
  split
  · simp [setCell_other _ _ h]
  · rfl

theorem fillGroupsCell_untargeted (bi : BlockInfo) (m : Nat) (solid : Bool) (fillType : Nat)
    (tg : Nat → Int) (s : ExportState) (loc : IPoint) (h : ¬ tg (s.gBoxData loc).group > 0) :
    fillGroupsCell bi m solid fillType tg s loc = s := by
  unfold fillGroupsCell
  rw [if_neg h]

/-- The function `fillGroups` leaves alone every cell whose group is not a target. -/
theorem fillGroups_untargeted (bi : BlockInfo) (s : ExportState) (bounds : IBox) (m : Nat)
    (solid : Bool) (fillType : Nat) (tg : Nat → Int) (p : IPoint)
    (h : ¬ tg (s.gBoxData p).group > 0) :
    (fillGroups bi s bounds m solid fillType tg).gBoxData p = s.gBoxData p := by
  unfold fillGroups
  apply foldl_inv (fun t : ExportState => t.gBoxData p = s.gBoxData p)
  · rfl
  · intro t loc _ ht
    by_cases hp : p = loc
    · subst hp
      rw [fillGroupsCell_untargeted bi m solid fillType tg t p (by rw [ht]; exact h)]
      exact ht
    · rw [fillGroupsCell_other bi m solid fillType tg t loc p hp]
      exact ht

theorem deleteFloatingStep_other (bi : BlockInfo) (sv : Int) (s : ExportState) (i : Nat)
    (p : IPoint) (h : (s.gBoxData p).group ≠ i) :
    (deleteFloatingStep bi sv s i).gBoxData p = s.gBoxData p := by
  unfold deleteFloatingStep
  split
  · split
    · simp only []
      have := fillGroups_untargeted bi
        { s with gStats := { s.gStats with
            blocksFloaterDeleted := s.gStats.blocksFloaterDeleted + (s.gGroupList i).population } }
        (s.gGroupList i).bounds SURROUND_AIR_GROUP false BLOCK_AIR (setFlag (fun _ => 0) i 1) p
        (by simp [setFlag, h])
      exact this
    · rfl
  · rfl

theorem deleteFloatingStep_survivor (bi : BlockInfo) (k : Nat) (s : ExportState) (i : Nat)
    (p : IPoint) (h : (s.gBoxData p).group = k) :
    (deleteFloatingStep bi (k : Int) s i).gBoxData p = s.gBoxData p := by
  by_cases hik : i = k
  · subst hik
    unfold deleteFloatingStep
    rw [if_neg (by simp)]
  · exact deleteFloatingStep_other bi _ s i p (by rw [h]; exact fun e => hik e.symm)

/-- The first loop of `deleteFloatingGroups` picks, among the solid groups
`2 .. gGroupCount`, the one that survives over all others. -/
theorem findSurvivor_spec (s : ExportState)
    (hpop : ∀ i ∈ groupRange 2 s.gGroupCount, (s.gGroupList i).solid = true →
      0 ≤ (s.gGroupList i).population)
    (hex : ∃ i ∈ groupRange 2 s.gGroupCount, (s.gGroupList i).solid = true) :
    ∃ k : Nat, (findSurvivor s).survivorGroup = (k : Int) ∧ k ∈ groupRange 2 s.gGroupCount ∧
      (s.gGroupList k).solid = true ∧
      ∀ j ∈ groupRange 2 s.gGroupCount, (s.gGroupList j).solid = true →
        survivesOver s.gGroupList k j := by
  have hsorted : (groupRange 2 s.gGroupCount).Pairwise (· < ·) := by
    unfold groupRange
    exact List.pairwise_lt_range' _ _
  have key := foldl_prefix_inv (survivorStep s.gGroupList)
    (fun pre (a : SurvivorSearch) =>
      ((∀ j ∈ pre, (s.gGroupList j).solid = false) ∧ a = ⟨-999, -999, 999⟩) ∨
      (∃ k : Nat, a.survivorGroup = (k : Int) ∧ k ∈ pre ∧ (s.gGroupList k).solid = true ∧
        a.maxPop = (s.gGroupList k).population ∧ a.minY = (s.gGroupList k).bounds.min.y ∧
        ∀ j ∈ pre, (s.gGroupList j).solid = true → survivesOver s.gGroupList k j))
    (groupRange 2 s.gGroupCount) ⟨-999, -999, 999⟩ (Or.inl ⟨fun j hj => by simp at hj, rfl⟩) ?_
  · rcases key with ⟨hnone, _⟩ | ⟨k, h1, h2, h3, _, _, h6⟩
    · obtain ⟨i, hi, hs⟩ := hex
      rw [hnone i hi] at hs
      exact absurd hs (by simp)
    · exact ⟨k, h1, h2, h3, h6⟩
  · intro pre x post a hl ha
    have hx : x ∈ groupRange 2 s.gGroupCount := by rw [hl]; simp
    have hlt : ∀ j ∈ pre, j < x := by
      intro j hj
      rw [hl, List.pairwise_append] at hsorted
      exact hsorted.2.2 j hj x (List.mem_cons_self _ _)
    unfold survivorStep
    by_cases hsx : (s.gGroupList x).solid = true
    · rw [if_pos hsx]
      have hpx := hpop x hx hsx
      rcases ha with ⟨hnone, rfl⟩ | ⟨k, h1, h2, h3, h4, h5, h6⟩
      · right
        rw [if_pos (Or.inl (by simp only []; omega))]
        refine ⟨x, rfl, by simp, hsx, rfl, rfl, ?_⟩
        intro j hj hsj
        rcases List.mem_append.1 hj with hj | hj
        · rw [hnone j hj] at hsj
          exact absurd hsj (by simp)
        · simp only [List.mem_singleton] at hj
          subst hj
          right
          exact ⟨rfl, Or.inr ⟨rfl, le_refl _⟩⟩
      · right
        by_cases hbetter : (s.gGroupList x).population > a.maxPop ∨
            ((s.gGroupList x).population = a.maxPop ∧ (s.gGroupList x).bounds.min.y < a.minY)
        · rw [if_pos hbetter]
          refine ⟨x, rfl, by simp, hsx, rfl, rfl, ?_⟩
          intro j hj hsj
          rcases List.mem_append.1 hj with hj | hj
          · have := h6 j hj hsj
            unfold survivesOver at this ⊢
            rw [h4, h5] at hbetter
            omega
          · simp only [List.mem_singleton] at hj
            subst hj
            right
            exact ⟨rfl, Or.inr ⟨rfl, le_refl _⟩⟩
        · rw [if_neg hbetter]
          refine ⟨k, h1, by simp [h2], h3, h4, h5, ?_⟩
          intro j hj hsj
          rcases List.mem_append.1 hj with hj | hj
          · exact h6 j hj hsj
          · simp only [List.mem_singleton] at hj
            subst hj
            have := hlt k h2
            unfold survivesOver
            rw [h4, h5] at hbetter
            omega
    · rw [if_neg hsx]
      rcases ha with ⟨hnone, he⟩ | ⟨k, h1, h2, h3, h4, h5, h6⟩
      · left
        refine ⟨?_, he⟩
        intro j hj
        rcases List.mem_append.1 hj with hj | hj
        · exact hnone j hj
        · simp only [List.mem_singleton] at hj
          subst hj
          simpa using hsx
      · right
        refine ⟨k, h1, by simp [h2], h3, h4, h5, ?_⟩
        intro j hj hsj
        rcases List.mem_append.1 hj with hj | hj
        · exact h6 j hj hsj
        · simp only [List.mem_singleton] at hj
          subst hj
          exact absurd hsj hsx

theorem Refilled.refilled_refl (s : ExportState) : Refilled s s :=
  ⟨rfl, rfl, rfl, rfl, rfl, fun _ => rfl⟩

theorem Refilled.refilled_trans {s t u : ExportState} (h1 : Refilled s t) (h2 : Refilled t u) :
    Refilled s u :=
  ⟨h2.airBox.trans h1.airBox, h2.solidBox.trans h1.solidBox, h2.boxSize.trans h1.boxSize,
    h2.options.trans h1.options, h2.count.trans h1.count,
    fun i => (h2.flags i).trans (h1.flags i)⟩

theorem fillGroupsCell_refilled (bi : BlockInfo) (m : Nat) (solid : Bool) (fillType : Nat)
    (tg : Nat → Int) (s : ExportState) (loc : IPoint) :
    Refilled s (fillGroupsCell bi m solid fillType tg s loc) ∧
    (fillGroupsCell bi m solid fillType tg s loc).gStats = s.gStats ∧
    (fillGroupsCell bi m solid fillType tg s loc).gAirGroups = s.gAirGroups ∧
    (fillGroupsCell bi m solid fillType tg s loc).gSolidGroups = s.gSolidGroups := by
  unfold fillGroupsCell
  split
  · refine ⟨⟨rfl, rfl, rfl, rfl, rfl, ?_⟩, rfl, rfl, rfl⟩
    intro i
    simp only [setGroup]
    split
    · rename_i h1
      subst h1
      split
      · rename_i h2
        rw [h2]
      · rfl
    · split
      · rename_i h2
        rw [h2]
      · rfl
  · exact ⟨Refilled.refilled_refl s, rfl, rfl, rfl⟩

theorem fillGroups_refilled (bi : BlockInfo) (s : ExportState) (bounds : IBox) (m : Nat)
    (solid : Bool) (fillType : Nat) (tg : Nat → Int) :
    Refilled s (fillGroups bi s bounds m solid fillType tg) ∧
    (fillGroups bi s bounds m solid fillType tg).gStats = s.gStats ∧
    (fillGroups bi s bounds m solid fillType tg).gAirGroups = s.gAirGroups ∧
    (fillGroups bi s bounds m solid fillType tg).gSolidGroups = s.gSolidGroups := by
  unfold fillGroups
  apply foldl_inv (fun t : ExportState => Refilled s t ∧ t.gStats = s.gStats ∧
    t.gAirGroups = s.gAirGroups ∧ t.gSolidGroups = s.gSolidGroups)
  · exact ⟨Refilled.refilled_refl s, rfl, rfl, rfl⟩
  · rintro t loc _ ⟨a, b, c, d⟩
    obtain ⟨a', b', c', d'⟩ := fillGroupsCell_refilled bi m solid fillType tg t loc
    exact ⟨a.refilled_trans a', b'.trans b, c'.trans c, d'.trans d⟩

/-- The step of `checkAndRemoveBubbles` for group `i` takes one off `gAirGroups` and
adds one to `bubblesFound` exactly when group `i` is an air group. -/
theorem removeBubble_counts (bi : BlockInfo) (fillType : Nat) (s : ExportState) (i : Nat) :
    Refilled s (removeBubble bi fillType s i) ∧
    (removeBubble bi fillType s i).gAirGroups =
      s.gAirGroups - (if (s.gGroupList i).solid then 0 else 1) ∧
    (removeBubble bi fillType s i).gStats.bubblesFound =
      s.gStats.bubblesFound + (if (s.gGroupList i).solid then 0 else 1) := by
  unfold removeBubble
  by_cases hs : (s.gGroupList i).solid = false
  · rw [if_pos hs]
    simp only [hs, Bool.false_eq_true, if_false]
    split
    · obtain ⟨a, b, c, _⟩ := fillGroups_refilled bi (bubbleCounted s (bubbleMaster s i))
        (unionBounds (bubbleCounted s (bubbleMaster s i))
          (setFlag (setFlag (bubbleMaster s i).neighborGroups
            (bubbleMaster s i).masterGroupID.toNat 0) i 1))
        (bubbleMaster s i).masterGroupID.toNat true fillType
        (setFlag (setFlag (bubbleMaster s i).neighborGroups
            (bubbleMaster s i).masterGroupID.toNat 0) i 1)
      refine ⟨⟨a.airBox, a.solidBox, a.boxSize, a.options, a.count, a.flags⟩, ?_, ?_⟩
      · show _ - 1 = _
        rw [c]
        rfl
      · show _ + 1 = _
        rw [b]
        rfl
    · obtain ⟨a, b, c, _⟩ := fillGroups_refilled bi (bubbleCounted s (bubbleMaster s i))
        ((bubbleCounted s (bubbleMaster s i)).gGroupList i).bounds i true fillType
        (setFlag (bubbleMaster s i).neighborGroups i 1)
      refine ⟨⟨a.airBox, a.solidBox, a.boxSize, a.options, a.count, a.flags⟩, ?_, ?_⟩
      · show _ - 1 = _
        rw [c]
        rfl
      · show _ + 1 = _
        rw [b]
        rfl
  · rw [if_neg hs]
    have : (s.gGroupList i).solid = true := by simpa using hs
    simp [this, Refilled.refilled_refl]

theorem removeBubble_fold_counts (bi : BlockInfo) (fillType : Nat) (s : ExportState) (l : List Nat) :
    ∀ t, Refilled s t →
      Refilled s (l.foldl (removeBubble bi fillType) t) ∧
      (l.foldl (removeBubble bi fillType) t).gAirGroups =
        t.gAirGroups - (l.countP fun i => !(s.gGroupList i).solid : Nat) ∧
      (l.foldl (removeBubble bi fillType) t).gStats.bubblesFound =
        t.gStats.bubblesFound + (l.countP fun i => !(s.gGroupList i).solid : Nat) := by
  induction l with
  | nil =>
    intro t ht
    simp [ht]
  | cons a l ih =>
    intro t ht
    obtain ⟨h1, h2, h3⟩ := removeBubble_counts bi fillType t a
    obtain ⟨k1, k2, k3⟩ := ih _ (ht.refilled_trans h1)
    refine ⟨k1, ?_, ?_⟩
    · rw [List.foldl_cons, k2, h2, ht.flags, List.countP_cons]
      cases (s.gGroupList a).solid <;> simp
      omega
    · rw [List.foldl_cons, k3, h3, ht.flags, List.countP_cons]
      cases (s.gGroupList a).solid <;> simp
      omega

/-- The function `checkAndRemoveBubbles` takes the number of bubbles off `gAirGroups`
and adds it to `bubblesFound`. -/
theorem checkAndRemoveBubbles_counts (bi : BlockInfo) (s : ExportState) :
    Refilled s (checkAndRemoveBubbles bi s) ∧
    (checkAndRemoveBubbles bi s).gAirGroups = s.gAirGroups - (bubbleCount s : Int) ∧
    (checkAndRemoveBubbles bi s).gStats.bubblesFound =
      s.gStats.bubblesFound + (bubbleCount s : Int) :=
  removeBubble_fold_counts bi _ s _ s (Refilled.refilled_refl s)

theorem groupRange_one_cons {n : Nat} (h : 1 ≤ n) : groupRange 1 n = 1 :: groupRange 2 n := by
  unfold groupRange
  have : n + 1 - 1 = (n + 1 - 2) + 1 := by omega
  rw [this, List.range'_succ]

theorem addBounds_self (loc : IPoint) (b : IBox) : (addBounds loc b).contains loc = true := by
  rw [contains_iff]
  unfold addBounds
  simp only []
  refine ⟨?_, ?_, ?_, ?_, ?_, ?_⟩ <;> split <;> omega

theorem addBounds_mono (loc : IPoint) {b : IBox} {p : IPoint} (h : b.contains p = true) :
    (addBounds loc b).contains p = true := by
  rw [contains_iff] at h ⊢
  unfold addBounds
  simp only []
  refine ⟨?_, ?_, ?_, ?_, ?_, ?_⟩ <;> split <;> omega

theorem addBoundsToBounds_mono (a : IBox) {b : IBox} {p : IPoint} (h : b.contains p = true) :
    (addBoundsToBounds a b).contains p = true := by
  rw [contains_iff] at h ⊢
  unfold addBoundsToBounds
  simp only []
  refine ⟨?_, ?_, ?_, ?_, ?_, ?_⟩ <;> split <;> omega

theorem addBoundsToBounds_left {a : IBox} (b : IBox) {p : IPoint} (h : a.contains p = true) :
    (addBoundsToBounds a b).contains p = true := by
  rw [contains_iff] at h ⊢
  unfold addBoundsToBounds
  simp only []
  refine ⟨?_, ?_, ?_, ?_, ?_, ?_⟩ <;> split <;> omega

theorem absorb_bounded {s : ExportState} {g : Nat} (q : IPoint)
    (hid : (s.gGroupList g).groupID = g) (h : Bounded s) : Bounded (absorb s g q) := by
  intro p hp hp2
  have hp' : (arrayBox s).contains p = true := hp
  by_cases hpq : p = q
  · subst hpq
    have hc : ((absorb s g p).gBoxData p).group = g := by
      rw [absorb_cell_new, hid]
    rw [hc]
    show (setGroup s.gGroupList g _ g).bounds.contains p = true
    rw [setGroup_same]
    exact addBounds_self _ _
  · have hc : (absorb s g q).gBoxData p = s.gBoxData p := absorb_cell_other s g hpq
    rw [hc] at hp2 ⊢
    show (setGroup s.gGroupList g _ (s.gBoxData p).group).bounds.contains p = true
    by_cases hg : (s.gBoxData p).group = g
    · rw [hg, setGroup_same]
      have := h p hp' hp2
      rw [hg] at this
      exact addBounds_mono _ this
    · rw [setGroup_other _ _ hg]
      exact h p hp' hp2
theorem propagateSeed_bounded (bi : BlockInfo) {pt : IPoint} {g : Nat} {s : ExportState}
    {st : List IPoint} (hsd : Seeding s g st) (hpt : s.gAirBox.contains pt = true)
    (hb : Bounded s) : Bounded (propagateSeed bi s pt g st).1 := by
  unfold propagateSeed
  split
  · exact hb
  · have key := foldl_range_inv
      (fun _ (r : ExportState × List IPoint) => Seeding r.1 g r.2 ∧ Grows g s r.1 ∧ Bounded r.1)
      (propagateDir pt g) 6 (s, st) ⟨hsd, Grows.grows_refl g s, hb⟩ ?_
    · exact key.2.2
    · rintro k ⟨s', st'⟩ hk ⟨a1, a2, a3⟩
      have hpt' : s'.gAirBox.contains pt = true := by rw [a2.frame.airBox]; exact hpt
      obtain ⟨b1, b2, _⟩ := propagateDir_grows (d := k) hk a1 hpt'
      refine ⟨b1, a2.grows_trans b2, ?_⟩
      have hid : (s'.gGroupList g).groupID = g := a1.booked.gid g a1.pos (by rw [a1.newest])
      rcases propagateDir_cases pt g s' st' k with e | ⟨q, _, _, _, e⟩
      · rw [e]; exact a3
      · rw [e]; exact absorb_bounded q hid a3

theorem seedLoop_bounded (bi : BlockInfo) (g : Nat) (fuel : Nat) :
    ∀ (s : ExportState) (st : List IPoint), Seeding s g st → Bounded s →
      Bounded (seedLoop bi g fuel s st) := by
  induction fuel with
  | zero => intro s st _ hr; exact hr
  | succ n ih =>
    intro s st h hr
    cases st with
    | nil => exact hr
    | cons p st =>
      simp only [seedLoop]
      have hp := h.stack p (List.mem_cons_self _ _)
      have hsd : Seeding s g st :=
        ⟨h.booked, h.newest, h.pos, fun q hq => h.stack q (List.mem_cons_of_mem _ hq)⟩
      obtain ⟨a, _, _⟩ := propagateSeed_grows bi hsd hp.1
      exact ih _ _ a (propagateSeed_bounded bi hsd hp.1 hr)

theorem newGroup_bounded {t : ExportState} {x : IPoint} (hb : Booked t) (h : Bounded t) :
    Bounded (newGroup t x) := by
  intro p hp hp2
  have hp' : (arrayBox t).contains p = true := hp
  by_cases hpx : p = x
  · subst hpx
    rw [newGroup_cell]
    show (setGroup t.gGroupList (t.gGroupCount + 1) _ (t.gGroupCount + 1)).bounds.contains p = true
    rw [setGroup_same, contains_iff]
    simp
  · rw [newGroup_cell_other t hpx] at hp2 ⊢
    have hne : (t.gBoxData p).group ≠ t.gGroupCount + 1 := by
      have := hb.group_le p hp'
      omega
    rw [newGroup_record_other t x hne]
    exact h p hp' hp2

/-- One step of the scan of `findGroups` keeps the cells of the groups inside the
bounds of the groups. -/
theorem findGroupsCell_bounded (bi : BlockInfo) {t : ExportState} {x : IPoint} (hb : Booked t)
    (hx : t.gAirBox.contains x = true) (h : Bounded t) :
    Bounded (findGroupsCell bi t x) := by
  by_cases h0 : (t.gBoxData x).group = NO_GROUP_SET
  · have hs1 := newGroup_seeding hb hx h0
    have hs0 : Seeding (newGroup t x) (t.gGroupCount + 1) [] :=
      ⟨hs1.booked, hs1.newest, hs1.pos, fun q hq => by simp at hq⟩
    have h1 := propagateSeed_bounded bi hs0 hx (newGroup_bounded hb h)
    obtain ⟨a, _, _⟩ := propagateSeed_grows bi hs0 hx
    have h2 := seedLoop_bounded bi (t.gGroupCount + 1) (boxCells t.gAirBox).length _ _ a h1
    have e : findGroupsCell bi t x = seedLoop bi (t.gGroupCount + 1) (boxCells t.gAirBox).length
        (propagateSeed bi (newGroup t x) x (t.gGroupCount + 1) []).1
        (propagateSeed bi (newGroup t x) x (t.gGroupCount + 1) []).2 := by
      unfold findGroupsCell
      rw [if_pos h0]
      rfl
    rw [e]
    exact h2
  · unfold findGroupsCell
    rw [if_neg h0]
    exact h

/-- After `findGroups` on a well-formed state every cell of a group `2, 3, ...` lies
inside the bounds of its group. -/
theorem findGroups_bounded (bi : BlockInfo) {s : ExportState} (h : WellFormed s) :
    Bounded (findGroups bi s) := by
  obtain ⟨hs, hf, _⟩ := scanStart_spec h
  have hstart : Bounded (scanStart s) := by
    intro p hp hp2
    by_cases h0 : ((scanStart s).gBoxData p).group = 0
    · omega
    · have := (hs.pre_air p hp h0).1
      omega
  have key := foldl_inv
    (fun t : ExportState => Scanned t ∧ t.gAirBox = (scanStart s).gAirBox ∧ Bounded t)
    (findGroupsCell bi) (scanCells (scanStart s).gAirBox) (scanStart s)
    ⟨hs.scanned, rfl, hstart⟩ ?_
  · rw [findGroups_eq]
    simp only []
    split
    · intro p hp hp2
      have hp' : 2 ≤ (((scanCells (scanStart s).gAirBox).foldl (findGroupsCell bi)
          (scanStart s)).gBoxData p).group := hp2
      have hne : (((scanCells (scanStart s).gAirBox).foldl (findGroupsCell bi)
          (scanStart s)).gBoxData p).group ≠ SURROUND_AIR_GROUP := by
        unfold SURROUND_AIR_GROUP
        omega
      show (setGroup _ SURROUND_AIR_GROUP _ _).bounds.contains p = true
      rw [setGroup_other _ _ hne]
      exact key.2.2 p hp hp'
    · exact key.2.2
  · rintro t x hx ⟨a, b, c⟩
    have hxt : t.gAirBox.contains x = true := by rw [b]; exact mem_scanCells.1 hx
    obtain ⟨a', f', _, _⟩ := findGroupsCell_scanned bi a hxt
    exact ⟨a', f'.airBox.trans b, findGroupsCell_bounded bi a.booked hxt c⟩
theorem Kept.kept_refl (m : Nat) (s : ExportState) : Kept m s s :=
  ⟨Refilled.refilled_refl s, fun _ => rfl, fun _ _ => rfl, fun _ h => h⟩

theorem Kept.kept_trans {m : Nat} {s t u : ExportState} (h1 : Kept m s t) (h2 : Kept m t u) :
    Kept m s u :=
  ⟨h1.refilled.refilled_trans h2.refilled, fun g => (h2.gid g).trans (h1.gid g),
    fun g hg => (h2.bounds g hg).trans (h1.bounds g hg), fun p hp => h2.grow p (h1.grow p hp)⟩

theorem fillGroupsCell_eq (bi : BlockInfo) (m : Nat) (solid : Bool) (fillType : Nat)
    (tg : Nat → Int) (s : ExportState) (loc : IPoint) (h : tg (s.gBoxData loc).group > 0) :
    fillGroupsCell bi m solid fillType tg s loc =
      { s with
        gBoxData := setCell s.gBoxData loc
          { (if (s.gGroupList (s.gBoxData loc).group).solid ≠ solid then
              fillCellContent bi s loc solid fillType else s.gBoxData loc) with group := m }
        gGroupList := setGroup
          (setGroup s.gGroupList (s.gBoxData loc).group
            { s.gGroupList (s.gBoxData loc).group with
              population := (s.gGroupList (s.gBoxData loc).group).population - 1 }) m
          { (setGroup s.gGroupList (s.gBoxData loc).group
              { s.gGroupList (s.gBoxData loc).group with
                population := (s.gGroupList (s.gBoxData loc).group).population - 1 }) m with
            population := ((setGroup s.gGroupList (s.gBoxData loc).group
              { s.gGroupList (s.gBoxData loc).group with
                population := (s.gGroupList (s.gBoxData loc).group).population - 1 }) m).population + 1
            bounds := addBounds loc ((setGroup s.gGroupList (s.gBoxData loc).group
              { s.gGroupList (s.gBoxData loc).group with
                population := (s.gGroupList (s.gBoxData loc).group).population - 1 }) m).bounds } } := by
  unfold fillGroupsCell
  rw [if_pos h]

theorem fillCellContent_spec (bi : BlockInfo) (s : ExportState) (loc : IPoint) (solid : Bool)
    (fillType : Nat) :
    (fillCellContent bi s loc solid fillType).origType = (s.gBoxData loc).origType ∧
    ((fillCellContent bi s loc solid fillType).type = bi.BLOCK_LEAVES ∨
      (fillCellContent bi s loc solid fillType).type = fillType % 256) := by
  unfold fillCellContent
  simp only []
  split
  · split
    · exact ⟨rfl, Or.inl rfl⟩
    · exact ⟨rfl, Or.inr rfl⟩
  · exact ⟨rfl, Or.inr rfl⟩

theorem fillGroupsCell_filled (bi : BlockInfo) (m : Nat) (solid : Bool) (fillType : Nat)
    (tg : Nat → Int) (s : ExportState) (loc : IPoint) (h : tg (s.gBoxData loc).group > 0) :
    Filled bi m solid fillType s (s.gBoxData loc)
      ((fillGroupsCell bi m solid fillType tg s loc).gBoxData loc) ∧
    ((fillGroupsCell bi m solid fillType tg s loc).gGroupList m).bounds.contains loc = true := by
  rw [fillGroupsCell_eq bi m solid fillType tg s loc h]
  simp only [setCell_same, setGroup_same]
  refine ⟨⟨rfl, ?_, ?_, ?_⟩, addBounds_self _ _⟩
  · split
    · exact (fillCellContent_spec bi s loc solid fillType).1
    · rfl
  · intro hs
    rw [if_neg (by simpa using hs)]
  · intro hs
    rw [if_pos hs]
    exact (fillCellContent_spec bi s loc solid fillType).2

theorem fillGroupsCell_kept (bi : BlockInfo) (m : Nat) (solid : Bool) (fillType : Nat)
    (tg : Nat → Int) (s : ExportState) (loc : IPoint) :
    Kept m s (fillGroupsCell bi m solid fillType tg s loc) := by
  refine ⟨(fillGroupsCell_refilled bi m solid fillType tg s loc).1, ?_, ?_, ?_⟩
  all_goals
    by_cases h : tg (s.gBoxData loc).group > 0
    swap
    · rw [fillGroupsCell_untargeted bi m solid fillType tg s loc h]
      simp
  · rw [fillGroupsCell_eq bi m solid fillType tg s loc h]
    intro g
    simp only [setGroup]
    split
    · rename_i h1
      subst h1
      split
      · rename_i h2
        rw [h2]
      · rfl
    · split
      · rename_i h2
        rw [h2]
      · rfl
  · rw [fillGroupsCell_eq bi m solid fillType tg s loc h]
    intro g hg
    simp only [setGroup, if_neg hg]
    split
    · rename_i h2
      rw [h2]
    · rfl
  · rw [fillGroupsCell_eq bi m solid fillType tg s loc h]
    intro p hp
    simp only [setGroup_same]
    apply addBounds_mono
    simp only [setGroup]
    split
    · rename_i h2
      rw [← h2]
      exact hp
    · exact hp
/-- The function `fillGroups` fills every cell of its bounds whose group is a target
and leaves every other cell alone. -/
theorem fillGroups_spec (bi : BlockInfo) (s : ExportState) (bounds : IBox) (m : Nat)
    (solid : Bool) (fillType : Nat) (tg : Nat → Int) :
    FillInv bi m solid fillType tg s (boxCells bounds)
      (fillGroups bi s bounds m solid fillType tg) := by
  unfold fillGroups
  refine foldl_prefix_inv (fillGroupsCell bi m solid fillType tg)
    (FillInv bi m solid fillType tg s) (boxCells bounds) s
    ⟨Kept.kept_refl m s, fun _ _ => rfl, fun _ _ => rfl, fun p hp => by simp at hp⟩ ?_
  intro pre x post t hl ht
  have hnd := nodup_boxCells bounds
  rw [hl] at hnd
  have hxpre : x ∉ pre := by
    intro hmem
    have := (List.nodup_append.1 hnd).2.2
    exact this hmem (List.mem_cons_self _ _)
  have hx : t.gBoxData x = s.gBoxData x := ht.rest x hxpre
  have hk := fillGroupsCell_kept bi m solid fillType tg t x
  refine ⟨ht.kept.kept_trans hk, ?_, ?_, ?_⟩
  · intro p hp
    have hpx : p ≠ x := by
      rintro rfl
      exact hp (by simp)
    rw [fillGroupsCell_other bi m solid fillType tg t x p hpx]
    exact ht.rest p (fun h => hp (by simp [h]))
  · intro p hp
    by_cases hpx : p = x
    · subst hpx
      rw [fillGroupsCell_untargeted bi m solid fillType tg t p (by rw [hx]; exact hp)]
      exact hx
    · rw [fillGroupsCell_other bi m solid fillType tg t x p hpx]
      exact ht.idle p hp
  · intro p hp htg
    by_cases hpx : p = x
    · subst hpx
      obtain ⟨a, b⟩ := fillGroupsCell_filled bi m solid fillType tg t p (by rw [hx]; exact htg)
      refine ⟨?_, b⟩
      unfold Filled at a ⊢
      rw [hx, ht.kept.refilled.flags] at a
      exact a
    · rw [fillGroupsCell_other bi m solid fillType tg t x p hpx]
      have hp' : p ∈ pre := by
        rcases List.mem_append.1 hp with h | h
        · exact h
        · simp at h
          exact absurd h hpx
      obtain ⟨a, b⟩ := ht.moved p hp' htg
      exact ⟨a, hk.grow p b⟩
theorem searchInv_update (l : Nat → BoxGroup) (ng : Nat → Int) (pre : List Nat) (x : Nat)
    (a r : MasterSearch) (hlt : ∀ g ∈ pre, g < x) (h : SearchInv l ng pre a)
    (hf : ng x > 0) (hs : (l x).solid = true) (hp : (l x).population > a.maxPop)
    (e1 : r.masterGroupID = (x : Int)) (e2 : r.maxPop = (l x).population)
    (e3 : r.neighborGroups = a.neighborGroups) : SearchInv l ng (pre ++ [x]) r := by
  have hxpre : x ∉ pre := fun hm => absurd (hlt x hm) (lt_irrefl x)
  have hmax : ∀ g ∈ pre, ng g > 0 → (l g).solid = true →
      (l g).population ≤ a.maxPop := by
    intro g hg hgf hgs
    by_cases hm : a.masterGroupID < 0
    · have := (h.unset hm).2.2 g hg hgf hgs
      rw [(h.unset hm).2.1]
      exact this
    · have hc := h.chosen (by omega)
      rw [hc.2.2.2.1]
      exact (hc.2.2.2.2.2 g hg hgf hgs).1
  have hpos : 0 ≤ a.maxPop := by
    by_cases hm : a.masterGroupID < 0
    · rw [(h.unset hm).2.1]
    · have hc := h.chosen (by omega)
      rw [hc.2.2.2.1]
      exact hc.2.2.2.2.1.le
  have et : r.masterGroupID.toNat = x := by rw [e1]; rfl
  refine ⟨?_, ?_, ?_⟩
  · intro g
    rw [e3, h.flags g]
    by_cases hgx : g = x
    · subst hgx
      simp [hs, hxpre]
    · simp [hgx]
  · intro hneg
    rw [e1] at hneg
    omega
  · intro _
    rw [et, e2]
    refine ⟨by simp, hf, hs, rfl, by omega, ?_⟩
    intro g hg hgf hgs
    rcases List.mem_append.1 hg with hg | hg
    · have := hmax g hg hgf hgs
      exact ⟨by omega, fun _ => by omega⟩
    · simp at hg
      subst hg
      exact ⟨le_refl _, fun hlt => absurd hlt (lt_irrefl _)⟩

theorem searchInv_keep (l : Nat → BoxGroup) (ng : Nat → Int) (pre : List Nat) (x : Nat)
    (a r : MasterSearch) (hlt : ∀ g ∈ pre, g < x) (h : SearchInv l ng pre a)
    (hx : ng x > 0 → (l x).solid = true → (l x).population ≤ a.maxPop)
    (e1 : r.masterGroupID = a.masterGroupID) (e2 : r.maxPop = a.maxPop)
    (e3 : ∀ g, r.neighborGroups g =
      if g = x ∧ ng x > 0 ∧ (l x).solid = false then 0 else a.neighborGroups g) :
    SearchInv l ng (pre ++ [x]) r := by
  have hxpre : x ∉ pre := fun hm => absurd (hlt x hm) (lt_irrefl x)
  refine ⟨?_, ?_, ?_⟩
  · intro g
    rw [e3, h.flags g]
    by_cases hgx : g = x
    · subst hgx
      simp [hxpre]
    · simp [hgx]
  · intro hneg
    rw [e1] at hneg
    obtain ⟨u1, u2, u3⟩ := h.unset hneg
    rw [e1, e2]
    refine ⟨u1, u2, ?_⟩
    intro g hg hgf hgs
    rcases List.mem_append.1 hg with hg | hg
    · exact u3 g hg hgf hgs
    · simp at hg
      subst hg
      have := hx hgf hgs
      omega
  · intro hpos
    rw [e1] at hpos
    obtain ⟨c1, c2, c3, c4, c5, c6⟩ := h.chosen hpos
    rw [e1, e2]
    refine ⟨by simp [c1], c2, c3, c4, c5, ?_⟩
    intro g hg hgf hgs
    rcases List.mem_append.1 hg with hg | hg
    · exact c6 g hg hgf hgs
    · simp at hg
      subst hg
      have h1 := hx hgf hgs
      have h2 := hlt _ c1
      exact ⟨by omega, fun hlt2 => by omega⟩

theorem masterSearch_step (l : Nat → BoxGroup) (ng : Nat → Int) (pre : List Nat) (x : Nat)
    (a : MasterSearch) (hlt : ∀ g ∈ pre, g < x) (h : SearchInv l ng pre a) :
    SearchInv l ng (pre ++ [x]) (masterSearchStep l a x) := by
  have hxpre : x ∉ pre := fun hm => absurd (hlt x hm) (lt_irrefl x)
  have hx : a.neighborGroups x = ng x := by
    rw [h.flags x]
    simp [hxpre]
  unfold masterSearchStep
  by_cases hf : a.neighborGroups x > 0
  · have hf' : ng x > 0 := by rw [← hx]; exact hf
    rw [if_pos hf]
    by_cases hs : (l x).solid = true
    · rw [if_pos hs]
      by_cases hp : (l x).population > a.maxPop
      · rw [if_pos hp]
        exact searchInv_update l ng pre x a _ hlt h hf' hs hp rfl rfl rfl
      · rw [if_neg hp]
        refine searchInv_keep l ng pre x a _ hlt h (fun _ _ => by omega) rfl rfl ?_
        intro g
        simp [hs]
    · rw [if_neg hs]
      have hs' : (l x).solid = false := by simpa using hs
      refine searchInv_keep l ng pre x a _ hlt h
        (fun _ h1 => absurd h1 hs) rfl rfl ?_
      intro g
      show setFlag a.neighborGroups x 0 g = _
      unfold setFlag
      simp [hs', hf']
  · rw [if_neg hf]
    have hf' : ¬ ng x > 0 := by rw [← hx]; exact hf
    refine searchInv_keep l ng pre x a _ hlt h (fun h1 => absurd h1 hf') rfl rfl ?_
    intro g
    simp [hf']

/-- The search for the master group in `checkAndRemoveBubbles`, over the groups
`1 .. gGroupCount`. -/
theorem bubbleMaster_spec (s : ExportState) (i : Nat) :
    SearchInv s.gGroupList (bubbleNeighbors s i) (groupRange SURROUND_AIR_GROUP s.gGroupCount)
      (bubbleMaster s i) := by
  unfold bubbleMaster
  refine foldl_prefix_inv (masterSearchStep s.gGroupList)
    (SearchInv s.gGroupList (bubbleNeighbors s i)) _ _ ⟨?_, ?_, ?_⟩ ?_
  · intro g
    simp
  · intro _
    exact ⟨rfl, rfl, fun g hg => by simp at hg⟩
  · intro hpos
    exact absurd hpos (by simp)
  · intro pre x post a hl ha
    apply masterSearch_step _ _ _ _ _ _ ha
    have hp : (groupRange SURROUND_AIR_GROUP s.gGroupCount).Pairwise (· < ·) := by
      unfold groupRange
      exact List.pairwise_lt_range' _ _
    rw [hl] at hp
    intro g hg
    exact (List.pairwise_append.1 hp).2.2 g hg x (List.mem_cons_self _ _)
theorem unionBounds_contains (s : ExportState) (ng : Nat → Int) {g : Nat} {p : IPoint}
    (h2 : 2 ≤ g) (hle : g ≤ s.gGroupCount) (hng : ng g > 0)
    (hp : (s.gGroupList g).bounds.contains p = true) :
    (unionBounds s ng).contains p = true := by
  have key := foldl_prefix_inv (unionBoundsStep s.gGroupList ng)
    (fun (pre : List Nat) (r : IBox) => ∀ g ∈ pre, ng g > 0 →
      ∀ p, (s.gGroupList g).bounds.contains p = true → r.contains p = true)
    (groupRange (SURROUND_AIR_GROUP + 1) s.gGroupCount) emptyBounds
    (fun g hg => by simp at hg) ?_
  · exact key g (mem_groupRange.2 ⟨h2, hle⟩) hng p hp
  · intro pre x post r _ hr g' hg' hng' q hq
    unfold unionBoundsStep
    rcases List.mem_append.1 hg' with hg' | hg'
    · split
      · exact addBoundsToBounds_mono _ (hr g' hg' hng' q hq)
      · exact hr g' hg' hng' q hq
    · simp at hg'
      subst hg'
      rw [if_pos hng']
      exact addBoundsToBounds_left _ hq

theorem isSolid_iff (c : BoxCell) : c.isSolid = true ↔ 0 < c.type := by
  simp [BoxCell.isSolid, BLOCK_AIR]

/-- One bubble filled: the step of `checkAndRemoveBubbles` for the air group `x`,
for any master group `m`, bounds `b` and target flags `ng` that hold what the
step needs. -/
theorem fill_bubble (bi : BlockInfo) (fillType : Nat) {t v : ExportState} {pre : List Nat}
    (x m : Nat) (b : IBox) (ng : Nat → Int) (s1 : ExportState)
    (hinv : BubbleInv t pre v) (hbd : Bounded t)
    (hx2 : 2 ≤ x) (hxle : x ≤ t.gGroupCount) (hxpre : x ∉ pre)
    (hxair : (t.gGroupList x).solid = false)
    (hm : (v.gGroupList m).solid = true ∨ m = x)
    (hng : ng x > 0)
    (hair : ∀ g, 1 ≤ g → g ≤ t.gGroupCount → (t.gGroupList g).solid = false → g ≠ x →
      ¬ ng g > 0)
    (hb : ∀ p, (v.gGroupList x).bounds.contains p = true → b.contains p = true)
    (hft : 0 < fillType % 256) (hl : 0 < bi.BLOCK_LEAVES)
    (hd1 : s1.gBoxData = v.gBoxData) (hl1 : s1.gGroupList = v.gGroupList)
    (hr1 : Refilled v s1) :
    BubbleInv t (pre ++ [x]) (bubbleDone (fillGroups bi s1 b m true fillType ng)) := by
  have hf := fillGroups_spec bi s1 b m true fillType ng
  have hcell : ∀ p, (bubbleDone (fillGroups bi s1 b m true fillType ng)).gBoxData p =
      (fillGroups bi s1 b m true fillType ng).gBoxData p := fun _ => rfl
  have hrec : ∀ g, (bubbleDone (fillGroups bi s1 b m true fillType ng)).gGroupList g =
      (fillGroups bi s1 b m true fillType ng).gGroupList g := fun _ => rfl
  have hflag : ∀ g, (s1.gGroupList g).solid = (t.gGroupList g).solid := by
    intro g
    rw [hl1, hinv.refilled.flags]
  have hmono : ∀ p, (v.gBoxData p).isSolid = true →
      ((fillGroups bi s1 b m true fillType ng).gBoxData p).isSolid = true := by
    intro p hp
    by_cases htg : ng (s1.gBoxData p).group > 0
    · by_cases hpb : p ∈ boxCells b
      · obtain ⟨⟨_, _, f3, f4⟩, _⟩ := hf.moved p hpb htg
        rw [isSolid_iff] at hp ⊢
        by_cases hs : (s1.gGroupList (s1.gBoxData p).group).solid = true
        · rw [f3 hs, hd1]
          exact hp
        · rcases f4 hs with e | e <;> rw [e] <;> assumption
      · rw [hf.rest p hpb, hd1]
        exact hp
    · rw [hf.idle p htg, hd1]
      exact hp
  refine ⟨?_, ?_, ?_, ?_⟩
  · have a := hf.kept.refilled
    exact hinv.refilled.refilled_trans (hr1.refilled_trans
      ⟨a.airBox, a.solidBox, a.boxSize, a.options, a.count, a.flags⟩)
  · intro g hg1 hgle hgair hgpre
    have hgx : g ≠ x := fun e => hgpre (by simp [e])
    have hgp : g ∉ pre := fun e => hgpre (by simp [e])
    obtain ⟨w1, w2⟩ := hinv.waiting g hg1 hgle hgair hgp
    have hgm : g ≠ m := by
      rintro rfl
      rcases hm with hm | hm
      · rw [hinv.refilled.flags, hgair] at hm
        exact absurd hm (by simp)
      · exact hgx hm
    refine ⟨?_, ?_⟩
    · rw [hrec, hf.kept.bounds g hgm, hl1]
      exact w1
    · intro p hp
      rw [hcell, hf.idle p, hd1]
      · exact w2 p hp
      · rw [hd1, w2 p hp, hp]
        exact hair g hg1 hgle hgair hgx
  · intro p hpa hmem hpair
    rw [hcell]
    rcases List.mem_append.1 hmem with hmem | hmem
    · exact hmono p (hinv.filled p hpa hmem hpair)
    · simp at hmem
      obtain ⟨w1, w2⟩ := hinv.waiting x (by omega) hxle hxair hxpre
      have hpc : s1.gBoxData p = t.gBoxData p := by rw [hd1]; exact w2 p hmem
      have hin : p ∈ boxCells b := by
        rw [mem_boxCells]
        apply hb
        rw [w1, ← hmem]
        exact hbd p hpa (by omega)
      obtain ⟨⟨_, _, _, f4⟩, _⟩ := hf.moved p hin (by rw [hpc, hmem]; exact hng)
      rw [isSolid_iff]
      have hs : (s1.gGroupList (s1.gBoxData p).group).solid ≠ true := by
        rw [hpc, hflag, hpair]
        simp
      rcases f4 hs with e | e <;> rw [e] <;> assumption
  · intro p hp
    rw [hcell]
    exact hmono p (hinv.solid p hp)
theorem bubbleMaster_air (s : ExportState) (i : Nat) {g : Nat} (h1 : 1 ≤ g)
    (hle : g ≤ s.gGroupCount) (hair : (s.gGroupList g).solid = false) :
    ¬ (bubbleMaster s i).neighborGroups g > 0 := by
  rw [(bubbleMaster_spec s i).flags g]
  have hmem : g ∈ groupRange SURROUND_AIR_GROUP s.gGroupCount := mem_groupRange.2 ⟨h1, hle⟩
  by_cases hf : bubbleNeighbors s i g > 0
  · simp [hmem, hf, hair]
  · simp [hf]

/-- The step of `checkAndRemoveBubbles` for group `x` keeps the invariant of the
loop, when the fill type is not air. -/
theorem removeBubble_inv (bi : BlockInfo) (fillType : Nat) {t v : ExportState} {pre : List Nat}
    (x : Nat) (hinv : BubbleInv t pre v) (hbd : Bounded t)
    (hx2 : 2 ≤ x) (hxle : x ≤ t.gGroupCount) (hxpre : x ∉ pre)
    (hft : 0 < fillType % 256) (hl : 0 < bi.BLOCK_LEAVES) :
    BubbleInv t (pre ++ [x]) (removeBubble bi fillType v x) := by
  unfold removeBubble
  by_cases hs : (v.gGroupList x).solid = false
  · rw [if_pos hs]
    have hxair : (t.gGroupList x).solid = false := by rw [← hinv.refilled.flags]; exact hs
    have hr1 : Refilled v (bubbleCounted v (bubbleMaster v x)) :=
      ⟨rfl, rfl, rfl, rfl, rfl, fun _ => rfl⟩
    have hairm : ∀ g, 1 ≤ g → g ≤ t.gGroupCount → (t.gGroupList g).solid = false →
        ¬ (bubbleMaster v x).neighborGroups g > 0 := by
      intro g h1 hle hair
      exact bubbleMaster_air v x h1 (by rw [hinv.refilled.count]; exact hle)
        (by rw [hinv.refilled.flags]; exact hair)
    simp only []
    split
    · rename_i hpos
      have hc := (bubbleMaster_spec v x).chosen hpos
      refine fill_bubble bi fillType x _ _ _ _ hinv hbd hx2 hxle hxpre hxair
        (Or.inl hc.2.2.1) (by simp [setFlag]) ?_ ?_ hft hl rfl rfl hr1
      · intro g h1 hle hair hgx
        have := hairm g h1 hle hair
        unfold setFlag
        rw [if_neg hgx]
        split
        · simp
        · exact this
      · intro p hp
        exact unionBounds_contains _ _ hx2 (by
          show x ≤ v.gGroupCount
          rw [hinv.refilled.count]
          exact hxle) (by simp [setFlag]) hp
    · refine fill_bubble bi fillType x _ _ _ _ hinv hbd hx2 hxle hxpre hxair
        (Or.inr rfl) (by simp [setFlag]) ?_ (fun p hp => hp) hft hl rfl rfl hr1
      intro g h1 hle hair hgx
      have := hairm g h1 hle hair
      unfold setFlag
      rw [if_neg hgx]
      exact this
  · rw [if_neg hs]
    have hxs : (t.gGroupList x).solid = true := by
      rw [← hinv.refilled.flags]
      simpa using hs
    refine ⟨hinv.refilled, ?_, ?_, hinv.solid⟩
    · intro g h1 hle hair hg
      exact hinv.waiting g h1 hle hair (fun e => hg (by simp [e]))
    · intro p hpa hmem hpair
      rcases List.mem_append.1 hmem with hmem | hmem
      · exact hinv.filled p hpa hmem hpair
      · simp at hmem
        rw [hmem, hxs] at hpair
        exact absurd hpair (by simp)

/-- The loop of `checkAndRemoveBubbles` keeps its invariant to the end, when the
fill type is not air. -/
theorem checkAndRemoveBubbles_inv (bi : BlockInfo) {t : ExportState} (hbd : Bounded t)
    (hfill : t.gOptions.EXPT_FILL_BUBBLES = true)
    (hft : 0 < bi.BLOCK_GLASS % 256) (hl : 0 < bi.BLOCK_LEAVES) :
    BubbleInv t (groupRange (SURROUND_AIR_GROUP + 1) t.gGroupCount)
      (checkAndRemoveBubbles bi t) := by
  unfold checkAndRemoveBubbles
  simp only [hfill, if_true]
  refine foldl_prefix_inv (removeBubble bi bi.BLOCK_GLASS) (BubbleInv t) _ t
    ⟨Refilled.refilled_refl t, fun _ _ _ _ _ => ⟨rfl, fun _ _ => rfl⟩,
      fun p _ hp => by simp at hp, fun _ h => h⟩ ?_
  intro pre x post v hl' hv
  have hmem : x ∈ groupRange (SURROUND_AIR_GROUP + 1) t.gGroupCount := by
    rw [hl']
    simp
  have hx := mem_groupRange.1 hmem
  have hnd : (groupRange (SURROUND_AIR_GROUP + 1) t.gGroupCount).Nodup := by
    unfold groupRange
    exact List.nodup_range' _ _
  rw [hl'] at hnd
  have hxpre : x ∉ pre := by
    intro hm
    exact (List.nodup_append.1 hnd).2.2 hm (List.mem_cons_self _ _)
  exact removeBubble_inv bi bi.BLOCK_GLASS x hv hbd hx.1 hx.2 hxpre hft hl
theorem propagateDir_options (pt : IPoint) (g : Nat) (r : ExportState × List IPoint) (k : Nat) :
    (propagateDir pt g r k).1.gOptions = r.1.gOptions := by
  rcases propagateDir_cases pt g r.1 r.2 k with e | ⟨q, _, _, _, e⟩
  · rw [show r = (r.1, r.2) from rfl, e]
  · rw [show r = (r.1, r.2) from rfl, e]
    rfl

theorem propagateSeed_options (bi : BlockInfo) (s : ExportState) (pt : IPoint) (g : Nat)
    (st : List IPoint) : (propagateSeed bi s pt g st).1.gOptions = s.gOptions := by
  unfold propagateSeed
  split
  · rfl
  · apply foldl_inv (fun r : ExportState × List IPoint => r.1.gOptions = s.gOptions)
    · rfl
    · intro r k _ hr
      rw [propagateDir_options]
      exact hr

theorem propagateSeed_blocks (bi bi2 : BlockInfo) (s : ExportState) (pt : IPoint) (g : Nat)
    (st : List IPoint) (h : s.gOptions.EXPT_SEAL_ENTRANCES = false) :
    propagateSeed bi s pt g st = propagateSeed bi2 s pt g st := by
  unfold propagateSeed
  simp [h]

theorem seedLoop_blocks (bi bi2 : BlockInfo) (g : Nat) (fuel : Nat) :
    ∀ (s : ExportState) (st : List IPoint), s.gOptions.EXPT_SEAL_ENTRANCES = false →
      seedLoop bi g fuel s st = seedLoop bi2 g fuel s st ∧
      (seedLoop bi g fuel s st).gOptions = s.gOptions := by
  induction fuel with
  | zero => intro s st _; exact ⟨rfl, rfl⟩
  | succ n ih =>
    intro s st h
    cases st with
    | nil => exact ⟨rfl, rfl⟩
    | cons p st =>
      simp only [seedLoop]
      rw [← propagateSeed_blocks bi bi2 s p g st h]
      have ho := propagateSeed_options bi s p g st
      obtain ⟨a, b⟩ := ih (propagateSeed bi s p g st).1 (propagateSeed bi s p g st).2
        (by rw [ho]; exact h)
      exact ⟨a, b.trans ho⟩

theorem findGroupsCell_blocks (bi bi2 : BlockInfo) (s : ExportState) (loc : IPoint)
    (h : s.gOptions.EXPT_SEAL_ENTRANCES = false) :
    findGroupsCell bi s loc = findGroupsCell bi2 s loc ∧
    (findGroupsCell bi s loc).gOptions = s.gOptions := by
  unfold findGroupsCell
  split
  · simp only []
    have h1 : (newGroup s loc).gOptions.EXPT_SEAL_ENTRANCES = false := h
    rw [← propagateSeed_blocks bi bi2 _ loc _ [] h1]
    have ho := propagateSeed_options bi (newGroup s loc) loc (newGroup s loc).gGroupCount []
    obtain ⟨a, b⟩ := seedLoop_blocks bi bi2 (newGroup s loc).gGroupCount
      (boxCells s.gAirBox).length
      (propagateSeed bi (newGroup s loc) loc (newGroup s loc).gGroupCount []).1
      (propagateSeed bi (newGroup s loc) loc (newGroup s loc).gGroupCount []).2
      (by rw [ho]; exact h1)
    exact ⟨a, b.trans ho⟩
  · exact ⟨rfl, rfl⟩

/-- When entrances are not sealed `findGroups` does not look at the block table. -/
theorem findGroups_blocks (bi bi2 : BlockInfo) {s : ExportState} (hw : WellFormed s)
    (h : s.gOptions.EXPT_SEAL_ENTRANCES = false) :
    findGroups bi s = findGroups bi2 s := by
  obtain ⟨_, hf, _⟩ := scanStart_spec hw
  have h0 : (scanStart s).gOptions.EXPT_SEAL_ENTRANCES = false := by
    rw [hf.options]
    exact h
  have key : ∀ (l : List IPoint) (t : ExportState), t.gOptions.EXPT_SEAL_ENTRANCES = false →
      l.foldl (findGroupsCell bi) t = l.foldl (findGroupsCell bi2) t := by
    intro l
    induction l with
    | nil => intro t _; rfl
    | cons x l ih =>
      intro t ht
      obtain ⟨a, b⟩ := findGroupsCell_blocks bi bi2 t x ht
      rw [List.foldl_cons, List.foldl_cons, ← a]
      exact ih _ (by rw [b]; exact ht)
  rw [findGroups_eq, findGroups_eq, key _ _ h0]
theorem removeBubble_solid (bi : BlockInfo) (fillType : Nat) (s : ExportState) (i : Nat)
    (h : (s.gGroupList i).solid = true) : removeBubble bi fillType s i = s := by
  unfold removeBubble
  simp [h]

theorem removeBubble_solidGroups (bi : BlockInfo) (fillType : Nat) (s : ExportState) (i : Nat)
    (h : (s.gGroupList i).solid = false) :
    (removeBubble bi fillType s i).gSolidGroups = (bubbleMaster s i).gSolidGroups + 1 := by
  unfold removeBubble
  rw [if_pos h]
  simp only []
  split
  · show (fillGroups _ _ _ _ _ _ _).gSolidGroups = _
    rw [(fillGroups_refilled _ _ _ _ _ _ _).2.2.2]
    rfl
  · show (fillGroups _ _ _ _ _ _ _).gSolidGroups = _
    rw [(fillGroups_refilled _ _ _ _ _ _ _).2.2.2]
    rfl

/-- After `findGroups` and `checkAndRemoveBubbles` with bubbles filled, a cell of the
air box is solid exactly if it was solid or was not in group 1. -/
theorem bubbles_solidity (bi : BlockInfo) {s : ExportState} (h : WellFormed s)
    (hfill : s.gOptions.EXPT_FILL_BUBBLES = true)
    (hglass : 0 < bi.BLOCK_GLASS % 256) (hleaves : 0 < bi.BLOCK_LEAVES)
    (p : IPoint) (hp : (findGroups bi s).gAirBox.contains p = true) :
    ((checkAndRemoveBubbles bi (findGroups bi s)).gBoxData p).isSolid =
      (((findGroups bi s).gBoxData p).isSolid ||
        decide (((findGroups bi s).gBoxData p).group ≠ 1)) := by
  have hg := findGroups_grouped bi h
  have hinv := checkAndRemoveBubbles_inv bi (findGroups_bounded bi h)
    (by rw [hg.frame.options]; exact hfill) hglass hleaves
  have hpa := hg.scanned.booked.air_in_array p hp
  have hlab := hg.labelled p hp
  have hle := hg.group_le p hpa
  have hsol := hg.solidity p hpa hlab
  by_cases hs : ((findGroups bi s).gBoxData p).isSolid = true
  · rw [hinv.solid p hs, hs]
    rfl
  · have hs' : ((findGroups bi s).gBoxData p).isSolid = false := by simpa using hs
    rw [hs'] at hsol
    by_cases h1 : ((findGroups bi s).gBoxData p).group = 1
    · have hw := hinv.waiting 1 (le_refl 1) hg.count_pos hg.first_air
        (fun hm => by have := (mem_groupRange.1 hm).1; simp [SURROUND_AIR_GROUP] at this)
      rw [hw.2 p h1, hs']
      simp [h1]
    · rw [hinv.filled p hpa (mem_groupRange.2 ⟨by
        show 2 ≤ _
        omega, hle⟩) hsol, hs']
      simp [h1]

theorem checkAndRemoveBubbles_three (bi : BlockInfo) (t : ExportState)
    (hc : t.gGroupCount = 3) (ho : t.gOptions.EXPT_FILL_BUBBLES = true)
    (h2 : (t.gGroupList 2).solid = true) :
    checkAndRemoveBubbles bi t = removeBubble bi bi.BLOCK_GLASS t 3 := by
  unfold checkAndRemoveBubbles
  rw [hc, ho]
  show removeBubble bi bi.BLOCK_GLASS (removeBubble bi bi.BLOCK_GLASS t 2) 3 = _
  rw [removeBubble_solid _ _ _ _ h2]

theorem faceAdjacent_unsafe {p q : IPoint} (h : faceAdjacent p q) :
    ∃ d, d < 6 ∧ getNeighborUnsafe d p = q := by
  unfold faceAdjacent at h
  obtain ⟨px, py, pz⟩ := p
  obtain ⟨qx, qy, qz⟩ := q
  simp only at h
  have hx : px = qx ∨ px = qx + 1 ∨ px + 1 = qx := by omega
  have hy : py = qy ∨ py = qy + 1 ∨ py + 1 = qy := by omega
  have hz : pz = qz ∨ pz = qz + 1 ∨ pz + 1 = qz := by omega
  rcases hx with rfl | rfl | rfl <;> rcases hy with rfl | rfl | rfl <;>
    rcases hz with rfl | rfl | rfl <;> simp at h
  · exact ⟨2, by omega, by simp [getNeighborUnsafe]⟩
  · exact ⟨5, by omega, by simp [getNeighborUnsafe]⟩
  · exact ⟨1, by omega, by simp [getNeighborUnsafe]⟩
  · exact ⟨4, by omega, by simp [getNeighborUnsafe]⟩
  · exact ⟨0, by omega, by simp [getNeighborUnsafe]⟩
  · exact ⟨3, by omega, by simp [getNeighborUnsafe]⟩

theorem unsafe_faceAdjacent {d : Nat} (hd : d < 6) (p : IPoint) :
    faceAdjacent p (getNeighborUnsafe d p) := by
  unfold faceAdjacent
  have h6 : d = 0 ∨ d = 1 ∨ d = 2 ∨ d = 3 ∨ d = 4 ∨ d = 5 := by omega
  rcases h6 with rfl | rfl | rfl | rfl | rfl | rfl <;> simp [getNeighborUnsafe]

theorem setFlags_pos (f : Nat → Nat) (ks : List Nat) :
    ∀ (ng : Nat → Int) (g : Nat),
      (ks.foldl (fun ng k => setFlag ng (f k) 1) ng) g > 0 ↔ ng g > 0 ∨ ∃ k ∈ ks, f k = g := by
  induction ks with
  | nil => intro ng g; simp
  | cons k ks ih =>
    intro ng g
    rw [List.foldl_cons, ih]
    unfold setFlag
    by_cases hg : g = f k
    · subst hg
      simp
    · have hg' : ¬ f k = g := fun e => hg e.symm
      simp [hg, hg']

theorem findNeighboringCell_pos (s : ExportState) (groupID : Nat) (ng : Nat → Int)
    (loc : IPoint) (g : Nat) :
    findNeighboringCell s groupID ng loc g > 0 ↔
      ng g > 0 ∨ ((s.gBoxData loc).group = groupID ∧
        ∃ k, k < 6 ∧ (s.gBoxData (getNeighborUnsafe k loc)).group = g) := by
  unfold findNeighboringCell
  split
  · rename_i h
    rw [setFlags_pos (fun k => (s.gBoxData (getNeighborUnsafe k loc)).group)]
    simp [h]
  · rename_i h
    simp [h]

/-- The flags that `findNeighboringGroups` leaves set: those set before, and the
groups of the face neighbours of the cells of the bounds that are in the group. -/
theorem findNeighboringGroups_pos (s : ExportState) (bounds : IBox) (groupID : Nat)
    (ng : Nat → Int) (g : Nat) :
    findNeighboringGroups s bounds groupID ng g > 0 ↔
      ng g > 0 ∨ ∃ p, bounds.contains p = true ∧ (s.gBoxData p).group = groupID ∧
        ∃ k, k < 6 ∧ (s.gBoxData (getNeighborUnsafe k p)).group = g := by
  unfold findNeighboringGroups
  have key : ∀ (l : List IPoint) (ng : Nat → Int),
      (l.foldl (findNeighboringCell s groupID) ng) g > 0 ↔
        ng g > 0 ∨ ∃ p ∈ l, (s.gBoxData p).group = groupID ∧
          ∃ k, k < 6 ∧ (s.gBoxData (getNeighborUnsafe k p)).group = g := by
    intro l
    induction l with
    | nil => intro ng; simp
    | cons x l ih =>
      intro ng
      rw [List.foldl_cons, ih, findNeighboringCell_pos]
      constructor
      · rintro ((h | h) | ⟨p, hp, h⟩)
        · exact Or.inl h
        · exact Or.inr ⟨x, List.mem_cons_self _ _, h⟩
        · exact Or.inr ⟨p, List.mem_cons_of_mem _ hp, h⟩
      · rintro (h | ⟨p, hp, h⟩)
        · exact Or.inl (Or.inl h)
        · rcases List.mem_cons.1 hp with rfl | hp
          · exact Or.inl (Or.inr h)
          · exact Or.inr ⟨p, hp, h⟩
  rw [key]
  simp only [mem_boxCells]
theorem inside_contains {a b : IBox} {p : IPoint} (h : a.inside b) (hp : b.contains p = true) :
    a.contains p = true := by
  rw [contains_iff] at hp ⊢
  unfold IBox.inside at h
  omega

theorem addBoundsToBounds_inside {a b c : IBox} (hb : a.inside b) (hc : a.inside c) :
    a.inside (addBoundsToBounds b c) := by
  unfold IBox.inside at *
  unfold addBoundsToBounds
  simp only []
  refine ⟨?_, ?_, ?_, ?_, ?_, ?_⟩ <;> split <;> omega

theorem unionBounds_inside (s : ExportState) (ng : Nat → Int) (h : Hulled s)
    (he : (arrayBox s).inside emptyBounds) : (arrayBox s).inside (unionBounds s ng) := by
  unfold unionBounds
  apply foldl_inv (fun r : IBox => (arrayBox s).inside r)
  · exact he
  · intro r g hg hr
    unfold unionBoundsStep
    split
    · exact addBoundsToBounds_inside (h g hg) hr
    · exact hr

theorem fillGroupsCell_population (bi : BlockInfo) (m : Nat) (solid : Bool) (fillType : Nat)
    (tg : Nat → Int) (s : ExportState) (loc : IPoint) (h : tg (s.gBoxData loc).group > 0)
    (g : Nat) :
    ((fillGroupsCell bi m solid fillType tg s loc).gGroupList g).population =
      (s.gGroupList g).population - (if g = (s.gBoxData loc).group then 1 else 0) +
        (if g = m then 1 else 0) := by
  rw [fillGroupsCell_eq bi m solid fillType tg s loc h]
  simp only []
  by_cases hgm : g = m
  · subst hgm
    rw [setGroup_same]
    simp only []
    by_cases hgi : g = (s.gBoxData loc).group
    · rw [← hgi, setGroup_same]
      simp
    · rw [setGroup_other _ _ hgi]
      simp [hgi]
  · rw [setGroup_other _ _ hgm]
    by_cases hgi : g = (s.gBoxData loc).group
    · rw [← hgi, setGroup_same]
      simp [hgm]
    · rw [setGroup_other _ _ hgi]
      simp [hgm, hgi]

theorem fillGroupsCell_pops (bi : BlockInfo) (m : Nat) (solid : Bool) (fillType : Nat)
    (tg : Nat → Int) (s : ExportState) (loc : IPoint)
    (hloc : (arrayBox s).contains loc = true)
    (hpop : ∀ g, 1 ≤ g → g ≤ s.gGroupCount →
      (s.gGroupList g).population = (groupCells s g : Int)) :
    ∀ g, 1 ≤ g → g ≤ s.gGroupCount →
      ((fillGroupsCell bi m solid fillType tg s loc).gGroupList g).population =
        (groupCells (fillGroupsCell bi m solid fillType tg s loc) g : Int) := by
  by_cases h : tg (s.gBoxData loc).group > 0
  swap
  · rw [fillGroupsCell_untargeted bi m solid fillType tg s loc h]
    exact hpop
  intro g hg1 hgle
  have hset := groupCells_set (s := s) (t := fillGroupsCell bi m solid fillType tg s loc)
    (q := loc)
    (c := { (if (s.gGroupList (s.gBoxData loc).group).solid ≠ solid then
              fillCellContent bi s loc solid fillType else s.gBoxData loc) with group := m })
    (by rw [fillGroupsCell_eq bi m solid fillType tg s loc h])
    (by rw [fillGroupsCell_eq bi m solid fillType tg s loc h]) g
  have hp := hpop g hg1 hgle
  rw [fillGroupsCell_population bi m solid fillType tg s loc h g, hp]
  by_cases hgm : g = m
  · by_cases hgi : (s.gBoxData loc).group = g
    · rw [hset.2.1 hgi hgm.symm, if_pos hgi.symm, if_pos hgm]
      ring
    · rw [hset.2.2.1 hloc hgi hgm.symm, if_neg (fun e => hgi e.symm), if_pos hgm]
      push_cast
      ring
  · by_cases hgi : (s.gBoxData loc).group = g
    · have := hset.2.2.2 hloc hgi (fun e => hgm e.symm)
      rw [if_pos hgi.symm, if_neg hgm, ← this]
      push_cast
      ring
    · rw [hset.1 hgi (fun e => hgm e.symm), if_neg (fun e => hgi e.symm), if_neg hgm]
      ring

/-- The function `fillGroups`, run over bounds inside the array, keeps every
population equal to the number of cells of the group. -/
theorem fillGroups_pops (bi : BlockInfo) (s : ExportState) (bounds : IBox) (m : Nat)
    (solid : Bool) (fillType : Nat) (tg : Nat → Int)
    (hin : (arrayBox s).inside bounds)
    (hpop : ∀ g, 1 ≤ g → g ≤ s.gGroupCount →
      (s.gGroupList g).population = (groupCells s g : Int)) :
    ∀ g, 1 ≤ g → g ≤ s.gGroupCount →
      ((fillGroups bi s bounds m solid fillType tg).gGroupList g).population =
        (groupCells (fillGroups bi s bounds m solid fillType tg) g : Int) := by
  unfold fillGroups
  have key := foldl_inv
    (fun t : ExportState => t.gBoxSize = s.gBoxSize ∧ t.gGroupCount = s.gGroupCount ∧
      ∀ g, 1 ≤ g → g ≤ s.gGroupCount →
        (t.gGroupList g).population = (groupCells t g : Int))
    (fillGroupsCell bi m solid fillType tg) (boxCells bounds) s ⟨rfl, rfl, hpop⟩ ?_
  · exact key.2.2
  · rintro t x hx ⟨a, b, c⟩
    have hr := (fillGroupsCell_refilled bi m solid fillType tg t x).1
    refine ⟨hr.boxSize.trans a, hr.count.trans b, ?_⟩
    have hxa : (arrayBox t).contains x = true := by
      have : arrayBox t = arrayBox s := by simp [arrayBox, a]
      rw [this]
      exact inside_contains hin (mem_boxCells.1 hx)
    intro g h1 h2
    exact fillGroupsCell_pops bi m solid fillType tg t x hxa
      (fun g h1 h2 => c g h1 (by rw [← b]; exact h2)) g h1 (by rw [b]; exact h2)
theorem groupCells_pos {s : ExportState} {g : Nat} {q : IPoint}
    (hq : (arrayBox s).contains q = true) (hg : (s.gBoxData q).group = g) :
    1 ≤ groupCells s g := by
  unfold groupCells
  exact List.countP_pos_iff.2 ⟨q, mem_boxCells.2 hq, by simp [hg]⟩

theorem removeBubble_master (bi : BlockInfo) (fillType : Nat) (s : ExportState) (i : Nat)
    (hair : (s.gGroupList i).solid = false) (hpos : (bubbleMaster s i).masterGroupID ≥ 0) :
    removeBubble bi fillType s i =
      bubbleDone (fillGroups bi (bubbleCounted s (bubbleMaster s i))
        (unionBounds (bubbleCounted s (bubbleMaster s i))
          (setFlag (setFlag (bubbleMaster s i).neighborGroups
            (bubbleMaster s i).masterGroupID.toNat 0) i 1))
        (bubbleMaster s i).masterGroupID.toNat true fillType
        (setFlag (setFlag (bubbleMaster s i).neighborGroups
          (bubbleMaster s i).masterGroupID.toNat 0) i 1)) := by
  unfold removeBubble
  rw [if_pos hair]
  simp only []
  rw [if_pos hpos]

/-- The flags of `bubbleNeighbors` for the bubble `i`: the bubble itself and the
groups that touch it. -/
theorem bubbleNeighbors_pos {s : ExportState} {i : Nat} (hb : Booked s) (hbd : Bounded s)
    (hi2 : 2 ≤ i) (hile : i ≤ s.gGroupCount)
    (hassert : neighborAsserts s (s.gGroupList i).bounds) (g : Nat) :
    bubbleNeighbors s i g > 0 ↔ g = i ∨ touches s i g := by
  have hgid : (s.gGroupList i).groupID = i := hb.gid i (by omega) hile
  have hin : ∀ p, (s.gGroupList i).bounds.contains p = true →
      (arrayBox s).contains p = true := by
    intro p hp
    unfold neighborAsserts at hassert
    rw [contains_iff] at hp ⊢
    simp only [arrayBox]
    omega
  unfold bubbleNeighbors
  rw [findNeighboringGroups_pos, hgid]
  constructor
  · rintro (h | ⟨p, hp, hpg, k, hk, hq⟩)
    · left
      unfold setFlag at h
      by_contra hne
      rw [if_neg hne] at h
      exact absurd h (by simp)
    · right
      exact ⟨p, getNeighborUnsafe k p, hin p hp, hpg, unsafe_faceAdjacent hk p, hq⟩
  · rintro (h | ⟨p, q, hpa, hpg, hadj, hq⟩)
    · left
      simp [setFlag, h]
    · right
      obtain ⟨k, hk, e⟩ := faceAdjacent_unsafe hadj
      refine ⟨p, ?_, hpg, k, hk, by rw [e]; exact hq⟩
      have := hbd p hpa (by rw [hpg]; exact hi2)
      rw [hpg] at this
      exact this
theorem touchMark_inv {s t : ExportState} (n : IPoint) (bits : Nat) (h : TouchInv s t)
    (hair : (s.gBoxData n).type = BLOCK_AIR)
    (hnear : touchOrigin s n) (hedge : touchEdge s n) :
    TouchInv s (touchMark t n bits) ∧
    (∀ p, (t.gTouchGrid p).count ≤ ((touchMark t n bits).gTouchGrid p).count) ∧
    0 < ((touchMark t n bits).gTouchGrid n).count := by
  have hc : ∀ p, ((touchMark t n bits).gTouchGrid p).count =
      if p = n then (t.gTouchGrid n).count + 1 else (t.gTouchGrid p).count := by
    intro p
    simp only [touchMark, setTouch]
    split <;> rfl
  have hsz : (touchMark t n bits).gTouchSize =
      if (t.gTouchGrid n).count = 0 then t.gTouchSize + 1 else t.gTouchSize := rfl
  have hn := h.nonneg n
  have hs := h.size_nonneg
  have hpos : 0 < (touchMark t n bits).gTouchSize := by
    rw [hsz]
    split
    · omega
    · exact h.sized n (by omega)
  have hcn : 0 < ((touchMark t n bits).gTouchGrid n).count := by
    rw [hc, if_pos rfl]
    omega
  refine ⟨⟨h.data, h.options, h.solidBox, h.groupList, h.solidGroups, ?_, ?_, ?_, ?_, ?_, ?_,
    fun _ => ⟨n, hcn⟩, h.welded⟩, ?_, hcn⟩
  · intro p
    rw [hc]
    split
    · omega
    · exact h.nonneg p
  · exact hpos.le
  · intro p _
    exact hpos
  · intro p hp
    rw [hc] at hp
    by_cases hpn : p = n
    · rw [hpn]; exact hair
    · rw [if_neg hpn] at hp
      exact h.air p hp
  · intro p hp
    rw [hc] at hp
    by_cases hpn : p = n
    · rw [hpn]; exact hnear
    · rw [if_neg hpn] at hp
      exact h.origin p hp
  · intro p hp
    rw [hc] at hp
    by_cases hpn : p = n
    · rw [hpn]; exact hedge
    · rw [if_neg hpn] at hp
      exact h.edge p hp
  · intro p
    rw [hc]
    split
    · rename_i e
      rw [e]
      omega
    · exact le_refl _

theorem touchPair_spec (s : ExportState) (b : IPoint) (o : Int × Int × Int)
    (ho : o ∈ scanOffsets) :
    (∃ n1 n2, touchPair s b o.1 o.2.1 o.2.2 =
      if (s.gBoxData (b.shift (secondAir o))).type = BLOCK_AIR then
        some (b.shift (firstAir o), b.shift (secondAir o), n1, n2) else none) := by
  simp only [scanOffsets, List.mem_cons, List.mem_singleton, List.not_mem_nil, or_false] at ho
  rcases ho with rfl | rfl | rfl | rfl | rfl | rfl <;>
    simp [touchPair, firstAir, secondAir, IPoint.shift] <;> exact ⟨_, _, rfl⟩

theorem shift_adjacent (b : IPoint) (o : Int × Int × Int) (ho : o ∈ scanOffsets) :
    faceAdjacent (b.shift (firstAir o)) b ∧ faceAdjacent (b.shift (secondAir o)) b ∧
    faceAdjacent (b.shift (firstAir o)) (b.shift o) ∧
    faceAdjacent (b.shift (secondAir o)) (b.shift o) := by
  simp only [scanOffsets, List.mem_cons, List.mem_singleton, List.not_mem_nil, or_false] at ho
  rcases ho with rfl | rfl | rfl | rfl | rfl | rfl <;>
    simp [faceAdjacent, firstAir, secondAir, IPoint.shift, IPoint.offset]

theorem touchInv_stats {s t : ExportState} (h : TouchInv s t) (st : ExportStatistics)
    (hst : st.blocksManifoldWelded = t.gStats.blocksManifoldWelded) :
    TouchInv s { t with gStats := st } :=
  ⟨h.data, h.options, h.solidBox, h.groupList, h.solidGroups, h.nonneg, h.size_nonneg, h.sized,
    h.air, h.origin, h.edge, h.witness, hst.trans h.welded⟩

/-- One call of `checkForTouchingEdge` from the solid cell `b` in one of the six
directions of the scan: the invariant of the scan is kept, no count drops, and if
the edge is a touching edge that is looked for, one of its two air cells is
marked. -/
theorem checkForTouchingEdge_inv {s t : ExportState} (b : IPoint) (o : Int × Int × Int)
    (ho : o ∈ scanOffsets) (h : TouchInv s t) (hbox : s.gSolidBox.contains b = true)
    (hb : (s.gBoxData b).isSolid = true)
    (h1 : (s.gBoxData (b.shift (firstAir o))).type = BLOCK_AIR) :
    TouchInv s (checkForTouchingEdge t b o.1 o.2.1 o.2.2) ∧
    (∀ p, (t.gTouchGrid p).count ≤
      ((checkForTouchingEdge t b o.1 o.2.1 o.2.2).gTouchGrid p).count) ∧
    ((s.gBoxData (b.shift o)).isSolid = true →
      (s.gOptions.EXPT_CONNECT_ALL_EDGES = true ∨
        (s.gBoxData b).group ≠ (s.gBoxData (b.shift o)).group) →
      (s.gBoxData (b.shift (secondAir o))).type = BLOCK_AIR →
      0 < ((checkForTouchingEdge t b o.1 o.2.1 o.2.2).gTouchGrid (b.shift (firstAir o))).count ∨
      0 < ((checkForTouchingEdge t b o.1 o.2.1 o.2.2).gTouchGrid
        (b.shift (secondAir o))).count) := by
  obtain ⟨m1, m2, hp⟩ := touchPair_spec t b o ho
  have hd := h.data
  have hs : b.offset o.1 o.2.1 o.2.2 = b.shift o := rfl
  unfold checkForTouchingEdge
  simp only []
  rw [hp, hs]
  by_cases c1 : (t.gBoxData (b.shift o)).isSolid = true
  swap
  · rw [if_neg c1]
    exact ⟨h, fun _ => le_refl _, fun hc => absurd (by rw [hd]; exact hc) c1⟩
  rw [if_pos c1]
  have c1' : (s.gBoxData (b.shift o)).isSolid = true := by rw [← hd]; exact c1
  have hn1 : touchOrigin s (b.shift (firstAir o)) := ⟨b, o, ho, hbox, hb, c1', Or.inl rfl⟩
  have hn2 : touchOrigin s (b.shift (secondAir o)) := ⟨b, o, ho, hbox, hb, c1', Or.inr rfl⟩
  by_cases c2 : t.gOptions.EXPT_CONNECT_ALL_EDGES = true ∨
      (t.gBoxData b).group ≠ (t.gBoxData (b.shift o)).group
  swap
  · rw [if_neg c2]
    exact ⟨h, fun _ => le_refl _, fun _ hc => absurd (by rw [hd, h.options]; exact hc) c2⟩
  rw [if_pos c2]
  by_cases c3 : (t.gBoxData (b.shift (secondAir o))).type = BLOCK_AIR
  swap
  · rw [if_neg c3]
    exact ⟨h, fun _ => le_refl _, fun _ _ hc => absurd (by rw [hd]; exact hc) c3⟩
  rw [if_pos c3]
  simp only []
  have c3' : (s.gBoxData (b.shift (secondAir o))).type = BLOCK_AIR := by rw [← hd]; exact c3
  have h' := touchInv_stats h
    { t.gStats with nonManifoldEdgesFound := t.gStats.nonManifoldEdgesFound + 1 } rfl
  have he1 : touchEdge s (b.shift (firstAir o)) := ⟨b, o, ho, hb, c1', h1, c3', Or.inl rfl⟩
  have he2 : touchEdge s (b.shift (secondAir o)) := ⟨b, o, ho, hb, c1', h1, c3', Or.inr rfl⟩
  generalize computeObscurity _ (b.shift (firstAir o)) = x1
  generalize computeObscurity _ (b.shift (secondAir o)) = x2
  by_cases d1 : x1 ≥ x2
  · rw [if_pos d1]
    obtain ⟨k1, k2, k3⟩ := touchMark_inv (b.shift (firstAir o))
      (if decide (x1 = x2) = true then m1 else 0) h' h1 hn1 he1
    by_cases d2 : x2 ≥ x1
    · rw [if_pos d2]
      obtain ⟨j1, j2, j3⟩ := touchMark_inv (b.shift (secondAir o))
        (if decide (x1 = x2) = true then m2 else 0) k1 c3' hn2 he2
      exact ⟨j1, fun p => (k2 p).trans (j2 p), fun _ _ _ => Or.inr j3⟩
    · rw [if_neg d2]
      exact ⟨k1, k2, fun _ _ _ => Or.inl k3⟩
  · rw [if_neg d1]
    have d2 : x2 ≥ x1 := by omega
    rw [if_pos d2]
    obtain ⟨j1, j2, j3⟩ := touchMark_inv (b.shift (secondAir o))
      (if decide (x1 = x2) = true then m2 else 0) h' c3' hn2 he2
    exact ⟨j1, j2, fun _ _ _ => Or.inr j3⟩

theorem edgeMarked_mono {s u v : ExportState} {b : IPoint} {o : Int × Int × Int}
    (h : edgeMarked s u b o) (hm : ∀ p, (u.gTouchGrid p).count ≤ (v.gTouchGrid p).count) :
    edgeMarked s v b o := by
  intro a1 a2 a3 a4 a5
  rcases h a1 a2 a3 a4 a5 with k | k
  · exact Or.inl (lt_of_lt_of_le k (hm _))
  · exact Or.inr (lt_of_lt_of_le k (hm _))

theorem edge_call {s t u : ExportState} {b : IPoint} {os : List (Int × Int × Int)}
    (o : Int × Int × Int) (ho : o ∈ scanOffsets) (hbox : s.gSolidBox.contains b = true)
    (hb : (s.gBoxData b).isSolid = true)
    (h1 : (s.gBoxData (b.shift (firstAir o))).type = BLOCK_AIR)
    (h : TouchInv s u ∧ (∀ p, (t.gTouchGrid p).count ≤ (u.gTouchGrid p).count) ∧
      ∀ x ∈ os, edgeMarked s u b x) :
    TouchInv s (checkForTouchingEdge u b o.1 o.2.1 o.2.2) ∧
    (∀ p, (t.gTouchGrid p).count ≤
      ((checkForTouchingEdge u b o.1 o.2.1 o.2.2).gTouchGrid p).count) ∧
    ∀ x ∈ o :: os, edgeMarked s (checkForTouchingEdge u b o.1 o.2.1 o.2.2) b x := by
  obtain ⟨k1, k2, k3⟩ := checkForTouchingEdge_inv b o ho h.1 hbox hb h1
  refine ⟨k1, fun p => (h.2.1 p).trans (k2 p), ?_⟩
  intro x hx
  rcases List.mem_cons.1 hx with rfl | hx
  · intro _ a2 a3 _ a5
    exact k3 a2 a3 a5
  · exact edgeMarked_mono (h.2.2 x hx) k2

/-- The body of the scan of `fixTouchingEdges` at the cell `b`: the invariant of the
scan is kept, no count drops, and every touching edge from `b` in one of the six
directions that is looked for has one of its air cells marked. -/
theorem touchScanCell_inv {s t : ExportState} (b : IPoint) (h : TouchInv s t)
    (hbox : s.gSolidBox.contains b = true) :
    TouchInv s (touchScanCell t b) ∧
    (∀ p, (t.gTouchGrid p).count ≤ ((touchScanCell t b).gTouchGrid p).count) ∧
    ∀ o ∈ scanOffsets, edgeMarked s (touchScanCell t b) b o := by
  unfold touchScanCell
  by_cases hb : (t.gBoxData b).isSolid = true
  swap
  · rw [if_neg hb]
    refine ⟨h, fun _ => le_refl _, ?_⟩
    intro o _ a1
    rw [← h.data] at a1
    exact absurd a1 hb
  rw [if_pos hb]
  have hb' : (s.gBoxData b).isSolid = true := by rw [← h.data]; exact hb
  have h0 : TouchInv s t ∧ (∀ p, (t.gTouchGrid p).count ≤ (t.gTouchGrid p).count) ∧
      ∀ x ∈ ([] : List (Int × Int × Int)), edgeMarked s t b x :=
    ⟨h, fun _ => le_refl _, fun x hx => by simp at hx⟩
  -- the four edges of the +X face
  have hX : ∃ u, u = (if (t.gBoxData (b.offset 1 0 0)).type = BLOCK_AIR then
        checkForTouchingEdge (checkForTouchingEdge (checkForTouchingEdge
          (checkForTouchingEdge t b 1 (-1) 0) b 1 0 (-1)) b 1 1 0) b 1 0 1
      else t) ∧ TouchInv s u ∧ (∀ p, (t.gTouchGrid p).count ≤ (u.gTouchGrid p).count) ∧
      ∀ x ∈ [((1 : Int), (0 : Int), (1 : Int)), (1, 1, 0), (1, 0, -1), (1, -1, 0)],
        edgeMarked s u b x := by
    refine ⟨_, rfl, ?_⟩
    by_cases hx : (t.gBoxData (b.offset 1 0 0)).type = BLOCK_AIR
    · rw [if_pos hx]
      have hx' : (s.gBoxData (b.offset 1 0 0)).type = BLOCK_AIR := by rw [← h.data]; exact hx
      have c1 := edge_call (b := b) (1, -1, 0) (by simp [scanOffsets]) hbox hb' hx' h0
      have c2 := edge_call (b := b) (1, 0, -1) (by simp [scanOffsets]) hbox hb' hx' c1
      have c3 := edge_call (b := b) (1, 1, 0) (by simp [scanOffsets]) hbox hb' hx' c2
      exact edge_call (b := b) (1, 0, 1) (by simp [scanOffsets]) hbox hb' hx' c3
    · rw [if_neg hx]
      refine ⟨h, fun _ => le_refl _, ?_⟩
      intro x hx2 _ _ _ a4
      have : b.shift (firstAir x) = b.offset 1 0 0 := by
        simp only [List.mem_cons, List.mem_singleton, List.not_mem_nil, or_false] at hx2
        rcases hx2 with rfl | rfl | rfl | rfl <;> rfl
      rw [this, ← h.data] at a4
      exact absurd a4 hx
  obtain ⟨u, hu, k1, k2, k3⟩ := hX
  simp only []
  rw [← hu]
  by_cases hz : (u.gBoxData (b.offset 0 0 1)).type = BLOCK_AIR
  · rw [if_pos hz]
    have hz' : (s.gBoxData (b.offset 0 0 1)).type = BLOCK_AIR := by rw [← k1.data]; exact hz
    have c1 := edge_call (b := b) (0, -1, 1) (by simp [scanOffsets]) hbox hb' hz' ⟨k1, k2, k3⟩
    have c2 := edge_call (b := b) (0, 1, 1) (by simp [scanOffsets]) hbox hb' hz' c1
    refine ⟨c2.1, c2.2.1, ?_⟩
    intro o ho
    apply c2.2.2
    simp only [scanOffsets, List.mem_cons, List.mem_singleton, List.not_mem_nil, or_false] at ho ⊢
    tauto
  · rw [if_neg hz]
    refine ⟨k1, k2, ?_⟩
    intro o ho
    simp only [scanOffsets, List.mem_cons, List.mem_singleton, List.not_mem_nil, or_false] at ho
    rcases ho with rfl | rfl | rfl | rfl | rfl | rfl
    · exact k3 _ (by simp)
    · exact k3 _ (by simp)
    · exact k3 _ (by simp)
    · exact k3 _ (by simp)
    · intro _ _ _ a4
      have : (⟨b.x, b.y, b.z⟩ : IPoint).shift (firstAir (0, -1, 1)) = b.offset 0 0 1 := rfl
      rw [this, ← k1.data] at a4
      exact absurd a4 hz
    · intro _ _ _ a4
      have : (⟨b.x, b.y, b.z⟩ : IPoint).shift (firstAir (0, 1, 1)) = b.offset 0 0 1 := rfl
      rw [this, ← k1.data] at a4
      exact absurd a4 hz
/-- The scan of `fixTouchingEdges`: its invariant holds at the end, and every
touching edge that is looked for, from a cell of the solid box in one of the six
directions, has one of its two air cells marked. -/
theorem touchScan_inv (s : ExportState) :
    TouchInv s (touchScan s) ∧
    ∀ b, s.gSolidBox.contains b = true → ∀ o ∈ scanOffsets, edgeMarked s (touchScan s) b o := by
  unfold touchScan
  have key := foldl_prefix_inv touchScanCell
    (fun (pre : List IPoint) (t : ExportState) => TouchInv s t ∧
      ∀ b ∈ pre, ∀ o ∈ scanOffsets, edgeMarked s t b o)
    (boxCells s.gSolidBox) { s with gTouchGrid := fun _ => ⟨0, 0, 0⟩, gTouchSize := 0 }
    ⟨⟨rfl, rfl, rfl, rfl, rfl, fun _ => le_refl _, le_refl _, fun p hp => absurd hp (lt_irrefl _),
      fun p hp => absurd hp (lt_irrefl _), fun p hp => absurd hp (lt_irrefl _),
      fun p hp => absurd hp (lt_irrefl _), fun hp => absurd hp (lt_irrefl _), rfl⟩,
      fun b hb => by simp at hb⟩ ?_
  · exact ⟨key.1, fun b hb => key.2 b (mem_boxCells.2 hb)⟩
  · rintro pre x post t hl ⟨k1, k2⟩
    have hx : s.gSolidBox.contains x = true := by
      apply mem_boxCells.1
      show x ∈ boxCells s.gSolidBox
      have : boxCells s.gSolidBox = pre ++ x :: post := hl
      rw [this]
      simp
    obtain ⟨j1, j2, j3⟩ := touchScanCell_inv x k1 hx
    refine ⟨j1, ?_⟩
    intro b hb
    rcases List.mem_append.1 hb with hb | hb
    · exact fun o ho => edgeMarked_mono (k2 b hb o ho) j2
    · simp at hb
      rw [hb]
      exact j3

theorem diagonal_normal {a b : IPoint} (h : edgeDiagonal a b) :
    ∃ o ∈ scanOffsets, b = a.shift o ∨ a = b.shift o := by
  unfold edgeDiagonal at h
  obtain ⟨ax, ay, az⟩ := a
  obtain ⟨bx, bY, bz⟩ := b
  simp only at h
  have hx : bx = ax ∨ bx = ax + 1 ∨ bx = ax - 1 := by omega
  have hy : bY = ay ∨ bY = ay + 1 ∨ bY = ay - 1 := by omega
  have hz : bz = az ∨ bz = az + 1 ∨ bz = az - 1 := by omega
  rcases hx with rfl | rfl | rfl <;> rcases hy with rfl | rfl | rfl <;>
    rcases hz with rfl | rfl | rfl <;>
    first
    | (exfalso; omega)
    | (refine ⟨(1, -1, 0), by simp [scanOffsets], ?_⟩
       simp [IPoint.shift, IPoint.offset]
       all_goals omega)
    | (refine ⟨(1, 0, -1), by simp [scanOffsets], ?_⟩
       simp [IPoint.shift, IPoint.offset]
       all_goals omega)
    | (refine ⟨(1, 1, 0), by simp [scanOffsets], ?_⟩
       simp [IPoint.shift, IPoint.offset]
       all_goals omega)
    | (refine ⟨(1, 0, 1), by simp [scanOffsets], ?_⟩
       simp [IPoint.shift, IPoint.offset]
       all_goals omega)
    | (refine ⟨(0, -1, 1), by simp [scanOffsets], ?_⟩
       simp [IPoint.shift, IPoint.offset]
       all_goals omega)
    | (refine ⟨(0, 1, 1), by simp [scanOffsets], ?_⟩
       simp [IPoint.shift, IPoint.offset])

theorem between_in_box {b : IBox} {a : IPoint} {o : Int × Int × Int} (ho : o ∈ scanOffsets)
    (ha : b.contains a = true) (hb : b.contains (a.shift o) = true) :
    b.contains (a.shift (firstAir o)) = true ∧ b.contains (a.shift (secondAir o)) = true := by
  simp only [scanOffsets, List.mem_cons, List.mem_singleton, List.not_mem_nil, or_false] at ho
  rw [contains_iff] at ha hb
  rw [contains_iff, contains_iff]
  rcases ho with rfl | rfl | rfl | rfl | rfl | rfl
  all_goals
    simp only [IPoint.shift, IPoint.offset, firstAir, secondAir] at hb ⊢
    simp at hb ⊢
    omega

theorem fixTouchingEdges_eq (bi : BlockInfo) (qsort_s : Qsort) (s : ExportState) :
    fixTouchingEdges bi qsort_s s =
      if (touchScan s).gTouchSize = 0 then (0, touchScan s)
      else
        (if (touchList (touchScan s)).length ≠ 0 then 1 else 0,
          { ((qsort_s (touchRecordCompare (touchScan s)) (touchList (touchScan s))).map
                fun r => r.boxIndex).foldl (fillTouchCell bi) (touchScan s) with
            gStats := { (((qsort_s (touchRecordCompare (touchScan s))
                (touchList (touchScan s))).map
                  fun r => r.boxIndex).foldl (fillTouchCell bi) (touchScan s)).gStats with
              numberManifoldPasses := (((qsort_s (touchRecordCompare (touchScan s))
                (touchList (touchScan s))).map
                  fun r => r.boxIndex).foldl (fillTouchCell bi) (touchScan s)).gStats.numberManifoldPasses
                    + 1 } }) := rfl

theorem touchList_mem {t : ExportState} {p : IPoint} (hp : t.gSolidBox.contains p = true)
    (hc : 0 < (t.gTouchGrid p).count) : (touchList t).length ≠ 0 := by
  have : (touchList t) ≠ [] := by
    unfold touchList
    intro e
    have hm : p ∈ (boxCells t.gSolidBox).filter fun p => decide ((t.gTouchGrid p).count > 0) := by
      rw [List.mem_filter]
      exact ⟨mem_boxCells.2 hp, by simpa using hc⟩
    rw [List.map_eq_nil_iff] at e
    rw [e] at hm
    simp at hm
  intro e
  exact this (List.length_eq_zero.1 e)

/-- With all edges connected, a touching edge between two solid cells of the solid
box has left a mark in the touch grid when the scan of `fixTouchingEdges` is over. -/
theorem touchScan_marks {s : ExportState} (hall : s.gOptions.EXPT_CONNECT_ALL_EDGES = true)
    {a b : IPoint} (ha : s.gSolidBox.contains a = true) (hb : s.gSolidBox.contains b = true)
    (hsa : (s.gBoxData a).isSolid = true) (hsb : (s.gBoxData b).isSolid = true)
    (hd : edgeDiagonal a b)
    (hno : ∀ c, faceAdjacent a c → faceAdjacent b c → (s.gBoxData c).isSolid = false) :
    ∃ p, s.gSolidBox.contains p = true ∧ 0 < ((touchScan s).gTouchGrid p).count := by
  obtain ⟨_, hmark⟩ := touchScan_inv s
  have hair : ∀ c, faceAdjacent a c → faceAdjacent b c → (s.gBoxData c).type = BLOCK_AIR := by
    intro c h1 h2
    have := hno c h1 h2
    by_contra hne
    have : (s.gBoxData c).isSolid = true := by
      rw [isSolid_iff]
      unfold BLOCK_AIR at hne
      omega
    rw [hno c h1 h2] at this
    exact absurd this (by simp)
  have main : ∀ x y : IPoint, s.gSolidBox.contains x = true → s.gSolidBox.contains y = true →
      (s.gBoxData x).isSolid = true → (s.gBoxData y).isSolid = true →
      (∀ c, faceAdjacent x c → faceAdjacent y c → (s.gBoxData c).type = BLOCK_AIR) →
      ∀ o ∈ scanOffsets, y = x.shift o →
      ∃ p, s.gSolidBox.contains p = true ∧ 0 < ((touchScan s).gTouchGrid p).count := by
    intro x y hx hy hsx hsy hxy o ho e
    obtain ⟨a1, a2, a3, a4⟩ := shift_adjacent x o ho
    rw [← e] at a3 a4
    obtain ⟨b1, b2⟩ := between_in_box ho hx (by rw [← e]; exact hy)
    rcases hmark x hx o ho hsx (by rw [← e]; exact hsy) (Or.inl hall)
      (hxy _ (faceAdjacent_symm a1) (faceAdjacent_symm a3))
      (hxy _ (faceAdjacent_symm a2) (faceAdjacent_symm a4)) with k | k
    · exact ⟨_, b1, k⟩
    · exact ⟨_, b2, k⟩
  obtain ⟨o, ho, e | e⟩ := diagonal_normal hd
  · exact main a b ha hb hsa hsb hair o ho e
  · exact main b a hb ha hsb hsa (fun c h1 h2 => hair c h2 h1) o ho e

theorem fillTouchCell_eq (bi : BlockInfo) (s : ExportState) (boxIndex : IPoint) :
    fillTouchCell bi s boxIndex =
      if (s.gTouchGrid boxIndex).count > 0 then
        if (touchFaces (decrementNeighbors s boxIndex) boxIndex).faceGroupID.length > 1 then
          fillGroups bi (weldCounted bi (decrementNeighbors s boxIndex) boxIndex)
            (weldTargets bi (decrementNeighbors s boxIndex) boxIndex).2
            (touchMaster (decrementNeighbors s boxIndex) boxIndex) true bi.BLOCK_LAVA
            (weldTargets bi (decrementNeighbors s boxIndex) boxIndex).1
        else weldCell bi (decrementNeighbors s boxIndex) boxIndex
      else s := by
  unfold fillTouchCell
  split
  · rfl
  · rfl
theorem decrementNeighbor_count (boxIndex : IPoint) (connections : Nat)
    (t : IPoint → TouchCell) (e : Nat × (Int × Int × Int) × Nat) (p : IPoint) :
    (decrementNeighbor boxIndex connections t e p).count ≤ (t p).count := by
  unfold decrementNeighbor
  split
  · simp only [setTouch]
    split
    · rename_i h
      rw [h]
      simp
    · exact le_refl _
  · exact le_refl _

/-- The function `decrementNeighbors` changes the touch grid only, and raises no
count when the count of the cell itself is positive. -/
theorem decrementNeighbors_spec (s : ExportState) (x : IPoint)
    (hx : 0 < (s.gTouchGrid x).count) :
    (decrementNeighbors s x).gBoxData = s.gBoxData ∧
    (decrementNeighbors s x).gGroupList = s.gGroupList ∧
    (decrementNeighbors s x).gOptions = s.gOptions ∧
    (decrementNeighbors s x).gSolidBox = s.gSolidBox ∧
    ∀ p, ((decrementNeighbors s x).gTouchGrid p).count ≤ (s.gTouchGrid p).count := by
  refine ⟨rfl, rfl, rfl, rfl, ?_⟩
  intro p
  have key : ∀ q, (touchTable.foldl (decrementNeighbor x (s.gTouchGrid x).connections)
      s.gTouchGrid q).count ≤ (s.gTouchGrid q).count := by
    apply foldl_inv (fun t : IPoint → TouchCell => ∀ q, (t q).count ≤ (s.gTouchGrid q).count)
    · intro q
      exact le_refl _
    · intro t e _ ht q
      exact (decrementNeighbor_count x _ t e q).trans (ht q)
  show (setTouch _ x _ p).count ≤ _
  unfold setTouch
  split
  · rename_i h
    rw [h]
    exact hx.le
  · exact key p

theorem faceSearchStep_mtl (s : ExportState) (x : IPoint) (a : FaceSearch) (k : Nat) :
    (faceSearchStep s x a k).boxMtlIndex =
      if (s.gBoxData (getNeighborUnsafe k x)).isSolid = true then
        (if a.boxMtlIndex.isNone = true then some (getNeighborUnsafe k x) else a.boxMtlIndex)
      else a.boxMtlIndex := by
  unfold faceSearchStep
  simp only []
  by_cases hs : (s.gBoxData (getNeighborUnsafe k x)).isSolid = true
  · rw [if_pos hs, if_pos hs]
    by_cases hn : a.boxMtlIndex.isNone = true
    · rw [if_pos hn, if_pos hn]
      split <;> rfl
    · rw [if_neg hn, if_neg hn]
      split <;> rfl
  · rw [if_neg hs, if_neg hs]

/-- The loop over the six neighbours in `fixTouchingEdges`: the cell whose block is
copied is a solid cell, and there is one if a face neighbour is solid. -/
theorem touchFaces_spec (s : ExportState) (x : IPoint) :
    (∀ index, (touchFaces s x).boxMtlIndex = some index →
      (s.gBoxData index).isSolid = true) ∧
    ((∃ q, faceAdjacent x q ∧ (s.gBoxData q).isSolid = true) →
      (touchFaces s x).boxMtlIndex ≠ none) := by
  have key := foldl_range_inv
    (fun (n : Nat) (a : FaceSearch) =>
      (∀ index, a.boxMtlIndex = some index → (s.gBoxData index).isSolid = true) ∧
      (∀ k, k < n → (s.gBoxData (getNeighborUnsafe k x)).isSolid = true →
        a.boxMtlIndex ≠ none))
    (faceSearchStep s x) 6 ⟨none, []⟩
    ⟨fun _ h => by simp at h, fun k hk => absurd hk (Nat.not_lt_zero k)⟩ ?_
  · refine ⟨key.1, ?_⟩
    rintro ⟨q, hq, hs⟩
    obtain ⟨k, hk, e⟩ := faceAdjacent_unsafe hq
    exact key.2 k hk (by rw [e]; exact hs)
  · rintro k a _ ⟨h1, h2⟩
    rw [faceSearchStep_mtl]
    by_cases hs : (s.gBoxData (getNeighborUnsafe k x)).isSolid = true
    · rw [if_pos hs]
      by_cases hn : a.boxMtlIndex.isNone = true
      · rw [if_pos hn]
        refine ⟨?_, fun _ _ _ => by simp⟩
        intro index e
        simp only [Option.some.injEq] at e
        rw [← e]
        exact hs
      · rw [if_neg hn]
        refine ⟨h1, fun _ _ _ e => ?_⟩
        rw [e] at hn
        simp at hn
    · rw [if_neg hs]
      refine ⟨h1, ?_⟩
      intro j hj hsj
      by_cases hjk : j = k
      · rw [hjk] at hsj
        exact absurd hsj hs
      · exact h2 j (by omega) hsj
theorem fillGroups_touch (bi : BlockInfo) (s : ExportState) (bounds : IBox) (m : Nat)
    (solid : Bool) (fillType : Nat) (tg : Nat → Int) :
    (fillGroups bi s bounds m solid fillType tg).gTouchGrid = s.gTouchGrid := by
  unfold fillGroups
  apply foldl_inv (fun t : ExportState => t.gTouchGrid = s.gTouchGrid)
  · rfl
  · intro t x _ ht
    unfold fillGroupsCell
    split
    · exact ht
    · exact ht

/-- The function `fillGroups` with a fill type that is not air turns no solid cell
into air. -/
theorem fillGroups_mono (bi : BlockInfo) (s : ExportState) (bounds : IBox) (m : Nat)
    (solid : Bool) (fillType : Nat) (tg : Nat → Int)
    (hft : 0 < fillType % 256) (hl : 0 < bi.BLOCK_LEAVES) (p : IPoint)
    (hp : (s.gBoxData p).isSolid = true) :
    ((fillGroups bi s bounds m solid fillType tg).gBoxData p).isSolid = true := by
  have hf := fillGroups_spec bi s bounds m solid fillType tg
  by_cases htg : tg (s.gBoxData p).group > 0
  · by_cases hpb : p ∈ boxCells bounds
    · obtain ⟨⟨_, _, f3, f4⟩, _⟩ := hf.moved p hpb htg
      rw [isSolid_iff] at hp ⊢
      by_cases hs : (s.gGroupList (s.gBoxData p).group).solid = solid
      · rw [f3 hs]
        exact hp
      · rcases f4 hs with e | e <;> rw [e] <;> assumption
    · rw [hf.rest p hpb]
      exact hp
  · rw [hf.idle p htg]
    exact hp

theorem weldCell_solid (bi : BlockInfo) (s : ExportState) (x : IPoint)
    (hlava : 0 < bi.BLOCK_LAVA % 256)
    (hnear : ∃ q, faceAdjacent x q ∧ (s.gBoxData q).isSolid = true) :
    ((weldCell bi s x).gBoxData x).isSolid = true := by
  obtain ⟨h1, h2⟩ := touchFaces_spec s x
  have hm : (touchMaterial s x).isSolid = true := by
    unfold touchMaterial
    have hne := h2 hnear
    split
    · rename_i index e
      exact h1 index e
    · rename_i e
      exact absurd e hne
  rw [isSolid_iff] at hm ⊢
  simp only [weldCell, setCell_same]
  split
  · exact hlava
  · exact hm

theorem weldCell_other (bi : BlockInfo) (s : ExportState) (x : IPoint) {p : IPoint}
    (h : p ≠ x) : (weldCell bi s x).gBoxData p = s.gBoxData p := by
  simp only [weldCell, setCell_other _ _ h]

/-- One step of the loop over the sorted `touchList` in `fixTouchingEdges`: no
solid cell becomes air, and the cell, if it is still marked, is solid afterwards. -/
theorem fillTouchCell_welding (bi : BlockInfo) {s t : ExportState} (x : IPoint)
    (h : Welding s t) (hlava : 0 < bi.BLOCK_LAVA % 256) (hleaves : 0 < bi.BLOCK_LEAVES) :
    Welding s (fillTouchCell bi t x) ∧
    (0 < (t.gTouchGrid x).count → ((fillTouchCell bi t x).gBoxData x).isSolid = true) := by
  rw [fillTouchCell_eq]
  by_cases hc : (t.gTouchGrid x).count > 0
  swap
  · rw [if_neg hc]
    exact ⟨h, fun h0 => absurd h0 hc⟩
  rw [if_pos hc]
  obtain ⟨d1, d2, d3, d4, d5⟩ := decrementNeighbors_spec t x hc
  have hnear : ∃ q, faceAdjacent x q ∧
      ((decrementNeighbors t x).gBoxData q).isSolid = true := by
    obtain ⟨b, o, ho, _, hsb, _, e⟩ := h.origin x hc
    obtain ⟨a1, a2, _, _⟩ := shift_adjacent b o ho
    refine ⟨b, ?_, ?_⟩
    · rcases e with e | e <;> rw [e] <;> assumption
    · rw [d1]
      exact h.repaired.solid b hsb
  have hx := weldCell_solid bi (decrementNeighbors t x) x hlava hnear
  have hw : ∀ p, (s.gBoxData p).isSolid = true →
      ((weldCell bi (decrementNeighbors t x) x).gBoxData p).isSolid = true := by
    intro p hp
    by_cases hpx : p = x
    · rw [hpx]; exact hx
    · rw [weldCell_other bi _ x hpx, d1]
      exact h.repaired.solid p hp
  have horigin : ∀ p, 0 < ((decrementNeighbors t x).gTouchGrid p).count → touchOrigin s p :=
    fun p hp => h.origin p (lt_of_lt_of_le hp (d5 p))
  split
  · have hr := (fillGroups_refilled bi (weldCounted bi (decrementNeighbors t x) x)
      (weldTargets bi (decrementNeighbors t x) x).2
      (touchMaster (decrementNeighbors t x) x) true bi.BLOCK_LAVA
      (weldTargets bi (decrementNeighbors t x) x).1).1
    refine ⟨⟨⟨?_, ?_, ?_⟩, ?_⟩, fun _ => ?_⟩
    · rw [hr.solidBox]
      exact d4.trans h.repaired.solidBox
    · rw [hr.options]
      exact d3.trans h.repaired.options
    · intro p hp
      exact fillGroups_mono bi _ _ _ _ _ _ hlava hleaves p (hw p hp)
    · intro p hp
      rw [fillGroups_touch] at hp
      exact horigin p hp
    · exact fillGroups_mono bi _ _ _ _ _ _ hlava hleaves x hx
  · exact ⟨⟨⟨d4.trans h.repaired.solidBox, d3.trans h.repaired.options, hw⟩, horigin⟩,
      fun _ => hx⟩
theorem welding_self {s t : ExportState} (h : Welding s t) : Welding t t := by
  refine ⟨⟨rfl, rfl, fun _ hp => hp⟩, ?_⟩
  intro p hp
  obtain ⟨b, o, ho, hb, hsb, hso, e⟩ := h.origin p hp
  exact ⟨b, o, ho, by rw [h.repaired.solidBox]; exact hb, h.repaired.solid b hsb,
    h.repaired.solid _ hso, e⟩

theorem fillTouchCell_step (bi : BlockInfo) {s t : ExportState} (x : IPoint)
    (h : Welding s t) (hlava : 0 < bi.BLOCK_LAVA % 256) (hleaves : 0 < bi.BLOCK_LEAVES) :
    Welding s (fillTouchCell bi t x) ∧ Repaired t (fillTouchCell bi t x) ∧
    (0 < (t.gTouchGrid x).count → ((fillTouchCell bi t x).gBoxData x).isSolid = true) :=
  ⟨(fillTouchCell_welding bi x h hlava hleaves).1,
    (fillTouchCell_welding bi x (welding_self h) hlava hleaves).1.repaired,
    (fillTouchCell_welding bi x h hlava hleaves).2⟩

theorem fillTouch_fold (bi : BlockInfo) {s : ExportState} (hlava : 0 < bi.BLOCK_LAVA % 256)
    (hleaves : 0 < bi.BLOCK_LEAVES) (l : List IPoint) :
    ∀ t, Welding s t → Welding s (l.foldl (fillTouchCell bi) t) ∧
      Repaired t (l.foldl (fillTouchCell bi) t) := by
  induction l with
  | nil => intro t ht; exact ⟨ht, rfl, rfl, fun _ hp => hp⟩
  | cons x l ih =>
    intro t ht
    obtain ⟨a, b, _⟩ := fillTouchCell_step bi x ht hlava hleaves
    obtain ⟨c, d⟩ := ih _ a
    exact ⟨c, d.solidBox.trans b.solidBox, d.options.trans b.options,
      fun p hp => d.solid p (b.solid p hp)⟩

theorem mem_touchList {t : ExportState} {r : TouchRecord} (h : r ∈ touchList t) :
    t.gSolidBox.contains r.boxIndex = true ∧ 0 < (t.gTouchGrid r.boxIndex).count := by
  unfold touchList at h
  rw [List.mem_map] at h
  obtain ⟨p, hp, e⟩ := h
  rw [List.mem_filter] at hp
  rw [← e]
  exact ⟨mem_boxCells.1 hp.1, by simpa using hp.2⟩

/-- The function `fixTouchingEdges` turns no solid cell into air, and when it
returns 1 it has turned an air cell of the solid box into a solid cell. -/
theorem fixTouchingEdges_repair (bi : BlockInfo) (qsort_s : Qsort) (s : ExportState)
    (hq : ∀ cmp l, (qsort_s cmp l).Perm l)
    (hlava : 0 < bi.BLOCK_LAVA % 256) (hleaves : 0 < bi.BLOCK_LEAVES) :
    Repaired s (fixTouchingEdges bi qsort_s s).2 ∧
    ((fixTouchingEdges bi qsort_s s).1 ≠ 0 → gained s (fixTouchingEdges bi qsort_s s).2) := by
  obtain ⟨hT, _⟩ := touchScan_inv s
  have hw : Welding s (touchScan s) :=
    ⟨⟨hT.solidBox, hT.options, fun p hp => by rw [hT.data]; exact hp⟩, hT.origin⟩
  rw [fixTouchingEdges_eq]
  by_cases hz : (touchScan s).gTouchSize = 0
  · rw [if_pos hz]
    exact ⟨hw.repaired, fun h => absurd rfl h⟩
  rw [if_neg hz]
  simp only []
  obtain ⟨a, b⟩ := fillTouch_fold bi hlava hleaves
    ((qsort_s (touchRecordCompare (touchScan s)) (touchList (touchScan s))).map
      fun r => r.boxIndex) (touchScan s) hw
  refine ⟨⟨a.repaired.solidBox, a.repaired.options, a.repaired.solid⟩, ?_⟩
  intro h1
  have hlen : (touchList (touchScan s)).length ≠ 0 := by
    intro e
    rw [e] at h1
    simp at h1
  have hperm := hq (touchRecordCompare (touchScan s)) (touchList (touchScan s))
  cases hsorted : qsort_s (touchRecordCompare (touchScan s)) (touchList (touchScan s)) with
  | nil =>
    rw [hsorted] at hperm
    have := hperm.length_eq
    simp at this
    exact absurd this.symm hlen
  | cons r rest =>
    have hr : r ∈ touchList (touchScan s) := by
      apply hperm.subset
      rw [hsorted]
      exact List.mem_cons_self _ _
    obtain ⟨m1, m2⟩ := mem_touchList hr
    obtain ⟨c1, _, c3⟩ := fillTouchCell_step bi r.boxIndex hw hlava hleaves
    obtain ⟨_, d2⟩ := fillTouch_fold bi hlava hleaves (rest.map fun r => r.boxIndex) _ c1
    refine ⟨r.boxIndex, by rw [← hT.solidBox]; exact m1, ?_, ?_⟩
    · have := hT.air _ m2
      simp [BoxCell.isSolid, this]
    · show ((List.foldl (fillTouchCell bi) (touchScan s)
        (List.map (fun r => r.boxIndex) (r :: rest))).gBoxData r.boxIndex).isSolid = true
      rw [List.map_cons, List.foldl_cons]
      exact d2.solid _ (c3 m2)
theorem below_cornerCells {b : IBox} {p : IPoint} (h : p ∈ cornerCells b) :
    b.contains (p.offset 0 (-1) 0) = true := by
  rw [contains_iff]
  simp only [cornerCells, List.mem_flatMap, List.mem_map, mem_intRange] at h
  obtain ⟨y, hy, x, hx, z, hz, rfl⟩ := h
  simp only [IPoint.offset]
  omega

/-- One step of `connectCornerTips`, started on the grid of `s`: no solid cell
becomes air, and `filledTip` is set only when an air cell of the solid box has
become solid. -/
theorem connectCornerCell_step {s : ExportState} (acc : Bool × ExportState) (b : IPoint)
    (hb : b ∈ cornerCells s.gSolidBox)
    (h : Repaired s acc.2 ∧ (acc.1 = true → gained s acc.2)) :
    Repaired s (connectCornerCell acc b).2 ∧
    ((connectCornerCell acc b).1 = true → gained s (connectCornerCell acc b).2) := by
  unfold connectCornerCell
  simp only []
  split
  swap
  · exact h
  rename_i hs
  split
  swap
  · exact h
  rename_i hair
  split
  swap
  · exact h
  have hnew : ∀ p, ((setCell acc.2.gBoxData (b.offset 0 (-1) 0)
      { (if acc.2.gOptions.EXPT_DEBUG_SHOW_WELDS = true then
          { acc.2.gBoxData (b.offset 0 (-1) 0) with type := DEBUG_CORNER_TOUCH_TYPE }
        else { acc.2.gBoxData (b.offset 0 (-1) 0) with
          type := (acc.2.gBoxData b).type, data := (acc.2.gBoxData b).data }) with
        group := (acc.2.gBoxData b).group }) p).isSolid = true ↔
      p = b.offset 0 (-1) 0 ∨ (acc.2.gBoxData p).isSolid = true := by
    intro p
    unfold setCell
    by_cases hp : p = b.offset 0 (-1) 0
    · rw [if_pos hp]
      simp only [hp, true_or, iff_true]
      rw [isSolid_iff]
      simp only []
      split
      · simp [DEBUG_CORNER_TOUCH_TYPE]
      · exact (isSolid_iff _).1 hs
    · rw [if_neg hp]
      simp [hp]
  refine ⟨⟨h.1.solidBox, h.1.options, ?_⟩, fun _ => ?_⟩
  · intro p hp
    exact (hnew p).2 (Or.inr (h.1.solid p hp))
  · refine ⟨b.offset 0 (-1) 0, below_cornerCells hb, ?_, (hnew _).2 (Or.inl rfl)⟩
    by_contra hne
    have h1 : (s.gBoxData (b.offset 0 (-1) 0)).isSolid = true := by simpa using hne
    have h2 := (isSolid_iff _).1 (h.1.solid _ h1)
    rw [hair] at h2
    exact absurd h2 (by unfold BLOCK_AIR; omega)

/-- The function `connectCornerTips` turns no solid cell into air, and when it
returns 1 it has turned an air cell of the solid box into a solid cell. -/
theorem connectCornerTips_repair (s : ExportState) :
    Repaired s (connectCornerTips s).2 ∧
    ((connectCornerTips s).1 = true → gained s (connectCornerTips s).2) := by
  unfold connectCornerTips
  apply foldl_inv (fun acc : Bool × ExportState =>
    Repaired s acc.2 ∧ (acc.1 = true → gained s acc.2))
  · exact ⟨⟨rfl, rfl, fun _ hp => hp⟩, fun h => absurd h (by simp)⟩
  · intro acc b hb h
    exact connectCornerCell_step acc b hb h
theorem countP_lt_of_gain {α : Type} (f g : α → Bool) (l : List α)
    (h : ∀ x ∈ l, f x = true → g x = true) (hx : ∃ x ∈ l, g x = true ∧ f x = false) :
    l.countP f < l.countP g := by
  induction l with
  | nil =>
    obtain ⟨x, hx, _⟩ := hx
    simp at hx
  | cons a l ih =>
    have hle : l.countP f ≤ l.countP g :=
      List.countP_mono_left fun x hx hf => h x (List.mem_cons_of_mem _ hx) hf
    obtain ⟨x, hxm, hg, hf⟩ := hx
    rw [List.countP_cons, List.countP_cons]
    rcases List.mem_cons.1 hxm with rfl | hxl
    · simp only [hg, hf]
      simp
      omega
    · have := ih (fun y hy hf => h y (List.mem_cons_of_mem _ hy) hf) ⟨x, hxl, hg, hf⟩
      by_cases hfa : f a = true
      · have hga := h a (List.mem_cons_self _ _) hfa
        simp only [hfa, hga]
        simp
        omega
      · have hfa' : f a = false := by simpa using hfa
        simp only [hfa']
        simp
        omega

theorem airCells_le {s t : ExportState} (h : Repaired s t) : airCells t ≤ airCells s := by
  unfold airCells
  rw [h.solidBox]
  apply List.countP_mono_left
  intro p _ hp
  by_contra hne
  have := h.solid p (by simpa using hne)
  rw [this] at hp
  simp at hp

theorem airCells_lt {s t : ExportState} (h : Repaired s t) (hg : gained s t) :
    airCells t < airCells s := by
  unfold airCells
  rw [h.solidBox]
  apply countP_lt_of_gain
  · intro p _ hp
    by_contra hne
    have := h.solid p (by simpa using hne)
    rw [this] at hp
    simp at hp
  · obtain ⟨p, hp, ha, hs⟩ := hg
    exact ⟨p, mem_boxCells.2 hp, by simp [ha], by simp [hs]⟩

theorem Repaired.repaired_trans {s t u : ExportState} (h1 : Repaired s t) (h2 : Repaired t u) :
    Repaired s u :=
  ⟨h2.solidBox.trans h1.solidBox, h2.options.trans h1.options,
    fun p hp => h2.solid p (h1.solid p hp)⟩

theorem gained_then {s t u : ExportState} (h1 : gained s t) (h2 : Repaired t u) :
    gained s u := by
  obtain ⟨p, hp, ha, hs⟩ := h1
  exact ⟨p, hp, ha, h2.solid p hs⟩

theorem then_gained {s t u : ExportState} (h1 : Repaired s t) (h2 : gained t u) :
    gained s u := by
  obtain ⟨p, hp, ha, hs⟩ := h2
  refine ⟨p, by rw [← h1.solidBox]; exact hp, ?_, hs⟩
  by_contra hne
  have := h1.solid p (by simpa using hne)
  rw [this] at ha
  simp at ha

/-- One pass of the repair loop of `filterBox`: no solid cell becomes air; with
connect-parts on, a pass that reports a fix has turned an air cell of the solid
box into a solid cell; with connect-parts and connect-corner-tips off the pass
does nothing. -/
theorem repairPass_spec (bi : BlockInfo) (qsort_s : Qsort) (foundTouching : Int)
    (s : ExportState) (hq : ∀ cmp l, (qsort_s cmp l).Perm l)
    (hlava : 0 < bi.BLOCK_LAVA % 256) (hleaves : 0 < bi.BLOCK_LEAVES) :
    Repaired s (repairPass bi qsort_s foundTouching s).2 ∧
    (s.gOptions.EXPT_CONNECT_PARTS = true →
      (repairPass bi qsort_s foundTouching s).1 ≠ 0 →
      gained s (repairPass bi qsort_s foundTouching s).2) ∧
    (s.gOptions.EXPT_CONNECT_PARTS = false → s.gOptions.EXPT_CONNECT_CORNER_TIPS = false →
      repairPass bi qsort_s foundTouching s = (foundTouching, s)) := by
  obtain ⟨f1, f2⟩ := fixTouchingEdges_repair bi qsort_s s hq hlava hleaves
  unfold repairPass
  by_cases hp : s.gOptions.EXPT_CONNECT_PARTS = true
  · simp only [hp, if_true]
    obtain ⟨c1, c2⟩ := connectCornerTips_repair (fixTouchingEdges bi qsort_s s).2
    by_cases hc : (fixTouchingEdges bi qsort_s s).2.gOptions.EXPT_CONNECT_CORNER_TIPS = true
    · rw [if_pos hc]
      by_cases hg : (fixTouchingEdges bi qsort_s s).2.gSolidGroups > 1
      · rw [if_pos hg]
        refine ⟨f1.repaired_trans c1, fun _ hne => ?_, fun h => by simp at h⟩
        by_cases hf : (fixTouchingEdges bi qsort_s s).1 ≠ 0
        · exact gained_then (f2 hf) c1
        · have hf0 : (fixTouchingEdges bi qsort_s s).1 = 0 := by simpa using hf
          by_cases hct : (connectCornerTips (fixTouchingEdges bi qsort_s s).2).1 = true
          · exact then_gained f1 (c2 hct)
          · exfalso
            apply hne
            simp only [hf0, hct]
            rfl
      · rw [if_neg hg]
        exact ⟨f1, fun _ hne => f2 hne, fun h => by simp at h⟩
    · rw [if_neg hc]
      exact ⟨f1, fun _ hne => f2 hne, fun h => by simp at h⟩
  · have hp' : s.gOptions.EXPT_CONNECT_PARTS = false := by simpa using hp
    simp only [hp', Bool.false_eq_true, if_false]
    obtain ⟨c1, _⟩ := connectCornerTips_repair s
    refine ⟨?_, fun h => by simp at h, fun _ hc => by simp [hc]⟩
    split
    · split
      · exact c1
      · exact ⟨rfl, rfl, fun _ h => h⟩
    · exact ⟨rfl, rfl, fun _ h => h⟩
/-- The repair loop of `filterBox` ends: given as many passes as the solid box has
air cells and one more, it returns, and it has made at most that many passes. -/
theorem repairLoop_spec (bi : BlockInfo) (qsort_s : Qsort)
    (hq : ∀ cmp l, (qsort_s cmp l).Perm l)
    (hlava : 0 < bi.BLOCK_LAVA % 256) (hleaves : 0 < bi.BLOCK_LEAVES) (fuel : Nat) :
    ∀ (foundTouching : Int) (s : ExportState),
      (s.gOptions.EXPT_CONNECT_CORNER_TIPS = true → s.gOptions.EXPT_CONNECT_PARTS = true) →
      (s.gOptions.EXPT_CONNECT_PARTS = true ∨ foundTouching = 0) →
      airCells s + 1 ≤ fuel →
      ∃ u n, repairLoop bi qsort_s fuel foundTouching s = some (u, n) ∧
        n ≤ airCells s + 1 ∧ Repaired s u := by
  induction fuel with
  | zero =>
    intro _ s _ _ h
    omega
  | succ fuel ih =>
    intro ft s hopt hstart hfuel
    obtain ⟨r1, r2, r3⟩ := repairPass_spec bi qsort_s ft s hq hlava hleaves
    simp only [repairLoop]
    by_cases hr : (repairPass bi qsort_s ft s).1 ≠ 0
    · rw [if_pos hr]
      have hparts : s.gOptions.EXPT_CONNECT_PARTS = true := by
        by_contra hp
        have hp' : s.gOptions.EXPT_CONNECT_PARTS = false := by simpa using hp
        have hc : s.gOptions.EXPT_CONNECT_CORNER_TIPS = false := by
          by_contra hc
          have := hopt (by simpa using hc)
          rw [hp'] at this
          simp at this
        rw [r3 hp' hc] at hr
        rcases hstart with h | h
        · exact hp h
        · exact hr h
      have hlt := airCells_lt r1 (r2 hparts hr)
      obtain ⟨u, n, e, hn, hu⟩ := ih (repairPass bi qsort_s ft s).1
        (repairPass bi qsort_s ft s).2 (by rw [r1.options]; exact hopt)
        (Or.inl (by rw [r1.options]; exact hparts)) (by omega)
      refine ⟨u, n + 1, ?_, by omega, r1.repaired_trans hu⟩
      rw [e]
      rfl
    · rw [if_neg hr]
      exact ⟨_, 1, rfl, by omega, r1⟩

/-! ## Face generation: lemmas -/

theorem checkMakeFace_iff (bt : BlockTable) (o : FaceOptions) (type neighborType : Nat)
    (view3D : Int) :
    checkMakeFace bt o type neighborType view3D = 1 ↔
      neighborType = BLOCK_AIR ∨
      (view3D ≠ 0 ∧ bt.alpha neighborType < 1 ∧ neighborType ≠ type) ∨
      (view3D ≠ 0 ∧ o.EXPT_OUTPUT_TEXTURE_IMAGES = true ∧ bt.BLF_CUTOUTS neighborType = true ∧
        ¬ (neighborType = bt.BLOCK_GLASS ∧ type = bt.BLOCK_GLASS) ∧
        ¬ (neighborType = bt.BLOCK_GLASS_PANE ∧ type = bt.BLOCK_GLASS_PANE) ∧
        ¬ (neighborType = bt.BLOCK_VINES ∧ type = bt.BLOCK_VINES) ∧
        ¬ (neighborType = bt.BLOCK_IRON_BARS ∧ type = bt.BLOCK_IRON_BARS)) := by
  unfold checkMakeFace BLOCK_AIR
  by_cases h0 : neighborType ≤ 0
  · simp [h0]; omega
  · have hne : neighborType ≠ 0 := by omega
    rw [if_neg h0]
    by_cases hv : view3D ≠ 0
    · rw [if_pos hv]
      by_cases hc : o.EXPT_OUTPUT_TEXTURE_IMAGES = true ∧ bt.BLF_CUTOUTS neighborType = true
      · rw [if_pos hc]
        by_cases hp : ¬ (neighborType = bt.BLOCK_GLASS ∧ type = bt.BLOCK_GLASS) ∧
          ¬ (neighborType = bt.BLOCK_GLASS_PANE ∧ type = bt.BLOCK_GLASS_PANE) ∧
          ¬ (neighborType = bt.BLOCK_VINES ∧ type = bt.BLOCK_VINES) ∧
          ¬ (neighborType = bt.BLOCK_IRON_BARS ∧ type = bt.BLOCK_IRON_BARS)
        · rw [if_pos hp]
          simp only [true_iff]
          exact Or.inr (Or.inr ⟨hv, hc.1, hc.2, hp⟩)
        · rw [if_neg hp]
          by_cases ha : bt.alpha neighborType < 1
          · by_cases ht : neighborType ≠ type
            · rw [if_pos ha, if_pos ht]
              simp only [true_iff]
              exact Or.inr (Or.inl ⟨hv, ha, ht⟩)
            · rw [if_pos ha, if_neg ht]
              simp only [zero_ne_one, false_iff]
              rintro (h | ⟨_, _, h⟩ | ⟨_, _, _, h⟩)
              · exact hne h
              · exact ht h
              · exact hp h
          · rw [if_neg ha]
            simp only [zero_ne_one, false_iff]
            rintro (h | ⟨_, h, _⟩ | ⟨_, _, _, h⟩)
            · exact hne h
            · exact ha h
            · exact hp h
      · rw [if_neg hc]
        by_cases ha : bt.alpha neighborType < 1
        · by_cases ht : neighborType ≠ type
          · rw [if_pos ha, if_pos ht]
            simp only [true_iff]
            exact Or.inr (Or.inl ⟨hv, ha, ht⟩)
          · rw [if_pos ha, if_neg ht]
            simp only [zero_ne_one, false_iff]
            rintro (h | ⟨_, _, h⟩ | ⟨_, h1, h2, _⟩)
            · exact hne h
            · exact ht h
            · exact hc ⟨h1, h2⟩
        · rw [if_neg ha]
          simp only [zero_ne_one, false_iff]
          rintro (h | ⟨_, h, _⟩ | ⟨_, h1, h2, _⟩)
          · exact hne h
          · exact ha h
          · exact hc ⟨h1, h2⟩
    · rw [if_neg hv]
      simp only [zero_ne_one, false_iff]
      rintro (h | ⟨h, _⟩ | ⟨h, _⟩)
      · exact hne h
      · exact hv h
      · exact hv h

theorem checkMakeFace_bit (bt : BlockTable) (o : FaceOptions) (type neighborType : Nat)
    (view3D : Int) :
    checkMakeFace bt o type neighborType view3D = 0 ∨
      checkMakeFace bt o type neighborType view3D = 1 := by
  unfold checkMakeFace
  repeat' split
  all_goals simp


/-- The three outcomes of `getCompositeSwatch` when the background is plain, with
`b` the swatch of the background and `m1` the model after `getSwatch`. -/
theorem getCompositeSwatch_cases (getSwatch : GetSwatch) (s : ExportState) (m : Model)
    (swatchLoc : Int) (backgroundIndex : IPoint) (faceDirection : Nat) (angle : Int)
    (hbg : PlainBackground getSwatch s backgroundIndex faceDirection) :
    ∃ (b : Int) (m1 : Model),
      (∀ m' : Model, (getSwatch s m' (s.gBoxData backgroundIndex).type
        (s.gBoxData backgroundIndex).data faceDirection 0).1 = b) ∧
      m1 = (getSwatch s m (s.gBoxData backgroundIndex).type
        (s.gBoxData backgroundIndex).data faceDirection 0).2 ∧
      m1.swatchCompositeList = m.swatchCompositeList ∧ m1.swatchCount = m.swatchCount ∧
      m1.swatchListSize = m.swatchListSize ∧
      ((∃ c, m.swatchCompositeList.find? (fun c => decide (c.swatchLoc = swatchLoc ∧
            c.angle = angle ∧ c.backgroundSwatchLoc = b)) = some c ∧
          getCompositeSwatch getSwatch s m swatchLoc backgroundIndex faceDirection angle =
            (c.compositeSwatchLoc, m1)) ∨
       (m.swatchCompositeList.find? (fun c => decide (c.swatchLoc = swatchLoc ∧
            c.angle = angle ∧ c.backgroundSwatchLoc = b)) = none ∧
          m.swatchCount ≥ m.swatchListSize ∧
          getCompositeSwatch getSwatch s m swatchLoc backgroundIndex faceDirection angle =
            (match m.swatchCompositeList.find? fun c => decide (c.swatchLoc = swatchLoc) with
              | some c => c.compositeSwatchLoc
              | none => 0, m1)) ∨
       (m.swatchCompositeList.find? (fun c => decide (c.swatchLoc = swatchLoc ∧
            c.angle = angle ∧ c.backgroundSwatchLoc = b)) = none ∧
          m.swatchCount < m.swatchListSize ∧
          getCompositeSwatch getSwatch s m swatchLoc backgroundIndex faceDirection angle =
            createCompositeSwatch m1 swatchLoc b angle)) := by
  obtain ⟨h1, h2, h3, h4⟩ := hbg m
  refine ⟨_, _, fun m' => (h4 m').symm, rfl, h1, h2, h3, ?_⟩
  have hsearch : (if m.swatchCompositeList = [] then []
      else (getSwatch s m (s.gBoxData backgroundIndex).type (s.gBoxData backgroundIndex).data
        faceDirection 0).2.swatchCompositeList) = m.swatchCompositeList := by
    split
    · rename_i h; exact h.symm
    · exact h1
  unfold getCompositeSwatch
  simp only [hsearch]
  cases hf : m.swatchCompositeList.find? (fun c => decide (c.swatchLoc = swatchLoc ∧
      c.angle = angle ∧ c.backgroundSwatchLoc = (getSwatch s m (s.gBoxData backgroundIndex).type
        (s.gBoxData backgroundIndex).data faceDirection 0).1)) with
  | some c => exact Or.inl ⟨c, rfl, rfl⟩
  | none =>
    by_cases hfull : m.swatchCount ≥ m.swatchListSize
    · refine Or.inr (Or.inl ⟨rfl, hfull, ?_⟩)
      simp only [h2, h3, hfull, if_true, h1]
      cases m.swatchCompositeList.find? fun c => decide (c.swatchLoc = swatchLoc) <;> rfl
    · refine Or.inr (Or.inr ⟨rfl, lt_of_not_ge hfull, ?_⟩)
      simp only [h2, h3, hfull, if_false]

theorem find_first {α : Type} (p : α → Bool) (pre : List α) (c : α) (post : List α)
    (hc : p c = true) (hpre : ∀ d ∈ pre, p d = false) :
    (pre ++ c :: post).find? p = some c := by
  induction pre with
  | nil => simp [List.find?, hc]
  | cons a pre ih =>
    have ha : p a = false := hpre a (List.mem_cons_self _ _)
    simp only [List.cons_append, List.find?, ha]
    exact ih fun d hd => hpre d (List.mem_cons_of_mem _ hd)

theorem find_none_append {α : Type} (p : α → Bool) (l : List α) (c : α)
    (hl : l.find? p = none) (hc : p c = true) : (l ++ [c]).find? p = some c := by
  apply find_first p l c [] hc
  intro d hd
  have := List.find?_eq_none.1 hl d hd
  simpa using this

theorem foldl_flatMap_eq {α β γ : Type} (f : α → List β) (g : γ → β → γ) (l : List α) (m : γ) :
    (l.flatMap f).foldl g m = l.foldl (fun m a => (f a).foldl g m) m := by
  induction l generalizing m with
  | nil => rfl
  | cons a l ih => simp only [List.flatMap_cons, List.foldl_append, List.foldl_cons, ih]

theorem foldl_filter_map {α β γ : Type} (p : α → Bool) (h : α → β) (g : γ → β → γ) (l : List α)
    (m : γ) :
    ((l.filter p).map h).foldl g m = l.foldl (fun m a => if p a then g m (h a) else m) m := by
  induction l generalizing m with
  | nil => rfl
  | cons a l ih =>
    by_cases hp : p a
    · simp only [List.filter_cons, hp, if_true, List.map_cons, List.foldl_cons, ih]
    · have hp' : p a = false := by simpa using hp
      simp only [List.filter_cons, hp', List.foldl_cons]
      exact ih m

theorem flatMap_congr_mem {α β : Type} (f g : α → List β) (l : List α)
    (h : ∀ a ∈ l, f a = g a) : l.flatMap f = l.flatMap g := by
  induction l with
  | nil => rfl
  | cons a l ih =>
    simp only [List.flatMap_cons]
    rw [h a (List.mem_cons_self _ _), ih fun b hb => h b (List.mem_cons_of_mem _ hb)]

/-- The loops of `generateBlockDataAndStatistics` create the faces asked for, one
after the other. -/
theorem generate_eq_emitted (bt : BlockTable) (o : FaceOptions) (s : ExportState) (m : Model) :
    generateBlockDataAndStatistics bt o s m = (emitted bt o s).foldl (emitFace bt o s) m := by
  unfold generateBlockDataAndStatistics emitted
  rw [foldl_flatMap_eq]
  congr 1
  funext m loc
  split
  · rw [foldl_filter_map]
    unfold checkAndCreateFaces emitFace view3D
    simp only [decide_eq_true_eq]
  · rfl
theorem saveVerticesFrom_congr (s t : ExportState) (hs : s.gBoxSize = t.gBoxSize) (boxIndex : Int)
    (faceDirection : Nat) (loc : IPoint) (l : List Nat) (m n : Model) (h : SameVertices m n) :
    SameVertices (saveVerticesFrom s boxIndex faceDirection loc l m)
      (saveVerticesFrom t boxIndex faceDirection loc l n) := by
  induction l generalizing m n with
  | nil => exact h
  | cons i l ih =>
    obtain ⟨h1, h2, h3, h4⟩ := h
    have hc : cornerIndex s boxIndex faceDirection i = cornerIndex t boxIndex faceDirection i := by
      simp [cornerIndex, gBoxSizeYZ, hs]
    have hx : gBoxSizeXYZ s = gBoxSizeXYZ t := by simp [gBoxSizeXYZ, gBoxSizeYZ, hs]
    simp only [saveVerticesFrom, hc, hx, h2]
    split
    · exact ⟨h1, h2, h3, h4⟩
    · split
      · apply ih
        unfold checkVertexListSize
        rw [h3, h4]
        split <;> exact ⟨by simp [h1, h3], by simp [h2, h3], by simp [h3], by simp [h4]⟩
      · exact ih _ _ ⟨h1, h2, h3, h4⟩

theorem saveFaceLoop_vertices (bt : BlockTable) (o : FaceOptions) (s : ExportState) (boxIndex : Int)
    (loc : IPoint) (faceDirection : Nat) (m : Model) :
    SameVertices (saveFaceLoop bt o s boxIndex loc faceDirection m) m := by
  unfold saveFaceLoop
  split
  · exact ⟨rfl, rfl, rfl, rfl⟩
  · unfold checkFaceListSize
    split <;> exact ⟨rfl, rfl, rfl, rfl⟩

theorem SameVertices.same_trans {a b c : Model} (h1 : SameVertices a b) (h2 : SameVertices b c) :
    SameVertices a c :=
  ⟨h1.1.trans h2.1, h1.2.1.trans h2.2.1, h1.2.2.1.trans h2.2.2.1, h1.2.2.2.trans h2.2.2.2⟩

theorem SameVertices.same_symm {a b : Model} (h : SameVertices a b) : SameVertices b a :=
  ⟨h.1.symm, h.2.1.symm, h.2.2.1.symm, h.2.2.2.symm⟩

/-- The vertices after the creation of a list of faces depend only on the list, on
the size of the array and on the vertices before. -/
theorem emitFace_congr (bt bt' : BlockTable) (o o' : FaceOptions) (s t : ExportState)
    (hs : s.gBoxSize = t.gBoxSize) (l : List (IPoint × Nat)) (m n : Model)
    (h : SameVertices m n) :
    SameVertices (l.foldl (emitFace bt o s) m) (l.foldl (emitFace bt' o' t) n) := by
  induction l generalizing m n with
  | nil => exact h
  | cons e l ih =>
    simp only [List.foldl_cons]
    apply ih
    unfold emitFace
    have hb : BOX_INDEXV s e.1 = BOX_INDEXV t e.1 := by
      simp [BOX_INDEXV, BOX_INDEX, gBoxSizeYZ, hs]
    refine (saveFaceLoop_vertices bt o s _ _ _ _).same_trans
      (SameVertices.same_trans ?_ (saveFaceLoop_vertices bt' o' t _ _ _ _).same_symm)
    rw [hb]
    exact saveVerticesFrom_congr s t hs _ _ _ _ m n h

set_option maxRecDepth 100000 in
theorem cube_vertices_outer :
    ((cubeEmitted false).foldl (emitFace sampleTable printing (solidCube 1))
      (initializeModelData (solidCube 1) zeroModel)).vertexCount = 26 := by
  decide

set_option maxRecDepth 100000 in
theorem cube_vertices_all :
    ((cubeEmitted true).foldl (emitFace sampleTable printing (solidCube 1))
      (initializeModelData (solidCube 1) zeroModel)).vertexCount = 27 := by
  decide

theorem saveVerticesFrom_faces (s : ExportState) (boxIndex : Int) (faceDirection : Nat)
    (loc : IPoint) (l : List Nat) (m : Model) :
    (saveVerticesFrom s boxIndex faceDirection loc l m).faceCount = m.faceCount ∧
    (saveVerticesFrom s boxIndex faceDirection loc l m).faceList = m.faceList ∧
    (saveVerticesFrom s boxIndex faceDirection loc l m).faceSize = m.faceSize := by
  induction l generalizing m with
  | nil => exact ⟨rfl, rfl, rfl⟩
  | cons i l ih =>
    simp only [saveVerticesFrom]
    split
    · exact ⟨rfl, rfl, rfl⟩
    · split
      · refine (ih _).imp (fun h => h.trans ?_) (fun h => h.imp (fun h => h.trans ?_) fun h => h.trans ?_)
        all_goals
          unfold checkVertexListSize
          split <;> rfl
      · exact ih m

theorem emitFace_faceCount (bt : BlockTable) (o : FaceOptions) (s : ExportState) (m : Model)
    (e : IPoint × Nat) :
    (emitFace bt o s m e).faceCount =
      m.faceCount + if (faceType bt o s e.1 e.2).isSome then 1 else 0 := by
  unfold emitFace saveFaceLoop
  cases h : faceType bt o s e.1 e.2 with
  | none =>
    simp only [Option.isSome_none, Bool.false_eq_true, if_false, add_zero]
    exact (saveVerticesFrom_faces s _ _ _ _ m).1
  | some ty =>
    simp only [Option.isSome_some, if_true]
    have := (saveVerticesFrom_faces s (BOX_INDEXV s e.1) e.2 e.1 [0, 1, 2, 3] m).1
    unfold saveVertices checkFaceListSize
    split <;> simp [this]

/-- When no face is dropped, `faceCount` grows by the number of faces asked for. -/
theorem emitted_faceCount (bt : BlockTable) (o : FaceOptions) (s : ExportState)
    (l : List (IPoint × Nat)) (m : Model)
    (h : ∀ e ∈ l, (faceType bt o s e.1 e.2).isSome = true) :
    (l.foldl (emitFace bt o s) m).faceCount = m.faceCount + l.length := by
  induction l generalizing m with
  | nil => simp
  | cons e l ih =>
    simp only [List.foldl_cons, List.length_cons]
    rw [ih _ fun e' he' => h e' (List.mem_cons_of_mem _ he'), emitFace_faceCount,
      h e (List.mem_cons_self _ _)]
    simp
    ring

theorem solidCube_type (t : Nat) (p : IPoint) :
    ((solidCube t).gBoxData p).type = if inCube p then t else 0 := by
  unfold solidCube
  simp only []
  split <;> rfl

theorem solidCube_flat (t : Nat) (p : IPoint) : ((solidCube t).gBoxData p).flatFlags = 0 := by
  unfold solidCube
  simp only []
  split <;> rfl

/-- The faces asked for on the cube of the block `t`. -/
theorem emitted_cube (bt : BlockTable) (o : FaceOptions) (t : Nat) (ht : 0 < t) :
    emitted bt o (solidCube t) =
      cubeEmitted (decide (checkMakeFace bt o t t (view3D o) ≠ 0)) := by
  unfold emitted cubeEmitted
  have hb : (solidCube t).gSolidBox = ⟨⟨1, 1, 1⟩, ⟨2, 2, 2⟩⟩ := rfl
  rw [hb]
  apply flatMap_congr_mem
  intro loc hloc
  have hin : inCube loc = true := by
    rw [mem_boxCells, contains_iff] at hloc
    simp only [] at hloc
    simp only [inCube, Bool.and_eq_true, decide_eq_true_eq]
    omega
  simp only [solidCube_type, hin, if_true]
  rw [if_pos (by unfold BLOCK_AIR; exact ht)]
  congr 1
  apply List.filter_congr
  intro d _
  cases hn : inCube (getNeighborUnsafe d loc)
  · have : checkMakeFace bt o t 0 (view3D o) = 1 := by
      unfold checkMakeFace
      simp [BLOCK_AIR]
    simp [this]
  · simp

theorem cube_faceType (bt : BlockTable) (o : FaceOptions) (t : Nat) (e : IPoint × Nat) :
    (faceType bt o (solidCube t) e.1 e.2).isSome = true := by
  unfold faceType
  simp only [solidCube_flat]
  repeat' split
  all_goals simp_all

set_option maxRecDepth 100000 in
theorem cubeEmitted_length : (cubeEmitted false).length = 24 ∧ (cubeEmitted true).length = 48 := by
  decide

theorem checkMakeFace_self (bt : BlockTable) (o : FaceOptions) (t : Nat) (ht : 0 < t) :
    checkMakeFace bt o t t (view3D o) = 0 ↔
      ¬ (o.EXPT_3DPRINT = false ∧ o.EXPT_OUTPUT_TEXTURE_IMAGES = true ∧
        bt.BLF_CUTOUTS t = true ∧ t ≠ bt.BLOCK_GLASS ∧ t ≠ bt.BLOCK_GLASS_PANE ∧
        t ≠ bt.BLOCK_VINES ∧ t ≠ bt.BLOCK_IRON_BARS) := by
  have hiff := checkMakeFace_iff bt o t t (view3D o)
  have hv : view3D o ≠ 0 ↔ o.EXPT_3DPRINT = false := by
    unfold view3D
    cases o.EXPT_3DPRINT <;> simp
  constructor
  · intro h0 hc
    have : checkMakeFace bt o t t (view3D o) = 1 :=
      hiff.2 (Or.inr (Or.inr ⟨hv.2 hc.1, hc.2.1, hc.2.2.1, fun h => hc.2.2.2.1 h.1,
        fun h => hc.2.2.2.2.1 h.1, fun h => hc.2.2.2.2.2.1 h.1, fun h => hc.2.2.2.2.2.2 h.1⟩))
    omega
  · intro hc
    rcases checkMakeFace_bit bt o t t (view3D o) with h | h
    · exact h
    · exfalso
      rcases hiff.1 h with h | ⟨_, _, h⟩ | ⟨h1, h2, h3, h4, h5, h6, h7⟩
      · unfold BLOCK_AIR at h; omega
      · exact h rfl
      · exact hc ⟨hv.1 h1, h2, h3, fun e => h4 ⟨e, e⟩, fun e => h5 ⟨e, e⟩, fun e => h6 ⟨e, e⟩,
          fun e => h7 ⟨e, e⟩⟩

theorem split_unique (Y a a' y y' : Int) (hy : 0 ≤ y) (hyY : y < Y) (hy' : 0 ≤ y')
    (hyY' : y' < Y) (h : a * Y + y = a' * Y + y') : a = a' ∧ y = y' := by
  have h1 : (y + a * Y) % Y = (y' + a' * Y) % Y := by
    rw [add_comm y, add_comm y', h]
  rw [Int.add_mul_emod_self, Int.add_mul_emod_self, Int.emod_eq_of_lt hy hyY,
    Int.emod_eq_of_lt hy' hyY'] at h1
  subst h1
  have h2 : a * Y = a' * Y := by omega
  have hY : Y ≠ 0 := by omega
  exact ⟨mul_right_cancel₀ hY h2, rfl⟩

theorem BOX_INDEXV_inj (s : ExportState) (c d : IPoint) (hc : (arrayBox s).contains c = true)
    (hd : (arrayBox s).contains d = true) (h : BOX_INDEXV s c = BOX_INDEXV s d) : c = d := by
  rw [contains_iff] at hc hd
  simp only [arrayBox] at hc hd
  unfold BOX_INDEXV BOX_INDEX gBoxSizeYZ at h
  have h' : (c.x * s.gBoxSize.z + c.z) * s.gBoxSize.y + c.y =
      (d.x * s.gBoxSize.z + d.z) * s.gBoxSize.y + d.y := by
    linear_combination h
  obtain ⟨h1, h2⟩ := split_unique _ _ _ _ _ (by omega) (by omega) (by omega) (by omega) h'
  obtain ⟨h3, h4⟩ := split_unique _ _ _ _ _ (by omega) (by omega) (by omega) (by omega) h1
  cases c
  cases d
  simp only [IPoint.mk.injEq]
  simp only [] at h2 h3 h4
  exact ⟨h3, h2, h4⟩

theorem BOX_INDEXV_range (s : ExportState) (c : IPoint) (hc : (arrayBox s).contains c = true) :
    0 ≤ BOX_INDEXV s c ∧ BOX_INDEXV s c < gBoxSizeXYZ s := by
  rw [contains_iff] at hc
  simp only [arrayBox] at hc
  unfold BOX_INDEXV BOX_INDEX gBoxSizeXYZ gBoxSizeYZ
  obtain ⟨hx0, hx1, hy0, hy1, hz0, hz1⟩ := hc
  have hY : 0 < s.gBoxSize.y := by omega
  have hZ : 0 < s.gBoxSize.z := by omega
  have hYZ : 0 < s.gBoxSize.y * s.gBoxSize.z := Int.mul_pos hY hZ
  have h1 : 0 ≤ c.x * (s.gBoxSize.y * s.gBoxSize.z) := Int.mul_nonneg hx0 (le_of_lt hYZ)
  have h2 : 0 ≤ c.z * s.gBoxSize.y := Int.mul_nonneg hz0 (le_of_lt hY)
  have h3 : (c.z + 1) * s.gBoxSize.y ≤ s.gBoxSize.z * s.gBoxSize.y :=
    Int.mul_le_mul_of_nonneg_right (by omega) (le_of_lt hY)
  have h4 : (c.x + 1) * (s.gBoxSize.y * s.gBoxSize.z) ≤ s.gBoxSize.x * (s.gBoxSize.y * s.gBoxSize.z) :=
    Int.mul_le_mul_of_nonneg_right (by omega) (le_of_lt hYZ)
  constructor
  · omega
  · nlinarith

theorem offset_bits (d i : Nat) :
    (0 ≤ (gFaceToVertexOffset d i).x ∧ (gFaceToVertexOffset d i).x ≤ 1) ∧
    (0 ≤ (gFaceToVertexOffset d i).y ∧ (gFaceToVertexOffset d i).y ≤ 1) ∧
    (0 ≤ (gFaceToVertexOffset d i).z ∧ (gFaceToVertexOffset d i).z ≤ 1) := by
  rcases d with _ | _ | _ | _ | _ | _ | d <;> rcases i with _ | _ | _ | _ | i <;>
    simp [gFaceToVertexOffset, List.getD]

theorem cornerIndex_eq (s : ExportState) (e : IPoint × Nat) (i : Nat) :
    cornerIndex s (BOX_INDEXV s e.1) e.2 i = BOX_INDEXV s (gridCorner e i) := by
  unfold cornerIndex BOX_INDEXV BOX_INDEX gridCorner
  simp only []
  ring

theorem gridCorner_grid (s : ExportState) (hb : neighborAsserts s s.gSolidBox) (e : IPoint × Nat)
    (he : s.gSolidBox.contains e.1 = true) (i : Nat) :
    (arrayBox s).contains (gridCorner e i) = true := by
  rw [contains_iff] at he ⊢
  unfold neighborAsserts at hb
  have := offset_bits e.2 i
  simp only [arrayBox, gridCorner]
  omega
theorem checkVertexListSize_keeps (m : Model) :
    (checkVertexListSize m).vertexIndices = m.vertexIndices ∧
    (checkVertexListSize m).vertices = m.vertices ∧
    (checkVertexListSize m).vertexCount = m.vertexCount ∧
    (checkVertexListSize m).faceList = m.faceList ∧
    (checkVertexListSize m).faceCount = m.faceCount := by
  unfold checkVertexListSize
  split <;> exact ⟨rfl, rfl, rfl, rfl, rfl⟩

theorem indexed_start (s : ExportState) : Indexed s [] (initializeModelData s zeroModel) := by
  refine ⟨by simp, ?_, by simp, by simp, by simp, by simp [initializeModelData, zeroModel]⟩
  intro c hc
  have := BOX_INDEXV_range s c hc
  simp [initializeModelData, this.1, this.2]

theorem indexed_old (s : ExportState) (cs : List IPoint) (m : Model) (c : IPoint)
    (h : Indexed s cs m) (hc : c ∈ cs) : Indexed s (cs ++ [c]) m := by
  have hmem : ∀ d, d ∈ cs ++ [c] ↔ d ∈ cs := by
    intro d
    simp only [List.mem_append, List.mem_singleton]
    constructor
    · rintro (h | rfl)
      · exact h
      · exact hc
    · exact Or.inl
  refine ⟨fun d hd => h.grid d ((hmem d).1 hd), fun d hd => (h.set d hd).trans (hmem d).symm,
    fun d hd => h.below d ((hmem d).1 hd),
    fun d hd d' hd' => h.inj d ((hmem d).1 hd) d' ((hmem d').1 hd'),
    fun d hd => h.stored d ((hmem d).1 hd), ?_⟩
  rw [h.count]
  congr 2
  ext d
  simp only [List.mem_toFinset]
  exact (hmem d).symm

theorem indexed_new (s : ExportState) (cs : List IPoint) (m : Model) (c : IPoint)
    (h : Indexed s cs m) (hg : (arrayBox s).contains c = true)
    (hc : m.vertexIndices (BOX_INDEXV s c) = NO_INDEX_SET) (n : Model)
    (h1 : n.vertexIndices = setAt m.vertexIndices (BOX_INDEXV s c) m.vertexCount)
    (h2 : n.vertices = setAt m.vertices m.vertexCount c)
    (h3 : n.vertexCount = m.vertexCount + 1) : Indexed s (cs ++ [c]) n := by
  have hnot : c ∉ cs := fun hm => (h.set c hg).2 hm hc
  have hcount : 0 ≤ m.vertexCount := by rw [h.count]; exact Int.natCast_nonneg _
  have hne : ∀ d ∈ cs, BOX_INDEXV s d ≠ BOX_INDEXV s c := by
    intro d hd e
    exact hnot (BOX_INDEXV_inj s d c (h.grid d hd) hg e ▸ hd)
  have hval : ∀ d ∈ cs, n.vertexIndices (BOX_INDEXV s d) = m.vertexIndices (BOX_INDEXV s d) := by
    intro d hd
    rw [h1]
    simp [setAt, hne d hd]
  have hself : n.vertexIndices (BOX_INDEXV s c) = m.vertexCount := by
    rw [h1]
    simp [setAt]
  refine ⟨?_, ?_, ?_, ?_, ?_, ?_⟩
  · intro d hd
    rcases List.mem_append.1 hd with hd | hd
    · exact h.grid d hd
    · rw [List.mem_singleton.1 hd]
      exact hg
  · intro d hd
    by_cases hdc : d = c
    · subst hdc
      rw [hself]
      simp only [List.mem_append, List.mem_singleton, or_true, iff_true]
      unfold NO_INDEX_SET
      omega
    · have : BOX_INDEXV s d ≠ BOX_INDEXV s c := fun e => hdc (BOX_INDEXV_inj s d c hd hg e)
      rw [h1]
      simp only [setAt, this, if_false, List.mem_append, List.mem_singleton, hdc, or_false]
      exact h.set d hd
  · intro d hd
    rcases List.mem_append.1 hd with hd | hd
    · rw [hval d hd, h3]
      have := h.below d hd
      omega
    · rw [List.mem_singleton.1 hd, hself, h3]
      omega
  · intro d hd d' hd' e
    rcases List.mem_append.1 hd with hd | hd <;> rcases List.mem_append.1 hd' with hd' | hd'
    · rw [hval d hd, hval d' hd'] at e
      exact h.inj d hd d' hd' e
    · rw [List.mem_singleton.1 hd', hval d hd, hself] at e
      have := h.below d hd
      omega
    · rw [List.mem_singleton.1 hd, hval d' hd', hself] at e
      have := h.below d' hd'
      omega
    · rw [List.mem_singleton.1 hd, List.mem_singleton.1 hd']
  · intro d hd
    rcases List.mem_append.1 hd with hd | hd
    · rw [hval d hd, h2]
      have := h.below d hd
      have hne' : m.vertexIndices (BOX_INDEXV s d) ≠ m.vertexCount := by omega
      simp only [setAt, hne', if_false]
      exact h.stored d hd
    · rw [List.mem_singleton.1 hd, hself, h2]
      simp [setAt]
  · rw [h3, h.count]
    have : (cs ++ [c]).toFinset = insert c cs.toFinset := by
      ext d
      simp only [List.mem_toFinset, List.mem_append, List.mem_singleton, Finset.mem_insert]
      tauto
    rw [this, Finset.card_insert_of_not_mem (by simpa using hnot)]
    push_cast
    ring

/-- The loop of `saveVertices` gives an index to each corner it is asked for that
has none, and leaves the index of every other corner as it is. -/
theorem saveVerticesFrom_indexed (s : ExportState) (e : IPoint × Nat) (l : List Nat)
    (cs : List IPoint) (m : Model) (h : Indexed s cs m)
    (hg : ∀ i ∈ l, (arrayBox s).contains (gridCorner e i) = true) :
    Indexed s (cs ++ l.map (gridCorner e))
      (saveVerticesFrom s (BOX_INDEXV s e.1) e.2 e.1 l m) ∧
    ∀ c ∈ cs, (saveVerticesFrom s (BOX_INDEXV s e.1) e.2 e.1 l m).vertexIndices
      (BOX_INDEXV s c) = m.vertexIndices (BOX_INDEXV s c) := by
  induction l generalizing cs m with
  | nil =>
    rw [List.map_nil, List.append_nil]
    exact ⟨h, fun _ _ => rfl⟩
  | cons i l ih =>
    have hgi := hg i (List.mem_cons_self _ _)
    have hr := BOX_INDEXV_range s _ hgi
    have hl : cs ++ (i :: l).map (gridCorner e) = (cs ++ [gridCorner e i]) ++ l.map (gridCorner e) := by
      simp
    rw [hl]
    simp only [saveVerticesFrom, cornerIndex_eq]
    rw [if_neg (by omega)]
    split
    · rename_i hno
      have hnew := indexed_new s cs m (gridCorner e i) h hgi hno
        { checkVertexListSize m with
          vertexIndices := setAt (checkVertexListSize m).vertexIndices
            (BOX_INDEXV s (gridCorner e i)) (checkVertexListSize m).vertexCount
          vertices := setAt (checkVertexListSize m).vertices (checkVertexListSize m).vertexCount
            ⟨e.1.x + (gFaceToVertexOffset e.2 i).x, e.1.y + (gFaceToVertexOffset e.2 i).y,
              e.1.z + (gFaceToVertexOffset e.2 i).z⟩
          vertexCount := (checkVertexListSize m).vertexCount + 1 }
        (by simp only [(checkVertexListSize_keeps m).1, (checkVertexListSize_keeps m).2.2.1])
        (by simp only [(checkVertexListSize_keeps m).2.1, (checkVertexListSize_keeps m).2.2.1]; rfl)
        (by simp only [(checkVertexListSize_keeps m).2.2.1])
      obtain ⟨h1, h2⟩ := ih _ _ hnew fun j hj => hg j (List.mem_cons_of_mem _ hj)
      refine ⟨h1, ?_⟩
      intro c hc
      rw [h2 c (List.mem_append_left _ hc)]
      have hne : BOX_INDEXV s c ≠ BOX_INDEXV s (gridCorner e i) := by
        intro e'
        have := BOX_INDEXV_inj s c _ (h.grid c hc) hgi e'
        subst this
        exact (h.set _ hgi).2 hc hno
      simp only [(checkVertexListSize_keeps m).1, setAt, hne, if_false]
    · rename_i hset
      have hc : gridCorner e i ∈ cs := (h.set _ hgi).1 hset
      obtain ⟨h1, h2⟩ := ih _ _ (indexed_old s cs m _ h hc)
        fun j hj => hg j (List.mem_cons_of_mem _ hj)
      exact ⟨h1, fun c hc => h2 c (List.mem_append_left _ hc)⟩

theorem gridCorners_append (l : List (IPoint × Nat)) (e : IPoint × Nat) :
    gridCorners (l ++ [e]) = gridCorners l ++ [0, 1, 2, 3].map (gridCorner e) := by
  simp [gridCorners, List.range_succ]

theorem mem_gridCorners (l : List (IPoint × Nat)) (e : IPoint × Nat) (he : e ∈ l) (i : Nat)
    (hi : i < 4) : gridCorner e i ∈ gridCorners l := by
  unfold gridCorners
  rw [List.mem_flatMap]
  exact ⟨e, he, List.mem_map.2 ⟨i, List.mem_range.2 hi, rfl⟩⟩

theorem emitted_mem (bt : BlockTable) (o : FaceOptions) (s : ExportState) (e : IPoint × Nat)
    (h : e ∈ emitted bt o s) : s.gSolidBox.contains e.1 = true := by
  unfold emitted at h
  rw [List.mem_flatMap] at h
  obtain ⟨loc, hloc, he⟩ := h
  split at he
  · rw [List.mem_map] at he
    obtain ⟨d, _, rfl⟩ := he
    exact mem_boxCells.1 hloc
  · simp at he

/-- One face more: the corners of the face get their indices, and the face, unless
it is dropped, is stored with them. -/
theorem emitFace_inv (bt : BlockTable) (o : FaceOptions) (s : ExportState)
    (hb : neighborAsserts s s.gSolidBox) (pre : List (IPoint × Nat)) (e : IPoint × Nat)
    (m : Model) (he : s.gSolidBox.contains e.1 = true)
    (h : Indexed s (gridCorners pre) m ∧ Faced s pre m ∧ 0 ≤ m.faceCount) :
    Indexed s (gridCorners (pre ++ [e])) (emitFace bt o s m e) ∧
      Faced s (pre ++ [e]) (emitFace bt o s m e) ∧ 0 ≤ (emitFace bt o s m e).faceCount := by
  obtain ⟨hi, hf, hn⟩ := h
  obtain ⟨h1, h2⟩ := saveVerticesFrom_indexed s e [0, 1, 2, 3] (gridCorners pre) m hi
    fun i _ => gridCorner_grid s hb e he i
  have h3 := saveVerticesFrom_faces s (BOX_INDEXV s e.1) e.2 e.1 [0, 1, 2, 3] m
  rw [← gridCorners_append] at h1
  have hf1 : Faced s (pre ++ [e]) (saveVertices s (BOX_INDEXV s e.1) e.2 e.1 m) := by
    intro k hk0 hk
    unfold saveVertices at hk ⊢
    rw [h3.1] at hk
    obtain ⟨e', he', hv, hno⟩ := hf k hk0 hk
    refine ⟨e', List.mem_append_left _ he', ?_, ?_⟩
    · rw [h3.2.1, hv]
      apply List.map_congr_left
      intro i hi
      exact (h2 _ (mem_gridCorners pre e' he' i (List.mem_range.1 hi))).symm
    · rw [h3.2.1]
      exact hno
  have hn1 : 0 ≤ (saveVertices s (BOX_INDEXV s e.1) e.2 e.1 m).faceCount := by
    unfold saveVertices
    rw [h3.1]
    exact hn
  have hsame := saveFaceLoop_vertices bt o s (BOX_INDEXV s e.1) e.1 e.2
    (saveVertices s (BOX_INDEXV s e.1) e.2 e.1 m)
  have hi1 : Indexed s (gridCorners (pre ++ [e])) (emitFace bt o s m e) := by
    unfold emitFace
    unfold saveVertices at hsame ⊢
    exact ⟨h1.grid, fun c hc => by rw [hsame.2.1]; exact h1.set c hc,
      fun c hc => by rw [hsame.2.1, hsame.2.2.1]; exact h1.below c hc,
      fun c hc d hd => by rw [hsame.2.1]; exact h1.inj c hc d hd,
      fun c hc => by rw [hsame.2.1, hsame.1]; exact h1.stored c hc,
      by rw [hsame.2.2.1]; exact h1.count⟩
  refine ⟨hi1, ?_, ?_⟩
  · unfold emitFace at hsame ⊢
    intro k hk0 hk
    rw [hsame.2.1]
    unfold saveFaceLoop at hk ⊢
    cases hft : faceType bt o s e.1 e.2 with
    | none =>
      rw [hft] at hk
      exact hf1 k hk0 hk
    | some ty =>
      rw [hft] at hk
      simp only [] at hk ⊢
      have hc : (checkFaceListSize (saveVertices s (BOX_INDEXV s e.1) e.2 e.1 m)).faceCount =
          (saveVertices s (BOX_INDEXV s e.1) e.2 e.1 m).faceCount ∧
          (checkFaceListSize (saveVertices s (BOX_INDEXV s e.1) e.2 e.1 m)).faceList =
          (saveVertices s (BOX_INDEXV s e.1) e.2 e.1 m).faceList := by
        unfold checkFaceListSize
        split <;> exact ⟨rfl, rfl⟩
      rw [hc.1] at hk
      rw [hc.1, hc.2]
      by_cases hkk : k = (saveVertices s (BOX_INDEXV s e.1) e.2 e.1 m).faceCount
      · refine ⟨e, by simp, ?_, ?_⟩
        · simp only [setAt, hkk, if_true]
          simp [List.range_succ, cornerIndex_eq]
        · simp only [setAt, hkk, if_true]
      · obtain ⟨e', he', hv, hno⟩ := hf1 k hk0 (by omega)
        refine ⟨e', he', ?_, ?_⟩
        · simp only [setAt, hkk, if_false]
          exact hv
        · simp only [setAt, hkk, if_false]
          exact hno
  · rw [emitFace_faceCount]
    split <;> omega

/-- The vertex tables and the faces after `generateBlockDataAndStatistics`, started
on the initialised model. -/
theorem generate_inv (bt : BlockTable) (o : FaceOptions) (s : ExportState)
    (hb : neighborAsserts s s.gSolidBox) :
    Indexed s (gridCorners (emitted bt o s))
      (generateBlockDataAndStatistics bt o s (initializeModelData s zeroModel)) ∧
    Faced s (emitted bt o s)
      (generateBlockDataAndStatistics bt o s (initializeModelData s zeroModel)) := by
  rw [generate_eq_emitted]
  have key := foldl_prefix_inv (emitFace bt o s)
    (fun pre m => Indexed s (gridCorners pre) m ∧ Faced s pre m ∧ 0 ≤ m.faceCount)
    (emitted bt o s) (initializeModelData s zeroModel)
    ⟨indexed_start s, fun k hk0 hk => by
      have : (initializeModelData s zeroModel).faceCount = 0 := rfl
      omega, by
      have : (initializeModelData s zeroModel).faceCount = 0 := rfl
      omega⟩ ?_
  · exact ⟨key.1, key.2.1⟩
  · intro pre x post m hl hm
    exact emitFace_inv bt o s hb pre x m
      (emitted_mem bt o s x (by rw [hl]; simp)) hm

/-- What the scan of a layer keeps: the boxes and the type of every cell. -/
theorem hollowCell_types (T y : Int) (a : Hollowing × List IPoint) (xz : Int × Int) :
    (hollowCell T y a xz).1.s.gAirBox = a.1.s.gAirBox ∧
    (hollowCell T y a xz).1.s.gSolidBox = a.1.s.gSolidBox ∧
    (hollowCell T y a xz).1.s.gBoxSize = a.1.s.gBoxSize ∧
    ∀ q, ((hollowCell T y a xz).1.s.gBoxData q).type = (a.1.s.gBoxData q).type := by
  unfold hollowCell
  simp only []
  repeat' split
  all_goals refine ⟨rfl, rfl, rfl, fun q => ?_⟩
  all_goals first
    | rfl
    | (simp only [setCell]; split <;> simp_all)

theorem hollowTest_congr (s t : ExportState)
    (h : ∀ q, (s.gBoxData q).type = (t.gBoxData q).type) (p : IPoint) :
    hollowTest s p = hollowTest t p := by
  unfold hollowTest
  simp only [h]

theorem wallSurvives_congr (s t : ExportState) (hb : s.gAirBox = t.gAirBox)
    (h : ∀ q, (s.gBoxData q).type = (t.gBoxData q).type) (dir n : Nat) (p : IPoint) :
    wallSurvives s dir n p = wallSurvives t dir n p := by
  induction n generalizing p with
  | zero => rfl
  | succ n ih =>
    simp only [wallSurvives, hb, h]
    cases getNeighbor t.gAirBox dir p with
    | none => rfl
    | some q =>
      simp only []
      split
      · rfl
      · exact ih q

theorem survived_congr (s t : ExportState) (hb : s.gAirBox = t.gAirBox)
    (h : ∀ q, (s.gBoxData q).type = (t.gBoxData q).type) (T : Int) (p : IPoint) :
    survived s T p = survived t T p := by
  unfold survived
  simp only [wallSurvives_congr s t hb h]

theorem along_one (p : IPoint) (dir : Nat) (h : dir < 6) :
    p.along dir 1 = getNeighborUnsafe dir p := by
  have hdir : dir = 0 ∨ dir = 1 ∨ dir = 2 ∨ dir = 3 ∨ dir = 4 ∨ dir = 5 := by omega
  rcases hdir with rfl | rfl | rfl | rfl | rfl | rfl
  all_goals
    simp only [IPoint.along, getNeighborUnsafe, IPoint.offset]
    cases p
    simp only [IPoint.mk.injEq]
    refine ⟨?_, ?_, ?_⟩ <;> first | trivial | omega

theorem along_succ (p : IPoint) (dir : Nat) (h : dir < 6) (k : Int) :
    getNeighborUnsafe dir (p.along dir k) = p.along dir (k + 1) := by
  have hdir : dir = 0 ∨ dir = 1 ∨ dir = 2 ∨ dir = 3 ∨ dir = 4 ∨ dir = 5 := by omega
  rcases hdir with rfl | rfl | rfl | rfl | rfl | rfl
  all_goals
    simp only [IPoint.along, getNeighborUnsafe, IPoint.offset]
    simp only [IPoint.mk.injEq]
    refine ⟨?_, ?_, ?_⟩ <;> first | trivial | omega

theorem getNeighbor_inside (b : IBox) (dir : Nat) (q : IPoint)
    (h : b.min.x < q.x ∧ q.x < b.max.x ∧ b.min.y < q.y ∧ q.y < b.max.y ∧ b.min.z < q.z ∧
      q.z < b.max.z) :
    getNeighbor b dir q = some (getNeighborUnsafe dir q) := by
  by_cases hd : dir < 6
  · have hdir : dir = 0 ∨ dir = 1 ∨ dir = 2 ∨ dir = 3 ∨ dir = 4 ∨ dir = 5 := by omega
    rcases hdir with rfl | rfl | rfl | rfl | rfl | rfl
    all_goals
      simp only [getNeighbor, getNeighborUnsafe]
      rw [if_neg (by omega)]
  · obtain ⟨d, rfl⟩ : ∃ d, dir = d + 6 := ⟨dir - 6, by omega⟩
    rfl

/-- A wall that survives the loop of the thickness test, in a grid with its border
of air, has no air among its first cells. -/
theorem wallSurvives_spec (s : ExportState) (hb : Bordered s) (dir : Nat) (hd : dir < 6)
    (p : IPoint) (n : Nat) (k : Int) (hk : 1 ≤ k)
    (hp : (s.gBoxData (p.along dir k)).type ≠ BLOCK_AIR)
    (hw : wallSurvives s dir n (p.along dir k) = true) :
    ∀ j : Int, k ≤ j → j ≤ k + n → (s.gBoxData (p.along dir j)).type ≠ BLOCK_AIR := by
  induction n generalizing k with
  | zero =>
    intro j h1 h2
    have : j = k := by omega
    rw [this]
    exact hp
  | succ n ih =>
    intro j h1 h2
    by_cases hj : j = k
    · rw [hj]
      exact hp
    · rw [wallSurvives, getNeighbor_inside _ _ _ (hb _ hp), along_succ p dir hd] at hw
      simp only [] at hw
      split at hw
      · cases hw
      · rename_i hq
        exact ih (k + 1) (by omega) hq hw j (by omega) (by push_cast at h2; omega)
theorem hollowTest_spec (s : ExportState) (p : IPoint) (h : hollowTest s p = true) :
    (s.gBoxData (p.offset 0 (-1) 0)).type = BLOCK_AIR ∧ (s.gBoxData p).type ≠ BLOCK_AIR ∧
    ∀ dx dz : Int, -1 ≤ dx → dx ≤ 1 → -1 ≤ dz → dz ≤ 1 →
      (s.gBoxData (p.offset dx 1 dz)).type ≠ BLOCK_AIR ∧
      (dx ≠ 0 ∨ dz ≠ 0 → (s.gBoxData (p.offset dx 0 dz)).type ≠ BLOCK_AIR) := by
  unfold hollowTest at h
  simp only [Bool.and_eq_true, decide_eq_true_eq, List.all_eq_true] at h
  obtain ⟨⟨h1, h2⟩, h3⟩ := h
  refine ⟨h1, h2, ?_⟩
  intro dx dz hx0 hx1 hz0 hz1
  have hdx : dx = -1 ∨ dx = 0 ∨ dx = 1 := by omega
  have hdz : dz = -1 ∨ dz = 0 ∨ dz = 1 := by omega
  rcases hdx with rfl | rfl | rfl <;> rcases hdz with rfl | rfl | rfl
  all_goals
    refine ⟨h3 _ (by simp [hollowStencil]), fun hne => ?_⟩
    first
      | (exfalso; omega)
      | exact h3 _ (by simp [hollowStencil])

/-- A cell that passes the tests of the bottom-up pass, in a grid with its border of
air, may be hollowed out. -/
theorem candidate_spec (s : ExportState) (hb : Bordered s) (T : Int) (p : IPoint)
    (h1 : hollowTest s p = true) (h2 : T > 1 → survived s T p = true) :
    Hollowable s.gBoxData T p := by
  obtain ⟨ha, _, hs⟩ := hollowTest_spec s p h1
  refine ⟨ha, hs, ?_⟩
  intro dir hd hne k hk1 hkT
  have hone : (s.gBoxData (p.along dir 1)).type ≠ BLOCK_AIR := by
    have hdir : dir = 0 ∨ dir = 2 ∨ dir = 3 ∨ dir = 4 ∨ dir = 5 := by
      unfold DIRECTION_BLOCK_BOTTOM at hne
      omega
    rcases hdir with rfl | rfl | rfl | rfl | rfl
    · exact ((hs (-1) 0 (by omega) (by omega) (by omega) (by omega)).2 (Or.inl (by omega)))
    · exact ((hs 0 (-1) (by omega) (by omega) (by omega) (by omega)).2 (Or.inr (by omega)))
    · exact ((hs 1 0 (by omega) (by omega) (by omega) (by omega)).2 (Or.inl (by omega)))
    · exact ((hs 0 0 (by omega) (by omega) (by omega) (by omega)).1)
    · exact ((hs 0 1 (by omega) (by omega) (by omega) (by omega)).2 (Or.inr (by omega)))
  by_cases hk : k = 1
  · rw [hk]
    exact hone
  · have hT : T > 1 := by omega
    have hsv := h2 hT
    unfold survived at hsv
    rw [List.all_eq_true] at hsv
    have hw := hsv dir (List.mem_range.2 hd)
    simp only [Bool.or_eq_true, decide_eq_true_eq] at hw
    rcases hw with hw | hw
    · exact absurd hw hne
    · rw [← along_one p dir hd] at hw
      exact wallSurvives_spec s hb dir hd p _ 1 (by omega) hone hw k hk1 (by
        rw [Int.toNat_of_nonneg (by omega)]
        omega)

/-- The scan of a layer keeps the boxes and the type of every cell, and every cell
it lists lies in the layer and passes the tests in the state the scan began in. -/
theorem hollowScan_spec (T y : Int) (g : Hollowing) :
    (hollowScan T y g).1.s.gAirBox = g.s.gAirBox ∧
    (hollowScan T y g).1.s.gSolidBox = g.s.gSolidBox ∧
    (∀ q, ((hollowScan T y g).1.s.gBoxData q).type = (g.s.gBoxData q).type) ∧
    ∀ p ∈ (hollowScan T y g).2,
      p.y = y ∧ hollowTest g.s p = true ∧ (T > 1 → survived g.s T p = true) := by
  unfold hollowScan
  have key := foldl_inv
    (fun a : Hollowing × List IPoint =>
      a.1.s.gAirBox = g.s.gAirBox ∧ a.1.s.gSolidBox = g.s.gSolidBox ∧
      (∀ q, (a.1.s.gBoxData q).type = (g.s.gBoxData q).type) ∧
      ∀ p ∈ a.2, p.y = y ∧ hollowTest g.s p = true ∧ (T > 1 → survived g.s T p = true))
    (hollowCell T y) (hollowColumns g.s T) (g, [])
    ⟨rfl, rfl, fun _ => rfl, fun p hp => by simp at hp⟩ ?_
  · exact key
  · intro a xz _ ⟨h1, h2, h3, h4⟩
    obtain ⟨k1, k2, _, k4⟩ := hollowCell_types T y a xz
    refine ⟨k1.trans h1, k2.trans h2, fun q => (k4 q).trans (h3 q), ?_⟩
    have ht : ∀ p, hollowTest a.1.s p = hollowTest g.s p := hollowTest_congr _ _ h3
    have hs : ∀ p, survived a.1.s T p = survived g.s T p := survived_congr _ _ h1 h3 T
    unfold hollowCell
    simp only []
    repeat' split
    all_goals first
      | exact h4
      | (intro p hp
         rcases List.mem_append.1 hp with hp | hp
         · exact h4 p hp
         · rw [List.mem_singleton.1 hp]
           refine ⟨rfl, ?_, ?_⟩
           · rw [← ht]; assumption
           · intro hT
             first
               | (rw [← hs]; assumption)
               | omega)

theorem hollowDelete_fold (l : List IPoint) (h : Hollowing) :
    (l.foldl hollowDelete h).s.gAirBox = h.s.gAirBox ∧
    (l.foldl hollowDelete h).s.gSolidBox = h.s.gSolidBox ∧
    (l.foldl hollowDelete h).listFound = h.listFound ∧
    ∀ q, (q ∈ l → ((l.foldl hollowDelete h).s.gBoxData q).type = BLOCK_AIR) ∧
      (q ∉ l → (l.foldl hollowDelete h).s.gBoxData q = h.s.gBoxData q) := by
  induction l generalizing h with
  | nil => exact ⟨rfl, rfl, rfl, fun q => ⟨fun hq => by simp at hq, fun _ => rfl⟩⟩
  | cons p l ih =>
    simp only [List.foldl_cons]
    obtain ⟨h1, h2, h3, h4⟩ := ih (hollowDelete h p)
    refine ⟨h1, h2, h3, fun q => ⟨?_, ?_⟩⟩
    · intro hq
      by_cases hl : q ∈ l
      · exact (h4 q).1 hl
      · rw [(h4 q).2 hl]
        have : q = p := by
          rcases List.mem_cons.1 hq with h | h
          · exact h
          · exact absurd h hl
        subst this
        simp [hollowDelete, setCell]
    · intro hq
      rw [(h4 q).2 fun hl => hq (List.mem_cons_of_mem _ hl)]
      have : q ≠ p := fun e => hq (e ▸ List.mem_cons_self _ _)
      simp [hollowDelete, setCell, this]

/-- One layer of the bottom-up pass: a cell changes its type only by being listed by
the scan and set to air. -/
theorem hollowLayer_spec (T y : Int) (g : Hollowing) :
    (hollowLayer T y g).s.gAirBox = g.s.gAirBox ∧
    (hollowLayer T y g).s.gSolidBox = g.s.gSolidBox ∧
    (hollowLayer T y g).listFound = ((hollowScan T y g).2.length : Int) ∧
    ∀ q, (q ∈ (hollowScan T y g).2 → ((hollowLayer T y g).s.gBoxData q).type = BLOCK_AIR) ∧
      (q ∉ (hollowScan T y g).2 →
        ((hollowLayer T y g).s.gBoxData q).type = (g.s.gBoxData q).type) := by
  obtain ⟨s1, s2, s3, _⟩ := hollowScan_spec T y g
  unfold hollowLayer
  simp only []
  obtain ⟨h1, h2, h3, h4⟩ := hollowDelete_fold (hollowScan T y g).2.reverse
    { (hollowScan T y g).1 with listFound := ((hollowScan T y g).2.length : Int) }
  refine ⟨h1.trans s1, h2.trans s2, h3, fun q => ⟨?_, ?_⟩⟩
  · intro hq
    exact (h4 q).1 (List.mem_reverse.2 hq)
  · intro hq
    rw [(h4 q).2 fun h => hq (List.mem_reverse.1 h)]
    exact s3 q

theorem hollowSweep_stopped (T : Int) (ys : List Int) (g : Hollowing) (h : g.listFound = 0) :
    hollowSweep T ys g = g := by
  cases ys with
  | nil => rfl
  | cons y ys => simp [hollowSweep, h]

theorem hollowSweep_append (T : Int) (pre ys : List Int) (g : Hollowing) :
    hollowSweep T (pre ++ ys) g = hollowSweep T ys (hollowSweep T pre g) := by
  induction pre generalizing g with
  | nil => rfl
  | cons y pre ih =>
    simp only [List.cons_append, hollowSweep]
    split
    · exact ih _
    · rename_i h
      rw [hollowSweep_stopped T ys g (by simpa using h)]

theorem hollowLayer_bordered (T y : Int) (g : Hollowing) (hb : Bordered g.s) :
    Bordered (hollowLayer T y g).s := by
  obtain ⟨h1, _, _, h4⟩ := hollowLayer_spec T y g
  intro q hq
  rw [h1]
  apply hb
  by_cases hl : q ∈ (hollowScan T y g).2
  · exact absurd ((h4 q).1 hl) hq
  · rw [← (h4 q).2 hl]
    exact hq

/-- Every cell whose type the sweep over the layers `ys` changes was listed by the
scan of one of the layers, in the state that the sweep had reached then. -/
theorem hollowSweep_removed (T : Int) (g0 : Hollowing) (ys : List Int) :
    ∀ (pre : List Int) (g : Hollowing), g = hollowSweep T pre g0 → Bordered g.s →
      ∀ p, ((hollowSweep T ys g).s.gBoxData p).type ≠ (g.s.gBoxData p).type →
        ∃ pre' y post, pre ++ ys = pre' ++ y :: post ∧
          (hollowSweep T pre' g0).listFound ≠ 0 ∧
          p ∈ (hollowScan T y (hollowSweep T pre' g0)).2 ∧ p.y = y ∧
          ((hollowSweep T pre' g0).s.gBoxData p).type ≠ BLOCK_AIR ∧
          Hollowable (hollowSweep T pre' g0).s.gBoxData T p := by
  induction ys with
  | nil =>
    intro pre g _ _ p hp
    exact absurd rfl hp
  | cons y ys ih =>
    intro pre g hg hb p hp
    by_cases hf : g.listFound ≠ 0
    · have hstep : hollowSweep T (y :: ys) g = hollowSweep T ys (hollowLayer T y g) := by
        simp only [hollowSweep, hf, ne_eq, not_false_eq_true, if_true]
      rw [hstep] at hp
      obtain ⟨_, _, _, h4⟩ := hollowLayer_spec T y g
      by_cases hl : p ∈ (hollowScan T y g).2
      · obtain ⟨_, _, _, hs⟩ := hollowScan_spec T y g
        obtain ⟨e1, e2, e3⟩ := hs p hl
        refine ⟨pre, y, ys, rfl, ?_, ?_, e1, ?_, ?_⟩
        · rw [← hg]; exact hf
        · rw [← hg]; exact hl
        · rw [← hg]; exact (hollowTest_spec g.s p e2).2.1
        · rw [← hg]; exact candidate_spec g.s hb T p e2 e3
      · rw [← (h4 p).2 hl] at hp
        have hnext : hollowLayer T y g = hollowSweep T (pre ++ [y]) g0 := by
          rw [hollowSweep_append, ← hg]
          simp only [hollowSweep, hf, ne_eq, not_false_eq_true, if_true]
        obtain ⟨pre', y', post, e, rest⟩ :=
          ih (pre ++ [y]) (hollowLayer T y g) hnext (hollowLayer_bordered T y g hb) p hp
        exact ⟨pre', y', post, by simpa using e, rest⟩
    · rw [hollowSweep_stopped T _ g (by simpa using hf)] at hp
      exact absurd rfl hp

theorem stoneCube_bordered (o : Options) : Bordered (stoneCube o) := by
  intro q hq
  unfold stoneCube stoneWorld at hq ⊢
  simp only [] at hq ⊢
  split at hq
  · rename_i h
    simp only [decide_eq_true_eq] at h
    omega
  · exact absurd rfl hq


/-- The scan of a layer leaves every air cell as it is, and sets no group but
`HOLLOW_AIR_GROUP`. -/
theorem hollowCell_air (T y : Int) (a : Hollowing × List IPoint) (xz : Int × Int) (q : IPoint) :
    ((a.1.s.gBoxData q).type = BLOCK_AIR →
      (hollowCell T y a xz).1.s.gBoxData q = a.1.s.gBoxData q) ∧
    ((a.1.s.gBoxData q).group = HOLLOW_AIR_GROUP →
      ((hollowCell T y a xz).1.s.gBoxData q).group = HOLLOW_AIR_GROUP) := by
  unfold hollowCell
  simp only []
  repeat' split
  all_goals first
    | exact ⟨fun _ => rfl, fun h => h⟩
    | (rename_i hpos
       refine ⟨fun h0 => ?_, fun hg => ?_⟩
       · simp only [setCell]
         split
         · rename_i e
           rw [← e, h0] at hpos
           exact absurd hpos (by decide)
         · rfl
       · simp only [setCell]
         split
         · rfl
         · exact hg)

theorem hollowScan_air (T y : Int) (g : Hollowing) (q : IPoint) :
    ((g.s.gBoxData q).type = BLOCK_AIR → (hollowScan T y g).1.s.gBoxData q = g.s.gBoxData q) ∧
    ((g.s.gBoxData q).group = HOLLOW_AIR_GROUP →
      ((hollowScan T y g).1.s.gBoxData q).group = HOLLOW_AIR_GROUP) := by
  unfold hollowScan
  have key := foldl_inv
    (fun a : Hollowing × List IPoint =>
      ((g.s.gBoxData q).type = BLOCK_AIR → a.1.s.gBoxData q = g.s.gBoxData q) ∧
      ((g.s.gBoxData q).group = HOLLOW_AIR_GROUP →
        (a.1.s.gBoxData q).group = HOLLOW_AIR_GROUP))
    (hollowCell T y) (hollowColumns g.s T) (g, []) ⟨fun _ => rfl, fun h => h⟩ ?_
  · exact key
  · intro a xz _ ⟨h1, h2⟩
    refine ⟨fun h0 => ?_, fun hg => (hollowCell_air T y a xz q).2 (h2 hg)⟩
    rw [(hollowCell_air T y a xz q).1 (by rw [h1 h0]; exact h0)]
    exact h1 h0

theorem hollowDelete_groups (l : List IPoint) (h : Hollowing) (q : IPoint)
    (hg : (h.s.gBoxData q).group = HOLLOW_AIR_GROUP) :
    ((l.foldl hollowDelete h).s.gBoxData q).group = HOLLOW_AIR_GROUP := by
  induction l generalizing h with
  | nil => exact hg
  | cons p l ih =>
    simp only [List.foldl_cons]
    apply ih
    simp only [hollowDelete, setCell]
    split
    · rfl
    · exact hg

/-- One layer of the bottom-up pass leaves every air cell as it is, and sets no
group but `HOLLOW_AIR_GROUP`. -/
theorem hollowLayer_air (T y : Int) (g : Hollowing) (q : IPoint) :
    ((g.s.gBoxData q).type = BLOCK_AIR → (hollowLayer T y g).s.gBoxData q = g.s.gBoxData q) ∧
    ((g.s.gBoxData q).group = HOLLOW_AIR_GROUP →
      ((hollowLayer T y g).s.gBoxData q).group = HOLLOW_AIR_GROUP) := by
  obtain ⟨_, _, _, hs⟩ := hollowScan_spec T y g
  unfold hollowLayer
  simp only []
  obtain ⟨_, _, _, h4⟩ := hollowDelete_fold (hollowScan T y g).2.reverse
    { (hollowScan T y g).1 with listFound := ((hollowScan T y g).2.length : Int) }
  refine ⟨fun h0 => ?_, fun hg => ?_⟩
  · rw [(h4 q).2]
    · exact (hollowScan_air T y g q).1 h0
    · intro hm
      exact (hollowTest_spec g.s q (hs q (List.mem_reverse.1 hm)).2.1).2.1 h0
  · exact hollowDelete_groups _ _ q ((hollowScan_air T y g q).2 hg)

theorem hollowSweep_air (T : Int) (ys : List Int) (g : Hollowing) (q : IPoint) :
    ((g.s.gBoxData q).type = BLOCK_AIR → (hollowSweep T ys g).s.gBoxData q = g.s.gBoxData q) ∧
    ((g.s.gBoxData q).group = HOLLOW_AIR_GROUP →
      ((hollowSweep T ys g).s.gBoxData q).group = HOLLOW_AIR_GROUP) := by
  induction ys generalizing g with
  | nil => exact ⟨fun _ => rfl, fun h => h⟩
  | cons y ys ih =>
    simp only [hollowSweep]
    split
    · obtain ⟨h1, h2⟩ := hollowLayer_air T y g q
      obtain ⟨h3, h4⟩ := ih (hollowLayer T y g)
      refine ⟨fun h0 => ?_, fun hg => h4 (h2 hg)⟩
      rw [h3 (by rw [h1 h0]; exact h0), h1 h0]
    · exact ⟨fun _ => rfl, fun h => h⟩

/-- The bottom-up pass keeps both ways in which hollowing can start. -/
theorem hollowBottomOfModel_tagged (d0 : IPoint → BoxCell) (b : IBox) (T : Int) (h : Hollowing) :
    (Tagged d0 b h.s → Tagged d0 b (hollowBottomOfModel T h).s) ∧
    (Unlabelled h.s → Unlabelled (hollowBottomOfModel T h).s) := by
  unfold hollowBottomOfModel
  refine ⟨fun ht => ⟨fun q hq => ?_, ht.2⟩, fun hu q => ?_⟩
  · have h0 := ht.1 q hq
    rw [(hollowSweep_air T _ { h with hollowDone := fun _ => 0, listFound := 1 } q).1
      (by show (h.s.gBoxData q).type = BLOCK_AIR; rw [h0]; exact hq)]
    exact h0
  · exact (hollowSweep_air T _ { h with hollowDone := fun _ => 0, listFound := 1 } q).2 (hu q)

theorem seedOk_stencil (s : ExportState) (T : Int) (p : IPoint) (h : seedOk s T p = true)
    (dx dy dz : Int) (hx0 : -1 ≤ dx) (hx1 : dx ≤ 1) (hy0 : -1 ≤ dy) (hy1 : dy ≤ 1)
    (hz0 : -1 ≤ dz) (hz1 : dz ≤ 1) : outsideAir s (p.offset dx dy dz) = false := by
  unfold seedOk at h
  simp only [Bool.and_eq_true, List.all_eq_true] at h
  have := h.1 (p.offset dx dy dz) (by
    unfold seedStencil
    rw [mem_boxCells, contains_iff]
    simp only [IPoint.offset]
    omega)
  simpa using this

set_option maxRecDepth 100000 in
theorem stoneCube_wellFormed : WellFormed (stoneCube noOptions) := by
  decide


theorem repairLoop_idle (bi : BlockInfo) (qsort_s : Qsort) (fuel : Nat) (s : ExportState)
    (hc : s.gOptions.EXPT_CONNECT_PARTS = false)
    (ht : s.gOptions.EXPT_CONNECT_CORNER_TIPS = false) :
    repairLoop bi qsort_s (fuel + 1) 0 s = some (s, 1) := by
  have hp : repairPass bi qsort_s 0 s = (0, s) := by
    unfold repairPass
    simp [hc, ht]
  unfold repairLoop
  simp [hp]

/-- The tree test over a list of cells: `deleteGroup` stays set exactly when every
cell of the group is a tree part or was air or vines, and then `treeParts` gets
its leaf bit exactly when one of these cells is a leaf part. -/
theorem treeFold_spec (bi : BlockInfo) (s : ExportState) (i : Nat) (l : List IPoint)
    (a : Bool × Bool) :
    ((l.foldl (treeTestCell bi s i) a).1 = true ↔
      a.1 = true ∧ ∀ p ∈ l, (s.gBoxData p).group = i →
        (bi.BLF_TREE_PART (s.gBoxData p).type = true ∨ (s.gBoxData p).origType = BLOCK_AIR ∨
          (s.gBoxData p).origType = bi.BLOCK_VINES)) ∧
    ((l.foldl (treeTestCell bi s i) a).1 = true →
      ((l.foldl (treeTestCell bi s i) a).2 = true ↔
        a.2 = true ∨ ∃ p ∈ l, (s.gBoxData p).group = i ∧
          bi.BLF_LEAF_PART (s.gBoxData p).type = true)) := by
  induction l generalizing a with
  | nil => simp
  | cons x l ih =>
    simp only [List.foldl_cons, List.mem_cons, forall_eq_or_imp, exists_eq_or_imp]
    obtain ⟨h1, h2⟩ := ih (treeTestCell bi s i a x)
    have hstep : treeTestCell bi s i a x =
        if a.1 = true then
          if (s.gBoxData x).group = i then
            if bi.BLF_TREE_PART (s.gBoxData x).type = true ∨ (s.gBoxData x).origType = BLOCK_AIR ∨
                (s.gBoxData x).origType = bi.BLOCK_VINES then
              (a.1, a.2 || bi.BLF_LEAF_PART (s.gBoxData x).type)
            else (false, a.2)
          else a
        else a := by
      unfold treeTestCell
      rfl
    by_cases ha : a.1 = true
    · by_cases hg : (s.gBoxData x).group = i
      · by_cases ht : bi.BLF_TREE_PART (s.gBoxData x).type = true ∨
            (s.gBoxData x).origType = BLOCK_AIR ∨ (s.gBoxData x).origType = bi.BLOCK_VINES
        · have e : treeTestCell bi s i a x =
              (a.1, a.2 || bi.BLF_LEAF_PART (s.gBoxData x).type) := by
            rw [hstep, if_pos ha, if_pos hg, if_pos ht]
          rw [e] at h1 h2
          simp only [] at h1 h2
          rw [e]
          refine ⟨?_, ?_⟩
          · rw [h1]
            simp only [ha, true_and, hg, forall_const, ht]
          · intro hr
            rw [h2 hr]
            simp only [Bool.or_eq_true, hg, true_and]
            tauto
        · have e : treeTestCell bi s i a x = (false, a.2) := by
            rw [hstep, if_pos ha, if_pos hg, if_neg ht]
          rw [e] at h1 h2
          rw [e]
          have hf : ((l.foldl (treeTestCell bi s i) (false, a.2)).1 = true) = False := by
            simp [h1]
          refine ⟨?_, ?_⟩
          · rw [hf]
            simp only [false_iff, not_and]
            intro _ hx _
            exact ht (hx hg)
          · rw [hf]
            exact False.elim
      · have e : treeTestCell bi s i a x = a := by
          rw [hstep, if_pos ha, if_neg hg]
        rw [e] at h1 h2
        rw [e]
        refine ⟨?_, ?_⟩
        · rw [h1]
          simp only [ha, true_and, hg, false_implies]
        · intro hr
          rw [h2 hr]
          simp only [hg, false_and, false_or]
    · have e : treeTestCell bi s i a x = a := by
        rw [hstep, if_neg ha]
      rw [e] at h1 h2
      rw [e]
      refine ⟨?_, ?_⟩
      · rw [h1]
        simp [ha]
      · intro hr
        exact absurd (h1.1 hr).1 ha

/-- When `deleteGroup` is set for a group: its population is below the threshold, or
all its cells inside its bounds are tree parts or were air or vines and one of
them is a leaf part. -/
theorem deleteGroupTest_spec (bi : BlockInfo) (s : ExportState) (i : Nat) :
    deleteGroupTest bi s i = true ↔
      (s.gGroupList i).population < s.gOptions.floaterCountVal ∨
      ((∀ p, (s.gGroupList i).bounds.contains p = true → (s.gBoxData p).group = i →
          (bi.BLF_TREE_PART (s.gBoxData p).type = true ∨ (s.gBoxData p).origType = BLOCK_AIR ∨
            (s.gBoxData p).origType = bi.BLOCK_VINES)) ∧
        ∃ p, (s.gGroupList i).bounds.contains p = true ∧ (s.gBoxData p).group = i ∧
          bi.BLF_LEAF_PART (s.gBoxData p).type = true) := by
  unfold deleteGroupTest
  obtain ⟨h1, h2⟩ := treeFold_spec bi s i (boxCells (s.gGroupList i).bounds) (true, false)
  by_cases hp : (s.gGroupList i).population < s.gOptions.floaterCountVal
  · simp [hp]
  · rw [if_neg hp]
    simp only [hp, false_or, Bool.and_eq_true]
    constructor
    · rintro ⟨ha, hb⟩
      have := (h2 ha).1 hb
      simp only [Bool.false_eq_true, false_or] at this
      obtain ⟨p, hp1, hp2, hp3⟩ := this
      exact ⟨fun q hq => (h1.1 ha).2 q (mem_boxCells.2 hq), p, mem_boxCells.1 hp1, hp2, hp3⟩
    · rintro ⟨ha, p, hp1, hp2, hp3⟩
      have hr := h1.2 ⟨rfl, fun q hq => ha q (mem_boxCells.1 hq)⟩
      exact ⟨hr, (h2 hr).2 (Or.inr ⟨p, mem_boxCells.2 hp1, hp2, hp3⟩)⟩

theorem deleteGroupTest_congr (bi : BlockInfo) (s t : ExportState) (i : Nat)
    (hr : t.gGroupList i = s.gGroupList i) (ho : t.gOptions = s.gOptions)
    (hc : ∀ p, t.gBoxData p = s.gBoxData p ∨
      ((t.gBoxData p).group ≠ i ∧ (s.gBoxData p).group ≠ i)) :
    deleteGroupTest bi t i = deleteGroupTest bi s i := by
  have hf : treeTestCell bi t i = treeTestCell bi s i := by
    funext a loc
    unfold treeTestCell
    rcases hc loc with h | ⟨h1, h2⟩
    · rw [h]
    · simp [h1, h2]
  unfold deleteGroupTest
  rw [hr, ho, hf]

/-- A call of `fillGroups` that turns groups into air sets the type of every cell of
a solid target group inside the bounds to the fill type. -/
theorem fillGroups_cleared (bi : BlockInfo) (s : ExportState) (bounds : IBox) (m : Nat)
    (fillType : Nat) (tg : Nat → Int) (p : IPoint) (hp : bounds.contains p = true)
    (ht : tg (s.gBoxData p).group > 0) (hs : (s.gGroupList (s.gBoxData p).group).solid = true) :
    ((fillGroups bi s bounds m false fillType tg).gBoxData p).type = fillType % 256 := by
  unfold fillGroups
  have key := foldl_prefix_inv (fillGroupsCell bi m false fillType tg)
    (fun pre (t : ExportState) => Refilled s t ∧ (∀ q, q ∉ pre → t.gBoxData q = s.gBoxData q) ∧
      (p ∈ pre → (t.gBoxData p).type = fillType % 256))
    (boxCells bounds) s ⟨Refilled.refilled_refl s, fun _ _ => rfl, fun h => by simp at h⟩ ?_
  · exact key.2.2 (mem_boxCells.2 hp)
  · intro pre x post t hl ⟨h1, h2, h3⟩
    have hnd := nodup_boxCells bounds
    rw [hl] at hnd
    have hxpre : x ∉ pre := by
      intro hmem
      have := (List.nodup_append.1 hnd).2.2
      exact this hmem (List.mem_cons_self _ _)
    refine ⟨h1.refilled_trans (fillGroupsCell_refilled bi m false fillType tg t x).1, ?_, ?_⟩
    · intro q hq
      have hqx : q ≠ x := fun e => hq (by rw [e]; simp)
      rw [fillGroupsCell_other bi m false fillType tg t x q hqx]
      exact h2 q fun h => hq (List.mem_append_left _ h)
    · intro hmem
      by_cases hpx : p = x
      · subst hpx
        have hcell := h2 p hxpre
        rw [fillGroupsCell_eq bi m false fillType tg t p (by rw [hcell]; exact ht)]
        simp only [setCell_same]
        have : (t.gGroupList (t.gBoxData p).group).solid ≠ false := by
          rw [hcell, h1.flags, hs]
          simp
        rw [if_pos this]
        simp [fillCellContent]
      · rw [fillGroupsCell_other bi m false fillType tg t x p hpx]
        apply h3
        rcases List.mem_append.1 hmem with h | h
        · exact h
        · exact absurd (List.mem_singleton.1 h) hpx

/-- A call of `fillGroups` leaves the record of every group alone that is neither
the master nor a target. -/
theorem fillGroups_record (bi : BlockInfo) (s : ExportState) (bounds : IBox) (m : Nat)
    (solid : Bool) (fillType : Nat) (tg : Nat → Int) (j : Nat) (hm : j ≠ m)
    (ht : ¬ tg j > 0) :
    (fillGroups bi s bounds m solid fillType tg).gGroupList j = s.gGroupList j := by
  unfold fillGroups
  apply foldl_inv (fun t : ExportState => t.gGroupList j = s.gGroupList j)
  · rfl
  · intro t loc _ h
    by_cases hc : tg (t.gBoxData loc).group > 0
    · rw [fillGroupsCell_eq bi m solid fillType tg t loc hc]
      simp only []
      have hj : j ≠ (t.gBoxData loc).group := fun e => ht (e ▸ hc)
      rw [setGroup_other _ _ hm, setGroup_other _ _ hj]
      exact h
    · rw [fillGroupsCell_untargeted bi m solid fillType tg t loc hc]
      exact h
theorem setFlag_target (i g : Nat) : setFlag (fun _ => 0) i 1 g > 0 ↔ g = i := by
  unfold setFlag
  split <;> simp_all

theorem deleteFloatingStep_idle (bi : BlockInfo) (sv : Int) (t : ExportState) (i : Nat)
    (h : floats bi t sv i = false) : deleteFloatingStep bi sv t i = t := by
  unfold deleteFloatingStep
  unfold floats at h
  by_cases hc : (t.gGroupList i).solid = true ∧ (t.gGroupList i).population > 0 ∧ (i : Int) ≠ sv
  · rw [if_pos hc]
    have : deleteGroupTest bi t i = false := by
      simpa [hc.1, hc.2.1, hc.2.2] using h
    simp [this]
  · rw [if_neg hc]

theorem deleteFloatingStep_eq (bi : BlockInfo) (sv : Int) (t : ExportState) (i : Nat)
    (h : floats bi t sv i = true) :
    (deleteFloatingStep bi sv t i).gBoxData =
      (fillGroups bi
        { t with gStats := { t.gStats with
            blocksFloaterDeleted := t.gStats.blocksFloaterDeleted + (t.gGroupList i).population } }
        (t.gGroupList i).bounds SURROUND_AIR_GROUP false BLOCK_AIR
        (setFlag (fun _ => 0) i 1)).gBoxData ∧
    (deleteFloatingStep bi sv t i).gGroupList =
      (fillGroups bi
        { t with gStats := { t.gStats with
            blocksFloaterDeleted := t.gStats.blocksFloaterDeleted + (t.gGroupList i).population } }
        (t.gGroupList i).bounds SURROUND_AIR_GROUP false BLOCK_AIR
        (setFlag (fun _ => 0) i 1)).gGroupList ∧
    Refilled t (deleteFloatingStep bi sv t i) ∧
    (deleteFloatingStep bi sv t i).gSolidGroups = t.gSolidGroups - 1 ∧
    (deleteFloatingStep bi sv t i).gStats.blocksFloaterDeleted =
      t.gStats.blocksFloaterDeleted + (t.gGroupList i).population := by
  unfold floats at h
  simp only [Bool.and_eq_true, decide_eq_true_eq] at h
  obtain ⟨⟨⟨h1, h2⟩, h3⟩, h4⟩ := h
  obtain ⟨r1, r2, _, r4⟩ := fillGroups_refilled bi
    { t with gStats := { t.gStats with
        blocksFloaterDeleted := t.gStats.blocksFloaterDeleted + (t.gGroupList i).population } }
    (t.gGroupList i).bounds SURROUND_AIR_GROUP false BLOCK_AIR (setFlag (fun _ => 0) i 1)
  unfold deleteFloatingStep
  rw [if_pos ⟨h1, h2, h3⟩, if_pos h4]
  refine ⟨rfl, rfl, ⟨r1.airBox, r1.solidBox, r1.boxSize, r1.options, r1.count, r1.flags⟩, ?_, ?_⟩
  · simp only [r4]
  · simp only [r2]

/-- The state of `deleteFloatingGroups` after one more group. -/
theorem floating_step (bi : BlockInfo) (s : ExportState) (sv : Int) (pre : List Nat)
    (t : ExportState) (i : Nat) (h : Floating bi s sv pre t) (hi : 2 ≤ i) (hpre : i ∉ pre) :
    Floating bi s sv (pre ++ [i]) (deleteFloatingStep bi sv t i) := by
  have hrec : t.gGroupList i = s.gGroupList i := h.records i hi hpre
  have hcell : ∀ p, (s.gBoxData p).group = i → t.gBoxData p = s.gBoxData p := by
    intro p hp
    rcases h.cells p with e | ⟨hm, _⟩
    · exact e
    · rw [hp] at hm
      exact absurd hm hpre
  have hcong : deleteGroupTest bi t i = deleteGroupTest bi s i := by
    apply deleteGroupTest_congr bi s t i hrec h.refilled.options
    intro p
    rcases h.cells p with e | ⟨hm, _, _, hg⟩
    · exact Or.inl e
    · refine Or.inr ⟨?_, fun e => hpre (e ▸ hm)⟩
      rw [hg]
      unfold SURROUND_AIR_GROUP
      omega
  have hfl : floats bi t sv i = floats bi s sv i := by
    unfold floats
    rw [hrec, hcong]
  have hmem : ∀ g, g ∈ pre ++ [i] ↔ g ∈ pre ∨ g = i := by
    intro g
    simp
  by_cases hf : floats bi s sv i = true
  swap
  · have hf' : floats bi s sv i = false := by simpa using hf
    rw [deleteFloatingStep_idle bi sv t i (by rw [hfl]; exact hf')]
    have hfilter : (pre ++ [i]).filter (floats bi s sv) = pre.filter (floats bi s sv) := by
      rw [List.filter_append]
      simp [hf']
    refine ⟨h.refilled, fun j hj hn => h.records j hj fun hm => hn ((hmem j).2 (Or.inl hm)),
      ?_, ?_, ?_, ?_⟩
    · intro p
      rcases h.cells p with e | ⟨hm, rest⟩
      · exact Or.inl e
      · exact Or.inr ⟨(hmem _).2 (Or.inl hm), rest⟩
    · intro p hm hD hb
      rcases (hmem _).1 hm with hm | hm
      · exact h.deleted p hm hD hb
      · rw [hm, hf'] at hD
        cases hD
    · rw [hfilter]
      exact h.solidGroups
    · rw [hfilter]
      exact h.blocks
  · obtain ⟨e1, e2, e3, e4, e5⟩ := deleteFloatingStep_eq bi sv t i (by rw [hfl]; exact hf)
    have hsolid : (s.gGroupList i).solid = true := by
      unfold floats at hf
      simp only [Bool.and_eq_true] at hf
      exact hf.1.1.1
    have hfilter : (pre ++ [i]).filter (floats bi s sv) = pre.filter (floats bi s sv) ++ [i] := by
      rw [List.filter_append]
      simp [hf]
    have hidle : ∀ p, (t.gBoxData p).group ≠ i →
        (deleteFloatingStep bi sv t i).gBoxData p = t.gBoxData p := by
      intro p hp
      exact deleteFloatingStep_other bi sv t i p hp
    have hmoved : ∀ p, (t.gBoxData p).group = i → (t.gGroupList i).bounds.contains p = true →
        ((deleteFloatingStep bi sv t i).gBoxData p).type = BLOCK_AIR ∧
        ((deleteFloatingStep bi sv t i).gBoxData p).group = SURROUND_AIR_GROUP := by
      intro p hp hb
      rw [e1]
      constructor
      · have := fillGroups_cleared bi
          { t with gStats := { t.gStats with
              blocksFloaterDeleted := t.gStats.blocksFloaterDeleted + (t.gGroupList i).population } }
          (t.gGroupList i).bounds SURROUND_AIR_GROUP BLOCK_AIR (setFlag (fun _ => 0) i 1) p hb
          ((setFlag_target i _).2 hp) (by
            show (t.gGroupList (t.gBoxData p).group).solid = true
            rw [hp, hrec]
            exact hsolid)
        rw [this]
        rfl
      · have := (fillGroups_spec bi
          { t with gStats := { t.gStats with
              blocksFloaterDeleted := t.gStats.blocksFloaterDeleted + (t.gGroupList i).population } }
          (t.gGroupList i).bounds SURROUND_AIR_GROUP false BLOCK_AIR
          (setFlag (fun _ => 0) i 1)).moved p (mem_boxCells.2 hb) ((setFlag_target i _).2 hp)
        exact this.1.1
    refine ⟨h.refilled.refilled_trans e3, ?_, ?_, ?_, ?_, ?_⟩
    · intro j hj hn
      rw [e2, fillGroups_record bi _ _ _ _ _ _ j (by unfold SURROUND_AIR_GROUP; omega)
        (fun hc => hn ((hmem j).2 (Or.inr ((setFlag_target i j).1 hc))))]
      exact h.records j hj fun hm => hn ((hmem j).2 (Or.inl hm))
    · intro p
      by_cases hg : (t.gBoxData p).group = i
      · by_cases hb : (t.gGroupList i).bounds.contains p = true
        · have hs : t.gBoxData p = s.gBoxData p := by
            rcases h.cells p with e | ⟨_, _, _, hg1⟩
            · exact e
            · rw [hg1] at hg
              unfold SURROUND_AIR_GROUP at hg
              omega
          have hsg : (s.gBoxData p).group = i := by rw [← hs]; exact hg
          refine Or.inr ⟨(hmem _).2 (Or.inr hsg), by rw [hsg]; exact hf, hmoved p hg hb⟩
        · have hstay : (deleteFloatingStep bi sv t i).gBoxData p = t.gBoxData p := by
            rw [e1]
            exact (fillGroups_spec bi _ _ _ _ _ _).rest p fun hm => hb (mem_boxCells.1 hm)
          rw [hstay]
          rcases h.cells p with e | ⟨hm, rest⟩
          · exact Or.inl e
          · exact Or.inr ⟨(hmem _).2 (Or.inl hm), rest⟩
      · rw [hidle p hg]
        rcases h.cells p with e | ⟨hm, rest⟩
        · exact Or.inl e
        · exact Or.inr ⟨(hmem _).2 (Or.inl hm), rest⟩
    · intro p hm hD hb
      rcases (hmem _).1 hm with hm | hm
      · have := h.deleted p hm hD hb
        rw [hidle p (by rw [this.2]; unfold SURROUND_AIR_GROUP; omega)]
        exact this
      · have hs := hcell p hm
        apply hmoved p (by rw [hs]; exact hm)
        rw [hrec, ← hm]
        exact hb
    · rw [e4, h.solidGroups, hfilter]
      simp
      ring
    · rw [e5, h.blocks, hfilter, hrec]
      simp
      ring

/-- The state after `deleteFloatingGroups`. -/
theorem deleteFloatingGroups_floating (bi : BlockInfo) (s : ExportState) :
    Floating bi s (findSurvivor s).survivorGroup (groupRange 2 s.gGroupCount)
      (deleteFloatingGroups bi s) := by
  unfold deleteFloatingGroups
  have hnd : (groupRange (SURROUND_AIR_GROUP + 1) s.gGroupCount).Nodup := by
    unfold groupRange
    exact List.nodup_range' _ _
  refine foldl_prefix_inv (deleteFloatingStep bi (findSurvivor s).survivorGroup)
    (Floating bi s (findSurvivor s).survivorGroup) (groupRange 2 s.gGroupCount) s
    ⟨Refilled.refilled_refl s, fun _ _ _ => rfl, fun _ => Or.inl rfl,
      fun p hp => by simp at hp, by simp, by simp⟩ ?_
  intro pre x post t hl ht
  have hx : x ∈ groupRange 2 s.gGroupCount := by rw [hl]; simp
  have hxpre : x ∉ pre := by
    intro hmem
    have hnd' : (pre ++ x :: post).Nodup := by rw [← hl]; exact hnd
    exact (List.nodup_append.1 hnd').2.2 hmem (List.mem_cons_self _ _)
  exact floating_step bi s _ pre t x ht (mem_groupRange.1 hx).1 hxpre

/-! ## The repair loop on two parts that share an edge -/

theorem shift_zero (a : IPoint) : a.shift (0, 0, 0) = a := by
  simp [IPoint.shift, IPoint.offset]

theorem shift_shift (a : IPoint) (u v : Int × Int × Int) :
    (a.shift u).shift v = a.shift (u + v) := by
  simp [IPoint.shift, IPoint.offset, add_assoc]

theorem shift_inj {a : IPoint} {u v : Int × Int × Int} (h : a.shift u = a.shift v) : u = v := by
  simp only [IPoint.shift, IPoint.offset, IPoint.mk.injEq] at h
  obtain ⟨u1, u2, u3⟩ := u
  obtain ⟨v1, v2, v3⟩ := v
  simp only [Prod.mk.injEq]
  simp only [] at h
  omega

set_option maxRecDepth 100000 in
theorem scan_vectors : ∀ o ∈ scanOffsets, ∀ o' ∈ scanOffsets,
    ∀ f ∈ [firstAir o, secondAir o], ∀ v0 ∈ [(0, 0, 0), o, f], ∀ v1 ∈ [(0, 0, 0), o, f],
      v0 + o' = v1 → v0 = (0, 0, 0) ∧ o' = o := by
  decide

set_option maxRecDepth 100000 in
theorem air_vectors : ∀ o ∈ scanOffsets,
    firstAir o ≠ secondAir o ∧ firstAir o ≠ (0, 0, 0) ∧ firstAir o ≠ o ∧
    secondAir o ≠ (0, 0, 0) ∧ secondAir o ≠ o ∧ o ≠ (0, 0, 0) := by
  decide

set_option maxRecDepth 100000 in
theorem table_vectors : ∀ o ∈ scanOffsets,
    ((edgeBits o).1, secondAir o - firstAir o, (edgeBits o).2) ∈ touchTable ∧
    ((edgeBits o).2, firstAir o - secondAir o, (edgeBits o).1) ∈ touchTable ∧
    (edgeBits o).1 ≠ 0 ∧ (edgeBits o).2 ≠ 0 := by
  decide

theorem edgeDiagonal_symm {a b : IPoint} (h : edgeDiagonal a b) : edgeDiagonal b a := by
  unfold edgeDiagonal at *
  omega

theorem twoParts_swap {s : ExportState} {a b : IPoint} (h : TwoParts s a b) : TwoParts s b a :=
  { diagonal := edgeDiagonal_symm h.diagonal
    only := fun p => (h.only p).trans or_comm
    groups := fun e => h.groups e.symm
    boxA := h.boxB
    boxB := h.boxA
    solidA := h.solidB
    solidB := h.solidA
    boundsA := h.boundsB
    boundsB := h.boundsA
    parts := h.parts
    two := h.two
    welded := h.welded }

theorem checkForTouchingEdge_idle (t : ExportState) (p : IPoint) (ox oy oz : Int)
    (h : (t.gBoxData (p.offset ox oy oz)).isSolid = false) :
    checkForTouchingEdge t p ox oy oz = t := by
  unfold checkForTouchingEdge
  simp only [h]
  simp

theorem checkForTouchingEdge_data (t : ExportState) (p : IPoint) (ox oy oz : Int) :
    (checkForTouchingEdge t p ox oy oz).gBoxData = t.gBoxData := by
  unfold checkForTouchingEdge
  simp only []
  by_cases c1 : (t.gBoxData (p.offset ox oy oz)).isSolid = true
  swap
  · rw [if_neg c1]
  rw [if_pos c1]
  by_cases c2 : t.gOptions.EXPT_CONNECT_ALL_EDGES = true ∨
      (t.gBoxData p).group ≠ (t.gBoxData (p.offset ox oy oz)).group
  swap
  · rw [if_neg c2]
  rw [if_pos c2]
  cases touchPair t p ox oy oz with
  | none => rfl
  | some r =>
    obtain ⟨n1, n2, b1, b2⟩ := r
    simp only []
    generalize computeObscurity _ n1 = x1
    generalize computeObscurity _ n2 = x2
    by_cases d1 : x1 ≥ x2 <;> by_cases d2 : x2 ≥ x1
    · rw [if_pos d1, if_pos d2]; rfl
    · rw [if_pos d1, if_neg d2]; rfl
    · rw [if_neg d1, if_pos d2]; rfl
    · rw [if_neg d1, if_neg d2]

theorem touchScanCell_idle (t : ExportState) (p : IPoint)
    (h : ∀ o ∈ scanOffsets, (t.gBoxData (p.shift o)).isSolid = false) :
    touchScanCell t p = t := by
  simp only [scanOffsets, List.mem_cons, List.mem_singleton, List.not_mem_nil, or_false,
    forall_eq_or_imp, forall_eq, IPoint.shift] at h
  obtain ⟨h1, h2, h3, h4, h5, h6⟩ := h
  unfold touchScanCell
  simp only [checkForTouchingEdge_idle _ _ _ _ _ h1, checkForTouchingEdge_idle _ _ _ _ _ h2,
    checkForTouchingEdge_idle _ _ _ _ _ h3, checkForTouchingEdge_idle _ _ _ _ _ h4,
    checkForTouchingEdge_idle _ _ _ _ _ h5, checkForTouchingEdge_idle _ _ _ _ _ h6, ite_self]

theorem touchScanCell_single (t : ExportState) (p : IPoint) (o : Int × Int × Int)
    (ho : o ∈ scanOffsets) (hp : (t.gBoxData p).isSolid = true)
    (hair : (t.gBoxData (p.shift (firstAir o))).type = BLOCK_AIR)
    (h : ∀ q ∈ scanOffsets, q ≠ o → (t.gBoxData (p.shift q)).isSolid = false) :
    touchScanCell t p = checkForTouchingEdge t p o.1 o.2.1 o.2.2 := by
  have idle : ∀ (u : ExportState) (ox oy oz : Int), u.gBoxData = t.gBoxData →
      (t.gBoxData (p.offset ox oy oz)).isSolid = false →
      checkForTouchingEdge u p ox oy oz = u := fun u ox oy oz hu hs =>
    checkForTouchingEdge_idle u p ox oy oz (by rw [hu]; exact hs)
  simp only [scanOffsets, List.mem_cons, List.mem_singleton, List.not_mem_nil, or_false,
    forall_eq_or_imp, forall_eq, IPoint.shift] at h
  obtain ⟨h1, h2, h3, h4, h5, h6⟩ := h
  simp only [scanOffsets, List.mem_cons, List.mem_singleton, List.not_mem_nil, or_false] at ho
  unfold touchScanCell
  rw [if_pos hp]
  rcases ho with rfl | rfl | rfl | rfl | rfl | rfl
  · have k2 := h2 (by decide); have k3 := h3 (by decide); have k4 := h4 (by decide); have k5 := h5 (by decide); have k6 := h6 (by decide)
    have e := checkForTouchingEdge_data t p 1 (-1) 0
    simp [firstAir, IPoint.shift] at hair
    simp only [hair, if_true, ite_self,
      idle t _ _ _ rfl k2,
      idle _ _ _ _ e k2,
      idle t _ _ _ rfl k3,
      idle _ _ _ _ e k3,
      idle t _ _ _ rfl k4,
      idle _ _ _ _ e k4,
      idle t _ _ _ rfl k5,
      idle _ _ _ _ e k5,
      idle t _ _ _ rfl k6,
      idle _ _ _ _ e k6]
  · have k1 := h1 (by decide); have k3 := h3 (by decide); have k4 := h4 (by decide); have k5 := h5 (by decide); have k6 := h6 (by decide)
    have e := checkForTouchingEdge_data t p 1 0 (-1)
    simp [firstAir, IPoint.shift] at hair
    simp only [hair, if_true, ite_self,
      idle t _ _ _ rfl k1,
      idle _ _ _ _ e k1,
      idle t _ _ _ rfl k3,
      idle _ _ _ _ e k3,
      idle t _ _ _ rfl k4,
      idle _ _ _ _ e k4,
      idle t _ _ _ rfl k5,
      idle _ _ _ _ e k5,
      idle t _ _ _ rfl k6,
      idle _ _ _ _ e k6]
  · have k1 := h1 (by decide); have k2 := h2 (by decide); have k4 := h4 (by decide); have k5 := h5 (by decide); have k6 := h6 (by decide)
    have e := checkForTouchingEdge_data t p 1 1 0
    simp [firstAir, IPoint.shift] at hair
    simp only [hair, if_true, ite_self,
      idle t _ _ _ rfl k1,
      idle _ _ _ _ e k1,
      idle t _ _ _ rfl k2,
      idle _ _ _ _ e k2,
      idle t _ _ _ rfl k4,
      idle _ _ _ _ e k4,
      idle t _ _ _ rfl k5,
      idle _ _ _ _ e k5,
      idle t _ _ _ rfl k6,
      idle _ _ _ _ e k6]
  · have k1 := h1 (by decide); have k2 := h2 (by decide); have k3 := h3 (by decide); have k5 := h5 (by decide); have k6 := h6 (by decide)
    have e := checkForTouchingEdge_data t p 1 0 1
    simp [firstAir, IPoint.shift] at hair
    simp only [hair, if_true, ite_self,
      idle t _ _ _ rfl k1,
      idle _ _ _ _ e k1,
      idle t _ _ _ rfl k2,
      idle _ _ _ _ e k2,
      idle t _ _ _ rfl k3,
      idle _ _ _ _ e k3,
      idle t _ _ _ rfl k5,
      idle _ _ _ _ e k5,
      idle t _ _ _ rfl k6,
      idle _ _ _ _ e k6]
  · have k1 := h1 (by decide); have k2 := h2 (by decide); have k3 := h3 (by decide); have k4 := h4 (by decide); have k6 := h6 (by decide)
    have e := checkForTouchingEdge_data t p 0 (-1) 1
    simp [firstAir, IPoint.shift] at hair
    simp only [hair, if_true, ite_self,
      idle t _ _ _ rfl k1,
      idle _ _ _ _ e k1,
      idle t _ _ _ rfl k2,
      idle _ _ _ _ e k2,
      idle t _ _ _ rfl k3,
      idle _ _ _ _ e k3,
      idle t _ _ _ rfl k4,
      idle _ _ _ _ e k4,
      idle t _ _ _ rfl k6,
      idle _ _ _ _ e k6]
  · have k1 := h1 (by decide); have k2 := h2 (by decide); have k3 := h3 (by decide); have k4 := h4 (by decide); have k5 := h5 (by decide)
    have e := checkForTouchingEdge_data t p 0 1 1
    simp [firstAir, IPoint.shift] at hair
    simp only [hair, if_true, ite_self,
      idle t _ _ _ rfl k1,
      idle _ _ _ _ e k1,
      idle t _ _ _ rfl k2,
      idle _ _ _ _ e k2,
      idle t _ _ _ rfl k3,
      idle _ _ _ _ e k3,
      idle t _ _ _ rfl k4,
      idle _ _ _ _ e k4,
      idle t _ _ _ rfl k5,
      idle _ _ _ _ e k5]

theorem foldl_idle {α β : Type} (f : β → α → β) (a : α) (P : β → Prop)
    (hidle : ∀ t x, P t → x ≠ a → f t x = t) :
    ∀ (l : List α), a ∉ l → ∀ t, P t → l.foldl f t = t := by
  intro l
  induction l with
  | nil => intro _ t _; rfl
  | cons x l ih =>
    intro ha t ht
    rw [List.foldl_cons, hidle t x ht (fun e => ha (by rw [e]; exact List.mem_cons_self _ _))]
    exact ih (fun h => ha (List.mem_cons_of_mem _ h)) t ht

theorem foldl_single {α β : Type} (f : β → α → β) (a : α) (P : β → Prop)
    (hidle : ∀ t x, P t → x ≠ a → f t x = t) (hP : ∀ t, P t → P (f t a)) :
    ∀ (l : List α), l.Nodup → a ∈ l → ∀ t, P t → l.foldl f t = f t a := by
  intro l
  induction l with
  | nil => intro _ ha; simp at ha
  | cons x l ih =>
    intro hn ha t ht
    rw [List.foldl_cons]
    rw [List.nodup_cons] at hn
    by_cases hx : x = a
    · subst hx
      exact foldl_idle f x P hidle l hn.1 _ (hP t ht)
    · rw [hidle t x ht hx]
      rcases List.mem_cons.1 ha with e | h
      · exact absurd e.symm hx
      · exact ih hn.2 h t ht

theorem touchPair_eq (s : ExportState) (b : IPoint) (o : Int × Int × Int)
    (ho : o ∈ scanOffsets) :
    touchPair s b o.1 o.2.1 o.2.2 =
      if (s.gBoxData (b.shift (secondAir o))).type = BLOCK_AIR then
        some (b.shift (firstAir o), b.shift (secondAir o), (edgeBits o).1, (edgeBits o).2)
      else none := by
  simp only [scanOffsets, List.mem_cons, List.mem_singleton, List.not_mem_nil, or_false] at ho
  rcases ho with rfl | rfl | rfl | rfl | rfl | rfl <;>
    simp [touchPair, firstAir, secondAir, IPoint.shift, edgeBits]

theorem not_solid_air {c : BoxCell} (h : ¬ c.isSolid = true) : c.type = BLOCK_AIR := by
  rw [isSolid_iff] at h
  unfold BLOCK_AIR
  omega

theorem twoParts_air {s : ExportState} {a b : IPoint} (h : TwoParts s a b) {p : IPoint}
    (ha : p ≠ a) (hb : p ≠ b) : (s.gBoxData p).isSolid = false ∧ (s.gBoxData p).type = BLOCK_AIR := by
  have h1 : ¬ (s.gBoxData p).isSolid = true := fun k => by
    rcases (h.only p).1 k with e | e
    · exact ha e
    · exact hb e
  exact ⟨by simpa using h1, not_solid_air h1⟩

theorem shift_ne {a : IPoint} {u v : Int × Int × Int} (h : u ≠ v) : a.shift u ≠ a.shift v :=
  fun e => h (shift_inj e)

theorem shift_ne_self {a : IPoint} {u : Int × Int × Int} (h : u ≠ (0, 0, 0)) : a.shift u ≠ a := by
  intro e
  rw [← shift_zero a] at e
  rw [shift_shift] at e
  exact h (by have := shift_inj e; simpa using this)

theorem scan_eq {s : ExportState} {a b : IPoint} (h : TwoParts s a b) {o : Int × Int × Int}
    (ho : o ∈ scanOffsets) (hb : b = a.shift o) :
    touchScan s = checkForTouchingEdge { s with gTouchGrid := fun _ => ⟨0, 0, 0⟩, gTouchSize := 0 }
      a o.1 o.2.1 o.2.2 := by
  have hv := air_vectors o ho
  have single : ∀ t : ExportState, t.gBoxData = s.gBoxData →
      touchScanCell t a = checkForTouchingEdge t a o.1 o.2.1 o.2.2 := by
    intro t ht
    apply touchScanCell_single t a o ho
    · rw [ht]; exact (h.only a).2 (Or.inl rfl)
    · rw [ht]
      exact (twoParts_air h (shift_ne_self hv.2.1) (by rw [hb]; exact shift_ne hv.2.2.1)).2
    · intro q hq hqo
      rw [ht]
      exact (twoParts_air h (shift_ne_self (air_vectors q hq).2.2.2.2.2) (by rw [hb]; exact shift_ne hqo)).1
  unfold touchScan
  refine (foldl_single touchScanCell a (fun t => t.gBoxData = s.gBoxData) ?_ ?_ _
    (nodup_boxCells _) (mem_boxCells.2 h.boxA)
    { s with gTouchGrid := fun _ => ⟨0, 0, 0⟩, gTouchSize := 0 } rfl).trans (single _ rfl)
  · intro t x ht hx
    by_cases hs : (s.gBoxData x).isSolid = true
    · have hxb : x = b := by
        rcases (h.only x).1 hs with e | e
        · exact absurd e hx
        · exact e
      apply touchScanCell_idle
      intro q hq
      rw [ht, hxb, hb, shift_shift]
      have k0 := scan_vectors o ho q hq (firstAir o) (by simp) o (by simp) (0, 0, 0) (by simp)
      have k1 := scan_vectors o ho q hq (firstAir o) (by simp) o (by simp) o (by simp)
      refine (twoParts_air h ?_ ?_).1
      · intro e
        rw [← shift_zero a] at e
        rw [shift_shift] at e
        have := shift_inj e
        simp only [zero_add] at this
        exact hv.2.2.2.2.2 (k0 (by simpa using this)).1
      · rw [hb]
        intro e
        exact hv.2.2.2.2.2 (k1 (shift_inj e)).1
    · unfold touchScanCell
      rw [if_neg (by rw [ht]; exact hs)]
  · intro t ht
    rw [single t ht, checkForTouchingEdge_data, ht]

theorem scan_marks {s : ExportState} {a b : IPoint} (h : TwoParts s a b) {o : Int × Int × Int}
    (ho : o ∈ scanOffsets) (hb : b = a.shift o) :
    Marks (touchScan s).gTouchGrid (a.shift (firstAir o)) (a.shift (secondAir o))
      (edgeBits o) := by
  have hv := air_vectors o ho
  have hn : a.shift (firstAir o) ≠ a.shift (secondAir o) := shift_ne hv.1
  have hn' : a.shift (secondAir o) ≠ a.shift (firstAir o) := fun e => hn e.symm
  have hair2 : (s.gBoxData (a.shift (secondAir o))).type = BLOCK_AIR :=
    (twoParts_air h (shift_ne_self hv.2.2.2.1) (by rw [hb]; exact shift_ne hv.2.2.2.2.1)).2
  have hsb : (s.gBoxData (a.offset o.1 o.2.1 o.2.2)).isSolid = true :=
    (h.only _).2 (Or.inr hb.symm)
  have hg : s.gOptions.EXPT_CONNECT_ALL_EDGES = true ∨
      (s.gBoxData a).group ≠ (s.gBoxData (a.offset o.1 o.2.1 o.2.2)).group :=
    Or.inr (by have := h.groups; rw [hb] at this; exact this)
  rw [scan_eq h ho hb]
  unfold checkForTouchingEdge
  simp only []
  rw [if_pos hsb, if_pos hg, touchPair_eq _ _ _ ho, if_pos hair2]
  simp only []
  generalize computeObscurity _ (a.shift (firstAir o)) = x1
  generalize computeObscurity _ (a.shift (secondAir o)) = x2
  rcases lt_trichotomy x1 x2 with d | d | d
  · rw [if_neg (show ¬ x1 ≥ x2 by omega), if_pos (show x2 ≥ x1 by omega)]
    have hd : decide (x1 = x2) = false := by simp; omega
    simp only [hd]
    refine ⟨?_, Or.inr (Or.inr ?_)⟩
    · intro p h1 h2
      simp [touchMark, setTouch, h2]
    · simp [touchMark, setTouch, hn]
  · rw [if_pos (show x1 ≥ x2 by omega), if_pos (show x2 ≥ x1 by omega)]
    have hd : decide (x1 = x2) = true := by simp; omega
    simp only [hd]
    refine ⟨?_, Or.inl ?_⟩
    · intro p h1 h2
      simp [touchMark, setTouch, h1, h2]
    · simp [touchMark, setTouch, hn, hn']
  · rw [if_pos (show x1 ≥ x2 by omega), if_neg (show ¬ x2 ≥ x1 by omega)]
    have hd : decide (x1 = x2) = false := by simp; omega
    simp only [hd]
    refine ⟨?_, Or.inr (Or.inl ?_)⟩
    · intro p h1 h2
      simp [touchMark, setTouch, h1]
    · simp [touchMark, setTouch, hn']

theorem decrement_fold_le (x : IPoint) (conn : Nat) (T : List (Nat × (Int × Int × Int) × Nat)) :
    ∀ (g : IPoint → TouchCell) (p : IPoint),
      (T.foldl (decrementNeighbor x conn) g p).count ≤ (g p).count := by
  induction T with
  | nil => intro g p; exact le_refl _
  | cons y T ih =>
    intro g p
    rw [List.foldl_cons]
    exact (ih _ p).trans (decrementNeighbor_count x conn g y p)

theorem decrement_fold_hit (x : IPoint) (conn : Nat) (e : Nat × (Int × Int × Int) × Nat)
    (hc : conn &&& e.1 ≠ 0) (T : List (Nat × (Int × Int × Int) × Nat)) :
    e ∈ T → ∀ (g : IPoint → TouchCell),
      (T.foldl (decrementNeighbor x conn) g (x.shift e.2.1)).count ≤
        (g (x.shift e.2.1)).count - 1 := by
  induction T with
  | nil => intro he; simp at he
  | cons y T ih =>
    intro he g
    rw [List.foldl_cons]
    rcases List.mem_cons.1 he with rfl | he
    · refine (decrement_fold_le x conn T _ _).trans ?_
      unfold decrementNeighbor
      rw [if_pos hc]
      simp [setTouch, IPoint.shift]
    · refine (ih he _).trans ?_
      have := decrementNeighbor_count x conn g y (x.shift e.2.1)
      omega

theorem decrementNeighbors_hit (t : ExportState) (x : IPoint)
    (e : Nat × (Int × Int × Int) × Nat) (he : e ∈ touchTable)
    (hc : (t.gTouchGrid x).connections &&& e.1 ≠ 0) (hx : x.shift e.2.1 ≠ x) :
    ((decrementNeighbors t x).gTouchGrid (x.shift e.2.1)).count ≤
      (t.gTouchGrid (x.shift e.2.1)).count - 1 := by
  have := decrement_fold_hit x (t.gTouchGrid x).connections e hc touchTable he t.gTouchGrid
  unfold decrementNeighbors
  simp only [setTouch, if_neg hx]
  exact this

theorem decrementNeighbors_self (t : ExportState) (x : IPoint) :
    ((decrementNeighbors t x).gTouchGrid x).count = 0 := by
  simp [decrementNeighbors, setTouch]

theorem fillTouchCell_grid (bi : BlockInfo) (t : ExportState) (x : IPoint)
    (hx : 0 < (t.gTouchGrid x).count) :
    (fillTouchCell bi t x).gTouchGrid = (decrementNeighbors t x).gTouchGrid := by
  rw [fillTouchCell_eq, if_pos hx]
  split
  · rw [fillGroups_touch]
    rfl
  · rfl

theorem fill_done (bi : BlockInfo) (l : List IPoint) :
    ∀ u : ExportState, (∀ p, (u.gTouchGrid p).count ≤ 0) → l.foldl (fillTouchCell bi) u = u := by
  induction l with
  | nil => intro u _; rfl
  | cons x l ih =>
    intro u hu
    have hx : ¬ (u.gTouchGrid x).count > 0 := by have := hu x; omega
    rw [List.foldl_cons, fillTouchCell_eq, if_neg hx]
    exact ih u hu

theorem fill_fold (bi : BlockInfo) (t : ExportState)
    (hE : ∀ n, 0 < (t.gTouchGrid n).count →
      ∀ p, ((fillTouchCell bi t n).gTouchGrid p).count ≤ 0) (l : List IPoint) :
    (∃ n ∈ l, 0 < (t.gTouchGrid n).count) →
    ∃ n ∈ l, 0 < (t.gTouchGrid n).count ∧ l.foldl (fillTouchCell bi) t = fillTouchCell bi t n := by
  induction l with
  | nil => rintro ⟨n, hn, _⟩; simp at hn
  | cons x l ih =>
    rintro ⟨n, hn, hc⟩
    rw [List.foldl_cons]
    by_cases hx : 0 < (t.gTouchGrid x).count
    · exact ⟨x, List.mem_cons_self _ _, hx, fill_done bi l _ (hE x hx)⟩
    · have e : fillTouchCell bi t x = t := by rw [fillTouchCell_eq, if_neg hx]
      rw [e]
      have hn' : n ∈ l := by
        rcases List.mem_cons.1 hn with k | k
        · rw [k] at hc; exact absurd hc hx
        · exact k
      obtain ⟨m, hm, hmc, hf⟩ := ih ⟨n, hn', hc⟩
      exact ⟨m, List.mem_cons_of_mem _ hm, hmc, hf⟩

theorem marks_exhaust (bi : BlockInfo) (t : ExportState) (a : IPoint) (o : Int × Int × Int)
    (ho : o ∈ scanOffsets)
    (hm : Marks t.gTouchGrid (a.shift (firstAir o)) (a.shift (secondAir o)) (edgeBits o))
    (n : IPoint) (hn : 0 < (t.gTouchGrid n).count) :
    (n = a.shift (firstAir o) ∨ n = a.shift (secondAir o)) ∧
    ∀ p, ((fillTouchCell bi t n).gTouchGrid p).count ≤ 0 := by
  have hv := air_vectors o ho
  have ht := table_vectors o ho
  have hne : a.shift (firstAir o) ≠ a.shift (secondAir o) := shift_ne hv.1
  have e12 : (a.shift (firstAir o)).shift (secondAir o - firstAir o) = a.shift (secondAir o) := by
    rw [shift_shift, add_sub_cancel]
  have e21 : (a.shift (secondAir o)).shift (firstAir o - secondAir o) = a.shift (firstAir o) := by
    rw [shift_shift, add_sub_cancel]
  obtain ⟨hz, hc⟩ := hm
  have hn12 : n = a.shift (firstAir o) ∨ n = a.shift (secondAir o) := by
    by_contra k
    push_neg at k
    have := hz n k.1 k.2
    omega
  refine ⟨hn12, ?_⟩
  intro p
  rw [fillTouchCell_grid bi t n hn]
  have hle := (decrementNeighbors_spec t n hn).2.2.2.2
  by_cases hpn : p = n
  · rw [hpn, decrementNeighbors_self]
  by_cases hp : p ≠ a.shift (firstAir o) ∧ p ≠ a.shift (secondAir o)
  · have := hz p hp.1 hp.2
    have := hle p
    omega
  have hp12 : p = a.shift (firstAir o) ∨ p = a.shift (secondAir o) := by
    by_contra k
    push_neg at k
    exact hp k
  rcases hc with ⟨c1, c2, b1, b2⟩ | ⟨c1, c2, b1⟩ | ⟨c1, c2, b2⟩
  · rcases hn12 with rfl | rfl
    · have hp2 : p = a.shift (secondAir o) := by
        rcases hp12 with k | k
        · exact absurd k hpn
        · exact k
      have := decrementNeighbors_hit t (a.shift (firstAir o)) _ ht.1
        (by rw [b1]; simpa using ht.2.2.1) (by rw [e12]; exact fun e => hne e.symm)
      rw [e12] at this
      rw [hp2]
      omega
    · have hp1 : p = a.shift (firstAir o) := by
        rcases hp12 with k | k
        · exact k
        · exact absurd k hpn
      have := decrementNeighbors_hit t (a.shift (secondAir o)) _ ht.2.1
        (by rw [b2]; simpa using ht.2.2.2) (by rw [e21]; exact hne)
      rw [e21] at this
      rw [hp1]
      omega
  · have := hle p
    rcases hp12 with k | k
    · rcases hn12 with k' | k'
      · exact absurd (k.trans k'.symm) hpn
      · rw [k'] at hn; omega
    · rw [k]; rw [k] at this; omega
  · have := hle p
    rcases hp12 with k | k
    · rw [k]; rw [k] at this; omega
    · rcases hn12 with k' | k'
      · rw [k'] at hn; omega
      · exact absurd (k.trans k'.symm) hpn

theorem touchFaces_groups (s : ExportState) (x : IPoint) :
    (∀ g ∈ (touchFaces s x).faceGroupID, ∃ i, i < 6 ∧
      (s.gBoxData (getNeighborUnsafe i x)).isSolid = true ∧
      (s.gBoxData (getNeighborUnsafe i x)).group = g) ∧
    (∀ i, i < 6 → (s.gBoxData (getNeighborUnsafe i x)).isSolid = true →
      (s.gBoxData (getNeighborUnsafe i x)).group ∈ (touchFaces s x).faceGroupID) ∧
    (touchFaces s x).faceGroupID.Nodup := by
  unfold touchFaces
  refine foldl_range_inv (fun k f =>
    (∀ g ∈ f.faceGroupID, ∃ i, i < k ∧
      (s.gBoxData (getNeighborUnsafe i x)).isSolid = true ∧
      (s.gBoxData (getNeighborUnsafe i x)).group = g) ∧
    (∀ i, i < k → (s.gBoxData (getNeighborUnsafe i x)).isSolid = true →
      (s.gBoxData (getNeighborUnsafe i x)).group ∈ f.faceGroupID) ∧
    f.faceGroupID.Nodup) (faceSearchStep s x) 6 ⟨none, []⟩
    ⟨by simp, by simp, List.nodup_nil⟩ ?_
  rintro k f hk ⟨h1, h2, h3⟩
  unfold faceSearchStep
  simp only []
  by_cases c : (s.gBoxData (getNeighborUnsafe k x)).isSolid = true
  swap
  · rw [if_neg c]
    refine ⟨?_, ?_, h3⟩
    · intro g hg
      obtain ⟨i, hi, k1, k2⟩ := h1 g hg
      exact ⟨i, by omega, k1, k2⟩
    · intro i hi hs
      have : i < k := by
        rcases Nat.lt_succ_iff_lt_or_eq.1 hi with j | j
        · exact j
        · rw [j] at hs; exact absurd hs c
      exact h2 i this hs
  rw [if_pos c]
  generalize ha : (if f.boxMtlIndex.isNone = true then
    ({ f with boxMtlIndex := some (getNeighborUnsafe k x) } : FaceSearch) else f) = a1
  have e : a1.faceGroupID = f.faceGroupID := by
    rw [← ha]
    split <;> rfl
  by_cases d : a1.faceGroupID.contains (s.gBoxData (getNeighborUnsafe k x)).group = true
  · rw [if_pos d, e]
    rw [e] at d
    refine ⟨?_, ?_, h3⟩
    · intro g hg
      obtain ⟨i, hi, k1, k2⟩ := h1 g hg
      exact ⟨i, by omega, k1, k2⟩
    · intro i hi hs
      rcases Nat.lt_succ_iff_lt_or_eq.1 hi with j | j
      · exact h2 i j hs
      · rw [j]; simpa using d
  · rw [if_neg d]
    simp only [e]
    rw [e] at d
    have d' : (s.gBoxData (getNeighborUnsafe k x)).group ∉ f.faceGroupID := by simpa using d
    refine ⟨?_, ?_, ?_⟩
    · intro g hg
      rcases List.mem_append.1 hg with hg | hg
      · obtain ⟨i, hi, k1, k2⟩ := h1 g hg
        exact ⟨i, by omega, k1, k2⟩
      · simp only [List.mem_singleton] at hg
        exact ⟨k, by omega, c, hg.symm⟩
    · intro i hi hs
      rcases Nat.lt_succ_iff_lt_or_eq.1 hi with j | j
      · exact List.mem_append_left _ (h2 i j hs)
      · rw [j]; simp
    · rw [List.nodup_append]
      refine ⟨h3, List.nodup_singleton _, ?_⟩
      intro g hg1 hg2
      simp only [List.mem_singleton] at hg2
      rw [hg2] at hg1
      exact d' hg1

theorem two_elements {l : List Nat} {x y : Nat} (hn : l.Nodup) (hxy : x ≠ y) (hx : x ∈ l)
    (hy : y ∈ l) (hall : ∀ g ∈ l, g = x ∨ g = y) : l = [x, y] ∨ l = [y, x] := by
  rcases l with _ | ⟨g1, _ | ⟨g2, _ | ⟨g3, l⟩⟩⟩
  · simp at hx
  · simp at hx hy
    omega
  · simp at hx hy hn hall
    simp only [List.cons.injEq, and_true]
    omega
  · exfalso
    have a1 := hall g1 (by simp)
    have a2 := hall g2 (by simp)
    have a3 := hall g3 (by simp)
    simp at hn
    omega

theorem faces_two {s : ExportState} {a b : IPoint} (h : TwoParts s a b) {d : ExportState}
    (hd : d.gBoxData = s.gBoxData) {n : IPoint} (hna : faceAdjacent n a)
    (hnb : faceAdjacent n b) :
    (touchFaces d n).faceGroupID = [(s.gBoxData a).group, (s.gBoxData b).group] ∨
    (touchFaces d n).faceGroupID = [(s.gBoxData b).group, (s.gBoxData a).group] := by
  obtain ⟨k1, k2, k3⟩ := touchFaces_groups d n
  obtain ⟨ia, hia, ea⟩ := faceAdjacent_unsafe hna
  obtain ⟨ib, hib, eb⟩ := faceAdjacent_unsafe hnb
  apply two_elements k3 h.groups
  · have := k2 ia hia (by rw [ea, hd]; exact (h.only a).2 (Or.inl rfl))
    rwa [ea, hd] at this
  · have := k2 ib hib (by rw [eb, hd]; exact (h.only b).2 (Or.inr rfl))
    rwa [eb, hd] at this
  · intro g hg
    obtain ⟨i, hi, c1, c2⟩ := k1 g hg
    rw [hd] at c1 c2
    rcases (h.only _).1 c1 with e | e
    · left; rw [← c2, e]
    · right; rw [← c2, e]

theorem master_two (l : Nat → BoxGroup) {fl : List Nat} {x y : Nat}
    (h : fl = [x, y] ∨ fl = [y, x]) :
    (fl.tail.foldl (masterPickStep l) (fl.headD 0, (l (fl.headD 0)).population)).1 = x ∨
    (fl.tail.foldl (masterPickStep l) (fl.headD 0, (l (fl.headD 0)).population)).1 = y := by
  rcases h with rfl | rfl <;> simp [masterPickStep] <;> split <;> simp

theorem merge_two (l : Nat → BoxGroup) {fl : List Nat} {x y : Nat} (hxy : x ≠ y)
    (h : fl = [x, y] ∨ fl = [y, x]) :
    fl.foldl (mergeBoundsStep l x) (fun _ => 0, emptyBounds) =
      (setFlag (fun _ => 0) y 1, addBoundsToBounds (l y).bounds emptyBounds) := by
  rcases h with rfl | rfl <;> simp [mergeBoundsStep, hxy, Ne.symm hxy]

theorem faceAdjacent_ne {p q : IPoint} (h : faceAdjacent p q) : p ≠ q := by
  intro e
  rw [e] at h
  simp [faceAdjacent] at h

theorem weld_master (bi : BlockInfo) (hlava : 0 < bi.BLOCK_LAVA % 256) {s t : ExportState}
    {a b n : IPoint} (h : TwoParts s a b) (hT : TouchInv s t)
    (hn : 0 < (t.gTouchGrid n).count) (hna : faceAdjacent n a) (hnb : faceAdjacent n b)
    (hm : touchMaster (decrementNeighbors t n) n = (s.gBoxData a).group) :
    Joined (fillTouchCell bi t n) a b n ∧ (fillTouchCell bi t n).gOptions = s.gOptions ∧
      (fillTouchCell bi t n).gSolidBox = s.gSolidBox := by
  obtain ⟨d1, d2, d3, d4, _⟩ := decrementNeighbors_spec t n hn
  have hd : (decrementNeighbors t n).gBoxData = s.gBoxData := d1.trans hT.data
  have hl : (decrementNeighbors t n).gGroupList = s.gGroupList := d2.trans hT.groupList
  have hfl := faces_two h hd hna hnb
  have hlen : (touchFaces (decrementNeighbors t n) n).faceGroupID.length = 2 := by
    rcases hfl with e | e <;> rw [e] <;> rfl
  have han : a ≠ n := fun e => faceAdjacent_ne hna e.symm
  have hbn : b ≠ n := fun e => faceAdjacent_ne hnb e.symm
  rw [fillTouchCell_eq, if_pos hn, if_pos (by rw [hlen]; decide)]
  generalize hw : weldCounted bi (decrementNeighbors t n) n = w
  have wdata : ∀ p, p ≠ n → w.gBoxData p = s.gBoxData p := by
    intro p hp
    rw [← hw, ← hd]
    exact weldCell_other bi _ n hp
  have wn : (w.gBoxData n).isSolid = true ∧ (w.gBoxData n).group = (s.gBoxData a).group := by
    rw [← hw]
    refine ⟨weldCell_solid bi _ n hlava ⟨a, hna, by rw [hd]; exact (h.only a).2 (Or.inl rfl)⟩, ?_⟩
    rw [← hm]
    simp [weldCounted, weldCell, setCell]
  have wlist : w.gGroupList (s.gBoxData b).group = s.gGroupList (s.gBoxData b).group := by
    rw [← hw, ← hl]
    have : (s.gBoxData b).group ≠ touchMaster (decrementNeighbors t n) n := by
      rw [hm]; exact fun e => h.groups e.symm
    simp [weldCounted, weldCell, setGroup, this]
  have wsg : w.gSolidGroups = 1 := by
    rw [← hw]
    simp only [weldCounted, weldCell, hlen]
    have : (decrementNeighbors t n).gSolidGroups = t.gSolidGroups := rfl
    rw [this, hT.solidGroups, h.two]
    norm_num
  have wst : w.gStats.blocksManifoldWelded = 1 := by
    rw [← hw]
    simp only [weldCounted, weldCell]
    have : (decrementNeighbors t n).gStats = t.gStats := rfl
    rw [this, hT.welded, h.welded]
    norm_num
  have wopt : w.gOptions = s.gOptions := by
    rw [← hw]
    exact d3.trans hT.options
  have wbox : w.gSolidBox = s.gSolidBox := by
    rw [← hw]
    exact d4.trans hT.solidBox
  have htg : weldTargets bi (decrementNeighbors t n) n =
      (setFlag (fun _ => 0) (s.gBoxData b).group 1,
        addBoundsToBounds (s.gGroupList (s.gBoxData b).group).bounds emptyBounds) := by
    unfold weldTargets
    rw [hm, hw, merge_two _ h.groups hfl, wlist]
  rw [htg, hm]
  simp only []
  have inv := fillGroups_spec bi w
    (addBoundsToBounds (s.gGroupList (s.gBoxData b).group).bounds emptyBounds)
    (s.gBoxData a).group true bi.BLOCK_LAVA (setFlag (fun _ => 0) (s.gBoxData b).group 1)
  obtain ⟨r1, r2, r3, r4⟩ := fillGroups_refilled bi w
    (addBoundsToBounds (s.gGroupList (s.gBoxData b).group).bounds emptyBounds)
    (s.gBoxData a).group true bi.BLOCK_LAVA (setFlag (fun _ => 0) (s.gBoxData b).group 1)
  generalize fillGroups bi w
    (addBoundsToBounds (s.gGroupList (s.gBoxData b).group).bounds emptyBounds)
    (s.gBoxData a).group true bi.BLOCK_LAVA (setFlag (fun _ => 0) (s.gBoxData b).group 1) = u
    at inv r1 r2 r3 r4 ⊢
  have flag : ∀ j, setFlag (fun _ => 0) (s.gBoxData b).group 1 j > 0 ↔
      j = (s.gBoxData b).group := by
    intro j
    unfold setFlag
    split <;> simp [*]
  have ua : u.gBoxData a = s.gBoxData a := by
    rw [inv.idle a (by rw [flag, wdata a han]; exact h.groups), wdata a han]
  have un : u.gBoxData n = w.gBoxData n :=
    inv.idle n (by rw [flag, wn.2]; exact h.groups)
  have ub := inv.moved b
    (mem_boxCells.2 (addBoundsToBounds_left _ h.boundsB))
    (by rw [flag, wdata b hbn])
  have utype : ∀ p, (u.gBoxData p).type = (w.gBoxData p).type := by
    intro p
    by_cases c1 : setFlag (fun _ => 0) (s.gBoxData b).group 1 (w.gBoxData p).group > 0
    swap
    · rw [inv.idle p c1]
    by_cases c2 : p ∈ boxCells
        (addBoundsToBounds (s.gGroupList (s.gBoxData b).group).bounds emptyBounds)
    swap
    · rw [inv.rest p c2]
    have k := (inv.moved p c2 c1).1.2.2.1
    apply k
    rw [(flag _).1 c1, wlist, h.solidB]
  refine ⟨⟨?_, r2.symm ▸ wst, r4.symm ▸ wsg, ?_, ?_⟩, r1.options.trans wopt,
    r1.solidBox.trans wbox⟩
  · intro p
    rw [isSolid_iff, utype p, ← isSolid_iff]
    by_cases hp : p = n
    · rw [hp]
      simp [wn.1]
    · rw [wdata p hp, h.only p]
      simp [hp]
  · rw [ua, un, wn.2]
  · rw [ub.1.1, un, wn.2]

theorem weld_two (bi : BlockInfo) (hlava : 0 < bi.BLOCK_LAVA % 256) {s t : ExportState}
    {a b n : IPoint} (h : TwoParts s a b) (hT : TouchInv s t)
    (hn : 0 < (t.gTouchGrid n).count) (hna : faceAdjacent n a) (hnb : faceAdjacent n b) :
    Joined (fillTouchCell bi t n) a b n ∧ (fillTouchCell bi t n).gOptions = s.gOptions ∧
      (fillTouchCell bi t n).gSolidBox = s.gSolidBox := by
  have hd := ((decrementNeighbors_spec t n hn).1).trans hT.data
  rcases master_two (decrementNeighbors t n).gGroupList (faces_two h hd hna hnb) with e | e
  · exact weld_master bi hlava h hT hn hna hnb e
  · obtain ⟨j, k1, k2⟩ := weld_master bi hlava (twoParts_swap h) hT hn hnb hna e
    exact ⟨⟨fun p => (j.solid p).trans (by tauto), j.welded, j.solidGroups, j.groupB, j.groupA⟩,
      k1, k2⟩

theorem first_pass (bi : BlockInfo) (qsort_s : Qsort) (hq : ∀ cmp l, (qsort_s cmp l).Perm l)
    (hlava : 0 < bi.BLOCK_LAVA % 256) {s : ExportState} {a b : IPoint} (h : TwoParts s a b)
    {o : Int × Int × Int} (ho : o ∈ scanOffsets) (hb : b = a.shift o) :
    ∃ n, (n = a.shift (firstAir o) ∨ n = a.shift (secondAir o)) ∧
      (fixTouchingEdges bi qsort_s s).1 = 1 ∧
      Joined (fixTouchingEdges bi qsort_s s).2 a b n ∧
      (fixTouchingEdges bi qsort_s s).2.gOptions = s.gOptions ∧
      (fixTouchingEdges bi qsort_s s).2.gSolidBox = s.gSolidBox := by
  have hT := (touchScan_inv s).1
  have hm := scan_marks h ho hb
  have hbox := between_in_box ho h.boxA (hb ▸ h.boxB)
  have hadj := shift_adjacent a o ho
  rw [← hb] at hadj
  have hex : ∃ n0, s.gSolidBox.contains n0 = true ∧ 0 < ((touchScan s).gTouchGrid n0).count := by
    rcases hm.2 with k | k | k
    · exact ⟨_, hbox.1, by rw [k.1]; decide⟩
    · exact ⟨_, hbox.1, by rw [k.1]; decide⟩
    · exact ⟨_, hbox.2, by rw [k.2.1]; decide⟩
  obtain ⟨n0, hn0, hc0⟩ := hex
  have hsize : ¬ (touchScan s).gTouchSize = 0 := by
    have := hT.sized n0 hc0
    omega
  have hlen := touchList_mem (t := touchScan s) (by rw [hT.solidBox]; exact hn0) hc0
  have hmem : n0 ∈ (qsort_s (touchRecordCompare (touchScan s)) (touchList (touchScan s))).map
      fun r => r.boxIndex := by
    apply ((hq _ _).map _).mem_iff.2
    unfold touchList
    simp only [List.map_map, List.mem_map, List.mem_filter, Function.comp]
    exact ⟨n0, ⟨mem_boxCells.2 (by rw [hT.solidBox]; exact hn0), by simpa using hc0⟩, rfl⟩
  obtain ⟨n, _, hnc, hfold⟩ := fill_fold bi (touchScan s)
    (fun n hn => (marks_exhaust bi (touchScan s) a o ho hm n hn).2) _ ⟨n0, hmem, hc0⟩
  have hn12 := (marks_exhaust bi (touchScan s) a o ho hm n hnc).1
  have hna : faceAdjacent n a := by
    rcases hn12 with e | e <;> rw [e]
    · exact hadj.1
    · exact hadj.2.1
  have hnb : faceAdjacent n b := by
    rcases hn12 with e | e <;> rw [e]
    · exact hadj.2.2.1
    · exact hadj.2.2.2
  obtain ⟨j, k1, k2⟩ := weld_two bi hlava h hT hnc hna hnb
  have e := fixTouchingEdges_eq bi qsort_s s
  rw [if_neg hsize, if_pos hlen, hfold] at e
  rw [e]
  exact ⟨n, hn12, rfl, ⟨j.solid, j.welded, j.solidGroups, j.groupA, j.groupB⟩, k1, k2⟩

theorem second_pass {u : ExportState} {a b n : IPoint} {o : Int × Int × Int}
    (ho : o ∈ scanOffsets) (hb : b = a.shift o)
    (hn : n = a.shift (firstAir o) ∨ n = a.shift (secondAir o))
    (hs : ∀ p, (u.gBoxData p).isSolid = true ↔ p = a ∨ p = b ∨ p = n) :
    (touchScan u).gTouchSize = 0 := by
  have hT := (touchScan_inv u).1
  by_contra hne
  have hpos : 0 < (touchScan u).gTouchSize := by
    have := hT.size_nonneg
    omega
  obtain ⟨p, hp⟩ := hT.witness hpos
  obtain ⟨b0, q, hq, s1, s2, a1, a2, _⟩ := hT.edge p hp
  have hf : ∃ f, (f = firstAir o ∨ f = secondAir o) ∧ n = a.shift f := by
    rcases hn with e | e
    · exact ⟨_, Or.inl rfl, e⟩
    · exact ⟨_, Or.inr rfl, e⟩
  obtain ⟨f, hf, hnf⟩ := hf
  have mem3 : ∀ c, (u.gBoxData c).isSolid = true →
      ∃ v ∈ [(0, 0, 0), o, f], c = a.shift v := by
    intro c hc
    rcases (hs c).1 hc with e | e | e
    · exact ⟨(0, 0, 0), by simp, by rw [shift_zero]; exact e⟩
    · exact ⟨o, by simp, e.trans hb⟩
    · exact ⟨f, by simp, e.trans hnf⟩
  obtain ⟨v0, hv0, e0⟩ := mem3 _ s1
  obtain ⟨v1, hv1, e1⟩ := mem3 _ s2
  rw [e0, shift_shift] at e1
  have key := scan_vectors o ho q hq f (by simpa using hf) v0 hv0 v1 hv1 (shift_inj e1)
  rw [e0, key.1, key.2, shift_zero] at a1 a2
  have hsn : (u.gBoxData n).isSolid = true := (hs n).2 (Or.inr (Or.inr rfl))
  rw [isSolid_iff] at hsn
  unfold BLOCK_AIR at a1 a2
  rcases hn with e | e <;> rw [e] at hsn <;> omega

theorem repairPass_parts (bi : BlockInfo) (qsort_s : Qsort) (foundTouching : Int)
    (s : ExportState) (hp : s.gOptions.EXPT_CONNECT_PARTS = true)
    (hsg : (fixTouchingEdges bi qsort_s s).2.gSolidGroups = 1) :
    repairPass bi qsort_s foundTouching s = fixTouchingEdges bi qsort_s s := by
  unfold repairPass
  simp only [hp, if_true]
  split
  · rw [if_neg (by rw [hsg]; decide)]
  · rfl

theorem repair_two (bi : BlockInfo) (qsort_s : Qsort) (hq : ∀ cmp l, (qsort_s cmp l).Perm l)
    (hlava : 0 < bi.BLOCK_LAVA % 256) {s : ExportState} {a b : IPoint} (h : TwoParts s a b)
    {o : Int × Int × Int} (ho : o ∈ scanOffsets) (hb : b = a.shift o) (fuel : Nat)
    (foundTouching : Int) :
    ∃ u n, repairLoop bi qsort_s (fuel + 2) foundTouching s = some (u, 2) ∧
      faceAdjacent n a ∧ faceAdjacent n b ∧ (s.gBoxData n).isSolid = false ∧ Joined u a b n := by
  obtain ⟨n, hn12, f1, j, fo, fb⟩ := first_pass bi qsort_s hq hlava h ho hb
  have hadj := shift_adjacent a o ho
  rw [← hb] at hadj
  have hna : faceAdjacent n a := by
    rcases hn12 with e | e <;> rw [e]
    · exact hadj.1
    · exact hadj.2.1
  have hnb : faceAdjacent n b := by
    rcases hn12 with e | e <;> rw [e]
    · exact hadj.2.2.1
    · exact hadj.2.2.2
  have pass1 := repairPass_parts bi qsort_s foundTouching s h.parts j.solidGroups
  have hsz := second_pass ho hb hn12 j.solid
  have hT := (touchScan_inv (fixTouchingEdges bi qsort_s s).2).1
  have e2 : fixTouchingEdges bi qsort_s (fixTouchingEdges bi qsort_s s).2 =
      (0, touchScan (fixTouchingEdges bi qsort_s s).2) := by
    rw [fixTouchingEdges_eq, if_pos hsz]
  have pass2 := repairPass_parts bi qsort_s 1
    (fixTouchingEdges bi qsort_s s).2 (by rw [fo]; exact h.parts)
    (by rw [e2]; exact hT.solidGroups.trans j.solidGroups)
  rw [e2] at pass2
  refine ⟨touchScan (fixTouchingEdges bi qsort_s s).2, n, ?_, hna, hnb,
    (twoParts_air h (faceAdjacent_ne hna) (faceAdjacent_ne hnb)).1,
    ⟨fun p => by rw [hT.data]; exact j.solid p, hT.welded.trans j.welded,
      hT.solidGroups.trans j.solidGroups, by rw [hT.data]; exact j.groupA,
      by rw [hT.data]; exact j.groupB⟩⟩
  show repairLoop bi qsort_s (fuel + 1 + 1) foundTouching s = _
  rw [repairLoop]
  simp only [pass1, f1]
  rw [if_pos (by decide), repairLoop]
  simp only [pass2]
  simp

set_option maxRecDepth 100000 in
theorem twoParts_parts : TwoParts twoParts ⟨1, 1, 1⟩ ⟨2, 1, 2⟩ := by
  have hw : WellFormed (twoBlocks connectParts) := by decide
  have hg := findGroups_grouped sampleBlocks hw
  refine ⟨by decide, ?_, by decide, by decide, by decide, by decide, by decide, by decide,
    by decide, by decide, by decide, by decide⟩
  intro p
  rw [isSolid_iff]
  show 0 < ((findGroups sampleBlocks (twoBlocks connectParts)).gBoxData p).type ↔ _
  rw [hg.frame.type p]
  simp only [twoBlocks, stoneWorld]
  by_cases c : p = ⟨1, 1, 1⟩ ∨ p = ⟨2, 1, 2⟩
  · simp [c, stoneCell]
  · simp [c, airCell, BLOCK_AIR]

theorem tdiv_tmod_split (a b Y : Int) (hb0 : 0 ≤ b) (hbY : b < Y) (ha : 0 ≤ a) :
    Int.tdiv (a * Y + b) Y = a ∧ Int.tmod (a * Y + b) Y = b := by
  have hY : 0 < Y := by omega
  have h0 : 0 ≤ a * Y + b := by
    have := Int.mul_nonneg ha (le_of_lt hY)
    omega
  rw [Int.tdiv_eq_ediv h0 (le_of_lt hY), Int.tmod_eq_emod h0 (le_of_lt hY)]
  constructor
  · rw [Int.add_comm, Int.add_mul_ediv_right _ _ (ne_of_gt hY), Int.ediv_eq_zero_of_lt hb0 hbY]
    omega
  · rw [Int.add_comm, Int.add_mul_emod_self, Int.emod_eq_of_lt hb0 hbY]

theorem tdiv_tmod_join (i Y : Int) (hi : 0 ≤ i) (hY : 0 < Y) :
    0 ≤ Int.tdiv i Y ∧ 0 ≤ Int.tmod i Y ∧ Int.tmod i Y < Y ∧
      Int.tdiv i Y * Y + Int.tmod i Y = i := by
  rw [Int.tdiv_eq_ediv hi (le_of_lt hY), Int.tmod_eq_emod hi (le_of_lt hY)]
  refine ⟨Int.ediv_nonneg hi (le_of_lt hY), Int.emod_nonneg _ (ne_of_gt hY),
    Int.emod_lt_of_pos _ hY, ?_⟩
  have := Int.ediv_add_emod i Y
  linarith [Int.mul_comm Y (i / Y)]

theorem boxIndexToLoc_index (s : ExportState) (hy : 0 < s.gBoxSize.y) (x y z : Int) (hx0 : 0 ≤ x) (hy0 : 0 ≤ y) (hy1 : y < s.gBoxSize.y) (hz0 : 0 ≤ z)
    (hz1 : z < s.gBoxSize.z) : boxIndexToLoc s (BOX_INDEX s x y z) = ⟨x, y, z⟩ := by
  have h2 : 0 ≤ z * s.gBoxSize.y := Int.mul_nonneg hz0 (le_of_lt hy)
  have h3 : (z + 1) * s.gBoxSize.y ≤ s.gBoxSize.z * s.gBoxSize.y :=
    Int.mul_le_mul_of_nonneg_right (by omega) (le_of_lt hy)
  have hb : z * s.gBoxSize.y + y < s.gBoxSize.y * s.gBoxSize.z := by nlinarith
  obtain ⟨e1, e2⟩ := tdiv_tmod_split x (z * s.gBoxSize.y + y) (s.gBoxSize.y * s.gBoxSize.z)
    (by omega) hb hx0
  obtain ⟨e3, e4⟩ := tdiv_tmod_split z y s.gBoxSize.y hy0 hy1 hz0
  unfold boxIndexToLoc BOX_INDEX gBoxSizeYZ
  have e : x * (s.gBoxSize.y * s.gBoxSize.z) + z * s.gBoxSize.y + y =
      x * (s.gBoxSize.y * s.gBoxSize.z) + (z * s.gBoxSize.y + y) := by ring
  simp only [e, e1, e2, e3, e4]

theorem boxIndexToLoc_loc (s : ExportState) (hy : 0 < s.gBoxSize.y) (hz : 0 < s.gBoxSize.z)
    (i : Int) (h0 : 0 ≤ i) (h1 : i < gBoxSizeXYZ s) :
    (arrayBox s).contains (boxIndexToLoc s i) = true ∧ BOX_INDEXV s (boxIndexToLoc s i) = i := by
  have hYZ : 0 < s.gBoxSize.y * s.gBoxSize.z := Int.mul_pos hy hz
  obtain ⟨a1, a2, a3, a4⟩ := tdiv_tmod_join i (s.gBoxSize.y * s.gBoxSize.z) h0 hYZ
  obtain ⟨b1, b2, b3, b4⟩ := tdiv_tmod_join (Int.tmod i (s.gBoxSize.y * s.gBoxSize.z))
    s.gBoxSize.y a2 hy
  unfold gBoxSizeXYZ gBoxSizeYZ at h1
  rw [contains_iff]
  unfold boxIndexToLoc BOX_INDEXV BOX_INDEX gBoxSizeYZ arrayBox
  simp only []
  generalize Int.tdiv i (s.gBoxSize.y * s.gBoxSize.z) = qx at *
  generalize Int.tmod i (s.gBoxSize.y * s.gBoxSize.z) = r at *
  generalize Int.tdiv r s.gBoxSize.y = qz at *
  generalize Int.tmod r s.gBoxSize.y = ry at *
  have hqz : qz < s.gBoxSize.z := by
    by_contra hc
    have : s.gBoxSize.z * s.gBoxSize.y ≤ qz * s.gBoxSize.y :=
      Int.mul_le_mul_of_nonneg_right (by omega) (le_of_lt hy)
    nlinarith
  have hqx : qx < s.gBoxSize.x := by
    by_contra hc
    have : s.gBoxSize.x * (s.gBoxSize.y * s.gBoxSize.z) ≤ qx * (s.gBoxSize.y * s.gBoxSize.z) :=
      Int.mul_le_mul_of_nonneg_right (by omega) (le_of_lt hYZ)
    nlinarith
  refine ⟨⟨by omega, by omega, by omega, by omega, by omega, by omega⟩, ?_⟩
  linarith

theorem BOX_INDEXV_step (s : ExportState) (p : IPoint) (d : Nat) (hd : d < 6) :
    BOX_INDEXV s p + gFaceOffset s d =
      BOX_INDEXV s ⟨p.x + (gFaceDirectionVector d).x, p.y + (gFaceDirectionVector d).y,
        p.z + (gFaceDirectionVector d).z⟩ ∧
    (⟨p.x + (gFaceDirectionVector d).x, p.y + (gFaceDirectionVector d).y,
        p.z + (gFaceDirectionVector d).z⟩ : IPoint) = getNeighborUnsafe d p := by
  have h6 : d = 0 ∨ d = 1 ∨ d = 2 ∨ d = 3 ∨ d = 4 ∨ d = 5 := by omega
  rcases h6 with rfl | rfl | rfl | rfl | rfl | rfl <;>
    refine ⟨?_, ?_⟩ <;>
    simp [BOX_INDEXV, BOX_INDEX, gFaceOffset, gFaceDirectionVector, getNeighborUnsafe,
      gBoxSizeYZ, List.getD] <;> ring

theorem uvTable_start (n : Int) : UVTable n [] (initializeTextureUVs n true zeroTextureUVs) := by
  refine ⟨rfl, ?_, ?_, ?_⟩
  · intro sw h0 h1 _
    simp [initializeTextureUVs, h0, h1]
  · intro sw _ _ h
    simp at h
  · intro i h0 h1
    simp [initializeTextureUVs, zeroTextureUVs] at h1
    omega

theorem saveTextureUVs_table {n : Int} {req : List Int} {m : TextureUVs} (h : UVTable n req m)
    (sw type : Int) (h0 : 0 ≤ sw) (h1 : sw < n) :
    UVTable n (req ++ [sw]) (saveTextureUVs m sw type) := by
  have hc0 : 0 ≤ m.textureUsedCount := by rw [h.count]; exact Int.natCast_nonneg _
  by_cases hmem : sw ∈ req
  · have hu := h.used sw h0 h1 hmem
    have e : saveTextureUVs m sw type = m := by
      unfold saveTextureUVs
      rw [if_neg (by omega)]
    rw [e]
    refine ⟨?_, ?_, ?_, ?_⟩
    · rw [h.count, List.toFinset_append]
      congr 2
      ext x
      simp only [Finset.mem_union, List.mem_toFinset, List.mem_singleton]
      constructor
      · intro hx; exact Or.inl hx
      · rintro (hx | hx)
        · exact hx
        · rw [hx]; exact hmem
    · intro x hx0 hx1 hx
      exact h.unused x hx0 hx1 (fun k => hx (List.mem_append_left _ k))
    · intro x hx0 hx1 hx
      rcases List.mem_append.1 hx with k | k
      · exact h.used x hx0 hx1 k
      · simp only [List.mem_singleton] at k
        rw [k]
        exact hu
    · intro i hi0 hi1
      exact ⟨List.mem_append_left _ (h.slots i hi0 hi1).1, (h.slots i hi0 hi1).2⟩
  · have hneg := h.unused sw h0 h1 hmem
    have e : saveTextureUVs m sw type =
        { uvIndexToSwatch := setAt m.uvIndexToSwatch m.textureUsedCount sw
          uvSwatchToIndex := setAt m.uvSwatchToIndex sw m.textureUsedCount
          uvSwatchToType := setAt m.uvSwatchToType sw type
          textureUsedCount := m.textureUsedCount + 1 } := by
      unfold saveTextureUVs
      rw [if_pos (by omega)]
    rw [e]
    refine ⟨?_, ?_, ?_, ?_⟩
    · simp only []
      rw [h.count, List.toFinset_append]
      have hd : Disjoint req.toFinset [sw].toFinset := by
        simp only [Finset.disjoint_left, List.mem_toFinset, List.mem_singleton]
        intro a ha k
        exact hmem (k ▸ ha)
      rw [Finset.card_union_of_disjoint hd]
      simp
    · intro x hx0 hx1 hx
      have hxs : x ≠ sw := fun k => hx (by rw [k]; simp)
      simp only [setAt, if_neg hxs]
      exact h.unused x hx0 hx1 (fun k => hx (List.mem_append_left _ k))
    · intro x hx0 hx1 hx
      by_cases hxs : x = sw
      · subst hxs
        simp [setAt]
        exact hc0
      · have hx' : x ∈ req := by
          rcases List.mem_append.1 hx with k | k
          · exact k
          · simp only [List.mem_singleton] at k
            exact absurd k hxs
        have hu := h.used x hx0 hx1 hx'
        simp only [setAt, if_neg hxs]
        rw [if_neg (by omega)]
        exact ⟨hu.1, by omega, hu.2.2⟩
    · intro i hi0 hi1
      simp only [] at hi1
      by_cases hic : i = m.textureUsedCount
      · subst hic
        simp [setAt]
      · have hs := h.slots i hi0 (by omega)
        have hne : m.uvIndexToSwatch i ≠ sw := fun k => hmem (k ▸ hs.1)
        simp only [setAt, if_neg hic, if_neg hne]
        exact ⟨List.mem_append_left _ hs.1, hs.2⟩

theorem savedUVs_table (n : Int) (l : List (Int × Int)) :
    ∀ (req : List Int) (m : TextureUVs), UVTable n req m → (∀ r ∈ l, 0 ≤ r.1 ∧ r.1 < n) →
      UVTable n (req ++ l.map fun r => r.1) (savedUVs m l) := by
  induction l with
  | nil =>
    intro req m h _
    simpa [savedUVs] using h
  | cons r l ih =>
    intro req m h hl
    have hr := hl r (List.mem_cons_self _ _)
    have := ih (req ++ [r.1]) (saveTextureUVs m r.1 r.2)
      (saveTextureUVs_table h r.1 r.2 hr.1 hr.2) (fun x hx => hl x (List.mem_cons_of_mem _ hx))
    simpa [savedUVs] using this

theorem requestedUVs_table (n : Int) (l : List (Int × Int)) (hl : ∀ r ∈ l, 0 ≤ r.1 ∧ r.1 < n) :
    UVTable n (l.map fun r => r.1) (requestedUVs n l) := by
  have := savedUVs_table n l [] _ (uvTable_start n) hl
  simpa [requestedUVs] using this

theorem uvTable_assigned {n : Int} {req : List Int} {m : TextureUVs} (h : UVTable n req m)
    (sw : Int) (h0 : 0 ≤ sw) (h1 : sw < n) (ha : 0 ≤ m.uvSwatchToIndex sw) : sw ∈ req := by
  by_contra hc
  have := h.unused sw h0 h1 hc
  omega

theorem saveTextureUVs_slot (m : TextureUVs) (sw type sw2 : Int)
    (ha : 0 ≤ m.uvSwatchToIndex sw2) :
    (saveTextureUVs m sw type).uvSwatchToIndex sw2 = m.uvSwatchToIndex sw2 := by
  unfold saveTextureUVs
  split
  · have hne : sw2 ≠ sw := by
      intro e
      rw [e] at ha
      omega
    simp [setAt, hne]
  · rfl

theorem savedUVs_slot (l : List (Int × Int)) :
    ∀ (m : TextureUVs) (sw : Int), 0 ≤ m.uvSwatchToIndex sw →
      (savedUVs m l).uvSwatchToIndex sw = m.uvSwatchToIndex sw := by
  induction l with
  | nil => intro m sw _; rfl
  | cons r l ih =>
    intro m sw ha
    have h1 := saveTextureUVs_slot m r.1 r.2 sw ha
    have := ih (saveTextureUVs m r.1 r.2) sw (by rw [h1]; exact ha)
    simp only [savedUVs, List.foldl_cons] at this ⊢
    rw [this, h1]

theorem saveTextureUVs_twice (m : TextureUVs) (hc : 0 ≤ m.textureUsedCount)
    (sw type type2 : Int) :
    saveTextureUVs (saveTextureUVs m sw type) sw type2 = saveTextureUVs m sw type := by
  by_cases h : m.uvSwatchToIndex sw < 0
  · have e : saveTextureUVs m sw type =
        { uvIndexToSwatch := setAt m.uvIndexToSwatch m.textureUsedCount sw
          uvSwatchToIndex := setAt m.uvSwatchToIndex sw m.textureUsedCount
          uvSwatchToType := setAt m.uvSwatchToType sw type
          textureUsedCount := m.textureUsedCount + 1 } := by
      unfold saveTextureUVs
      rw [if_pos h]
    rw [e]
    unfold saveTextureUVs
    rw [if_neg (by simp [setAt]; exact hc)]
  · have e : saveTextureUVs m sw type = m := by
      unfold saveTextureUVs
      rw [if_neg h]
    rw [e]
    unfold saveTextureUVs
    rw [if_neg h]

theorem scanStart_sealed {s : ExportState} (h : WellFormed s)
    (hseal : s.gOptions.EXPT_SEAL_SIDE_TUNNELS = true) (p : IPoint) :
    ((scanStart s).gBoxData p).group = if p ∈ sealedCells s then 1 else (s.gBoxData p).group := by
  obtain ⟨gx, gy, gz, hab, h0, hsol, hc, hsg, hag⟩ := wellFormed_iff h
  let s1 : ExportState :=
    { s with gGroupList := (setGroup s.gGroupList SURROUND_AIR_GROUP
        { s.gGroupList SURROUND_AIR_GROUP with population := 0 }) }
  have hs1 : scanStart s = if s.gOptions.EXPT_SEAL_SIDE_TUNNELS then sealSides s1 else s1 := rfl
  have hz1 : groupCells s1 1 = 0 := groupCells_eq_zero (fun p hp => by
    have : (s1.gBoxData p).group = 0 := h0 p hp
    omega)
  have hpop1 : (s1.gGroupList 1).population = (groupCells s1 1 : Int) := by
    rw [hz1]
    simp [s1, SURROUND_AIR_GROUP, setGroup_same]
  have hinv := sealSides_inv (s := s1) (by show 2 ≤ s.gBoxSize.z; omega)
    (by show 2 ≤ s.gBoxSize.x; omega) (by show 1 ≤ s.gBoxSize.y; omega) h0 hpop1
  rw [hs1, if_pos hseal, hinv.cells]
  rfl

theorem propagateSeed_blocked (bi : BlockInfo) (s : ExportState) (point : IPoint) (g : Nat)
    (seedStack : List IPoint) (h1 : s.gOptions.EXPT_SEAL_ENTRANCES = true)
    (h2 : (s.gGroupList g).solid = false)
    (h3 : bi.BLF_ENTRANCE (s.gBoxData point).origType = true) :
    propagateSeed bi s point g seedStack = (s, seedStack) := by
  unfold propagateSeed
  rw [if_pos ⟨h1, h2, h3⟩]

theorem propagateSeed_absorbs (bi : BlockInfo) (s : ExportState) (point : IPoint) (g : Nat)
    (seedStack : List IPoint)
    (hopen : ¬ (s.gOptions.EXPT_SEAL_ENTRANCES = true ∧ (s.gGroupList g).solid = false ∧
      bi.BLF_ENTRANCE (s.gBoxData point).origType = true))
    (d : Nat) (hd : d < 6) (q : IPoint) (hq : getNeighbor s.gAirBox d point = some q)
    (h0 : (s.gBoxData q).group = NO_GROUP_SET)
    (hs : (s.gBoxData q).isSolid = (s.gGroupList g).solid) :
    ((propagateSeed bi s point g seedStack).1.gBoxData q).group = (s.gGroupList g).groupID := by
  unfold propagateSeed
  rw [if_neg hopen]
  have key := foldl_range_inv
    (fun k (r : ExportState × List IPoint) =>
      r.1.gAirBox = s.gAirBox ∧
      (r.1.gGroupList g).groupID = (s.gGroupList g).groupID ∧
      (r.1.gGroupList g).solid = (s.gGroupList g).solid ∧
      (∀ c, r.1.gBoxData c = s.gBoxData c ∨
        ((r.1.gBoxData c).group = (s.gGroupList g).groupID ∧
          (r.1.gBoxData c).isSolid = (s.gBoxData c).isSolid)) ∧
      (∀ j, j < k → ∀ c, getNeighbor s.gAirBox j point = some c →
        (s.gBoxData c).group = NO_GROUP_SET →
        (s.gBoxData c).isSolid = (s.gGroupList g).solid →
        (r.1.gBoxData c).group = (s.gGroupList g).groupID))
    (propagateDir point g) 6 (s, seedStack)
    ⟨rfl, rfl, rfl, fun _ => Or.inl rfl, fun j hj => absurd hj (Nat.not_lt_zero _)⟩ ?_
  · exact key.2.2.2.2 d hd q hq h0 hs
  · rintro k ⟨r, st⟩ hk ⟨a1, a2, a3, a4, a5⟩
    simp only [] at a1 a2 a3 a4 a5
    rcases propagateDir_cases point g r st k with e | ⟨c, hn, c0, cs, e⟩
    · rw [e]
      refine ⟨a1, a2, a3, a4, ?_⟩
      intro j hj c hc hc0 hcs
      rcases Nat.lt_succ_iff_lt_or_eq.1 hj with hlt | heq
      · exact a5 j hlt c hc hc0 hcs
      · subst heq
        rcases a4 c with k1 | k1
        · exfalso
          unfold propagateDir at e
          simp only [] at e
          rw [a1, hc] at e
          simp only [] at e
          rw [if_pos ⟨by rw [k1]; exact hc0, by rw [k1, a3]; exact hcs⟩] at e
          have := congrArg (fun x => x.2.length) e
          simp at this
        · exact k1.1
    · rw [e]
      simp only []
      have hg : ((absorb r g c).gGroupList g).groupID = (s.gGroupList g).groupID := by
        simp only [absorb, setGroup_same]
        exact a2
      have hsol : ((absorb r g c).gGroupList g).solid = (s.gGroupList g).solid := by
        simp only [absorb, setGroup_same]
        exact a3
      have hcell : ∀ x, (absorb r g c).gBoxData x = r.gBoxData x ∨
          (x = c ∧ ((absorb r g c).gBoxData x).group = (s.gGroupList g).groupID ∧
            ((absorb r g c).gBoxData x).isSolid = (r.gBoxData x).isSolid) := by
        intro x
        by_cases hx : x = c
        · right
          subst hx
          refine ⟨rfl, by rw [absorb_cell_new, a2], ?_⟩
          rw [(absorb_frame r g x).isSolid]
        · left
          exact absorb_cell_other r g hx
      refine ⟨a1, hg, hsol, ?_, ?_⟩
      · intro x
        rcases hcell x with k1 | ⟨_, k2, k3⟩
        · rw [k1]; exact a4 x
        · right
          refine ⟨k2, ?_⟩
          rw [k3]
          rcases a4 x with k4 | k4
          · rw [k4]
          · exact k4.2
      · intro j hj x hx hx0 hxs
        rcases hcell x with k1 | ⟨_, k2, _⟩
        · rw [k1]
          rcases Nat.lt_succ_iff_lt_or_eq.1 hj with hlt | heq
          · exact a5 j hlt x hx hx0 hxs
          · subst heq
            rw [a1, hx] at hn
            have hxc : x = c := Option.some.inj hn
            rw [hxc] at k1
            rw [hxc, ← a2, ← absorb_cell_new r g c, k1]
        · exact k2

theorem touchMark_obscurity (t : ExportState) (n : IPoint) (bits : Nat)
    (h : ∀ p, (t.gTouchGrid p).obscurity = 0) :
    ∀ p, ((touchMark t n bits).gTouchGrid p).obscurity = 0 := by
  intro p
  unfold touchMark setTouch
  simp only []
  split
  · exact h n
  · exact h p

theorem checkForTouchingEdge_obscurity (t : ExportState) (b : IPoint) (ox oy oz : Int)
    (h : ∀ p, (t.gTouchGrid p).obscurity = 0) :
    ∀ p, ((checkForTouchingEdge t b ox oy oz).gTouchGrid p).obscurity = 0 := by
  unfold checkForTouchingEdge
  simp only []
  by_cases c1 : (t.gBoxData (b.offset ox oy oz)).isSolid = true
  swap
  · rw [if_neg c1]; exact h
  rw [if_pos c1]
  by_cases c2 : t.gOptions.EXPT_CONNECT_ALL_EDGES = true ∨
      (t.gBoxData b).group ≠ (t.gBoxData (b.offset ox oy oz)).group
  swap
  · rw [if_neg c2]; exact h
  rw [if_pos c2]
  cases touchPair t b ox oy oz with
  | none => exact h
  | some r =>
    obtain ⟨n1, n2, b1, b2⟩ := r
    simp only []
    generalize computeObscurity _ n1 = x1
    generalize computeObscurity _ n2 = x2
    have h' : ∀ p, (({ t with gStats := { t.gStats with
        nonManifoldEdgesFound := t.gStats.nonManifoldEdgesFound + 1 } } :
        ExportState).gTouchGrid p).obscurity = 0 := h
    by_cases d1 : x1 ≥ x2 <;> by_cases d2 : x2 ≥ x1
    · rw [if_pos d1, if_pos d2]
      exact touchMark_obscurity _ _ _ (touchMark_obscurity _ _ _ h')
    · rw [if_pos d1, if_neg d2]
      exact touchMark_obscurity _ _ _ h'
    · rw [if_neg d1, if_pos d2]
      exact touchMark_obscurity _ _ _ h'
    · rw [if_neg d1, if_neg d2]
      exact h'

theorem touchScanCell_obscurity (t : ExportState) (b : IPoint)
    (h : ∀ p, (t.gTouchGrid p).obscurity = 0) :
    ∀ p, ((touchScanCell t b).gTouchGrid p).obscurity = 0 := by
  unfold touchScanCell
  by_cases c0 : (t.gBoxData b).isSolid = true
  swap
  · rw [if_neg c0]; exact h
  rw [if_pos c0]
  simp only []
  by_cases c1 : (t.gBoxData (b.offset 1 0 0)).type = BLOCK_AIR
  · simp only [if_pos c1, checkForTouchingEdge_data]
    by_cases c2 : (t.gBoxData (b.offset 0 0 1)).type = BLOCK_AIR
    · simp only [if_pos c2]
      repeat apply checkForTouchingEdge_obscurity
      exact h
    · simp only [if_neg c2]
      repeat apply checkForTouchingEdge_obscurity
      exact h
  · simp only [if_neg c1]
    by_cases c2 : (t.gBoxData (b.offset 0 0 1)).type = BLOCK_AIR
    · simp only [if_pos c2]
      repeat apply checkForTouchingEdge_obscurity
      exact h
    · simp only [if_neg c2]
      exact h

theorem touchScan_obscurity (s : ExportState) (p : IPoint) :
    ((touchScan s).gTouchGrid p).obscurity = 0 := by
  unfold touchScan
  exact foldl_inv (fun t : ExportState => ∀ p, (t.gTouchGrid p).obscurity = 0) touchScanCell _ _
    (fun _ => rfl) (fun t b _ ht => touchScanCell_obscurity t b ht) p

unseal Rat.add Rat.sub Rat.mul Rat.inv in
set_option maxRecDepth 1000000 in
theorem twoWelds_order :
    computeObscurity (touchScan twoWelds) ⟨2, 3, 1⟩ = 3 ∧
    computeObscurity (touchScan twoWelds) ⟨5, 1, 2⟩ = 2 ∧
    ((touchScan twoWelds).gBoxData ⟨2, 3, 1⟩).origType =
      ((touchScan twoWelds).gBoxData ⟨5, 1, 2⟩).origType ∧
    (sampleSort (touchRecordCompare (touchScan twoWelds)) (touchList (touchScan twoWelds))).map
      (fun r => r.boxIndex) = [⟨5, 1, 2⟩, ⟨6, 1, 1⟩, ⟨2, 3, 1⟩] := by
  decide

theorem lor_zero_right (x : Int) : Int.lor x 0 = x := by
  cases x <;> simp [Int.lor, Nat.ldiff]

theorem foldl_max_ge (l : List Int) (a : Int) : a ≤ l.foldl max a := by
  induction l generalizing a with
  | nil => simp
  | cons x l ih =>
    simp only [List.foldl_cons]
    exact le_trans (le_max_left a x) (ih _)

theorem foldl_max_const (l : List Int) (a : Int) (h : ∀ x ∈ l, x ≤ a) : l.foldl max a = a := by
  induction l with
  | nil => rfl
  | cons x l ih =>
    simp only [List.foldl_cons]
    rw [max_eq_left (h x (by simp))]
    exact ih (fun y hy => h y (by simp [hy]))

theorem maxCode_snoc (c : ReturnCodes) (o : Outcomes) (t : List Phase) (p : Phase) (k : Int)
    (hk : returnedCode c o p = some k) : maxCode c o (t ++ [p]) = max (maxCode c o t) k := by
  unfold maxCode
  simp [List.filterMap_append, hk, List.foldl_append]

theorem maxCode_none (c : ReturnCodes) (o : Outcomes) (t : List Phase)
    (h : ∀ p ∈ t, ∀ k, returnedCode c o p = some k → k ≤ c.MW_NO_ERROR) :
    maxCode c o t = c.MW_NO_ERROR := by
  unfold maxCode
  apply foldl_max_const
  intro x hx
  simp only [List.mem_filterMap] at hx
  obtain ⟨p, hp, hk⟩ := hx
  exact h p hp x hk

theorem maxCode_append_none (c : ReturnCodes) (o : Outcomes) (t W : List Phase)
    (h : ∀ p ∈ W, ∀ k, returnedCode c o p = some k → k ≤ c.MW_NO_ERROR) :
    maxCode c o (t ++ W) = maxCode c o t := by
  unfold maxCode
  rw [List.filterMap_append, List.foldl_append]
  apply foldl_max_const
  intro x hx
  simp only [List.mem_filterMap] at hx
  obtain ⟨p, hp, hk⟩ := hx
  exact le_trans (h p hp x hk) (foldl_max_ge _ _)

theorem foldl_lor_none (c : ReturnCodes) (o : Outcomes) (W : List Phase) (r : Int)
    (h : ∀ p ∈ W, returnedCode c o p = some 0) :
    W.foldl (fun r p => Int.lor r ((returnedCode c o p).getD 0)) r = r := by
  induction W generalizing r with
  | nil => rfl
  | cons p W ih =>
    simp only [List.foldl_cons, h p (by simp), Option.getD_some, lor_zero_right]
    exact ih r (fun q hq => h q (by simp [hq]))

theorem saveVolumeExit_writes (c : ReturnCodes) (o : Outcomes) (png need : Bool) (r : Int)
    (t : List Phase) :
    ∃ W : List Phase, (∀ p ∈ W, isTextureWrite p = true) ∧
      (png = false → W = []) ∧
      (png = true → need = false → W = [Phase.writeTexture]) ∧
      saveVolumeExit c o png need r t =
        (W.foldl (fun r p => Int.lor r ((returnedCode c o p).getD 0)) r, t ++ W) := by
  refine ⟨if png then (if need then (if o.usesRGBA then [Phase.writeTextureRGBA] else []) ++
      ((if o.usesRGB then [Phase.writeTextureRGB] else []) ++
        (if o.usesAlpha then [Phase.writeTextureAlpha] else [])) else [Phase.writeTexture]) else [],
    ?_, ?_, ?_, ?_⟩ <;>
  cases png <;> cases need <;> cases h1 : o.usesRGBA <;> cases h2 : o.usesRGB <;>
    cases h3 : o.usesAlpha <;>
    simp [saveVolumeExit, isTextureWrite, returnedCode, h1, h2, h3]

/-- the result of the exit path after a run of calls none of which was fatal, ended
by a fatal call or by the final checks -/
theorem saveVolumeExit_settled (c : ReturnCodes) (o : Outcomes) (png need : Bool)
    (t : List Phase) (p : Phase) (k : Int)
    (h0 : c.MW_NO_ERROR = 0) (hb : 0 < c.MW_BEGIN_ERRORS)
    (ht : ∀ q ∈ t, isTextureWrite q = false ∧ q ≠ Phase.finalModelChecks ∧
      ∀ j, returnedCode c o q = some j → j < c.MW_BEGIN_ERRORS)
    (hp : isTextureWrite p = false) (hk : returnedCode c o p = some k)
    (hlast : c.MW_BEGIN_ERRORS ≤ k ∨ p = Phase.finalModelChecks) :
    ((∀ q ∈ (saveVolumeExit c o png need k (t ++ [p])).2, q ≠ Phase.finalModelChecks →
        isTextureWrite q = false →
        ∀ j, returnedCode c o q = some j → j = c.MW_NO_ERROR ∨ c.MW_BEGIN_ERRORS ≤ j) →
      c.MW_NO_ERROR ≤ o.finalModelChecks →
      (saveVolumeExit c o png need k (t ++ [p])).1 =
        ((saveVolumeExit c o png need k (t ++ [p])).2.filter isTextureWrite).foldl
          (fun r q => Int.lor r ((returnedCode c o q).getD 0))
          (maxCode c o ((saveVolumeExit c o png need k (t ++ [p])).2.filter
            (fun q => !isTextureWrite q))) ∧
      ((∀ q ∈ (saveVolumeExit c o png need k (t ++ [p])).2, isTextureWrite q = true →
          returnedCode c o q = some c.MW_NO_ERROR) →
        (saveVolumeExit c o png need k (t ++ [p])).1 =
          maxCode c o (saveVolumeExit c o png need k (t ++ [p])).2)) ∧
    (saveVolumeExit c o png need k (t ++ [p])).2.Pairwise
      (fun a b => ∀ j, returnedCode c o a = some j → c.MW_BEGIN_ERRORS ≤ j →
        isTextureWrite b = true) := by
  obtain ⟨W, hW, -, -, e⟩ := saveVolumeExit_writes c o png need k (t ++ [p])
  rw [e]
  have ft : (t ++ [p]).filter isTextureWrite = [] := by
    rw [List.filter_eq_nil_iff]
    intro q hq
    rcases List.mem_append.1 hq with hq | hq
    · simp [(ht q hq).1]
    · simp only [List.mem_singleton] at hq
      simp [hq, hp]
  have fn : (t ++ [p]).filter (fun q => !isTextureWrite q) = t ++ [p] := by
    rw [List.filter_eq_self]
    intro q hq
    rcases List.mem_append.1 hq with hq | hq
    · simp [(ht q hq).1]
    · simp only [List.mem_singleton] at hq
      simp [hq, hp]
  have fW : W.filter isTextureWrite = W := List.filter_eq_self.2 hW
  have nW : W.filter (fun q => !isTextureWrite q) = [] := by
    rw [List.filter_eq_nil_iff]
    intro q hq
    simp [hW q hq]
  refine ⟨?_, ?_⟩
  · intro hphase hfinal
    simp only [List.filter_append, ft, fn, fW, nW, List.nil_append, List.append_nil] at *
    have hk0 : k = maxCode c o (t ++ [p]) := by
      rw [maxCode_snoc c o t p k hk, maxCode_none c o t]
      · rcases hlast with h | h
        · omega
        · subst h
          simp only [returnedCode, Option.some.injEq] at hk
          omega
      · intro q hq j hj
        have := hphase q (List.mem_append_left _ (List.mem_append_left _ hq)) (ht q hq).2.1
          (ht q hq).1 j hj
        have := (ht q hq).2.2 j hj
        omega
    refine ⟨by rw [← hk0], ?_⟩
    intro hw
    have hw2 : ∀ q ∈ W, returnedCode c o q = some 0 := fun q hq =>
      h0 ▸ hw q (List.mem_append_right _ hq) (hW q hq)
    rw [foldl_lor_none c o W k hw2, maxCode_append_none c o (t ++ [p]) W, ← hk0]
    intro q hq j hj
    have := hw2 q hq
    rw [hj] at this
    simp only [Option.some.injEq] at this
    omega
  · rw [List.pairwise_append]
    refine ⟨?_, ?_, ?_⟩
    · rw [List.pairwise_append]
      refine ⟨?_, by simp, ?_⟩
      · apply List.pairwise_of_forall_mem_list
        intro a ha b _ j hj hjb
        have := (ht a ha).2.2 j hj
        omega
      · intro a ha b _ j hj hjb
        have := (ht a ha).2.2 j hj
        omega
    · apply List.pairwise_of_forall_mem_list
      intro a _ b hb2 j _ _
      exact hW b hb2
    · intro a _ b hb2 j _ _
      exact hW b hb2

theorem writer_cases (c : ReturnCodes) (o : Outcomes) (n : Int) (ft : FileType) :
    (writerPhase ft = [] ∧ writerCode o n ft = n) ∨
    ∃ p, writerPhase ft = [p] ∧ returnedCode c o p = some (writerCode o n ft) ∧
      isTextureWrite p = false ∧ p ≠ Phase.finalModelChecks ∧ writesFile p = true := by
  cases ft <;> simp [writerPhase, writerCode, returnedCode, isTextureWrite, writesFile]

theorem nonfatal_snoc (c : ReturnCodes) (o : Outcomes) (t : List Phase) (p : Phase)
    (ht : ∀ q ∈ t, isTextureWrite q = false ∧ q ≠ Phase.finalModelChecks ∧
      ∀ j, returnedCode c o q = some j → j < c.MW_BEGIN_ERRORS)
    (hp : isTextureWrite p = false ∧ p ≠ Phase.finalModelChecks ∧
      ∀ j, returnedCode c o p = some j → j < c.MW_BEGIN_ERRORS) :
    ∀ q ∈ t ++ [p], isTextureWrite q = false ∧ q ≠ Phase.finalModelChecks ∧
      ∀ j, returnedCode c o q = some j → j < c.MW_BEGIN_ERRORS := by
  intro q hq
  rcases List.mem_append.1 hq with hq | hq
  · exact ht q hq
  · simp only [List.mem_singleton] at hq
    exact hq ▸ hp

/-- the run of `SaveVolume` up to the label `Exit`: calls that were not fatal, then
one fatal call or the final checks, whose code is the value of `retCode` there -/
theorem SaveVolume_run (c : ReturnCodes) (img tex : Bool) (ft : FileType) (o : Outcomes)
    (hlt : c.MW_NO_ERROR < c.MW_BEGIN_ERRORS) :
    ∃ (png need : Bool) (t : List Phase) (p : Phase) (k : Int),
      SaveVolume c img tex ft o = saveVolumeExit c o png need k (t ++ [p]) ∧
      (∀ q ∈ t, isTextureWrite q = false ∧ q ≠ Phase.finalModelChecks ∧
        ∀ j, returnedCode c o q = some j → j < c.MW_BEGIN_ERRORS) ∧
      isTextureWrite p = false ∧ returnedCode c o p = some k ∧
      (c.MW_BEGIN_ERRORS ≤ k ∨ p = Phase.finalModelChecks) := by
  unfold SaveVolume
  simp only []
  by_cases hA : img = true ∧
      c.MW_BEGIN_ERRORS ≤ (if img = true then o.readTerrainPNG else c.MW_NO_ERROR)
  · rw [if_pos hA]
    obtain ⟨hi, hA2⟩ := hA
    subst hi
    simp only [if_true] at hA2 ⊢
    exact ⟨false, false, [], Phase.readTerrainPNG, _, rfl, by simp, rfl, rfl, Or.inl hA2⟩
  · rw [if_neg hA]
    have h2 : ∀ q ∈ (if tex = true then
          (if img = true then [Phase.readTerrainPNG] else []) ++ [Phase.createBaseMaterialTexture]
        else if img = true then [Phase.readTerrainPNG] else []),
        isTextureWrite q = false ∧ q ≠ Phase.finalModelChecks ∧
          ∀ j, returnedCode c o q = some j → j < c.MW_BEGIN_ERRORS := by
      cases img <;> cases tex <;>
        simp [isTextureWrite, returnedCode] at hA ⊢ <;> omega
    generalize (if tex = true then
          (if img = true then [Phase.readTerrainPNG] else []) ++ [Phase.createBaseMaterialTexture]
        else if img = true then [Phase.readTerrainPNG] else []) = t2 at h2 ⊢
    by_cases hB : c.MW_BEGIN_ERRORS ≤ o.populateBox
    · rw [if_pos hB]
      exact ⟨tex, false, t2, Phase.populateBox, _, rfl, h2, rfl, rfl, Or.inl hB⟩
    · rw [if_neg hB]
      have h3 := nonfatal_snoc c o t2 Phase.populateBox h2
        ⟨rfl, by simp, fun j hj => by simp only [returnedCode, Option.some.injEq] at hj; omega⟩
      by_cases hC : c.MW_BEGIN_ERRORS ≤ max o.filterBox o.populateBox
      · rw [if_pos hC]
        have e : max o.filterBox o.populateBox = o.filterBox := by omega
        rw [e]
        exact ⟨tex, false, _, Phase.filterBox, _, rfl, h3, rfl, rfl, Or.inl (by omega)⟩
      · rw [if_neg hC]
        have h4 := nonfatal_snoc c o _ Phase.filterBox h3
          ⟨rfl, by simp, fun j hj => by simp only [returnedCode, Option.some.injEq] at hj; omega⟩
        by_cases hD : c.MW_BEGIN_ERRORS ≤
            max o.determineScaleAndHollowAndMelt (max o.filterBox o.populateBox)
        · rw [if_pos hD]
          have e : max o.determineScaleAndHollowAndMelt (max o.filterBox o.populateBox) =
              o.determineScaleAndHollowAndMelt := by omega
          rw [e]
          exact ⟨tex, false, _, Phase.determineScaleAndHollowAndMelt, _, rfl, h4, rfl, rfl,
            Or.inl (by omega)⟩
        · rw [if_neg hD]
          have h5 := nonfatal_snoc c o _ Phase.determineScaleAndHollowAndMelt h4
            ⟨rfl, by simp,
              fun j hj => by simp only [returnedCode, Option.some.injEq] at hj; omega⟩
          have h6 := nonfatal_snoc c o _ Phase.generateBlockDataAndStatistics h5
            ⟨rfl, by simp, fun j hj => by simp [returnedCode] at hj⟩
          rcases writer_cases c o o.determineScaleAndHollowAndMelt ft with ⟨w1, w2⟩ |
            ⟨w, w1, w2, w3, w4, -⟩
          · rw [w1, w2, List.append_nil, if_neg (by omega)]
            exact ⟨tex, _, _, Phase.finalModelChecks, _, rfl, h6, rfl, rfl, Or.inr rfl⟩
          · rw [w1]
            by_cases hE : c.MW_BEGIN_ERRORS ≤
                max (writerCode o o.determineScaleAndHollowAndMelt ft)
                  (max o.determineScaleAndHollowAndMelt (max o.filterBox o.populateBox))
            · rw [if_pos hE]
              have e : max (writerCode o o.determineScaleAndHollowAndMelt ft)
                  (max o.determineScaleAndHollowAndMelt (max o.filterBox o.populateBox)) =
                  writerCode o o.determineScaleAndHollowAndMelt ft := by omega
              rw [e]
              exact ⟨tex, _, _, w, _, rfl, h6, w3, w2, Or.inl (by omega)⟩
            · rw [if_neg hE]
              have h7 := nonfatal_snoc c o _ w h6
                ⟨w3, w4, fun j hj => by
                  rw [w2] at hj
                  simp only [Option.some.injEq] at hj
                  omega⟩
              exact ⟨tex, _, _, Phase.finalModelChecks, _, rfl, h7, rfl, rfl, Or.inr rfl⟩

theorem initializeWorldData_box (s : ExportState) (xmin ymin zmin xmax ymax zmax : Int) :
    (initializeWorldData s xmin ymin zmin xmax ymax zmax).2.2 =
      ⟨⟨min xmin xmax, min (clamp ymin 0 127) (clamp ymax 0 127), min zmin zmax⟩,
        ⟨max xmin xmax, max (clamp ymin 0 127) (clamp ymax 0 127), max zmin zmax⟩⟩ ∧
    0 ≤ (initializeWorldData s xmin ymin zmin xmax ymax zmax).2.2.min.y ∧
    (initializeWorldData s xmin ymin zmin xmax ymax zmax).2.2.max.y ≤ 127 ∧
    (initializeWorldData s xmin ymin zmin xmax ymax zmax).2.2.min.x ≤
      (initializeWorldData s xmin ymin zmin xmax ymax zmax).2.2.max.x ∧
    (initializeWorldData s xmin ymin zmin xmax ymax zmax).2.2.min.y ≤
      (initializeWorldData s xmin ymin zmin xmax ymax zmax).2.2.max.y ∧
    (initializeWorldData s xmin ymin zmin xmax ymax zmax).2.2.min.z ≤
      (initializeWorldData s xmin ymin zmin xmax ymax zmax).2.2.max.z := by
  simp only [initializeWorldData, clamp, IBox.mk.injEq, IPoint.mk.injEq]
  refine ⟨⟨⟨?_, ?_, ?_⟩, ?_, ?_, ?_⟩, ?_, ?_, ?_, ?_, ?_⟩ <;> split_ifs <;> omega

theorem initializeWorldData_interior (s : ExportState) (xmin ymin zmin xmax ymax zmax : Int)
    (loc : IPoint) :
    (initializeWorldData s xmin ymin zmin xmax ymax zmax).2.2.contains loc = true ↔
      interior (initializeWorldData s xmin ymin zmin xmax ymax zmax).1
        (worldToBox (initializeWorldData s xmin ymin zmin xmax ymax zmax).2.1 loc) := by
  rw [contains_iff]
  simp only [initializeWorldData, interior, worldToBox]
  constructor <;> intro h <;> refine ⟨?_, ?_, ?_, ?_, ?_, ?_⟩ <;> omega

theorem extractChunks_inv (P : (IPoint → BoxCell) × IBox → Prop) (wire : Nat)
    (world : Int → Int → Option WorldBlock) (off : IPoint) (wb : IBox) (h0 : P emptyBox)
    (hstep : ∀ st block bx bz loc, wb.contains loc = true → P st →
      P (extractCell wire block off bx bz st loc)) :
    P (extractChunks wire world off wb) := by
  unfold extractChunks
  apply foldl_inv P _ _ _ h0
  intro st bx _ hst
  apply foldl_inv P _ _ _ hst
  intro st bz _ hst
  unfold extractChunk
  cases world bx bz with
  | none => exact hst
  | some block =>
    apply foldl_inv P _ _ _ hst
    intro st loc hloc hst
    apply hstep _ _ _ _ _ _ hst
    rw [mem_boxCells, contains_iff] at hloc
    rw [contains_iff]
    simp only [] at hloc
    omega

theorem extractChunks_outside (wire : Nat) (world : Int → Int → Option WorldBlock)
    (off : IPoint) (wb : IBox) (q : IPoint)
    (hq : ∀ loc, wb.contains loc = true → worldToBox off loc ≠ q) :
    (extractChunks wire world off wb).1 q = ⟨0, 0, 0, 0, 0⟩ := by
  apply extractChunks_inv (fun st => st.1 q = ⟨0, 0, 0, 0, 0⟩) wire world off wb rfl
  intro st block bx bz loc hloc hst
  have hne := hq loc hloc
  unfold extractCell
  simp only []
  split <;> simp only [setCell, if_neg (Ne.symm hne)] <;> exact hst

theorem extractChunks_bounds (wire : Nat) (world : Int → Int → Option WorldBlock)
    (off : IPoint) (wb : IBox)
    (hr : -999999 ≤ wb.min.x ∧ wb.max.x ≤ 999999 ∧ -999999 ≤ wb.min.y ∧ wb.max.y ≤ 999999 ∧
      -999999 ≤ wb.min.z ∧ wb.max.z ≤ 999999) :
    (extractChunks wire world off wb).2 = emptyBox.2 ∨
      (wb.min.x ≤ (extractChunks wire world off wb).2.min.x ∧
        (extractChunks wire world off wb).2.min.x ≤ (extractChunks wire world off wb).2.max.x ∧
        (extractChunks wire world off wb).2.max.x ≤ wb.max.x ∧
        wb.min.y ≤ (extractChunks wire world off wb).2.min.y ∧
        (extractChunks wire world off wb).2.min.y ≤ (extractChunks wire world off wb).2.max.y ∧
        (extractChunks wire world off wb).2.max.y ≤ wb.max.y ∧
        wb.min.z ≤ (extractChunks wire world off wb).2.min.z ∧
        (extractChunks wire world off wb).2.min.z ≤ (extractChunks wire world off wb).2.max.z ∧
        (extractChunks wire world off wb).2.max.z ≤ wb.max.z) := by
  apply extractChunks_inv (fun st => st.2 = emptyBox.2 ∨
      (wb.min.x ≤ st.2.min.x ∧ st.2.min.x ≤ st.2.max.x ∧ st.2.max.x ≤ wb.max.x ∧
        wb.min.y ≤ st.2.min.y ∧ st.2.min.y ≤ st.2.max.y ∧ st.2.max.y ≤ wb.max.y ∧
        wb.min.z ≤ st.2.min.z ∧ st.2.min.z ≤ st.2.max.z ∧ st.2.max.z ≤ wb.max.z))
    wire world off wb (Or.inl rfl)
  intro st block bx bz loc hloc hst
  rw [contains_iff] at hloc
  unfold extractCell
  simp only []
  split
  · right
    rcases hst with h | h
    · simp only [h, emptyBox, addBounds]
      refine ⟨?_, ?_, ?_, ?_, ?_, ?_, ?_, ?_, ?_⟩ <;> split_ifs <;> omega
    · simp only [addBounds]
      refine ⟨?_, ?_, ?_, ?_, ?_, ?_, ?_, ?_, ?_⟩ <;> split_ifs <;> omega
  · exact hst

theorem extractChunks_solid (wire : Nat) (world : Int → Int → Option WorldBlock)
    (off : IPoint) (wb : IBox) (q : IPoint)
    (hq : BLOCK_AIR < ((extractChunks wire world off wb).1 q).type) :
    ∃ loc, (extractChunks wire world off wb).2.contains loc = true ∧ worldToBox off loc = q := by
  revert hq
  apply extractChunks_inv (fun st => BLOCK_AIR < (st.1 q).type →
    ∃ loc, st.2.contains loc = true ∧ worldToBox off loc = q) wire world off wb
  · intro h
    simp [emptyBox, BLOCK_AIR] at h
  · intro st block bx bz loc _ hst
    unfold extractCell
    simp only []
    split
    · intro h
      by_cases e : q = worldToBox off loc
      · refine ⟨loc, ?_, e.symm⟩
        rw [contains_iff]
        simp only [addBounds]
        refine ⟨?_, ?_, ?_, ?_, ?_, ?_⟩ <;> split_ifs <;> omega
      · simp only [setCell, if_neg e] at h
        obtain ⟨l, hl, hl2⟩ := hst h
        refine ⟨l, ?_, hl2⟩
        rw [contains_iff] at hl ⊢
        simp only [addBounds]
        refine ⟨?_, ?_, ?_, ?_, ?_, ?_⟩ <;> split_ifs <;> omega
    · rename_i hb
      intro h
      by_cases e : q = worldToBox off loc
      · simp only [setCell, if_pos e] at h
        exact absurd h hb
      · simp only [setCell, if_neg e] at h
        exact hst h

theorem checkForTouchingEdge_found (s t : ExportState) (b : IPoint) (o : Int × Int × Int)
    (ho : o ∈ scanOffsets) (hd : t.gBoxData = s.gBoxData) (hopt : t.gOptions = s.gOptions)
    (hb : (s.gBoxData b).isSolid = true)
    (h1 : (s.gBoxData (b.shift (firstAir o))).type = BLOCK_AIR) :
    (checkForTouchingEdge t b o.1 o.2.1 o.2.2).gBoxData = s.gBoxData ∧
    (checkForTouchingEdge t b o.1 o.2.1 o.2.2).gOptions = s.gOptions ∧
    (checkForTouchingEdge t b o.1 o.2.1 o.2.2).gStats.nonManifoldEdgesFound =
      t.gStats.nonManifoldEdgesFound + (if defectAt s b o = true then 1 else 0) := by
  refine ⟨(checkForTouchingEdge_data t b _ _ _).trans hd, ?_⟩
  obtain ⟨n1, n2, hpair⟩ := touchPair_spec t b o ho
  have hdef : defectAt s b o = ((s.gBoxData (b.shift o)).isSolid &&
      (s.gOptions.EXPT_CONNECT_ALL_EDGES ||
        decide ((s.gBoxData b).group ≠ (s.gBoxData (b.shift o)).group)) &&
      decide ((s.gBoxData (b.shift (secondAir o))).type = BLOCK_AIR)) := by
    simp [defectAt, hb, h1]
  rw [hdef]
  unfold checkForTouchingEdge
  simp only []
  rw [hd, hopt, show b.offset o.1 o.2.1 o.2.2 = b.shift o from rfl]
  by_cases c1 : (s.gBoxData (b.shift o)).isSolid = true
  swap
  · rw [if_neg c1]
    simp [c1, hopt]
  rw [if_pos c1]
  by_cases c2 : s.gOptions.EXPT_CONNECT_ALL_EDGES = true ∨
      (s.gBoxData b).group ≠ (s.gBoxData (b.shift o)).group
  swap
  · rw [if_neg c2]
    refine ⟨hopt, ?_⟩
    have : (s.gOptions.EXPT_CONNECT_ALL_EDGES ||
        decide ((s.gBoxData b).group ≠ (s.gBoxData (b.shift o)).group)) = false := by
      simpa using c2
    simp only [this, Bool.and_false, Bool.false_and, Bool.false_eq_true, if_false, add_zero]
  rw [if_pos c2, hpair, hd]
  have c2b : (s.gOptions.EXPT_CONNECT_ALL_EDGES ||
      decide ((s.gBoxData b).group ≠ (s.gBoxData (b.shift o)).group)) = true := by
    simpa using c2
  by_cases c3 : (s.gBoxData (b.shift (secondAir o))).type = BLOCK_AIR
  swap
  · rw [if_neg c3]
    simp [c3, hopt]
  rw [if_pos c3]
  simp only [c1, c2b, c3, decide_True, Bool.and_self, if_true]
  generalize computeObscurity _ (b.shift (firstAir o)) = x1
  generalize computeObscurity _ (b.shift (secondAir o)) = x2
  by_cases d1 : x1 ≥ x2 <;> by_cases d2 : x2 ≥ x1
  · rw [if_pos d1, if_pos d2]; exact ⟨rfl, rfl⟩
  · rw [if_pos d1, if_neg d2]; exact ⟨rfl, rfl⟩
  · rw [if_neg d1, if_pos d2]; exact ⟨rfl, rfl⟩
  · rw [if_neg d1, if_neg d2]; exact ⟨rfl, rfl⟩

theorem scanOffsets_filter_length (p : Int × Int × Int → Bool) :
    ((scanOffsets.filter p).length : Int) =
      (if p (1, -1, 0) = true then 1 else 0) + (if p (1, 0, -1) = true then 1 else 0) +
      (if p (1, 1, 0) = true then 1 else 0) + (if p (1, 0, 1) = true then 1 else 0) +
      (if p (0, -1, 1) = true then 1 else 0) + (if p (0, 1, 1) = true then 1 else 0) := by
  simp only [scanOffsets, List.filter_cons, List.filter_nil]
  cases p (1, -1, 0) <;> cases p (1, 0, -1) <;> cases p (1, 1, 0) <;> cases p (1, 0, 1) <;>
    cases p (0, -1, 1) <;> cases p (0, 1, 1) <;> rfl

theorem defectAt_first (s : ExportState) (b : IPoint) (o : Int × Int × Int)
    (h : ¬ (s.gBoxData (b.shift (firstAir o))).type = BLOCK_AIR) : defectAt s b o = false := by
  simp [defectAt, h]

/-- the scan at one cell: the count grows by the number of directions at which the
test holds -/
theorem touchScanCell_found (s t : ExportState) (b : IPoint) (hd : t.gBoxData = s.gBoxData)
    (hopt : t.gOptions = s.gOptions) :
    (touchScanCell t b).gBoxData = s.gBoxData ∧ (touchScanCell t b).gOptions = s.gOptions ∧
    (touchScanCell t b).gStats.nonManifoldEdgesFound =
      t.gStats.nonManifoldEdgesFound + ((scanOffsets.filter (defectAt s b)).length : Int) := by
  unfold touchScanCell
  by_cases hb : (s.gBoxData b).isSolid = true
  swap
  · rw [hd, if_neg hb]
    have : scanOffsets.filter (defectAt s b) = [] := by
      rw [List.filter_eq_nil_iff]
      intro o _
      simp [defectAt, hb]
    rw [this]
    exact ⟨hd, hopt, by simp⟩
  rw [hd, if_pos hb]
  simp only []
  rw [scanOffsets_filter_length]
  have stageX : ∃ u, (if (s.gBoxData (b.offset 1 0 0)).type = BLOCK_AIR then
        checkForTouchingEdge (checkForTouchingEdge (checkForTouchingEdge
          (checkForTouchingEdge t b 1 (-1) 0) b 1 0 (-1)) b 1 1 0) b 1 0 1
      else t) = u ∧ u.gBoxData = s.gBoxData ∧ u.gOptions = s.gOptions ∧
      u.gStats.nonManifoldEdgesFound = t.gStats.nonManifoldEdgesFound +
        ((if defectAt s b (1, -1, 0) = true then 1 else 0) +
          (if defectAt s b (1, 0, -1) = true then 1 else 0) +
          (if defectAt s b (1, 1, 0) = true then 1 else 0) +
          (if defectAt s b (1, 0, 1) = true then 1 else 0)) := by
    by_cases hX : (s.gBoxData (b.offset 1 0 0)).type = BLOCK_AIR
    · rw [if_pos hX]
      have k1 := checkForTouchingEdge_found s t b (1, -1, 0) (by decide) hd hopt hb hX
      have k2 := checkForTouchingEdge_found s _ b (1, 0, -1) (by decide) k1.1 k1.2.1 hb hX
      have k3 := checkForTouchingEdge_found s _ b (1, 1, 0) (by decide) k2.1 k2.2.1 hb hX
      have k4 := checkForTouchingEdge_found s _ b (1, 0, 1) (by decide) k3.1 k3.2.1 hb hX
      refine ⟨_, rfl, k4.1, k4.2.1, ?_⟩
      rw [k4.2.2, k3.2.2, k2.2.2, k1.2.2]
      ring
    · rw [if_neg hX]
      refine ⟨_, rfl, hd, hopt, ?_⟩
      rw [defectAt_first s b (1, -1, 0) hX, defectAt_first s b (1, 0, -1) hX,
        defectAt_first s b (1, 1, 0) hX, defectAt_first s b (1, 0, 1) hX]
      simp
  obtain ⟨u, hu, ud, uo, un⟩ := stageX
  rw [hu, ud]
  by_cases hZ : (s.gBoxData (b.offset 0 0 1)).type = BLOCK_AIR
  · rw [if_pos hZ]
    have k5 := checkForTouchingEdge_found s u b (0, -1, 1) (by decide) ud uo hb hZ
    have k6 := checkForTouchingEdge_found s _ b (0, 1, 1) (by decide) k5.1 k5.2.1 hb hZ
    refine ⟨k6.1, k6.2.1, ?_⟩
    rw [k6.2.2, k5.2.2, un]
    ring
  · rw [if_neg hZ]
    refine ⟨ud, uo, ?_⟩
    rw [un, defectAt_first s b (0, -1, 1) hZ, defectAt_first s b (0, 1, 1) hZ]
    simp

/-- the scan over a list of cells: the count grows by the number of pairs
(cell, direction) at which the test holds -/
theorem touchScan_found (s : ExportState) (l : List IPoint) (t : ExportState)
    (hd : t.gBoxData = s.gBoxData) (hopt : t.gOptions = s.gOptions) :
    (l.foldl touchScanCell t).gStats.nonManifoldEdgesFound =
      t.gStats.nonManifoldEdgesFound + ((defectsFound s l).length : Int) := by
  induction l generalizing t with
  | nil => simp [defectsFound]
  | cons b l ih =>
    obtain ⟨k1, k2, k3⟩ := touchScanCell_found s t b hd hopt
    rw [List.foldl_cons, ih _ k1 k2, k3]
    simp only [defectsFound, List.flatMap_cons, List.length_append, List.length_map,
      Nat.cast_add]
    ring

theorem commonNeighbours_shift (a : IPoint) (o : Int × Int × Int) (ho : o ∈ scanOffsets)
    (c : IPoint) :
    (c ∈ commonNeighbours a (a.shift o) ↔
      c = a.shift (firstAir o) ∨ c = a.shift (secondAir o)) ∧
    (c ∈ commonNeighbours (a.shift o) a ↔
      c = a.shift (firstAir o) ∨ c = a.shift (secondAir o)) ∧
    edgeDiagonal a (a.shift o) ∧ edgeDiagonal (a.shift o) a := by
  obtain ⟨ax, ay, az⟩ := a
  obtain ⟨cx, cy, cz⟩ := c
  simp only [scanOffsets, List.mem_cons, List.mem_singleton, List.not_mem_nil, or_false] at ho
  rcases ho with rfl | rfl | rfl | rfl | rfl | rfl <;>
    simp [commonNeighbours, IPoint.shift, IPoint.offset, firstAir, secondAir, edgeDiagonal,
      List.mem_filter] <;> omega

theorem air_iff (c : BoxCell) : c.type = BLOCK_AIR ↔ c.isSolid = false := by
  simp [BoxCell.isSolid, BLOCK_AIR]

/-- with all edges connected, the test of the scan from `a` in the direction `o`
holds exactly if `a` and the cell at `o` form a touching edge -/
theorem defectAt_iff (s : ExportState) (hall : s.gOptions.EXPT_CONNECT_ALL_EDGES = true)
    (a : IPoint) (o : Int × Int × Int) (ho : o ∈ scanOffsets) :
    (defectAt s a o = true ↔ touchingEdge s a (a.shift o)) ∧
    (defectAt s a o = true ↔ touchingEdge s (a.shift o) a) := by
  have hc := commonNeighbours_shift a o ho
  have e1 : (∀ c ∈ commonNeighbours a (a.shift o), (s.gBoxData c).isSolid = false) ↔
      (s.gBoxData (a.shift (firstAir o))).isSolid = false ∧
        (s.gBoxData (a.shift (secondAir o))).isSolid = false := by
    constructor
    · intro h
      exact ⟨h _ ((hc _).1.2 (Or.inl rfl)), h _ ((hc _).1.2 (Or.inr rfl))⟩
    · intro h c hcm
      rcases (hc c).1.1 hcm with rfl | rfl
      · exact h.1
      · exact h.2
  have e2 : (∀ c ∈ commonNeighbours (a.shift o) a, (s.gBoxData c).isSolid = false) ↔
      (s.gBoxData (a.shift (firstAir o))).isSolid = false ∧
        (s.gBoxData (a.shift (secondAir o))).isSolid = false := by
    constructor
    · intro h
      exact ⟨h _ ((hc _).2.1.2 (Or.inl rfl)), h _ ((hc _).2.1.2 (Or.inr rfl))⟩
    · intro h c hcm
      rcases (hc c).2.1.1 hcm with rfl | rfl
      · exact h.1
      · exact h.2
  have d1 := (hc a).2.2.1
  have d2 := (hc a).2.2.2
  unfold touchingEdge
  rw [e1, e2]
  simp only [defectAt, hall, Bool.true_or, Bool.and_true, Bool.and_eq_true, decide_eq_true_eq,
    air_iff]
  constructor <;> constructor <;> intro h <;> simp_all

theorem defectsFound_mem (s : ExportState) (l : List IPoint) (a : IPoint)
    (o : Int × Int × Int) :
    (a, o) ∈ defectsFound s l ↔ a ∈ l ∧ o ∈ scanOffsets ∧ defectAt s a o = true := by
  simp only [defectsFound, List.mem_flatMap, List.mem_map, List.mem_filter, Prod.mk.injEq]
  constructor
  · rintro ⟨b, hb, p, ⟨hp, hd⟩, rfl, rfl⟩
    exact ⟨hb, hp, hd⟩
  · rintro ⟨h1, h2, h3⟩
    exact ⟨a, h1, o, ⟨h2, h3⟩, rfl, rfl⟩

theorem defectsFound_nodup (s : ExportState) (l : List IPoint) (hl : l.Nodup) :
    (defectsFound s l).Nodup := by
  unfold defectsFound
  rw [List.nodup_flatMap]
  constructor
  · intro b _
    refine List.Nodup.map ?_ (List.Nodup.filter _ (by decide))
    intro x y h
    simpa using h
  · refine hl.pairwise_of_forall_ne ?_
    intro a _ b _ hab
    simp only [Function.onFun, List.disjoint_left, List.mem_map, List.mem_filter]
    rintro x ⟨p, _, rfl⟩ ⟨q, _, h⟩
    simp only [Prod.mk.injEq] at h
    exact hab h.1.symm

set_option maxRecDepth 100000 in
theorem scan_opposite : ∀ o ∈ scanOffsets, ∀ o' ∈ scanOffsets, o + o' ≠ (0, 0, 0) := by
  decide

/-- with all edges connected and every solid cell in the solid box, the ordered
pairs that form a touching edge are twice the pairs (cell, direction) that the scan
finds -/
theorem touchingEdges_card (s : ExportState) (hall : s.gOptions.EXPT_CONNECT_ALL_EDGES = true)
    (hin : ∀ p, (s.gBoxData p).isSolid = true → s.gSolidBox.contains p = true) :
    (touchingEdges s).card = 2 * (defectsFound s (boxCells s.gSolidBox)).length := by
  have hF := defectsFound_nodup s (boxCells s.gSolidBox) (nodup_boxCells _)
  have hG : (((defectsFound s (boxCells s.gSolidBox)).map fun x => (x.1, x.1.shift x.2)) ++
      ((defectsFound s (boxCells s.gSolidBox)).map fun x => (x.1.shift x.2, x.1))).Nodup := by
    rw [List.nodup_append]
    refine ⟨?_, ?_, ?_⟩
    · refine List.Nodup.map_on ?_ hF
      rintro ⟨a, o⟩ _ ⟨a', o'⟩ _ h
      simp only [Prod.mk.injEq] at h
      obtain ⟨rfl, h2⟩ := h
      rw [shift_inj h2]
    · refine List.Nodup.map_on ?_ hF
      rintro ⟨a, o⟩ _ ⟨a', o'⟩ _ h
      simp only [Prod.mk.injEq] at h
      obtain ⟨h2, rfl⟩ := h
      rw [shift_inj h2]
    · intro x hx hy
      simp only [List.mem_map] at hx hy
      obtain ⟨⟨a, o⟩, ha, rfl⟩ := hx
      obtain ⟨⟨a', o'⟩, ha', h⟩ := hy
      simp only [Prod.mk.injEq] at h
      obtain ⟨h1, h2⟩ := h
      rw [defectsFound_mem] at ha ha'
      rw [← h1, shift_shift] at h2
      exact shift_ne_self (scan_opposite o' ha'.2.1 o ha.2.1) h2.symm
  have hE : touchingEdges s =
      (((defectsFound s (boxCells s.gSolidBox)).map fun x => (x.1, x.1.shift x.2)) ++
        ((defectsFound s (boxCells s.gSolidBox)).map fun x => (x.1.shift x.2, x.1))).toFinset := by
    ext ⟨a, b⟩
    simp only [touchingEdges, Finset.mem_filter, Finset.mem_product, List.mem_toFinset,
      List.mem_append, List.mem_map]
    constructor
    · rintro ⟨⟨ha, hb⟩, ht⟩
      obtain ⟨o, ho, e | e⟩ := diagonal_normal ht.1
      · left
        subst e
        exact ⟨(a, o), (defectsFound_mem s _ a o).2
          ⟨ha, ho, ((defectAt_iff s hall a o ho).1).2 ht⟩, rfl⟩
      · right
        subst e
        exact ⟨(b, o), (defectsFound_mem s _ b o).2
          ⟨hb, ho, ((defectAt_iff s hall b o ho).2).2 ht⟩, rfl⟩
    · rintro (⟨⟨a', o⟩, hx, he⟩ | ⟨⟨a', o⟩, hx, he⟩)
      · rw [defectsFound_mem] at hx
        simp only [Prod.mk.injEq] at he
        obtain ⟨rfl, rfl⟩ := he
        have ht := ((defectAt_iff s hall a' o hx.2.1).1).1 hx.2.2
        exact ⟨⟨hx.1, mem_boxCells.2 (hin _ ht.2.2.1)⟩, ht⟩
      · rw [defectsFound_mem] at hx
        simp only [Prod.mk.injEq] at he
        obtain ⟨rfl, rfl⟩ := he
        have ht := ((defectAt_iff s hall a' o hx.2.1).2).1 hx.2.2
        exact ⟨⟨mem_boxCells.2 (hin _ ht.2.1), hx.1⟩, ht⟩
  rw [hE, List.toFinset_card_of_nodup hG, List.length_append, List.length_map, List.length_map]
  omega

theorem between_adjacent (a : IPoint) (o : Int × Int × Int) (ho : o ∈ scanOffsets)
    (c : IPoint) :
    (faceAdjacent a c ∧ faceAdjacent (a.shift o) c ↔
      c = a.shift (firstAir o) ∨ c = a.shift (secondAir o)) := by
  obtain ⟨ax, ay, az⟩ := a
  obtain ⟨cx, cy, cz⟩ := c
  simp only [scanOffsets, List.mem_cons, List.mem_singleton, List.not_mem_nil, or_false] at ho
  rcases ho with rfl | rfl | rfl | rfl | rfl | rfl <;>
    simp [faceAdjacent, IPoint.shift, IPoint.offset, firstAir, secondAir] <;> omega

theorem checkMakeFace_print (bt : BlockTable) (o : FaceOptions) (hprint : o.EXPT_3DPRINT = true)
    (t n : Nat) : checkMakeFace bt o t n (view3D o) ≠ 0 ↔ n = BLOCK_AIR := by
  unfold checkMakeFace view3D
  simp only [hprint, if_true, ne_eq, not_true_eq_false, if_false]
  unfold BLOCK_AIR
  split <;> simp <;> omega

theorem emitted_print (bt : BlockTable) (o : FaceOptions) (s : ExportState)
    (hprint : o.EXPT_3DPRINT = true) (c : IPoint) (d : Nat) :
    (c, d) ∈ emitted bt o s ↔ s.gSolidBox.contains c = true ∧ (s.gBoxData c).isSolid = true ∧
      d < 6 ∧ (s.gBoxData (getNeighborUnsafe d c)).isSolid = false := by
  unfold emitted
  simp only [List.mem_flatMap, mem_boxCells]
  constructor
  · rintro ⟨loc, hloc, h⟩
    split at h
    · rename_i ht
      simp only [List.mem_map, List.mem_filter, List.mem_range, decide_eq_true_eq,
        Prod.mk.injEq] at h
      obtain ⟨f, ⟨hf, hm⟩, rfl, rfl⟩ := h
      rw [checkMakeFace_print bt o hprint] at hm
      exact ⟨hloc, by simpa [BoxCell.isSolid] using ht, hf, (air_iff _).1 hm⟩
    · simp at h
  · rintro ⟨hc, hs, hd, hn⟩
    refine ⟨c, hc, ?_⟩
    rw [if_pos (by simpa [BoxCell.isSolid] using hs)]
    rw [List.mem_map]
    refine ⟨d, ?_, rfl⟩
    simp only [List.mem_filter, List.mem_range, decide_eq_true_eq]
    exact ⟨hd, (checkMakeFace_print bt o hprint _ _).2 ((air_iff _).2 hn)⟩

theorem emitted_nodup (bt : BlockTable) (o : FaceOptions) (s : ExportState) :
    (emitted bt o s).Nodup := by
  unfold emitted
  rw [List.nodup_flatMap]
  constructor
  · intro b _
    split
    · refine List.Nodup.map ?_ (List.Nodup.filter _ (List.nodup_range 6))
      intro x y h
      simpa using h
    · exact List.nodup_nil
  · refine (nodup_boxCells _).pairwise_of_forall_ne ?_
    intro a _ b _ hab
    simp only [Function.onFun, List.disjoint_left]
    intro x hx hy
    split at hx
    · split at hy
      · simp only [List.mem_map] at hx hy
        obtain ⟨p, _, rfl⟩ := hx
        obtain ⟨q, _, h⟩ := hy
        simp only [Prod.mk.injEq] at h
        exact hab h.1.symm
      · simp at hy
    · simp at hx

theorem countP_candidates {α : Type} [DecidableEq α] (l cands : List α) (pred : α → Bool)
    (hl : l.Nodup) (hc : cands.Nodup) (hsub : ∀ e ∈ l, pred e = true → e ∈ cands)
    (hpred : ∀ e ∈ cands, pred e = true) :
    l.countP pred = cands.countP fun e => decide (e ∈ l) := by
  rw [List.countP_eq_length_filter, List.countP_eq_length_filter]
  apply List.Perm.length_eq
  rw [List.perm_ext_iff_of_nodup (hl.filter _) (hc.filter _)]
  intro e
  simp only [List.mem_filter, decide_eq_true_eq]
  constructor
  · rintro ⟨h1, h2⟩
    exact ⟨hsub e h1 h2, h1⟩
  · rintro ⟨h1, h2⟩
    exact ⟨h2, hpred e h1⟩

theorem aroundEdge_on (p : IPoint) (k : Nat) (hk : k < 3) :
    ∀ x ∈ aroundEdge.getD k [], onEdge (p.shift x.1, x.2) p ((unitEdges p).getD k p) = true := by
  obtain ⟨px, py, pz⟩ := p
  have h3 : k = 0 ∨ k = 1 ∨ k = 2 := by omega
  rcases h3 with rfl | rfl | rfl <;>
    simp [aroundEdge, unitEdges, onEdge, faceEdges, gridCorner, gFaceToVertexOffset,
      IPoint.shift, IPoint.offset, List.range_succ]

theorem onEdge_around (p c : IPoint) (d : Nat) (hd : d < 6) (k : Nat) (hk : k < 3)
    (h : onEdge (c, d) p ((unitEdges p).getD k p) = true) :
    ∃ v, (v, d) ∈ aroundEdge.getD k [] ∧ c = p.shift v := by
  obtain ⟨px, py, pz⟩ := p
  obtain ⟨cx, cy, cz⟩ := c
  have h3 : k = 0 ∨ k = 1 ∨ k = 2 := by omega
  have h6 : d = 0 ∨ d = 1 ∨ d = 2 ∨ d = 3 ∨ d = 4 ∨ d = 5 := by omega
  rcases h3 with rfl | rfl | rfl <;> rcases h6 with rfl | rfl | rfl | rfl | rfl | rfl <;>
    simp [aroundEdge, unitEdges, onEdge, faceEdges, gridCorner, gFaceToVertexOffset,
      IPoint.shift, IPoint.offset, List.range_succ] at h ⊢ <;> omega

theorem emitted_around (bt : BlockTable) (o : FaceOptions) (s : ExportState)
    (hprint : o.EXPT_3DPRINT = true)
    (hin : ∀ p, (s.gBoxData p).isSolid = true → s.gSolidBox.contains p = true)
    (c : IPoint) (d : Nat) (hd : d < 6) :
    decide ((c, d) ∈ emitted bt o s) =
      ((s.gBoxData c).isSolid && !(s.gBoxData (getNeighborUnsafe d c)).isSolid) := by
  rw [Bool.eq_iff_iff]
  simp only [decide_eq_true_eq, emitted_print bt o s hprint, Bool.and_eq_true,
    Bool.not_eq_true']
  constructor
  · rintro ⟨_, h1, _, h2⟩
    exact ⟨h1, h2⟩
  · rintro ⟨h1, h2⟩
    exact ⟨hin c h1, h1, hd, h2⟩

theorem aroundEdge_nodup (p : IPoint) (k : Nat) :
    ((aroundEdge.getD k []).map fun x => (p.shift x.1, x.2)).Nodup := by
  refine List.Nodup.map ?_ ?_
  · rintro ⟨v, d⟩ ⟨v', d'⟩ h
    simp only [Prod.mk.injEq] at h
    rw [shift_inj h.1, h.2]
  · have : ∀ k < 3, (aroundEdge.getD k []).Nodup := by decide
    by_cases hk : k < 3
    · exact this k hk
    · have e : aroundEdge.getD k [] = [] := by
        have : aroundEdge.length ≤ k := by simp [aroundEdge]; omega
        simp [List.getD, List.getElem?_eq_none this]
      rw [e]
      exact List.nodup_nil

/-- the number of emitted faces on a unit edge, counted over the eight faces around
the edge -/
theorem edgeFaces_around (bt : BlockTable) (o : FaceOptions) (s : ExportState)
    (p : IPoint) (k : Nat) (hk : k < 3) :
    edgeFaces bt o s p ((unitEdges p).getD k p) =
      (aroundEdge.getD k []).countP fun x => decide ((p.shift x.1, x.2) ∈ emitted bt o s) := by
  unfold edgeFaces
  rw [countP_candidates (emitted bt o s) ((aroundEdge.getD k []).map fun x => (p.shift x.1, x.2))
    _ (emitted_nodup bt o s) (aroundEdge_nodup p k), List.countP_map]
  · apply List.countP_congr
    intro x _
    simp
  · rintro ⟨c, d⟩ he hon
    have hd : d < 6 := by
      unfold emitted at he
      simp only [List.mem_flatMap] at he
      obtain ⟨loc, _, h⟩ := he
      split at h
      · simp only [List.mem_map, List.mem_filter, List.mem_range, Prod.mk.injEq] at h
        obtain ⟨f, ⟨hf, _⟩, _, rfl⟩ := h
        exact hf
      · simp at h
    obtain ⟨v, hv, rfl⟩ := onEdge_around p c d hd k hk hon
    exact List.mem_map.2 ⟨(v, d), hv, rfl⟩
  · intro e he
    obtain ⟨x, hx, rfl⟩ := List.mem_map.1 he
    exact aroundEdge_on p k hk x hx

theorem touchingEdge_shift (s : ExportState) (a : IPoint) (o : Int × Int × Int)
    (ho : o ∈ scanOffsets) (hA : (s.gBoxData a).isSolid = true)
    (hD : (s.gBoxData (a.shift o)).isSolid = true)
    (h1 : (s.gBoxData (a.shift (firstAir o))).isSolid = false)
    (h2 : (s.gBoxData (a.shift (secondAir o))).isSolid = false) :
    touchingEdge s a (a.shift o) := by
  refine ⟨(commonNeighbours_shift a o ho a).2.2.1, hA, hD, ?_⟩
  intro c hc
  rcases (commonNeighbours_shift a o ho c).1.1 hc with rfl | rfl
  · exact h1
  · exact h2

theorem commonNeighbours_cross (a : IPoint) (o : Int × Int × Int) (ho : o ∈ scanOffsets)
    (c : IPoint) :
    (c ∈ commonNeighbours (a.shift (firstAir o)) (a.shift (secondAir o)) ↔
      c = a ∨ c = a.shift o) ∧
    edgeDiagonal (a.shift (firstAir o)) (a.shift (secondAir o)) := by
  obtain ⟨ax, ay, az⟩ := a
  obtain ⟨cx, cy, cz⟩ := c
  simp only [scanOffsets, List.mem_cons, List.mem_singleton, List.not_mem_nil, or_false] at ho
  rcases ho with rfl | rfl | rfl | rfl | rfl | rfl <;>
    simp [commonNeighbours, IPoint.shift, IPoint.offset, firstAir, secondAir, edgeDiagonal,
      List.mem_filter] <;> omega

theorem touchingEdge_cross (s : ExportState) (a : IPoint) (o : Int × Int × Int)
    (ho : o ∈ scanOffsets) (hA : (s.gBoxData a).isSolid = false)
    (hD : (s.gBoxData (a.shift o)).isSolid = false)
    (h1 : (s.gBoxData (a.shift (firstAir o))).isSolid = true)
    (h2 : (s.gBoxData (a.shift (secondAir o))).isSolid = true) :
    touchingEdge s (a.shift (firstAir o)) (a.shift (secondAir o)) := by
  refine ⟨(commonNeighbours_cross a o ho a).2, h1, h2, ?_⟩
  intro c hc
  rcases (commonNeighbours_cross a o ho c).1.1 hc with rfl | rfl
  · exact hA
  · exact hD

theorem unsafe_shift (p : IPoint) (v : Int × Int × Int) :
    getNeighborUnsafe 0 (p.shift v) = p.shift (v + (-1, 0, 0)) ∧
    getNeighborUnsafe 1 (p.shift v) = p.shift (v + (0, -1, 0)) ∧
    getNeighborUnsafe 2 (p.shift v) = p.shift (v + (0, 0, -1)) ∧
    getNeighborUnsafe 3 (p.shift v) = p.shift (v + (1, 0, 0)) ∧
    getNeighborUnsafe 4 (p.shift v) = p.shift (v + (0, 1, 0)) ∧
    getNeighborUnsafe 5 (p.shift v) = p.shift (v + (0, 0, 1)) := by
  simp [getNeighborUnsafe, IPoint.shift, IPoint.offset]
  refine ⟨?_, ?_, ?_⟩ <;> omega

/-- the faces on the unit edge between four cells: `a`, its two neighbours towards
`o`, and the cell at `o` -/
theorem square_parity (s : ExportState) (a : IPoint) (o : Int × Int × Int)
    (ho : o ∈ scanOffsets) (n : Nat)
    (hn : n =
      (if ((s.gBoxData (a.shift o)).isSolid && !(s.gBoxData (a.shift (firstAir o))).isSolid) = true
        then 1 else 0) +
      (if ((s.gBoxData (a.shift (firstAir o))).isSolid && !(s.gBoxData (a.shift o)).isSolid) = true
        then 1 else 0) +
      (if ((s.gBoxData (a.shift o)).isSolid && !(s.gBoxData (a.shift (secondAir o))).isSolid) = true
        then 1 else 0) +
      (if ((s.gBoxData (a.shift (secondAir o))).isSolid && !(s.gBoxData (a.shift o)).isSolid) = true
        then 1 else 0) +
      (if ((s.gBoxData (a.shift (firstAir o))).isSolid && !(s.gBoxData a).isSolid) = true
        then 1 else 0) +
      (if ((s.gBoxData a).isSolid && !(s.gBoxData (a.shift (firstAir o))).isSolid) = true
        then 1 else 0) +
      (if ((s.gBoxData (a.shift (secondAir o))).isSolid && !(s.gBoxData a).isSolid) = true
        then 1 else 0) +
      (if ((s.gBoxData a).isSolid && !(s.gBoxData (a.shift (secondAir o))).isSolid) = true
        then 1 else 0)) :
    n = 0 ∨ n = 2 ∨ (n = 4 ∧ ∃ x y, touchingEdge s x y) := by
  have t1 := touchingEdge_shift s a o ho
  have t2 := touchingEdge_cross s a o ho
  revert hn t1 t2
  generalize (s.gBoxData a).isSolid = A
  generalize (s.gBoxData (a.shift o)).isSolid = D
  generalize (s.gBoxData (a.shift (firstAir o))).isSolid = B
  generalize (s.gBoxData (a.shift (secondAir o))).isSolid = C
  intro hn t1 t2
  subst hn
  cases A <;> cases B <;> cases C <;> cases D <;> simp
  · exact ⟨_, _, t2 rfl rfl rfl rfl⟩
  · exact ⟨_, _, t1 rfl rfl rfl rfl⟩

theorem edgeFaces_parity (bt : BlockTable) (o : FaceOptions) (s : ExportState)
    (hprint : o.EXPT_3DPRINT = true)
    (hin : ∀ p, (s.gBoxData p).isSolid = true → s.gSolidBox.contains p = true)
    (p : IPoint) (k : Nat) (hk : k < 3) :
    edgeFaces bt o s p ((unitEdges p).getD k p) = 0 ∨
    edgeFaces bt o s p ((unitEdges p).getD k p) = 2 ∨
    (edgeFaces bt o s p ((unitEdges p).getD k p) = 4 ∧ ∃ a b, touchingEdge s a b) := by
  have h3 : k = 0 ∨ k = 1 ∨ k = 2 := by omega
  have u := unsafe_shift p
  rcases h3 with rfl | rfl | rfl
  · apply square_parity s (p.shift (0, -1, -1)) (0, 1, 1) (by decide)
    rw [edgeFaces_around bt o s p 0 hk]
    simp only [aroundEdge, List.getD_cons_zero, List.countP_cons, List.countP_nil,
      emitted_around bt o s hprint hin _ _ (by decide : 1 < 6),
      emitted_around bt o s hprint hin _ _ (by decide : 2 < 6),
      emitted_around bt o s hprint hin _ _ (by decide : 4 < 6),
      emitted_around bt o s hprint hin _ _ (by decide : 5 < 6),
      (u _).1, (u _).2.1, (u _).2.2.1, (u _).2.2.2.1, (u _).2.2.2.2.1, (u _).2.2.2.2.2,
      shift_shift, firstAir, secondAir, Prod.mk_add_mk, add_zero, zero_add, Int.reduceAdd,
      Int.reduceNeg, neg_add_cancel, add_neg_cancel, zero_ne_one, if_false, OfNat.zero_ne_ofNat]
    omega
  · apply square_parity s (p.shift (-1, 0, -1)) (1, 0, 1) (by decide)
    rw [edgeFaces_around bt o s p 1 hk]
    simp only [aroundEdge, List.getD_cons_zero, List.getD_cons_succ, List.countP_cons,
      List.countP_nil,
      emitted_around bt o s hprint hin _ _ (by decide : 0 < 6),
      emitted_around bt o s hprint hin _ _ (by decide : 2 < 6),
      emitted_around bt o s hprint hin _ _ (by decide : 3 < 6),
      emitted_around bt o s hprint hin _ _ (by decide : 5 < 6),
      (u _).1, (u _).2.1, (u _).2.2.1, (u _).2.2.2.1, (u _).2.2.2.2.1, (u _).2.2.2.2.2,
      shift_shift, firstAir, secondAir, Prod.mk_add_mk, add_zero, zero_add, Int.reduceAdd,
      Int.reduceNeg, neg_add_cancel, add_neg_cancel, if_true]
    omega
  · apply square_parity s (p.shift (-1, -1, 0)) (1, 1, 0) (by decide)
    rw [edgeFaces_around bt o s p 2 hk]
    simp only [aroundEdge, List.getD_cons_zero, List.getD_cons_succ, List.countP_cons,
      List.countP_nil,
      emitted_around bt o s hprint hin _ _ (by decide : 0 < 6),
      emitted_around bt o s hprint hin _ _ (by decide : 1 < 6),
      emitted_around bt o s hprint hin _ _ (by decide : 3 < 6),
      emitted_around bt o s hprint hin _ _ (by decide : 4 < 6),
      (u _).1, (u _).2.1, (u _).2.2.1, (u _).2.2.2.1, (u _).2.2.2.2.1, (u _).2.2.2.2.2,
      shift_shift, firstAir, secondAir, Prod.mk_add_mk, add_zero, zero_add, Int.reduceAdd,
      Int.reduceNeg, neg_add_cancel, add_neg_cancel, if_true]
    omega

theorem commonNeighbours_adjacent {a b : IPoint} (hd : edgeDiagonal a b) (c : IPoint) :
    c ∈ commonNeighbours a b ↔ faceAdjacent a c ∧ faceAdjacent b c := by
  obtain ⟨o, ho, e | e⟩ := diagonal_normal hd
  · subst e
    rw [(commonNeighbours_shift a o ho c).1, between_adjacent a o ho c]
  · subst e
    rw [(commonNeighbours_shift b o ho c).2.1, ← between_adjacent b o ho c]
    exact ⟨fun h => ⟨h.2, h.1⟩, fun h => ⟨h.2, h.1⟩⟩

/-- when `fixTouchingEdges` returns 0 with connect-all-edges on, it has left the
grid as it was, and the grid has no touching edge -/
theorem fixTouchingEdges_clean (bi : BlockInfo) (qsort_s : Qsort) (s : ExportState)
    (hall : s.gOptions.EXPT_CONNECT_ALL_EDGES = true)
    (hin : ∀ p, (s.gBoxData p).isSolid = true → s.gSolidBox.contains p = true)
    (h0 : (fixTouchingEdges bi qsort_s s).1 = 0) :
    (fixTouchingEdges bi qsort_s s).2.gBoxData = s.gBoxData ∧
    (fixTouchingEdges bi qsort_s s).2.gSolidBox = s.gSolidBox ∧
    ∀ a b, ¬ touchingEdge s a b := by
  obtain ⟨hT, _⟩ := touchScan_inv s
  have hsize : (touchScan s).gTouchSize = 0 := by
    by_contra hz
    rw [fixTouchingEdges_eq, if_neg hz] at h0
    have hpos : 0 < (touchScan s).gTouchSize := by
      have := hT.size_nonneg
      omega
    obtain ⟨p, hp⟩ := hT.witness hpos
    obtain ⟨b, o, ho, hb, hsb, hso, e⟩ := hT.origin p hp
    obtain ⟨b1, b2⟩ := between_in_box ho hb (hin _ hso)
    have hpbox : (touchScan s).gSolidBox.contains p = true := by
      rw [hT.solidBox]
      rcases e with e | e <;> rw [e] <;> assumption
    have := touchList_mem hpbox hp
    simp [this] at h0
  have hres : (fixTouchingEdges bi qsort_s s).2 = touchScan s := by
    rw [fixTouchingEdges_eq, if_pos hsize]
  rw [hres]
  refine ⟨hT.data, hT.solidBox, ?_⟩
  intro a b ht
  have hno : ∀ c, faceAdjacent a c → faceAdjacent b c → (s.gBoxData c).isSolid = false :=
    fun c h1 h2 => ht.2.2.2 c ((commonNeighbours_adjacent ht.1 c).2 ⟨h1, h2⟩)
  obtain ⟨p, _, hp⟩ := touchScan_marks hall (hin a ht.2.1) (hin b ht.2.2.1) ht.2.1 ht.2.2.1
    ht.1 hno
  have := hT.sized p hp
  omega


/-! ## Lemmas on the order of the touch records, the touch grid, the bounds and the counts -/

theorem touchRecordCompare_cases (s : ExportState) (a b : TouchRecord) :
    (touchRecordCompare s a b = -1 ∧ touchBefore s a b) ∨
    (touchRecordCompare s a b = 0 ∧ touchSame s a b) ∨
    (touchRecordCompare s a b = 1 ∧ touchBefore s b a) := by
  unfold touchRecordCompare touchBefore touchSame
  rcases lt_trichotomy (s.gBoxData a.boxIndex).origType (s.gBoxData b.boxIndex).origType
    with h1 | h1 | h1
  · left
    rw [if_neg (by omega), if_pos h1]
    exact ⟨rfl, Or.inl h1⟩
  · rw [if_pos h1]
    rcases lt_trichotomy a.obscurity b.obscurity with h2 | h2 | h2
    · right; right
      rw [if_neg (by omega), if_neg (by omega)]
      exact ⟨rfl, Or.inr ⟨h1.symm, Or.inl h2⟩⟩
    · rw [if_pos h2]
      rcases lt_trichotomy a.count b.count with h3 | h3 | h3
      · right; right
        rw [if_neg (by omega), if_neg (by omega)]
        exact ⟨rfl, Or.inr ⟨h1.symm, Or.inr ⟨h2.symm, Or.inl h3⟩⟩⟩
      · rw [if_pos h3]
        rcases lt_trichotomy a.distance b.distance with h4 | h4 | h4
        · left
          rw [if_pos h4]
          exact ⟨rfl, Or.inr ⟨h1, Or.inr ⟨h2, Or.inr ⟨h3, h4⟩⟩⟩⟩
        · right; left
          rw [if_neg (by rw [h4]; exact lt_irrefl _), if_pos h4]
          exact ⟨rfl, h1, h2, h3, h4⟩
        · right; right
          rw [if_neg (not_lt.mpr h4.le), if_neg (ne_of_gt h4)]
          exact ⟨rfl, Or.inr ⟨h1.symm, Or.inr ⟨h2.symm, Or.inr ⟨h3.symm, h4⟩⟩⟩⟩
      · left
        rw [if_neg (by omega), if_pos h3]
        exact ⟨rfl, Or.inr ⟨h1, Or.inr ⟨h2, Or.inl h3⟩⟩⟩
    · left
      rw [if_neg (by omega), if_pos h2]
      exact ⟨rfl, Or.inr ⟨h1, Or.inl h2⟩⟩
  · right; right
    rw [if_neg (by omega), if_neg (by omega)]
    exact ⟨rfl, Or.inl h1⟩

theorem touchBefore_trans {s : ExportState} {a b c : TouchRecord}
    (h1 : touchBefore s a b) (h2 : touchBefore s b c) : touchBefore s a c := by
  unfold touchBefore at *
  rcases h1 with h1 | ⟨e1, h1⟩
  · rcases h2 with h2 | ⟨e2, h2⟩
    · left; omega
    · left; omega
  · rcases h2 with h2 | ⟨e2, h2⟩
    · left; omega
    · right
      refine ⟨e1.trans e2, ?_⟩
      rcases h1 with h1 | ⟨f1, h1⟩
      · rcases h2 with h2 | ⟨f2, h2⟩
        · left; omega
        · left; omega
      · rcases h2 with h2 | ⟨f2, h2⟩
        · left; omega
        · right
          refine ⟨f1.trans f2, ?_⟩
          rcases h1 with h1 | ⟨g1, h1⟩
          · rcases h2 with h2 | ⟨g2, h2⟩
            · left; omega
            · left; omega
          · rcases h2 with h2 | ⟨g2, h2⟩
            · left; omega
            · right
              exact ⟨g1.trans g2, lt_trans h1 h2⟩

theorem touchBefore_irrefl (s : ExportState) (a : TouchRecord) : ¬ touchBefore s a a := by
  unfold touchBefore
  rintro (h | ⟨_, h | ⟨_, h | ⟨_, h⟩⟩⟩)
  · omega
  · omega
  · omega
  · exact lt_irrefl _ h

theorem touchSame_before {s : ExportState} {a b c : TouchRecord}
    (h1 : touchSame s a b) (h2 : touchBefore s b c) : touchBefore s a c := by
  unfold touchSame at h1
  unfold touchBefore at *
  obtain ⟨e1, e2, e3, e4⟩ := h1
  rw [e1, e2, e3, e4]
  exact h2

theorem touchBefore_same {s : ExportState} {a b c : TouchRecord}
    (h1 : touchBefore s a b) (h2 : touchSame s b c) : touchBefore s a c := by
  unfold touchSame at h2
  unfold touchBefore at *
  obtain ⟨e1, e2, e3, e4⟩ := h2
  rw [← e1, ← e2, ← e3, ← e4]
  exact h1

theorem touchSame_symm {s : ExportState} {a b : TouchRecord} (h : touchSame s a b) :
    touchSame s b a :=
  ⟨h.1.symm, h.2.1.symm, h.2.2.1.symm, h.2.2.2.symm⟩

theorem touchSame_trans {s : ExportState} {a b c : TouchRecord} (h1 : touchSame s a b)
    (h2 : touchSame s b c) : touchSame s a c :=
  ⟨h1.1.trans h2.1, h1.2.1.trans h2.2.1, h1.2.2.1.trans h2.2.2.1, h1.2.2.2.trans h2.2.2.2⟩

theorem touchBefore_not_same {s : ExportState} {a b : TouchRecord} (h : touchBefore s a b) :
    ¬ touchSame s a b := fun h2 => touchBefore_irrefl s a (touchBefore_same h (touchSame_symm h2))

theorem touchBefore_asymm {s : ExportState} {a b : TouchRecord} (h : touchBefore s a b) :
    ¬ touchBefore s b a := fun h2 => touchBefore_irrefl s a (touchBefore_trans h h2)

theorem touchRecordCompare_neg_iff (s : ExportState) (a b : TouchRecord) :
    touchRecordCompare s a b = -1 ↔ touchBefore s a b := by
  rcases touchRecordCompare_cases s a b with ⟨e, h⟩ | ⟨e, h⟩ | ⟨e, h⟩
  · exact ⟨fun _ => h, fun _ => e⟩
  · exact ⟨fun h' => by omega, fun h' => absurd h (touchBefore_not_same h')⟩
  · exact ⟨fun h' => by omega, fun h' => absurd h (touchBefore_asymm h')⟩

theorem touchRecordCompare_zero_iff (s : ExportState) (a b : TouchRecord) :
    touchRecordCompare s a b = 0 ↔ touchSame s a b := by
  rcases touchRecordCompare_cases s a b with ⟨e, h⟩ | ⟨e, h⟩ | ⟨e, h⟩
  · exact ⟨fun h' => by omega, fun h' => absurd h' (touchBefore_not_same h)⟩
  · exact ⟨fun _ => h, fun _ => e⟩
  · exact ⟨fun h' => by omega, fun h' => absurd (touchSame_symm h') (touchBefore_not_same h)⟩

theorem touchRecordCompare_pos_iff (s : ExportState) (a b : TouchRecord) :
    touchRecordCompare s a b = 1 ↔ touchBefore s b a := by
  rcases touchRecordCompare_cases s a b with ⟨e, h⟩ | ⟨e, h⟩ | ⟨e, h⟩
  · exact ⟨fun h' => by omega, fun h' => absurd h (touchBefore_asymm h')⟩
  · exact ⟨fun h' => by omega, fun h' => absurd (touchSame_symm h) (touchBefore_not_same h')⟩
  · exact ⟨fun _ => h, fun _ => e⟩

theorem touchRecordCompare_range (s : ExportState) (a b : TouchRecord) :
    touchRecordCompare s a b = -1 ∨ touchRecordCompare s a b = 0 ∨ touchRecordCompare s a b = 1 := by
  rcases touchRecordCompare_cases s a b with ⟨e, _⟩ | ⟨e, _⟩ | ⟨e, _⟩
  · exact Or.inl e
  · exact Or.inr (Or.inl e)
  · exact Or.inr (Or.inr e)

theorem touchRecordCompare_antisymm (s : ExportState) (a b : TouchRecord) :
    touchRecordCompare s a b = - touchRecordCompare s b a := by
  rcases touchRecordCompare_cases s a b with ⟨e, h⟩ | ⟨e, h⟩ | ⟨e, h⟩
  · rw [e, (touchRecordCompare_pos_iff s b a).mpr h]
  · rw [e, (touchRecordCompare_zero_iff s b a).mpr (touchSame_symm h)]; rfl
  · rw [e, (touchRecordCompare_neg_iff s b a).mpr h]; rfl

theorem touchRecordCompare_le_iff (s : ExportState) (a b : TouchRecord) :
    touchRecordCompare s a b ≤ 0 ↔ touchBefore s a b ∨ touchSame s a b := by
  rcases touchRecordCompare_cases s a b with ⟨e, h⟩ | ⟨e, h⟩ | ⟨e, h⟩
  · exact ⟨fun _ => Or.inl h, fun _ => by omega⟩
  · exact ⟨fun _ => Or.inr h, fun _ => by omega⟩
  · refine ⟨fun h' => by omega, ?_⟩
    rintro (h' | h')
    · exact absurd h (touchBefore_asymm h')
    · exact absurd (touchSame_symm h') (touchBefore_not_same h)

theorem touchRecordCompare_trans (s : ExportState) (a b c : TouchRecord)
    (h1 : touchRecordCompare s a b ≤ 0) (h2 : touchRecordCompare s b c ≤ 0) :
    touchRecordCompare s a c ≤ 0 := by
  rw [touchRecordCompare_le_iff] at *
  rcases h1 with h1 | h1 <;> rcases h2 with h2 | h2
  · exact Or.inl (touchBefore_trans h1 h2)
  · exact Or.inl (touchBefore_same h1 h2)
  · exact Or.inl (touchSame_before h1 h2)
  · exact Or.inr (touchSame_trans h1 h2)

theorem touchRecordCompare_trans_lt (s : ExportState) (a b c : TouchRecord)
    (h1 : touchRecordCompare s a b < 0) (h2 : touchRecordCompare s b c < 0) :
    touchRecordCompare s a c < 0 := by
  have e1 : touchRecordCompare s a b = -1 := by
    rcases touchRecordCompare_range s a b with e | e | e <;> omega
  have e2 : touchRecordCompare s b c = -1 := by
    rcases touchRecordCompare_range s b c with e | e | e <;> omega
  rw [touchRecordCompare_neg_iff] at e1 e2
  rw [(touchRecordCompare_neg_iff s a c).mpr (touchBefore_trans e1 e2)]
  decide

theorem GET_PNG_TEXEL_eq (ip : Nat) :
    GET_PNG_TEXEL ip = ⟨ip % 256, ip / 256 % 256, ip / 65536 % 256, ip / 16777216 % 256⟩ := by
  unfold GET_PNG_TEXEL
  have h : ∀ x : Nat, x &&& 0xff = x % 256 := fun x =>
    Nat.and_pow_two_sub_one_eq_mod x 8
  simp only [h, Nat.shiftRight_eq_div_pow, Nat.mod_mod]

theorem GET_PNG_TEXEL_le (ip : Nat) :
    (GET_PNG_TEXEL ip).r ≤ 255 ∧ (GET_PNG_TEXEL ip).g ≤ 255 ∧ (GET_PNG_TEXEL ip).b ≤ 255 ∧
      (GET_PNG_TEXEL ip).a ≤ 255 := by
  rw [GET_PNG_TEXEL_eq]
  simp only []
  omega

theorem SET_PNG_TEXEL_eq (r g b a : Nat) (hr : r ≤ 255) (hg : g ≤ 255) (hb : b ≤ 255)
    (ha : a ≤ 255) : SET_PNG_TEXEL r g b a = a * 16777216 + b * 65536 + g * 256 + r := by
  unfold SET_PNG_TEXEL
  have e1 : a <<< 24 ||| b <<< 16 = 2 ^ 16 * (a * 256 + b) := by
    have h := Nat.mul_add_lt_is_or (i := 24) (b := b <<< 16)
      (by simp only [Nat.shiftLeft_eq]; omega) a
    simp only [Nat.shiftLeft_eq] at h ⊢
    rw [Nat.mul_comm a (2 ^ 24), ← h]
    omega
  have e2 : a <<< 24 ||| b <<< 16 ||| g <<< 8 = 2 ^ 8 * ((a * 256 + b) * 256 + g) := by
    rw [e1]
    have h := Nat.mul_add_lt_is_or (i := 16) (b := g <<< 8)
      (by simp only [Nat.shiftLeft_eq]; omega) (a * 256 + b)
    rw [← h]
    simp only [Nat.shiftLeft_eq]
    omega
  rw [e2, ← Nat.mul_add_lt_is_or (by omega)]
  omega

theorem GET_SET_PNG_TEXEL (r g b a : Nat) (hr : r ≤ 255) (hg : g ≤ 255) (hb : b ≤ 255)
    (ha : a ≤ 255) : GET_PNG_TEXEL (SET_PNG_TEXEL r g b a) = ⟨r, g, b, a⟩ := by
  rw [SET_PNG_TEXEL_eq r g b a hr hg hb ha, GET_PNG_TEXEL_eq]
  congr 1 <;> omega

theorem blend_le (o oa u ua : Nat) (ho : o ≤ 255) (hoa : oa ≤ 255) (hu : u ≤ 255)
    (hua : ua ≤ 255) : (o * oa * 255 + u * ua * (255 - oa)) / (255 * 255) ≤ 255 := by
  have h1 : o * oa * 255 ≤ 255 * oa * 255 :=
    Nat.mul_le_mul_right _ (Nat.mul_le_mul_right _ ho)
  have h2 : u * ua * (255 - oa) ≤ 255 * 255 * (255 - oa) :=
    Nat.mul_le_mul_right _ (Nat.mul_le_mul hu hua)
  have h3 : 255 * oa * 255 + 255 * 255 * (255 - oa) = 255 * (255 * 255) := by
    have : oa + (255 - oa) = 255 := by omega
    calc 255 * oa * 255 + 255 * 255 * (255 - oa)
        = 255 * 255 * (oa + (255 - oa)) := by ring
      _ = 255 * (255 * 255) := by rw [this]
  apply Nat.div_le_of_le_mul
  omega

theorem blendAlpha_le (oa ua : Nat) (hoa : oa ≤ 255) (hua : ua ≤ 255) :
    (oa * 255 + ua * (255 - oa)) / 255 ≤ 255 := by
  have h2 : ua * (255 - oa) ≤ 255 * (255 - oa) := Nat.mul_le_mul_right _ hua
  apply Nat.div_le_of_le_mul
  omega

theorem blendAlpha_opaque (oa : Nat) (hoa : oa ≤ 255) :
    (oa * 255 + 255 * (255 - oa)) / 255 = 255 := by
  omega

theorem solidSwatch_stop (n : Int) (c : Int) (l : List (Int × Int)) :
    l.foldl (solidSwatchStep n) (c, false) = (c, false) := by
  induction l with
  | nil => rfl
  | cons x xs ih =>
    rw [List.foldl_cons]
    exact ih

theorem solidSwatch_count (n : Int) (l : List (Int × Int)) : ∀ c : Int,
    (l.foldl (solidSwatchStep n) (c, true)).1 = min (max n (c + 1)) (c + l.length) := by
  induction l with
  | nil =>
    intro c
    simp only [List.foldl_nil, List.length_nil, Nat.cast_zero]
    omega
  | cons x xs ih =>
    intro c
    rw [List.foldl_cons]
    have e : solidSwatchStep n (c, true) x = (c + 1, decide (c + 1 < n)) := rfl
    rw [e]
    by_cases h : c + 1 < n
    · rw [decide_eq_true h, ih]
      simp only [List.length_cons, Nat.cast_add, Nat.cast_one]
      omega
    · rw [decide_eq_false h, solidSwatch_stop]
      simp only [List.length_cons, Nat.cast_add, Nat.cast_one]
      omega

theorem tileSwatch_count (l : List (Int × Int)) : ∀ m : Model,
    (l.foldl (fun (m : Model) _ => { m with swatchCount := m.swatchCount + 1 }) m).swatchCount =
      m.swatchCount + l.length ∧
    (l.foldl (fun (m : Model) _ => { m with swatchCount := m.swatchCount + 1 }) m).swatchListSize =
      m.swatchListSize := by
  induction l with
  | nil => intro m; simp
  | cons x xs ih =>
    intro m
    rw [List.foldl_cons]
    obtain ⟨h1, h2⟩ := ih { m with swatchCount := m.swatchCount + 1 }
    rw [h1, h2]
    simp only [List.length_cons, Nat.cast_add, Nat.cast_one]
    constructor
    · omega
    · trivial

theorem presetSwatch_count (l : List (Int × Int)) : ∀ a : Model × Nat,
    (l.foldl presetStep a).1.swatchCount = a.1.swatchCount + l.length ∧
    (l.foldl presetStep a).1.swatchListSize = a.1.swatchListSize := by
  induction l with
  | nil => intro a; simp
  | cons x xs ih =>
    intro a
    rw [List.foldl_cons]
    obtain ⟨h1, h2⟩ := ih (presetStep a x)
    rw [h1, h2]
    simp only [List.length_cons, Nat.cast_add, Nat.cast_one]
    unfold presetStep createCompositeSwatch
    simp only []
    constructor
    · omega
    · trivial

theorem atlasCells_length (k : Nat) : (atlasCells (k : Int)).length = k * k := by
  unfold atlasCells
  rw [List.length_flatMap]
  have h : ∀ lo hi : Int, (intRange lo hi).length = (hi + 1 - lo).toNat := by
    intro lo hi
    unfold intRange
    simp
  have e : ((k : Int) - 1 + 1 - 0).toNat = k := by omega
  have hf : (List.length ∘ fun row : Int =>
      List.map (fun col => (row, col)) (intRange 0 ((k : Int) - 1))) = fun _ => k := by
    funext row
    simp only [Function.comp, List.length_map, h, e]
  rw [hf, List.map_const', List.sum_replicate, h, e]
  rfl

/-- What `createBaseMaterialTexture` leaves in `gModel.swatchCount` in texture-image
mode: the solid swatches, as many as there are blocks but at least one and at
most as many as the atlas holds, then the 256 tiles and the 22 presets. -/
theorem createBaseMaterialTexture_count (n : Int) (k : Nat) (m : Model) :
    (createBaseMaterialTexture n true (k : Int) m).swatchCount =
      min (max n 1) ((k : Int) * k) + 278 ∧
    (createBaseMaterialTexture n true (k : Int) m).swatchListSize = m.swatchListSize := by
  unfold createBaseMaterialTexture
  simp only [if_true]
  obtain ⟨h1, h2⟩ := presetSwatch_count (compositeTable n)
    ((atlasCells 16).foldl (fun (m : Model) _ => { m with swatchCount := m.swatchCount + 1 })
      { m with swatchCount := ((atlasCells (k : Int)).foldl (solidSwatchStep n) (0, true)).1 }, 0)
  obtain ⟨h3, h4⟩ := tileSwatch_count (atlasCells 16)
    { m with swatchCount := ((atlasCells (k : Int)).foldl (solidSwatchStep n) (0, true)).1 }
  rw [h1, h2, h3, h4, solidSwatch_count, atlasCells_length]
  have e16 : (atlasCells 16).length = 256 := atlasCells_length 16
  have e22 : (compositeTable n).length = 22 := rfl
  rw [e16, e22]
  simp only [Nat.cast_mul, Nat.cast_ofNat, zero_add]
  constructor
  · omega
  · trivial

theorem foundPower_fold (w : Int) (l : List Nat) : ∀ b : Bool,
    l.foldl (fun found i => if found then found else decide (w = (2 : Int) ^ i)) b =
      (b || l.any fun i => decide (w = (2 : Int) ^ i)) := by
  induction l with
  | nil => intro b; simp
  | cons x xs ih =>
    intro b
    rw [List.foldl_cons, ih]
    cases b <;> simp

theorem foundPower_iff (w : Int) :
    foundPower w = true ↔
      (w = 16 ∨ w = 32 ∨ w = 64 ∨ w = 128 ∨ w = 256 ∨ w = 512 ∨ w = 1024 ∨ w = 2048 ∨
        w = 4096 ∨ w = 8192 ∨ w = 16384 ∨ w = 32768) := by
  have hl : List.range' 4 12 = [4, 5, 6, 7, 8, 9, 10, 11, 12, 13, 14, 15] := by decide
  unfold foundPower
  rw [hl, foundPower_fold]
  simp only [Bool.false_or, List.any_cons, List.any_nil, Bool.or_false, Bool.or_eq_true,
    decide_eq_true_eq]
  norm_num

theorem readTerrainPNG_accepts (w h : Int) :
    readTerrainPNG 0 w h = TerrainCode.MW_NO_ERROR ↔ (h = w ∧ foundPower w = true) := by
  unfold readTerrainPNG
  rw [if_neg (by decide)]
  by_cases e : w = h
  · rw [if_neg (not_not.mpr e)]
    by_cases f : foundPower w = true
    · rw [if_neg (not_not.mpr f)]
      exact ⟨fun _ => ⟨e.symm, f⟩, fun _ => rfl⟩
    · rw [if_pos f]
      exact ⟨fun h' => (by cases h'), fun h' => absurd h'.2 f⟩
  · rw [if_pos e]
    exact ⟨fun h' => (by cases h'), fun h' => absurd h'.1.symm e⟩

theorem textureStart_accepted (n w h : Int) (m : Model)
    (hr : readTerrainPNG 0 w h = TerrainCode.MW_NO_ERROR) :
    textureStart n w h m = (TerrainCode.MW_NO_ERROR,
      createBaseMaterialTexture n true (sizeAtlas true w).swatchesPerRow
        { m with swatchListSize := (sizeAtlas true w).swatchListSize }) := by
  unfold textureStart
  rw [hr]

theorem textureStart_code (n w h : Int) (m : Model) :
    (textureStart n w h m).1 = readTerrainPNG 0 w h := by
  unfold textureStart
  cases readTerrainPNG 0 w h <;> rfl

/-- The atlas that `SaveVolume` sizes for each width that `readTerrainPNG` accepts. -/
theorem sizeAtlas_table (w : Int) (h : foundPower w = true) :
    ∃ k : Nat, (sizeAtlas true w).swatchesPerRow = (k : Int) ∧
      (sizeAtlas true w).swatchListSize = (k : Int) * k ∧
      ((w = 16 ∧ k = 10) ∨ (w = 32 ∧ k = 16) ∨ (w = 64 ∧ k = 21) ∨ (w = 128 ∧ k = 25) ∨
        (w = 256 ∧ k = 28) ∨ (w = 512 ∧ k = 30) ∨ (1024 ≤ w ∧ k = 31)) := by
  rw [foundPower_iff] at h
  rcases h with h | h | h | h | h | h | h | h | h | h | h | h <;> subst h
  · exact ⟨10, by decide, by decide, by decide⟩
  · exact ⟨16, by decide, by decide, by decide⟩
  · exact ⟨21, by decide, by decide, by decide⟩
  · exact ⟨25, by decide, by decide, by decide⟩
  · exact ⟨28, by decide, by decide, by decide⟩
  · exact ⟨30, by decide, by decide, by decide⟩
  · exact ⟨31, by decide, by decide, by decide⟩
  · exact ⟨31, by decide, by decide, by decide⟩
  · exact ⟨31, by decide, by decide, by decide⟩
  · exact ⟨31, by decide, by decide, by decide⟩
  · exact ⟨31, by decide, by decide, by decide⟩
  · exact ⟨31, by decide, by decide, by decide⟩

theorem countCell_fold (s : ExportState) (l : List IPoint) : ∀ a : IBox × Int,
    (l.foldl (countCell s) a).2 =
      a.2 + (l.countP fun p => decide ((s.gBoxData p).type ≠ BLOCK_AIR)) ∧
    ((l.foldl (countCell s) a).1.min.x ≤ (l.foldl (countCell s) a).1.max.x ∨
      (l.countP fun p => decide ((s.gBoxData p).type ≠ BLOCK_AIR)) = 0) ∧
    (a.1.min.x ≤ a.1.max.x → (l.foldl (countCell s) a).1.min.x ≤ (l.foldl (countCell s) a).1.max.x) := by
  induction l with
  | nil => intro a; simp
  | cons p l ih =>
    intro a
    rw [List.foldl_cons]
    obtain ⟨h1, h2, h3⟩ := ih (countCell s a p)
    by_cases hp : (s.gBoxData p).type > BLOCK_AIR
    · have e : countCell s a p = (addBounds p a.1, a.2 + 1) := by
        unfold countCell
        rw [if_pos hp]
      have hne : (s.gBoxData p).type ≠ BLOCK_AIR := by omega
      have hb : (addBounds p a.1).min.x ≤ (addBounds p a.1).max.x := by
        unfold addBounds
        simp only []
        split <;> split <;> omega
      rw [e] at h1 h3 ⊢
      refine ⟨?_, Or.inl (h3 hb), fun _ => h3 hb⟩
      rw [h1, List.countP_cons]
      simp only [hne, ne_eq, not_false_eq_true, decide_True, if_true]
      push_cast
      omega
    · have e : countCell s a p = a := by
        unfold countCell
        rw [if_neg hp]
      have hne : ¬ (s.gBoxData p).type ≠ BLOCK_AIR := by
        unfold BLOCK_AIR at hp ⊢
        omega
      rw [e] at h1 h2 h3 ⊢
      have hc : List.countP (fun p => decide ((s.gBoxData p).type ≠ BLOCK_AIR)) (p :: l) =
          List.countP (fun p => decide ((s.gBoxData p).type ≠ BLOCK_AIR)) l := by
        rw [List.countP_cons]
        simp only [hne, decide_False, Bool.false_eq_true, if_false, add_zero]
      rw [hc]
      exact ⟨h1, h2, h3⟩

/-- The function `getDimensionsAndCount` returns the number of cells of the air box
that are not air. -/
theorem getDimensionsAndCount_eq (s : ExportState) (bb : Billboards) :
    getDimensionsAndCount s bb = nonAirCount s := by
  unfold getDimensionsAndCount nonAirCount
  obtain ⟨h1, h2, _⟩ := countCell_fold s (boxCells s.gAirBox) (emptyBounds, 0)
  simp only [] at h1 h2 ⊢
  rw [h1]
  simp only [zero_add]
  have hB : ((boxCells s.gAirBox).foldl (countCell s) (emptyBounds, 0)).1.min.x ≤
      ((boxCells s.gAirBox).foldl (countCell s) (emptyBounds, 0)).1.max.x →
      ¬ (if bb.gExportBillboards = true then addBoundsToBounds bb.billboardBounds
          ((boxCells s.gAirBox).foldl (countCell s) (emptyBounds, 0)).1
        else ((boxCells s.gAirBox).foldl (countCell s) (emptyBounds, 0)).1).min.x >
        (if bb.gExportBillboards = true then addBoundsToBounds bb.billboardBounds
          ((boxCells s.gAirBox).foldl (countCell s) (emptyBounds, 0)).1
        else ((boxCells s.gAirBox).foldl (countCell s) (emptyBounds, 0)).1).max.x := by
    intro h
    by_cases hb : bb.gExportBillboards = true
    · rw [if_pos hb]
      unfold addBoundsToBounds
      simp only []
      split <;> split <;> omega
    · rw [if_neg hb]
      omega
  rcases h2 with h2 | h2
  · rw [if_neg (hB h2)]
  · rw [h2]
    simp

theorem countP_clear {l : List IPoint} (hl : l.Nodup) {p : IPoint} (hp : p ∈ l)
    {f g : IPoint → Bool} (hf : f p = true) (hg : g p = false) (h : ∀ q, q ≠ p → g q = f q) :
    l.countP g + 1 = l.countP f := by
  induction l with
  | nil => simp at hp
  | cons x l ih =>
    rw [List.nodup_cons] at hl
    by_cases hx : x = p
    · subst hx
      rw [List.countP_cons, List.countP_cons]
      simp only [hf, hg, if_true, Bool.false_eq_true, if_false, add_zero]
      have : l.countP g = l.countP f := by
        apply List.countP_congr
        intro q hq
        rw [h q (fun e => hl.1 (e ▸ hq))]
      rw [this]
    · have hp' : p ∈ l := by
        rcases List.mem_cons.1 hp with e | e
        · exact absurd e.symm hx
        · exact e
      have ih' := ih hl.2 hp'
      rw [List.countP_cons, List.countP_cons, h x hx]
      omega

theorem countP_same {l : List IPoint} {f g : IPoint → Bool} (h : ∀ q ∈ l, g q = f q) :
    l.countP g = l.countP f := by
  apply List.countP_congr
  intro q hq
  rw [h q hq]

/-- Setting a cell of the air box that is not air to air takes one off the number of
cells that are not air. -/
theorem nonAirCount_clear (s t : ExportState) (p : IPoint) (hbox : t.gAirBox = s.gAirBox)
    (hp : s.gAirBox.contains p = true) (h1 : (s.gBoxData p).type ≠ BLOCK_AIR)
    (h2 : (t.gBoxData p).type = BLOCK_AIR)
    (h3 : ∀ q, q ≠ p → (t.gBoxData q).type = (s.gBoxData q).type) :
    nonAirCount t + 1 = nonAirCount s := by
  unfold nonAirCount
  rw [hbox]
  have := countP_clear (nodup_boxCells s.gAirBox) (mem_boxCells.2 hp)
    (f := fun q => decide ((s.gBoxData q).type ≠ BLOCK_AIR))
    (g := fun q => decide ((t.gBoxData q).type ≠ BLOCK_AIR))
    (by simpa using h1) (by simpa using h2) (fun q hq => by simp only [h3 q hq])
  omega

theorem nonAirCount_congr (s t : ExportState) (hbox : t.gAirBox = s.gAirBox)
    (h : ∀ q, (t.gBoxData q).type = (s.gBoxData q).type) : nonAirCount t = nonAirCount s := by
  unfold nonAirCount
  rw [hbox]
  congr 1
  apply countP_same
  intro q _
  simp only [h q]

theorem bordered_contains {s : ExportState} (hb : Bordered s) {p : IPoint}
    (hp : (s.gBoxData p).type ≠ BLOCK_AIR) : s.gAirBox.contains p = true := by
  have := hb p hp
  rw [contains_iff]
  omega

/-- Deleting a cell that is not air keeps the block count in step with the number of
cells that are not air. -/
theorem hollowDelete_count (h : Hollowing) (p : IPoint) (hb : Bordered h.s)
    (hp : (h.s.gBoxData p).type ≠ BLOCK_AIR) :
    Bordered (hollowDelete h p).s ∧
    (hollowDelete h p).gBlockCount - nonAirCount (hollowDelete h p).s =
      h.gBlockCount - nonAirCount h.s ∧
    ∀ q, q ≠ p → (hollowDelete h p).s.gBoxData q = h.s.gBoxData q := by
  have hother : ∀ q, q ≠ p → (hollowDelete h p).s.gBoxData q = h.s.gBoxData q := by
    intro q hq
    simp [hollowDelete, setCell, hq]
  have hself : ((hollowDelete h p).s.gBoxData p).type = BLOCK_AIR := by
    simp [hollowDelete, setCell]
  have hc := nonAirCount_clear h.s (hollowDelete h p).s p rfl (bordered_contains hb hp) hp hself
    (fun q hq => by rw [hother q hq])
  refine ⟨?_, ?_, hother⟩
  · intro q hq
    have hne : q ≠ p := fun e => hq (e ▸ hself)
    rw [hother q hne] at hq
    exact hb q hq
  · have : (hollowDelete h p).gBlockCount = h.gBlockCount - 1 := rfl
    omega

theorem hollowDelete_count_fold (l : List IPoint) : ∀ h : Hollowing, Bordered h.s → l.Nodup →
    (∀ p ∈ l, (h.s.gBoxData p).type ≠ BLOCK_AIR) →
    Bordered (l.foldl hollowDelete h).s ∧
    (l.foldl hollowDelete h).gBlockCount - nonAirCount (l.foldl hollowDelete h).s =
      h.gBlockCount - nonAirCount h.s := by
  induction l with
  | nil => intro h hb _ _; exact ⟨hb, rfl⟩
  | cons p l ih =>
    intro h hb hl hs
    rw [List.nodup_cons] at hl
    rw [List.foldl_cons]
    obtain ⟨b1, b2, b3⟩ := hollowDelete_count h p hb (hs p (List.mem_cons_self _ _))
    obtain ⟨c1, c2⟩ := ih (hollowDelete h p) b1 hl.2 (fun q hq => by
      rw [b3 q (fun e => hl.1 (e ▸ hq))]
      exact hs q (List.mem_cons_of_mem _ hq))
    exact ⟨c1, c2.trans b2⟩

theorem nodup_hollowColumns (s : ExportState) (T : Int) : (hollowColumns s T).Nodup := by
  unfold hollowColumns
  rw [List.nodup_flatMap]
  refine ⟨fun x _ => ?_, ?_⟩
  · refine (nodup_intRange _ _).map ?_
    intro a c h
    simpa using h
  · refine (nodup_intRange _ _).pairwise_of_forall_ne ?_
    intro x1 _ x2 _ hne
    simp only [Function.onFun, List.disjoint_left, List.mem_map]
    rintro p ⟨z1, _, rfl⟩ ⟨z2, _, h⟩
    simp at h
    exact hne h.1.symm

theorem hollowCell_list (T y : Int) (a : Hollowing × List IPoint) (xz : Int × Int) :
    ((hollowCell T y a xz).2 = a.2 ∨ (hollowCell T y a xz).2 = a.2 ++ [⟨xz.1, y, xz.2⟩]) ∧
    (hollowCell T y a xz).1.gBlockCount = a.1.gBlockCount := by
  unfold hollowCell
  simp only []
  repeat' split
  all_goals first
    | exact ⟨Or.inl rfl, rfl⟩
    | exact ⟨Or.inr rfl, rfl⟩

theorem hollowScan_nodup (T y : Int) (g : Hollowing) :
    (hollowScan T y g).2.Nodup ∧ (hollowScan T y g).1.gBlockCount = g.gBlockCount := by
  unfold hollowScan
  have key := foldl_prefix_inv (hollowCell T y)
    (fun pre (a : Hollowing × List IPoint) =>
      List.Sublist a.2 (pre.map fun xz => (⟨xz.1, y, xz.2⟩ : IPoint)) ∧
        a.1.gBlockCount = g.gBlockCount)
    (hollowColumns g.s T) (g, []) ⟨by simp, rfl⟩ ?_
  · refine ⟨key.1.nodup ?_, key.2⟩
    refine (nodup_hollowColumns g.s T).map ?_
    intro a c h
    simp only [IPoint.mk.injEq] at h
    exact Prod.ext h.1 h.2.2
  · intro pre x post a _ ⟨h1, h2⟩
    obtain ⟨k1, k2⟩ := hollowCell_list T y a x
    refine ⟨?_, k2.trans h2⟩
    rw [List.map_append]
    rcases k1 with e | e
    · rw [e]
      exact h1.trans (List.sublist_append_left _ _)
    · rw [e]
      exact List.Sublist.append h1 (List.Sublist.refl _)

theorem hollowLayer_count (T y : Int) (g : Hollowing) (hb : Bordered g.s) :
    (hollowLayer T y g).gBlockCount - nonAirCount (hollowLayer T y g).s =
      g.gBlockCount - nonAirCount g.s := by
  obtain ⟨s1, s2, s3, s4⟩ := hollowScan_spec T y g
  obtain ⟨n1, n2⟩ := hollowScan_nodup T y g
  unfold hollowLayer
  simp only []
  have hb1 : Bordered ({ (hollowScan T y g).1 with
      listFound := ((hollowScan T y g).2.length : Int) } : Hollowing).s := by
    intro q hq
    show (hollowScan T y g).1.s.gAirBox.min.x < q.x ∧ _
    rw [s1]
    apply hb
    rw [← s3 q]
    exact hq
  obtain ⟨c1, c2⟩ := hollowDelete_count_fold (hollowScan T y g).2.reverse
    { (hollowScan T y g).1 with listFound := ((hollowScan T y g).2.length : Int) } hb1
    (List.nodup_reverse.2 n1) (fun p hp => by
      show ((hollowScan T y g).1.s.gBoxData p).type ≠ BLOCK_AIR
      rw [s3 p]
      exact (hollowTest_spec g.s p (s4 p (List.mem_reverse.1 hp)).2.1).2.1)
  rw [c2]
  show (hollowScan T y g).1.gBlockCount - nonAirCount (hollowScan T y g).1.s = _
  rw [n2, nonAirCount_congr g.s (hollowScan T y g).1.s s1 s3]

theorem hollowSweep_count (T : Int) (ys : List Int) : ∀ g : Hollowing, Bordered g.s →
    Bordered (hollowSweep T ys g).s ∧
    (hollowSweep T ys g).gBlockCount - nonAirCount (hollowSweep T ys g).s =
      g.gBlockCount - nonAirCount g.s := by
  induction ys with
  | nil => intro g hb; exact ⟨hb, rfl⟩
  | cons y ys ih =>
    intro g hb
    by_cases hf : g.listFound ≠ 0
    · have hstep : hollowSweep T (y :: ys) g = hollowSweep T ys (hollowLayer T y g) := by
        simp only [hollowSweep, hf, ne_eq, not_false_eq_true, if_true]
      rw [hstep]
      obtain ⟨c1, c2⟩ := ih (hollowLayer T y g) (hollowLayer_bordered T y g hb)
      exact ⟨c1, c2.trans (hollowLayer_count T y g hb)⟩
    · rw [hollowSweep_stopped T _ g (by simpa using hf)]
      exact ⟨hb, rfl⟩

theorem hollowBottomOfModel_count (T : Int) (h : Hollowing) (hb : Bordered h.s) :
    Bordered (hollowBottomOfModel T h).s ∧
    (hollowBottomOfModel T h).gBlockCount - nonAirCount (hollowBottomOfModel T h).s =
      h.gBlockCount - nonAirCount h.s := by
  unfold hollowBottomOfModel
  exact hollowSweep_count T _ { h with hollowDone := fun _ => 0, listFound := 1 } hb

/-- Setting a cell that is not air to air, in a grid whose blocks lie inside the air
box, takes one off the number of cells that are not air. -/
theorem setCell_air_count (s t : ExportState) (p : IPoint) (c : BoxCell) (hb : Bordered s)
    (hp : (s.gBoxData p).type ≠ BLOCK_AIR) (hc : c.type = BLOCK_AIR)
    (hd : t.gBoxData = setCell s.gBoxData p c) (hbox : t.gAirBox = s.gAirBox) :
    Bordered t ∧ nonAirCount t + 1 = nonAirCount s := by
  have hother : ∀ q, q ≠ p → t.gBoxData q = s.gBoxData q := by
    intro q hq
    rw [hd, setCell_other _ _ hq]
  have hself : (t.gBoxData p).type = BLOCK_AIR := by
    rw [hd, setCell_same]
    exact hc
  refine ⟨?_, nonAirCount_clear s t p hbox (bordered_contains hb hp) hp hself
    (fun q hq => by rw [hother q hq])⟩
  intro q hq
  have hne : q ≠ p := fun e => hq (e ▸ hself)
  rw [hother q hne] at hq
  rw [hbox]
  exact hb q hq

theorem hollowSeed_count (T : Int) (h : Hollowing) (x y z : Int) (st : List IPoint)
    (hb : Bordered h.s) :
    Bordered (hollowSeed T h x y z st).1.s ∧
    (hollowSeed T h x y z st).1.gBlockCount - nonAirCount (hollowSeed T h x y z st).1.s =
      h.gBlockCount - nonAirCount h.s := by
  unfold hollowSeed
  simp only []
  generalize (⟨x, y, z⟩ : IPoint) = p
  split
  · rename_i hc
    split
    · obtain ⟨b1, b2⟩ := setCell_air_count h.s
        { h.s with
          gBoxData := setCell h.s.gBoxData p
            { h.s.gBoxData p with type := BLOCK_AIR, group := HOLLOW_AIR_GROUP } }
        p _ hb hc.1 rfl rfl rfl
      refine ⟨b1, ?_⟩
      simp only [] at b2 ⊢
      omega
    · exact ⟨hb, rfl⟩
  · exact ⟨hb, rfl⟩

theorem hollowSeedLoop_count (T : Int) (fuel : Nat) : ∀ (h : Hollowing) (st : List IPoint),
    Bordered h.s →
    Bordered (hollowSeedLoop T fuel h st).s ∧
    (hollowSeedLoop T fuel h st).gBlockCount - nonAirCount (hollowSeedLoop T fuel h st).s =
      h.gBlockCount - nonAirCount h.s := by
  induction fuel with
  | zero => intro h st hb; exact ⟨hb, rfl⟩
  | succ n ih =>
    intro h st hb
    cases st with
    | nil => exact ⟨hb, rfl⟩
    | cons p st =>
      simp only [hollowSeedLoop]
      obtain ⟨b1, b2⟩ := hollowSeed_count T h p.x p.y p.z st hb
      obtain ⟨c1, c2⟩ := ih _ (hollowSeed T h p.x p.y p.z st).2 b1
      exact ⟨c1, c2.trans b2⟩

theorem superHollowColumn_count (T : Int) (fuel : Nat) (x z : Int) (h : Hollowing)
    (ys : List Int) (hb : Bordered h.s) :
    Bordered (superHollowColumn T fuel x z h ys).s ∧
    (superHollowColumn T fuel x z h ys).gBlockCount -
        nonAirCount (superHollowColumn T fuel x z h ys).s =
      h.gBlockCount - nonAirCount h.s := by
  unfold superHollowColumn
  apply foldl_inv
    (fun g : Hollowing => Bordered g.s ∧
      g.gBlockCount - nonAirCount g.s = h.gBlockCount - nonAirCount h.s)
  · exact ⟨hb, rfl⟩
  · intro g y _ ⟨g1, g2⟩
    obtain ⟨b1, b2⟩ := hollowSeed_count T g x y z [] g1
    obtain ⟨c1, c2⟩ := hollowSeedLoop_count T fuel _ (hollowSeed T g x y z []).2 b1
    exact ⟨c1, c2.trans (b2.trans g2)⟩

theorem superHollowCell_count (T : Int) (fuel : Nat) (h : Hollowing) (xz : Int × Int)
    (hb : Bordered h.s) :
    Bordered (superHollowCell T fuel h xz).s ∧
    (superHollowCell T fuel h xz).gBlockCount - nonAirCount (superHollowCell T fuel h xz).s =
      h.gBlockCount - nonAirCount h.s := by
  unfold superHollowCell
  simp only []
  split
  · exact superHollowColumn_count T fuel xz.1 xz.2 h _ hb
  · exact ⟨hb, rfl⟩

theorem hollowAll_count (o : HollowOptions) (T : Int) (fuel : Nat) (h : Hollowing)
    (hb : Bordered h.s) :
    Bordered (hollowAll o T fuel h).s ∧
    (hollowAll o T fuel h).gBlockCount - nonAirCount (hollowAll o T fuel h).s =
      h.gBlockCount - nonAirCount h.s := by
  obtain ⟨a1, a2⟩ := hollowBottomOfModel_count T h hb
  unfold hollowAll
  simp only []
  split
  · apply foldl_inv
      (fun g : Hollowing => Bordered g.s ∧
        g.gBlockCount - nonAirCount g.s = h.gBlockCount - nonAirCount h.s)
    · exact ⟨a1, a2⟩
    · intro g xz _ ⟨g1, g2⟩
      obtain ⟨b1, b2⟩ := superHollowCell_count T fuel g xz g1
      exact ⟨b1, b2.trans g2⟩
  · exact ⟨a1, a2⟩

/-- After the count and the hollowing, whatever the options, the block count is the
number of cells of the air box that are not air. -/
theorem countAndHollow_count (o : HollowOptions) (bb : Billboards) (T : Int) (fuel : Nat)
    (h g : Hollowing) (hb : Bordered h.s) (hg : countAndHollow o bb T fuel h = some g) :
    Bordered g.s ∧ g.gBlockCount = nonAirCount g.s := by
  unfold countAndHollow at hg
  simp only [] at hg
  split at hg
  · cases hg
  · have hg' := Option.some.inj hg
    have h0 : ({ h with gBlockCount := getDimensionsAndCount h.s bb } : Hollowing).gBlockCount -
        nonAirCount ({ h with gBlockCount := getDimensionsAndCount h.s bb } : Hollowing).s = 0 := by
      show getDimensionsAndCount h.s bb - nonAirCount h.s = 0
      rw [getDimensionsAndCount_eq]
      omega
    by_cases ho : o.EXPT_HOLLOW_BOTTOM = true
    · rw [if_pos ho] at hg'
      obtain ⟨a1, a2⟩ := hollowAll_count o T fuel
        { h with gBlockCount := getDimensionsAndCount h.s bb } hb
      rw [hg'] at a1 a2
      exact ⟨a1, by omega⟩
    · rw [if_neg ho] at hg'
      rw [← hg']
      exact ⟨hb, by omega⟩

theorem meltSnowCell_count (snow : Nat) (hsnow : snow ≠ BLOCK_AIR) (h : Hollowing) (p : IPoint)
    (hb : Bordered h.s) :
    Bordered (meltSnowCell snow h p).s ∧
    (meltSnowCell snow h p).gBlockCount = h.gBlockCount ∧
    (meltSnowCell snow h p).s.gAirBox = h.s.gAirBox ∧
    (meltSnowCell snow h p).s.gSolidBox = h.s.gSolidBox ∧
    (∀ q, q ≠ p → (meltSnowCell snow h p).s.gBoxData q = h.s.gBoxData q) ∧
    nonAirCount (meltSnowCell snow h p).s + (meltSnowCell snow h p).blocksHollowed =
      nonAirCount h.s + h.blocksHollowed ∧
    (meltSnowCell snow h p).blocksHollowed =
      h.blocksHollowed + (if (h.s.gBoxData p).type = snow then 1 else 0) := by
  unfold meltSnowCell
  split
  · rename_i hc
    have hne : (h.s.gBoxData p).type ≠ BLOCK_AIR := by rw [hc]; exact hsnow
    obtain ⟨b1, b2⟩ := setCell_air_count h.s
      { h.s with
        gBoxData := setCell h.s.gBoxData p
          { h.s.gBoxData p with type := BLOCK_AIR, group := SURROUND_AIR_GROUP } }
      p _ hb hne rfl rfl rfl
    refine ⟨b1, rfl, rfl, rfl, fun q hq => setCell_other _ _ hq, ?_, rfl⟩
    simp only [] at b2 ⊢
    omega
  · exact ⟨hb, rfl, rfl, rfl, fun _ _ => rfl, rfl, by omega⟩

/-- The function `meltSnow` keeps the block count, and takes every snow block of the
solid box off the cells that are not air: their number is added to
`blocksHollowed`. -/
theorem meltSnow_count (snow : Nat) (hsnow : snow ≠ BLOCK_AIR) (h : Hollowing)
    (hb : Bordered h.s) :
    Bordered (meltSnow snow h).s ∧
    (meltSnow snow h).gBlockCount = h.gBlockCount ∧
    nonAirCount (meltSnow snow h).s + blockCount h.s snow = nonAirCount h.s ∧
    (meltSnow snow h).blocksHollowed = h.blocksHollowed + blockCount h.s snow := by
  unfold meltSnow blockCount
  have key := foldl_prefix_inv (meltSnowCell snow)
    (fun pre (g : Hollowing) =>
      Bordered g.s ∧ g.gBlockCount = h.gBlockCount ∧
      (∀ q, q ∉ pre → g.s.gBoxData q = h.s.gBoxData q) ∧
      nonAirCount g.s + g.blocksHollowed = nonAirCount h.s + h.blocksHollowed ∧
      g.blocksHollowed =
        h.blocksHollowed + (pre.countP fun p => decide ((h.s.gBoxData p).type = snow)))
    (boxCells h.s.gSolidBox) h ⟨hb, rfl, fun _ _ => rfl, rfl, by simp⟩ ?_
  · obtain ⟨k1, k2, _, k4, k5⟩ := key
    refine ⟨k1, k2, ?_, k5⟩
    omega
  · intro pre x post g hl ⟨g1, g2, g3, g4, g5⟩
    have hnd := nodup_boxCells h.s.gSolidBox
    rw [hl] at hnd
    have hx : x ∉ pre := by
      intro hx
      have := List.nodup_append.1 hnd
      exact this.2.2 hx (List.mem_cons_self _ _)
    obtain ⟨m1, m2, _, _, m5, m6, m7⟩ := meltSnowCell_count snow hsnow g x g1
    refine ⟨m1, m2.trans g2, ?_, m6.trans g4, ?_⟩
    · intro q hq
      rw [List.mem_append, List.mem_singleton] at hq
      rw [m5 q (fun e => hq (Or.inr e)), g3 q (fun e => hq (Or.inl e))]
    · rw [m7, g5, g3 x hx, List.countP_append]
      simp only [List.countP_cons, List.countP_nil, zero_add]
      by_cases hs : (h.s.gBoxData x).type = snow
      · simp only [hs, if_true, decide_True]
        push_cast
        omega
      · simp only [hs, if_false, decide_False, Bool.false_eq_true]
        push_cast
        omega

/-- The failing run of `determineScaleAndHollowAndMelt` and the general rule behind
it. -/
theorem determineScaleAndHollowAndMelt_cases (rc : ReturnCodes) (o : HollowOptions)
    (bb : Billboards) (snow : Nat) (T : Int) (fuel : Nat) (h : Hollowing) (hb : Bordered h.s)
    (hsnow : snow ≠ BLOCK_AIR) :
    (o.chkMeltSnow = false →
      (determineScaleAndHollowAndMelt rc o bb snow T fuel h).2.gBlockCount =
        nonAirCount (determineScaleAndHollowAndMelt rc o bb snow T fuel h).2.s) ∧
    (∀ g, countAndHollow o bb T fuel h = some g → o.chkMeltSnow = true →
      (determineScaleAndHollowAndMelt rc o bb snow T fuel h).2.gBlockCount =
        nonAirCount (determineScaleAndHollowAndMelt rc o bb snow T fuel h).2.s +
          blockCount g.s snow) := by
  constructor
  · intro hm
    unfold determineScaleAndHollowAndMelt
    cases hc : countAndHollow o bb T fuel h with
    | none =>
      show getDimensionsAndCount h.s bb = nonAirCount h.s
      exact getDimensionsAndCount_eq h.s bb
    | some g =>
      simp only [hm, Bool.false_eq_true, if_false]
      exact (countAndHollow_count o bb T fuel h g hb hc).2
  · intro g hc hm
    unfold determineScaleAndHollowAndMelt
    rw [hc]
    simp only [hm, if_true]
    obtain ⟨g1, g2⟩ := countAndHollow_count o bb T fuel h g hb hc
    obtain ⟨m1, m2, m3, _⟩ := meltSnow_count snow hsnow g g1
    rw [m2, g2]
    omega

theorem snowCapped_bordered : Bordered snowCapped := by
  intro q hq
  have hq' : (if q = ⟨1, 1, 1⟩ then stoneCell
      else if q = ⟨1, 2, 1⟩ then ⟨80, 80, 0, 0, NO_GROUP_SET⟩ else airCell).type ≠ BLOCK_AIR := hq
  show (0 : Int) < q.x ∧ q.x < 2 ∧ (0 : Int) < q.y ∧ q.y < 3 ∧ (0 : Int) < q.z ∧ q.z < 2
  split at hq'
  · rename_i h
    subst h
    decide
  · split at hq'
    · rename_i h
      subst h
      decide
    · exact absurd rfl hq'

theorem flatOnto_refl (S : IPoint) (s : ExportState) : FlatOnto S s s := by
  intro N
  refine ⟨0, by simp, ?_⟩
  intro d _ h
  simp at h

theorem flatFaceFlag_inj : ∀ d0 < 6, ∀ d < 6, flatFaceFlag d0 &&& flatFaceFlag d ≠ 0 → d = d0 := by
  decide

theorem or_and_ne_zero {a b c : Nat} (h : (a ||| b) &&& c ≠ 0) : a &&& c ≠ 0 ∨ b &&& c ≠ 0 := by
  rw [Nat.and_distrib_right] at h
  by_contra hc
  push_neg at hc
  rw [hc.1, hc.2] at h
  exact h rfl

theorem flatOnto_orFlat {S : IPoint} {s t : ExportState} (d0 : Nat) (hd0 : d0 < 6) (p : IPoint)
    (hp : getNeighborUnsafe d0 p = S) (h : FlatOnto S s t) :
    FlatOnto S s (orFlat t p (flatFaceFlag d0)) := by
  intro N
  obtain ⟨m, h1, h2⟩ := h N
  by_cases hN : N = p
  · subst hN
    refine ⟨m ||| flatFaceFlag d0, ?_, ?_⟩
    · show (setCell t.gBoxData N _ N).flatFlags = _
      rw [setCell_same]
      show (t.gBoxData N).flatFlags ||| flatFaceFlag d0 = _
      rw [h1, Nat.or_assoc]
    · intro d hd hm
      rcases or_and_ne_zero hm with hm | hm
      · exact h2 d hd hm
      · rw [flatFaceFlag_inj d0 hd0 d hd hm]
        exact hp
  · refine ⟨m, ?_, h2⟩
    show (setCell t.gBoxData p _ N).flatFlags = _
    rw [setCell_other _ _ hN]
    exact h1

theorem flatOnto_orData {S : IPoint} {s t : ExportState} (p : IPoint) (bit : Nat)
    (h : FlatOnto S s t) : FlatOnto S s (orData t p bit) := by
  intro N
  obtain ⟨m, h1, h2⟩ := h N
  refine ⟨m, ?_, h2⟩
  show (setCell t.gBoxData p _ N).flatFlags = _
  by_cases hN : N = p
  · subst hN
    rw [setCell_same]
    exact h1
  · rw [setCell_other _ _ hN]
    exact h1

theorem flatOnto_above {S : IPoint} {s t : ExportState} (h : FlatOnto S s t) :
    FlatOnto S s (orFlat t (S.offset 0 (-1) 0) FLAT_FACE_ABOVE) :=
  flatOnto_orFlat 4 (by decide) _ (by simp [getNeighborUnsafe, IPoint.offset]) h

theorem flatOnto_below {S : IPoint} {s t : ExportState} (h : FlatOnto S s t) :
    FlatOnto S s (orFlat t (S.offset 0 1 0) FLAT_FACE_BELOW) :=
  flatOnto_orFlat 1 (by decide) _ (by simp [getNeighborUnsafe, IPoint.offset]) h

theorem flatOnto_lo_x {S : IPoint} {s t : ExportState} (h : FlatOnto S s t) :
    FlatOnto S s (orFlat t (S.offset 1 0 0) FLAT_FACE_LO_X) :=
  flatOnto_orFlat 0 (by decide) _ (by simp [getNeighborUnsafe, IPoint.offset]) h

theorem flatOnto_hi_x {S : IPoint} {s t : ExportState} (h : FlatOnto S s t) :
    FlatOnto S s (orFlat t (S.offset (-1) 0 0) FLAT_FACE_HI_X) :=
  flatOnto_orFlat 3 (by decide) _ (by simp [getNeighborUnsafe, IPoint.offset]) h

theorem flatOnto_lo_z {S : IPoint} {s t : ExportState} (h : FlatOnto S s t) :
    FlatOnto S s (orFlat t (S.offset 0 0 1) FLAT_FACE_LO_Z) :=
  flatOnto_orFlat 2 (by decide) _ (by simp [getNeighborUnsafe, IPoint.offset]) h

theorem flatOnto_hi_z {S : IPoint} {s t : ExportState} (h : FlatOnto S s t) :
    FlatOnto S s (orFlat t (S.offset 0 0 (-1)) FLAT_FACE_HI_Z) :=
  flatOnto_orFlat 5 (by decide) _ (by simp [getNeighborUnsafe, IPoint.offset]) h

theorem flatOnto_rail {S : IPoint} {s t : ExportState} (h : FlatOnto S s t) :
    FlatOnto S s (flatRail t S) := by
  unfold flatRail
  simp only []
  apply flatOnto_above
  split_ifs
  · exact flatOnto_lo_x h
  · exact flatOnto_hi_x h
  · exact flatOnto_hi_z h
  · exact flatOnto_lo_z h
  · exact h

theorem flatOnto_torch {S : IPoint} {s t : ExportState} (h : FlatOnto S s t) :
    FlatOnto S s (flatTorch t S) := by
  unfold flatTorch
  simp only []
  split_ifs
  · exact flatOnto_hi_x h
  · exact flatOnto_lo_x h
  · exact flatOnto_hi_z h
  · exact flatOnto_lo_z h
  · exact flatOnto_above h
  · exact h

theorem flatOnto_wireLevel (fb : FlatBlocks) {S : IPoint} {s t : ExportState} (dx dz : Int)
    (near far : Nat) (h : FlatOnto S s t) : FlatOnto S s (wireLevel fb S dx dz near far t) := by
  unfold wireLevel
  simp only []
  split_ifs
  · exact flatOnto_orData _ _ (flatOnto_orData _ _ h)
  · exact flatOnto_orData _ _ h
  · exact h

theorem flatOnto_wireCatch (fb : FlatBlocks) {S : IPoint} {s t : ExportState} (dx dz : Int)
    (bit : Nat) (h : FlatOnto S s t) : FlatOnto S s (wireCatch fb S dx dz bit t) := by
  unfold wireCatch
  split
  · exact flatOnto_orData _ _ h
  · exact h

theorem flatOnto_wireUps (fb : FlatBlocks) {S : IPoint} {s t : ExportState}
    (h : FlatOnto S s t) : FlatOnto S s (wireUps fb S t) := by
  have hup1 : ∀ u, FlatOnto S s u → FlatOnto S s (wireUp fb S 1 0 FLAT_FACE_LO_X FLAT_FACE_HI_X u) := by
    intro u hu
    unfold wireUp
    simp only []
    split
    · exact flatOnto_orData _ _ (flatOnto_orData _ _ (flatOnto_lo_x hu))
    · exact hu
  have hup2 : ∀ u, FlatOnto S s u →
      FlatOnto S s (wireUp fb S (-1) 0 FLAT_FACE_HI_X FLAT_FACE_LO_X u) := by
    intro u hu
    unfold wireUp
    simp only []
    split
    · exact flatOnto_orData _ _ (flatOnto_orData _ _ (flatOnto_hi_x hu))
    · exact hu
  have hup3 : ∀ u, FlatOnto S s u → FlatOnto S s (wireUp fb S 0 1 FLAT_FACE_LO_Z FLAT_FACE_HI_Z u) := by
    intro u hu
    unfold wireUp
    simp only []
    split
    · exact flatOnto_orData _ _ (flatOnto_orData _ _ (flatOnto_lo_z hu))
    · exact hu
  have hup4 : ∀ u, FlatOnto S s u →
      FlatOnto S s (wireUp fb S 0 (-1) FLAT_FACE_HI_Z FLAT_FACE_LO_Z u) := by
    intro u hu
    unfold wireUp
    simp only []
    split
    · exact flatOnto_orData _ _ (flatOnto_orData _ _ (flatOnto_hi_z hu))
    · exact hu
  unfold wireUps
  simp only []
  split
  · exact hup4 _ (hup3 _ (hup2 _ (hup1 _ h)))
  · exact h

theorem flatOnto_wire (fb : FlatBlocks) {S : IPoint} {s t : ExportState} (h : FlatOnto S s t) :
    FlatOnto S s (flatWire fb t S) := by
  unfold flatWire
  simp only []
  exact flatOnto_wireCatch fb _ _ _ (flatOnto_wireCatch fb _ _ _
    (flatOnto_wireLevel fb _ _ _ _ (flatOnto_wireLevel fb _ _ _ _
      (flatOnto_wireUps fb (flatOnto_above h)))))

theorem flatOnto_vineSides (fb : FlatBlocks) {S : IPoint} {s : ExportState}
    (l : List (Nat × IPoint × Nat))
    (hl : ∀ e ∈ l, ∀ u, FlatOnto S s u → FlatOnto S s (orFlat u e.2.1 e.2.2)) :
    ∀ t, FlatOnto S s t → FlatOnto S s (flatVineSides fb S l t).2 := by
  induction l with
  | nil => intro t h; exact h
  | cons e l ih =>
    intro t h
    obtain ⟨bit, p, flag⟩ := e
    have ih' := ih (fun e he => hl e (List.mem_cons_of_mem _ he))
    simp only [flatVineSides]
    split_ifs
    · exact ih' _ (hl (bit, p, flag) (List.mem_cons_self _ _) t h)
    · exact h
    · exact ih' _ h

theorem flatOnto_origType {S : IPoint} {s t : ExportState} (p : IPoint) (v : Nat)
    (h : FlatOnto S s t) :
    FlatOnto S s { t with gBoxData := setCell t.gBoxData p { t.gBoxData p with origType := v } } := by
  intro N
  obtain ⟨m, h1, h2⟩ := h N
  refine ⟨m, ?_, h2⟩
  show (setCell t.gBoxData p _ N).flatFlags = _
  by_cases hN : N = p
  · subst hN
    rw [setCell_same]
    exact h1
  · rw [setCell_other _ _ hN]
    exact h1

theorem flatOnto_ladder {S : IPoint} {s : ExportState} : FlatOnto S s (flatLadder s S).2 := by
  have h := flatOnto_refl S s
  unfold flatLadder
  split
  · exact flatOnto_lo_z h
  split
  · exact flatOnto_hi_z h
  split
  · exact flatOnto_lo_x h
  split
  · exact flatOnto_hi_x h
  exact h

theorem flatOnto_lever {S : IPoint} {s : ExportState} : FlatOnto S s (flatLever s S).2 := by
  have h := flatOnto_refl S s
  unfold flatLever
  split
  · exact flatOnto_hi_x h
  split
  · exact flatOnto_lo_x h
  split
  · exact flatOnto_hi_z h
  split
  · exact flatOnto_lo_z h
  split
  · exact flatOnto_above h
  exact h

theorem flatOnto_button {S : IPoint} {s : ExportState} : FlatOnto S s (flatButton s S).2 := by
  have h := flatOnto_refl S s
  unfold flatButton
  split
  · exact flatOnto_lo_z h
  split
  · exact flatOnto_hi_z h
  split
  · exact flatOnto_lo_x h
  split
  · exact flatOnto_hi_x h
  exact h

theorem flatOnto_trapdoor (fb : FlatBlocks) {S : IPoint} {s : ExportState} :
    FlatOnto S s (flatTrapdoor fb s S).2 := by
  have h := flatOnto_refl S s
  unfold flatTrapdoor
  split
  · unfold flatTrapdoorOpen
    split
    · exact flatOnto_lo_z h
    split
    · exact flatOnto_hi_z h
    split
    · exact flatOnto_lo_x h
    split
    · exact flatOnto_hi_x h
    exact h
  split
  · split
    · exact flatOnto_origType _ _ h
    · exact h
  exact flatOnto_above h

theorem flatOnto_vines (fb : FlatBlocks) {S : IPoint} {s : ExportState} :
    FlatOnto S s (flatVines fb s S).2 := by
  have h := flatOnto_refl S s
  unfold flatVines
  split
  · exact h
  split
  · split
    · exact flatOnto_below h
    · exact h
  apply flatOnto_vineSides fb _ _ s h
  intro e he u hu
  simp only [List.mem_cons, List.mem_singleton, List.not_mem_nil, or_false] at he
  rcases he with rfl | rfl | rfl | rfl
  · exact flatOnto_lo_z hu
  · exact flatOnto_hi_x hu
  · exact flatOnto_hi_z hu
  · exact flatOnto_lo_x hu

theorem ite_prop {α : Type} (P : α → Prop) (c : Prop) [Decidable c] (a b : α) (ha : c → P a)
    (hb : ¬ c → P b) : P (if c then a else b) := by
  by_cases h : c
  · rw [if_pos h]; exact ha h
  · rw [if_neg h]; exact hb h

theorem flatOnto_snd {S : IPoint} {s t : ExportState} (c : Int) (h : FlatOnto S s t) :
    FlatOnto S s (c, t).2 := h

theorem computeFlatFlags_onto (fb : FlatBlocks) (s : ExportState) (S : IPoint) :
    FlatOnto S s (computeFlatFlags fb s S).2 := by
  have h := flatOnto_refl S s
  unfold computeFlatFlags
  refine ite_prop (fun r : Int × ExportState => FlatOnto S s r.2) _ _ _
    (fun _ => flatOnto_snd 1 (flatOnto_above h)) (fun _ => ?_)
  refine ite_prop (fun r : Int × ExportState => FlatOnto S s r.2) _ _ _
    (fun _ => flatOnto_snd 1 (flatOnto_rail h)) (fun _ => ?_)
  refine ite_prop (fun r : Int × ExportState => FlatOnto S s r.2) _ _ _
    (fun _ => flatOnto_snd 1 (flatOnto_above h)) (fun _ => ?_)
  refine ite_prop (fun r : Int × ExportState => FlatOnto S s r.2) _ _ _
    (fun _ => flatOnto_snd 1 (flatOnto_torch h)) (fun _ => ?_)
  refine ite_prop (fun r : Int × ExportState => FlatOnto S s r.2) _ _ _
    (fun _ => flatOnto_snd 1 (flatOnto_wire fb h)) (fun _ => ?_)
  refine ite_prop (fun r : Int × ExportState => FlatOnto S s r.2) _ _ _
    (fun _ => flatOnto_ladder) (fun _ => ?_)
  refine ite_prop (fun r : Int × ExportState => FlatOnto S s r.2) _ _ _
    (fun _ => flatOnto_lever) (fun _ => ?_)
  refine ite_prop (fun r : Int × ExportState => FlatOnto S s r.2) _ _ _
    (fun _ => flatOnto_button) (fun _ => ?_)
  refine ite_prop (fun r : Int × ExportState => FlatOnto S s r.2) _ _ _
    (fun _ => flatOnto_trapdoor fb) (fun _ => ?_)
  exact ite_prop (fun r : Int × ExportState => FlatOnto S s r.2) _ _ _
    (fun _ => flatOnto_vines fb) (fun _ => flatOnto_snd 0 h)

theorem faceSource_eq (s : ExportState) (N : IPoint) (d : Nat) (hd : d < 6)
    (h : (s.gBoxData N).flatFlags &&& flatFaceFlag d ≠ 0) :
    faceSource s N d = some (getNeighborUnsafe d N) := by
  have h0 : (s.gBoxData N).flatFlags ≠ 0 := by
    intro e
    rw [e] at h
    exact h (Nat.zero_and _)
  unfold faceSource
  rw [if_pos h0]
  have hd' : d = 0 ∨ d = 1 ∨ d = 2 ∨ d = 3 ∨ d = 4 ∨ d = 5 := by omega
  rcases hd' with rfl | rfl | rfl | rfl | rfl | rfl
  all_goals
    simp only [flatFaceFlag] at h
    simp only [h, ne_eq, not_false_eq_true, if_true, getNeighborUnsafe, IPoint.offset]
    congr 2 <;> omega

theorem checkForCorner_iff (s : ExportState) (b : IPoint) (offx offz : Int) :
    checkForCorner s b offx offz = true ↔
      ((s.gBoxData (b.offset offx (-1) offz)).type ≠ BLOCK_AIR ∧
        (s.gBoxData (b.offset offx (-1) offz)).group ≠ (s.gBoxData b).group ∧
        (s.gBoxData (b.offset 0 0 offz)).type = BLOCK_AIR ∧
        (s.gBoxData (b.offset 0 (-1) 0)).type = BLOCK_AIR ∧
        (s.gBoxData (b.offset 0 (-1) offz)).type = BLOCK_AIR ∧
        (s.gBoxData (b.offset offx 0 0)).type = BLOCK_AIR ∧
        (s.gBoxData (b.offset offx 0 offz)).type = BLOCK_AIR ∧
        (s.gBoxData (b.offset offx (-1) 0)).type = BLOCK_AIR) := by
  have hl : List.range' 1 6 = [1, 2, 3, 4, 5, 6] := by decide
  unfold checkForCorner
  simp only [hl]
  by_cases h : (s.gBoxData (b.offset offx (-1) offz)).type ≠ BLOCK_AIR ∧
      (s.gBoxData (b.offset offx (-1) offz)).group ≠ (s.gBoxData b).group
  · rw [if_pos h]
    simp [List.all_cons, h.1, h.2]
  · rw [if_neg h]
    constructor
    · intro hf
      cases hf
    · intro hf
      exact absurd ⟨hf.1, hf.2.1⟩ h

theorem propagateDirLog_fst (point : IPoint) (g : Nat) (r : ExportState × List IPoint)
    (log : SeedLog) (d : Nat) :
    (propagateDirLog point g (r, log) d).1 = propagateDir point g r d := by
  unfold propagateDirLog propagateDir
  simp only []
  cases getNeighbor r.1.gAirBox d point with
  | none => rfl
  | some q =>
    simp only []
    split <;> rfl

/-- One direction of `propagateSeed` with the record: either nothing happens, or the
neighbour had no group, is absorbed into the group and is pushed, and the
assertion is checked on the new length of the stack. -/
theorem propagateDirLog_cases (point : IPoint) (g : Nat) (s : ExportState) (st : List IPoint)
    (log : SeedLog) (d : Nat) :
    propagateDirLog point g ((s, st), log) d = ((s, st), log) ∨
    ∃ q, getNeighbor s.gAirBox d point = some q ∧ (s.gBoxData q).group = 0 ∧
      (s.gBoxData q).isSolid = (s.gGroupList g).solid ∧
      propagateDirLog point g ((s, st), log) d =
        ((absorb s g q, q :: st),
          ⟨q :: log.pushed,
            log.asserted && decide (((q :: st).length : Int) < gBoxSizeXYZ s)⟩) := by
  unfold propagateDirLog
  cases hn : getNeighbor s.gAirBox d point with
  | none => left; simp [hn]
  | some q =>
    by_cases hc : (s.gBoxData q).group = NO_GROUP_SET ∧ (s.gBoxData q).isSolid = (s.gGroupList g).solid
    · right
      exact ⟨q, rfl, hc.1, hc.2, by simp [hn, hc]⟩
    · left
      simp [hn, hc]

theorem unlabelled_pos {s : ExportState} {q : IPoint} (hq : s.gAirBox.contains q = true)
    (h0 : (s.gBoxData q).group = 0) : 1 ≤ unlabelled s := by
  unfold unlabelled
  apply List.countP_pos_iff.2
  exact ⟨q, mem_boxCells.2 hq, by simpa [NO_GROUP_SET] using h0⟩

theorem propagateDirLog_stacked {point : IPoint} {g : Nat} {s : ExportState} {st : List IPoint}
    {log : SeedLog} {d : Nat} (hd : d < 6) (h : Stacked s g st log)
    (hp : s.gAirBox.contains point = true) :
    Stacked (propagateDirLog point g ((s, st), log) d).1.1 g
      (propagateDirLog point g ((s, st), log) d).1.2 (propagateDirLog point g ((s, st), log) d).2 ∧
    unlabelled (propagateDirLog point g ((s, st), log) d).1.1 +
        (propagateDirLog point g ((s, st), log) d).1.2.length = unlabelled s + st.length ∧
    (propagateDirLog point g ((s, st), log) d).1.1.gAirBox = s.gAirBox := by
  have hfst := propagateDirLog_fst point g (s, st) log d
  obtain ⟨g1, g2, g3⟩ := propagateDir_grows (d := d) hd h.seeding hp
  rw [← hfst] at g1 g2 g3
  refine ⟨?_, g3, g2.frame.airBox⟩
  rcases propagateDirLog_cases point g s st log d with e | ⟨q, hn, h0, hs, e⟩
  · rw [e]
    exact h
  · rw [e] at g1 g2 g3 ⊢
    have hq := (getNeighbor_some hd hp hn).1
    have hid : (s.gGroupList g).groupID = g := h.seeding.booked.gid g h.seeding.pos
      (by rw [h.seeding.newest])
    have hgpos := h.seeding.pos
    have hqn : q ∉ log.pushed := fun hm => (h.logged q hm).1 h0
    refine ⟨g1, ?_, ?_, ?_, ?_⟩
    · intro p hp'
      show ((absorb s g q).gBoxData p).group ≠ 0 ∧ (absorb s g q).gAirBox.contains p = true
      have hbox : (absorb s g q).gAirBox = s.gAirBox := rfl
      rw [hbox]
      rcases List.mem_cons.1 hp' with rfl | hp'
      · rw [absorb_cell_new, hid]
        exact ⟨by omega, hq⟩
      · have hne : p ≠ q := fun e => hqn (e ▸ hp')
        rw [absorb_cell_other s g hne]
        exact h.logged p hp'
    · exact List.nodup_cons.2 ⟨hqn, h.nodup⟩
    · show (log.asserted && decide (((q :: st).length : Int) < gBoxSizeXYZ s)) = true
      rw [h.asserted, Bool.true_and, decide_eq_true_eq]
      have h1 := unlabelled_pos hq h0
      have h2 := h.room
      simp only [List.length_cons]
      push_cast at h2 ⊢
      omega
    · have hxyz : gBoxSizeXYZ (absorb s g q) = gBoxSizeXYZ s := rfl
      show ((unlabelled (absorb s g q) + (q :: st).length : Nat) : Int) < gBoxSizeXYZ (absorb s g q)
      rw [hxyz]
      have h2 := h.room
      have g3' : unlabelled (absorb s g q) + (q :: st).length = unlabelled s + st.length := g3
      rw [g3']
      exact h2

theorem propagateSeedLog_fst (bi : BlockInfo) (s : ExportState) (point : IPoint) (g : Nat)
    (st : List IPoint) (log : SeedLog) :
    (propagateSeedLog bi s point g st log).1 = propagateSeed bi s point g st := by
  unfold propagateSeedLog propagateSeed
  split
  · rfl
  · have key : ∀ (l : List Nat) (r : ExportState × List IPoint) (lg : SeedLog),
        (l.foldl (propagateDirLog point g) (r, lg)).1 = l.foldl (propagateDir point g) r := by
      intro l
      induction l with
      | nil => intro r lg; rfl
      | cons d l ih =>
        intro r lg
        rw [List.foldl_cons, List.foldl_cons, ← propagateDirLog_fst point g r lg d]
        exact ih _ _
    exact key _ _ _

theorem propagateSeedLog_stacked (bi : BlockInfo) {point : IPoint} {g : Nat} {s : ExportState}
    {st : List IPoint} {log : SeedLog} (h : Stacked s g st log)
    (hp : s.gAirBox.contains point = true) :
    Stacked (propagateSeedLog bi s point g st log).1.1 g
      (propagateSeedLog bi s point g st log).1.2 (propagateSeedLog bi s point g st log).2 ∧
    unlabelled (propagateSeedLog bi s point g st log).1.1 +
        (propagateSeedLog bi s point g st log).1.2.length = unlabelled s + st.length ∧
    (propagateSeedLog bi s point g st log).1.1.gAirBox = s.gAirBox := by
  unfold propagateSeedLog
  split
  · exact ⟨h, rfl, rfl⟩
  · refine foldl_range_inv
      (fun _ (r : (ExportState × List IPoint) × SeedLog) => Stacked r.1.1 g r.1.2 r.2 ∧
        unlabelled r.1.1 + r.1.2.length = unlabelled s + st.length ∧ r.1.1.gAirBox = s.gAirBox)
      (propagateDirLog point g) 6 ((s, st), log) ⟨h, rfl, rfl⟩ ?_
    rintro k ⟨⟨s', st'⟩, lg⟩ hk ⟨h1, h2, h3⟩
    have hp' : s'.gAirBox.contains point = true := by
      have : s'.gAirBox = s.gAirBox := h3
      rw [this]; exact hp
    obtain ⟨a, b, c⟩ := propagateDirLog_stacked (d := k) hk h1 hp'
    exact ⟨a, b.trans h2, c.trans h3⟩

theorem seedLoopLog_fst (bi : BlockInfo) (g : Nat) (fuel : Nat) :
    ∀ (s : ExportState) (st : List IPoint) (log : SeedLog),
      (seedLoopLog bi g fuel s st log).1.1 = seedLoop bi g fuel s st := by
  induction fuel with
  | zero => intro s st log; rfl
  | succ n ih =>
    intro s st log
    cases st with
    | nil => rfl
    | cons p st =>
      simp only [seedLoopLog, seedLoop]
      rw [ih, propagateSeedLog_fst]

/-- The seed loop with its record keeps its invariant; with as many iterations as
there are cells without a group and cells on the stack it ends with an empty
stack, and more iterations change nothing. -/
theorem seedLoopLog_stacked (bi : BlockInfo) (g : Nat) (fuel : Nat) :
    ∀ (s : ExportState) (st : List IPoint) (log : SeedLog), Stacked s g st log →
      Stacked (seedLoopLog bi g fuel s st log).1.1 g (seedLoopLog bi g fuel s st log).1.2
        (seedLoopLog bi g fuel s st log).2 ∧
      (seedLoopLog bi g fuel s st log).1.1.gAirBox = s.gAirBox ∧
      (unlabelled s + st.length ≤ fuel →
        (seedLoopLog bi g fuel s st log).1.2 = [] ∧
        ∀ fuel2, unlabelled s + st.length ≤ fuel2 →
          seedLoopLog bi g fuel2 s st log = seedLoopLog bi g fuel s st log) := by
  induction fuel with
  | zero =>
    intro s st log h
    refine ⟨h, rfl, ?_⟩
    intro hm
    have hst : st = [] := List.length_eq_zero.1 (by omega)
    subst hst
    refine ⟨rfl, ?_⟩
    intro fuel2 _
    cases fuel2 <;> rfl
  | succ n ih =>
    intro s st log h
    cases st with
    | nil =>
      refine ⟨h, rfl, ?_⟩
      intro _
      refine ⟨rfl, ?_⟩
      intro fuel2 _
      cases fuel2 <;> rfl
    | cons p st =>
      simp only [seedLoopLog]
      have hp := (h.seeding.stack p (List.mem_cons_self _ _)).1
      have hxyz : ∀ t : ExportState, gBoxSizeXYZ t = gBoxSizeXYZ t := fun _ => rfl
      have h' : Stacked s g st log := by
        refine ⟨⟨h.seeding.booked, h.seeding.newest, h.seeding.pos,
          fun q hq => h.seeding.stack q (List.mem_cons_of_mem _ hq)⟩, h.logged, h.nodup,
          h.asserted, ?_⟩
        have := h.room
        simp only [List.length_cons] at this
        push_cast at this ⊢
        omega
      obtain ⟨a, b, c⟩ := propagateSeedLog_stacked bi h' hp
      obtain ⟨i1, i2, i3⟩ := ih _ _ _ a
      refine ⟨i1, i2.trans c, ?_⟩
      intro hm
      simp only [List.length_cons] at hm
      obtain ⟨j1, j2⟩ := i3 (by omega)
      refine ⟨j1, ?_⟩
      intro fuel2 hm2
      simp only [List.length_cons] at hm2
      cases fuel2 with
      | zero => omega
      | succ k =>
        simp only [seedLoopLog]
        exact j2 k (by omega)

theorem boxCells_length (b : IBox) :
    (boxCells b).length =
      (b.max.x + 1 - b.min.x).toNat * ((b.max.z + 1 - b.min.z).toNat * (b.max.y + 1 - b.min.y).toNat) := by
  have h : ∀ lo hi : Int, (intRange lo hi).length = (hi + 1 - lo).toNat := by
    intro lo hi
    unfold intRange
    simp
  unfold boxCells
  rw [List.length_flatMap]
  have hf : (List.length ∘ fun x : Int =>
      (intRange b.min.z b.max.z).flatMap fun z =>
        (intRange b.min.y b.max.y).map fun y => IPoint.mk x y z) =
      fun _ => (b.max.z + 1 - b.min.z).toNat * (b.max.y + 1 - b.min.y).toNat := by
    funext x
    simp only [Function.comp]
    rw [List.length_flatMap]
    have hg : (List.length ∘ fun z : Int =>
        (intRange b.min.y b.max.y).map fun y => IPoint.mk x y z) =
        fun _ => (b.max.y + 1 - b.min.y).toNat := by
      funext z
      simp only [Function.comp, List.length_map, h]
    rw [hg, List.map_const', List.sum_replicate, h]
    rfl
  rw [hf, List.map_const', List.sum_replicate, h]
  rfl

/-- A box inside the array has at most as many cells as the array. -/
theorem boxCells_length_le (s : ExportState) (b : IBox)
    (hx : 0 ≤ b.min.x ∧ b.max.x ≤ s.gBoxSize.x - 1) (hy : 0 ≤ b.min.y ∧ b.max.y ≤ s.gBoxSize.y - 1)
    (hz : 0 ≤ b.min.z ∧ b.max.z ≤ s.gBoxSize.z - 1)
    (hne : b.min.x ≤ b.max.x ∧ b.min.y ≤ b.max.y ∧ b.min.z ≤ b.max.z) :
    ((boxCells b).length : Int) ≤ gBoxSizeXYZ s := by
  rw [boxCells_length]
  unfold gBoxSizeXYZ gBoxSizeYZ
  have h1 : (b.max.x + 1 - b.min.x).toNat ≤ s.gBoxSize.x.toNat := by omega
  have h2 : (b.max.z + 1 - b.min.z).toNat ≤ s.gBoxSize.z.toNat := by omega
  have h3 : (b.max.y + 1 - b.min.y).toNat ≤ s.gBoxSize.y.toNat := by omega
  have h4 := Nat.mul_le_mul h1 (Nat.mul_le_mul h2 h3)
  have ex : (s.gBoxSize.x.toNat : Int) = s.gBoxSize.x := Int.toNat_of_nonneg (by omega)
  have ey : (s.gBoxSize.y.toNat : Int) = s.gBoxSize.y := Int.toNat_of_nonneg (by omega)
  have ez : (s.gBoxSize.z.toNat : Int) = s.gBoxSize.z := Int.toNat_of_nonneg (by omega)
  have h5 : ((((b.max.x + 1 - b.min.x).toNat * ((b.max.z + 1 - b.min.z).toNat *
      (b.max.y + 1 - b.min.y).toNat) : Nat)) : Int) ≤
      ((s.gBoxSize.x.toNat * (s.gBoxSize.z.toNat * s.gBoxSize.y.toNat) : Nat) : Int) := by
    exact_mod_cast h4
  rw [Nat.cast_mul s.gBoxSize.x.toNat, Nat.cast_mul s.gBoxSize.z.toNat, ex, ey, ez] at h5
  have e : s.gBoxSize.x * (s.gBoxSize.y * s.gBoxSize.z) = s.gBoxSize.x * (s.gBoxSize.z * s.gBoxSize.y) := by
    ring
  rw [e]
  exact h5
/-- One cell of the scan of `findGroups` with its record: with as many iterations as
the air box has cells the state is that of `findGroupsCell`, the invariant of the
record is kept, and the number of iterations makes no difference. -/
theorem findGroupsCellLog_logged (bi : BlockInfo) (fuel : Nat) {a : ExportState × SeedLog}
    {x : IPoint} (h : Logged a.1 a.2) (hx : a.1.gAirBox.contains x = true)
    (hf : (boxCells a.1.gAirBox).length ≤ fuel) :
    (findGroupsCellLog bi fuel a x).1 = findGroupsCell bi a.1 x ∧
    Logged (findGroupsCellLog bi fuel a x).1 (findGroupsCellLog bi fuel a x).2 ∧
    (findGroupsCellLog bi fuel a x).1.gAirBox = a.1.gAirBox ∧
    findGroupsCellLog bi fuel a x =
      findGroupsCellLog bi (boxCells a.1.gAirBox).length a x := by
  obtain ⟨s, log⟩ := a
  simp only [] at h hx hf ⊢
  by_cases h0 : (s.gBoxData x).group = NO_GROUP_SET
  · have hs := newGroup_seeding h.scanned.booked hx h0
    have hu := newGroup_unlabelled hx h0
    have hle := unlabelled_le s
    have hst : Stacked (newGroup s x) (s.gGroupCount + 1) [] log := by
      refine ⟨⟨hs.booked, hs.newest, hs.pos, fun q hq => by simp at hq⟩, ?_, h.nodup, h.asserted, ?_⟩
      · intro p hp
        have hp2 := h.logged p hp
        have hne : p ≠ x := by
          intro e
          rw [e] at hp2
          exact hp2.1 h0
        rw [newGroup_cell_other s hne]
        exact hp2
      · have hr := h.room
        have e : gBoxSizeXYZ (newGroup s x) = gBoxSizeXYZ s := rfl
        rw [e]
        simp only [List.length_nil, Nat.add_zero]
        omega
    have hx1 : (newGroup s x).gAirBox.contains x = true := hx
    obtain ⟨a1, a2, a3⟩ := propagateSeedLog_stacked bi hst hx1
    have key : ∀ f : Nat, (boxCells s.gAirBox).length ≤ f →
        seedLoopLog bi (s.gGroupCount + 1) f
          (propagateSeedLog bi (newGroup s x) x (s.gGroupCount + 1) [] log).1.1
          (propagateSeedLog bi (newGroup s x) x (s.gGroupCount + 1) [] log).1.2
          (propagateSeedLog bi (newGroup s x) x (s.gGroupCount + 1) [] log).2 =
        seedLoopLog bi (s.gGroupCount + 1) (boxCells s.gAirBox).length
          (propagateSeedLog bi (newGroup s x) x (s.gGroupCount + 1) [] log).1.1
          (propagateSeedLog bi (newGroup s x) x (s.gGroupCount + 1) [] log).1.2
          (propagateSeedLog bi (newGroup s x) x (s.gGroupCount + 1) [] log).2 := by
      intro f hfl
      obtain ⟨_, _, i3⟩ := seedLoopLog_stacked bi (s.gGroupCount + 1) (boxCells s.gAirBox).length _ _ _ a1
      have hm : unlabelled (propagateSeedLog bi (newGroup s x) x (s.gGroupCount + 1) [] log).1.1 +
          (propagateSeedLog bi (newGroup s x) x (s.gGroupCount + 1) [] log).1.2.length ≤
          (boxCells s.gAirBox).length := by
        rw [a2]
        simp only [List.length_nil, Nat.add_zero]
        omega
      exact (i3 hm).2 f (by omega)
    have e1 : findGroupsCellLog bi fuel (s, log) x =
        ((seedLoopLog bi (s.gGroupCount + 1) fuel
          (propagateSeedLog bi (newGroup s x) x (s.gGroupCount + 1) [] log).1.1
          (propagateSeedLog bi (newGroup s x) x (s.gGroupCount + 1) [] log).1.2
          (propagateSeedLog bi (newGroup s x) x (s.gGroupCount + 1) [] log).2).1.1,
         (seedLoopLog bi (s.gGroupCount + 1) fuel
          (propagateSeedLog bi (newGroup s x) x (s.gGroupCount + 1) [] log).1.1
          (propagateSeedLog bi (newGroup s x) x (s.gGroupCount + 1) [] log).1.2
          (propagateSeedLog bi (newGroup s x) x (s.gGroupCount + 1) [] log).2).2) := by
      unfold findGroupsCellLog
      rw [if_pos h0]
      rfl
    have e2 : findGroupsCellLog bi (boxCells s.gAirBox).length (s, log) x =
        ((seedLoopLog bi (s.gGroupCount + 1) (boxCells s.gAirBox).length
          (propagateSeedLog bi (newGroup s x) x (s.gGroupCount + 1) [] log).1.1
          (propagateSeedLog bi (newGroup s x) x (s.gGroupCount + 1) [] log).1.2
          (propagateSeedLog bi (newGroup s x) x (s.gGroupCount + 1) [] log).2).1.1,
         (seedLoopLog bi (s.gGroupCount + 1) (boxCells s.gAirBox).length
          (propagateSeedLog bi (newGroup s x) x (s.gGroupCount + 1) [] log).1.1
          (propagateSeedLog bi (newGroup s x) x (s.gGroupCount + 1) [] log).1.2
          (propagateSeedLog bi (newGroup s x) x (s.gGroupCount + 1) [] log).2).2) := by
      unfold findGroupsCellLog
      rw [if_pos h0]
      rfl
    have e3 : findGroupsCell bi s x =
        seedLoop bi (s.gGroupCount + 1) (boxCells s.gAirBox).length
          (propagateSeed bi (newGroup s x) x (s.gGroupCount + 1) []).1
          (propagateSeed bi (newGroup s x) x (s.gGroupCount + 1) []).2 := by
      unfold findGroupsCell
      rw [if_pos h0]
      rfl
    have heq : findGroupsCellLog bi fuel (s, log) x =
        findGroupsCellLog bi (boxCells s.gAirBox).length (s, log) x := by
      rw [e1, e2, key fuel hf]
    have hfst : (findGroupsCellLog bi fuel (s, log) x).1 = findGroupsCell bi s x := by
      rw [heq, e2, e3]
      simp only []
      rw [seedLoopLog_fst, ← propagateSeedLog_fst bi (newGroup s x) x (s.gGroupCount + 1) [] log]
    obtain ⟨i1, i2, _⟩ := seedLoopLog_stacked bi (s.gGroupCount + 1) fuel _ _ _ a1
    obtain ⟨c1, c2, _, _⟩ := findGroupsCell_scanned bi h.scanned hx
    have hair : (findGroupsCellLog bi fuel (s, log) x).1.gAirBox = s.gAirBox := by
      rw [hfst]
      exact c2.airBox
    refine ⟨hfst, ⟨?_, ?_, ?_, ?_, ?_⟩, hair, heq⟩
    · rw [hfst]
      exact c1
    · rw [e1]
      exact i1.logged
    · rw [e1]
      exact i1.nodup
    · rw [e1]
      exact i1.asserted
    · rw [hair, hfst]
      have e : gBoxSizeXYZ (findGroupsCell bi s x) = gBoxSizeXYZ s := by
        unfold gBoxSizeXYZ gBoxSizeYZ
        rw [c2.boxSize]
      rw [e]
      exact h.room
  · have e1 : ∀ f, findGroupsCellLog bi f (s, log) x = (s, log) := by
      intro f
      unfold findGroupsCellLog
      rw [if_neg h0]
    have e3 : findGroupsCell bi s x = s := by
      unfold findGroupsCell
      rw [if_neg h0]
    rw [e1, e1, e3]
    exact ⟨rfl, h, rfl, rfl⟩

/-- The scan of `findGroups` with its record over a list of cells of the air box. -/
theorem findGroupsLog_fold (bi : BlockInfo) (B : IBox) (fuel : Nat)
    (hf : (boxCells B).length ≤ fuel) :
    ∀ (l : List IPoint) (a : ExportState × SeedLog), Logged a.1 a.2 → a.1.gAirBox = B →
      (∀ x ∈ l, B.contains x = true) →
      (l.foldl (findGroupsCellLog bi fuel) a).1 = l.foldl (findGroupsCell bi) a.1 ∧
      Logged (l.foldl (findGroupsCellLog bi fuel) a).1 (l.foldl (findGroupsCellLog bi fuel) a).2 ∧
      (l.foldl (findGroupsCellLog bi fuel) a).1.gAirBox = B ∧
      l.foldl (findGroupsCellLog bi fuel) a =
        l.foldl (findGroupsCellLog bi (boxCells B).length) a := by
  intro l
  induction l with
  | nil => intro a h hB _; exact ⟨rfl, h, hB, rfl⟩
  | cons x l ih =>
    intro a h hB hl
    have hx : a.1.gAirBox.contains x = true := by
      rw [hB]
      exact hl x (List.mem_cons_self _ _)
    have hf2 : (boxCells a.1.gAirBox).length ≤ fuel := by
      rw [hB]
      exact hf
    obtain ⟨c1, c2, c3, c4⟩ := findGroupsCellLog_logged bi fuel h hx hf2
    obtain ⟨d1, d2, d3, d4⟩ := ih (findGroupsCellLog bi fuel a x) c2 (c3.trans hB)
      (fun y hy => hl y (List.mem_cons_of_mem _ hy))
    simp only [List.foldl_cons]
    refine ⟨?_, d2, d3, ?_⟩
    · rw [d1, c1]
    · rw [d4, c4, hB]

/-- A cell that attains a coordinate for a group still does in a state with the same
array in which the cells of the group have kept their group. -/
theorem attains_keep {s t : ExportState} {g : Nat} {f : IPoint → Int} {v : Int}
    (hsize : t.gBoxSize = s.gBoxSize)
    (hc : ∀ p, (s.gBoxData p).group = g → (t.gBoxData p).group = g)
    (h : attains s g f v) : attains t g f v := by
  obtain ⟨p, hp, hg, hv⟩ := h
  refine ⟨p, ?_, hc p hg, hv⟩
  unfold arrayBox at hp ⊢
  rw [hsize]
  exact hp

theorem attained_keep (s t : ExportState) {g : Nat}
    (hsize : t.gBoxSize = s.gBoxSize)
    (hc : ∀ p, (s.gBoxData p).group = g → (t.gBoxData p).group = g)
    (hb : (t.gGroupList g).bounds = (s.gGroupList g).bounds)
    (h : Attained s g) : Attained t g := by
  refine ⟨?_, ?_, ?_, ?_, ?_, ?_⟩
  · rw [hb]; exact attains_keep hsize hc h.min_x
  · rw [hb]; exact attains_keep hsize hc h.min_y
  · rw [hb]; exact attains_keep hsize hc h.min_z
  · rw [hb]; exact attains_keep hsize hc h.max_x
  · rw [hb]; exact attains_keep hsize hc h.max_y
  · rw [hb]; exact attains_keep hsize hc h.max_z

/-- Adding a cell to a group and to its bounds keeps the bounds attained. -/
theorem attained_add (s t : ExportState) {g : Nat} {q : IPoint}
    (hsize : t.gBoxSize = s.gBoxSize)
    (hc : ∀ p, (s.gBoxData p).group = g → (t.gBoxData p).group = g)
    (hq : (arrayBox t).contains q = true) (hqg : (t.gBoxData q).group = g)
    (hb : (t.gGroupList g).bounds = addBounds q (s.gGroupList g).bounds)
    (h : Attained s g) : Attained t g := by
  have hq' : ∀ f : IPoint → Int, attains t g f (f q) := fun f => ⟨q, hq, hqg, rfl⟩
  refine ⟨?_, ?_, ?_, ?_, ?_, ?_⟩
  all_goals
    rw [hb]
    unfold addBounds
    simp only []
    split
  · exact hq' _
  · exact attains_keep hsize hc h.min_x
  · exact hq' _
  · exact attains_keep hsize hc h.min_y
  · exact hq' _
  · exact attains_keep hsize hc h.min_z
  · exact hq' _
  · exact attains_keep hsize hc h.max_x
  · exact hq' _
  · exact attains_keep hsize hc h.max_y
  · exact hq' _
  · exact attains_keep hsize hc h.max_z

theorem absorb_tight {s : ExportState} {g : Nat} (q : IPoint)
    (hid : (s.gGroupList g).groupID = g) (h0 : (s.gBoxData q).group = 0)
    (hq : (arrayBox s).contains q = true) (h : Tight s) : Tight (absorb s g q) := by
  intro g' h2 hle
  have hc : ∀ p, (s.gBoxData p).group = g' → ((absorb s g q).gBoxData p).group = g' := by
    intro p hp
    have hpq : p ≠ q := by
      intro e
      rw [e, h0] at hp
      omega
    rw [absorb_cell_other s g hpq]
    exact hp
  by_cases hg : g' = g
  · subst hg
    refine attained_add s (absorb s g' q) rfl hc hq ?_ ?_ (h g' h2 hle)
    · rw [absorb_cell_new, hid]
    · show (setGroup s.gGroupList g' _ g').bounds = _
      rw [setGroup_same]
  · refine attained_keep s (absorb s g q) rfl hc ?_ (h g' h2 hle)
    show (setGroup s.gGroupList g _ g').bounds = _
    rw [setGroup_other _ _ hg]

theorem propagateSeed_tight (bi : BlockInfo) {pt : IPoint} {g : Nat} {s : ExportState}
    {st : List IPoint} (hsd : Seeding s g st) (hpt : s.gAirBox.contains pt = true)
    (hb : Tight s) : Tight (propagateSeed bi s pt g st).1 := by
  unfold propagateSeed
  split
  · exact hb
  · have key := foldl_range_inv
      (fun _ (r : ExportState × List IPoint) => Seeding r.1 g r.2 ∧ Grows g s r.1 ∧ Tight r.1)
      (propagateDir pt g) 6 (s, st) ⟨hsd, Grows.grows_refl g s, hb⟩ ?_
    · exact key.2.2
    · rintro k ⟨s', st'⟩ hk ⟨a1, a2, a3⟩
      have hpt' : s'.gAirBox.contains pt = true := by rw [a2.frame.airBox]; exact hpt
      obtain ⟨b1, b2, _⟩ := propagateDir_grows (d := k) hk a1 hpt'
      refine ⟨b1, a2.grows_trans b2, ?_⟩
      have hid : (s'.gGroupList g).groupID = g := a1.booked.gid g a1.pos (by rw [a1.newest])
      rcases propagateDir_cases pt g s' st' k with e | ⟨q, hn, h0, _, e⟩
      · rw [e]; exact a3
      · rw [e]
        have hqa := (getNeighbor_some hk hpt' hn).1
        exact absorb_tight q hid h0 (a1.booked.air_in_array q hqa) a3

theorem seedLoop_tight (bi : BlockInfo) (g : Nat) (fuel : Nat) :
    ∀ (s : ExportState) (st : List IPoint), Seeding s g st → Tight s →
      Tight (seedLoop bi g fuel s st) := by
  induction fuel with
  | zero => intro s st _ hr; exact hr
  | succ n ih =>
    intro s st h hr
    cases st with
    | nil => exact hr
    | cons p st =>
      simp only [seedLoop]
      have hp := h.stack p (List.mem_cons_self _ _)
      have hsd : Seeding s g st :=
        ⟨h.booked, h.newest, h.pos, fun q hq => h.stack q (List.mem_cons_of_mem _ hq)⟩
      obtain ⟨a, _, _⟩ := propagateSeed_grows bi hsd hp.1
      exact ih _ _ a (propagateSeed_tight bi hsd hp.1 hr)

theorem newGroup_tight {t : ExportState} {x : IPoint} (hx : (arrayBox t).contains x = true)
    (h0 : (t.gBoxData x).group = 0) (h : Tight t) : Tight (newGroup t x) := by
  intro g h2 hle
  rw [newGroup_count] at hle
  by_cases hg : g = t.gGroupCount + 1
  · subst hg
    have hb : ((newGroup t x).gGroupList (t.gGroupCount + 1)).bounds = ⟨x, x⟩ := by
      show (setGroup t.gGroupList (t.gGroupCount + 1) _ (t.gGroupCount + 1)).bounds = _
      rw [setGroup_same]
    have hq : ∀ f : IPoint → Int, attains (newGroup t x) (t.gGroupCount + 1) f (f x) :=
      fun f => ⟨x, hx, newGroup_cell t x, rfl⟩
    refine ⟨?_, ?_, ?_, ?_, ?_, ?_⟩ <;> rw [hb] <;> exact hq _
  · have hc : ∀ p, (t.gBoxData p).group = g → ((newGroup t x).gBoxData p).group = g := by
      intro p hp
      have hpx : p ≠ x := by
        intro e
        rw [e, h0] at hp
        omega
      rw [newGroup_cell_other t hpx]
      exact hp
    refine attained_keep t (newGroup t x) rfl hc ?_ (h g h2 (by omega))
    rw [newGroup_record_other t x hg]

/-- One step of the scan of `findGroups` keeps the bounds of the groups attained. -/
theorem findGroupsCell_tight (bi : BlockInfo) {t : ExportState} {x : IPoint} (hb : Booked t)
    (hx : t.gAirBox.contains x = true) (h : Tight t) :
    Tight (findGroupsCell bi t x) := by
  by_cases h0 : (t.gBoxData x).group = NO_GROUP_SET
  · have hs1 := newGroup_seeding hb hx h0
    have hs0 : Seeding (newGroup t x) (t.gGroupCount + 1) [] :=
      ⟨hs1.booked, hs1.newest, hs1.pos, fun q hq => by simp at hq⟩
    have h1 := propagateSeed_tight bi hs0 hx (newGroup_tight (hb.air_in_array x hx) h0 h)
    obtain ⟨a, _, _⟩ := propagateSeed_grows bi hs0 hx
    have h2 := seedLoop_tight bi (t.gGroupCount + 1) (boxCells t.gAirBox).length _ _ a h1
    have e : findGroupsCell bi t x = seedLoop bi (t.gGroupCount + 1) (boxCells t.gAirBox).length
        (propagateSeed bi (newGroup t x) x (t.gGroupCount + 1) []).1
        (propagateSeed bi (newGroup t x) x (t.gGroupCount + 1) []).2 := by
      unfold findGroupsCell
      rw [if_pos h0]
      rfl
    rw [e]
    exact h2
  · unfold findGroupsCell
    rw [if_neg h0]
    exact h

/-- After `findGroups` on a well-formed state the bounds of every group `2, 3, ...`
are attained by cells of the group. -/
theorem findGroups_tight (bi : BlockInfo) {s : ExportState} (h : WellFormed s) :
    Tight (findGroups bi s) := by
  obtain ⟨hs, hf, _⟩ := scanStart_spec h
  have hstart : Tight (scanStart s) := by
    intro g h2 hle
    rw [hs.count] at hle
    omega
  have key := foldl_inv
    (fun t : ExportState => Scanned t ∧ t.gAirBox = (scanStart s).gAirBox ∧ Tight t)
    (findGroupsCell bi) (scanCells (scanStart s).gAirBox) (scanStart s)
    ⟨hs.scanned, rfl, hstart⟩ ?_
  · rw [findGroups_eq]
    simp only []
    split
    · intro g h2 hle
      have hne : g ≠ SURROUND_AIR_GROUP := by
        unfold SURROUND_AIR_GROUP
        omega
      refine attained_keep ((scanCells (scanStart s).gAirBox).foldl (findGroupsCell bi) (scanStart s))
        _ rfl (fun _ hp => hp) ?_ (key.2.2 g h2 hle)
      show (setGroup _ SURROUND_AIR_GROUP _ g).bounds = _
      rw [setGroup_other _ _ hne]
    · exact key.2.2
  · rintro t x hx ⟨a, b, c⟩
    have hxt : t.gAirBox.contains x = true := by rw [b]; exact mem_scanCells.1 hx
    obtain ⟨a', f', _, _⟩ := findGroupsCell_scanned bi a hxt
    exact ⟨a', f'.airBox.trans b, findGroupsCell_tight bi a.booked hxt c⟩

/-- Bounds that hold the cells of a group and are attained by them are the tight
bounding box of the group. -/
theorem tightBox_of_attained {s : ExportState} {g : Nat} (h2 : 2 ≤ g) (hb : Bounded s)
    (ha : Attained s g) : tightBox s g (s.gGroupList g).bounds := by
  constructor
  · intro p hp hg
    have := hb p hp (by omega)
    rw [hg] at this
    exact this
  · intro c hc
    obtain ⟨p1, a1, b1, c1⟩ := ha.min_x
    obtain ⟨p2, a2, b2, c2⟩ := ha.min_y
    obtain ⟨p3, a3, b3, c3⟩ := ha.min_z
    obtain ⟨p4, a4, b4, c4⟩ := ha.max_x
    obtain ⟨p5, a5, b5, c5⟩ := ha.max_y
    obtain ⟨p6, a6, b6, c6⟩ := ha.max_z
    have d1 := contains_iff.1 (hc p1 a1 b1)
    have d2 := contains_iff.1 (hc p2 a2 b2)
    have d3 := contains_iff.1 (hc p3 a3 b3)
    have d4 := contains_iff.1 (hc p4 a4 b4)
    have d5 := contains_iff.1 (hc p5 a5 b5)
    have d6 := contains_iff.1 (hc p6 a6 b6)
    unfold IBox.inside
    omega
/-- States with the same cells, group list and array have their cells inside the
bounds of the groups together. -/
theorem bounded_same (s t : ExportState) (hd : t.gBoxData = s.gBoxData)
    (hl : t.gGroupList = s.gGroupList) (hsize : t.gBoxSize = s.gBoxSize) (h : Bounded s) :
    Bounded t := by
  intro p hp hp2
  rw [hd] at hp2 ⊢
  rw [hl]
  refine h p ?_ hp2
  unfold arrayBox at hp ⊢
  rw [← hsize]
  exact hp

/-- Moving one cell `q` into group `m` and adding it to the bounds of `m` keeps the
cells inside the bounds of their groups. -/
theorem bounded_move (s t : ExportState) (q : IPoint) (m : Nat)
    (hsize : t.gBoxSize = s.gBoxSize)
    (hcell : ∀ p, p ≠ q → t.gBoxData p = s.gBoxData p)
    (hq : (t.gBoxData q).group = m)
    (hb : (t.gGroupList m).bounds = addBounds q (s.gGroupList m).bounds)
    (ho : ∀ g, g ≠ m → (t.gGroupList g).bounds = (s.gGroupList g).bounds)
    (h : Bounded s) : Bounded t := by
  intro p hp hp2
  have hp' : (arrayBox s).contains p = true := by
    unfold arrayBox at hp ⊢
    rw [← hsize]
    exact hp
  by_cases hpq : p = q
  · subst hpq
    rw [hq, hb]
    exact addBounds_self _ _
  · rw [hcell p hpq] at hp2 ⊢
    by_cases hg : (s.gBoxData p).group = m
    · have := h p hp' hp2
      rw [hg] at this ⊢
      rw [hb]
      exact addBounds_mono _ this
    · rw [ho _ hg]
      exact h p hp' hp2

theorem fillGroupsCell_bounded (bi : BlockInfo) (m : Nat) (solid : Bool) (fillType : Nat)
    (tg : Nat → Int) (s : ExportState) (loc : IPoint) (h : Bounded s) :
    Bounded (fillGroupsCell bi m solid fillType tg s loc) := by
  by_cases ht : tg (s.gBoxData loc).group > 0
  · refine bounded_move s _ loc m ?_ ?_ ?_ ?_ ?_ h
    · exact (fillGroupsCell_refilled bi m solid fillType tg s loc).1.boxSize
    · intro p hp
      exact fillGroupsCell_other bi m solid fillType tg s loc p hp
    · exact (fillGroupsCell_filled bi m solid fillType tg s loc ht).1.1
    · rw [fillGroupsCell_eq bi m solid fillType tg s loc ht]
      simp only [setGroup_same]
      congr 1
      simp only [setGroup]
      split
      · rename_i e
        rw [← e]
      · rfl
    · intro g hg
      exact (fillGroupsCell_kept bi m solid fillType tg s loc).bounds g hg
  · rw [fillGroupsCell_untargeted bi m solid fillType tg s loc ht]
    exact h

theorem fillGroups_bounded (bi : BlockInfo) (s : ExportState) (bounds : IBox) (m : Nat)
    (solid : Bool) (fillType : Nat) (tg : Nat → Int) (h : Bounded s) :
    Bounded (fillGroups bi s bounds m solid fillType tg) := by
  unfold fillGroups
  apply foldl_inv Bounded
  · exact h
  · intro t loc _ ht
    exact fillGroupsCell_bounded bi m solid fillType tg t loc ht

theorem removeBubble_bounded (bi : BlockInfo) (fillType : Nat) (s : ExportState) (i : Nat)
    (h : Bounded s) : Bounded (removeBubble bi fillType s i) := by
  unfold removeBubble
  have h1 : Bounded (bubbleCounted s (bubbleMaster s i)) :=
    bounded_same s _ rfl rfl rfl h
  split
  · simp only []
    split
    · exact bounded_same _ _ rfl rfl rfl (fillGroups_bounded bi _ _ _ _ _ _ h1)
    · exact bounded_same _ _ rfl rfl rfl (fillGroups_bounded bi _ _ _ _ _ _ h1)
  · exact h

/-- The function `checkAndRemoveBubbles` keeps the cells inside the bounds of their
groups. -/
theorem checkAndRemoveBubbles_bounded (bi : BlockInfo) (s : ExportState) (h : Bounded s) :
    Bounded (checkAndRemoveBubbles bi s) := by
  unfold checkAndRemoveBubbles
  simp only []
  apply foldl_inv Bounded
  · exact h
  · intro t i _ ht
    exact removeBubble_bounded bi _ t i ht

theorem checkForTouchingEdge_groups (t : ExportState) (p : IPoint) (ox oy oz : Int) :
    (checkForTouchingEdge t p ox oy oz).gGroupList = t.gGroupList ∧
    (checkForTouchingEdge t p ox oy oz).gBoxSize = t.gBoxSize := by
  unfold checkForTouchingEdge
  simp only []
  by_cases c1 : (t.gBoxData (p.offset ox oy oz)).isSolid = true
  swap
  · rw [if_neg c1]
    exact ⟨rfl, rfl⟩
  rw [if_pos c1]
  by_cases c2 : t.gOptions.EXPT_CONNECT_ALL_EDGES = true ∨
      (t.gBoxData p).group ≠ (t.gBoxData (p.offset ox oy oz)).group
  swap
  · rw [if_neg c2]
    exact ⟨rfl, rfl⟩
  rw [if_pos c2]
  cases touchPair t p ox oy oz with
  | none => exact ⟨rfl, rfl⟩
  | some r =>
    obtain ⟨n1, n2, b1, b2⟩ := r
    simp only []
    generalize computeObscurity _ n1 = x1
    generalize computeObscurity _ n2 = x2
    by_cases d1 : x1 ≥ x2 <;> by_cases d2 : x2 ≥ x1
    · rw [if_pos d1, if_pos d2]; exact ⟨rfl, rfl⟩
    · rw [if_pos d1, if_neg d2]; exact ⟨rfl, rfl⟩
    · rw [if_neg d1, if_pos d2]; exact ⟨rfl, rfl⟩
    · rw [if_neg d1, if_neg d2]; exact ⟨rfl, rfl⟩

theorem checkForTouchingEdge_bounded (t : ExportState) (p : IPoint) (ox oy oz : Int)
    (h : Bounded t) : Bounded (checkForTouchingEdge t p ox oy oz) :=
  bounded_same t _ (checkForTouchingEdge_data t p ox oy oz)
    (checkForTouchingEdge_groups t p ox oy oz).1 (checkForTouchingEdge_groups t p ox oy oz).2 h

theorem touchScanCell_bounded (t : ExportState) (b : IPoint) (h : Bounded t) :
    Bounded (touchScanCell t b) := by
  unfold touchScanCell
  simp only []
  split
  · split
    · split
      · exact checkForTouchingEdge_bounded _ _ _ _ _ (checkForTouchingEdge_bounded _ _ _ _ _
          (checkForTouchingEdge_bounded _ _ _ _ _ (checkForTouchingEdge_bounded _ _ _ _ _
          (checkForTouchingEdge_bounded _ _ _ _ _ (checkForTouchingEdge_bounded _ _ _ _ _ h)))))
      · exact checkForTouchingEdge_bounded _ _ _ _ _ (checkForTouchingEdge_bounded _ _ _ _ _
          (checkForTouchingEdge_bounded _ _ _ _ _ (checkForTouchingEdge_bounded _ _ _ _ _ h)))
    · split
      · exact checkForTouchingEdge_bounded _ _ _ _ _ (checkForTouchingEdge_bounded _ _ _ _ _ h)
      · exact h
  · exact h

theorem touchScan_bounded (s : ExportState) (h : Bounded s) : Bounded (touchScan s) := by
  unfold touchScan
  apply foldl_inv Bounded
  · exact bounded_same s _ rfl rfl rfl h
  · intro t b _ ht
    exact touchScanCell_bounded t b ht

theorem weldCell_bounded (bi : BlockInfo) (s : ExportState) (x : IPoint) (h : Bounded s) :
    Bounded (weldCell bi s x) := by
  refine bounded_move s _ x (touchMaster s x) rfl ?_ ?_ ?_ ?_ h
  · intro p hp
    show setCell s.gBoxData x _ p = _
    rw [setCell_other _ _ hp]
  · show (setCell s.gBoxData x _ x).group = _
    rw [setCell_same]
  · show (setGroup s.gGroupList (touchMaster s x) _ (touchMaster s x)).bounds = _
    rw [setGroup_same]
  · intro g hg
    show (setGroup s.gGroupList (touchMaster s x) _ g).bounds = _
    rw [setGroup_other _ _ hg]

theorem decrementNeighbors_bounded (s : ExportState) (x : IPoint) (h : Bounded s) :
    Bounded (decrementNeighbors s x) :=
  bounded_same s _ rfl rfl rfl h

theorem fillTouchCell_bounded (bi : BlockInfo) (s : ExportState) (x : IPoint) (h : Bounded s) :
    Bounded (fillTouchCell bi s x) := by
  rw [fillTouchCell_eq]
  have h1 := weldCell_bounded bi _ x (decrementNeighbors_bounded s x h)
  split
  · split
    · exact fillGroups_bounded bi _ _ _ _ _ _ (bounded_same _ _ rfl rfl rfl h1)
    · exact h1
  · exact h

/-- The function `fixTouchingEdges` keeps the cells inside the bounds of their
groups. -/
theorem fixTouchingEdges_bounded (bi : BlockInfo) (qsort_s : Qsort) (s : ExportState)
    (h : Bounded s) : Bounded (fixTouchingEdges bi qsort_s s).2 := by
  rw [fixTouchingEdges_eq]
  have h1 := touchScan_bounded s h
  split
  · exact h1
  · refine bounded_same _ _ rfl rfl rfl ?_
    apply foldl_inv Bounded
    · exact h1
    · intro t b _ ht
      exact fillTouchCell_bounded bi t b ht

theorem connectCornerCell_bounded (acc : Bool × ExportState) (b : IPoint)
    (h : Bounded acc.2) : Bounded (connectCornerCell acc b).2 := by
  unfold connectCornerCell
  simp only []
  split
  swap
  · exact h
  split
  swap
  · exact h
  split
  swap
  · exact h
  refine bounded_move acc.2 _ (b.offset 0 (-1) 0) (acc.2.gBoxData b).group rfl ?_ ?_ ?_ ?_ h
  · intro p hp
    show setCell acc.2.gBoxData _ _ p = _
    rw [setCell_other _ _ hp]
  · show (setCell acc.2.gBoxData _ _ (b.offset 0 (-1) 0)).group = _
    rw [setCell_same]
  · show (setGroup acc.2.gGroupList _ _ (acc.2.gBoxData b).group).bounds = _
    rw [setGroup_same]
  · intro g hg
    show (setGroup acc.2.gGroupList _ _ g).bounds = _
    rw [setGroup_other _ _ hg]

/-- The function `connectCornerTips` keeps the cells inside the bounds of their
groups. -/
theorem connectCornerTips_bounded (s : ExportState) (h : Bounded s) :
    Bounded (connectCornerTips s).2 := by
  unfold connectCornerTips
  apply foldl_inv (fun acc : Bool × ExportState => Bounded acc.2)
  · exact h
  · intro acc b _ hacc
    exact connectCornerCell_bounded acc b hacc

theorem deleteFloatingStep_bounded (bi : BlockInfo) (sv : Int) (s : ExportState) (i : Nat)
    (h : Bounded s) : Bounded (deleteFloatingStep bi sv s i) := by
  unfold deleteFloatingStep
  split
  · split
    · simp only []
      exact bounded_same _ _ rfl rfl rfl
        (fillGroups_bounded bi _ _ _ _ _ _ (bounded_same s _ rfl rfl rfl h))
    · exact h
  · exact h

/-- The function `deleteFloatingGroups` keeps the cells inside the bounds of their
groups. -/
theorem deleteFloatingGroups_bounded (bi : BlockInfo) (s : ExportState) (h : Bounded s) :
    Bounded (deleteFloatingGroups bi s) := by
  unfold deleteFloatingGroups
  apply foldl_inv Bounded
  · exact h
  · intro t i _ ht
    exact deleteFloatingStep_bounded bi _ t i ht

set_option maxRecDepth 100000 in
/-- The twelve entries of `touchTable`: distinct bits, distinct offsets, none zero,
and the reverse of each entry is an entry. -/
theorem touchTable_facts :
    touchTable.Nodup ∧
    (∀ e ∈ touchTable, ∀ f ∈ touchTable, e.1 = f.1 → e = f) ∧
    (∀ e ∈ touchTable, ∀ f ∈ touchTable, e.2.2 = f.2.2 → e = f) ∧
    (∀ e ∈ touchTable, ∀ f ∈ touchTable, e.2.1 = f.2.1 → e = f) ∧
    (∀ e ∈ touchTable, reverseEntry e ∈ touchTable) ∧
    (∀ e ∈ touchTable, e.2.1 ≠ (0, 0, 0)) ∧
    (∀ e ∈ touchTable, e.1 ≠ 0 ∧ e.1 < 4096) := by
  refine ⟨?_, ?_, ?_, ?_, ?_, ?_, ?_⟩
  · decide
  · decide
  · decide
  · decide
  · decide
  · decide
  · decide

set_option maxRecDepth 100000 in
/-- The connection bits are single bits: two of them have a bit in common only
when they are the same, and the mask that clears one keeps the others. -/
theorem touchTable_masks :
    (∀ e ∈ touchTable, ∀ f ∈ touchTable, e.1 &&& f.1 = if e.1 = f.1 then f.1 else 0) ∧
    (∀ e ∈ touchTable, ∀ f ∈ touchTable,
      bitNot32 e.1 &&& f.1 = if e.1 = f.1 then 0 else f.1) := by
  decide

theorem or_eq_zero {a b : Nat} (h : a ||| b = 0) : a = 0 ∧ b = 0 := by
  have key : ∀ i, a.testBit i = false ∧ b.testBit i = false := by
    intro i
    have := Nat.testBit_or a b i
    rw [h, Nat.zero_testBit] at this
    cases ha : a.testBit i <;> cases hb : b.testBit i <;> simp [ha, hb] at this ⊢
  constructor
  · apply Nat.eq_of_testBit_eq
    intro i
    rw [Nat.zero_testBit]
    exact (key i).1
  · apply Nat.eq_of_testBit_eq
    intro i
    rw [Nat.zero_testBit]
    exact (key i).2

theorem or_ne_zero_iff (a b : Nat) : a ||| b ≠ 0 ↔ a ≠ 0 ∨ b ≠ 0 := by
  constructor
  · intro h
    by_contra hc
    push_neg at hc
    rw [hc.1, hc.2] at h
    exact h rfl
  · rintro (h | h)
    · exact fun e => h (or_eq_zero e).1
    · exact fun e => h (or_eq_zero e).2

/-- Setting the bit of one entry of `touchTable` sets that bit and no other. -/
theorem and_or_bit (c : Nat) {e f : Nat × (Int × Int × Int) × Nat} (he : e ∈ touchTable)
    (hf : f ∈ touchTable) : (c ||| e.1) &&& f.1 ≠ 0 ↔ (c &&& f.1 ≠ 0 ∨ e = f) := by
  rw [Nat.and_distrib_right, or_ne_zero_iff, touchTable_masks.1 e he f hf]
  have h1 := touchTable_facts.2.1 e he f hf
  have h2 := (touchTable_facts.2.2.2.2.2.2 f hf).1
  by_cases h : e.1 = f.1
  · rw [if_pos h]
    simp [h1 h, h2]
  · rw [if_neg h]
    have : e ≠ f := fun e' => h (by rw [e'])
    simp [this]

/-- Clearing the bit of one entry of `touchTable` clears that bit and no other. -/
theorem and_clear_bit (c : Nat) {e f : Nat × (Int × Int × Int) × Nat} (he : e ∈ touchTable)
    (hf : f ∈ touchTable) :
    (c &&& bitNot32 e.1) &&& f.1 ≠ 0 ↔ (c &&& f.1 ≠ 0 ∧ e ≠ f) := by
  rw [Nat.and_assoc, touchTable_masks.2 e he f hf]
  have h1 := touchTable_facts.2.1 e he f hf
  by_cases h : e.1 = f.1
  · rw [if_pos h]
    simp [h1 h]
  · rw [if_neg h]
    have : e ≠ f := fun e' => h (by rw [e'])
    simp [this]

theorem reverseEntry_reverse (e : Nat × (Int × Int × Int) × Nat) :
    reverseEntry (reverseEntry e) = e := by
  obtain ⟨a, ⟨x, y, z⟩, b⟩ := e
  simp [reverseEntry]

theorem shift_reverse (p : IPoint) (e : Nat × (Int × Int × Int) × Nat) :
    (p.shift e.2.1).shift (reverseEntry e).2.1 = p := by
  obtain ⟨a, ⟨x, y, z⟩, b⟩ := e
  simp [reverseEntry, IPoint.shift, IPoint.offset]

/-- Two cells lie at the offset of an entry from each other exactly when they lie at
the offset of the reverse entry from each other, the other way round. -/
theorem shift_reverse_iff (p q : IPoint) (e : Nat × (Int × Int × Int) × Nat) :
    p.shift e.2.1 = q ↔ q.shift (reverseEntry e).2.1 = p := by
  constructor
  · intro h
    rw [← h, shift_reverse]
  · intro h
    rw [← h]
    have := shift_reverse q (reverseEntry e)
    rw [reverseEntry_reverse] at this
    exact this

theorem connectionCount_congr {c d : TouchCell} (h : d.connections = c.connections) :
    connectionCount d = connectionCount c := by
  unfold connectionCount
  simp only [hasConnection, h]

theorem connectionCount_zero {c : TouchCell} (h : c.connections = 0) : connectionCount c = 0 := by
  unfold connectionCount
  simp [hasConnection, h]

/-- In a list without repetition a predicate that holds of one more entry counts at
most one more. -/
theorem countP_le_succ {α : Type} (f g : α → Bool) (a : α) (l : List α) (hnd : l.Nodup)
    (h : ∀ x ∈ l, g x = true → f x = true ∨ x = a) : l.countP g ≤ l.countP f + 1 := by
  induction l with
  | nil => simp
  | cons b l ih =>
    have hnd2 := (List.nodup_cons.1 hnd)
    rw [List.countP_cons, List.countP_cons]
    by_cases hb : b = a
    · have hle : l.countP g ≤ l.countP f := by
        apply List.countP_mono_left
        intro x hx hgx
        rcases h x (List.mem_cons_of_mem _ hx) hgx with h1 | h1
        · exact h1
        · exfalso
          rw [h1, ← hb] at hx
          exact hnd2.1 hx
      split <;> split <;> omega
    · have := ih hnd2.2 (fun x hx => h x (List.mem_cons_of_mem _ hx))
      have hgb : g b = true → f b = true := by
        intro hg
        rcases h b (List.mem_cons_self _ _) hg with h1 | h1
        · exact h1
        · exact absurd h1 hb
      by_cases hg : g b = true
      · rw [if_pos hg, if_pos (hgb hg)]
        omega
      · rw [if_neg hg]
        split <;> omega

theorem connectionCount_or {c d : TouchCell} {e : Nat × (Int × Int × Int) × Nat}
    (he : e ∈ touchTable) (h : d.connections = c.connections ||| e.1) :
    connectionCount d ≤ connectionCount c + 1 := by
  unfold connectionCount
  apply countP_le_succ _ _ e _ touchTable_facts.1
  intro f hf hg
  simp only [decide_eq_true_eq, hasConnection] at hg ⊢
  rw [h] at hg
  rcases (and_or_bit c.connections he hf).1 hg with h1 | h1
  · exact Or.inl h1
  · exact Or.inr h1.symm

theorem connectionCount_clear {c d : TouchCell} {e : Nat × (Int × Int × Int) × Nat}
    (he : e ∈ touchTable) (h : d.connections = c.connections &&& bitNot32 e.1)
    (hset : hasConnection c e.1) : connectionCount d + 1 ≤ connectionCount c := by
  unfold connectionCount
  apply countP_lt_of_gain
  · intro f hf hg
    simp only [decide_eq_true_eq, hasConnection] at hg ⊢
    rw [h] at hg
    exact ((and_clear_bit c.connections he hf).1 hg).1
  · refine ⟨e, he, ?_, ?_⟩
    · simpa using hset
    · simp only [decide_eq_false_iff_not, hasConnection]
      rw [h]
      intro hg
      exact ((and_clear_bit c.connections he he).1 hg).2 rfl

theorem shift_left_inj {p q : IPoint} {u : Int × Int × Int} (h : p.shift u = q.shift u) : p = q := by
  obtain ⟨a, b, c⟩ := u
  obtain ⟨x, y, z⟩ := p
  obtain ⟨x', y', z'⟩ := q
  simp only [IPoint.shift, IPoint.offset, IPoint.mk.injEq] at h ⊢
  omega

theorem reverseEntry_eq_iff (e f : Nat × (Int × Int × Int) × Nat) :
    reverseEntry e = f ↔ e = reverseEntry f := by
  constructor
  · intro h
    rw [← h, reverseEntry_reverse]
  · intro h
    rw [h, reverseEntry_reverse]

theorem linked_zero : TouchLinked (fun _ => ⟨0, 0, 0⟩) := by
  refine ⟨?_, ?_, ?_⟩
  · intro e _ p
    simp [hasConnection]
  · intro p
    decide
  · intro p
    rw [connectionCount_zero rfl]
    decide

/-- Marking one cell of the touch grid with one more edge and no connection bit keeps
the grid linked. -/
theorem linked_mark_one {t : IPoint → TouchCell} (n : IPoint) (h : TouchLinked t) :
    TouchLinked (setTouch t n
      { t n with count := (t n).count + 1, connections := (t n).connections ||| 0 }) := by
  have hc : ∀ p, (setTouch t n
      { t n with count := (t n).count + 1, connections := (t n).connections ||| 0 } p).connections =
      (t p).connections := by
    intro p
    unfold setTouch
    split
    · rename_i e
      rw [e]
      exact Nat.or_zero _
    · rfl
  refine ⟨?_, ?_, ?_⟩
  · intro e he p
    unfold hasConnection
    rw [hc, hc]
    exact h.paired e he p
  · intro p
    rw [hc]
    exact h.bits p
  · intro p
    rw [connectionCount_congr (hc p)]
    have := h.counted p
    by_cases hp : p = n
    · subst hp
      unfold setTouch
      rw [if_pos rfl]
      simp only []
      omega
    · unfold setTouch
      rw [if_neg hp]
      exact this

/-- Marking the two air cells of a touching edge, each with the connection bit that
points to the other, keeps the touch grid linked. -/
theorem linked_mark_pair {t : IPoint → TouchCell} (n1 : IPoint)
    {e : Nat × (Int × Int × Int) × Nat} (he : e ∈ touchTable) (h : TouchLinked t) :
    TouchLinked (setTouch
      (setTouch t n1 { t n1 with count := (t n1).count + 1,
                                 connections := (t n1).connections ||| e.1 })
      (n1.shift e.2.1)
      { t (n1.shift e.2.1) with count := (t (n1.shift e.2.1)).count + 1,
                                connections := (t (n1.shift e.2.1)).connections ||| e.2.2 }) := by
  have hre := touchTable_facts.2.2.2.2.1 e he
  have hne : n1.shift e.2.1 ≠ n1 := shift_ne_self (touchTable_facts.2.2.2.2.2.1 e he)
  have hr2 : e.2.2 = (reverseEntry e).1 := rfl
  generalize hn2 : n1.shift e.2.1 = n2 at hne ⊢
  generalize ht2 : setTouch
      (setTouch t n1 { t n1 with count := (t n1).count + 1,
                                 connections := (t n1).connections ||| e.1 })
      n2 { t n2 with count := (t n2).count + 1,
                     connections := (t n2).connections ||| e.2.2 } = t2
  have v2 : t2 n2 =
      ⟨(t n2).obscurity, (t n2).count + 1, (t n2).connections ||| (reverseEntry e).1⟩ := by
    rw [← ht2]
    unfold setTouch
    rw [if_pos rfl]
    rfl
  have v1 : t2 n1 = ⟨(t n1).obscurity, (t n1).count + 1, (t n1).connections ||| e.1⟩ := by
    rw [← ht2]
    unfold setTouch
    rw [if_neg (Ne.symm hne), if_pos rfl]
  have v0 : ∀ p, p ≠ n1 → p ≠ n2 → t2 p = t p := by
    intro p h1 h2
    rw [← ht2]
    unfold setTouch
    rw [if_neg h2, if_neg h1]
  have H : ∀ f ∈ touchTable, ∀ p, hasConnection (t2 p) f.1 ↔
      (hasConnection (t p) f.1 ∨ (p = n1 ∧ e = f) ∨ (p = n2 ∧ reverseEntry e = f)) := by
    intro f hf p
    by_cases h2 : p = n2
    · subst h2
      rw [v2]
      unfold hasConnection
      simp only []
      rw [and_or_bit _ hre hf]
      simp [hne]
    · by_cases h1 : p = n1
      · subst h1
        rw [v1]
        unfold hasConnection
        simp only []
        rw [and_or_bit _ he hf]
        simp [h2]
      · rw [v0 p h1 h2]
        simp [h1, h2]
  refine ⟨?_, ?_, ?_⟩
  · intro f hf p
    have hrf := touchTable_facts.2.2.2.2.1 f hf
    have hA := h.paired f hf p
    have e1 : f.2.2 = (reverseEntry f).1 := rfl
    rw [H f hf p, e1, H (reverseEntry f) hrf (p.shift f.2.1), ← e1]
    have k1 : (p = n1 ∧ e = f) ↔ (p.shift f.2.1 = n2 ∧ reverseEntry e = reverseEntry f) := by
      constructor
      · rintro ⟨rfl, rfl⟩
        exact ⟨hn2, rfl⟩
      · rintro ⟨a, b⟩
        have hef : e = f := by
          have := congrArg reverseEntry b
          rwa [reverseEntry_reverse, reverseEntry_reverse] at this
        subst hef
        rw [← hn2] at a
        exact ⟨shift_left_inj a, rfl⟩
    have k2 : (p = n2 ∧ reverseEntry e = f) ↔ (p.shift f.2.1 = n1 ∧ e = reverseEntry f) := by
      constructor
      · rintro ⟨rfl, rfl⟩
        refine ⟨?_, (reverseEntry_reverse e).symm⟩
        rw [← hn2]
        exact shift_reverse n1 e
      · rintro ⟨a, b⟩
        have hfe : reverseEntry e = f := (reverseEntry_eq_iff e f).2 b
        subst hfe
        refine ⟨?_, rfl⟩
        rw [← hn2]
        exact ((shift_reverse_iff n1 p e).2 a).symm
    rw [hA, k1, k2]
    exact or_congr_right or_comm
  · intro p
    have b4 : (4096 : Nat) = 2 ^ 12 := by norm_num
    by_cases h2 : p = n2
    · subst h2
      rw [v2]
      simp only []
      rw [b4]
      apply Nat.or_lt_two_pow
      · rw [← b4]; exact h.bits p
      · rw [← b4]; exact (touchTable_facts.2.2.2.2.2.2 _ hre).2
    · by_cases h1 : p = n1
      · subst h1
        rw [v1]
        simp only []
        rw [b4]
        apply Nat.or_lt_two_pow
        · rw [← b4]; exact h.bits p
        · rw [← b4]; exact (touchTable_facts.2.2.2.2.2.2 _ he).2
      · rw [v0 p h1 h2]
        exact h.bits p
  · intro p
    have hcp := h.counted p
    by_cases h2 : p = n2
    · subst h2
      have := connectionCount_or (c := t p) (d := t2 p) hre (by rw [v2])
      rw [v2] at this ⊢
      simp only [] at this ⊢
      omega
    · by_cases h1 : p = n1
      · subst h1
        have := connectionCount_or (c := t p) (d := t2 p) he (by rw [v1])
        rw [v1] at this ⊢
        simp only [] at this ⊢
        omega
      · rw [v0 p h1 h2]
        exact hcp

/-- The two cells and the two bits that `checkForTouchingEdge` selects: the second
cell lies at the offset of an entry of `touchTable` from the first, and the
bits are the two bits of that entry. -/
theorem touchPair_entry {s : ExportState} {b n1 n2 : IPoint} {ox oy oz : Int} {b1 b2 : Nat}
    (h : touchPair s b ox oy oz = some (n1, n2, b1, b2)) :
    ∃ e ∈ touchTable, e.1 = b1 ∧ e.2.2 = b2 ∧ n1.shift e.2.1 = n2 := by
  unfold touchPair at h
  simp only [] at h
  have key : ∀ (a1 a2 : Int × Int × Int) (e : Nat × (Int × Int × Int) × Nat),
      e ∈ touchTable → a1 + e.2.1 = a2 →
      some (b.shift a1, b.shift a2, e.1, e.2.2) = some (n1, n2, b1, b2) →
      ∃ e ∈ touchTable, e.1 = b1 ∧ e.2.2 = b2 ∧ n1.shift e.2.1 = n2 := by
    intro a1 a2 e he ha hs
    simp only [Option.some.injEq, Prod.mk.injEq] at hs
    obtain ⟨r1, r2, r3, r4⟩ := hs
    refine ⟨e, he, r3, r4, ?_⟩
    rw [← r1, ← r2, shift_shift, ha]
  split at h
  · split at h
    · split at h
      · exact key (1, 0, 0) (0, 1, 0) (TOUCH_MX_PY, (-1, 1, 0), TOUCH_PX_MY) (by decide) (by decide) h
      · split at h
        · exact key (1, 0, 0) (0, -1, 0) (TOUCH_MX_MY, (-1, -1, 0), TOUCH_PX_PY) (by decide) (by decide) h
        · split at h
          · exact key (1, 0, 0) (0, 0, 1) (TOUCH_MX_PZ, (-1, 0, 1), TOUCH_PX_MZ) (by decide) (by decide) h
          · exact key (1, 0, 0) (0, 0, -1) (TOUCH_MX_MZ, (-1, 0, -1), TOUCH_PX_PZ) (by decide)
              (by decide) h
    · exact absurd h (by simp)
  · split at h
    · split at h
      · exact key (0, 0, 1) (0, 1, 0) (TOUCH_PY_MZ, (0, 1, -1), TOUCH_MY_PZ) (by decide) (by decide) h
      · exact key (0, 0, 1) (0, -1, 0) (TOUCH_MY_MZ, (0, -1, -1), TOUCH_PY_PZ) (by decide) (by decide) h
    · exact absurd h (by simp)

theorem touchMark_one_linked (s : ExportState) (n : IPoint) (h : TouchLinked s.gTouchGrid) :
    TouchLinked (touchMark s n 0).gTouchGrid :=
  linked_mark_one n h

theorem touchMark_pair_linked (s : ExportState) (n1 : IPoint)
    {e : Nat × (Int × Int × Int) × Nat} (he : e ∈ touchTable) (h : TouchLinked s.gTouchGrid) :
    TouchLinked (touchMark (touchMark s n1 e.1) (n1.shift e.2.1) e.2.2).gTouchGrid := by
  have hne : n1.shift e.2.1 ≠ n1 := shift_ne_self (touchTable_facts.2.2.2.2.2.1 e he)
  have e1 : (touchMark s n1 e.1).gTouchGrid (n1.shift e.2.1) = s.gTouchGrid (n1.shift e.2.1) := by
    show setTouch s.gTouchGrid n1 _ (n1.shift e.2.1) = _
    unfold setTouch
    rw [if_neg hne]
  have e2 : (touchMark (touchMark s n1 e.1) (n1.shift e.2.1) e.2.2).gTouchGrid =
      setTouch (touchMark s n1 e.1).gTouchGrid (n1.shift e.2.1)
        ⟨((touchMark s n1 e.1).gTouchGrid (n1.shift e.2.1)).obscurity,
          ((touchMark s n1 e.1).gTouchGrid (n1.shift e.2.1)).count + 1,
          ((touchMark s n1 e.1).gTouchGrid (n1.shift e.2.1)).connections ||| e.2.2⟩ := rfl
  rw [e2, e1]
  exact linked_mark_pair n1 he h

/-- The function `checkForTouchingEdge` keeps the touch grid linked. -/
theorem checkForTouchingEdge_linked (s : ExportState) (b : IPoint) (ox oy oz : Int)
    (h : TouchLinked s.gTouchGrid) :
    TouchLinked (checkForTouchingEdge s b ox oy oz).gTouchGrid := by
  unfold checkForTouchingEdge
  simp only []
  by_cases c1 : (s.gBoxData (b.offset ox oy oz)).isSolid = true
  swap
  · rw [if_neg c1]
    exact h
  rw [if_pos c1]
  by_cases c2 : s.gOptions.EXPT_CONNECT_ALL_EDGES = true ∨
      (s.gBoxData b).group ≠ (s.gBoxData (b.offset ox oy oz)).group
  swap
  · rw [if_neg c2]
    exact h
  rw [if_pos c2]
  cases hp : touchPair s b ox oy oz with
  | none => exact h
  | some r =>
    obtain ⟨n1, n2, b1, b2⟩ := r
    obtain ⟨e, he, rfl, rfl, rfl⟩ := touchPair_entry hp
    simp only []
    generalize computeObscurity _ n1 = x1
    generalize computeObscurity _ (n1.shift e.2.1) = x2
    have h' : TouchLinked ({ s with gStats := { s.gStats with
        nonManifoldEdgesFound := s.gStats.nonManifoldEdgesFound + 1 } } : ExportState).gTouchGrid := h
    by_cases d1 : x1 ≥ x2 <;> by_cases d2 : x2 ≥ x1
    · have hx : x1 = x2 := le_antisymm d2 d1
      subst hx
      rw [if_pos d1, if_pos d2]
      simp only [decide_True, if_true]
      exact touchMark_pair_linked _ n1 he h'
    · have hx : ¬ x1 = x2 := by omega
      rw [if_pos d1, if_neg d2]
      simp only [hx, decide_False, Bool.false_eq_true, if_false]
      exact touchMark_one_linked _ n1 h'
    · have hx : ¬ x1 = x2 := by omega
      rw [if_neg d1, if_pos d2]
      simp only [hx, decide_False, Bool.false_eq_true, if_false]
      exact touchMark_one_linked _ _ h'
    · rw [if_neg d1, if_neg d2]
      exact h'

theorem touchScanCell_linked (t : ExportState) (b : IPoint) (h : TouchLinked t.gTouchGrid) :
    TouchLinked (touchScanCell t b).gTouchGrid := by
  unfold touchScanCell
  simp only []
  split
  · split
    · split
      · exact checkForTouchingEdge_linked _ _ _ _ _ (checkForTouchingEdge_linked _ _ _ _ _
          (checkForTouchingEdge_linked _ _ _ _ _ (checkForTouchingEdge_linked _ _ _ _ _
          (checkForTouchingEdge_linked _ _ _ _ _ (checkForTouchingEdge_linked _ _ _ _ _ h)))))
      · exact checkForTouchingEdge_linked _ _ _ _ _ (checkForTouchingEdge_linked _ _ _ _ _
          (checkForTouchingEdge_linked _ _ _ _ _ (checkForTouchingEdge_linked _ _ _ _ _ h)))
    · split
      · exact checkForTouchingEdge_linked _ _ _ _ _ (checkForTouchingEdge_linked _ _ _ _ _ h)
      · exact h
  · exact h

/-- The first loops of `fixTouchingEdges` keep the touch grid linked, whatever cells
they have visited. -/
theorem touchScan_linked (s : ExportState) (l : List IPoint) :
    TouchLinked (l.foldl touchScanCell
      { s with gTouchGrid := fun _ => ⟨0, 0, 0⟩, gTouchSize := 0 }).gTouchGrid := by
  apply foldl_inv (fun t : ExportState => TouchLinked t.gTouchGrid)
  · exact linked_zero
  · intro t b _ ht
    exact touchScanCell_linked t b ht

theorem decrementNeighbor_apply (x : IPoint) (connections : Nat) (t : IPoint → TouchCell)
    (a : Nat × (Int × Int × Int) × Nat) (q : IPoint) :
    decrementNeighbor x connections t a q =
      if connections &&& a.1 ≠ 0 ∧ q = x.shift a.2.1 then
        ⟨(t (x.shift a.2.1)).obscurity, (t (x.shift a.2.1)).count - 1,
          (t (x.shift a.2.1)).connections &&& bitNot32 a.2.2⟩
      else t q := by
  unfold decrementNeighbor
  by_cases hc : connections &&& a.1 ≠ 0
  · rw [if_pos hc]
    show setTouch t (x.shift a.2.1) _ q = _
    unfold setTouch
    by_cases hq : q = x.shift a.2.1
    · rw [if_pos hq, if_pos (And.intro hc hq)]
      rfl
    · rw [if_neg hq, if_neg (fun h => hq h.2)]
  · rw [if_neg hc, if_neg (fun h => hc h.1)]

/-- The loop of `decrementNeighbors` over a first part `pre` of `touchTable`: the
cells at the offsets of the entries of `pre` whose bit is set in `connections`
have their count lowered by one and the opposite bit cleared, and every other
cell is as it was. -/
theorem decrementNeighbor_fold (x : IPoint) (connections : Nat) (t0 : IPoint → TouchCell)
    (pre : List (Nat × (Int × Int × Int) × Nat)) :
    ∀ post, touchTable = pre ++ post →
      (∀ q, (∀ e ∈ pre, connections &&& e.1 ≠ 0 → q ≠ x.shift e.2.1) →
        pre.foldl (decrementNeighbor x connections) t0 q = t0 q) ∧
      (∀ e ∈ pre, connections &&& e.1 ≠ 0 →
        pre.foldl (decrementNeighbor x connections) t0 (x.shift e.2.1) =
          ⟨(t0 (x.shift e.2.1)).obscurity, (t0 (x.shift e.2.1)).count - 1,
            (t0 (x.shift e.2.1)).connections &&& bitNot32 e.2.2⟩) := by
  induction pre using List.reverseRecOn with
  | nil =>
    intro post _
    exact ⟨fun _ _ => rfl, fun e he => by simp at he⟩
  | append_singleton l a ih =>
    intro post hl
    have hl' : touchTable = l ++ a :: post := by
      rw [hl, List.append_assoc]
      rfl
    obtain ⟨i1, i2⟩ := ih (a :: post) hl'
    have hnd : (l ++ a :: post).Nodup := hl' ▸ touchTable_facts.1
    have ha : a ∈ touchTable := by
      rw [hl']
      simp
    have hmem : ∀ e ∈ l, e ∈ touchTable := by
      intro e he
      rw [hl']
      exact List.mem_append_left _ he
    have hal : ∀ e ∈ l, x.shift e.2.1 ≠ x.shift a.2.1 := by
      intro e he
      apply shift_ne
      intro h
      have hea := touchTable_facts.2.2.2.1 e (hmem e he) a ha h
      rw [hea] at he
      have := (List.nodup_append.1 hnd).2.2
      exact this he (List.mem_cons_self _ _)
    rw [List.foldl_append]
    simp only [List.foldl_cons, List.foldl_nil]
    have hstep := decrementNeighbor_apply x connections (l.foldl (decrementNeighbor x connections) t0) a
    constructor
    · intro q hq
      rw [hstep]
      have hqa : ¬ (connections &&& a.1 ≠ 0 ∧ q = x.shift a.2.1) := by
        rintro ⟨h1, h2⟩
        exact hq a (by simp) h1 h2
      rw [if_neg hqa]
      exact i1 q (fun e he => hq e (List.mem_append_left _ he))
    · intro e he hc
      rw [hstep]
      rcases List.mem_append.1 he with h1 | h1
      · rw [if_neg (fun h => hal e h1 h.2)]
        exact i2 e h1 hc
      · have hea : e = a := by simpa using h1
        subst hea
        rw [if_pos (And.intro hc rfl)]
        rw [i1 (x.shift e.2.1) (fun e' he' _ h => hal e' he' h.symm)]

/-- The touch grid after `decrementNeighbors` at the cell `x`: the cell itself has no
connection and no count, each cell that a connection bit of `x` pointed to has
its count lowered by one and the opposite bit cleared, and every other cell is
as it was. -/
theorem decrementNeighbors_grid (s : ExportState) (x : IPoint) :
    ((decrementNeighbors s x).gTouchGrid x).connections = 0 ∧
    ((decrementNeighbors s x).gTouchGrid x).count = 0 ∧
    (∀ e ∈ touchTable, hasConnection (s.gTouchGrid x) e.1 →
      (decrementNeighbors s x).gTouchGrid (x.shift e.2.1) =
        ⟨(s.gTouchGrid (x.shift e.2.1)).obscurity, (s.gTouchGrid (x.shift e.2.1)).count - 1,
          (s.gTouchGrid (x.shift e.2.1)).connections &&& bitNot32 e.2.2⟩) ∧
    (∀ q, q ≠ x → (∀ e ∈ touchTable, hasConnection (s.gTouchGrid x) e.1 → q ≠ x.shift e.2.1) →
      (decrementNeighbors s x).gTouchGrid q = s.gTouchGrid q) := by
  obtain ⟨i1, i2⟩ := decrementNeighbor_fold x (s.gTouchGrid x).connections s.gTouchGrid
    touchTable [] (by simp)
  have hg : ∀ q, (decrementNeighbors s x).gTouchGrid q =
      if q = x then
        ⟨(touchTable.foldl (decrementNeighbor x (s.gTouchGrid x).connections) s.gTouchGrid x).obscurity,
          0, 0⟩
      else touchTable.foldl (decrementNeighbor x (s.gTouchGrid x).connections) s.gTouchGrid q := by
    intro q
    rfl
  refine ⟨?_, ?_, ?_, ?_⟩
  · rw [hg, if_pos rfl]
  · rw [hg, if_pos rfl]
  · intro e he hc
    have hne : x.shift e.2.1 ≠ x := shift_ne_self (touchTable_facts.2.2.2.2.2.1 e he)
    rw [hg, if_neg hne]
    exact i2 e he hc
  · intro q hq hn
    rw [hg, if_neg hq]
    exact i1 q hn

/-- After `decrementNeighbors` at the cell `x` a connection bit of another cell is
set exactly when it was set before and does not point to `x`. -/
theorem decrementNeighbors_bits {s : ExportState} (x : IPoint) (h : TouchLinked s.gTouchGrid)
    {f : Nat × (Int × Int × Int) × Nat} (hf : f ∈ touchTable) {q : IPoint} (hq : q ≠ x) :
    hasConnection ((decrementNeighbors s x).gTouchGrid q) f.1 ↔
      (hasConnection (s.gTouchGrid q) f.1 ∧ q.shift f.2.1 ≠ x) := by
  obtain ⟨_, _, d2, d3⟩ := decrementNeighbors_grid s x
  have hrf := touchTable_facts.2.2.2.2.1 f hf
  by_cases hn : ∃ e ∈ touchTable, hasConnection (s.gTouchGrid x) e.1 ∧ q = x.shift e.2.1
  · obtain ⟨e, he, hc, rfl⟩ := hn
    have hre := touchTable_facts.2.2.2.2.1 e he
    rw [d2 e he hc]
    have e1 : e.2.2 = (reverseEntry e).1 := rfl
    unfold hasConnection
    simp only []
    rw [e1, and_clear_bit _ hre hf]
    have k : reverseEntry e ≠ f ↔ (x.shift e.2.1).shift f.2.1 ≠ x := by
      rw [not_iff_not]
      constructor
      · intro hef
        rw [← hef]
        exact shift_reverse x e
      · intro hs
        have h1 := (shift_reverse_iff (x.shift e.2.1) x f).1 hs
        have h2 := shift_inj h1
        have h3 := touchTable_facts.2.2.2.1 _ hrf e he h2
        exact ((reverseEntry_eq_iff f e).1 h3).symm
    rw [k]
  · have hn' : ∀ e ∈ touchTable, hasConnection (s.gTouchGrid x) e.1 → q ≠ x.shift e.2.1 :=
      fun e he hc hqe => hn ⟨e, he, hc, hqe⟩
    rw [d3 q hq hn']
    constructor
    · intro hc
      refine ⟨hc, ?_⟩
      intro hs
      have hp := (h.paired f hf q).1 hc
      rw [hs] at hp
      exact hn' (reverseEntry f) hrf hp ((shift_reverse_iff q x f).1 hs).symm
    · exact fun hc => hc.1

/-- The function `decrementNeighbors` keeps the touch grid linked. -/
theorem decrementNeighbors_linked {s : ExportState} (x : IPoint) (h : TouchLinked s.gTouchGrid) :
    TouchLinked (decrementNeighbors s x).gTouchGrid := by
  obtain ⟨d0, d1, d2, d3⟩ := decrementNeighbors_grid s x
  have hx0 : ∀ b, ¬ hasConnection ((decrementNeighbors s x).gTouchGrid x) b := by
    intro b
    unfold hasConnection
    rw [d0]
    simp
  have hcases : ∀ q, q = x ∨
      (∃ e ∈ touchTable, hasConnection (s.gTouchGrid x) e.1 ∧ q = x.shift e.2.1) ∨
      (decrementNeighbors s x).gTouchGrid q = s.gTouchGrid q := by
    intro q
    by_cases hq : q = x
    · exact Or.inl hq
    · by_cases hn : ∃ e ∈ touchTable, hasConnection (s.gTouchGrid x) e.1 ∧ q = x.shift e.2.1
      · exact Or.inr (Or.inl hn)
      · exact Or.inr (Or.inr (d3 q hq (fun e he hc hqe => hn ⟨e, he, hc, hqe⟩)))
  refine ⟨?_, ?_, ?_⟩
  · intro f hf p
    have hrf := touchTable_facts.2.2.2.2.1 f hf
    have e1 : f.2.2 = (reverseEntry f).1 := rfl
    have hne : p.shift f.2.1 ≠ p := shift_ne_self (touchTable_facts.2.2.2.2.2.1 f hf)
    by_cases hp : p = x
    · subst hp
      rw [e1, decrementNeighbors_bits p h hrf hne]
      constructor
      · intro hc
        exact absurd hc (hx0 _)
      · intro hc
        exact absurd (shift_reverse p f) hc.2
    · rw [decrementNeighbors_bits x h hf hp]
      by_cases hs : p.shift f.2.1 = x
      · rw [hs]
        constructor
        · intro hc
          exact absurd rfl hc.2
        · intro hc
          exact absurd hc (hx0 _)
      · rw [e1, decrementNeighbors_bits x h hrf hs, shift_reverse, ← e1]
        constructor
        · intro hc
          exact ⟨(h.paired f hf p).1 hc.1, hp⟩
        · intro hc
          exact ⟨(h.paired f hf p).2 hc.1, hs⟩
  · intro q
    rcases hcases q with rfl | ⟨e, he, hc, rfl⟩ | hq
    · rw [d0]
      decide
    · rw [d2 e he hc]
      simp only []
      exact lt_of_le_of_lt Nat.and_le_left (h.bits _)
    · rw [hq]
      exact h.bits q
  · intro q
    rcases hcases q with rfl | ⟨e, he, hc, rfl⟩ | hq
    · rw [connectionCount_zero d0, d1]
      decide
    · have hre := touchTable_facts.2.2.2.2.1 e he
      have hset : hasConnection (s.gTouchGrid (x.shift e.2.1)) (reverseEntry e).1 :=
        (h.paired e he x).1 hc
      have := connectionCount_clear (c := s.gTouchGrid (x.shift e.2.1))
        (d := (decrementNeighbors s x).gTouchGrid (x.shift e.2.1)) hre (by rw [d2 e he hc]; rfl) hset
      have hcnt := h.counted (x.shift e.2.1)
      have hv : ((decrementNeighbors s x).gTouchGrid (x.shift e.2.1)).count =
          (s.gTouchGrid (x.shift e.2.1)).count - 1 := by
        rw [d2 e he hc]
      rw [hv]
      omega
    · rw [hq]
      exact h.counted q

/-- No count is negative at any point of the loop of `decrementNeighbors` on a linked
touch grid. -/
theorem decrementNeighbors_nonneg {s : ExportState} (x : IPoint) (h : TouchLinked s.gTouchGrid)
    (k : Nat) (q : IPoint) :
    0 ≤ ((touchTable.take k).foldl (decrementNeighbor x (s.gTouchGrid x).connections)
      s.gTouchGrid q).count := by
  obtain ⟨i1, i2⟩ := decrementNeighbor_fold x (s.gTouchGrid x).connections s.gTouchGrid
    (touchTable.take k) (touchTable.drop k) (List.take_append_drop k touchTable).symm
  have hm : ∀ e ∈ touchTable.take k, e ∈ touchTable := fun e he => List.mem_of_mem_take he
  by_cases hn : ∃ e ∈ touchTable.take k, (s.gTouchGrid x).connections &&& e.1 ≠ 0 ∧
      q = x.shift e.2.1
  · obtain ⟨e, he, hc, rfl⟩ := hn
    rw [i2 e he hc]
    simp only []
    have hre := touchTable_facts.2.2.2.2.1 e (hm e he)
    have hset : hasConnection (s.gTouchGrid (x.shift e.2.1)) (reverseEntry e).1 :=
      (h.paired e (hm e he) x).1 hc
    have := connectionCount_clear (c := s.gTouchGrid (x.shift e.2.1))
      (d := ⟨0, 0, (s.gTouchGrid (x.shift e.2.1)).connections &&& bitNot32 (reverseEntry e).1⟩)
      hre rfl hset
    have hcnt := h.counted (x.shift e.2.1)
    omega
  · rw [i1 q (fun e he hc hqe => hn ⟨e, he, hc, hqe⟩)]
    have hcnt := h.counted q
    omega

theorem fillGroups_touchGrid (bi : BlockInfo) (s : ExportState) (bounds : IBox) (m : Nat)
    (solid : Bool) (fillType : Nat) (tg : Nat → Int) :
    (fillGroups bi s bounds m solid fillType tg).gTouchGrid = s.gTouchGrid := by
  unfold fillGroups
  apply foldl_inv (fun t : ExportState => t.gTouchGrid = s.gTouchGrid)
  · rfl
  · intro t loc _ ht
    rw [← ht]
    unfold fillGroupsCell
    split <;> rfl

/-- Filling one cell in the loop of `fixTouchingEdges` keeps the touch grid linked. -/
theorem fillTouchCell_linked (bi : BlockInfo) (s : ExportState) (x : IPoint)
    (h : TouchLinked s.gTouchGrid) : TouchLinked (fillTouchCell bi s x).gTouchGrid := by
  rw [fillTouchCell_eq]
  have h1 := decrementNeighbors_linked x h
  split
  · split
    · rw [fillGroups_touchGrid]
      exact h1
    · exact h1
  · exact h

theorem fillTouchCell_fold_linked (bi : BlockInfo) (s : ExportState) (l : List IPoint)
    (h : TouchLinked s.gTouchGrid) : TouchLinked (l.foldl (fillTouchCell bi) s).gTouchGrid := by
  apply foldl_inv (fun t : ExportState => TouchLinked t.gTouchGrid)
  · exact h
  · intro t b _ ht
    exact fillTouchCell_linked bi t b ht

theorem fixTouchingEdges_grid_linked (bi : BlockInfo) (qsort_s : Qsort) (s : ExportState) :
    TouchLinked (fixTouchingEdges bi qsort_s s).2.gTouchGrid := by
  rw [fixTouchingEdges_eq]
  have h1 : TouchLinked (touchScan s).gTouchGrid := touchScan_linked s (boxCells s.gSolidBox)
  split
  · exact h1
  · exact fillTouchCell_fold_linked bi _ _ h1


/-! ## Lemmas on the merging of bubbles and on the compositing of swatches -/

/-- One step of the loop of `checkAndRemoveBubbles`: in a state whose books are kept
(`Booked`), in which every cell of a group lies inside the bounds of the group
(`Bounded`) and the bounds inside the array, and in which group 1 is air, let `i`
be an air group among `2 .. gGroupCount` for which the asserts of
`findNeighboringGroups` hold and which has a face-adjacent solid group. Then the
step for `i` merges the bubble into the face-adjacent solid group `m` of largest
population, the one of lowest id among those of that population: after the step
every cell of the array that was in the bubble or in a solid group face-adjacent
to it is in group `m`, and the bubble and the other such groups have
population 0. -/
theorem removeBubble_step (bi : BlockInfo) (fillType : Nat) (s : ExportState) (i : Nat)
    (hb : Booked s) (hbd : Bounded s) (hh : Hulled s)
    (hfirst : (s.gGroupList SURROUND_AIR_GROUP).solid = false)
    (hi2 : 2 ≤ i) (hile : i ≤ s.gGroupCount) (hair : (s.gGroupList i).solid = false)
    (hassert : neighborAsserts s (s.gGroupList i).bounds)
    (hadj : ∃ g, solidNeighbor s i g) :
    ∃ m, solidNeighbor s i m ∧
      (∀ g, solidNeighbor s i g →
        (s.gGroupList g).population ≤ (s.gGroupList m).population ∧
        ((s.gGroupList g).population = (s.gGroupList m).population → m ≤ g)) ∧
      (∀ p, (arrayBox s).contains p = true →
        ((s.gBoxData p).group = i ∨ solidNeighbor s i (s.gBoxData p).group) →
        ((removeBubble bi fillType s i).gBoxData p).group = m) ∧
      (∀ g, g = i ∨ solidNeighbor s i g → g ≠ m →
        ((removeBubble bi fillType s i).gGroupList g).population = 0) := by
  have hflag := bubbleNeighbors_pos hb hbd hi2 hile hassert
  have hsi := bubbleMaster_spec s i
  have hrange : ∀ g, solidNeighbor s i g →
      g ∈ groupRange SURROUND_AIR_GROUP s.gGroupCount := fun g hg =>
    mem_groupRange.2 ⟨hg.1, hg.2.1⟩
  -- a bubble cell and its neighbours lie in the array
  have hnear : ∀ p q, (arrayBox s).contains p = true → (s.gBoxData p).group = i →
      faceAdjacent p q → (arrayBox s).contains q = true := by
    intro p q hpa hpg hpq
    have hpb := hbd p hpa (by rw [hpg]; exact hi2)
    rw [hpg] at hpb
    unfold neighborAsserts at hassert
    unfold faceAdjacent at hpq
    rw [contains_iff] at hpb ⊢
    simp only [arrayBox]
    omega
  have hpop1 : ∀ g, solidNeighbor s i g → 1 ≤ (s.gGroupList g).population := by
    rintro g ⟨h1, hle, _, p, q, hpa, hpg, hpq, hqg⟩
    rw [hb.pop g h1 (Or.inl hle)]
    exact_mod_cast groupCells_pos (hnear p q hpa hpg hpq) hqg
  have hpos : (bubbleMaster s i).masterGroupID ≥ 0 := by
    by_contra hneg
    obtain ⟨g, hg⟩ := hadj
    have := (hsi.unset (by omega)).2.2 g (hrange g hg) ((hflag g).2 (Or.inr hg.2.2.2)) hg.2.2.1
    have := hpop1 g hg
    omega
  obtain ⟨c1, c2, c3, _, _, c6⟩ := hsi.chosen hpos
  have hmi : (bubbleMaster s i).masterGroupID.toNat ≠ i := by
    intro e
    rw [e, hair] at c3
    exact absurd c3 (by simp)
  have hm : solidNeighbor s i (bubbleMaster s i).masterGroupID.toNat := by
    have := mem_groupRange.1 c1
    refine ⟨this.1, this.2, c3, ?_⟩
    rcases (hflag _).1 c2 with h | h
    · exact absurd h hmi
    · exact h
  -- the target flags
  have hng : ∀ g, g = i ∨ solidNeighbor s i g → g ≠ (bubbleMaster s i).masterGroupID.toNat →
      setFlag (setFlag (bubbleMaster s i).neighborGroups
        (bubbleMaster s i).masterGroupID.toNat 0) i 1 g > 0 := by
    intro g hg hgm
    unfold setFlag
    by_cases hgi : g = i
    · simp [hgi]
    · rw [if_neg hgi, if_neg hgm, hsi.flags g]
      rcases hg with hg | hg
      · exact absurd hg hgi
      · have : ¬ (s.gGroupList g).solid = false := by rw [hg.2.2.1]; simp
        rw [if_neg (fun h => this h.2.2)]
        exact (hflag g).2 (Or.inr hg.2.2.2)
  have hng0 : ¬ setFlag (setFlag (bubbleMaster s i).neighborGroups
      (bubbleMaster s i).masterGroupID.toNat 0) i 1
        (bubbleMaster s i).masterGroupID.toNat > 0 := by
    unfold setFlag
    rw [if_neg hmi]
    simp
  have hg2 : ∀ g, g = i ∨ solidNeighbor s i g → 2 ≤ g ∧ g ≤ s.gGroupCount := by
    rintro g (hg | hg)
    · rw [hg]; exact ⟨hi2, hile⟩
    · refine ⟨?_, hg.2.1⟩
      have h1 := hg.1
      by_contra hlt
      have : g = SURROUND_AIR_GROUP := by unfold SURROUND_AIR_GROUP; omega
      have h3 := hg.2.2.1
      rw [this, hfirst] at h3
      exact absurd h3 (by simp)
  have hu := removeBubble_master bi fillType s i hair hpos
  have hf := fillGroups_spec bi (bubbleCounted s (bubbleMaster s i))
    (unionBounds (bubbleCounted s (bubbleMaster s i))
      (setFlag (setFlag (bubbleMaster s i).neighborGroups
        (bubbleMaster s i).masterGroupID.toNat 0) i 1))
    (bubbleMaster s i).masterGroupID.toNat true fillType
    (setFlag (setFlag (bubbleMaster s i).neighborGroups
      (bubbleMaster s i).masterGroupID.toNat 0) i 1)
  -- the cells of the bubble and of the groups next to it move to the master group
  have hmove : ∀ p, (arrayBox s).contains p = true →
      ((s.gBoxData p).group = i ∨ solidNeighbor s i (s.gBoxData p).group) →
      ((removeBubble bi fillType s i).gBoxData p).group =
        (bubbleMaster s i).masterGroupID.toNat := by
    intro p hpa hpg
    have hcell : (bubbleCounted s (bubbleMaster s i)).gBoxData p = s.gBoxData p := rfl
    rw [hu]
    show ((fillGroups _ _ _ _ _ _ _).gBoxData p).group = _
    by_cases hpm : (s.gBoxData p).group = (bubbleMaster s i).masterGroupID.toNat
    · rw [hf.idle p (by
        rw [hcell, hpm]
        exact hng0), hcell]
      exact hpm
    · have hin : p ∈ boxCells (unionBounds (bubbleCounted s (bubbleMaster s i))
          (setFlag (setFlag (bubbleMaster s i).neighborGroups
            (bubbleMaster s i).masterGroupID.toNat 0) i 1)) := by
        rw [mem_boxCells]
        exact unionBounds_contains _ _ (hg2 _ hpg).1 (hg2 _ hpg).2 (hng _ hpg hpm)
          (hbd p hpa (hg2 _ hpg).1)
      exact (hf.moved p hin (hng _ hpg hpm)).1.1
  refine ⟨_, hm, ?_, hmove, ?_⟩
  · intro g hg
    obtain ⟨a, b⟩ := c6 g (hrange g hg) ((hflag g).2 (Or.inr hg.2.2.2)) hg.2.2.1
    exact ⟨a, fun e => by
      by_contra hlt
      have := b (by omega)
      omega⟩
  · intro g hg hgm
    obtain ⟨p0, hp0⟩ : ∃ p, (arrayBox s).contains p = true := by
      obtain ⟨_, _, _, p, _, hpa, _⟩ := hm
      exact ⟨p, hpa⟩
    have he : (arrayBox s).inside emptyBounds := by
      rw [contains_iff] at hp0
      simp only [arrayBox] at hp0
      simp only [IBox.inside, arrayBox, emptyBounds]
      omega
    have hpops := fillGroups_pops bi (bubbleCounted s (bubbleMaster s i))
      (unionBounds (bubbleCounted s (bubbleMaster s i))
        (setFlag (setFlag (bubbleMaster s i).neighborGroups
          (bubbleMaster s i).masterGroupID.toNat 0) i 1))
      (bubbleMaster s i).masterGroupID.toNat true fillType
      (setFlag (setFlag (bubbleMaster s i).neighborGroups
        (bubbleMaster s i).masterGroupID.toNat 0) i 1)
      (unionBounds_inside (bubbleCounted s (bubbleMaster s i)) _ hh he)
      (fun g h1 hle => hb.pop g h1 (Or.inl hle)) g (by have := (hg2 g hg).1; omega) (hg2 g hg).2
    rw [hu]
    show ((fillGroups _ _ _ _ _ _ _).gGroupList g).population = 0
    rw [hpops]
    have hz : groupCells (fillGroups bi (bubbleCounted s (bubbleMaster s i))
        (unionBounds (bubbleCounted s (bubbleMaster s i))
          (setFlag (setFlag (bubbleMaster s i).neighborGroups
            (bubbleMaster s i).masterGroupID.toNat 0) i 1))
        (bubbleMaster s i).masterGroupID.toNat true fillType
        (setFlag (setFlag (bubbleMaster s i).neighborGroups
          (bubbleMaster s i).masterGroupID.toNat 0) i 1)) g = 0 := by
      apply groupCells_eq_zero
      intro p hpa hpg
      have hpa' : (arrayBox s).contains p = true := by
        have : arrayBox (fillGroups bi (bubbleCounted s (bubbleMaster s i))
            (unionBounds (bubbleCounted s (bubbleMaster s i))
              (setFlag (setFlag (bubbleMaster s i).neighborGroups
                (bubbleMaster s i).masterGroupID.toNat 0) i 1))
            (bubbleMaster s i).masterGroupID.toNat true fillType
            (setFlag (setFlag (bubbleMaster s i).neighborGroups
              (bubbleMaster s i).masterGroupID.toNat 0) i 1)) = arrayBox s := by
          unfold arrayBox
          rw [hf.kept.refilled.boxSize]
          rfl
        rw [← this]
        exact hpa
      by_cases hsg : (s.gBoxData p).group = g
      · have := hmove p hpa' (by
          rw [hsg]
          rcases hg with hg | hg
          · exact Or.inl hg
          · exact Or.inr hg)
        rw [hu] at this
        exact hgm (hpg.symm.trans this)
      · by_cases htg : setFlag (setFlag (bubbleMaster s i).neighborGroups
            (bubbleMaster s i).masterGroupID.toNat 0) i 1 (s.gBoxData p).group > 0
        · by_cases hin : p ∈ boxCells (unionBounds (bubbleCounted s (bubbleMaster s i))
              (setFlag (setFlag (bubbleMaster s i).neighborGroups
                (bubbleMaster s i).masterGroupID.toNat 0) i 1))
          · have := (hf.moved p hin htg).1.1
            exact hgm (hpg.symm.trans this)
          · rw [hf.rest p hin] at hpg
            exact hsg hpg
        · rw [hf.idle p htg] at hpg
          exact hsg hpg
    rw [hz]
    rfl

/-- For every pixel that `compositePNGSwatches` visits, the texel written to the
destination is computed from the over texel and the under texel read at the same
offset, and it is the under texel when the over alpha is 0, the over texel when
the over alpha is 255, and otherwise the texel with the channels
`floor((o*oa*255 + u*ua*(255-oa)) / 255^2)` and the alpha
`floor((oa*255 + ua*(255-oa)) / 255)`, which are all at most 255, so that the
casts to `unsigned char` change nothing; in this blended case the alpha is 255
whenever the under alpha `ua` is 255. Here `ua` is the variable of that name: the
alpha of the under texel, replaced by 255 when `forceSolid` is set (every call in
the source passes 0). -/
theorem compositeTexel_cases (forceSolid : Int) (over under : Nat) :
    (∀ (overi underi dsti off : Int) (img : Int → Nat),
      compositeStep forceSolid overi underi dsti img off (dsti + off) =
        compositeTexel forceSolid (img (overi + off)) (img (underi + off))) ∧
    ((GET_PNG_TEXEL over).a = 0 → compositeTexel forceSolid over under = under) ∧
    ((GET_PNG_TEXEL over).a = 255 → compositeTexel forceSolid over under = over) ∧
    ((GET_PNG_TEXEL over).a ≠ 0 → (GET_PNG_TEXEL over).a ≠ 255 →
      ∀ ua, ua = (if forceSolid ≠ 0 then 255 else (GET_PNG_TEXEL under).a) →
        GET_PNG_TEXEL (compositeTexel forceSolid over under) =
          ⟨((GET_PNG_TEXEL over).r * (GET_PNG_TEXEL over).a * 255 +
              (GET_PNG_TEXEL under).r * ua * (255 - (GET_PNG_TEXEL over).a)) / (255 * 255),
            ((GET_PNG_TEXEL over).g * (GET_PNG_TEXEL over).a * 255 +
              (GET_PNG_TEXEL under).g * ua * (255 - (GET_PNG_TEXEL over).a)) / (255 * 255),
            ((GET_PNG_TEXEL over).b * (GET_PNG_TEXEL over).a * 255 +
              (GET_PNG_TEXEL under).b * ua * (255 - (GET_PNG_TEXEL over).a)) / (255 * 255),
            ((GET_PNG_TEXEL over).a * 255 + ua * (255 - (GET_PNG_TEXEL over).a)) / 255⟩ ∧
        ((GET_PNG_TEXEL over).r * (GET_PNG_TEXEL over).a * 255 +
            (GET_PNG_TEXEL under).r * ua * (255 - (GET_PNG_TEXEL over).a)) / (255 * 255) ≤ 255 ∧
        ((GET_PNG_TEXEL over).g * (GET_PNG_TEXEL over).a * 255 +
            (GET_PNG_TEXEL under).g * ua * (255 - (GET_PNG_TEXEL over).a)) / (255 * 255) ≤ 255 ∧
        ((GET_PNG_TEXEL over).b * (GET_PNG_TEXEL over).a * 255 +
            (GET_PNG_TEXEL under).b * ua * (255 - (GET_PNG_TEXEL over).a)) / (255 * 255) ≤ 255 ∧
        ((GET_PNG_TEXEL over).a * 255 + ua * (255 - (GET_PNG_TEXEL over).a)) / 255 ≤ 255 ∧
        (ua = 255 → (GET_PNG_TEXEL (compositeTexel forceSolid over under)).a = 255)) := by
  obtain ⟨hor, hog, hob, hoa⟩ := GET_PNG_TEXEL_le over
  obtain ⟨hur, hug, hub, hua⟩ := GET_PNG_TEXEL_le under
  refine ⟨?_, ?_, ?_, ?_⟩
  · intro overi underi dsti off img
    unfold compositeStep setAt
    rw [if_pos rfl]
  · intro h
    unfold compositeTexel
    simp only [h, if_true]
  · intro h
    unfold compositeTexel
    simp only [h]
    rfl
  · intro h0 h255 ua hua'
    have hual : ua ≤ 255 := by
      rw [hua']
      split
      · exact le_refl _
      · exact hua
    have homa : (255 - (GET_PNG_TEXEL over).a) % 256 = 255 - (GET_PNG_TEXEL over).a := by omega
    have hr := blend_le _ _ _ _ hor hoa hur hual
    have hg := blend_le _ _ _ _ hog hoa hug hual
    have hb := blend_le _ _ _ _ hob hoa hub hual
    have ha := blendAlpha_le _ _ hoa hual
    have e : compositeTexel forceSolid over under =
        SET_PNG_TEXEL
          (((GET_PNG_TEXEL over).r * (GET_PNG_TEXEL over).a * 255 +
              (GET_PNG_TEXEL under).r * ua * (255 - (GET_PNG_TEXEL over).a)) / (255 * 255))
          (((GET_PNG_TEXEL over).g * (GET_PNG_TEXEL over).a * 255 +
              (GET_PNG_TEXEL under).g * ua * (255 - (GET_PNG_TEXEL over).a)) / (255 * 255))
          (((GET_PNG_TEXEL over).b * (GET_PNG_TEXEL over).a * 255 +
              (GET_PNG_TEXEL under).b * ua * (255 - (GET_PNG_TEXEL over).a)) / (255 * 255))
          (((GET_PNG_TEXEL over).a * 255 + ua * (255 - (GET_PNG_TEXEL over).a)) / 255) := by
      unfold compositeTexel
      simp only []
      rw [if_neg h0, homa, if_neg (by omega), ← hua']
      unfold blendChannel blendAlpha
      rw [Nat.mod_eq_of_lt (by omega), Nat.mod_eq_of_lt (by omega), Nat.mod_eq_of_lt (by omega),
        Nat.mod_eq_of_lt (by omega)]
    have e2 := GET_SET_PNG_TEXEL _ _ _ _ hr hg hb ha
    rw [← e] at e2
    refine ⟨e2, hr, hg, hb, ha, ?_⟩
    intro h
    rw [e2]
    simp only [h]
    exact blendAlpha_opaque _ hoa

/-- A row and a column below the width are determined by the index of the texel. -/
theorem index_inj {W y y' x x' : Int} (hx : 0 ≤ x) (hxW : x < W) (hx' : 0 ≤ x') (hxW' : x' < W)
    (h : y * W + x = y' * W + x') : y = y' ∧ x = x' := by
  have e1 : (x + y * W) % W = x := by
    rw [Int.add_mul_emod_self, Int.emod_eq_of_lt hx hxW]
  have e2 : (x' + y' * W) % W = x' := by
    rw [Int.add_mul_emod_self, Int.emod_eq_of_lt hx' hxW']
  have hxx : x = x' := by
    rw [← e1, ← e2, add_comm x, add_comm x', h]
  refine ⟨?_, hxx⟩
  have hW : W ≠ 0 := by omega
  have : y * W = y' * W := by omega
  exact Int.eq_of_mul_eq_mul_right hW this

/-- Two texels of swatches with the same index have the same row and the same column
within their swatches. -/
theorem swatchTexel_inj {W S P sw sw' row col row' col' : Int} (hS : 0 < S) (hP : 0 < P)
    (hW : P * S ≤ W) (hsw : 0 ≤ sw) (hsw' : 0 ≤ sw')
    (hr : 0 ≤ row ∧ row < S) (hc : 0 ≤ col ∧ col < S)
    (hr' : 0 ≤ row' ∧ row' < S) (hc' : 0 ≤ col' ∧ col' < S)
    (h : swatchTexel W sw S P row col = swatchTexel W sw' S P row' col') :
    row = row' ∧ col = col' := by
  unfold swatchTexel at h
  have c0 := Int.tmod_nonneg P hsw
  have c1 := Int.tmod_lt_of_pos sw hP
  have c0' := Int.tmod_nonneg P hsw'
  have c1' := Int.tmod_lt_of_pos sw' hP
  generalize Int.tmod sw P = c at h c0 c1
  generalize Int.tmod sw' P = c' at h c0' c1'
  generalize Int.tdiv sw P = r at h
  generalize Int.tdiv sw' P = r' at h
  have m0 : 0 ≤ c * S := mul_nonneg c0 (le_of_lt hS)
  have m0' : 0 ≤ c' * S := mul_nonneg c0' (le_of_lt hS)
  have m1 : (c + 1) * S ≤ P * S := mul_le_mul_of_nonneg_right (by omega) (le_of_lt hS)
  have m1' : (c' + 1) * S ≤ P * S := mul_le_mul_of_nonneg_right (by omega) (le_of_lt hS)
  have e1 : (c + 1) * S = c * S + S := by ring
  have e1' : (c' + 1) * S = c' * S + S := by ring
  have h2 : (r * S + row) * W + (c * S + col) = (r' * S + row') * W + (c' * S + col') := by
    have a1 : (r * S + row) * W + (c * S + col) = r * S * W + c * S + (row * W + col) := by ring
    have a2 : (r' * S + row') * W + (c' * S + col') = r' * S * W + c' * S + (row' * W + col') := by
      ring
    rw [a1, a2]
    exact h
  obtain ⟨hy, hx⟩ := index_inj (by omega) (by omega) (by omega) (by omega) h2
  exact ⟨(index_inj hr.1 hr.2 hr'.1 hr'.2 hy).2, (index_inj hc.1 hc.2 hc'.1 hc'.2 hx).2⟩

/-- A loop that writes at `d + off x` what it computes from the values at `a + off x`
and `b + off x`, in one image: when no write hits a place that is read for
another `x`, every value written is computed from the values of the image before
the loop, and nothing else changes. -/
theorem inplace_fold {γ : Type} (f : Nat → Nat → Nat) (a b d : Int) (off : γ → Int)
    (l : List γ) (img0 : Int → Nat) (hnd : l.Nodup)
    (hsafe : ∀ x ∈ l, ∀ y ∈ l, x ≠ y →
      d + off y ≠ d + off x ∧ d + off y ≠ a + off x ∧ d + off y ≠ b + off x) :
    (∀ x ∈ l, l.foldl (fun img x => setAt img (d + off x) (f (img (a + off x)) (img (b + off x))))
        img0 (d + off x) = f (img0 (a + off x)) (img0 (b + off x))) ∧
    (∀ k, (∀ x ∈ l, k ≠ d + off x) →
      l.foldl (fun img x => setAt img (d + off x) (f (img (a + off x)) (img (b + off x))))
        img0 k = img0 k) := by
  have key := foldl_prefix_inv
    (fun img x => setAt img (d + off x) (f (img (a + off x)) (img (b + off x))))
    (fun (pre : List γ) (img : Int → Nat) =>
      (∀ x ∈ pre, img (d + off x) = f (img0 (a + off x)) (img0 (b + off x))) ∧
      (∀ k, (∀ x ∈ pre, k ≠ d + off x) → img k = img0 k))
    l img0 ⟨fun x hx => by simp at hx, fun _ _ => rfl⟩ ?_
  · exact key
  · rintro pre x post img hl ⟨h1, h2⟩
    have hnd' := hnd
    rw [hl] at hnd'
    have hxpre : x ∉ pre := by
      intro hm
      exact (List.nodup_append.1 hnd').2.2 hm (List.mem_cons_self _ _)
    have hxl : x ∈ l := by rw [hl]; simp
    have hpl : ∀ y ∈ pre, y ∈ l := fun y hy => by rw [hl]; exact List.mem_append_left _ hy
    have hne : ∀ y ∈ pre, x ≠ y := fun y hy e => hxpre (e ▸ hy)
    have ra : img (a + off x) = img0 (a + off x) :=
      h2 _ (fun y hy e => (hsafe x hxl y (hpl y hy) (hne y hy)).2.1 e.symm)
    have rb : img (b + off x) = img0 (b + off x) :=
      h2 _ (fun y hy e => (hsafe x hxl y (hpl y hy) (hne y hy)).2.2 e.symm)
    constructor
    · intro y hy
      rcases List.mem_append.1 hy with hy | hy
      · have : d + off y ≠ d + off x := (hsafe x hxl y (hpl y hy) (hne y hy)).1
        show setAt img (d + off x) _ (d + off y) = _
        unfold setAt
        rw [if_neg this]
        exact h1 y hy
      · have : y = x := by simpa using hy
        subst this
        show setAt img (d + off y) _ (d + off y) = _
        unfold setAt
        rw [if_pos rfl, ra, rb]
    · intro k hk
      have hkx : k ≠ d + off x := hk x (by simp)
      show setAt img (d + off x) _ k = _
      unfold setAt
      rw [if_neg hkx]
      exact h2 k (fun y hy => hk y (List.mem_append_left _ hy))

/-- The image that `compositePNGSwatches` leaves: every texel of the destination
swatch is computed by `compositeTexel` from the texels of the over swatch and of
the under swatch that the image held at the same row and column before the call
(also when the destination is one of the two, as in the calls that composite in
place), and every other texel and the width are unchanged. -/
theorem compositePNGSwatches_texels (dst : PngImage)
    (dstSwatch overSwatch underSwatch swatchSize swatchesPerRow forceSolid : Int)
    (hS : 0 < swatchSize) (hP : 0 < swatchesPerRow)
    (hW : swatchesPerRow * swatchSize ≤ dst.width)
    (hd : 0 ≤ dstSwatch) (ho : 0 ≤ overSwatch) (hu : 0 ≤ underSwatch) :
    (∀ row col, 0 ≤ row → row < swatchSize → 0 ≤ col → col < swatchSize →
      (compositePNGSwatches dst dstSwatch overSwatch underSwatch swatchSize swatchesPerRow
          forceSolid).image_data
        (swatchTexel dst.width dstSwatch swatchSize swatchesPerRow row col) =
      compositeTexel forceSolid
        (dst.image_data (swatchTexel dst.width overSwatch swatchSize swatchesPerRow row col))
        (dst.image_data (swatchTexel dst.width underSwatch swatchSize swatchesPerRow row col))) ∧
    (∀ k, (∀ row col, 0 ≤ row → row < swatchSize → 0 ≤ col → col < swatchSize →
        k ≠ swatchTexel dst.width dstSwatch swatchSize swatchesPerRow row col) →
      (compositePNGSwatches dst dstSwatch overSwatch underSwatch swatchSize swatchesPerRow
          forceSolid).image_data k = dst.image_data k) ∧
    (compositePNGSwatches dst dstSwatch overSwatch underSwatch swatchSize swatchesPerRow
      forceSolid).width = dst.width := by
  have hmem : ∀ rc : Int × Int,
      rc ∈ (intRange 0 (swatchSize - 1)).product (intRange 0 (swatchSize - 1)) ↔
        (0 ≤ rc.1 ∧ rc.1 < swatchSize) ∧ (0 ≤ rc.2 ∧ rc.2 < swatchSize) := by
    intro rc
    obtain ⟨r, c⟩ := rc
    show (r, c) ∈ (intRange 0 (swatchSize - 1)) ×ˢ (intRange 0 (swatchSize - 1)) ↔ _
    rw [List.mem_product, mem_intRange, mem_intRange]
    constructor
    · rintro ⟨⟨a1, a2⟩, b1, b2⟩
      exact ⟨⟨a1, by omega⟩, b1, by omega⟩
    · rintro ⟨⟨a1, a2⟩, b1, b2⟩
      exact ⟨⟨a1, by omega⟩, b1, by omega⟩
  have hnd : ((intRange 0 (swatchSize - 1)).product (intRange 0 (swatchSize - 1))).Nodup :=
    (nodup_intRange _ _).product (nodup_intRange _ _)
  have hfold : (compositePNGSwatches dst dstSwatch overSwatch underSwatch swatchSize
      swatchesPerRow forceSolid).image_data =
      ((intRange 0 (swatchSize - 1)).product (intRange 0 (swatchSize - 1))).foldl
        (fun img (rc : Int × Int) =>
          setAt img
            (Int.tdiv dstSwatch swatchesPerRow * swatchSize * dst.width +
              Int.tmod dstSwatch swatchesPerRow * swatchSize + (rc.1 * dst.width + rc.2))
            (compositeTexel forceSolid
              (img (Int.tdiv overSwatch swatchesPerRow * swatchSize * dst.width +
                Int.tmod overSwatch swatchesPerRow * swatchSize + (rc.1 * dst.width + rc.2)))
              (img (Int.tdiv underSwatch swatchesPerRow * swatchSize * dst.width +
                Int.tmod underSwatch swatchesPerRow * swatchSize + (rc.1 * dst.width + rc.2)))))
        dst.image_data := by
    unfold List.product
    rw [foldl_flatMap_eq]
    simp only [List.foldl_map]
    rfl
  obtain ⟨k1, k2⟩ := inplace_fold (compositeTexel forceSolid)
    (Int.tdiv overSwatch swatchesPerRow * swatchSize * dst.width +
      Int.tmod overSwatch swatchesPerRow * swatchSize)
    (Int.tdiv underSwatch swatchesPerRow * swatchSize * dst.width +
      Int.tmod underSwatch swatchesPerRow * swatchSize)
    (Int.tdiv dstSwatch swatchesPerRow * swatchSize * dst.width +
      Int.tmod dstSwatch swatchesPerRow * swatchSize)
    (fun rc : Int × Int => rc.1 * dst.width + rc.2)
    ((intRange 0 (swatchSize - 1)).product (intRange 0 (swatchSize - 1)))
    dst.image_data hnd (by
      intro x hx y hy hxy
      have hx' := (hmem x).1 hx
      have hy' := (hmem y).1 hy
      have key : ∀ sw : Int, 0 ≤ sw →
          Int.tdiv dstSwatch swatchesPerRow * swatchSize * dst.width +
            Int.tmod dstSwatch swatchesPerRow * swatchSize + (y.1 * dst.width + y.2) ≠
          Int.tdiv sw swatchesPerRow * swatchSize * dst.width +
            Int.tmod sw swatchesPerRow * swatchSize + (x.1 * dst.width + x.2) := by
        intro sw hsw e
        have := swatchTexel_inj hS hP hW hd hsw hy'.1 hy'.2 hx'.1 hx'.2 e
        exact hxy (Prod.ext this.1.symm this.2.symm)
      exact ⟨key dstSwatch hd, key overSwatch ho, key underSwatch hu⟩)
  refine ⟨?_, ?_, rfl⟩
  · intro row col h1 h2 h3 h4
    rw [hfold]
    exact k1 (row, col) ((hmem (row, col)).2 ⟨⟨h1, h2⟩, h3, h4⟩)
  · intro k hk
    rw [hfold]
    refine k2 k ?_
    intro rc hrc
    have := (hmem rc).1 hrc
    exact hk rc.1 rc.2 this.1.1 this.1.2 this.2.1 this.2.2

/-- The invariant of the loop of `checkAndRemoveBubbles` speaks of the cells, the
group list, the group count and the boxes only. -/
theorem merging_same (s t : ExportState) (hd : t.gBoxData = s.gBoxData)
    (hl : t.gGroupList = s.gGroupList) (hsize : t.gBoxSize = s.gBoxSize)
    (hc : t.gGroupCount = s.gGroupCount) (ha : t.gAirBox = s.gAirBox) (h : Merging s) :
    Merging t := by
  have hab : arrayBox t = arrayBox s := by
    unfold arrayBox
    rw [hsize]
  have hgc : ∀ g, groupCells t g = groupCells s g := by
    intro g
    unfold groupCells
    rw [hab, hd]
  refine ⟨⟨?_, ?_, ?_, ?_⟩, bounded_same s t hd hl hsize h.bounded, ?_, ?_, ?_, ?_⟩
  · intro p hp
    rw [hab]
    rw [ha] at hp
    exact h.booked.air_in_array p hp
  · intro p hp
    rw [hd, hc]
    rw [hab] at hp
    exact h.booked.group_le p hp
  · intro g h1 h2
    rw [hl, hgc]
    rw [hc] at h2
    exact h.booked.pop g h1 h2
  · intro g h1 h2
    rw [hl]
    rw [hc] at h2
    exact h.booked.gid g h1 h2
  · intro g hg
    rw [hab, hl]
    rw [hc] at hg
    exact h.hulled g hg
  · intro g h2 hle hs
    rw [hl] at hs ⊢
    rw [hc] at hle
    have := h.airHull g h2 hle hs
    unfold neighborAsserts at this ⊢
    rw [hsize]
    exact this
  · rw [hl]
    exact h.first_air
  · rw [hab]
    exact h.room

theorem addBounds_inside {a b : IBox} {loc : IPoint} (hl : a.contains loc = true)
    (hb : a.inside b) : a.inside (addBounds loc b) := by
  rw [contains_iff] at hl
  unfold IBox.inside at hb ⊢
  unfold addBounds
  simp only []
  refine ⟨?_, ?_, ?_, ?_, ?_, ?_⟩ <;> split <;> omega

/-- The bounds of the master group after `fillGroups` lie inside every box that held
them before and holds the bounds that are filled. -/
theorem fillGroups_master_inside (bi : BlockInfo) (s : ExportState) (bounds : IBox) (m : Nat)
    (solid : Bool) (fillType : Nat) (tg : Nat → Int) (a : IBox)
    (hb : a.inside bounds) (hm : a.inside (s.gGroupList m).bounds) :
    a.inside ((fillGroups bi s bounds m solid fillType tg).gGroupList m).bounds := by
  unfold fillGroups
  apply foldl_inv (fun t : ExportState => a.inside (t.gGroupList m).bounds)
  · exact hm
  · intro t loc hloc ht
    by_cases htg : tg (t.gBoxData loc).group > 0
    · have e : ((fillGroupsCell bi m solid fillType tg t loc).gGroupList m).bounds =
          addBounds loc (t.gGroupList m).bounds := by
        rw [fillGroupsCell_eq bi m solid fillType tg t loc htg]
        simp only [setGroup_same]
        congr 1
        simp only [setGroup]
        split
        · rename_i e
          rw [← e]
        · rfl
      rw [e]
      exact addBounds_inside (inside_contains hb (mem_boxCells.1 hloc)) ht
    · rw [fillGroupsCell_untargeted bi m solid fillType tg t loc htg]
      exact ht

/-- The asserts of `findNeighboringGroups` say that the bounds lie inside the array
less its outermost layer of cells. -/
theorem neighborAsserts_iff (s : ExportState) (b : IBox) :
    neighborAsserts s b ↔
      IBox.inside ⟨⟨1, 1, 1⟩, ⟨s.gBoxSize.x - 2, s.gBoxSize.y - 2, s.gBoxSize.z - 2⟩⟩ b := by
  unfold neighborAsserts IBox.inside
  simp only []
  omega

/-- The function `fillGroups` keeps the invariant of the loop of
`checkAndRemoveBubbles`, when it fills bounds inside the array for a master group
among `1 .. gGroupCount`, and bounds strictly inside the array if that group is an
air group. -/
theorem fillGroups_merging (bi : BlockInfo) (s : ExportState) (bounds : IBox) (m : Nat)
    (solid : Bool) (fillType : Nat) (tg : Nat → Int) (h : Merging s)
    (hm1 : 1 ≤ m) (hm : m ≤ s.gGroupCount) (hb : (arrayBox s).inside bounds)
    (hair : (s.gGroupList m).solid = false → neighborAsserts s bounds) :
    Merging (fillGroups bi s bounds m solid fillType tg) := by
  have hf := fillGroups_spec bi s bounds m solid fillType tg
  have hr := hf.kept.refilled
  have hab : arrayBox (fillGroups bi s bounds m solid fillType tg) = arrayBox s := by
    unfold arrayBox
    rw [hr.boxSize]
  have hpop := fillGroups_pops bi s bounds m solid fillType tg hb
    (fun g h1 h2 => h.booked.pop g h1 (Or.inl h2))
  refine ⟨⟨?_, ?_, ?_, ?_⟩, fillGroups_bounded bi s bounds m solid fillType tg h.bounded,
    ?_, ?_, ?_, ?_⟩
  · intro p hp
    rw [hab]
    rw [hr.airBox] at hp
    exact h.booked.air_in_array p hp
  · intro p hp
    rw [hab] at hp
    rw [hr.count]
    by_cases hin : p ∈ boxCells bounds
    · by_cases htg : tg (s.gBoxData p).group > 0
      · rw [(hf.moved p hin htg).1.1]
        exact Or.inl hm
      · rw [hf.idle p htg]
        exact h.booked.group_le p hp
    · rw [hf.rest p hin]
      exact h.booked.group_le p hp
  · intro g h1 h2
    rw [hr.count] at h2
    have hle : g ≤ s.gGroupCount := by
      rcases h2 with h2 | h2
      · exact h2
      · omega
    exact hpop g h1 hle
  · intro g h1 h2
    rw [hr.count] at h2
    rw [hf.kept.gid g]
    exact h.booked.gid g h1 h2
  · intro g hg
    rw [hr.count] at hg
    rw [hab]
    by_cases hgm : g = m
    · subst hgm
      exact fillGroups_master_inside bi s bounds g solid fillType tg _ hb (h.hulled g hg)
    · rw [hf.kept.bounds g hgm]
      exact h.hulled g hg
  · intro g h2 hle hs
    rw [hr.count] at hle
    rw [hr.flags g] at hs
    have e : neighborAsserts (fillGroups bi s bounds m solid fillType tg)
        ((fillGroups bi s bounds m solid fillType tg).gGroupList g).bounds ↔
        IBox.inside ⟨⟨1, 1, 1⟩, ⟨s.gBoxSize.x - 2, s.gBoxSize.y - 2, s.gBoxSize.z - 2⟩⟩
          ((fillGroups bi s bounds m solid fillType tg).gGroupList g).bounds := by
      rw [neighborAsserts_iff, hr.boxSize]
    rw [e]
    by_cases hgm : g = m
    · subst hgm
      exact fillGroups_master_inside bi s bounds g solid fillType tg _
        ((neighborAsserts_iff s bounds).1 (hair hs))
        ((neighborAsserts_iff s _).1 (h.airHull g h2 hle hs))
    · rw [hf.kept.bounds g hgm]
      exact (neighborAsserts_iff s _).1 (h.airHull g h2 hle hs)
  · rw [hr.flags]
    exact h.first_air
  · rw [hab]
    exact h.room

/-- Without the sealing of side tunnels, and with no entrance block on the fringe
when entrances are sealed, after `findGroups` on a well-formed state every
cell of the air box that lies outside the solid box is in group 1. -/
theorem findGroups_fringe (bi : BlockInfo) {s : ExportState} (h : WellFormed s)
    (hseal : s.gOptions.EXPT_SEAL_SIDE_TUNNELS = false)
    (hentr : s.gOptions.EXPT_SEAL_ENTRANCES = true →
      ∀ p, inFringe s p → bi.BLF_ENTRANCE (s.gBoxData p).origType = false) :
    ∀ p, inFringe s p → ((findGroups bi s).gBoxData p).group = SURROUND_AIR_GROUP := by
  have hg := findGroups_grouped bi h
  obtain ⟨gx, gy, gz, hab, _, hsol, _⟩ := wellFormed_iff h
  have hc := findGroups_closed bi h hseal
  have hcorner := findGroups_corner bi h hseal
  have hfringe : ∀ p, inFringe (findGroups bi s) p ↔ inFringe s p := by
    intro p
    unfold inFringe
    rw [hg.frame.airBox, hg.frame.solidBox]
  have hair : ∀ p, inFringe s p → ((findGroups bi s).gBoxData p).isSolid = false := by
    intro p hp
    rw [hg.frame.isSolid]
    by_contra hs
    have hpa : (arrayBox s).contains p = true := by
      have := hg.scanned.booked.air_in_array p (by rw [hg.frame.airBox]; exact hp.1)
      rw [hg.frame.arrayBox] at this
      exact this
    have := hsol p hpa (by simpa using hs)
    rw [hp.2] at this
    exact absurd this (by simp)
  have hprop : ∀ p, inFringe s p → propagates bi (findGroups bi s) p := by
    intro p hp hcon
    rw [hg.frame.options, hg.frame.origType] at hcon
    have := hentr hcon.1 p hp
    rw [hcon.2.2] at this
    exact absurd this (by simp)
  have hab' : (findGroups bi s).gAirBox =
      ⟨⟨(findGroups bi s).gSolidBox.min.x - 1, (findGroups bi s).gSolidBox.min.y - 1,
        (findGroups bi s).gSolidBox.min.z - 1⟩,
       ⟨(findGroups bi s).gSolidBox.max.x + 1, (findGroups bi s).gSolidBox.max.y + 1,
        (findGroups bi s).gSolidBox.max.z + 1⟩⟩ := by
    rw [hg.frame.airBox, hg.frame.solidBox]
    exact hab
  intro p hp
  refine fringe_induction
    (fun p => ((findGroups bi s).gBoxData p).group = SURROUND_AIR_GROUP) hab'
    (by rw [hg.frame.solidBox]; exact gx.2.1) (by rw [hg.frame.solidBox]; exact gy.2.1)
    (by rw [hg.frame.solidBox]; exact gz.2.1) ?_ ?_ p ((hfringe p).2 hp)
  · intro p q hp hq hadj
    rw [hfringe] at hp hq
    have hp' : (findGroups bi s).gAirBox.contains p = true := by rw [hg.frame.airBox]; exact hp.1
    have hq' : (findGroups bi s).gAirBox.contains q = true := by rw [hg.frame.airBox]; exact hq.1
    have := (hc p hp' (hg.labelled p hp') (hprop p hp) q hadj hq'
      (by rw [hair p hp, hair q hq])).2 (hprop q hq)
    show ((findGroups bi s).gBoxData p).group = SURROUND_AIR_GROUP ↔
      ((findGroups bi s).gBoxData q).group = SURROUND_AIR_GROUP
    rw [this]
  · rw [hg.frame.airBox]
    exact hcorner

/-- Without the sealing of side tunnels, and with no entrance block on the fringe
when entrances are sealed, the state after `findGroups` on a well-formed state
has what the loop of `checkAndRemoveBubbles` keeps. -/
theorem findGroups_merging (bi : BlockInfo) {s : ExportState} (h : WellFormed s)
    (hseal : s.gOptions.EXPT_SEAL_SIDE_TUNNELS = false)
    (hentr : s.gOptions.EXPT_SEAL_ENTRANCES = true →
      ∀ p, inFringe s p → bi.BLF_ENTRANCE (s.gBoxData p).origType = false) :
    Merging (findGroups bi s) := by
  have hg := findGroups_grouped bi h
  have ht := findGroups_tight bi h
  have hfr := findGroups_fringe bi h hseal hentr
  obtain ⟨gx, gy, gz, hab, _, _, _⟩ := wellFormed_iff h
  -- a cell of a group 2, 3, ... lies in the solid box
  have hcell : ∀ p, (arrayBox (findGroups bi s)).contains p = true →
      2 ≤ ((findGroups bi s).gBoxData p).group → s.gSolidBox.contains p = true := by
    intro p hp h2
    by_contra hns
    by_cases hin : (findGroups bi s).gAirBox.contains p = true
    · have := hfr p ⟨by rw [← hg.frame.airBox]; exact hin, by simpa using hns⟩
      unfold SURROUND_AIR_GROUP at this
      omega
    · have := (hg.outside p hp (by simpa using hin)).1
      omega
  have hatt : ∀ g, 2 ≤ g → g ≤ (findGroups bi s).gGroupCount → ∀ (f : IPoint → Int) v,
      attains (findGroups bi s) g f v → ∃ p, s.gSolidBox.contains p = true ∧ f p = v := by
    rintro g h2 _ f v ⟨p, hp, hpg, hv⟩
    exact ⟨p, hcell p hp (by rw [hpg]; exact h2), hv⟩
  have hbox : ∀ g, 2 ≤ g → g ≤ (findGroups bi s).gGroupCount →
      s.gSolidBox.inside ((findGroups bi s).gGroupList g).bounds := by
    intro g h2 hle
    have a := ht g h2 hle
    obtain ⟨p1, a1, c1⟩ := hatt g h2 hle _ _ a.min_x
    obtain ⟨p2, a2, c2⟩ := hatt g h2 hle _ _ a.min_y
    obtain ⟨p3, a3, c3⟩ := hatt g h2 hle _ _ a.min_z
    obtain ⟨p4, a4, c4⟩ := hatt g h2 hle _ _ a.max_x
    obtain ⟨p5, a5, c5⟩ := hatt g h2 hle _ _ a.max_y
    obtain ⟨p6, a6, c6⟩ := hatt g h2 hle _ _ a.max_z
    rw [contains_iff] at a1 a2 a3 a4 a5 a6
    unfold IBox.inside
    omega
  refine ⟨hg.scanned.booked, findGroups_bounded bi h, ?_, ?_, hg.first_air, ?_⟩
  · intro g hg2
    have := mem_groupRange.1 hg2
    have hb := hbox g this.1 this.2
    unfold IBox.inside at hb ⊢
    simp only [arrayBox, hg.frame.boxSize]
    omega
  · intro g h2 hle _
    have hb := hbox g h2 hle
    unfold IBox.inside at hb
    unfold neighborAsserts
    rw [hg.frame.boxSize]
    omega
  · simp only [IBox.inside, arrayBox, emptyBounds, hg.frame.boxSize]
    omega

/-- The step of the loop of `checkAndRemoveBubbles` for an air group for which the
search finds no master group. -/
theorem removeBubble_lone (bi : BlockInfo) (fillType : Nat) (s : ExportState) (i : Nat)
    (hair : (s.gGroupList i).solid = false) (hneg : ¬ (bubbleMaster s i).masterGroupID ≥ 0) :
    removeBubble bi fillType s i =
      bubbleDone (fillGroups bi (bubbleCounted s (bubbleMaster s i))
        (s.gGroupList i).bounds i true fillType
        (setFlag (bubbleMaster s i).neighborGroups i 1)) := by
  unfold removeBubble
  rw [if_pos hair]
  simp only []
  rw [if_neg hneg]
  rfl

/-- The step of the loop of `checkAndRemoveBubbles` for an air group `i` is one call of
`fillGroups`: the master group `m` is a group `2 .. gGroupCount` that is the
bubble itself or a solid group with cells, the bounds lie inside the array and
hold the bounds of every target group, and the targets among the groups
`1 .. gGroupCount` are the bubble and solid groups. -/
theorem removeBubble_shape (bi : BlockInfo) (fillType : Nat) {s : ExportState} {i : Nat}
    (h : Merging s) (hi2 : 2 ≤ i) (hile : i ≤ s.gGroupCount)
    (hair : (s.gGroupList i).solid = false) :
    ∃ (m : Nat) (b : IBox) (ng : Nat → Int),
      removeBubble bi fillType s i =
        bubbleDone (fillGroups bi (bubbleCounted s (bubbleMaster s i)) b m true fillType ng) ∧
      2 ≤ m ∧ m ≤ s.gGroupCount ∧ (arrayBox s).inside b ∧
      ((s.gGroupList m).solid = false → neighborAsserts s b) ∧
      (m = i ∨ ((s.gGroupList m).solid = true ∧ 0 < (s.gGroupList m).population)) ∧
      (∀ g, 1 ≤ g → g ≤ s.gGroupCount → ng g > 0 → g = i ∨ (s.gGroupList g).solid = true) ∧
      (∀ g, 2 ≤ g → g ≤ s.gGroupCount → ng g > 0 →
        ∀ p, (s.gGroupList g).bounds.contains p = true → b.contains p = true) := by
  have hsi := bubbleMaster_spec s i
  have hsolid : ∀ g, 1 ≤ g → g ≤ s.gGroupCount → (bubbleMaster s i).neighborGroups g > 0 →
      (s.gGroupList g).solid = true := by
    intro g h1 hle hg
    by_contra hns
    exact bubbleMaster_air s i h1 hle (by simpa using hns) hg
  by_cases hpos : (bubbleMaster s i).masterGroupID ≥ 0
  · obtain ⟨c1, _, c3, _, c5, _⟩ := hsi.chosen hpos
    have hr := mem_groupRange.1 c1
    have hm1 : (bubbleMaster s i).masterGroupID.toNat ≠ 1 := by
      intro e
      have := h.first_air
      unfold SURROUND_AIR_GROUP at this
      rw [e, this] at c3
      exact absurd c3 (by simp)
    unfold SURROUND_AIR_GROUP at hr
    refine ⟨_, _, _, removeBubble_master bi fillType s i hair hpos, by omega, hr.2,
      unionBounds_inside (bubbleCounted s (bubbleMaster s i)) _ h.hulled h.room, ?_,
      Or.inr ⟨c3, c5⟩, ?_, ?_⟩
    · intro hf
      rw [hf] at c3
      exact absurd c3 (by simp)
    · intro g h1 hle hg
      by_cases hgi : g = i
      · exact Or.inl hgi
      · right
        unfold setFlag at hg
        rw [if_neg hgi] at hg
        split at hg
        · exact absurd hg (by simp)
        · exact hsolid g h1 hle hg
    · intro g h2 hle hg p hp
      exact unionBounds_contains (bubbleCounted s (bubbleMaster s i)) _ h2 hle hg hp
  · have hflag := bubbleNeighbors_pos h.booked h.bounded hi2 hile (h.airHull i hi2 hile hair)
    have hnear : ∀ p q, (arrayBox s).contains p = true → (s.gBoxData p).group = i →
        faceAdjacent p q → (arrayBox s).contains q = true := by
      intro p q hpa hpg hpq
      have hpb := h.bounded p hpa (by rw [hpg]; exact hi2)
      rw [hpg] at hpb
      have hassert := h.airHull i hi2 hile hair
      unfold neighborAsserts at hassert
      unfold faceAdjacent at hpq
      rw [contains_iff] at hpb ⊢
      simp only [arrayBox]
      omega
    -- no group but the bubble itself is a target
    have honly : ∀ g, 1 ≤ g → g ≤ s.gGroupCount →
        setFlag (bubbleMaster s i).neighborGroups i 1 g > 0 → g = i := by
      intro g h1 hle hg
      by_contra hgi
      unfold setFlag at hg
      rw [if_neg hgi] at hg
      have hs := hsolid g h1 hle hg
      have hmem : g ∈ groupRange SURROUND_AIR_GROUP s.gGroupCount := mem_groupRange.2 ⟨h1, hle⟩
      rw [hsi.flags g] at hg
      have hns : ¬ (s.gGroupList g).solid = false := by rw [hs]; simp
      rw [if_neg (fun hc => hns hc.2.2)] at hg
      have hp0 := (hsi.unset (by omega)).2.2 g hmem hg hs
      rcases (hflag g).1 hg with e | ⟨p, q, hpa, hpg, hpq, hqg⟩
      · exact hgi e
      · have := groupCells_pos (hnear p q hpa hpg hpq) hqg
        have hpop := h.booked.pop g h1 (Or.inl hle)
        omega
    refine ⟨i, _, _, removeBubble_lone bi fillType s i hair hpos, hi2, hile,
      h.hulled i (mem_groupRange.2 ⟨hi2, hile⟩), fun _ => h.airHull i hi2 hile hair,
      Or.inl rfl, ?_, ?_⟩
    · intro g h1 hle hg
      exact Or.inl (honly g h1 hle hg)
    · intro g h2 hle hg p hp
      rw [honly g (by omega) hle hg] at hp
      exact hp

/-- The step of the loop of `checkAndRemoveBubbles` keeps the invariant of the loop. -/
theorem removeBubble_merging (bi : BlockInfo) (fillType : Nat) {s : ExportState} {i : Nat}
    (h : Merging s) (hi2 : 2 ≤ i) (hile : i ≤ s.gGroupCount) :
    Merging (removeBubble bi fillType s i) := by
  by_cases hair : (s.gGroupList i).solid = false
  · obtain ⟨m, b, ng, he, hm2, hm, hb, ha, _⟩ := removeBubble_shape bi fillType h hi2 hile hair
    rw [he]
    have h1 : Merging (bubbleCounted s (bubbleMaster s i)) :=
      merging_same s _ rfl rfl rfl rfl rfl h
    have h2 := fillGroups_merging bi (bubbleCounted s (bubbleMaster s i)) b m true fillType ng h1
      (by omega) hm hb ha
    exact merging_same (fillGroups bi (bubbleCounted s (bubbleMaster s i)) b m true fillType ng) _
      rfl rfl rfl rfl rfl h2
  · rw [removeBubble_solid bi fillType s i (by simpa using hair)]
    exact h

/-- The step of the loop of `checkAndRemoveBubbles` moves the cells of the groups
`2, 3, ...` group by group: the group of such a cell after the step depends on its
group before the step only, it is again one of the groups `2, 3, ...`, and a group
whose cells move to another group is left with population 0. -/
theorem removeBubble_relabel (bi : BlockInfo) (fillType : Nat) {s : ExportState} {i : Nat}
    (h : Merging s) (hi2 : 2 ≤ i) (hile : i ≤ s.gGroupCount) :
    ∃ r : Nat → Nat, (∀ g, 2 ≤ g → 2 ≤ r g) ∧
      (∀ p, (arrayBox s).contains p = true → 2 ≤ (s.gBoxData p).group →
        ((removeBubble bi fillType s i).gBoxData p).group = r (s.gBoxData p).group) ∧
      (∀ g, 2 ≤ g → g ≤ s.gGroupCount → r g ≠ g →
        ((removeBubble bi fillType s i).gGroupList g).population = 0) := by
  by_cases hair : (s.gGroupList i).solid = false
  · obtain ⟨m, b, ng, he, hm2, hm, hb, _, _, _, hull⟩ :=
      removeBubble_shape bi fillType h hi2 hile hair
    have hM := removeBubble_merging bi fillType h hi2 hile
    have hR := (removeBubble_counts bi fillType s i).1
    have hf := fillGroups_spec bi (bubbleCounted s (bubbleMaster s i)) b m true fillType ng
    have hcell : ∀ p, (arrayBox s).contains p = true → 2 ≤ (s.gBoxData p).group →
        ((removeBubble bi fillType s i).gBoxData p).group =
          if ng (s.gBoxData p).group > 0 then m else (s.gBoxData p).group := by
      intro p hp h2
      have hle : (s.gBoxData p).group ≤ s.gGroupCount := by
        rcases h.booked.group_le p hp with e | e
        · exact e
        · omega
      rw [he]
      show ((fillGroups bi (bubbleCounted s (bubbleMaster s i)) b m true fillType ng).gBoxData
        p).group = _
      by_cases htg : ng (s.gBoxData p).group > 0
      · rw [if_pos htg]
        have hin : p ∈ boxCells b :=
          mem_boxCells.2 (hull _ h2 hle htg p (h.bounded p hp h2))
        exact (hf.moved p hin htg).1.1
      · rw [if_neg htg, hf.idle p htg]
        rfl
    refine ⟨fun g => if ng g > 0 then m else g, ?_, hcell, ?_⟩
    · intro g h2
      show 2 ≤ if ng g > 0 then m else g
      split
      · exact hm2
      · exact h2
    · intro g h2 hle hne
      have hne' : (if ng g > 0 then m else g) ≠ g := hne
      have htg : ng g > 0 := by
        by_contra hn
        rw [if_neg hn] at hne'
        exact hne' rfl
      rw [if_pos htg] at hne'
      rw [hM.booked.pop g (by omega) (Or.inl (by rw [hR.count]; exact hle))]
      have hz : groupCells (removeBubble bi fillType s i) g = 0 := by
        apply groupCells_eq_zero
        intro p hp hpg
        have hp' : (arrayBox s).contains p = true := by
          have e : arrayBox (removeBubble bi fillType s i) = arrayBox s := by
            unfold arrayBox
            rw [hR.boxSize]
          rw [← e]
          exact hp
        by_cases hsg : (s.gBoxData p).group = g
        · have := hcell p hp' (by rw [hsg]; exact h2)
          rw [hsg, if_pos htg, hpg] at this
          exact hne' this.symm
        · by_cases h2p : 2 ≤ (s.gBoxData p).group
          · have := hcell p hp' h2p
            rw [hpg] at this
            split at this
            · exact hne' this.symm
            · exact hsg this.symm
          · -- a cell of group 0 or 1 is moved to the master group or not at all
            rw [he] at hpg
            have hpg' : ((fillGroups bi (bubbleCounted s (bubbleMaster s i)) b m true fillType
              ng).gBoxData p).group = g := hpg
            by_cases hin : p ∈ boxCells b
            · by_cases htp : ng (s.gBoxData p).group > 0
              · rw [(hf.moved p hin htp).1.1] at hpg'
                exact hne' hpg'
              · rw [hf.idle p htp] at hpg'
                exact hsg hpg'
            · rw [hf.rest p hin] at hpg'
              exact hsg hpg'
      rw [hz]
      rfl
  · rw [removeBubble_solid bi fillType s i (by simpa using hair)]
    exact ⟨fun g => g, fun g h2 => h2, fun p _ _ => rfl, fun g _ _ hne => absurd rfl hne⟩

/-- A group without cells that is not the bubble of the step has no cells after the
step of the loop of `checkAndRemoveBubbles`. -/
theorem removeBubble_empty (bi : BlockInfo) (fillType : Nat) {s : ExportState} {i : Nat}
    (h : Merging s) (hi2 : 2 ≤ i) (hile : i ≤ s.gGroupCount) {g : Nat} (hg1 : 1 ≤ g)
    (hgle : g ≤ s.gGroupCount) (h0 : (s.gGroupList g).population = 0)
    (hne : g ≠ i ∨ (s.gGroupList i).solid = true) :
    ((removeBubble bi fillType s i).gGroupList g).population = 0 := by
  by_cases hair : (s.gGroupList i).solid = false
  · have hgi : g ≠ i := by
      rcases hne with e | e
      · exact e
      · rw [hair] at e
        exact absurd e (by simp)
    obtain ⟨m, b, ng, he, _, _, _, _, hmst, _, _⟩ :=
      removeBubble_shape bi fillType h hi2 hile hair
    have hM := removeBubble_merging bi fillType h hi2 hile
    have hR := (removeBubble_counts bi fillType s i).1
    have hf := fillGroups_spec bi (bubbleCounted s (bubbleMaster s i)) b m true fillType ng
    have hmg : m ≠ g := by
      intro e
      rcases hmst with e1 | ⟨_, e2⟩
      · exact hgi (e.symm.trans e1)
      · rw [e] at e2
        omega
    have hs0 : ∀ p, (arrayBox s).contains p = true → (s.gBoxData p).group ≠ g := by
      intro p hp hpg
      have := groupCells_pos hp hpg
      have hpop := h.booked.pop g hg1 (Or.inl hgle)
      omega
    rw [hM.booked.pop g hg1 (Or.inl (by rw [hR.count]; exact hgle))]
    have hz : groupCells (removeBubble bi fillType s i) g = 0 := by
      apply groupCells_eq_zero
      intro p hp hpg
      have hp' : (arrayBox s).contains p = true := by
        have e : arrayBox (removeBubble bi fillType s i) = arrayBox s := by
          unfold arrayBox
          rw [hR.boxSize]
        rw [← e]
        exact hp
      rw [he] at hpg
      have hpg' : ((fillGroups bi (bubbleCounted s (bubbleMaster s i)) b m true fillType
        ng).gBoxData p).group = g := hpg
      by_cases hin : p ∈ boxCells b
      · by_cases htp : ng (s.gBoxData p).group > 0
        · rw [(hf.moved p hin htp).1.1] at hpg'
          exact hmg hpg'
        · rw [hf.idle p htp] at hpg'
          exact hs0 p hp' hpg'
      · rw [hf.rest p hin] at hpg'
        exact hs0 p hp' hpg'
    rw [hz]
    rfl
  · rw [removeBubble_solid bi fillType s i (by simpa using hair)]
    exact h0

/-- The step of the loop of `checkAndRemoveBubbles` for the group `i` neither takes a
cell from another air group `j` nor gives it one. -/
theorem removeBubble_waiting (bi : BlockInfo) (fillType : Nat) {s : ExportState} {i : Nat}
    (h : Merging s) (hi2 : 2 ≤ i) (hile : i ≤ s.gGroupCount) {j : Nat} (hj1 : 1 ≤ j)
    (hjle : j ≤ s.gGroupCount) (hj : (s.gGroupList j).solid = false) (hji : j ≠ i) (p : IPoint) :
    ((removeBubble bi fillType s i).gBoxData p).group = j ↔ (s.gBoxData p).group = j := by
  by_cases hair : (s.gGroupList i).solid = false
  · obtain ⟨m, b, ng, he, _, _, _, _, hmst, htar, _⟩ :=
      removeBubble_shape bi fillType h hi2 hile hair
    have hf := fillGroups_spec bi (bubbleCounted s (bubbleMaster s i)) b m true fillType ng
    have hmj : m ≠ j := by
      intro e
      rcases hmst with e1 | ⟨e2, _⟩
      · exact hji (e.symm.trans e1)
      · rw [e, hj] at e2
        exact absurd e2 (by simp)
    have hnj : ¬ ng j > 0 := by
      intro hc
      rcases htar j hj1 hjle hc with e | e
      · exact hji e
      · rw [hj] at e
        exact absurd e (by simp)
    rw [he]
    show ((fillGroups bi (bubbleCounted s (bubbleMaster s i)) b m true fillType ng).gBoxData
      p).group = j ↔ _
    by_cases hin : p ∈ boxCells b
    · by_cases htp : ng (s.gBoxData p).group > 0
      · rw [(hf.moved p hin htp).1.1]
        constructor
        · intro e
          exact absurd e hmj
        · intro e
          rw [e] at htp
          exact absurd htp hnj
      · rw [hf.idle p htp]
        rfl
    · rw [hf.rest p hin]
      rfl
  · rw [removeBubble_solid bi fillType s i (by simpa using hair)]

/-- The steps of the loop of `checkAndRemoveBubbles` for a list of groups
`2 .. gGroupCount`: the invariant of the loop is kept; the cells of the groups
`2, 3, ...` move group by group, and a solid group, or a group that is not in
the list, whose cells move to another group is left with population 0; a group
without cells that is solid or not in the list stays without cells; and an air
group that is not in the list neither loses nor gains a cell. -/
theorem bubbles_fold (bi : BlockInfo) (fillType : Nat) (l : List Nat) :
    ∀ s : ExportState, Merging s → (∀ x ∈ l, 2 ≤ x ∧ x ≤ s.gGroupCount) →
      Merging (l.foldl (removeBubble bi fillType) s) ∧
      Refilled s (l.foldl (removeBubble bi fillType) s) ∧
      (∃ r : Nat → Nat, (∀ g, 2 ≤ g → 2 ≤ r g) ∧
        (∀ p, (arrayBox s).contains p = true → 2 ≤ (s.gBoxData p).group →
          ((l.foldl (removeBubble bi fillType) s).gBoxData p).group = r (s.gBoxData p).group) ∧
        (∀ g, 2 ≤ g → g ≤ s.gGroupCount → (g ∉ l ∨ (s.gGroupList g).solid = true) →
          r g ≠ g → ((l.foldl (removeBubble bi fillType) s).gGroupList g).population = 0)) ∧
      (∀ g, 1 ≤ g → g ≤ s.gGroupCount → (s.gGroupList g).population = 0 →
        (g ∉ l ∨ (s.gGroupList g).solid = true) →
        ((l.foldl (removeBubble bi fillType) s).gGroupList g).population = 0) ∧
      (∀ j, 1 ≤ j → j ≤ s.gGroupCount → (s.gGroupList j).solid = false → j ∉ l →
        ∀ p, ((l.foldl (removeBubble bi fillType) s).gBoxData p).group = j ↔
          (s.gBoxData p).group = j) := by
  induction l with
  | nil =>
    intro s h _
    exact ⟨h, Refilled.refilled_refl s, ⟨fun g => g, fun g h2 => h2, fun p _ _ => rfl,
      fun g _ _ _ hne => absurd rfl hne⟩, fun g _ _ h0 _ => h0, fun j _ _ _ _ p => Iff.rfl⟩
  | cons x l ih =>
    intro s h hl
    have hx := hl x (List.mem_cons_self _ _)
    have hM := removeBubble_merging bi fillType h hx.1 hx.2
    have hR := (removeBubble_counts bi fillType s x).1
    have hl' : ∀ y ∈ l, 2 ≤ y ∧ y ≤ (removeBubble bi fillType s x).gGroupCount := by
      intro y hy
      rw [hR.count]
      exact hl y (List.mem_cons_of_mem _ hy)
    obtain ⟨a1, a2, ⟨r2, b1, b2, b3⟩, a4, a5⟩ := ih (removeBubble bi fillType s x) hM hl'
    obtain ⟨r1, c1, c2, c3⟩ := removeBubble_relabel bi fillType h hx.1 hx.2
    have hab : arrayBox (removeBubble bi fillType s x) = arrayBox s := by
      unfold arrayBox
      rw [hR.boxSize]
    -- what the hypothesis on a group says at the head of the list and for its tail
    have hside : ∀ g, (g ∉ x :: l ∨ (s.gGroupList g).solid = true) →
        (g ≠ x ∨ (s.gGroupList x).solid = true) ∧
        (g ∉ l ∨ ((removeBubble bi fillType s x).gGroupList g).solid = true) := by
      intro g hg
      rcases hg with hg | hg
      · exact ⟨Or.inl (fun e => hg (e ▸ List.mem_cons_self _ _)),
          Or.inl (fun e => hg (List.mem_cons_of_mem _ e))⟩
      · refine ⟨?_, Or.inr (by rw [hR.flags]; exact hg)⟩
        by_cases e : g = x
        · exact Or.inr (e ▸ hg)
        · exact Or.inl e
    have hstay : ∀ g, 1 ≤ g → g ≤ s.gGroupCount → (s.gGroupList g).population = 0 →
        (g ∉ x :: l ∨ (s.gGroupList g).solid = true) →
        (((x :: l).foldl (removeBubble bi fillType) s).gGroupList g).population = 0 := by
      intro g h1 hle h0 hg
      obtain ⟨s1, s2⟩ := hside g hg
      exact a4 g h1 (by rw [hR.count]; exact hle)
        (removeBubble_empty bi fillType h hx.1 hx.2 h1 hle h0 s1) s2
    refine ⟨a1, Refilled.refilled_trans hR a2, ⟨fun g => r2 (r1 g), ?_, ?_, ?_⟩, hstay, ?_⟩
    · intro g h2
      exact b1 _ (c1 g h2)
    · intro p hp h2
      show ((l.foldl (removeBubble bi fillType) (removeBubble bi fillType s x)).gBoxData p).group =
        r2 (r1 (s.gBoxData p).group)
      have e1 := c2 p hp h2
      rw [b2 p (by rw [hab]; exact hp) (by rw [e1]; exact c1 _ h2), e1]
    · intro g h2 hle hg hne
      obtain ⟨s1, s2⟩ := hside g hg
      show ((l.foldl (removeBubble bi fillType) (removeBubble bi fillType s x)).gGroupList
        g).population = 0
      by_cases e : r1 g = g
      · have hne' : r2 g ≠ g := by
          intro e2
          apply hne
          show r2 (r1 g) = g
          rw [e, e2]
        exact b3 g h2 (by rw [hR.count]; exact hle) s2 hne'
      · exact a4 g (by omega) (by rw [hR.count]; exact hle) (c3 g h2 hle e) s2
    · intro j h1 hle hj hjl p
      show ((l.foldl (removeBubble bi fillType) (removeBubble bi fillType s x)).gBoxData p).group =
        j ↔ _
      have hjx : j ≠ x := fun e => hjl (e ▸ List.mem_cons_self _ _)
      rw [a5 j h1 (by rw [hR.count]; exact hle) (by rw [hR.flags]; exact hj)
        (fun e => hjl (List.mem_cons_of_mem _ e)) p]
      exact removeBubble_waiting bi fillType h hx.1 hx.2 h1 hle hj hjx p

set_option maxRecDepth 1000000 in
set_option maxHeartbeats 4000000 in
/-- The two enclosed air cells of `twoBubbles`, evaluated: the groups after
`findGroups`, the state of the loop of `checkAndRemoveBubbles` when it comes to
the bubble 5, and the group of the cell `(2,2,2)` when the function returns. -/
theorem bubbleGroups_facts :
    WellFormed (twoBubbles fillBubbles) ∧
    groupRange (SURROUND_AIR_GROUP + 1) bubbleGroups.gGroupCount =
      [2, 3, 4] ++ 5 :: [6, 7, 8, 9, 10] ∧
    (bubbleGroups.gGroupList 5).solid = false ∧
    ((bubbleGroups.gGroupList 2).solid = true ∧ 2 ≤ bubbleGroups.gGroupCount ∧
      (arrayBox bubbleGroups).contains ⟨2, 2, 2⟩ = true ∧
      (bubbleGroups.gBoxData ⟨2, 2, 2⟩).group = 5 ∧
      (bubbleGroups.gBoxData ⟨1, 2, 2⟩).group = 2) ∧
    (((bubblesDone sampleBlocks bubbleGroups [2, 3, 4]).gGroupList 2).solid = true ∧
      2 ≤ (bubblesDone sampleBlocks bubbleGroups [2, 3, 4]).gGroupCount ∧
      (arrayBox (bubblesDone sampleBlocks bubbleGroups [2, 3, 4])).contains ⟨2, 2, 2⟩ = true ∧
      ((bubblesDone sampleBlocks bubbleGroups [2, 3, 4]).gBoxData ⟨2, 2, 2⟩).group = 5 ∧
      ((bubblesDone sampleBlocks bubbleGroups [2, 3, 4]).gBoxData ⟨1, 2, 2⟩).group = 2) ∧
    (∀ p ∈ boxCells (arrayBox bubbleGroups),
      (bubbleGroups.gBoxData p).group = 5 → p = ⟨2, 2, 2⟩) ∧
    (∀ d ∈ List.range 6,
      (bubbleGroups.gBoxData (getNeighborUnsafe d ⟨2, 2, 2⟩)).group ≠ 9 ∧
      (bubbleGroups.gGroupList
        (bubbleGroups.gBoxData (getNeighborUnsafe d ⟨2, 2, 2⟩)).group).population = 1) ∧
    ((checkAndRemoveBubbles sampleBlocks bubbleGroups).gBoxData ⟨2, 2, 2⟩).group = 9 := by
  decide


/-- C2: after `findGroups` on a well-formed state, for every option setting, every
cell of the air box has a group id different from 0, for every group `g` in
`1 .. gGroupCount` the stored population equals the number of cells of the
array whose group field is `g`, and the populations add up to the number of
cells that have a group. -/
theorem findGroups_partition (bi : BlockInfo) (s : ExportState) (h : WellFormed s) :
    (∀ p, (findGroups bi s).gAirBox.contains p = true →
      ((findGroups bi s).gBoxData p).group ≠ NO_GROUP_SET) ∧
    (∀ g, 1 ≤ g → g ≤ (findGroups bi s).gGroupCount →
      ((findGroups bi s).gGroupList g).population = (groupCells (findGroups bi s) g : Int)) ∧
    ((groupRange 1 (findGroups bi s).gGroupCount).map
      fun g => ((findGroups bi s).gGroupList g).population).sum =
      (labelledCells (findGroups bi s) : Int) := by
  have hg := findGroups_grouped bi h
  exact ⟨hg.labelled, fun g h1 h2 => hg.scanned.booked.pop g h1 (Or.inl h2), hg.sum_population⟩

theorem findGroups_partition_witness :
    WellFormed (hangingBlock { noOptions with EXPT_SEAL_SIDE_TUNNELS := true }) ∧
    ((∀ p, (findGroups sampleBlocks
        (hangingBlock { noOptions with EXPT_SEAL_SIDE_TUNNELS := true })).gAirBox.contains p = true →
      ((findGroups sampleBlocks
        (hangingBlock { noOptions with EXPT_SEAL_SIDE_TUNNELS := true })).gBoxData p).group ≠
          NO_GROUP_SET) ∧
    (∀ g, 1 ≤ g → g ≤ (findGroups sampleBlocks
        (hangingBlock { noOptions with EXPT_SEAL_SIDE_TUNNELS := true })).gGroupCount →
      ((findGroups sampleBlocks
        (hangingBlock { noOptions with EXPT_SEAL_SIDE_TUNNELS := true })).gGroupList g).population =
        (groupCells (findGroups sampleBlocks
          (hangingBlock { noOptions with EXPT_SEAL_SIDE_TUNNELS := true })) g : Int)) ∧
    ((groupRange 1 (findGroups sampleBlocks
        (hangingBlock { noOptions with EXPT_SEAL_SIDE_TUNNELS := true })).gGroupCount).map
      fun g => ((findGroups sampleBlocks
        (hangingBlock { noOptions with EXPT_SEAL_SIDE_TUNNELS := true })).gGroupList g).population).sum =
      (labelledCells (findGroups sampleBlocks
        (hangingBlock { noOptions with EXPT_SEAL_SIDE_TUNNELS := true })) : Int)) :=
  ⟨by decide, findGroups_partition sampleBlocks _ (by decide)⟩

/-- C3: when neither sealing option is enabled, the groups that `findGroups` makes
on a well-formed state are the 6-connected components of the air box. Every
cell of the air box has the solidity of its group, two face-adjacent cells of
the air box with the same solidity have the same group id, and two cells of the
air box with the same group id are joined by a path of face-adjacent cells of
that group. -/
theorem findGroups_components (bi : BlockInfo) (s : ExportState) (h : WellFormed s)
    (hside : s.gOptions.EXPT_SEAL_SIDE_TUNNELS = false)
    (hentr : s.gOptions.EXPT_SEAL_ENTRANCES = false) :
    (∀ p, (findGroups bi s).gAirBox.contains p = true →
      ((findGroups bi s).gGroupList ((findGroups bi s).gBoxData p).group).solid =
        ((findGroups bi s).gBoxData p).isSolid) ∧
    (∀ p q, (findGroups bi s).gAirBox.contains p = true →
      (findGroups bi s).gAirBox.contains q = true → faceAdjacent p q →
      ((findGroups bi s).gBoxData p).isSolid = ((findGroups bi s).gBoxData q).isSolid →
      ((findGroups bi s).gBoxData p).group = ((findGroups bi s).gBoxData q).group) ∧
    (∀ p q, (findGroups bi s).gAirBox.contains p = true →
      (findGroups bi s).gAirBox.contains q = true →
      ((findGroups bi s).gBoxData p).group = ((findGroups bi s).gBoxData q).group →
      Relation.ReflTransGen (groupStep (findGroups bi s) ((findGroups bi s).gBoxData p).group)
        p q) := by
  have hg := findGroups_grouped bi h
  have hc := findGroups_closed bi h hside
  have hr := findGroups_rooted bi h hside
  have hprop : ∀ p, propagates bi (findGroups bi s) p := by
    intro p hp
    rw [hg.frame.options, hentr] at hp
    exact absurd hp.1 (by simp)
  refine ⟨?_, ?_, ?_⟩
  · intro p hp
    exact hg.solidity p (hg.scanned.booked.air_in_array p hp) (hg.labelled p hp)
  · intro p q hp hq hadj hsol
    exact ((hc p hp (hg.labelled p hp) (hprop p) q hadj hq hsol.symm).2 (hprop q)).symm
  · intro p q hp hq hpq
    have h0 := hg.labelled p hp
    obtain ⟨r, hroot⟩ := hr.rooted _ (Nat.pos_of_ne_zero h0) (hr.tight p hp)
    have h1 := hroot p hp rfl
    have h2 := hroot q hq hpq.symm
    exact (Relation.ReflTransGen.symmetric groupStep_symm h1).trans h2

set_option maxRecDepth 100000 in
theorem findGroups_components_witness :
    WellFormed (hollowCube noOptions) ∧
    (hollowCube noOptions).gOptions.EXPT_SEAL_SIDE_TUNNELS = false ∧
    (hollowCube noOptions).gOptions.EXPT_SEAL_ENTRANCES = false ∧
    ((∀ p, (findGroups sampleBlocks (hollowCube noOptions)).gAirBox.contains p = true →
      ((findGroups sampleBlocks (hollowCube noOptions)).gGroupList
        ((findGroups sampleBlocks (hollowCube noOptions)).gBoxData p).group).solid =
        ((findGroups sampleBlocks (hollowCube noOptions)).gBoxData p).isSolid) ∧
    (∀ p q, (findGroups sampleBlocks (hollowCube noOptions)).gAirBox.contains p = true →
      (findGroups sampleBlocks (hollowCube noOptions)).gAirBox.contains q = true →
      faceAdjacent p q →
      ((findGroups sampleBlocks (hollowCube noOptions)).gBoxData p).isSolid =
        ((findGroups sampleBlocks (hollowCube noOptions)).gBoxData q).isSolid →
      ((findGroups sampleBlocks (hollowCube noOptions)).gBoxData p).group =
        ((findGroups sampleBlocks (hollowCube noOptions)).gBoxData q).group) ∧
    (∀ p q, (findGroups sampleBlocks (hollowCube noOptions)).gAirBox.contains p = true →
      (findGroups sampleBlocks (hollowCube noOptions)).gAirBox.contains q = true →
      ((findGroups sampleBlocks (hollowCube noOptions)).gBoxData p).group =
        ((findGroups sampleBlocks (hollowCube noOptions)).gBoxData q).group →
      Relation.ReflTransGen
        (groupStep (findGroups sampleBlocks (hollowCube noOptions))
          ((findGroups sampleBlocks (hollowCube noOptions)).gBoxData p).group) p q)) :=
  ⟨by decide, rfl, rfl, findGroups_components sampleBlocks _ (by decide) rfl rfl⟩
/-- C4, as amended: after `findGroups` on a well-formed state group 1 is an air group
for every option setting, and when side tunnels are not sealed (entrances may
be sealed, as long as no cell of the fringe held an entrance block) every cell
of the air box that lies outside the solid box belongs to group 1. -/
theorem findGroups_outside_air (bi : BlockInfo) (s : ExportState) (h : WellFormed s) :
    ((findGroups bi s).gGroupList SURROUND_AIR_GROUP).solid = false ∧
    (s.gOptions.EXPT_SEAL_SIDE_TUNNELS = false →
      (s.gOptions.EXPT_SEAL_ENTRANCES = true →
        ∀ p, inFringe s p → bi.BLF_ENTRANCE (s.gBoxData p).origType = false) →
      ∀ p, inFringe (findGroups bi s) p →
        ((findGroups bi s).gBoxData p).group = SURROUND_AIR_GROUP) := by
  have hg := findGroups_grouped bi h
  refine ⟨hg.first_air, ?_⟩
  intro hseal hentr
  obtain ⟨gx, gy, gz, hab, _, hsol, _⟩ := wellFormed_iff h
  have hc := findGroups_closed bi h hseal
  have hcorner := findGroups_corner bi h hseal
  have hfringe : ∀ p, inFringe (findGroups bi s) p ↔ inFringe s p := by
    intro p
    unfold inFringe
    rw [hg.frame.airBox, hg.frame.solidBox]
  have hair : ∀ p, inFringe s p → ((findGroups bi s).gBoxData p).isSolid = false := by
    intro p hp
    rw [hg.frame.isSolid]
    by_contra hs
    have hpa : (arrayBox s).contains p = true := by
      have := hg.scanned.booked.air_in_array p (by rw [hg.frame.airBox]; exact hp.1)
      rw [hg.frame.arrayBox] at this
      exact this
    have := hsol p hpa (by simpa using hs)
    rw [hp.2] at this
    exact absurd this (by simp)
  have hprop : ∀ p, inFringe s p → propagates bi (findGroups bi s) p := by
    intro p hp hcon
    rw [hg.frame.options, hg.frame.origType] at hcon
    have := hentr hcon.1 p hp
    rw [hcon.2.2] at this
    exact absurd this (by simp)
  have hab' : (findGroups bi s).gAirBox =
      ⟨⟨(findGroups bi s).gSolidBox.min.x - 1, (findGroups bi s).gSolidBox.min.y - 1,
        (findGroups bi s).gSolidBox.min.z - 1⟩,
       ⟨(findGroups bi s).gSolidBox.max.x + 1, (findGroups bi s).gSolidBox.max.y + 1,
        (findGroups bi s).gSolidBox.max.z + 1⟩⟩ := by
    rw [hg.frame.airBox, hg.frame.solidBox]
    exact hab
  apply fringe_induction
    (fun p => ((findGroups bi s).gBoxData p).group = SURROUND_AIR_GROUP) hab'
    (by rw [hg.frame.solidBox]; exact gx.2.1) (by rw [hg.frame.solidBox]; exact gy.2.1)
    (by rw [hg.frame.solidBox]; exact gz.2.1)
  · intro p q hp hq hadj
    rw [hfringe] at hp hq
    have hp' : (findGroups bi s).gAirBox.contains p = true := by rw [hg.frame.airBox]; exact hp.1
    have hq' : (findGroups bi s).gAirBox.contains q = true := by rw [hg.frame.airBox]; exact hq.1
    have := (hc p hp' (hg.labelled p hp') (hprop p hp) q hadj hq'
      (by rw [hair p hp, hair q hq])).2 (hprop q hq)
    rw [this]
  · rw [hg.frame.airBox]
    exact hcorner
set_option maxRecDepth 100000 in
theorem findGroups_outside_air_witness :
    WellFormed (oneBlock sealEntrances) ∧
    (oneBlock sealEntrances).gOptions.EXPT_SEAL_SIDE_TUNNELS = false ∧
    (∀ p, inFringe (oneBlock sealEntrances) p →
      sampleBlocks.BLF_ENTRANCE ((oneBlock sealEntrances).gBoxData p).origType = false) ∧
    ((findGroups sampleBlocks (oneBlock sealEntrances)).gGroupList SURROUND_AIR_GROUP).solid = false ∧
    (∀ p, inFringe (findGroups sampleBlocks (oneBlock sealEntrances)) p →
      ((findGroups sampleBlocks (oneBlock sealEntrances)).gBoxData p).group = SURROUND_AIR_GROUP) :=
  have hentr : ∀ p, inFringe (oneBlock sealEntrances) p →
      sampleBlocks.BLF_ENTRANCE ((oneBlock sealEntrances).gBoxData p).origType = false := by
    intro p _
    show sampleBlocks.BLF_ENTRANCE (if decide (p = ⟨1, 1, 1⟩) = true then stoneCell else airCell).origType
      = false
    split <;> decide
  ⟨by decide, rfl, hentr,
    (findGroups_outside_air sampleBlocks (oneBlock sealEntrances) (by decide)).1,
    (findGroups_outside_air sampleBlocks (oneBlock sealEntrances) (by decide)).2 rfl
      (fun _ => hentr)⟩

set_option maxRecDepth 100000 in
/-- C4 fails as stated: with side tunnels sealed, the air cell below a block that
hangs in the middle of the array lies in the air box and outside the solid box
but gets group 3. -/
theorem findGroups_outside_air_counterexample :
    WellFormed (hangingBlock sealTunnels) ∧
    ¬ (∀ p, inFringe (findGroups sampleBlocks (hangingBlock sealTunnels)) p →
      ((findGroups sampleBlocks (hangingBlock sealTunnels)).gBoxData p).group =
        SURROUND_AIR_GROUP) :=
  ⟨by decide, fun h => absurd (h ⟨1, 1, 1⟩ (by decide)) (by decide)⟩
/-- C10: `deleteFloatingGroups` never changes a cell of the survivor group, for every
floater threshold. The survivor is the solid group among `2 .. gGroupCount` with
the largest population, among those the one with the least `bounds.min[Y]`, and
among those the one with the lowest id. -/
theorem deleteFloatingGroups_keeps_survivor (bi : BlockInfo) (s : ExportState)
    (hpop : ∀ i ∈ groupRange 2 s.gGroupCount, (s.gGroupList i).solid = true →
      0 ≤ (s.gGroupList i).population)
    (hex : ∃ i ∈ groupRange 2 s.gGroupCount, (s.gGroupList i).solid = true) :
    ∃ k : Nat, (findSurvivor s).survivorGroup = (k : Int) ∧ k ∈ groupRange 2 s.gGroupCount ∧
      (s.gGroupList k).solid = true ∧
      (∀ j ∈ groupRange 2 s.gGroupCount, (s.gGroupList j).solid = true →
        survivesOver s.gGroupList k j) ∧
      ∀ p, (s.gBoxData p).group = k → (deleteFloatingGroups bi s).gBoxData p = s.gBoxData p := by
  obtain ⟨k, h1, h2, h3, h4⟩ := findSurvivor_spec s hpop hex
  refine ⟨k, h1, h2, h3, h4, ?_⟩
  intro p hp
  unfold deleteFloatingGroups
  rw [h1]
  apply foldl_inv (fun t : ExportState => t.gBoxData p = s.gBoxData p)
  · rfl
  · intro t i _ ht
    rw [deleteFloatingStep_survivor bi k t i p (by rw [ht]; exact hp)]
    exact ht
set_option maxRecDepth 100000 in
theorem deleteFloatingGroups_keeps_survivor_witness :
    (∀ i ∈ groupRange 2 twoGroups.gGroupCount, (twoGroups.gGroupList i).solid = true →
      0 ≤ (twoGroups.gGroupList i).population) ∧
    (∃ i ∈ groupRange 2 twoGroups.gGroupCount, (twoGroups.gGroupList i).solid = true) ∧
    ∃ k : Nat, (findSurvivor twoGroups).survivorGroup = (k : Int) ∧
      k ∈ groupRange 2 twoGroups.gGroupCount ∧
      (twoGroups.gGroupList k).solid = true ∧
      (∀ j ∈ groupRange 2 twoGroups.gGroupCount, (twoGroups.gGroupList j).solid = true →
        survivesOver twoGroups.gGroupList k j) ∧
      ∀ p, (twoGroups.gBoxData p).group = k →
        (deleteFloatingGroups sampleBlocks twoGroups).gBoxData p = twoGroups.gBoxData p :=
  ⟨by decide, by decide,
    deleteFloatingGroups_keeps_survivor sampleBlocks twoGroups (by decide) (by decide)⟩

/-- C6: on the state that `findGroups` leaves for a well-formed state,
`checkAndRemoveBubbles` takes one off `gAirGroups` and adds one to `bubblesFound`
for each air group other than group 1, so that `gAirGroups` is 1 afterwards; with
a single bubble the number of air groups drops by exactly 1. -/
theorem checkAndRemoveBubbles_air_groups (bi : BlockInfo) (s : ExportState) (h : WellFormed s) :
    (checkAndRemoveBubbles bi (findGroups bi s)).gAirGroups =
      (findGroups bi s).gAirGroups - (bubbleCount (findGroups bi s) : Int) ∧
    (checkAndRemoveBubbles bi (findGroups bi s)).gStats.bubblesFound =
      (findGroups bi s).gStats.bubblesFound + (bubbleCount (findGroups bi s) : Int) ∧
    (checkAndRemoveBubbles bi (findGroups bi s)).gAirGroups = 1 ∧
    (bubbleCount (findGroups bi s) = 1 →
      (checkAndRemoveBubbles bi (findGroups bi s)).gAirGroups =
        (findGroups bi s).gAirGroups - 1) := by
  have hg := findGroups_grouped bi h
  obtain ⟨_, h2, h3⟩ := checkAndRemoveBubbles_counts bi (findGroups bi s)
  have hair : (findGroups bi s).gAirGroups = 1 + (bubbleCount (findGroups bi s) : Int) := by
    rw [hg.scanned.air]
    unfold airGroupCount bubbleCount
    rw [groupRange_one_cons hg.count_pos, List.countP_cons]
    simp [hg.first_air]
    ring
  refine ⟨h2, h3, ?_, ?_⟩
  · rw [h2, hair]
    ring
  · intro h1
    rw [h2, h1]
    rfl

set_option maxRecDepth 100000 in
theorem checkAndRemoveBubbles_air_groups_witness :
    WellFormed (hollowCube fillBubbles) ∧
    bubbleCount (findGroups sampleBlocks (hollowCube fillBubbles)) = 1 ∧
    ((checkAndRemoveBubbles sampleBlocks (findGroups sampleBlocks (hollowCube fillBubbles))).gAirGroups =
      (findGroups sampleBlocks (hollowCube fillBubbles)).gAirGroups -
        (bubbleCount (findGroups sampleBlocks (hollowCube fillBubbles)) : Int) ∧
    (checkAndRemoveBubbles sampleBlocks
        (findGroups sampleBlocks (hollowCube fillBubbles))).gStats.bubblesFound =
      (findGroups sampleBlocks (hollowCube fillBubbles)).gStats.bubblesFound +
        (bubbleCount (findGroups sampleBlocks (hollowCube fillBubbles)) : Int) ∧
    (checkAndRemoveBubbles sampleBlocks
        (findGroups sampleBlocks (hollowCube fillBubbles))).gAirGroups = 1 ∧
    (bubbleCount (findGroups sampleBlocks (hollowCube fillBubbles)) = 1 →
      (checkAndRemoveBubbles sampleBlocks
          (findGroups sampleBlocks (hollowCube fillBubbles))).gAirGroups =
        (findGroups sampleBlocks (hollowCube fillBubbles)).gAirGroups - 1)) :=
  ⟨by decide, by decide,
    checkAndRemoveBubbles_air_groups sampleBlocks (hollowCube fillBubbles) (by decide)⟩

set_option maxRecDepth 100000 in
/-- C5: with fill-bubbles on (and a block table in which glass, as an unsigned char,
and leaves are not air), after `findGroups` and `checkAndRemoveBubbles` on a
well-formed state every cell of the array that was in an air group other than group 1
is solid, and every cell that was solid is still solid; for the 3×3×3 stone cube with
its centre cell empty, `bubblesFound` is 1, 27 cells are solid, and `gSolidGroups`
is 1. -/
theorem checkAndRemoveBubbles_fills (bi : BlockInfo) (s : ExportState) (h : WellFormed s)
    (hfill : s.gOptions.EXPT_FILL_BUBBLES = true)
    (hglass : 0 < bi.BLOCK_GLASS % 256) (hleaves : 0 < bi.BLOCK_LEAVES) :
    (∀ p, (arrayBox s).contains p = true → 2 ≤ ((findGroups bi s).gBoxData p).group →
      ((findGroups bi s).gGroupList ((findGroups bi s).gBoxData p).group).solid = false →
      ((checkAndRemoveBubbles bi (findGroups bi s)).gBoxData p).isSolid = true) ∧
    (∀ p, ((findGroups bi s).gBoxData p).isSolid = true →
      ((checkAndRemoveBubbles bi (findGroups bi s)).gBoxData p).isSolid = true) ∧
    (checkAndRemoveBubbles bi (findGroups bi (hollowCube fillBubbles))).gStats.bubblesFound = 1 ∧
    solidCells (checkAndRemoveBubbles bi (findGroups bi (hollowCube fillBubbles))) = 27 ∧
    (checkAndRemoveBubbles bi (findGroups bi (hollowCube fillBubbles))).gSolidGroups = 1 := by
  have hg := findGroups_grouped bi h
  have hinv := checkAndRemoveBubbles_inv bi (findGroups_bounded bi h)
    (by rw [hg.frame.options]; exact hfill) hglass hleaves
  have hw : WellFormed (hollowCube fillBubbles) := by decide
  have hT : findGroups bi (hollowCube fillBubbles) =
      findGroups sampleBlocks (hollowCube fillBubbles) := findGroups_blocks bi sampleBlocks hw rfl
  have hgT := findGroups_grouped sampleBlocks hw
  refine ⟨?_, hinv.solid, ?_, ?_, ?_⟩
  · intro p hp hp2 hair
    have hpa : (arrayBox (findGroups bi s)).contains p = true := by
      rw [hg.frame.arrayBox]
      exact hp
    exact hinv.filled p hpa (mem_groupRange.2 ⟨hp2, hg.group_le p hpa⟩) hair
  · rw [hT, (checkAndRemoveBubbles_counts bi _).2.2]
    decide
  · have hsol := bubbles_solidity bi hw rfl hglass hleaves
    rw [hT] at hsol
    rw [hT]
    unfold solidCells
    have hbox : arrayBox (checkAndRemoveBubbles bi (findGroups sampleBlocks (hollowCube fillBubbles)))
        = arrayBox (hollowCube fillBubbles) := by
      unfold arrayBox
      rw [(checkAndRemoveBubbles_counts bi _).1.boxSize, hgT.frame.boxSize]
    rw [hbox]
    have hcongr : (boxCells (arrayBox (hollowCube fillBubbles))).countP
        (fun p => ((checkAndRemoveBubbles bi
          (findGroups sampleBlocks (hollowCube fillBubbles))).gBoxData p).isSolid) =
        (boxCells (arrayBox (hollowCube fillBubbles))).countP
        (fun p => ((findGroups sampleBlocks (hollowCube fillBubbles)).gBoxData p).isSolid ||
          decide (((findGroups sampleBlocks (hollowCube fillBubbles)).gBoxData p).group ≠ 1)) := by
      apply List.countP_congr
      intro p hp
      rw [hsol p (by
        rw [hgT.frame.airBox]
        exact mem_boxCells.1 hp)]
    rw [hcongr]
    decide
  · rw [hT]
    have hc : (findGroups sampleBlocks (hollowCube fillBubbles)).gGroupCount = 3 := by decide
    have h2 : ((findGroups sampleBlocks (hollowCube fillBubbles)).gGroupList 2).solid = true := by
      decide
    have h3 : ((findGroups sampleBlocks (hollowCube fillBubbles)).gGroupList 3).solid = false := by
      decide
    have ho : (findGroups sampleBlocks (hollowCube fillBubbles)).gOptions.EXPT_FILL_BUBBLES
        = true := by
      rw [hgT.frame.options]
      rfl
    have e := checkAndRemoveBubbles_three bi _ hc ho h2
    rw [e, removeBubble_solidGroups _ _ _ _ h3]
    decide

set_option maxRecDepth 100000 in
theorem checkAndRemoveBubbles_fills_witness :
    WellFormed (hollowCube fillBubbles) ∧
    (hollowCube fillBubbles).gOptions.EXPT_FILL_BUBBLES = true ∧
    0 < sampleBlocks.BLOCK_GLASS % 256 ∧ 0 < sampleBlocks.BLOCK_LEAVES ∧
    ((∀ p, (arrayBox (hollowCube fillBubbles)).contains p = true →
      2 ≤ ((findGroups sampleBlocks (hollowCube fillBubbles)).gBoxData p).group →
      ((findGroups sampleBlocks (hollowCube fillBubbles)).gGroupList
        ((findGroups sampleBlocks (hollowCube fillBubbles)).gBoxData p).group).solid = false →
      ((checkAndRemoveBubbles sampleBlocks
        (findGroups sampleBlocks (hollowCube fillBubbles))).gBoxData p).isSolid = true) ∧
    (∀ p, ((findGroups sampleBlocks (hollowCube fillBubbles)).gBoxData p).isSolid = true →
      ((checkAndRemoveBubbles sampleBlocks
        (findGroups sampleBlocks (hollowCube fillBubbles))).gBoxData p).isSolid = true) ∧
    (checkAndRemoveBubbles sampleBlocks
      (findGroups sampleBlocks (hollowCube fillBubbles))).gStats.bubblesFound = 1 ∧
    solidCells (checkAndRemoveBubbles sampleBlocks
      (findGroups sampleBlocks (hollowCube fillBubbles))) = 27 ∧
    (checkAndRemoveBubbles sampleBlocks
      (findGroups sampleBlocks (hollowCube fillBubbles))).gSolidGroups = 1) :=
  ⟨by decide, rfl, by decide, by decide,
    checkAndRemoveBubbles_fills sampleBlocks (hollowCube fillBubbles) (by decide) rfl
      (by decide) (by decide)⟩
/-- C1: when `fixTouchingEdges` returns 0 with the connect-all-edges option on, and
every non-air cell lies inside the solid box, the grid is as it was and has no
touching edge left: for every two solid cells of the solid box that differ by one
step in exactly two axes, a cell that is face-adjacent to both is solid. -/
theorem fixTouchingEdges_zero (bi : BlockInfo) (qsort_s : Qsort) (s : ExportState)
    (hall : s.gOptions.EXPT_CONNECT_ALL_EDGES = true)
    (hin : ∀ p, (s.gBoxData p).isSolid = true → s.gSolidBox.contains p = true)
    (h0 : (fixTouchingEdges bi qsort_s s).1 = 0) :
    (fixTouchingEdges bi qsort_s s).2.gBoxData = s.gBoxData ∧
    ∀ a b, s.gSolidBox.contains a = true → s.gSolidBox.contains b = true →
      ((fixTouchingEdges bi qsort_s s).2.gBoxData a).isSolid = true →
      ((fixTouchingEdges bi qsort_s s).2.gBoxData b).isSolid = true →
      edgeDiagonal a b →
      ∃ c, faceAdjacent a c ∧ faceAdjacent b c ∧
        ((fixTouchingEdges bi qsort_s s).2.gBoxData c).isSolid = true := by
  obtain ⟨hT, _⟩ := touchScan_inv s
  have hsize : (touchScan s).gTouchSize = 0 := by
    by_contra hz
    rw [fixTouchingEdges_eq, if_neg hz] at h0
    have hpos : 0 < (touchScan s).gTouchSize := by
      have := hT.size_nonneg
      omega
    obtain ⟨p, hp⟩ := hT.witness hpos
    obtain ⟨b, o, ho, hb, hsb, hso, e⟩ := hT.origin p hp
    obtain ⟨b1, b2⟩ := between_in_box ho hb (hin _ hso)
    have hpbox : (touchScan s).gSolidBox.contains p = true := by
      rw [hT.solidBox]
      rcases e with e | e <;> rw [e] <;> assumption
    have := touchList_mem hpbox hp
    simp [this] at h0
  have hres : (fixTouchingEdges bi qsort_s s).2 = touchScan s := by
    rw [fixTouchingEdges_eq, if_pos hsize]
  rw [hres, hT.data]
  refine ⟨rfl, ?_⟩
  intro a b ha hb hsa hsb hd
  by_contra hno
  have hno' : ∀ c, faceAdjacent a c → faceAdjacent b c → (s.gBoxData c).isSolid = false := by
    intro c h1 h2
    by_contra hc
    exact hno ⟨c, h1, h2, by simpa using hc⟩
  obtain ⟨p, _, hp⟩ := touchScan_marks hall ha hb hsa hsb hd hno'
  have := hT.sized p hp
  omega

theorem fixTouchingEdges_zero_witness :
    (elbow connectAll).gOptions.EXPT_CONNECT_ALL_EDGES = true ∧
    (∀ p, ((elbow connectAll).gBoxData p).isSolid = true →
      (elbow connectAll).gSolidBox.contains p = true) ∧
    (fixTouchingEdges sampleBlocks sampleSort (elbow connectAll)).1 = 0 ∧
    ((fixTouchingEdges sampleBlocks sampleSort (elbow connectAll)).2.gBoxData =
      (elbow connectAll).gBoxData ∧
    ∀ a b, (elbow connectAll).gSolidBox.contains a = true →
      (elbow connectAll).gSolidBox.contains b = true →
      ((fixTouchingEdges sampleBlocks sampleSort (elbow connectAll)).2.gBoxData a).isSolid = true →
      ((fixTouchingEdges sampleBlocks sampleSort (elbow connectAll)).2.gBoxData b).isSolid = true →
      edgeDiagonal a b →
      ∃ c, faceAdjacent a c ∧ faceAdjacent b c ∧
        ((fixTouchingEdges sampleBlocks sampleSort (elbow connectAll)).2.gBoxData c).isSolid
          = true) :=
  have hin : ∀ p, ((elbow connectAll).gBoxData p).isSolid = true →
      (elbow connectAll).gSolidBox.contains p = true := by
    intro p hp
    have hp' : (if decide (p = ⟨1, 1, 1⟩ ∨ p = ⟨2, 1, 2⟩ ∨ p = ⟨2, 1, 1⟩) = true
        then stoneCell else airCell).isSolid = true := hp
    split at hp'
    · rename_i h
      simp only [decide_eq_true_eq] at h
      rcases h with rfl | rfl | rfl <;> decide
    · exact absurd hp' (by decide)
  ⟨rfl, hin, by decide,
    fixTouchingEdges_zero sampleBlocks sampleSort (elbow connectAll) rfl hin (by decide)⟩

/-- C9, as amended: let `qsort_s` return a permutation of its input, let lava (as an
unsigned char) and leaves not be air in the block table, and let
connect-corner-tips be on only together with connect-parts, as the code asserts.
Then the repair loop of `filterBox` ends when it is given one pass more than the
solid box has air cells, having made at most that many passes and turned no solid
cell into air; and in every pass no solid cell becomes air, and a pass that reports
a fix has turned an air cell of the solid box into a solid cell. -/
theorem repairLoop_terminates (bi : BlockInfo) (qsort_s : Qsort) (s : ExportState)
    (hq : ∀ cmp l, (qsort_s cmp l).Perm l)
    (hlava : 0 < bi.BLOCK_LAVA % 256) (hleaves : 0 < bi.BLOCK_LEAVES)
    (hopt : s.gOptions.EXPT_CONNECT_CORNER_TIPS = true → s.gOptions.EXPT_CONNECT_PARTS = true)
    (fuel : Nat) (hfuel : airCells s + 1 ≤ fuel) :
    (∃ u n, repairLoop bi qsort_s fuel 0 s = some (u, n) ∧ n ≤ airCells s + 1 ∧
      ∀ p, (s.gBoxData p).isSolid = true → (u.gBoxData p).isSolid = true) ∧
    ∀ (foundTouching : Int) (t : ExportState),
      (t.gOptions.EXPT_CONNECT_CORNER_TIPS = true → t.gOptions.EXPT_CONNECT_PARTS = true) →
      (t.gOptions.EXPT_CONNECT_PARTS = true ∨ foundTouching = 0) →
      (∀ p, (t.gBoxData p).isSolid = true →
        ((repairPass bi qsort_s foundTouching t).2.gBoxData p).isSolid = true) ∧
      ((repairPass bi qsort_s foundTouching t).1 ≠ 0 →
        gained t (repairPass bi qsort_s foundTouching t).2) := by
  refine ⟨?_, ?_⟩
  · obtain ⟨u, n, e, hn, hu⟩ := repairLoop_spec bi qsort_s hq hlava hleaves fuel 0 s hopt
      (Or.inr rfl) hfuel
    exact ⟨u, n, e, hn, hu.solid⟩
  · intro ft t hopt' hstart
    obtain ⟨r1, r2, r3⟩ := repairPass_spec bi qsort_s ft t hq hlava hleaves
    refine ⟨r1.solid, fun hr => ?_⟩
    by_cases hp : t.gOptions.EXPT_CONNECT_PARTS = true
    · exact r2 hp hr
    · have hp' : t.gOptions.EXPT_CONNECT_PARTS = false := by simpa using hp
      have hc : t.gOptions.EXPT_CONNECT_CORNER_TIPS = false := by
        by_contra hc
        have := hopt' (by simpa using hc)
        rw [hp'] at this
        simp at this
      rw [r3 hp' hc] at hr
      rcases hstart with h | h
      · exact absurd h hp
      · exact absurd h hr

set_option maxRecDepth 100000 in
theorem repairLoop_terminates_witness :
    (∀ cmp l, (sampleSort cmp l).Perm l) ∧
    0 < sampleBlocks.BLOCK_LAVA % 256 ∧ 0 < sampleBlocks.BLOCK_LEAVES ∧
    (twoParts.gOptions.EXPT_CONNECT_CORNER_TIPS = true →
      twoParts.gOptions.EXPT_CONNECT_PARTS = true) ∧
    airCells twoParts + 1 ≤ 3 ∧
    ((∃ u n, repairLoop sampleBlocks sampleSort 3 0 twoParts = some (u, n) ∧
        n ≤ airCells twoParts + 1 ∧
        ∀ p, (twoParts.gBoxData p).isSolid = true → (u.gBoxData p).isSolid = true) ∧
      ∀ (foundTouching : Int) (t : ExportState),
        (t.gOptions.EXPT_CONNECT_CORNER_TIPS = true → t.gOptions.EXPT_CONNECT_PARTS = true) →
        (t.gOptions.EXPT_CONNECT_PARTS = true ∨ foundTouching = 0) →
        (∀ p, (t.gBoxData p).isSolid = true →
          ((repairPass sampleBlocks sampleSort foundTouching t).2.gBoxData p).isSolid = true) ∧
        ((repairPass sampleBlocks sampleSort foundTouching t).1 ≠ 0 →
          gained t (repairPass sampleBlocks sampleSort foundTouching t).2)) :=
  have hq : ∀ cmp l, (sampleSort cmp l).Perm l := fun cmp l => List.perm_insertionSort _ l
  ⟨hq, by decide, by decide, by decide, by decide,
    repairLoop_terminates sampleBlocks sampleSort twoParts hq (by decide) (by decide)
      (by decide) 3 (by decide)⟩

set_option maxRecDepth 100000 in
/-- C9 fails as stated: for the single block the solid box has no air cell, and the
repair loop still makes one pass. -/
theorem repairLoop_terminates_counterexample :
    ∃ n, (repairLoop sampleBlocks sampleSort 1 0 onePart).map (fun q => q.2) = some n ∧
      ¬ n ≤ airCells onePart :=
  ⟨1, by decide, by decide⟩

/-- C16: `checkMakeFace` returns 0 or 1, and it returns 1 exactly when the neighbour
is air, or the model is for viewing (`view3D` set) and either the neighbour's alpha
is below 1 and its kind differs from `type`, or texture images are exported, the
neighbour's kind has the cutout flag and the pair is not glass/glass, glass
pane/glass pane, vines/vines or iron bars/iron bars. Glass next to glass gets
no face, and a cutout-flagged leaf block next to another leaf block gets one
when the model is for viewing with texture images. -/
theorem checkMakeFace_spec (bt : BlockTable) (o : FaceOptions) (type neighborType : Nat)
    (view3D : Int) :
    (checkMakeFace bt o type neighborType view3D = 1 ↔
      neighborType = BLOCK_AIR ∨
      (view3D ≠ 0 ∧ bt.alpha neighborType < 1 ∧ neighborType ≠ type) ∨
      (view3D ≠ 0 ∧ o.EXPT_OUTPUT_TEXTURE_IMAGES = true ∧ bt.BLF_CUTOUTS neighborType = true ∧
        ¬ (neighborType = bt.BLOCK_GLASS ∧ type = bt.BLOCK_GLASS) ∧
        ¬ (neighborType = bt.BLOCK_GLASS_PANE ∧ type = bt.BLOCK_GLASS_PANE) ∧
        ¬ (neighborType = bt.BLOCK_VINES ∧ type = bt.BLOCK_VINES) ∧
        ¬ (neighborType = bt.BLOCK_IRON_BARS ∧ type = bt.BLOCK_IRON_BARS))) ∧
    (checkMakeFace bt o type neighborType view3D = 0 ∨
      checkMakeFace bt o type neighborType view3D = 1) ∧
    (bt.BLOCK_GLASS ≠ BLOCK_AIR →
      checkMakeFace bt o bt.BLOCK_GLASS bt.BLOCK_GLASS view3D = 0) ∧
    (view3D ≠ 0 → o.EXPT_OUTPUT_TEXTURE_IMAGES = true → bt.BLF_CUTOUTS bt.BLOCK_LEAVES = true →
      bt.BLOCK_LEAVES ≠ bt.BLOCK_GLASS → bt.BLOCK_LEAVES ≠ bt.BLOCK_GLASS_PANE →
      bt.BLOCK_LEAVES ≠ bt.BLOCK_VINES → bt.BLOCK_LEAVES ≠ bt.BLOCK_IRON_BARS →
      checkMakeFace bt o bt.BLOCK_LEAVES bt.BLOCK_LEAVES view3D = 1) := by
  refine ⟨checkMakeFace_iff bt o type neighborType view3D,
    checkMakeFace_bit bt o type neighborType view3D, ?_, ?_⟩
  · intro hg
    rcases checkMakeFace_bit bt o bt.BLOCK_GLASS bt.BLOCK_GLASS view3D with h | h
    · exact h
    · rcases (checkMakeFace_iff bt o _ _ view3D).1 h with h | ⟨_, _, h⟩ | ⟨_, _, _, h, _⟩
      · exact absurd h hg
      · exact absurd rfl h
      · exact absurd ⟨rfl, rfl⟩ h
  · intro hv ho hc h1 h2 h3 h4
    exact (checkMakeFace_iff bt o _ _ view3D).2
      (Or.inr (Or.inr ⟨hv, ho, hc, fun h => h1 h.1, fun h => h2 h.1, fun h => h3 h.1,
        fun h => h4 h.1⟩))

/-- The cutout rule of `checkMakeFace` is not independent of the export mode: for 3D
printing a stone block next to a leaf block gets no face. -/
theorem checkMakeFace_spec_counterexample :
    ¬ ∀ (bt : BlockTable) (o : FaceOptions) (type neighborType : Nat) (view3D : Int),
      (checkMakeFace bt o type neighborType view3D = 1 ↔
        neighborType = BLOCK_AIR ∨
        (view3D ≠ 0 ∧ bt.alpha neighborType < 1 ∧ neighborType ≠ type) ∨
        (bt.BLF_CUTOUTS neighborType = true ∧
          ¬ (neighborType = bt.BLOCK_GLASS ∧ type = bt.BLOCK_GLASS) ∧
          ¬ (neighborType = bt.BLOCK_GLASS_PANE ∧ type = bt.BLOCK_GLASS_PANE) ∧
          ¬ (neighborType = bt.BLOCK_VINES ∧ type = bt.BLOCK_VINES) ∧
          ¬ (neighborType = bt.BLOCK_IRON_BARS ∧ type = bt.BLOCK_IRON_BARS))) := by
  intro h
  have h1 := (h sampleTable printing 1 18 0).2 (Or.inr (Or.inr (by decide)))
  revert h1
  decide

/-- C19: when the call of `getSwatch` for the background cell is plain, calling
`getCompositeSwatch` twice in a row with the same cutout swatch, background cell,
face direction and angle returns the same swatch index both times, and the
second call changes neither the composite list nor `swatchCount`. -/
theorem getCompositeSwatch_twice (getSwatch : GetSwatch) (s : ExportState) (m : Model)
    (swatchLoc : Int) (backgroundIndex : IPoint) (faceDirection : Nat) (angle : Int)
    (hbg : PlainBackground getSwatch s backgroundIndex faceDirection) :
    (getCompositeSwatch getSwatch s
      (getCompositeSwatch getSwatch s m swatchLoc backgroundIndex faceDirection angle).2
      swatchLoc backgroundIndex faceDirection angle).1 =
      (getCompositeSwatch getSwatch s m swatchLoc backgroundIndex faceDirection angle).1 ∧
    (getCompositeSwatch getSwatch s
      (getCompositeSwatch getSwatch s m swatchLoc backgroundIndex faceDirection angle).2
      swatchLoc backgroundIndex faceDirection angle).2.swatchCompositeList =
      (getCompositeSwatch getSwatch s m swatchLoc backgroundIndex faceDirection
        angle).2.swatchCompositeList ∧
    (getCompositeSwatch getSwatch s
      (getCompositeSwatch getSwatch s m swatchLoc backgroundIndex faceDirection angle).2
      swatchLoc backgroundIndex faceDirection angle).2.swatchCount =
      (getCompositeSwatch getSwatch s m swatchLoc backgroundIndex faceDirection
        angle).2.swatchCount := by
  obtain ⟨b, m1, hb, hm1e, l1, c1, z1, h⟩ :=
    getCompositeSwatch_cases getSwatch s m swatchLoc backgroundIndex faceDirection angle hbg
  have key : ∀ (x : Int) (n : Model),
      getCompositeSwatch getSwatch s m swatchLoc backgroundIndex faceDirection angle = (x, n) →
      (n.swatchCompositeList.find? (fun c => decide (c.swatchLoc = swatchLoc ∧
            c.angle = angle ∧ c.backgroundSwatchLoc = b)) = some ⟨swatchLoc, b, angle, x⟩ ∨
        (n.swatchCompositeList.find? (fun c => decide (c.swatchLoc = swatchLoc ∧
            c.angle = angle ∧ c.backgroundSwatchLoc = b)) = none ∧
          n.swatchCount ≥ n.swatchListSize ∧
          x = match n.swatchCompositeList.find? fun c => decide (c.swatchLoc = swatchLoc) with
              | some c => c.compositeSwatchLoc
              | none => 0) ∨
        ∃ c, n.swatchCompositeList.find? (fun c => decide (c.swatchLoc = swatchLoc ∧
            c.angle = angle ∧ c.backgroundSwatchLoc = b)) = some c ∧ c.compositeSwatchLoc = x) →
      (getCompositeSwatch getSwatch s n swatchLoc backgroundIndex faceDirection angle).1 = x ∧
      (getCompositeSwatch getSwatch s n swatchLoc backgroundIndex faceDirection
        angle).2.swatchCompositeList = n.swatchCompositeList ∧
      (getCompositeSwatch getSwatch s n swatchLoc backgroundIndex faceDirection
        angle).2.swatchCount = n.swatchCount := by
    intro x n _ hn
    obtain ⟨b', m2, hb', _, l2, c2, z2, h'⟩ :=
      getCompositeSwatch_cases getSwatch s n swatchLoc backgroundIndex faceDirection angle hbg
    have hbb : b' = b := by rw [← hb' m, hb m]
    subst hbb
    rcases h' with ⟨c, hc, e⟩ | ⟨hnone, hfull, e⟩ | ⟨hnone, hroom, e⟩
    · rw [e]
      refine ⟨?_, l2, c2⟩
      rcases hn with hn | ⟨hn, _⟩ | ⟨c', hn, hx⟩
      · rw [hn] at hc
        cases hc
        rfl
      · rw [hn] at hc
        cases hc
      · rw [hn] at hc
        cases hc
        exact hx
    · rw [e]
      refine ⟨?_, l2, c2⟩
      rcases hn with hn | ⟨_, _, hx⟩ | ⟨c', hn, _⟩
      · rw [hn] at hnone
        cases hnone
      · exact hx.symm
      · rw [hn] at hnone
        cases hnone
    · exfalso
      rcases hn with hn | ⟨_, hfull, _⟩ | ⟨c', hn, _⟩
      · rw [hn] at hnone
        cases hnone
      · omega
      · rw [hn] at hnone
        cases hnone
  rcases h with ⟨c, hc, e⟩ | ⟨hnone, hfull, e⟩ | ⟨hnone, hroom, e⟩
  · rw [e]
    exact key _ m1 e (Or.inr (Or.inr ⟨c, by rw [l1]; exact hc, rfl⟩))
  · rw [e]
    refine key _ m1 e (Or.inr (Or.inl ⟨by rw [l1]; exact hnone, by omega, ?_⟩))
    exact l1 ▸ rfl
  · rw [e]
    refine key _ (createCompositeSwatch m1 swatchLoc b angle).2 e (Or.inl ?_)
    simp only [createCompositeSwatch, l1]
    exact find_none_append _ _ _ hnone (by simp)

theorem getCompositeSwatch_twice_witness :
    PlainBackground sampleSwatch (solidCube 1) ⟨1, 1, 1⟩ 4 ∧
    (getCompositeSwatch sampleSwatch (solidCube 1)
      (getCompositeSwatch sampleSwatch (solidCube 1) roomyAtlas 300 ⟨1, 1, 1⟩ 4 0).2
      300 ⟨1, 1, 1⟩ 4 0).1 =
      (getCompositeSwatch sampleSwatch (solidCube 1) roomyAtlas 300 ⟨1, 1, 1⟩ 4 0).1 ∧
    (getCompositeSwatch sampleSwatch (solidCube 1)
      (getCompositeSwatch sampleSwatch (solidCube 1) roomyAtlas 300 ⟨1, 1, 1⟩ 4 0).2
      300 ⟨1, 1, 1⟩ 4 0).2.swatchCompositeList =
      (getCompositeSwatch sampleSwatch (solidCube 1) roomyAtlas 300 ⟨1, 1, 1⟩ 4
        0).2.swatchCompositeList ∧
    (getCompositeSwatch sampleSwatch (solidCube 1)
      (getCompositeSwatch sampleSwatch (solidCube 1) roomyAtlas 300 ⟨1, 1, 1⟩ 4 0).2
      300 ⟨1, 1, 1⟩ 4 0).2.swatchCount =
      (getCompositeSwatch sampleSwatch (solidCube 1) roomyAtlas 300 ⟨1, 1, 1⟩ 4
        0).2.swatchCount :=
  ⟨fun _ => ⟨rfl, rfl, rfl, fun _ => rfl⟩,
    getCompositeSwatch_twice sampleSwatch (solidCube 1) roomyAtlas 300 ⟨1, 1, 1⟩ 4 0
      fun _ => ⟨rfl, rfl, rfl, fun _ => rfl⟩⟩

/-- C20: when the call of `getSwatch` for the background cell is plain, the atlas is
full (`swatchCount >= swatchListSize`) and no record matches the cutout swatch, the
angle and the background swatch, `getCompositeSwatch` leaves the composite list
and `swatchCount` unchanged and returns the composite index of the
earliest-appended record with the same cutout swatch, or 0 if there is none. The
composite list changes only through `createCompositeSwatch`, which always
appends to it, and that call is made only when `swatchCount < swatchListSize`. -/
theorem getCompositeSwatch_full (getSwatch : GetSwatch) (s : ExportState) (m : Model)
    (swatchLoc : Int) (backgroundIndex : IPoint) (faceDirection : Nat) (angle : Int)
    (hbg : PlainBackground getSwatch s backgroundIndex faceDirection) :
    (m.swatchCount ≥ m.swatchListSize →
      (∀ c ∈ m.swatchCompositeList, ¬ (c.swatchLoc = swatchLoc ∧ c.angle = angle ∧
        c.backgroundSwatchLoc = (getSwatch s m (s.gBoxData backgroundIndex).type
          (s.gBoxData backgroundIndex).data faceDirection 0).1)) →
      (getCompositeSwatch getSwatch s m swatchLoc backgroundIndex faceDirection
        angle).2.swatchCompositeList = m.swatchCompositeList ∧
      (getCompositeSwatch getSwatch s m swatchLoc backgroundIndex faceDirection
        angle).2.swatchCount = m.swatchCount ∧
      (∀ pre c post, m.swatchCompositeList = pre ++ c :: post → c.swatchLoc = swatchLoc →
        (∀ d ∈ pre, d.swatchLoc ≠ swatchLoc) →
        (getCompositeSwatch getSwatch s m swatchLoc backgroundIndex faceDirection angle).1 =
          c.compositeSwatchLoc) ∧
      ((∀ c ∈ m.swatchCompositeList, c.swatchLoc ≠ swatchLoc) →
        (getCompositeSwatch getSwatch s m swatchLoc backgroundIndex faceDirection angle).1 = 0)) ∧
    ((getCompositeSwatch getSwatch s m swatchLoc backgroundIndex faceDirection
        angle).2.swatchCompositeList ≠ m.swatchCompositeList →
      m.swatchCount < m.swatchListSize ∧
      getCompositeSwatch getSwatch s m swatchLoc backgroundIndex faceDirection angle =
        createCompositeSwatch (getSwatch s m (s.gBoxData backgroundIndex).type
          (s.gBoxData backgroundIndex).data faceDirection 0).2 swatchLoc
          (getSwatch s m (s.gBoxData backgroundIndex).type
            (s.gBoxData backgroundIndex).data faceDirection 0).1 angle) ∧
    (∀ (n : Model) (a b c : Int),
      (createCompositeSwatch n a b c).2.swatchCompositeList ≠ n.swatchCompositeList) := by
  obtain ⟨b, m1, hb, hm1e, l1, c1, z1, h⟩ :=
    getCompositeSwatch_cases getSwatch s m swatchLoc backgroundIndex faceDirection angle hbg
  have hm1 : ∀ x, getCompositeSwatch getSwatch s m swatchLoc backgroundIndex faceDirection angle =
      (x, m1) →
      (getCompositeSwatch getSwatch s m swatchLoc backgroundIndex faceDirection
        angle).2.swatchCompositeList = m.swatchCompositeList ∧
      (getCompositeSwatch getSwatch s m swatchLoc backgroundIndex faceDirection
        angle).2.swatchCount = m.swatchCount := by
    intro x e
    rw [e]
    exact ⟨l1, c1⟩
  refine ⟨?_, ?_, ?_⟩
  · intro hfull hno
    rw [hb m] at hno
    rcases h with ⟨c, hc, e⟩ | ⟨hnone, _, e⟩ | ⟨_, hroom, _⟩
    · exfalso
      have hmem := List.mem_of_find?_eq_some hc
      have hp := List.find?_some hc
      exact hno c hmem (by simpa using hp)
    · refine ⟨(hm1 _ e).1, (hm1 _ e).2, ?_, ?_⟩
      · intro pre c post hl hc hpre
        rw [e, hl, find_first _ pre c post (by simpa using hc)
          (fun d hd => by simpa using hpre d hd)]
      · intro hall
        have : m.swatchCompositeList.find? (fun c => decide (c.swatchLoc = swatchLoc)) = none := by
          rw [List.find?_eq_none]
          intro c hc
          simpa using hall c hc
        rw [e, this]
    · omega
  · intro hne
    rcases h with ⟨c, _, e⟩ | ⟨_, _, e⟩ | ⟨_, hroom, e⟩
    · exact absurd (hm1 _ e).1 hne
    · exact absurd (hm1 _ e).1 hne
    · refine ⟨hroom, ?_⟩
      rw [e, hm1e, hb m]
  · intro n a b c h
    have := congrArg List.length h
    simp [createCompositeSwatch] at this

theorem getCompositeSwatch_full_witness :
    PlainBackground sampleSwatch (solidCube 1) ⟨1, 1, 1⟩ 4 ∧
    fullAtlas.swatchCount ≥ fullAtlas.swatchListSize ∧
    (getCompositeSwatch sampleSwatch (solidCube 1) fullAtlas 300 ⟨1, 1, 1⟩ 4 0).1 = 2 ∧
    (getCompositeSwatch sampleSwatch (solidCube 1) fullAtlas 300 ⟨1, 1, 1⟩ 4
      0).2.swatchCompositeList = fullAtlas.swatchCompositeList ∧
    (getCompositeSwatch sampleSwatch (solidCube 1) fullAtlas 300 ⟨1, 1, 1⟩ 4
      0).2.swatchCount = fullAtlas.swatchCount :=
  have h := (getCompositeSwatch_full sampleSwatch (solidCube 1) fullAtlas 300 ⟨1, 1, 1⟩ 4 0
    fun _ => ⟨rfl, rfl, rfl, fun _ => rfl⟩).1 (by decide) (by decide)
  ⟨fun _ => ⟨rfl, rfl, rfl, fun _ => rfl⟩, by decide,
    h.2.2.1 [] ⟨300, 2, 0, 2⟩ [⟨300, 3, 0, 3⟩] rfl rfl (by simp), h.1, h.2.1⟩

/-- C13: for a 2×2×2 cube of a single block kind `t` with air on all sides, face
generation from the initialised model emits 24 faces, one per unit face that
touches air, when `checkMakeFace` gives no face between two blocks of kind `t`, and
48 faces, the 24 inner ones too, when it does; it does exactly when the export is
for viewing with texture images and `t` has the cutout flag and is not glass, glass
pane, vines or iron bars. -/
theorem cube_faces (bt : BlockTable) (o : FaceOptions) (t : Nat) (ht : 0 < t) :
    (generateBlockDataAndStatistics bt o (solidCube t)
      (initializeModelData (solidCube t) zeroModel)).faceCount =
      (if checkMakeFace bt o t t (view3D o) = 0 then 24 else 48) ∧
    (checkMakeFace bt o t t (view3D o) = 0 ↔
      ¬ (o.EXPT_3DPRINT = false ∧ o.EXPT_OUTPUT_TEXTURE_IMAGES = true ∧
        bt.BLF_CUTOUTS t = true ∧ t ≠ bt.BLOCK_GLASS ∧ t ≠ bt.BLOCK_GLASS_PANE ∧
        t ≠ bt.BLOCK_VINES ∧ t ≠ bt.BLOCK_IRON_BARS)) := by
  refine ⟨?_, checkMakeFace_self bt o t ht⟩
  rw [generate_eq_emitted, emitted_faceCount _ _ _ _ _ fun e _ => cube_faceType bt o t e,
    emitted_cube bt o t ht]
  have h0 : (initializeModelData (solidCube t) zeroModel).faceCount = 0 := rfl
  rw [h0]
  by_cases h : checkMakeFace bt o t t (view3D o) = 0
  · simp [h, cubeEmitted_length.1]
  · simp [h, cubeEmitted_length.2]

theorem cube_faces_witness :
    0 < 1 ∧
    (generateBlockDataAndStatistics sampleTable render (solidCube 1)
      (initializeModelData (solidCube 1) zeroModel)).faceCount =
      (if checkMakeFace sampleTable render 1 1 (view3D render) = 0 then 24 else 48) :=
  ⟨by decide, (cube_faces sampleTable render 1 (by decide)).1⟩

set_option maxRecDepth 100000 in
/-- The number of faces of the cube is not 24 for every kind and export mode: a cube
of leaves exported for viewing with texture images gets 48 faces. -/
theorem cube_faces_counterexample :
    ¬ ∀ (bt : BlockTable) (o : FaceOptions) (t : Nat), 0 < t →
      (generateBlockDataAndStatistics bt o (solidCube t)
        (initializeModelData (solidCube t) zeroModel)).faceCount = 24 := by
  intro h
  have h1 := h sampleTable render 18 (by decide)
  revert h1
  decide

/-- C14: for a 2×2×2 cube of a single block kind `t` with air on all sides, face
generation from the initialised model leaves 26 vertices (`vertexCount = 26`: the
grid corner at the centre of the cube belongs to no face that touches air) when
`checkMakeFace` gives no face between two blocks of kind `t`, and 27 when it does. -/
theorem cube_vertices (bt : BlockTable) (o : FaceOptions) (t : Nat) (ht : 0 < t) :
    (generateBlockDataAndStatistics bt o (solidCube t)
      (initializeModelData (solidCube t) zeroModel)).vertexCount =
      (if checkMakeFace bt o t t (view3D o) = 0 then 26 else 27) ∧
    (checkMakeFace bt o t t (view3D o) = 0 ↔
      ¬ (o.EXPT_3DPRINT = false ∧ o.EXPT_OUTPUT_TEXTURE_IMAGES = true ∧
        bt.BLF_CUTOUTS t = true ∧ t ≠ bt.BLOCK_GLASS ∧ t ≠ bt.BLOCK_GLASS_PANE ∧
        t ≠ bt.BLOCK_VINES ∧ t ≠ bt.BLOCK_IRON_BARS)) := by
  refine ⟨?_, checkMakeFace_self bt o t ht⟩
  rw [generate_eq_emitted, emitted_cube bt o t ht]
  have hsame : SameVertices (initializeModelData (solidCube t) zeroModel)
      (initializeModelData (solidCube 1) zeroModel) := ⟨rfl, rfl, rfl, rfl⟩
  have key := fun l => (emitFace_congr bt sampleTable o printing (solidCube t) (solidCube 1) rfl l
    _ _ hsame).2.2.1
  rw [key]
  by_cases h : checkMakeFace bt o t t (view3D o) = 0
  · simp only [h, ne_eq, not_true_eq_false, decide_False, if_true]
    exact cube_vertices_outer
  · simp only [h, ne_eq, not_false_eq_true, decide_True, if_false]
    exact cube_vertices_all

theorem cube_vertices_witness :
    0 < 1 ∧
    (generateBlockDataAndStatistics sampleTable render (solidCube 1)
      (initializeModelData (solidCube 1) zeroModel)).vertexCount =
      (if checkMakeFace sampleTable render 1 1 (view3D render) = 0 then 26 else 27) :=
  ⟨by decide, (cube_vertices sampleTable render 1 (by decide)).1⟩

set_option maxRecDepth 100000 in
/-- The number of vertices of the cube is not 27 for every kind and export mode: a
cube of stone gets 26 vertices. -/
theorem cube_vertices_counterexample :
    ¬ ∀ (bt : BlockTable) (o : FaceOptions) (t : Nat), 0 < t →
      (generateBlockDataAndStatistics bt o (solidCube t)
        (initializeModelData (solidCube t) zeroModel)).vertexCount = 27 := by
  intro h
  have h1 := h sampleTable render 1 (by decide)
  revert h1
  decide

/-- C15: after face generation from the initialised model (no billboards), on a grid
whose solid box lies strictly inside the array: two corners of faces asked for
have the same vertex index exactly when they are the same grid corner;
`vertexCount` is the number of distinct grid corners of the faces asked for; every
face of `faceList` holds the indices of the four corners of a face asked for, all
of them at least 0 and below `vertexCount`; the vertex stored at the index of a
corner has the integer coordinates of that grid corner; and when no face is
dropped by `saveFaceLoop`, `faceList` holds as many faces as were asked for. The
faces asked for are the pairs of a non-air cell and a direction for which
`checkMakeFace` answers yes. -/
theorem generate_vertices (bt : BlockTable) (o : FaceOptions) (s : ExportState)
    (hb : neighborAsserts s s.gSolidBox) :
    (∀ e ∈ emitted bt o s, ∀ e' ∈ emitted bt o s, ∀ i < 4, ∀ i' < 4,
      ((generateBlockDataAndStatistics bt o s (initializeModelData s zeroModel)).vertexIndices
          (cornerIndex s (BOX_INDEXV s e.1) e.2 i) =
        (generateBlockDataAndStatistics bt o s (initializeModelData s zeroModel)).vertexIndices
          (cornerIndex s (BOX_INDEXV s e'.1) e'.2 i') ↔
        gridCorner e i = gridCorner e' i')) ∧
    (generateBlockDataAndStatistics bt o s (initializeModelData s zeroModel)).vertexCount =
      ((gridCorners (emitted bt o s)).toFinset.card : Int) ∧
    (∀ k, 0 ≤ k →
      k < (generateBlockDataAndStatistics bt o s (initializeModelData s zeroModel)).faceCount →
      ∃ e ∈ emitted bt o s,
        ((generateBlockDataAndStatistics bt o s (initializeModelData s zeroModel)).faceList
          k).vertexIndex = (List.range 4).map (fun i =>
            (generateBlockDataAndStatistics bt o s (initializeModelData s zeroModel)).vertexIndices
              (cornerIndex s (BOX_INDEXV s e.1) e.2 i)) ∧
        ∀ v ∈ ((generateBlockDataAndStatistics bt o s (initializeModelData s zeroModel)).faceList
          k).vertexIndex,
          0 ≤ v ∧
          v < (generateBlockDataAndStatistics bt o s (initializeModelData s zeroModel)).vertexCount) ∧
    (∀ e ∈ emitted bt o s, ∀ i < 4,
      (generateBlockDataAndStatistics bt o s (initializeModelData s zeroModel)).vertices
        ((generateBlockDataAndStatistics bt o s (initializeModelData s zeroModel)).vertexIndices
          (cornerIndex s (BOX_INDEXV s e.1) e.2 i)) = gridCorner e i) ∧
    ((∀ e ∈ emitted bt o s, (faceType bt o s e.1 e.2).isSome = true) →
      (generateBlockDataAndStatistics bt o s (initializeModelData s zeroModel)).faceCount =
        (emitted bt o s).length) := by
  obtain ⟨hi, hf⟩ := generate_inv bt o s hb
  refine ⟨?_, hi.count, ?_, ?_, ?_⟩
  rotate_right
  · intro hall
    rw [generate_eq_emitted, emitted_faceCount bt o s _ _ hall]
    have : (initializeModelData s zeroModel).faceCount = 0 := rfl
    omega
  · intro e he e' he' i hi4 i' hi4'
    rw [cornerIndex_eq, cornerIndex_eq]
    constructor
    · exact hi.inj _ (mem_gridCorners _ e he i hi4) _ (mem_gridCorners _ e' he' i' hi4')
    · intro h
      rw [h]
  · intro k hk0 hk
    obtain ⟨e, he, hv, _⟩ := hf k hk0 hk
    refine ⟨e, he, ?_, ?_⟩
    · rw [hv]
      apply List.map_congr_left
      intro i _
      rw [cornerIndex_eq]
    · intro v hv'
      rw [hv, List.mem_map] at hv'
      obtain ⟨i, hi4, rfl⟩ := hv'
      exact hi.below _ (mem_gridCorners _ e he i (List.mem_range.1 hi4))
  · intro e he i hi4
    rw [cornerIndex_eq]
    exact hi.stored _ (mem_gridCorners _ e he i hi4)

set_option maxRecDepth 100000 in
theorem generate_vertices_witness :
    neighborAsserts (solidCube 1) (solidCube 1).gSolidBox ∧
    (generateBlockDataAndStatistics sampleTable render (solidCube 1)
      (initializeModelData (solidCube 1) zeroModel)).vertexCount =
      ((gridCorners (emitted sampleTable render (solidCube 1))).toFinset.card : Int) :=
  ⟨by decide, (generate_vertices sampleTable render (solidCube 1) (by decide)).2.1⟩

/-- C17: in a grid with its border of air (every cell that is not air lies strictly
inside the air box), every cell whose type the bottom-up pass of
`hollowBottomOfModel` changes was listed by the scan of its layer `y`, in the state
that the sweep had reached after the layers before `y`; in that state the cell was
not air, the cell directly below it was air, its 8 neighbours on its level and the
9 cells of the level above were not air, and in each of the five directions other
than straight down the `T` nearest cells were not air (`T = gHollowBlockThickness`).
The scan of a layer changes no cell type, and after a layer whose scan lists no
cell the sweep makes no further layer and no type has changed in that layer. -/
theorem hollowBottomOfModel_spec (T : Int) (h : Hollowing) (hb : Bordered h.s) :
    (∀ p, ((hollowBottomOfModel T h).s.gBoxData p).type ≠ (h.s.gBoxData p).type →
      ∃ pre y post,
        intRange h.s.gSolidBox.min.y (h.s.gSolidBox.max.y - 1) = pre ++ y :: post ∧
        (hollowSweep T pre { h with hollowDone := fun _ => 0, listFound := 1 }).listFound ≠ 0 ∧
        p ∈ (hollowScan T y
          (hollowSweep T pre { h with hollowDone := fun _ => 0, listFound := 1 })).2 ∧
        p.y = y ∧
        ((hollowSweep T pre { h with hollowDone := fun _ => 0, listFound := 1 }).s.gBoxData
          p).type ≠ BLOCK_AIR ∧
        Hollowable
          (hollowSweep T pre { h with hollowDone := fun _ => 0, listFound := 1 }).s.gBoxData
          T p) ∧
    (∀ (y : Int) (g : Hollowing) (q : IPoint),
      ((hollowScan T y g).1.s.gBoxData q).type = (g.s.gBoxData q).type) ∧
    (∀ (y : Int) (rest : List Int) (g : Hollowing), g.listFound ≠ 0 →
      (hollowScan T y g).2 = [] →
      hollowSweep T (y :: rest) g = hollowLayer T y g ∧
      ∀ q, ((hollowLayer T y g).s.gBoxData q).type = (g.s.gBoxData q).type) := by
  refine ⟨?_, fun y g q => (hollowScan_spec T y g).2.2.1 q, ?_⟩
  · intro p hp
    have := hollowSweep_removed T { h with hollowDone := fun _ => 0, listFound := 1 }
      (intRange h.s.gSolidBox.min.y (h.s.gSolidBox.max.y - 1)) []
      { h with hollowDone := fun _ => 0, listFound := 1 } rfl hb p hp
    simpa using this
  · intro y rest g hf hnil
    obtain ⟨_, _, h3, h4⟩ := hollowLayer_spec T y g
    refine ⟨?_, fun q => (h4 q).2 (by rw [hnil]; simp)⟩
    simp only [hollowSweep, hf, ne_eq, not_false_eq_true, if_true]
    apply hollowSweep_stopped
    rw [h3, hnil]
    rfl

set_option maxRecDepth 100000 in
theorem hollowBottomOfModel_spec_witness :
    Bordered (hollowStart (stoneCube noOptions)).s ∧
    ∃ pre y post,
      intRange (hollowStart (stoneCube noOptions)).s.gSolidBox.min.y
        ((hollowStart (stoneCube noOptions)).s.gSolidBox.max.y - 1) = pre ++ y :: post ∧
      (hollowSweep 1 pre { hollowStart (stoneCube noOptions) with
        hollowDone := fun _ => 0, listFound := 1 }).listFound ≠ 0 ∧
      (⟨2, 2, 2⟩ : IPoint) ∈ (hollowScan 1 y
        (hollowSweep 1 pre { hollowStart (stoneCube noOptions) with
          hollowDone := fun _ => 0, listFound := 1 })).2 ∧
      (⟨2, 2, 2⟩ : IPoint).y = y ∧
      ((hollowSweep 1 pre { hollowStart (stoneCube noOptions) with
        hollowDone := fun _ => 0, listFound := 1 }).s.gBoxData ⟨2, 2, 2⟩).type ≠ BLOCK_AIR ∧
      Hollowable
        (hollowSweep 1 pre { hollowStart (stoneCube noOptions) with
          hollowDone := fun _ => 0, listFound := 1 }).s.gBoxData 1 ⟨2, 2, 2⟩ :=
  ⟨stoneCube_bordered noOptions,
    (hollowBottomOfModel_spec 1 (hollowStart (stoneCube noOptions))
      (stoneCube_bordered noOptions)).1 ⟨2, 2, 2⟩ (by decide)⟩

/-- C18: hollowing starts either after group labelling (every cell that is air before
hollowing carries, inside the box `b`, a group other than `HOLLOW_AIR_GROUP`) or
without it (every group field is 0). In the first case a cell that `hollowSeed`
removes was not air, is air of group `HOLLOW_AIR_GROUP` afterwards, and none of its
26 neighbours inside `b` is air that was there before hollowing; the air cells of
before hollowing stay as they are. In the second case `hollowSeed` removes no
cell at all. The bottom-up pass of `hollowBottomOfModel` keeps both cases. -/
theorem hollowSeed_interior (d0 : IPoint → BoxCell) (b : IBox) (T : Int) (h : Hollowing)
    (x y z : Int) (seedList : List IPoint) (hinv : Tagged d0 b h.s ∨ Unlabelled h.s) :
    ((Tagged d0 b h.s → Tagged d0 b (hollowSeed T h x y z seedList).1.s) ∧
    (Unlabelled h.s → (hollowSeed T h x y z seedList).1.s.gBoxData = h.s.gBoxData) ∧
    ∀ p, ((hollowSeed T h x y z seedList).1.s.gBoxData p).type ≠ (h.s.gBoxData p).type →
      p = ⟨x, y, z⟩ ∧ (h.s.gBoxData p).type ≠ BLOCK_AIR ∧
      ((hollowSeed T h x y z seedList).1.s.gBoxData p).type = BLOCK_AIR ∧
      ((hollowSeed T h x y z seedList).1.s.gBoxData p).group = HOLLOW_AIR_GROUP ∧
      ∀ dx dy dz : Int, -1 ≤ dx → dx ≤ 1 → -1 ≤ dy → dy ≤ 1 → -1 ≤ dz → dz ≤ 1 →
        b.contains (p.offset dx dy dz) = true → (d0 (p.offset dx dy dz)).type ≠ BLOCK_AIR) ∧
    (Tagged d0 b h.s → Tagged d0 b (hollowBottomOfModel T h).s) ∧
    (Unlabelled h.s → Unlabelled (hollowBottomOfModel T h).s) := by
  refine ⟨?_, (hollowBottomOfModel_tagged d0 b T h).1, (hollowBottomOfModel_tagged d0 b T h).2⟩
  by_cases hc : (h.s.gBoxData ⟨x, y, z⟩).type ≠ BLOCK_AIR ∧
      (h.s.gBoxData ⟨x, y, z⟩).group ≠ HOLLOW_AIR_GROUP
  swap
  · have e : hollowSeed T h x y z seedList = (h, seedList) := by
      unfold hollowSeed
      simp only []
      rw [if_neg hc]
    rw [e]
    exact ⟨fun ht => ht, fun _ => rfl, fun p hp => absurd rfl hp⟩
  by_cases hok : seedOk h.s T ⟨x, y, z⟩ = true
  swap
  · have e : hollowSeed T h x y z seedList = (h, seedList) := by
      unfold hollowSeed
      simp only []
      rw [if_pos hc, if_neg hok]
    rw [e]
    exact ⟨fun ht => ht, fun _ => rfl, fun p hp => absurd rfl hp⟩
  have hun : ¬ Unlabelled h.s := fun hu => hc.2 (hu _)
  have ht : Tagged d0 b h.s := hinv.resolve_right hun
  have e : (hollowSeed T h x y z seedList).1.s.gBoxData =
      setCell h.s.gBoxData ⟨x, y, z⟩
        { h.s.gBoxData ⟨x, y, z⟩ with type := BLOCK_AIR, group := HOLLOW_AIR_GROUP } := by
    unfold hollowSeed
    simp only []
    rw [if_pos hc, if_pos hok]
  have hsolid : (d0 ⟨x, y, z⟩).type ≠ BLOCK_AIR := by
    intro h0
    rw [← ht.1 _ h0] at h0
    exact hc.1 h0
  refine ⟨fun _ => ⟨?_, ht.2⟩, fun hu => absurd hu hun, ?_⟩
  · intro q hq
    rw [e, setCell_other _ _ (by
      intro e'
      rw [e'] at hq
      exact hsolid hq)]
    exact ht.1 q hq
  · intro p hp
    have hpe : p = ⟨x, y, z⟩ := by
      by_contra hne
      rw [e, setCell_other _ _ hne] at hp
      exact hp rfl
    subst hpe
    refine ⟨rfl, hc.1, by rw [e, setCell_same], by rw [e, setCell_same], ?_⟩
    intro dx dy dz hx0 hx1 hy0 hy1 hz0 hz1 hb h0
    have hout := seedOk_stencil h.s T _ hok dx dy dz hx0 hx1 hy0 hy1 hz0 hz1
    have hcell := ht.1 _ h0
    unfold outsideAir at hout
    rw [hcell] at hout
    have := ht.2 _ hb h0
    simp [h0, this] at hout

set_option maxRecDepth 100000 in
theorem hollowSeed_interior_witness :
    (Tagged (findGroups sampleBlocks (stoneCube noOptions)).gBoxData
        (findGroups sampleBlocks (stoneCube noOptions)).gAirBox
        (hollowStart (findGroups sampleBlocks (stoneCube noOptions))).s ∨
      Unlabelled (hollowStart (findGroups sampleBlocks (stoneCube noOptions))).s) ∧
    ((hollowSeed 1 (hollowStart (findGroups sampleBlocks (stoneCube noOptions))) 2 2 2
      []).1.s.gBoxData ⟨2, 2, 2⟩).type = BLOCK_AIR ∧
    ∀ dx dy dz : Int, -1 ≤ dx → dx ≤ 1 → -1 ≤ dy → dy ≤ 1 → -1 ≤ dz → dz ≤ 1 →
      (findGroups sampleBlocks (stoneCube noOptions)).gAirBox.contains
        ((⟨2, 2, 2⟩ : IPoint).offset dx dy dz) = true →
      ((findGroups sampleBlocks (stoneCube noOptions)).gBoxData
        ((⟨2, 2, 2⟩ : IPoint).offset dx dy dz)).type ≠ BLOCK_AIR :=
  have ht : Tagged (findGroups sampleBlocks (stoneCube noOptions)).gBoxData
      (findGroups sampleBlocks (stoneCube noOptions)).gAirBox
      (hollowStart (findGroups sampleBlocks (stoneCube noOptions))).s :=
    ⟨fun _ _ => rfl, fun q hq _ =>
      (findGroups_grouped sampleBlocks stoneCube_wellFormed).labelled q hq⟩
  have h := (hollowSeed_interior (findGroups sampleBlocks (stoneCube noOptions)).gBoxData
    (findGroups sampleBlocks (stoneCube noOptions)).gAirBox 1
    (hollowStart (findGroups sampleBlocks (stoneCube noOptions))) 2 2 2 [] (Or.inl ht)).1.2.2
    ⟨2, 2, 2⟩ (by decide)
  ⟨Or.inl ht, h.2.2.1, h.2.2.2.2⟩

/-- C12: on a well-formed grid with delete-floaters on and connect-parts and
connect-corner-tips off, on which `findGroups` finds a single solid group and no
bubble, `filterBox` deletes nothing, whatever the floater threshold is and
whatever the group is made of: as `gSolidGroups` is 1, `deleteFloatingGroups` is not
called, the state is the one that `findGroups` left, with `gSolidGroups = 1`, and
the result code is `MW_NO_ERROR`, not `MW_ALL_BLOCKS_DELETED`. -/
theorem filterBox_single_group (bi : BlockInfo) (qsort_s : Qsort) (fuel : Nat) (s : ExportState)
    (hw : WellFormed (groupStart s))
    (hd : s.gOptions.EXPT_DELETE_FLOATING_OBJECTS = true)
    (hc : s.gOptions.EXPT_CONNECT_PARTS = false)
    (ht : s.gOptions.EXPT_CONNECT_CORNER_TIPS = false)
    (hone : (findGroups bi (groupStart s)).gSolidGroups = 1)
    (hair : (findGroups bi (groupStart s)).gAirGroups ≤ 1) :
    filterBox bi qsort_s (fuel + 1) s =
      some (ReturnCode.MW_NO_ERROR, findGroups bi (groupStart s)) ∧
    ∀ t, filterBox bi qsort_s (fuel + 1) s ≠ some (ReturnCode.MW_ALL_BLOCKS_DELETED, t) := by
  have ho : (findGroups bi (groupStart s)).gOptions = s.gOptions :=
    (findGroups_grouped bi hw).frame.options
  have hrun : filterBox bi qsort_s (fuel + 1) s =
      some (ReturnCode.MW_NO_ERROR, findGroups bi (groupStart s)) := by
    unfold filterBox
    simp only [hd, or_true, if_true]
    show (match repairLoop bi qsort_s (fuel + 1) 0
        (if (findGroups bi (groupStart s)).gOptions.EXPT_FILL_BUBBLES = true ∨
            (findGroups bi (groupStart s)).gOptions.EXPT_DELETE_FLOATING_OBJECTS = true then
          if (findGroups bi (groupStart s)).gAirGroups > 1 then
            checkAndRemoveBubbles bi (findGroups bi (groupStart s))
          else findGroups bi (groupStart s)
        else findGroups bi (groupStart s)) with
      | none => none
      | some r =>
        if r.1.gOptions.EXPT_DELETE_FLOATING_OBJECTS = true then
          if (if r.1.gSolidGroups > 1 then deleteFloatingGroups bi r.1 else r.1).gSolidGroups = 0
          then some (ReturnCode.MW_ALL_BLOCKS_DELETED,
            if r.1.gSolidGroups > 1 then deleteFloatingGroups bi r.1 else r.1)
          else some (ReturnCode.MW_NO_ERROR,
            if r.1.gSolidGroups > 1 then deleteFloatingGroups bi r.1 else r.1)
        else some (ReturnCode.MW_NO_ERROR, r.1)) = _
    rw [if_neg (by omega : ¬ (findGroups bi (groupStart s)).gAirGroups > 1)]
    simp only [ite_self]
    rw [repairLoop_idle bi qsort_s fuel _ (by rw [ho]; exact hc) (by rw [ho]; exact ht)]
    simp only [ho, hd, if_true, hone]
    simp
    omega
  refine ⟨hrun, fun t h => ?_⟩
  rw [hrun] at h
  cases h

set_option maxRecDepth 100000 in
theorem filterBox_single_group_witness :
    WellFormed (groupStart (floatingTree deleteFloaters)) ∧
    (floatingTree deleteFloaters).gOptions.EXPT_DELETE_FLOATING_OBJECTS = true ∧
    (floatingTree deleteFloaters).gOptions.floaterCountVal = 16 ∧
    (findGroups sampleBlocks (groupStart (floatingTree deleteFloaters))).gSolidGroups = 1 ∧
    (findGroups sampleBlocks (groupStart (floatingTree deleteFloaters))).gAirGroups ≤ 1 ∧
    filterBox sampleBlocks sampleSort (0 + 1) (floatingTree deleteFloaters) =
      some (ReturnCode.MW_NO_ERROR,
        findGroups sampleBlocks (groupStart (floatingTree deleteFloaters))) :=
  ⟨by decide, by decide, by decide, by decide, by decide,
    (filterBox_single_group sampleBlocks sampleSort 0 (floatingTree deleteFloaters)
      (by decide) (by decide) (by decide) (by decide) (by decide) (by decide)).1⟩

set_option maxRecDepth 100000 in
/-- A single floating tree is not deleted: for the tree of 8 blocks with leaves,
alone in its grid, with delete-floaters on and the threshold 16, `filterBox` returns
`MW_NO_ERROR` and `gSolidGroups` is 1. -/
theorem filterBox_single_group_counterexample :
    (groupCells (findGroups sampleBlocks (groupStart (floatingTree deleteFloaters))) 2 = 8 ∧
      ((findGroups sampleBlocks (groupStart (floatingTree deleteFloaters))).gBoxData
        ⟨2, 2, 2⟩).type = sampleBlocks.BLOCK_LEAVES ∧
      (floatingTree deleteFloaters).gOptions.floaterCountVal = 16) ∧
    (filterBox sampleBlocks sampleSort 1 (floatingTree deleteFloaters)).map
      (fun r => (r.1, r.2.gSolidGroups)) = some (ReturnCode.MW_NO_ERROR, 1) := by
  decide

/-- C11: on a state whose cells lie inside the bounds of their groups, for a solid
group `i` of `2 .. gGroupCount` other than the survivor with a positive population:
if the population is below the floater threshold the group is deleted; if it is at
or above the threshold the group is deleted exactly when all its cells are tree
parts (or were originally air or vines) and at least one is a leaf part. After
`deleteFloatingGroups` all cells of a deleted group have type air and group 1, and
the cells of a group that is not deleted are as before; `gSolidGroups` has dropped
by the number of deleted groups and `blocksFloaterDeleted` has grown by the sum of
their populations, each deleted group counting once. -/
theorem deleteFloatingGroups_deletes (bi : BlockInfo) (s : ExportState) (hb : Bounded s) (i : Nat)
    (hi : i ∈ groupRange 2 s.gGroupCount) (hs : (s.gGroupList i).solid = true)
    (hp : 0 < (s.gGroupList i).population)
    (hsv : (i : Int) ≠ (findSurvivor s).survivorGroup) :
    ((s.gGroupList i).population < s.gOptions.floaterCountVal →
      floats bi s (findSurvivor s).survivorGroup i = true) ∧
    (s.gOptions.floaterCountVal ≤ (s.gGroupList i).population →
      (floats bi s (findSurvivor s).survivorGroup i = true ↔
        (∀ p, (s.gGroupList i).bounds.contains p = true → (s.gBoxData p).group = i →
          (bi.BLF_TREE_PART (s.gBoxData p).type = true ∨ (s.gBoxData p).origType = BLOCK_AIR ∨
            (s.gBoxData p).origType = bi.BLOCK_VINES)) ∧
        ∃ p, (s.gGroupList i).bounds.contains p = true ∧ (s.gBoxData p).group = i ∧
          bi.BLF_LEAF_PART (s.gBoxData p).type = true)) ∧
    (floats bi s (findSurvivor s).survivorGroup i = true →
      ∀ p, (arrayBox s).contains p = true → (s.gBoxData p).group = i →
        ((deleteFloatingGroups bi s).gBoxData p).type = BLOCK_AIR ∧
        ((deleteFloatingGroups bi s).gBoxData p).group = SURROUND_AIR_GROUP) ∧
    (floats bi s (findSurvivor s).survivorGroup i = false →
      ∀ p, (s.gBoxData p).group = i → (deleteFloatingGroups bi s).gBoxData p = s.gBoxData p) ∧
    (deleteFloatingGroups bi s).gSolidGroups = s.gSolidGroups -
      (((groupRange 2 s.gGroupCount).filter (floats bi s (findSurvivor s).survivorGroup)).length :
        Int) ∧
    (deleteFloatingGroups bi s).gStats.blocksFloaterDeleted = s.gStats.blocksFloaterDeleted +
      (((groupRange 2 s.gGroupCount).filter (floats bi s (findSurvivor s).survivorGroup)).map
        fun j => (s.gGroupList j).population).sum ∧
    (i ∈ (groupRange 2 s.gGroupCount).filter (floats bi s (findSurvivor s).survivorGroup) ↔
      floats bi s (findSurvivor s).survivorGroup i = true) ∧
    ((groupRange 2 s.gGroupCount).filter (floats bi s (findSurvivor s).survivorGroup)).Nodup := by
  have hfl := deleteFloatingGroups_floating bi s
  have hfloat : floats bi s (findSurvivor s).survivorGroup i = deleteGroupTest bi s i := by
    unfold floats
    simp [hs, hp, hsv]
  have hspec := deleteGroupTest_spec bi s i
  refine ⟨?_, ?_, ?_, ?_, hfl.solidGroups, hfl.blocks, ?_, ?_⟩
  · intro hlt
    rw [hfloat, hspec]
    exact Or.inl hlt
  · intro hge
    rw [hfloat, hspec]
    constructor
    · rintro (h | h)
      · omega
      · exact h
    · exact Or.inr
  · intro hf p hpa hg
    apply hfl.deleted p (by rw [hg]; exact hi) (by rw [hg]; exact hf)
    have := hb p hpa (by rw [hg]; exact (mem_groupRange.1 hi).1)
    exact this
  · intro hf p hg
    rcases hfl.cells p with e | ⟨_, hD, _⟩
    · exact e
    · rw [hg, hf] at hD
      cases hD
  · rw [List.mem_filter]
    exact ⟨fun h => h.2, fun h => ⟨hi, h⟩⟩
  · apply List.Nodup.filter
    unfold groupRange
    exact List.nodup_range' _ _

set_option maxRecDepth 100000 in
theorem deleteFloatingGroups_deletes_witness :
    Bounded twoGroups ∧ 3 ∈ groupRange 2 twoGroups.gGroupCount ∧
    (twoGroups.gGroupList 3).solid = true ∧ 0 < (twoGroups.gGroupList 3).population ∧
    ((3 : Nat) : Int) ≠ (findSurvivor twoGroups).survivorGroup ∧
    (twoGroups.gGroupList 3).population < twoGroups.gOptions.floaterCountVal ∧
    floats sampleBlocks twoGroups (findSurvivor twoGroups).survivorGroup 3 = true ∧
    (∀ p, (arrayBox twoGroups).contains p = true → (twoGroups.gBoxData p).group = 3 →
      ((deleteFloatingGroups sampleBlocks twoGroups).gBoxData p).type = BLOCK_AIR ∧
      ((deleteFloatingGroups sampleBlocks twoGroups).gBoxData p).group = SURROUND_AIR_GROUP) ∧
    (deleteFloatingGroups sampleBlocks twoGroups).gSolidGroups = twoGroups.gSolidGroups -
      (((groupRange 2 twoGroups.gGroupCount).filter
        (floats sampleBlocks twoGroups (findSurvivor twoGroups).survivorGroup)).length : Int) ∧
    (deleteFloatingGroups sampleBlocks twoGroups).gStats.blocksFloaterDeleted =
      twoGroups.gStats.blocksFloaterDeleted +
      (((groupRange 2 twoGroups.gGroupCount).filter
        (floats sampleBlocks twoGroups (findSurvivor twoGroups).survivorGroup)).map
        fun j => (twoGroups.gGroupList j).population).sum :=
  have hw : WellFormed (twoBlocks deleteFloaters) := by decide
  have hbd : Bounded twoGroups := findGroups_bounded sampleBlocks hw
  have h := deleteFloatingGroups_deletes sampleBlocks twoGroups hbd 3 (by decide) (by decide)
    (by decide) (by decide)
  ⟨hbd, by decide, by decide, by decide, by decide, by decide, h.1 (by decide),
    h.2.2.1 (h.1 (by decide)), h.2.2.2.2.1, h.2.2.2.2.2.1⟩

/-- C8: on a grid whose only solid cells are two cells `a` and `b` that share
exactly one edge and lie in two different groups, with connect-parts on, the
repair loop ends after two passes in a state whose solid cells are `a`, `b` and
one cell `n` that was air and is face-adjacent to both of them (so one of the
two air cells between them is filled and the other is not), with
`blocksManifoldWelded = 1`, `gSolidGroups = 1`, and the three solid cells in the
same group. -/
theorem repairLoop_joins_two_parts (bi : BlockInfo) (qsort_s : Qsort)
    (hq : ∀ cmp l, (qsort_s cmp l).Perm l) (hlava : 0 < bi.BLOCK_LAVA % 256)
    (s : ExportState) (a b : IPoint) (h : TwoParts s a b) (fuel : Nat) (foundTouching : Int) :
    ∃ u n, repairLoop bi qsort_s (fuel + 2) foundTouching s = some (u, 2) ∧
      faceAdjacent n a ∧ faceAdjacent n b ∧ (s.gBoxData n).isSolid = false ∧
      (∀ p, (u.gBoxData p).isSolid = true ↔ p = a ∨ p = b ∨ p = n) ∧
      u.gStats.blocksManifoldWelded = 1 ∧ u.gSolidGroups = 1 ∧
      (u.gBoxData a).group = (u.gBoxData n).group ∧
      (u.gBoxData b).group = (u.gBoxData n).group := by
  obtain ⟨o, ho, hab | hab⟩ := diagonal_normal h.diagonal
  · obtain ⟨u, n, k1, k2, k3, k4, j⟩ :=
      repair_two bi qsort_s hq hlava h ho hab fuel foundTouching
    exact ⟨u, n, k1, k2, k3, k4, j.solid, j.welded, j.solidGroups, j.groupA, j.groupB⟩
  · obtain ⟨u, n, k1, k2, k3, k4, j⟩ :=
      repair_two bi qsort_s hq hlava (twoParts_swap h) ho hab fuel foundTouching
    exact ⟨u, n, k1, k3, k2, k4, fun p => (j.solid p).trans (by tauto), j.welded,
      j.solidGroups, j.groupB, j.groupA⟩

set_option maxRecDepth 100000 in
theorem repairLoop_joins_two_parts_witness :
    (∀ cmp l, (sampleSort cmp l).Perm l) ∧ 0 < sampleBlocks.BLOCK_LAVA % 256 ∧
    TwoParts twoParts ⟨1, 1, 1⟩ ⟨2, 1, 2⟩ ∧
    ∃ u n, repairLoop sampleBlocks sampleSort 2 0 twoParts = some (u, 2) ∧
      faceAdjacent n ⟨1, 1, 1⟩ ∧ faceAdjacent n ⟨2, 1, 2⟩ ∧
      (twoParts.gBoxData n).isSolid = false ∧
      (∀ p, (u.gBoxData p).isSolid = true ↔ p = ⟨1, 1, 1⟩ ∨ p = ⟨2, 1, 2⟩ ∨ p = n) ∧
      u.gStats.blocksManifoldWelded = 1 ∧ u.gSolidGroups = 1 ∧
      (u.gBoxData ⟨1, 1, 1⟩).group = (u.gBoxData n).group ∧
      (u.gBoxData ⟨2, 1, 2⟩).group = (u.gBoxData n).group :=
  have hq : ∀ cmp l, (sampleSort cmp l).Perm l := fun cmp l => List.perm_insertionSort _ l
  ⟨hq, by decide, twoParts_parts,
    repairLoop_joins_two_parts sampleBlocks sampleSort hq (by decide) twoParts ⟨1, 1, 1⟩
      ⟨2, 1, 2⟩ twoParts_parts 0 0⟩

/-- C22: in an array with positive sizes, for every coordinate inside the array
`BOX_INDEX(x,y,z)` is `x*sizeY*sizeZ + z*sizeY + y`, lies in `[0, sizeX*sizeY*sizeZ)`
and is taken back to `(x,y,z)` by `boxIndexToLoc`; every index `i` of that range is
the `BOX_INDEX` of `boxIndexToLoc(i)`, which lies inside the array; and adding
`gFaceOffset[d]` to the index of an interior cell gives the index of the cell one
step of `gFaceDirectionVector[d]` away, which lies inside the array. (All the
values lie between 0 and the size of the array, so the arithmetic of `int` is
exact whenever that size fits an `int`.) -/
theorem BOX_INDEX_boxIndexToLoc (s : ExportState) (hy : 0 < s.gBoxSize.y)
    (hz : 0 < s.gBoxSize.z) :
    (∀ x y z : Int, 0 ≤ x → x < s.gBoxSize.x → 0 ≤ y → y < s.gBoxSize.y → 0 ≤ z →
      z < s.gBoxSize.z →
      BOX_INDEX s x y z = x * s.gBoxSize.y * s.gBoxSize.z + z * s.gBoxSize.y + y ∧
      0 ≤ BOX_INDEX s x y z ∧
      BOX_INDEX s x y z < s.gBoxSize.x * s.gBoxSize.y * s.gBoxSize.z ∧
      boxIndexToLoc s (BOX_INDEX s x y z) = ⟨x, y, z⟩) ∧
    (∀ i : Int, 0 ≤ i → i < s.gBoxSize.x * s.gBoxSize.y * s.gBoxSize.z →
      (0 ≤ (boxIndexToLoc s i).x ∧ (boxIndexToLoc s i).x < s.gBoxSize.x ∧
        0 ≤ (boxIndexToLoc s i).y ∧ (boxIndexToLoc s i).y < s.gBoxSize.y ∧
        0 ≤ (boxIndexToLoc s i).z ∧ (boxIndexToLoc s i).z < s.gBoxSize.z) ∧
      BOX_INDEX s (boxIndexToLoc s i).x (boxIndexToLoc s i).y (boxIndexToLoc s i).z = i) ∧
    (∀ (p : IPoint) (d : Nat), d < 6 → interior s p →
      BOX_INDEX s p.x p.y p.z + gFaceOffset s d =
        BOX_INDEX s (p.x + (gFaceDirectionVector d).x) (p.y + (gFaceDirectionVector d).y)
          (p.z + (gFaceDirectionVector d).z) ∧
      0 ≤ BOX_INDEX s p.x p.y p.z + gFaceOffset s d ∧
      BOX_INDEX s p.x p.y p.z + gFaceOffset s d <
        s.gBoxSize.x * s.gBoxSize.y * s.gBoxSize.z) := by
  have hxyz : s.gBoxSize.x * s.gBoxSize.y * s.gBoxSize.z = gBoxSizeXYZ s := by
    unfold gBoxSizeXYZ gBoxSizeYZ
    ring
  refine ⟨?_, ?_, ?_⟩
  · intro x y z hx0 hx1 hy0 hy1 hz0 hz1
    have hr := BOX_INDEXV_range s ⟨x, y, z⟩ (by
      rw [contains_iff]
      simp only [arrayBox]
      omega)
    rw [hxyz]
    refine ⟨?_, hr.1, hr.2, boxIndexToLoc_index s hy x y z hx0 hy0 hy1 hz0 hz1⟩
    unfold BOX_INDEX gBoxSizeYZ
    ring
  · intro i h0 h1
    rw [hxyz] at h1
    obtain ⟨k1, k2⟩ := boxIndexToLoc_loc s hy hz i h0 h1
    rw [contains_iff] at k1
    simp only [arrayBox] at k1
    exact ⟨by omega, k2⟩
  · intro p d hd hp
    obtain ⟨k1, k2⟩ := BOX_INDEXV_step s p d hd
    unfold BOX_INDEXV at k1
    simp only [] at k1
    have hr := BOX_INDEXV_range s (getNeighborUnsafe d p) (by
      rw [contains_iff]
      unfold interior at hp
      have h6 : d = 0 ∨ d = 1 ∨ d = 2 ∨ d = 3 ∨ d = 4 ∨ d = 5 := by omega
      rcases h6 with rfl | rfl | rfl | rfl | rfl | rfl <;>
        simp only [arrayBox, getNeighborUnsafe] <;> omega)
    rw [← k2] at hr
    unfold BOX_INDEXV at hr
    simp only [] at hr
    rw [hxyz, k1]
    exact ⟨rfl, hr.1, hr.2⟩

set_option maxRecDepth 100000 in
theorem BOX_INDEX_boxIndexToLoc_witness :
    0 < (hollowCube noOptions).gBoxSize.y ∧
    0 < (hollowCube noOptions).gBoxSize.z ∧ interior (hollowCube noOptions) ⟨1, 2, 3⟩ ∧
    BOX_INDEX (hollowCube noOptions) 1 2 3 = 42 ∧
    boxIndexToLoc (hollowCube noOptions) 42 = ⟨1, 2, 3⟩ ∧
    BOX_INDEX (hollowCube noOptions) 1 2 3 + gFaceOffset (hollowCube noOptions) 0 =
      BOX_INDEX (hollowCube noOptions) 0 2 3 :=
  ⟨by decide, by decide, by decide,
    ((BOX_INDEX_boxIndexToLoc (hollowCube noOptions) (by decide) (by decide)).1
      1 2 3 (by decide) (by decide) (by decide) (by decide) (by decide) (by decide)).1.trans
      (by decide),
    by decide,
    ((BOX_INDEX_boxIndexToLoc (hollowCube noOptions) (by decide) (by decide)).2.2
      ⟨1, 2, 3⟩ 0 (by decide) (by decide)).1⟩

/-- C21: after `initializeModelData` with texture output on, any sequence of calls
of `saveTextureUVs` for swatch locations in `0 .. NUM_MAX_SWATCHES-1` leaves
`uvIndexToSwatch` and `uvSwatchToIndex` inverse to each other on the used slots;
the slot of a swatch never changes once assigned, whatever is requested later; a
repeated request changes nothing; and `textureUsedCount` is the number of
distinct swatches requested. -/
theorem saveTextureUVs_inverse (n : Int) (l : List (Int × Int))
    (hl : ∀ r ∈ l, 0 ≤ r.1 ∧ r.1 < n) :
    (∀ i, 0 ≤ i → i < (requestedUVs n l).textureUsedCount →
      (requestedUVs n l).uvSwatchToIndex ((requestedUVs n l).uvIndexToSwatch i) = i) ∧
    (∀ sw, 0 ≤ sw → sw < n → 0 ≤ (requestedUVs n l).uvSwatchToIndex sw →
      (requestedUVs n l).uvIndexToSwatch ((requestedUVs n l).uvSwatchToIndex sw) = sw) ∧
    (∀ (more : List (Int × Int)) (sw : Int), 0 ≤ (requestedUVs n l).uvSwatchToIndex sw →
      (requestedUVs n (l ++ more)).uvSwatchToIndex sw =
        (requestedUVs n l).uvSwatchToIndex sw) ∧
    (∀ sw type type2 : Int,
      saveTextureUVs (saveTextureUVs (requestedUVs n l) sw type) sw type2 =
        saveTextureUVs (requestedUVs n l) sw type) ∧
    (∀ r ∈ l, ∀ type : Int, saveTextureUVs (requestedUVs n l) r.1 type = requestedUVs n l) ∧
    (requestedUVs n l).textureUsedCount = (((l.map fun r => r.1).toFinset.card : Nat) : Int) := by
  have h := requestedUVs_table n l hl
  refine ⟨fun i h0 h1 => (h.slots i h0 h1).2, ?_, ?_, ?_, ?_, h.count⟩
  · intro sw h0 h1 ha
    exact (h.used sw h0 h1 (uvTable_assigned h sw h0 h1 ha)).2.2
  · intro more sw ha
    have e : requestedUVs n (l ++ more) = savedUVs (requestedUVs n l) more := by
      simp [requestedUVs, savedUVs, List.foldl_append]
    rw [e]
    exact savedUVs_slot more _ sw ha
  · intro sw type type2
    exact saveTextureUVs_twice _ (by rw [h.count]; exact Int.natCast_nonneg _) sw type type2
  · intro r hr type
    have hu := h.used r.1 (hl r hr).1 (hl r hr).2 (List.mem_map.2 ⟨r, hr, rfl⟩)
    unfold saveTextureUVs
    rw [if_neg (by omega)]

theorem saveTextureUVs_inverse_witness :
    (∀ r ∈ [((10 : Int), (10 : Int)), (3, 3), (10, 10)], 0 ≤ r.1 ∧ r.1 < 256) ∧
    (requestedUVs 256 [(10, 10), (3, 3), (10, 10)]).textureUsedCount = 2 ∧
    (requestedUVs 256 [(10, 10), (3, 3), (10, 10)]).uvSwatchToIndex 3 = 1 ∧
    (requestedUVs 256 [(10, 10), (3, 3), (10, 10)]).uvIndexToSwatch 1 = 3 :=
  ⟨by decide,
    (saveTextureUVs_inverse 256 [(10, 10), (3, 3), (10, 10)] (by decide)).2.2.2.2.2.trans
      (by decide),
    by decide, by decide⟩

/-- C26, as amended: with seal-side-tunnels on, the scan of `findGroups` on a
well-formed state starts in a state in which every cell of the array that lies
on its bottom face or on one of its four side faces is in group 1, and every
other cell of the array, the cells of the top face that lie on no side face
among them, has no group yet. -/
theorem findGroups_seals_sides (bi : BlockInfo) (s : ExportState) (h : WellFormed s)
    (hseal : s.gOptions.EXPT_SEAL_SIDE_TUNNELS = true) :
    findGroups bi s =
      (let t := (scanCells (scanStart s).gAirBox).foldl (findGroupsCell bi) (scanStart s)
       if t.gOptions.EXPT_SEAL_SIDE_TUNNELS then
         { t with gGroupList := (setGroup t.gGroupList SURROUND_AIR_GROUP
             { t.gGroupList SURROUND_AIR_GROUP with
               bounds := addBoundsToBounds t.gAirBox (t.gGroupList SURROUND_AIR_GROUP).bounds }) }
       else t) ∧
    (∀ p, (arrayBox s).contains p = true →
      (p.y = 0 ∨ p.z = 0 ∨ p.z = s.gBoxSize.z - 1 ∨ p.x = 0 ∨ p.x = s.gBoxSize.x - 1) →
      ((scanStart s).gBoxData p).group = SURROUND_AIR_GROUP) ∧
    (∀ p, (arrayBox s).contains p = true →
      ¬ (p.y = 0 ∨ p.z = 0 ∨ p.z = s.gBoxSize.z - 1 ∨ p.x = 0 ∨ p.x = s.gBoxSize.x - 1) →
      ((scanStart s).gBoxData p).group = NO_GROUP_SET) := by
  obtain ⟨gx, gy, gz, hab, h0, _⟩ := wellFormed_iff h
  have hmem := fun p => mem_sealedCells (s := s) (p := p) (by omega) (by omega) (by omega)
  refine ⟨findGroups_eq bi s, ?_, ?_⟩
  · intro p hp hf
    rw [scanStart_sealed h hseal, if_pos ((hmem p).2 ⟨hp, hf⟩)]
    rfl
  · intro p hp hf
    rw [scanStart_sealed h hseal, if_neg (fun k => hf ((hmem p).1 k).2)]
    exact h0 p hp

set_option maxRecDepth 100000 in
theorem findGroups_seals_sides_witness :
    WellFormed (hollowCube sealTunnels) ∧
    (hollowCube sealTunnels).gOptions.EXPT_SEAL_SIDE_TUNNELS = true ∧
    ((scanStart (hollowCube sealTunnels)).gBoxData ⟨2, 0, 2⟩).group = SURROUND_AIR_GROUP ∧
    ((scanStart (hollowCube sealTunnels)).gBoxData ⟨2, 4, 2⟩).group = NO_GROUP_SET :=
  ⟨by decide, rfl,
    (findGroups_seals_sides sampleBlocks (hollowCube sealTunnels) (by decide) rfl).2.1
      ⟨2, 0, 2⟩ (by decide) (by decide),
    (findGroups_seals_sides sampleBlocks (hollowCube sealTunnels) (by decide) rfl).2.2
      ⟨2, 4, 2⟩ (by decide) (by decide)⟩

set_option maxRecDepth 100000 in
/-- C26 fails as stated: with side tunnels sealed, the cell in the middle of the top
face of the array of the hollow cube has no group when the scan starts. -/
theorem findGroups_seals_sides_counterexample :
    WellFormed (hollowCube sealTunnels) ∧
    (hollowCube sealTunnels).gOptions.EXPT_SEAL_SIDE_TUNNELS = true ∧
    ¬ (∀ p, (arrayBox (hollowCube sealTunnels)).contains p = true →
      (p.x = 0 ∨ p.x = (hollowCube sealTunnels).gBoxSize.x - 1 ∨
        p.y = 0 ∨ p.y = (hollowCube sealTunnels).gBoxSize.y - 1 ∨
        p.z = 0 ∨ p.z = (hollowCube sealTunnels).gBoxSize.z - 1) →
      ((scanStart (hollowCube sealTunnels)).gBoxData p).group = SURROUND_AIR_GROUP) :=
  ⟨by decide, rfl, fun h => absurd (h ⟨2, 4, 2⟩ (by decide) (by decide)) (by decide)⟩

/-- C27, as amended: with seal-entrances on, while an air group `g` is being grown,
`propagateSeed` called at a cell whose original type carries the entrance flag
returns at once, changing nothing and pushing no seed; called at any other cell it
gives the id of the group to every neighbouring cell of the air box that has no
group and is air, whether or not the original type of that neighbour carries the
entrance flag. -/
theorem propagateSeed_entrance (bi : BlockInfo) (s : ExportState) (point : IPoint) (g : Nat)
    (seedStack : List IPoint) (hseal : s.gOptions.EXPT_SEAL_ENTRANCES = true)
    (hair : (s.gGroupList g).solid = false) :
    (bi.BLF_ENTRANCE (s.gBoxData point).origType = true →
      propagateSeed bi s point g seedStack = (s, seedStack)) ∧
    (bi.BLF_ENTRANCE (s.gBoxData point).origType = false →
      ∀ d, d < 6 → ∀ q, getNeighbor s.gAirBox d point = some q →
        (s.gBoxData q).group = NO_GROUP_SET → (s.gBoxData q).isSolid = false →
        ((propagateSeed bi s point g seedStack).1.gBoxData q).group =
          (s.gGroupList g).groupID) := by
  refine ⟨fun h => propagateSeed_blocked bi s point g seedStack hseal hair h, ?_⟩
  intro h d hd q hq h0 hs
  exact propagateSeed_absorbs bi s point g seedStack (fun k => by rw [h] at k; simp at k)
    d hd q hq h0 (by rw [hs, hair])

set_option maxRecDepth 100000 in
theorem propagateSeed_entrance_witness :
    (newGroup (scanStart (doorway sealEntrances)) ⟨0, 2, 0⟩).gOptions.EXPT_SEAL_ENTRANCES = true ∧
    ((newGroup (scanStart (doorway sealEntrances)) ⟨0, 2, 0⟩).gGroupList 1).solid = false ∧
    sampleBlocks.BLF_ENTRANCE
      ((newGroup (scanStart (doorway sealEntrances)) ⟨0, 2, 0⟩).gBoxData ⟨2, 1, 1⟩).origType = true ∧
    ((propagateSeed sampleBlocks (newGroup (scanStart (doorway sealEntrances)) ⟨0, 2, 0⟩)
      ⟨2, 1, 0⟩ 1 []).1.gBoxData ⟨2, 1, 1⟩).group = 1 ∧
    propagateSeed sampleBlocks (newGroup (scanStart (doorway sealEntrances)) ⟨0, 2, 0⟩)
      ⟨2, 1, 1⟩ 1 [] = (newGroup (scanStart (doorway sealEntrances)) ⟨0, 2, 0⟩, []) :=
  ⟨rfl, by decide, by decide,
    ((propagateSeed_entrance sampleBlocks (newGroup (scanStart (doorway sealEntrances)) ⟨0, 2, 0⟩)
      ⟨2, 1, 0⟩ 1 [] rfl (by decide)).2 (by decide) 5 (by decide) ⟨2, 1, 1⟩ (by decide)
      (by decide) (by decide)).trans (by decide),
    (propagateSeed_entrance sampleBlocks (newGroup (scanStart (doorway sealEntrances)) ⟨0, 2, 0⟩)
      ⟨2, 1, 1⟩ 1 [] rfl (by decide)).1 (by decide)⟩

set_option maxRecDepth 100000 in
/-- C27 fails as stated: with entrances sealed, the air cell that held a ladder is
given group 1 when `findGroups` grows the air around it, as is its air neighbour. -/
theorem propagateSeed_entrance_counterexample :
    WellFormed (doorway sealEntrances) ∧
    (doorway sealEntrances).gOptions.EXPT_SEAL_ENTRANCES = true ∧
    ((doorway sealEntrances).gBoxData ⟨2, 1, 1⟩).isSolid = false ∧
    sampleBlocks.BLF_ENTRANCE ((doorway sealEntrances).gBoxData ⟨2, 1, 1⟩).origType = true ∧
    ((doorway sealEntrances).gBoxData ⟨2, 1, 1⟩).group = NO_GROUP_SET ∧
    ((findGroups sampleBlocks (doorway sealEntrances)).gGroupList 1).solid = false ∧
    ((findGroups sampleBlocks (doorway sealEntrances)).gBoxData ⟨3, 1, 1⟩).group = 1 ∧
    ((findGroups sampleBlocks (doorway sealEntrances)).gBoxData ⟨2, 1, 1⟩).group = 1 := by
  decide

/-- C30: the claim does not hold of the code. `computeObscurity` never stores the
score it computes, so the field `obscurity` of every cell of the touch grid keeps
the 0 of `memset`, and every record that `fixTouchingEdges` sorts has the sort key
`obscurity = 0`, whatever the score of its cell. On the two pairs of blocks the
cell (2,3,1) has the score 3 and the cell (5,1,2) the score 2, both were air from
the start, and the sorted list has (5,1,2) first and (2,3,1) last. -/
theorem touchList_obscurity :
    (∀ (s : ExportState) (r : TouchRecord), r ∈ touchList (touchScan s) → r.obscurity = 0) ∧
    computeObscurity (touchScan twoWelds) ⟨2, 3, 1⟩ = 3 ∧
    computeObscurity (touchScan twoWelds) ⟨5, 1, 2⟩ = 2 ∧
    ((touchScan twoWelds).gBoxData ⟨2, 3, 1⟩).origType =
      ((touchScan twoWelds).gBoxData ⟨5, 1, 2⟩).origType ∧
    (sampleSort (touchRecordCompare (touchScan twoWelds)) (touchList (touchScan twoWelds))).map
      (fun r => r.boxIndex) = [⟨5, 1, 2⟩, ⟨6, 1, 1⟩, ⟨2, 3, 1⟩] := by
  refine ⟨?_, twoWelds_order⟩
  intro s r h
  unfold touchList at h
  simp only [List.mem_map, List.mem_filter] at h
  obtain ⟨p, _, rfl⟩ := h
  exact touchScan_obscurity s p

/-- C24 (amended): let `MW_NO_ERROR` be 0 and `MW_BEGIN_ERRORS` positive, let every
call of the run other than the final checks return `MW_NO_ERROR` or a code
`>= MW_BEGIN_ERRORS`, and let the final checks return a code `>= MW_NO_ERROR`. Then
`SaveVolume` returns the maximum of the codes of the pipeline phases it ran with the
code of each texture write of the exit path or-ed in by `|=`; this is the maximum of
all the codes when no texture write failed. Once a call returns a code
`>= MW_BEGIN_ERRORS`, nothing but texture writes of the exit path follows it. -/
theorem SaveVolume_code (c : ReturnCodes) (img tex : Bool) (ft : FileType) (o : Outcomes)
    (h0 : c.MW_NO_ERROR = 0) (hb : 0 < c.MW_BEGIN_ERRORS)
    (hphase : ∀ q ∈ (SaveVolume c img tex ft o).2, q ≠ Phase.finalModelChecks →
      isTextureWrite q = false →
      ∀ j, returnedCode c o q = some j → j = c.MW_NO_ERROR ∨ c.MW_BEGIN_ERRORS ≤ j)
    (hfinal : c.MW_NO_ERROR ≤ o.finalModelChecks) :
    (SaveVolume c img tex ft o).1 =
      ((SaveVolume c img tex ft o).2.filter isTextureWrite).foldl
        (fun r q => Int.lor r ((returnedCode c o q).getD 0))
        (maxCode c o ((SaveVolume c img tex ft o).2.filter (fun q => !isTextureWrite q))) ∧
    ((∀ q ∈ (SaveVolume c img tex ft o).2, isTextureWrite q = true →
        returnedCode c o q = some c.MW_NO_ERROR) →
      (SaveVolume c img tex ft o).1 = maxCode c o (SaveVolume c img tex ft o).2) ∧
    (SaveVolume c img tex ft o).2.Pairwise
      (fun a b => ∀ j, returnedCode c o a = some j → c.MW_BEGIN_ERRORS ≤ j →
        isTextureWrite b = true) := by
  obtain ⟨png, need, t, p, k, e, ht, hp, hk, hl⟩ := SaveVolume_run c img tex ft o (by omega)
  rw [e] at hphase ⊢
  have h := saveVolumeExit_settled c o png need t p k h0 hb ht hp hk hl
  exact ⟨(h.1 hphase hfinal).1, (h.1 hphase hfinal).2, h.2⟩

theorem SaveVolume_code_witness :
    (SaveVolume sampleCodes false true FileType.VRML2 failedWrite).1 =
      ((SaveVolume sampleCodes false true FileType.VRML2 failedWrite).2.filter
        isTextureWrite).foldl
        (fun r q => Int.lor r ((returnedCode sampleCodes failedWrite q).getD 0))
        (maxCode sampleCodes failedWrite
          ((SaveVolume sampleCodes false true FileType.VRML2 failedWrite).2.filter
            (fun q => !isTextureWrite q))) :=
  (SaveVolume_code sampleCodes false true FileType.VRML2 failedWrite rfl (by decide)
    (by
      intro q hq _ _ j hj
      have hq2 : q ∈ [Phase.createBaseMaterialTexture, Phase.populateBox, Phase.filterBox,
          Phase.determineScaleAndHollowAndMelt, Phase.generateBlockDataAndStatistics,
          Phase.writeVRML2Box, Phase.finalModelChecks, Phase.writeTexture] := hq
      simp only [List.mem_cons, List.mem_singleton, List.not_mem_nil, or_false] at hq2
      rcases hq2 with h | h | h | h | h | h | h | h <;> subst h <;>
        simp_all [returnedCode, failedWrite, sampleCodes, isTextureWrite])
    (by decide)).1

/-- C24, counterexample: in a VRML export for printing with texture output in which
the final checks report `MW_MULTIPLE_GROUPS_FOUND` (8) and the write of the texture
fails, `SaveVolume` returns 8 | 128 = 136, which is neither the maximum 8 of the
codes of the pipeline phases nor the maximum 128 of all the codes. -/
theorem SaveVolume_code_counterexample :
    SaveVolume sampleCodes false true FileType.VRML2 failedWrite =
      (136, [Phase.createBaseMaterialTexture, Phase.populateBox, Phase.filterBox,
        Phase.determineScaleAndHollowAndMelt, Phase.generateBlockDataAndStatistics,
        Phase.writeVRML2Box, Phase.finalModelChecks, Phase.writeTexture]) ∧
    (([Phase.createBaseMaterialTexture, Phase.populateBox, Phase.filterBox,
        Phase.determineScaleAndHollowAndMelt, Phase.generateBlockDataAndStatistics,
        Phase.writeVRML2Box, Phase.finalModelChecks, Phase.writeTexture].filterMap
      (returnedCode sampleCodes failedWrite)) = [0, 0, 0, 0, 0, 8, 128]) ∧
    maxCode sampleCodes failedWrite (SaveVolume sampleCodes false true FileType.VRML2 failedWrite).2
      = 128 := by
  decide

/-- C25 (amended): when `populateBox` or `filterBox` was run and reported
`MW_NO_BLOCKS_FOUND`, a code `>= MW_BEGIN_ERRORS`, `SaveVolume` calls no writer of
the model, and the files it writes are: none without texture output, and with
texture output the one texture file of the exit path. -/
theorem SaveVolume_no_blocks (c : ReturnCodes) (img tex : Bool) (ft : FileType) (o : Outcomes)
    (hn : c.MW_BEGIN_ERRORS ≤ c.MW_NO_BLOCKS_FOUND)
    (h : (Phase.populateBox ∈ (SaveVolume c img tex ft o).2 ∧
          o.populateBox = c.MW_NO_BLOCKS_FOUND) ∨
        (Phase.filterBox ∈ (SaveVolume c img tex ft o).2 ∧
          o.filterBox = c.MW_NO_BLOCKS_FOUND)) :
    (SaveVolume c img tex ft o).2.filter writesFile =
      (if tex then [Phase.writeTexture] else []) ∧
    Phase.generateBlockDataAndStatistics ∉ (SaveVolume c img tex ft o).2 ∧
    Phase.finalModelChecks ∉ (SaveVolume c img tex ft o).2 := by
  unfold SaveVolume at h ⊢
  simp only [] at h ⊢
  by_cases hA : img = true ∧
      c.MW_BEGIN_ERRORS ≤ (if img = true then o.readTerrainPNG else c.MW_NO_ERROR)
  · rw [if_pos hA] at h
    obtain ⟨hi, -⟩ := hA
    subst hi
    simp [saveVolumeExit] at h
  · rw [if_neg hA] at h ⊢
    by_cases hB : c.MW_BEGIN_ERRORS ≤ o.populateBox
    · rw [if_pos hB]
      cases img <;> cases tex <;> simp [saveVolumeExit, writesFile, isTextureWrite]
    · rw [if_neg hB] at h ⊢
      have hf : o.filterBox = c.MW_NO_BLOCKS_FOUND := by
        rcases h with ⟨-, h⟩ | ⟨-, h⟩
        · omega
        · exact h
      rw [if_pos (by omega)]
      cases img <;> cases tex <;> simp [saveVolumeExit, writesFile, isTextureWrite]

theorem SaveVolume_no_blocks_witness :
    (SaveVolume sampleCodes false false FileType.WAVEFRONT_ABS_OBJ emptyRegion).2.filter
      writesFile = [] :=
  (SaveVolume_no_blocks sampleCodes false false FileType.WAVEFRONT_ABS_OBJ emptyRegion
    (by decide) (Or.inl (by decide))).1

/-- C25, counterexample: with texture output on, on a region with no block,
`SaveVolume` returns `MW_NO_BLOCKS_FOUND` after it has written the texture file. -/
theorem SaveVolume_no_blocks_counterexample :
    emptyRegion.populateBox = sampleCodes.MW_NO_BLOCKS_FOUND ∧
    SaveVolume sampleCodes false true FileType.WAVEFRONT_ABS_OBJ emptyRegion =
      (sampleCodes.MW_NO_BLOCKS_FOUND,
        [Phase.createBaseMaterialTexture, Phase.populateBox, Phase.writeTexture]) ∧
    writesFile Phase.writeTexture = true := by
  decide

/-- C23: the claim holds for a region whose X and Z lie within -999999 .. 999999,
and not beyond. For every request, `initializeWorldData` puts the bounds in order
and limits Y to 0 .. 127, a world location lies in the world box exactly when its
cell lies in 1 .. size-2 on each axis, and after `populateBox` every cell outside
that range is zero (air), every solid cell lies in the solid box, and the code is
`MW_NO_ERROR` or `MW_NO_BLOCKS_FOUND`. When blocks were found and X and Z of the
request lie within -999999 .. 999999, the solid box lies in 1 .. size-2 and the air
box, one more on each side, lies in the array. For the one block at X = 1000000 the
first value 999999 of `gSolidWorldBox.min` stays, and the air box starts at X = -1,
outside the array. -/
theorem populateBox_grid :
    (∀ (c : ReturnCodes) (wire : Nat) (world : Int → Int → Option WorldBlock) (s : ExportState)
      (xmin ymin zmin xmax ymax zmax : Int),
      (initializeWorldData s xmin ymin zmin xmax ymax zmax).2.2 =
        ⟨⟨min xmin xmax, min (clamp ymin 0 127) (clamp ymax 0 127), min zmin zmax⟩,
          ⟨max xmin xmax, max (clamp ymin 0 127) (clamp ymax 0 127), max zmin zmax⟩⟩ ∧
      (∀ loc, (initializeWorldData s xmin ymin zmin xmax ymax zmax).2.2.contains loc = true ↔
        interior (initializeWorldData s xmin ymin zmin xmax ymax zmax).1
          (worldToBox (initializeWorldData s xmin ymin zmin xmax ymax zmax).2.1 loc)) ∧
      (populateWorldBox c wire world s xmin ymin zmin xmax ymax zmax).2.2.gBoxSize =
        (initializeWorldData s xmin ymin zmin xmax ymax zmax).1.gBoxSize ∧
      (∀ p, ¬ interior (populateWorldBox c wire world s xmin ymin zmin xmax ymax zmax).2.2 p →
        (populateWorldBox c wire world s xmin ymin zmin xmax ymax zmax).2.2.gBoxData p =
          ⟨0, 0, 0, 0, 0⟩) ∧
      ((populateWorldBox c wire world s xmin ymin zmin xmax ymax zmax).1 = c.MW_NO_ERROR ∨
        (populateWorldBox c wire world s xmin ymin zmin xmax ymax zmax).1 =
          c.MW_NO_BLOCKS_FOUND) ∧
      ((populateWorldBox c wire world s xmin ymin zmin xmax ymax zmax).1 ≠
          c.MW_NO_BLOCKS_FOUND →
        (∀ p, ((populateWorldBox c wire world s xmin ymin zmin xmax ymax zmax).2.2.gBoxData
            p).isSolid = true →
          (populateWorldBox c wire world s xmin ymin zmin xmax ymax zmax).2.2.gSolidBox.contains
            p = true) ∧
        (-999999 ≤ xmin ∧ xmin ≤ 999999 ∧ -999999 ≤ xmax ∧ xmax ≤ 999999 ∧
            -999999 ≤ zmin ∧ zmin ≤ 999999 ∧ -999999 ≤ zmax ∧ zmax ≤ 999999 →
          interior (populateWorldBox c wire world s xmin ymin zmin xmax ymax zmax).2.2
            (populateWorldBox c wire world s xmin ymin zmin xmax ymax zmax).2.2.gSolidBox.min ∧
          interior (populateWorldBox c wire world s xmin ymin zmin xmax ymax zmax).2.2
            (populateWorldBox c wire world s xmin ymin zmin xmax ymax zmax).2.2.gSolidBox.max ∧
          (arrayBox (populateWorldBox c wire world s xmin ymin zmin xmax ymax zmax).2.2).inside
            (populateWorldBox c wire world s xmin ymin zmin xmax ymax zmax).2.2.gAirBox))) ∧
    ((populateWorldBox sampleCodes 55 farWorld (hollowCube noOptions)
        1000000 0 0 1000000 0 0).1 = sampleCodes.MW_NO_ERROR ∧
      (populateWorldBox sampleCodes 55 farWorld (hollowCube noOptions)
        1000000 0 0 1000000 0 0).2.1 = ⟨⟨999999, 0, 0⟩, ⟨1000000, 0, 0⟩⟩ ∧
      (populateWorldBox sampleCodes 55 farWorld (hollowCube noOptions)
        1000000 0 0 1000000 0 0).2.2.gBoxSize = ⟨3, 3, 3⟩ ∧
      (populateWorldBox sampleCodes 55 farWorld (hollowCube noOptions)
        1000000 0 0 1000000 0 0).2.2.gAirBox = ⟨⟨-1, 0, 0⟩, ⟨2, 2, 2⟩⟩) := by
  refine ⟨?_, by decide⟩
  intro c wire world s xmin ymin zmin xmax ymax zmax
  obtain ⟨hbox, hy0, hy1, hx, hy, hz⟩ := initializeWorldData_box s xmin ymin zmin xmax ymax zmax
  have hint := initializeWorldData_interior s xmin ymin zmin xmax ymax zmax
  have hsize : (populateWorldBox c wire world s xmin ymin zmin xmax ymax zmax).2.2.gBoxSize =
      (initializeWorldData s xmin ymin zmin xmax ymax zmax).1.gBoxSize := by
    unfold populateWorldBox populateBox
    simp only []
    split <;> rfl
  have hdata : (populateWorldBox c wire world s xmin ymin zmin xmax ymax zmax).2.2.gBoxData =
      (extractChunks wire world (initializeWorldData s xmin ymin zmin xmax ymax zmax).2.1
        (initializeWorldData s xmin ymin zmin xmax ymax zmax).2.2).1 := by
    unfold populateWorldBox populateBox
    simp only []
    split <;> rfl
  refine ⟨hbox, hint, hsize, ?_, ?_, ?_⟩
  · intro p hp
    rw [hdata]
    apply extractChunks_outside
    intro loc hloc e
    apply hp
    have := (hint loc).1 hloc
    rw [e] at this
    simpa only [interior, hsize] using this
  · unfold populateWorldBox populateBox
    simp only []
    split
    · exact Or.inr rfl
    · exact Or.inl rfl
  · intro hcode
    have hfound : ¬ (extractChunks wire world
        (initializeWorldData s xmin ymin zmin xmax ymax zmax).2.1
        (initializeWorldData s xmin ymin zmin xmax ymax zmax).2.2).2.min.y >
        (extractChunks wire world (initializeWorldData s xmin ymin zmin xmax ymax zmax).2.1
          (initializeWorldData s xmin ymin zmin xmax ymax zmax).2.2).2.max.y := by
      intro h
      apply hcode
      unfold populateWorldBox populateBox
      simp only []
      rw [if_pos h]
    have hs : (populateWorldBox c wire world s xmin ymin zmin xmax ymax zmax).2.2.gSolidBox =
        ⟨worldToBox (initializeWorldData s xmin ymin zmin xmax ymax zmax).2.1
          (extractChunks wire world (initializeWorldData s xmin ymin zmin xmax ymax zmax).2.1
            (initializeWorldData s xmin ymin zmin xmax ymax zmax).2.2).2.min,
         worldToBox (initializeWorldData s xmin ymin zmin xmax ymax zmax).2.1
          (extractChunks wire world (initializeWorldData s xmin ymin zmin xmax ymax zmax).2.1
            (initializeWorldData s xmin ymin zmin xmax ymax zmax).2.2).2.max⟩ := by
      unfold populateWorldBox populateBox
      simp only []
      rw [if_neg hfound]
    have ha : (populateWorldBox c wire world s xmin ymin zmin xmax ymax zmax).2.2.gAirBox =
        ⟨⟨-1 + (populateWorldBox c wire world s xmin ymin zmin xmax ymax zmax).2.2.gSolidBox.min.x,
          -1 + (populateWorldBox c wire world s xmin ymin zmin xmax ymax zmax).2.2.gSolidBox.min.y,
          -1 + (populateWorldBox c wire world s xmin ymin zmin xmax ymax zmax).2.2.gSolidBox.min.z⟩,
         ⟨1 + (populateWorldBox c wire world s xmin ymin zmin xmax ymax zmax).2.2.gSolidBox.max.x,
          1 + (populateWorldBox c wire world s xmin ymin zmin xmax ymax zmax).2.2.gSolidBox.max.y,
          1 + (populateWorldBox c wire world s xmin ymin zmin xmax ymax zmax).2.2.gSolidBox.max.z⟩⟩ := by
      unfold populateWorldBox populateBox
      simp only []
      rw [if_neg hfound]
    refine ⟨?_, ?_⟩
    · intro p hp
      rw [hdata] at hp
      simp only [BoxCell.isSolid, decide_eq_true_eq] at hp
      obtain ⟨loc, hl, rfl⟩ := extractChunks_solid _ _ _ _ _ hp
      rw [hs]
      rw [contains_iff] at hl ⊢
      simp only [worldToBox]
      omega
    · intro hr
      have hb := extractChunks_bounds wire world
        (initializeWorldData s xmin ymin zmin xmax ymax zmax).2.1
        (initializeWorldData s xmin ymin zmin xmax ymax zmax).2.2 (by
          rw [hbox] at hy0 hy1 hy ⊢
          simp only [] at hy0 hy1 hy ⊢
          refine ⟨?_, ?_, ?_, ?_, ?_, ?_⟩ <;> omega)
      rcases hb with hb | hb
      · exfalso
        apply hfound
        rw [hb]
        decide
      · have i1 := (hint (extractChunks wire world
          (initializeWorldData s xmin ymin zmin xmax ymax zmax).2.1
          (initializeWorldData s xmin ymin zmin xmax ymax zmax).2.2).2.min).1
          (by rw [contains_iff]; omega)
        have i2 := (hint (extractChunks wire world
          (initializeWorldData s xmin ymin zmin xmax ymax zmax).2.1
          (initializeWorldData s xmin ymin zmin xmax ymax zmax).2.2).2.max).1
          (by rw [contains_iff]; omega)
        rw [ha, hs]
        simp only [interior, hsize, IBox.inside, arrayBox] at i1 i2 ⊢
        refine ⟨i1, i2, ?_⟩
        omega

/-- C29: with connect-all-edges on and every solid cell in the solid box, one scan
of `fixTouchingEdges` raises `nonManifoldEdgesFound` by the number of unordered
pairs of solid cells that form a touching edge: twice the growth is the number of
ordered pairs. The six directions tested from a cell hold exactly one of the two
directions of every pair of cells that share an edge, one of the two cells between
the cells of a touching edge has a positive count in the touch grid after the scan,
and the two cells between are the cells that share a face with both. -/
theorem touchScan_counts (s : ExportState)
    (hall : s.gOptions.EXPT_CONNECT_ALL_EDGES = true)
    (hin : ∀ p, (s.gBoxData p).isSolid = true → s.gSolidBox.contains p = true) :
    2 * ((touchScan s).gStats.nonManifoldEdgesFound - s.gStats.nonManifoldEdgesFound) =
      ((touchingEdges s).card : Int) ∧
    (∀ a b, edgeDiagonal a b →
      ((∃ o ∈ scanOffsets, b = a.shift o) ∧ ¬ ∃ o ∈ scanOffsets, a = b.shift o) ∨
      ((∃ o ∈ scanOffsets, a = b.shift o) ∧ ¬ ∃ o ∈ scanOffsets, b = a.shift o)) ∧
    (∀ a b, (a, b) ∈ touchingEdges s →
      ∃ c ∈ commonNeighbours a b, 0 < ((touchScan s).gTouchGrid c).count) ∧
    (∀ a b c, edgeDiagonal a b →
      (c ∈ commonNeighbours a b ↔ faceAdjacent a c ∧ faceAdjacent b c)) := by
  have hex : ∀ a b : IPoint, ∀ o ∈ scanOffsets, b = a.shift o →
      ¬ ∃ o' ∈ scanOffsets, a = b.shift o' := by
    rintro a b o ho rfl ⟨o', ho', e⟩
    rw [shift_shift] at e
    exact shift_ne_self (scan_opposite o ho o' ho') e.symm
  refine ⟨?_, ?_, ?_, ?_⟩
  · have h := touchScan_found s (boxCells s.gSolidBox)
      { s with gTouchGrid := fun _ => ⟨0, 0, 0⟩, gTouchSize := 0 } rfl rfl
    have e : (touchScan s).gStats.nonManifoldEdgesFound =
        s.gStats.nonManifoldEdgesFound +
          ((defectsFound s (boxCells s.gSolidBox)).length : Int) := h
    rw [e, touchingEdges_card s hall hin]
    push_cast
    ring
  · intro a b hd
    obtain ⟨o, ho, e | e⟩ := diagonal_normal hd
    · exact Or.inl ⟨⟨o, ho, e⟩, hex a b o ho e⟩
    · exact Or.inr ⟨⟨o, ho, e⟩, hex b a o ho e⟩
  · intro a b hab
    simp only [touchingEdges, Finset.mem_filter, Finset.mem_product, List.mem_toFinset,
      mem_boxCells] at hab
    obtain ⟨⟨ha, hb⟩, ht⟩ := hab
    obtain ⟨_, hmark⟩ := touchScan_inv s
    obtain ⟨o, ho, e | e⟩ := diagonal_normal ht.1
    · subst e
      have hd := ((defectAt_iff s hall a o ho).1).2 ht
      simp only [defectAt, Bool.and_eq_true, decide_eq_true_eq] at hd
      rcases hmark a ha o ho ht.2.1 ht.2.2.1 (Or.inl hall) hd.1.1.1.2 hd.2 with k | k
      · exact ⟨_, ((commonNeighbours_shift a o ho _).1).2 (Or.inl rfl), k⟩
      · exact ⟨_, ((commonNeighbours_shift a o ho _).1).2 (Or.inr rfl), k⟩
    · subst e
      have hd := ((defectAt_iff s hall b o ho).2).2 ht
      simp only [defectAt, Bool.and_eq_true, decide_eq_true_eq] at hd
      rcases hmark b hb o ho ht.2.2.1 ht.2.1 (Or.inl hall) hd.1.1.1.2 hd.2 with k | k
      · exact ⟨_, ((commonNeighbours_shift b o ho _).2.1).2 (Or.inl rfl), k⟩
      · exact ⟨_, ((commonNeighbours_shift b o ho _).2.1).2 (Or.inr rfl), k⟩
  · intro a b c hd
    obtain ⟨o, ho, e | e⟩ := diagonal_normal hd
    · subst e
      rw [(commonNeighbours_shift a o ho c).1, between_adjacent a o ho c]
    · subst e
      rw [(commonNeighbours_shift b o ho c).2.1, ← between_adjacent b o ho c]
      exact ⟨fun h => ⟨h.2, h.1⟩, fun h => ⟨h.2, h.1⟩⟩

set_option maxRecDepth 100000 in
theorem touchScan_counts_witness :
    2 * ((touchScan (twoWeldsGrid connectAll)).gStats.nonManifoldEdgesFound -
        (twoWeldsGrid connectAll).gStats.nonManifoldEdgesFound) =
      ((touchingEdges (twoWeldsGrid connectAll)).card : Int) ∧
    (touchScan (twoWeldsGrid connectAll)).gStats.nonManifoldEdgesFound -
      (twoWeldsGrid connectAll).gStats.nonManifoldEdgesFound = 2 :=
  have hin : ∀ p, ((twoWeldsGrid connectAll).gBoxData p).isSolid = true →
      (twoWeldsGrid connectAll).gSolidBox.contains p = true := by
    intro p hp
    have hp' : (if decide (p = ⟨1, 3, 1⟩ ∨ p = ⟨2, 3, 2⟩ ∨ p = ⟨4, 3, 1⟩ ∨ p = ⟨5, 1, 1⟩ ∨
        p = ⟨6, 1, 2⟩) = true then stoneCell else airCell).isSolid = true := hp
    split at hp'
    · rename_i h
      simp only [decide_eq_true_eq] at h
      rcases h with rfl | rfl | rfl | rfl | rfl <;> decide
    · exact absurd hp' (by decide)
  ⟨(touchScan_counts (twoWeldsGrid connectAll) rfl hin).1, by decide⟩

/-- C28: in print mode a face is emitted exactly from a solid cell of the solid box
towards a neighbour that is not solid. On a grid whose solid cells all lie in the
solid box, the number of emitted faces that have a given unit edge of the grid is
0, 2 or 4; it is 4 only if the grid has a touching edge, so it is 0 or 2 when the
grid has none, and so it is on the grid that `fixTouchingEdges` leaves when it
returns 0 with connect-all-edges on. -/
theorem edgeFaces_even (bt : BlockTable) (o : FaceOptions) (s : ExportState)
    (hprint : o.EXPT_3DPRINT = true)
    (hin : ∀ p, (s.gBoxData p).isSolid = true → s.gSolidBox.contains p = true)
    (p q : IPoint) (hq : q ∈ unitEdges p) :
    (∀ c d, (c, d) ∈ emitted bt o s ↔ s.gSolidBox.contains c = true ∧
      (s.gBoxData c).isSolid = true ∧ d < 6 ∧
      (s.gBoxData (getNeighborUnsafe d c)).isSolid = false) ∧
    (edgeFaces bt o s p q = 0 ∨ edgeFaces bt o s p q = 2 ∨ edgeFaces bt o s p q = 4) ∧
    (edgeFaces bt o s p q = 4 → ∃ a b, touchingEdge s a b) ∧
    ((∀ a b, ¬ touchingEdge s a b) → edgeFaces bt o s p q = 0 ∨ edgeFaces bt o s p q = 2) ∧
    (∀ (bi : BlockInfo) (qsort_s : Qsort), s.gOptions.EXPT_CONNECT_ALL_EDGES = true →
      (fixTouchingEdges bi qsort_s s).1 = 0 →
      edgeFaces bt o (fixTouchingEdges bi qsort_s s).2 p q = 0 ∨
        edgeFaces bt o (fixTouchingEdges bi qsort_s s).2 p q = 2) := by
  have hk : ∃ k, k < 3 ∧ q = (unitEdges p).getD k p := by
    simp only [unitEdges, List.mem_cons, List.mem_singleton, List.not_mem_nil, or_false] at hq
    rcases hq with rfl | rfl | rfl
    · exact ⟨0, by decide, rfl⟩
    · exact ⟨1, by decide, rfl⟩
    · exact ⟨2, by decide, rfl⟩
  obtain ⟨k, hk, rfl⟩ := hk
  have key := edgeFaces_parity bt o s hprint hin p k hk
  refine ⟨emitted_print bt o s hprint, ?_, ?_, ?_, ?_⟩
  · rcases key with h | h | h
    · exact Or.inl h
    · exact Or.inr (Or.inl h)
    · exact Or.inr (Or.inr h.1)
  · intro h4
    rcases key with h | h | h
    · omega
    · omega
    · exact h.2
  · intro hno
    rcases key with h | h | ⟨_, a, b, h⟩
    · exact Or.inl h
    · exact Or.inr h
    · exact absurd h (hno a b)
  · intro bi qsort_s hall h0
    obtain ⟨e1, e2, hno⟩ := fixTouchingEdges_clean bi qsort_s s hall hin h0
    have hin2 : ∀ p, ((fixTouchingEdges bi qsort_s s).2.gBoxData p).isSolid = true →
        (fixTouchingEdges bi qsort_s s).2.gSolidBox.contains p = true := by
      intro x hx
      rw [e1] at hx
      rw [e2]
      exact hin x hx
    rcases edgeFaces_parity bt o _ hprint hin2 p k hk with h | h | ⟨_, a, b, h⟩
    · exact Or.inl h
    · exact Or.inr h
    · exfalso
      apply hno a b
      unfold touchingEdge at h ⊢
      rw [e1] at h
      exact h

set_option maxRecDepth 100000 in
theorem edgeFaces_even_witness :
    (edgeFaces sampleTable printing (twoWeldsGrid connectAll) ⟨2, 3, 2⟩ ⟨2, 4, 2⟩ = 0 ∨
      edgeFaces sampleTable printing (twoWeldsGrid connectAll) ⟨2, 3, 2⟩ ⟨2, 4, 2⟩ = 2 ∨
      edgeFaces sampleTable printing (twoWeldsGrid connectAll) ⟨2, 3, 2⟩ ⟨2, 4, 2⟩ = 4) ∧
    edgeFaces sampleTable printing (twoWeldsGrid connectAll) ⟨2, 3, 2⟩ ⟨2, 4, 2⟩ = 4 ∧
    edgeFaces sampleTable printing (twoWeldsGrid connectAll) ⟨1, 3, 1⟩ ⟨1, 4, 1⟩ = 2 :=
  have hin : ∀ p, ((twoWeldsGrid connectAll).gBoxData p).isSolid = true →
      (twoWeldsGrid connectAll).gSolidBox.contains p = true := by
    intro p hp
    have hp' : (if decide (p = ⟨1, 3, 1⟩ ∨ p = ⟨2, 3, 2⟩ ∨ p = ⟨4, 3, 1⟩ ∨ p = ⟨5, 1, 1⟩ ∨
        p = ⟨6, 1, 2⟩) = true then stoneCell else airCell).isSolid = true := hp
    split at hp'
    · rename_i h
      simp only [decide_eq_true_eq] at h
      rcases h with rfl | rfl | rfl | rfl | rfl <;> decide
    · exact absurd hp' (by decide)
  ⟨(edgeFaces_even sampleTable printing (twoWeldsGrid connectAll) rfl hin ⟨2, 3, 2⟩ ⟨2, 4, 2⟩
    (by decide)).2.1, by decide, by decide⟩


/-! ## Claims C31 to C39 -/

/-- C31: `touchRecordCompare` is the lexicographic order on (`origType` ascending,
obscurity descending, count descending, squared distance ascending): it returns
-1, 0 or 1, a negative value exactly when the first record comes before the
second in that order (`touchBefore`), 0 exactly when all four keys are equal,
the comparison of `b` with `a` is the negation of that of `a` with `b`, and the
comparison is transitive. -/
theorem touchRecordCompare_order (s : ExportState) :
    (∀ a b, touchRecordCompare s a b = -1 ∨ touchRecordCompare s a b = 0 ∨
      touchRecordCompare s a b = 1) ∧
    (∀ a b, touchRecordCompare s a b < 0 ↔ touchBefore s a b) ∧
    (∀ a b, touchRecordCompare s a b = 0 ↔
      ((s.gBoxData a.boxIndex).origType = (s.gBoxData b.boxIndex).origType ∧
        a.obscurity = b.obscurity ∧ a.count = b.count ∧ a.distance = b.distance)) ∧
    (∀ a b, touchRecordCompare s a b = - touchRecordCompare s b a) ∧
    (∀ a b c, touchRecordCompare s a b ≤ 0 → touchRecordCompare s b c ≤ 0 →
      touchRecordCompare s a c ≤ 0) ∧
    (∀ a b c, touchRecordCompare s a b < 0 → touchRecordCompare s b c < 0 →
      touchRecordCompare s a c < 0) := by
  refine ⟨touchRecordCompare_range s, ?_, touchRecordCompare_zero_iff s,
    touchRecordCompare_antisymm s, touchRecordCompare_trans s, touchRecordCompare_trans_lt s⟩
  intro a b
  rw [← touchRecordCompare_neg_iff]
  rcases touchRecordCompare_range s a b with e | e | e <;> omega

/-- C37: for each of the six face directions `d` the four corner offsets
`gFaceToVertexOffset[d][0..3]` are distinct corners of the unit cell, they lie in
the plane of the face (their coordinate along the axis of `gFaceDirectionVector[d]`
is 0 for a face towards a lower coordinate and 1 for a face towards a higher one),
and the cross product of the first two edges of the quad is
`gFaceDirectionVector[d]`, as is that of the first and the last edge. -/
theorem gFaceToVertexOffset_winding (d : Fin 6) :
    ((List.range 4).map (gFaceToVertexOffset d.val)).Nodup ∧
    (∀ i : Fin 4,
      vdot (gFaceToVertexOffset d.val i.val) (gFaceDirectionVector d.val) =
        (if d.val < 3 then 0 else 1) ∧
      ((gFaceToVertexOffset d.val i.val).x = 0 ∨ (gFaceToVertexOffset d.val i.val).x = 1) ∧
      ((gFaceToVertexOffset d.val i.val).y = 0 ∨ (gFaceToVertexOffset d.val i.val).y = 1) ∧
      ((gFaceToVertexOffset d.val i.val).z = 0 ∨ (gFaceToVertexOffset d.val i.val).z = 1)) ∧
    vcross (vsub (gFaceToVertexOffset d.val 1) (gFaceToVertexOffset d.val 0))
        (vsub (gFaceToVertexOffset d.val 2) (gFaceToVertexOffset d.val 1)) =
      gFaceDirectionVector d.val ∧
    vcross (vsub (gFaceToVertexOffset d.val 1) (gFaceToVertexOffset d.val 0))
        (vsub (gFaceToVertexOffset d.val 3) (gFaceToVertexOffset d.val 0)) =
      gFaceDirectionVector d.val := by
  revert d
  decide

/-- C39: the atlas does not have room for every terrain image that `readTerrainPNG`
accepts. For a 16 by 16 image `SaveVolume` sets `swatchListSize` to 100 and for a
32 by 32 image to 256, while `createBaseMaterialTexture` leaves `swatchCount` at
the number of solid swatches (at least 1) plus 256 tiles plus 22 presets, which is
above `swatchListSize` whatever `NUM_BLOCKS` is. For every accepted image (square,
side `2^i` with `4 ≤ i ≤ 15`) the count is at most `swatchListSize` exactly when
the side is at least 64 and `NUM_BLOCKS + 278` (with `NUM_BLOCKS` taken as 1 if
it is less) is at most `swatchListSize`, which is at least 441 from side 64 on. -/
theorem textureStart_room :
    (∀ (n : Int) (m : Model),
      (textureStart n 16 16 m).1 = TerrainCode.MW_NO_ERROR ∧
      (textureStart n 16 16 m).2.swatchListSize = 100 ∧
      (textureStart n 16 16 m).2.swatchCount = min (max n 1) 100 + 278 ∧
      (textureStart n 16 16 m).2.swatchListSize < (textureStart n 16 16 m).2.swatchCount) ∧
    (∀ (n : Int) (m : Model),
      (textureStart n 32 32 m).1 = TerrainCode.MW_NO_ERROR ∧
      (textureStart n 32 32 m).2.swatchListSize = 256 ∧
      (textureStart n 32 32 m).2.swatchCount = min (max n 1) 256 + 278 ∧
      (textureStart n 32 32 m).2.swatchListSize < (textureStart n 32 32 m).2.swatchCount) ∧
    (∀ (n w h : Int) (m : Model), (textureStart n w h m).1 = TerrainCode.MW_NO_ERROR →
      h = w ∧ (∃ i : Nat, 4 ≤ i ∧ i ≤ 15 ∧ w = 2 ^ i) ∧
      ((textureStart n w h m).2.swatchCount ≤ (textureStart n w h m).2.swatchListSize ↔
        (64 ≤ w ∧ max n 1 + 278 ≤ (textureStart n w h m).2.swatchListSize)) ∧
      (64 ≤ w → 441 ≤ (textureStart n w h m).2.swatchListSize)) := by
  have key : ∀ (n w h : Int) (m : Model), readTerrainPNG 0 w h = TerrainCode.MW_NO_ERROR →
      ∃ k : Nat, (textureStart n w h m).2.swatchListSize = (k : Int) * k ∧
        (textureStart n w h m).2.swatchCount = min (max n 1) ((k : Int) * k) + 278 ∧
        ((w = 16 ∧ k = 10) ∨ (w = 32 ∧ k = 16) ∨ (w = 64 ∧ k = 21) ∨ (w = 128 ∧ k = 25) ∨
          (w = 256 ∧ k = 28) ∨ (w = 512 ∧ k = 30) ∨ (1024 ≤ w ∧ k = 31)) := by
    intro n w h m hr
    obtain ⟨k, h1, h2, h3⟩ := sizeAtlas_table w ((readTerrainPNG_accepts w h).mp hr).2
    refine ⟨k, ?_, ?_, h3⟩
    · rw [textureStart_accepted n w h m hr]
      show (createBaseMaterialTexture n true _ _).swatchListSize = _
      rw [h1, (createBaseMaterialTexture_count n k _).2]
      exact h2
    · rw [textureStart_accepted n w h m hr]
      show (createBaseMaterialTexture n true _ _).swatchCount = _
      rw [h1, (createBaseMaterialTexture_count n k _).1]
  refine ⟨?_, ?_, ?_⟩
  · intro n m
    have hr : readTerrainPNG 0 16 16 = TerrainCode.MW_NO_ERROR := by decide
    obtain ⟨k, h1, h2, h3⟩ := key n 16 16 m hr
    have hk : k = 10 := by omega
    subst hk
    rw [textureStart_code, h1, h2]
    refine ⟨hr, by norm_num, by norm_num, ?_⟩
    norm_num
    omega
  · intro n m
    have hr : readTerrainPNG 0 32 32 = TerrainCode.MW_NO_ERROR := by decide
    obtain ⟨k, h1, h2, h3⟩ := key n 32 32 m hr
    have hk : k = 16 := by omega
    subst hk
    rw [textureStart_code, h1, h2]
    refine ⟨hr, by norm_num, by norm_num, ?_⟩
    norm_num
    omega
  · intro n w h m hc
    rw [textureStart_code] at hc
    obtain ⟨hw, hf⟩ := (readTerrainPNG_accepts w h).mp hc
    obtain ⟨k, h1, h2, h3⟩ := key n w h m hc
    refine ⟨hw, ?_, ?_, ?_⟩
    · rw [foundPower_iff] at hf
      rcases hf with e | e | e | e | e | e | e | e | e | e | e | e
      · exact ⟨4, by omega, by omega, by rw [e]; norm_num⟩
      · exact ⟨5, by omega, by omega, by rw [e]; norm_num⟩
      · exact ⟨6, by omega, by omega, by rw [e]; norm_num⟩
      · exact ⟨7, by omega, by omega, by rw [e]; norm_num⟩
      · exact ⟨8, by omega, by omega, by rw [e]; norm_num⟩
      · exact ⟨9, by omega, by omega, by rw [e]; norm_num⟩
      · exact ⟨10, by omega, by omega, by rw [e]; norm_num⟩
      · exact ⟨11, by omega, by omega, by rw [e]; norm_num⟩
      · exact ⟨12, by omega, by omega, by rw [e]; norm_num⟩
      · exact ⟨13, by omega, by omega, by rw [e]; norm_num⟩
      · exact ⟨14, by omega, by omega, by rw [e]; norm_num⟩
      · exact ⟨15, by omega, by omega, by rw [e]; norm_num⟩
    · rw [h1, h2]
      rcases h3 with ⟨e, f⟩ | ⟨e, f⟩ | ⟨e, f⟩ | ⟨e, f⟩ | ⟨e, f⟩ | ⟨e, f⟩ | ⟨e, f⟩ <;> subst f <;>
        norm_num <;> omega
    · intro h64
      rw [h1]
      rcases h3 with ⟨e, f⟩ | ⟨e, f⟩ | ⟨e, f⟩ | ⟨e, f⟩ | ⟨e, f⟩ | ⟨e, f⟩ | ⟨e, f⟩ <;> subst f <;>
        norm_num <;> omega

set_option maxRecDepth 100000 in
/-- C38: `gBlockCount` does not always equal the number of cells of the air box that
are not air on return from `determineScaleAndHollowAndMelt`. In a grid whose
blocks lie inside the air box the two are equal for every combination of the
hollow and super-hollow options as long as the snow is not melted; when it is
melted, `gBlockCount` is too high by the number of snow blocks that `meltSnow`
found in the solid box, since `meltSnow` sets them to air without counting them
off. For a stone block with a snow block on it and the melt option alone, the
function returns `MW_NO_ERROR` with `gBlockCount = 2` and one cell that is not
air. -/
theorem determineScaleAndHollowAndMelt_count :
    (∀ (rc : ReturnCodes) (o : HollowOptions) (bb : Billboards) (snow : Nat) (T : Int)
        (fuel : Nat) (h : Hollowing), Bordered h.s → snow ≠ BLOCK_AIR →
      (o.chkMeltSnow = false →
        (determineScaleAndHollowAndMelt rc o bb snow T fuel h).2.gBlockCount =
          nonAirCount (determineScaleAndHollowAndMelt rc o bb snow T fuel h).2.s) ∧
      (∀ g, countAndHollow o bb T fuel h = some g → o.chkMeltSnow = true →
        (determineScaleAndHollowAndMelt rc o bb snow T fuel h).2.gBlockCount =
          nonAirCount (determineScaleAndHollowAndMelt rc o bb snow T fuel h).2.s +
            blockCount g.s snow)) ∧
    Bordered snowCapped ∧
    (determineScaleAndHollowAndMelt sampleCodes meltOnly noBillboards 80 1 0
      (hollowStart snowCapped)).1 = sampleCodes.MW_NO_ERROR ∧
    (determineScaleAndHollowAndMelt sampleCodes meltOnly noBillboards 80 1 0
      (hollowStart snowCapped)).2.gBlockCount = 2 ∧
    nonAirCount (determineScaleAndHollowAndMelt sampleCodes meltOnly noBillboards 80 1 0
      (hollowStart snowCapped)).2.s = 1 ∧
    ((determineScaleAndHollowAndMelt sampleCodes meltOnly noBillboards 80 1 0
      (hollowStart snowCapped)).2.s.gBoxData ⟨1, 2, 1⟩).type = BLOCK_AIR :=
  ⟨fun rc o bb snow T fuel h hb hsnow =>
      determineScaleAndHollowAndMelt_cases rc o bb snow T fuel h hb hsnow,
    snowCapped_bordered, by decide, by decide, by decide, by decide⟩

/-- C35: `computeFlatFlags` for the flat block at `S` only adds bits to the `flatFlags`
of the cells, and whenever it adds the bit of a face direction `d` to a cell `N`,
the neighbour of `N` in the direction `d` is `S`; so when the bit was not set
before, the cell whose `origType` and `data` `saveFaceLoop` reads for that face
of `N` is exactly `S`. -/
theorem computeFlatFlags_source (fb : FlatBlocks) (o : FaceOptions) (s : ExportState)
    (S N : IPoint) (d : Nat) :
    (∃ m, ((computeFlatFlags fb s S).2.gBoxData N).flatFlags = (s.gBoxData N).flatFlags ||| m ∧
      ∀ e, e < 6 → m &&& flatFaceFlag e ≠ 0 → getNeighborUnsafe e N = S) ∧
    (d < 6 → ((computeFlatFlags fb s S).2.gBoxData N).flatFlags &&& flatFaceFlag d ≠ 0 →
      (s.gBoxData N).flatFlags &&& flatFaceFlag d = 0 →
      faceSource (computeFlatFlags fb s S).2 N d = some S ∧
      faceDataVal (computeFlatFlags fb s S).2 N d = ((computeFlatFlags fb s S).2.gBoxData S).data ∧
      (o.EXPT_OUTPUT_MATERIALS = true → o.EXPT_DEBUG_SHOW_GROUPS = false →
        faceType fb.toBlockTable o (computeFlatFlags fb s S).2 N d =
          if ((computeFlatFlags fb s S).2.gBoxData S).origType = BLOCK_AIR then none
          else some (some (((computeFlatFlags fb s S).2.gBoxData S).origType : Int)))) := by
  obtain ⟨m, h1, h2⟩ := computeFlatFlags_onto fb s S N
  refine ⟨⟨m, h1, h2⟩, ?_⟩
  intro hd hnew hold
  have hm : m &&& flatFaceFlag d ≠ 0 := by
    rw [h1] at hnew
    rcases or_and_ne_zero hnew with h | h
    · exact absurd hold h
    · exact h
  have hS := h2 d hd hm
  have hsrc := faceSource_eq (computeFlatFlags fb s S).2 N d hd hnew
  rw [hS] at hsrc
  refine ⟨hsrc, ?_, ?_⟩
  · unfold faceDataVal
    rw [hsrc]
  · intro hmat hdbg
    have h0 : ((computeFlatFlags fb s S).2.gBoxData N).flatFlags ≠ 0 := by
      intro e
      rw [e] at hnew
      exact hnew (Nat.zero_and _)
    unfold faceType
    simp only [hmat, hdbg, true_or, if_true, Bool.false_eq_true, if_false]
    rw [if_pos ⟨h0, hnew⟩, hS]

/-- C33: `checkForCorner(boxIndex, offx, offz)` returns 1 exactly when the cell at
`(x+offx, y-1, z+offz)` is not air and in another group than the cell at
`boxIndex`, and the six other cells of the 2×2×2 cube of these two cells are all
air. When the loop of `connectCornerTips` is at a solid cell for which one of the
four calls returns 1, it gives the cell directly below the group of the upper
cell, adds 1 to the population of that group and to `blocksCornertipWelded`,
takes the cell into the bounds of the group, and copies the type and the data of
the upper cell into it unless `EXPT_DEBUG_SHOW_WELDS` is set: then the cell
below gets the type `DEBUG_CORNER_TOUCH_TYPE` and keeps its data. -/
theorem connectCornerCell_weld (acc : Bool × ExportState) (b : IPoint) (offx offz : Int) :
    (checkForCorner acc.2 b offx offz = true ↔
      ((acc.2.gBoxData (b.offset offx (-1) offz)).type ≠ BLOCK_AIR ∧
        (acc.2.gBoxData (b.offset offx (-1) offz)).group ≠ (acc.2.gBoxData b).group ∧
        (acc.2.gBoxData (b.offset 0 0 offz)).type = BLOCK_AIR ∧
        (acc.2.gBoxData (b.offset 0 (-1) 0)).type = BLOCK_AIR ∧
        (acc.2.gBoxData (b.offset 0 (-1) offz)).type = BLOCK_AIR ∧
        (acc.2.gBoxData (b.offset offx 0 0)).type = BLOCK_AIR ∧
        (acc.2.gBoxData (b.offset offx 0 offz)).type = BLOCK_AIR ∧
        (acc.2.gBoxData (b.offset offx (-1) 0)).type = BLOCK_AIR)) ∧
    ((acc.2.gBoxData b).type > BLOCK_AIR →
      (checkForCorner acc.2 b (-1) (-1) = true ∨ checkForCorner acc.2 b (-1) 1 = true ∨
        checkForCorner acc.2 b 1 (-1) = true ∨ checkForCorner acc.2 b 1 1 = true) →
      (connectCornerCell acc b).1 = true ∧
      ((connectCornerCell acc b).2.gBoxData (b.offset 0 (-1) 0)).group =
        (acc.2.gBoxData b).group ∧
      (acc.2.gOptions.EXPT_DEBUG_SHOW_WELDS = false →
        ((connectCornerCell acc b).2.gBoxData (b.offset 0 (-1) 0)).type =
          (acc.2.gBoxData b).type ∧
        ((connectCornerCell acc b).2.gBoxData (b.offset 0 (-1) 0)).data =
          (acc.2.gBoxData b).data) ∧
      (acc.2.gOptions.EXPT_DEBUG_SHOW_WELDS = true →
        ((connectCornerCell acc b).2.gBoxData (b.offset 0 (-1) 0)).type =
          DEBUG_CORNER_TOUCH_TYPE ∧
        ((connectCornerCell acc b).2.gBoxData (b.offset 0 (-1) 0)).data =
          (acc.2.gBoxData (b.offset 0 (-1) 0)).data) ∧
      ((connectCornerCell acc b).2.gGroupList (acc.2.gBoxData b).group).population =
        (acc.2.gGroupList (acc.2.gBoxData b).group).population + 1 ∧
      ((connectCornerCell acc b).2.gGroupList (acc.2.gBoxData b).group).bounds.contains
        (b.offset 0 (-1) 0) = true ∧
      (connectCornerCell acc b).2.gStats.blocksCornertipWelded =
        acc.2.gStats.blocksCornertipWelded + 1 ∧
      ∀ q, q ≠ b.offset 0 (-1) 0 →
        (connectCornerCell acc b).2.gBoxData q = acc.2.gBoxData q) := by
  refine ⟨checkForCorner_iff acc.2 b offx offz, ?_⟩
  intro hsolid hcorner
  have hbelow : (acc.2.gBoxData (b.offset 0 (-1) 0)).type = BLOCK_AIR := by
    rcases hcorner with h | h | h | h
    all_goals exact ((checkForCorner_iff _ _ _ _).1 h).2.2.2.1
  have hs : (acc.2.gBoxData b).isSolid = true := by
    unfold BoxCell.isSolid
    exact decide_eq_true hsolid
  have hc : (checkForCorner acc.2 b (-1) (-1) || checkForCorner acc.2 b (-1) 1 ||
      checkForCorner acc.2 b 1 (-1) || checkForCorner acc.2 b 1 1) = true := by
    rcases hcorner with h | h | h | h <;> simp [h]
  unfold connectCornerCell
  simp only [hs, hbelow, hc, if_true]
  refine ⟨trivial, ?_, ?_, ?_, ?_, ?_, trivial, ?_⟩
  · rw [setCell_same]
  · intro hd
    rw [setCell_same]
    simp only [hd, Bool.false_eq_true, if_false, and_self]
  · intro hd
    rw [setCell_same]
    simp only [hd, if_true, and_self]
  · rw [setGroup_same]
  · rw [setGroup_same]
    exact addBounds_self _ _
  · intro q hq
    rw [setCell_other _ _ hq]

set_option maxRecDepth 100000 in
/-- C33, counterexample: with `EXPT_DEBUG_SHOW_WELDS` set, for the two blocks that
touch at a corner tip `checkForCorner` returns 1 at the upper block, and
`connectCornerTips` fills the cell below it with the type
`DEBUG_CORNER_TOUCH_TYPE` (129), not with the type of the upper block (1). -/
theorem connectCornerCell_weld_counterexample :
    checkForCorner (cornerTips showWelds) ⟨1, 2, 1⟩ 1 1 = true ∧
    ((cornerTips showWelds).gBoxData ⟨1, 2, 1⟩).type = 1 ∧
    (connectCornerTips (cornerTips showWelds)).1 = true ∧
    ((connectCornerTips (cornerTips showWelds)).2.gBoxData ⟨1, 1, 1⟩).type = 129 ∧
    ((connectCornerTips (cornerTips showWelds)).2.gBoxData ⟨1, 1, 1⟩).type ≠
      ((cornerTips showWelds).gBoxData ⟨1, 2, 1⟩).type ∧
    ((connectCornerTips (cornerTips showWelds)).2.gBoxData ⟨1, 1, 1⟩).group =
      ((cornerTips showWelds).gBoxData ⟨1, 2, 1⟩).group ∧
    ((connectCornerTips (cornerTips connectTips)).2.gBoxData ⟨1, 1, 1⟩).type = 1 := by
  decide

/-- C36: run on a well-formed state with a record of its seed stack, and with at
least as many iterations for each seed loop as the air box has cells,
`findGroups` computes the state of `findGroups`, no cell is pushed on the seed stack
twice, and every `assert((*seedCount)<gBoxSizeXYZ)` of `propagateSeed` holds, so
the stack never has `gBoxSizeXYZ` entries or more; more iterations change
neither the state nor the record. A cell is pushed only in the step of
`propagateSeed` that finds it with group 0 and gives it the `groupID` of the
group being grown. -/
theorem findGroups_stack (bi : BlockInfo) (s : ExportState) (h : WellFormed s) (fuel : Nat)
    (hf : (boxCells s.gAirBox).length ≤ fuel) :
    (findGroupsLog bi fuel s).1 = findGroups bi s ∧
    (findGroupsLog bi fuel s).2.pushed.Nodup ∧
    (findGroupsLog bi fuel s).2.asserted = true ∧
    (∀ p ∈ (findGroupsLog bi fuel s).2.pushed,
      ((findGroups bi s).gBoxData p).group ≠ 0 ∧ s.gAirBox.contains p = true) ∧
    (∀ fuel2, (boxCells s.gAirBox).length ≤ fuel2 →
      findGroupsLog bi fuel2 s = findGroupsLog bi fuel s) ∧
    (∀ (point : IPoint) (g : Nat) (t : ExportState) (st : List IPoint) (log : SeedLog) (d : Nat),
      propagateDirLog point g ((t, st), log) d = ((t, st), log) ∨
      ∃ q, (t.gBoxData q).group = 0 ∧
        ((absorb t g q).gBoxData q).group = (t.gGroupList g).groupID ∧
        propagateDirLog point g ((t, st), log) d =
          ((absorb t g q, q :: st),
            ⟨q :: log.pushed,
              log.asserted && decide (((q :: st).length : Int) < gBoxSizeXYZ t)⟩)) := by
  obtain ⟨hs, hfr, _⟩ := scanStart_spec h
  have hB : (scanStart s).gAirBox = s.gAirBox := hfr.airBox
  have hroom : ((boxCells (scanStart s).gAirBox).length : Int) ≤ gBoxSizeXYZ (scanStart s) := by
    have gx := hs.geo_x
    have gy := hs.geo_y
    have gz := hs.geo_z
    apply boxCells_length_le
    · rw [hs.air_box]
      simp only []
      omega
    · rw [hs.air_box]
      simp only []
      omega
    · rw [hs.air_box]
      simp only []
      omega
    · rw [hs.air_box]
      simp only []
      omega
  have h0 : Logged (scanStart s, (⟨[], true⟩ : SeedLog)).1 (scanStart s, (⟨[], true⟩ : SeedLog)).2 :=
    ⟨hs.scanned, fun p hp => by simp at hp, List.nodup_nil, rfl, hroom⟩
  have hmem : ∀ x ∈ scanCells (scanStart s).gAirBox, (scanStart s).gAirBox.contains x = true :=
    fun x hx => mem_scanCells.1 hx
  have fold := fun f (hfl : (boxCells (scanStart s).gAirBox).length ≤ f) =>
    findGroupsLog_fold bi (scanStart s).gAirBox f hfl (scanCells (scanStart s).gAirBox)
      (scanStart s, ⟨[], true⟩) h0 rfl hmem
  have e : ∀ f, findGroupsLog bi f s =
      (let r := (scanCells (scanStart s).gAirBox).foldl (findGroupsCellLog bi f)
          (scanStart s, ⟨[], true⟩)
       if r.1.gOptions.EXPT_SEAL_SIDE_TUNNELS then
         ({ r.1 with gGroupList := (setGroup r.1.gGroupList SURROUND_AIR_GROUP
             { r.1.gGroupList SURROUND_AIR_GROUP with
               bounds := addBoundsToBounds r.1.gAirBox (r.1.gGroupList SURROUND_AIR_GROUP).bounds }) },
           r.2)
       else (r.1, r.2)) := fun _ => rfl
  have hf1 : (boxCells (scanStart s).gAirBox).length ≤ fuel := by
    rw [hB]
    exact hf
  obtain ⟨c1, c2, c3, c4⟩ := fold fuel hf1
  have hsnd : (findGroupsLog bi fuel s).2 =
      ((scanCells (scanStart s).gAirBox).foldl (findGroupsCellLog bi fuel)
        (scanStart s, ⟨[], true⟩)).2 := by
    rw [e]
    simp only []
    split <;> rfl
  have hfst : (findGroupsLog bi fuel s).1 = findGroups bi s := by
    rw [e, findGroups_eq]
    simp only []
    rw [c1]
    split <;> rfl
  refine ⟨hfst, ?_, ?_, ?_, ?_, ?_⟩
  · rw [hsnd]
    exact c2.nodup
  · rw [hsnd]
    exact c2.asserted
  · intro p hp
    rw [hsnd] at hp
    obtain ⟨g1, g2⟩ := c2.logged p hp
    rw [c3, hB] at g2
    refine ⟨?_, g2⟩
    rw [← hfst, e]
    simp only []
    split
    · exact g1
    · exact g1
  · intro fuel2 hf2
    have hf3 : (boxCells (scanStart s).gAirBox).length ≤ fuel2 := by
      rw [hB]
      exact hf2
    obtain ⟨_, _, _, d4⟩ := fold fuel2 hf3
    rw [e, e, d4, c4]
  · intro point g t st log d
    rcases propagateDirLog_cases point g t st log d with hc | ⟨q, _, h1, _, h3⟩
    · exact Or.inl hc
    · exact Or.inr ⟨q, h1, absorb_cell_new t g q, h3⟩

set_option maxRecDepth 100000 in
theorem findGroups_stack_witness :
    WellFormed (twoBlocks connectParts) ∧
    (boxCells (twoBlocks connectParts).gAirBox).length ≤ 48 ∧
    (findGroupsLog sampleBlocks 48 (twoBlocks connectParts)).1 =
      findGroups sampleBlocks (twoBlocks connectParts) ∧
    (findGroupsLog sampleBlocks 48 (twoBlocks connectParts)).2.pushed.Nodup ∧
    (findGroupsLog sampleBlocks 48 (twoBlocks connectParts)).2.asserted = true ∧
    (findGroupsLog sampleBlocks 48 (twoBlocks connectParts)).2.pushed.length = 45 :=
  ⟨by decide, by decide,
    (findGroups_stack sampleBlocks (twoBlocks connectParts) (by decide) 48 (by decide)).1,
    (findGroups_stack sampleBlocks (twoBlocks connectParts) (by decide) 48 (by decide)).2.1,
    (findGroups_stack sampleBlocks (twoBlocks connectParts) (by decide) 48 (by decide)).2.2.1,
    by decide⟩

/-- C34: after `findGroups` on a well-formed state every cell of the array labelled
with a group `2, 3, ...` lies inside the bounds stored for its group, and the
bounds stored for each of the groups `2 .. gGroupCount` are the tight bounding
box of the cells of the group; `checkAndRemoveBubbles`, `fixTouchingEdges`,
`connectCornerTips` and `deleteFloatingGroups` each keep every cell of a group
`2, 3, ...` inside the bounds of its group. -/
theorem findGroups_bounds (bi : BlockInfo) (qsort_s : Qsort) (s : ExportState)
    (h : WellFormed s) :
    Bounded (findGroups bi s) ∧
    (∀ g, 2 ≤ g → g ≤ (findGroups bi s).gGroupCount →
      tightBox (findGroups bi s) g ((findGroups bi s).gGroupList g).bounds) ∧
    (∀ u, Bounded u →
      Bounded (checkAndRemoveBubbles bi u) ∧ Bounded (fixTouchingEdges bi qsort_s u).2 ∧
      Bounded (connectCornerTips u).2 ∧ Bounded (deleteFloatingGroups bi u)) ∧
    Bounded (deleteFloatingGroups bi (connectCornerTips (fixTouchingEdges bi qsort_s
      (checkAndRemoveBubbles bi (findGroups bi s))).2).2) := by
  have hb := findGroups_bounded bi h
  have ht := findGroups_tight bi h
  refine ⟨hb, fun g h2 hle => tightBox_of_attained h2 hb (ht g h2 hle), fun u hu =>
    ⟨checkAndRemoveBubbles_bounded bi u hu, fixTouchingEdges_bounded bi qsort_s u hu,
      connectCornerTips_bounded u hu, deleteFloatingGroups_bounded bi u hu⟩, ?_⟩
  exact deleteFloatingGroups_bounded bi _ (connectCornerTips_bounded _
    (fixTouchingEdges_bounded bi qsort_s _ (checkAndRemoveBubbles_bounded bi _ hb)))

set_option maxRecDepth 100000 in
theorem findGroups_bounds_witness :
    WellFormed (hollowCube fillBubbles) ∧
    Bounded (findGroups sampleBlocks (hollowCube fillBubbles)) ∧
    (findGroups sampleBlocks (hollowCube fillBubbles)).gGroupCount = 3 ∧
    ((findGroups sampleBlocks (hollowCube fillBubbles)).gGroupList 2).bounds =
      ⟨⟨1, 1, 1⟩, ⟨3, 3, 3⟩⟩ ∧
    tightBox (findGroups sampleBlocks (hollowCube fillBubbles)) 2 ⟨⟨1, 1, 1⟩, ⟨3, 3, 3⟩⟩ ∧
    tightBox (findGroups sampleBlocks (hollowCube fillBubbles)) 3 ⟨⟨2, 2, 2⟩, ⟨2, 2, 2⟩⟩ :=
  ⟨by decide,
    (findGroups_bounds sampleBlocks sampleSort (hollowCube fillBubbles) (by decide)).1,
    by decide, by decide,
    (findGroups_bounds sampleBlocks sampleSort (hollowCube fillBubbles)
      (by decide)).2.1 2 (by decide) (by decide),
    (findGroups_bounds sampleBlocks sampleSort (hollowCube fillBubbles)
      (by decide)).2.1 3 (by decide) (by decide)⟩

set_option maxRecDepth 100000 in
/-- C32: the touch grid of `fixTouchingEdges` is linked throughout: after any number
of steps of the scan that marks the cells, and after any number of cells
filled, a cell has the connection bit of a direction set exactly when the
cell at the offset of that direction has the opposite bit set (the opposite bit
being the bit of the entry of `touchTable` with the negated offset), and the
count of a cell is at least the number of its connection bits.
`checkForTouchingEdge` and `decrementNeighbors` both keep a linked grid linked.
On a linked grid `decrementNeighbors` at the cell `x` makes no count negative
at any point of its loop, lowers by one the count of each cell that a
connection bit of `x` points to, leaves `x` without a connection bit, and in every
other cell clears exactly the connection bits that point to `x`. For two stone
blocks that touch along an edge the scan sets the two opposite bits in the
two air cells of the edge, and `decrementNeighbors` at one of them clears the
other. -/
theorem fixTouchingEdges_linked (bi : BlockInfo) (qsort_s : Qsort) (s : ExportState) :
    (∀ e ∈ touchTable, reverseEntry e ∈ touchTable) ∧
    (∀ l : List IPoint, TouchLinked (l.foldl touchScanCell
      { s with gTouchGrid := fun _ => ⟨0, 0, 0⟩, gTouchSize := 0 }).gTouchGrid) ∧
    (∀ l : List IPoint, TouchLinked (l.foldl (fillTouchCell bi) (touchScan s)).gTouchGrid) ∧
    TouchLinked (fixTouchingEdges bi qsort_s s).2.gTouchGrid ∧
    (∀ (t : ExportState) (b : IPoint) (ox oy oz : Int), TouchLinked t.gTouchGrid →
      TouchLinked (checkForTouchingEdge t b ox oy oz).gTouchGrid) ∧
    (∀ (t : ExportState) (x : IPoint), TouchLinked t.gTouchGrid →
      TouchLinked (decrementNeighbors t x).gTouchGrid ∧
      (∀ (k : Nat) (q : IPoint),
        0 ≤ ((touchTable.take k).foldl (decrementNeighbor x (t.gTouchGrid x).connections)
          t.gTouchGrid q).count) ∧
      (∀ e ∈ touchTable, hasConnection (t.gTouchGrid x) e.1 →
        ((decrementNeighbors t x).gTouchGrid (x.shift e.2.1)).count =
          (t.gTouchGrid (x.shift e.2.1)).count - 1) ∧
      ((decrementNeighbors t x).gTouchGrid x).connections = 0 ∧
      (∀ f ∈ touchTable, ∀ q, q ≠ x →
        (hasConnection ((decrementNeighbors t x).gTouchGrid q) f.1 ↔
          (hasConnection (t.gTouchGrid q) f.1 ∧ q.shift f.2.1 ≠ x)))) ∧
    (touchScan (findGroups sampleBlocks (twoBlocks connectParts))).gTouchGrid ⟨2, 1, 1⟩ =
      ⟨0, 1, TOUCH_MX_PZ⟩ ∧
    (touchScan (findGroups sampleBlocks (twoBlocks connectParts))).gTouchGrid ⟨1, 1, 2⟩ =
      ⟨0, 1, TOUCH_PX_MZ⟩ ∧
    (decrementNeighbors (touchScan (findGroups sampleBlocks (twoBlocks connectParts)))
      ⟨2, 1, 1⟩).gTouchGrid ⟨1, 1, 2⟩ = ⟨0, 0, 0⟩ := by
  refine ⟨touchTable_facts.2.2.2.2.1, touchScan_linked s, ?_, fixTouchingEdges_grid_linked bi qsort_s s,
    checkForTouchingEdge_linked, ?_, by decide, by decide, by decide⟩
  · intro l
    exact fillTouchCell_fold_linked bi _ l (touchScan_linked s (boxCells s.gSolidBox))
  · intro t x h
    refine ⟨decrementNeighbors_linked x h, decrementNeighbors_nonneg x h, ?_,
      (decrementNeighbors_grid t x).1, fun f hf q hq => decrementNeighbors_bits x h hf hq⟩
    intro e he hc
    rw [(decrementNeighbors_grid t x).2.2.1 e he hc]


/-! ## Claims C7 and C40 over the whole functions -/

/-- C40: called on an atlas whose rows hold `swatchesPerRow` swatches of `swatchSize`
texels, `compositePNGSwatches` writes every texel of the destination swatch, and
nothing else. For the texel in row `row` and column `col`, with `over` and
`under` the texels that the over swatch and the under swatch held there before
the call, the texel `written` is `under` when the over alpha is 0, it is `over`
when the over alpha is 255, and otherwise it has the channels
`floor((o*oa*255 + u*ua*(255-oa)) / 255^2)` and the alpha
`floor((oa*255 + ua*(255-oa)) / 255)`, which are all at most 255, so that the
casts to `unsigned char` change nothing; in this blended case the alpha is 255
whenever the under alpha `ua` is 255. Here `ua` is the variable of that name: the
alpha of the under texel, replaced by 255 when `forceSolid` is set (every call in
the source passes 0). The destination may be the over or the under swatch, as
in the calls that composite in place. -/
theorem compositePNGSwatches_blend (dst : PngImage)
    (dstSwatch overSwatch underSwatch swatchSize swatchesPerRow forceSolid : Int)
    (hS : 0 < swatchSize) (hP : 0 < swatchesPerRow)
    (hW : swatchesPerRow * swatchSize ≤ dst.width)
    (hd : 0 ≤ dstSwatch) (ho : 0 ≤ overSwatch) (hu : 0 ≤ underSwatch) :
    (∀ row col, 0 ≤ row → row < swatchSize → 0 ≤ col → col < swatchSize →
      ∀ over under written : Nat,
        over = dst.image_data
          (swatchTexel dst.width overSwatch swatchSize swatchesPerRow row col) →
        under = dst.image_data
          (swatchTexel dst.width underSwatch swatchSize swatchesPerRow row col) →
        written = (compositePNGSwatches dst dstSwatch overSwatch underSwatch swatchSize
          swatchesPerRow forceSolid).image_data
            (swatchTexel dst.width dstSwatch swatchSize swatchesPerRow row col) →
        ((GET_PNG_TEXEL over).a = 0 → written = under) ∧
        ((GET_PNG_TEXEL over).a = 255 → written = over) ∧
        ((GET_PNG_TEXEL over).a ≠ 0 → (GET_PNG_TEXEL over).a ≠ 255 →
          ∀ ua, ua = (if forceSolid ≠ 0 then 255 else (GET_PNG_TEXEL under).a) →
            GET_PNG_TEXEL written =
              ⟨((GET_PNG_TEXEL over).r * (GET_PNG_TEXEL over).a * 255 +
                  (GET_PNG_TEXEL under).r * ua * (255 - (GET_PNG_TEXEL over).a)) / (255 * 255),
                ((GET_PNG_TEXEL over).g * (GET_PNG_TEXEL over).a * 255 +
                  (GET_PNG_TEXEL under).g * ua * (255 - (GET_PNG_TEXEL over).a)) / (255 * 255),
                ((GET_PNG_TEXEL over).b * (GET_PNG_TEXEL over).a * 255 +
                  (GET_PNG_TEXEL under).b * ua * (255 - (GET_PNG_TEXEL over).a)) / (255 * 255),
                ((GET_PNG_TEXEL over).a * 255 + ua * (255 - (GET_PNG_TEXEL over).a)) / 255⟩ ∧
            ((GET_PNG_TEXEL over).r * (GET_PNG_TEXEL over).a * 255 +
                (GET_PNG_TEXEL under).r * ua * (255 - (GET_PNG_TEXEL over).a)) / (255 * 255) ≤ 255 ∧
            ((GET_PNG_TEXEL over).g * (GET_PNG_TEXEL over).a * 255 +
                (GET_PNG_TEXEL under).g * ua * (255 - (GET_PNG_TEXEL over).a)) / (255 * 255) ≤ 255 ∧
            ((GET_PNG_TEXEL over).b * (GET_PNG_TEXEL over).a * 255 +
                (GET_PNG_TEXEL under).b * ua * (255 - (GET_PNG_TEXEL over).a)) / (255 * 255) ≤ 255 ∧
            ((GET_PNG_TEXEL over).a * 255 + ua * (255 - (GET_PNG_TEXEL over).a)) / 255 ≤ 255 ∧
            (ua = 255 → (GET_PNG_TEXEL written).a = 255))) ∧
    (∀ k, (∀ row col, 0 ≤ row → row < swatchSize → 0 ≤ col → col < swatchSize →
        k ≠ swatchTexel dst.width dstSwatch swatchSize swatchesPerRow row col) →
      (compositePNGSwatches dst dstSwatch overSwatch underSwatch swatchSize swatchesPerRow
          forceSolid).image_data k = dst.image_data k) ∧
    (compositePNGSwatches dst dstSwatch overSwatch underSwatch swatchSize swatchesPerRow
      forceSolid).width = dst.width := by
  obtain ⟨k1, k2, k3⟩ := compositePNGSwatches_texels dst dstSwatch overSwatch underSwatch
    swatchSize swatchesPerRow forceSolid hS hP hW hd ho hu
  refine ⟨?_, k2, k3⟩
  intro row col h1 h2 h3 h4 over under written eo eu ew
  rw [k1 row col h1 h2 h3 h4, ← eo, ← eu] at ew
  subst ew
  exact (compositeTexel_cases forceSolid over under).2

/-- An atlas of 4 by 4 texels, two swatches of 2 by 2 texels to the row: every texel
is 0 but the first texel of swatch 1, which is opaque. -/
theorem compositePNGSwatches_blend_witness :
    (0 : Int) < 2 ∧ (2 : Int) * 2 ≤ 4 ∧ (0 : Int) ≤ 3 ∧ (0 : Int) ≤ 1 ∧
    swatchTexel 4 3 2 2 0 0 = 10 ∧ swatchTexel 4 1 2 2 0 0 = 2 ∧
    (compositePNGSwatches ⟨4, fun k => if k = 2 then 0xFF102030 else 0⟩ 3 0 1 2 2 0).image_data
      10 = 0xFF102030 ∧
    (compositePNGSwatches ⟨4, fun k => if k = 2 then 0xFF102030 else 0⟩ 3 0 1 2 2 0).image_data
      11 = 0 :=
  ⟨by decide, by decide, by decide, by decide, by decide, by decide,
    ((compositePNGSwatches_blend ⟨4, fun k => if k = 2 then 0xFF102030 else 0⟩ 3 0 1 2 2 0
      (by decide) (by decide) (by decide) (by decide) (by decide) (by decide)).1
        0 0 (by decide) (by decide) (by decide) (by decide) 0 0xFF102030 _
        (by decide) (by decide) rfl).1 (by decide),
    ((compositePNGSwatches_blend ⟨4, fun k => if k = 2 then 0xFF102030 else 0⟩ 3 0 1 2 2 0
      (by decide) (by decide) (by decide) (by decide) (by decide) (by decide)).1
        0 1 (by decide) (by decide) (by decide) (by decide) 0 0 _
        (by decide) (by decide) rfl).1 (by decide)⟩

/-- C7, as amended: `checkAndRemoveBubbles` takes the groups `2 .. gGroupCount` in
the order of their ids. Let `t` be the state after `findGroups` on a well-formed
state (side tunnels not sealed, no entrance block on the fringe when entrances
are sealed), `i` an air group among them, `v` the state of the loop when it
comes to `i`, `u` the state after the step for `i` and `w` the state in which
the function returns. If in `v` some solid group is face-adjacent to the bubble,
then the step merges the bubble into the adjacent solid group `m` that has the
largest population in `v`, the lowest id on ties: in `u` every cell that in `v`
was in the bubble or in a solid group face-adjacent to it carries the id `m`, and
those groups other than `m` have population 0. In `w` they still have population
0 and all those cells still share one group `k`, which is `m` unless a later
step has moved the cells of `m` on, leaving `m` with population 0. The cells of
the bubble in `v` are the cells that `findGroups` gave it, and in `t` and in `v`
every cell of a group `2, 3, ...` lies inside the bounds of its group. -/
theorem checkAndRemoveBubbles_merges (bi : BlockInfo) (s : ExportState) (h : WellFormed s)
    (hseal : s.gOptions.EXPT_SEAL_SIDE_TUNNELS = false)
    (hentr : s.gOptions.EXPT_SEAL_ENTRANCES = true →
      ∀ p, inFringe s p → bi.BLF_ENTRANCE (s.gBoxData p).origType = false)
    (t v u w : ExportState) (pre post : List Nat) (i : Nat)
    (ht : t = findGroups bi s)
    (hl : groupRange (SURROUND_AIR_GROUP + 1) t.gGroupCount = pre ++ i :: post)
    (hair : (t.gGroupList i).solid = false)
    (hv : v = bubblesDone bi t pre)
    (hu : u = removeBubble bi (bubbleFill bi t) v i)
    (hw : w = checkAndRemoveBubbles bi t)
    (hadj : ∃ g, solidNeighbor v i g) :
    w = post.foldl (removeBubble bi (bubbleFill bi t)) u ∧
    Bounded t ∧ Bounded v ∧
    (∀ p, (v.gBoxData p).group = i ↔ (t.gBoxData p).group = i) ∧
    ∃ m, solidNeighbor v i m ∧
      (∀ g, solidNeighbor v i g →
        (v.gGroupList g).population ≤ (v.gGroupList m).population ∧
        ((v.gGroupList g).population = (v.gGroupList m).population → m ≤ g)) ∧
      (∀ p, (arrayBox v).contains p = true →
        ((v.gBoxData p).group = i ∨ solidNeighbor v i (v.gBoxData p).group) →
        (u.gBoxData p).group = m) ∧
      (∀ g, g = i ∨ solidNeighbor v i g → g ≠ m → (u.gGroupList g).population = 0) ∧
      (∀ g, g = i ∨ solidNeighbor v i g → g ≠ m → (w.gGroupList g).population = 0) ∧
      ∃ k, (k = m ∨ (w.gGroupList m).population = 0) ∧
        ∀ p, (arrayBox v).contains p = true →
          ((v.gBoxData p).group = i ∨ solidNeighbor v i (v.gBoxData p).group) →
          (w.gBoxData p).group = k := by
  have hM0 : Merging t := by
    rw [ht]
    exact findGroups_merging bi h hseal hentr
  have hmem : ∀ x ∈ pre ++ i :: post, 2 ≤ x ∧ x ≤ t.gGroupCount := by
    intro x hx
    rw [← hl] at hx
    have := mem_groupRange.1 hx
    unfold SURROUND_AIR_GROUP at this
    exact this
  have hnd : (pre ++ i :: post).Nodup := by
    rw [← hl]
    unfold groupRange
    exact List.nodup_range' _ _
  obtain ⟨_, hnd2, hdis⟩ := List.nodup_append.1 hnd
  have hipre : i ∉ pre := fun hc => hdis hc (List.mem_cons_self _ _)
  have hipost : i ∉ post := (List.nodup_cons.1 hnd2).1
  have hi := hmem i (List.mem_append_right _ (List.mem_cons_self _ _))
  -- the steps before the bubble
  obtain ⟨hMv, hRv, _, _, hwait⟩ := bubbles_fold bi (bubbleFill bi t) pre t hM0
    (fun x hx => hmem x (List.mem_append_left _ hx))
  have hv2 : pre.foldl (removeBubble bi (bubbleFill bi t)) t = v := hv.symm
  rw [hv2] at hMv hRv hwait
  have hcv : v.gGroupCount = t.gGroupCount := hRv.count
  have hiv : i ≤ v.gGroupCount := by rw [hcv]; exact hi.2
  have hairv : (v.gGroupList i).solid = false := by rw [hRv.flags]; exact hair
  -- the step for the bubble
  obtain ⟨m, hm, hmax, hmove, hzero⟩ := removeBubble_step bi (bubbleFill bi t) v i hMv.booked
    hMv.bounded hMv.hulled hMv.first_air hi.1 hiv hairv (hMv.airHull i hi.1 hiv hairv) hadj
  have hMu := removeBubble_merging bi (bubbleFill bi t) hMv hi.1 hiv
  have hRu := (removeBubble_counts bi (bubbleFill bi t) v i).1
  rw [← hu] at hmove hzero hMu hRu
  have hm2 : 2 ≤ m := by
    have h1 := hm.1
    have h3 := hm.2.2.1
    by_contra hlt
    have e : m = SURROUND_AIR_GROUP := by unfold SURROUND_AIR_GROUP; omega
    rw [e, hMv.first_air] at h3
    exact absurd h3 (by simp)
  -- the steps after the bubble
  obtain ⟨_, _, ⟨r, _, r2, r3⟩, hstay, _⟩ := bubbles_fold bi (bubbleFill bi t) post u hMu
    (fun x hx => by
      rw [hRu.count, hcv]
      exact hmem x (List.mem_append_right _ (List.mem_cons_of_mem _ hx)))
  have hwe : w = post.foldl (removeBubble bi (bubbleFill bi t)) u := by
    rw [hw, hu, hv]
    unfold checkAndRemoveBubbles bubblesDone bubbleFill
    simp only []
    rw [hl, List.foldl_append, List.foldl_cons]
  rw [← hwe] at r2 r3 hstay
  have hab : arrayBox u = arrayBox v := by
    unfold arrayBox
    rw [hRu.boxSize]
  have hg1 : ∀ g, g = i ∨ solidNeighbor v i g → 1 ≤ g ∧ g ≤ u.gGroupCount ∧
      (g ∉ post ∨ (u.gGroupList g).solid = true) := by
    rintro g (hg | hg)
    · rw [hg, hRu.count]
      exact ⟨by omega, hiv, Or.inl hipost⟩
    · rw [hRu.count, hRu.flags]
      exact ⟨hg.1, hg.2.1, Or.inr hg.2.2.1⟩
  refine ⟨hwe, hM0.bounded, hMv.bounded, hwait i (by omega) hi.2 hair hipre, m, hm, hmax, hmove,
    hzero, ?_, r m, ?_, ?_⟩
  · intro g hg hgm
    obtain ⟨a, b, c⟩ := hg1 g hg
    exact hstay g a b (hzero g hg hgm) c
  · by_cases e : r m = m
    · exact Or.inl e
    · obtain ⟨_, b, c⟩ := hg1 m (Or.inr hm)
      exact Or.inr (r3 m hm2 b c e)
  · intro p hp hg
    have e := hmove p hp hg
    rw [r2 p (by rw [hab]; exact hp) (by rw [e]; exact hm2), e]

theorem checkAndRemoveBubbles_merges_witness :
    WellFormed (twoBubbles fillBubbles) ∧
    (twoBubbles fillBubbles).gOptions.EXPT_SEAL_SIDE_TUNNELS = false ∧
    (twoBubbles fillBubbles).gOptions.EXPT_SEAL_ENTRANCES = false ∧
    groupRange (SURROUND_AIR_GROUP + 1) bubbleGroups.gGroupCount =
      [2, 3, 4] ++ 5 :: [6, 7, 8, 9, 10] ∧
    (bubbleGroups.gGroupList 5).solid = false ∧
    solidNeighbor (bubblesDone sampleBlocks bubbleGroups [2, 3, 4]) 5 2 ∧
    checkAndRemoveBubbles sampleBlocks bubbleGroups =
      [6, 7, 8, 9, 10].foldl (removeBubble sampleBlocks (bubbleFill sampleBlocks bubbleGroups))
        (removeBubble sampleBlocks (bubbleFill sampleBlocks bubbleGroups)
          (bubblesDone sampleBlocks bubbleGroups [2, 3, 4]) 5) ∧
    Bounded bubbleGroups ∧ Bounded (bubblesDone sampleBlocks bubbleGroups [2, 3, 4]) ∧
    (∀ p, ((bubblesDone sampleBlocks bubbleGroups [2, 3, 4]).gBoxData p).group = 5 ↔
      (bubbleGroups.gBoxData p).group = 5) ∧
    ∃ m, solidNeighbor (bubblesDone sampleBlocks bubbleGroups [2, 3, 4]) 5 m ∧
      (∀ g, solidNeighbor (bubblesDone sampleBlocks bubbleGroups [2, 3, 4]) 5 g →
        ((bubblesDone sampleBlocks bubbleGroups [2, 3, 4]).gGroupList g).population ≤
          ((bubblesDone sampleBlocks bubbleGroups [2, 3, 4]).gGroupList m).population ∧
        (((bubblesDone sampleBlocks bubbleGroups [2, 3, 4]).gGroupList g).population =
          ((bubblesDone sampleBlocks bubbleGroups [2, 3, 4]).gGroupList m).population → m ≤ g)) ∧
      (∀ p, (arrayBox (bubblesDone sampleBlocks bubbleGroups [2, 3, 4])).contains p = true →
        (((bubblesDone sampleBlocks bubbleGroups [2, 3, 4]).gBoxData p).group = 5 ∨
          solidNeighbor (bubblesDone sampleBlocks bubbleGroups [2, 3, 4]) 5
            ((bubblesDone sampleBlocks bubbleGroups [2, 3, 4]).gBoxData p).group) →
        ((removeBubble sampleBlocks (bubbleFill sampleBlocks bubbleGroups)
          (bubblesDone sampleBlocks bubbleGroups [2, 3, 4]) 5).gBoxData p).group = m) ∧
      (∀ g, g = 5 ∨ solidNeighbor (bubblesDone sampleBlocks bubbleGroups [2, 3, 4]) 5 g → g ≠ m →
        ((removeBubble sampleBlocks (bubbleFill sampleBlocks bubbleGroups)
          (bubblesDone sampleBlocks bubbleGroups [2, 3, 4]) 5).gGroupList g).population = 0) ∧
      (∀ g, g = 5 ∨ solidNeighbor (bubblesDone sampleBlocks bubbleGroups [2, 3, 4]) 5 g → g ≠ m →
        ((checkAndRemoveBubbles sampleBlocks bubbleGroups).gGroupList g).population = 0) ∧
      ∃ k, (k = m ∨
          ((checkAndRemoveBubbles sampleBlocks bubbleGroups).gGroupList m).population = 0) ∧
        ∀ p, (arrayBox (bubblesDone sampleBlocks bubbleGroups [2, 3, 4])).contains p = true →
          (((bubblesDone sampleBlocks bubbleGroups [2, 3, 4]).gBoxData p).group = 5 ∨
            solidNeighbor (bubblesDone sampleBlocks bubbleGroups [2, 3, 4]) 5
              ((bubblesDone sampleBlocks bubbleGroups [2, 3, 4]).gBoxData p).group) →
          ((checkAndRemoveBubbles sampleBlocks bubbleGroups).gBoxData p).group = k :=
  have hf := bubbleGroups_facts
  have hadj : solidNeighbor (bubblesDone sampleBlocks bubbleGroups [2, 3, 4]) 5 2 :=
    ⟨by decide, hf.2.2.2.2.1.2.1, hf.2.2.2.2.1.1, ⟨2, 2, 2⟩, ⟨1, 2, 2⟩, hf.2.2.2.2.1.2.2.1,
      hf.2.2.2.2.1.2.2.2.1, by decide, hf.2.2.2.2.1.2.2.2.2⟩
  have hent : (twoBubbles fillBubbles).gOptions.EXPT_SEAL_ENTRANCES = false := rfl
  ⟨hf.1, rfl, hent, hf.2.1, hf.2.2.1, hadj,
    checkAndRemoveBubbles_merges sampleBlocks (twoBubbles fillBubbles) hf.1 rfl
      (fun hc => absurd (hent.symm.trans hc) (by decide)) bubbleGroups _ _ _ [2, 3, 4]
      [6, 7, 8, 9, 10] 5 rfl hf.2.1 hf.2.2.1 rfl rfl rfl ⟨2, hadj⟩⟩

/-- C7 fails as stated for the whole function: two enclosed air cells that share
one of their six blocks, the second with a slab at its side (`twoBubbles`). After
`findGroups` every cell lies inside the bounds of its group; the air cell
`(2,2,2)` is the bubble 5, the solid group 2 is face-adjacent to it, and the six
blocks around it are six solid groups of one block each. When
`checkAndRemoveBubbles` returns, the cell `(2,2,2)` carries the id 9 of the slab,
which is not face-adjacent to the bubble: the step for the later bubble 10 has
merged the master group of bubble 5 into the slab. So no solid group
face-adjacent to the bubble has all the cells of the bubble and of its adjacent
solid groups when the function returns. -/
theorem checkAndRemoveBubbles_merges_counterexample :
    WellFormed (twoBubbles fillBubbles) ∧ Bounded bubbleGroups ∧
    (bubbleGroups.gBoxData ⟨2, 2, 2⟩).group = 5 ∧
    5 ∈ groupRange (SURROUND_AIR_GROUP + 1) bubbleGroups.gGroupCount ∧
    (bubbleGroups.gGroupList 5).solid = false ∧
    solidNeighbor bubbleGroups 5 2 ∧
    (∀ g, solidNeighbor bubbleGroups 5 g → (bubbleGroups.gGroupList g).population = 1) ∧
    ((checkAndRemoveBubbles sampleBlocks bubbleGroups).gBoxData ⟨2, 2, 2⟩).group = 9 ∧
    ¬ solidNeighbor bubbleGroups 5 9 ∧
    ¬ ∃ m, solidNeighbor bubbleGroups 5 m ∧
      ∀ p, (arrayBox bubbleGroups).contains p = true →
        ((bubbleGroups.gBoxData p).group = 5 ∨
          solidNeighbor bubbleGroups 5 (bubbleGroups.gBoxData p).group) →
        ((checkAndRemoveBubbles sampleBlocks bubbleGroups).gBoxData p).group = m := by
  obtain ⟨hwf, _, hair, ⟨hsol, hcnt, harr, h5, h2⟩, _, hall, hnbr, hend⟩ := bubbleGroups_facts
  have hmem : 5 ∈ groupRange (SURROUND_AIR_GROUP + 1) bubbleGroups.gGroupCount := by
    rw [bubbleGroups_facts.2.1]
    decide
  -- a neighbour of the bubble is one of the six cells around `(2,2,2)`
  have hnear : ∀ g, touches bubbleGroups 5 g →
      g ≠ 9 ∧ (bubbleGroups.gGroupList g).population = 1 := by
    rintro g ⟨p, q, hp, hpg, hpq, hqg⟩
    have e := hall p (mem_boxCells.2 hp) hpg
    rw [e] at hpq
    obtain ⟨d, hd, hq⟩ := faceAdjacent_unsafe hpq
    have := hnbr d (List.mem_range.2 hd)
    rw [hq, hqg] at this
    exact this
  have hnot : ¬ solidNeighbor bubbleGroups 5 9 := fun hc => (hnear 9 hc.2.2.2).1 rfl
  refine ⟨hwf, findGroups_bounded sampleBlocks hwf, h5, hmem, hair,
    ⟨by decide, hcnt, hsol, ⟨2, 2, 2⟩, ⟨1, 2, 2⟩, harr, h5, by decide, h2⟩,
    fun g hg => (hnear g hg.2.2.2).2, hend, hnot, ?_⟩
  rintro ⟨m, hm, hcells⟩
  have := hcells ⟨2, 2, 2⟩ harr (Or.inl h5)
  rw [hend] at this
  rw [← this] at hm
  exact hnot hm

end Mineways
